import Mathlib

/-!
# Oniguruma execution engine (regexec.c): a shallow embedding

Pointers are modelled as integer addresses (`Int`), the null pointer is `0`.
The subject string occupies the addresses `str .. str + length`; code pointers
are offsets relative to `reg->p`.  Behaviour that C leaves undefined (reads
outside the subject or the program, reads of stack slots that were never
written, stack underflow, union fields read through the wrong member) is the
exit `Exit.undef`.
-/

set_option linter.unusedTactic false
set_option linter.unreachableTactic false
set_option linter.unusedVariables false

namespace Onig

/-! ## Constants of oniguruma.h and regint.h -/

/-- Modelled from the spec: `ONIG_MISMATCH` of oniguruma.h (not in the sources). -/
def ONIG_MISMATCH : Int := -1
/-- Modelled from the spec: error code `ONIGERR_MEMORY` of oniguruma.h. -/
def ONIGERR_MEMORY : Int := -5
/-- Modelled from the spec: error code `ONIGERR_STACK_BUG` of oniguruma.h. -/
def ONIGERR_STACK_BUG : Int := -12
/-- Modelled from the spec: error code `ONIGERR_UNDEFINED_BYTECODE` of oniguruma.h. -/
def ONIGERR_UNDEFINED_BYTECODE : Int := -13
/-- Modelled from the spec: error code `ONIGERR_UNEXPECTED_BYTECODE` of oniguruma.h. -/
def ONIGERR_UNEXPECTED_BYTECODE : Int := -14
/-- Modelled from the spec: error code `ONIGERR_MATCH_STACK_LIMIT_OVER` of oniguruma.h. -/
def ONIGERR_MATCH_STACK_LIMIT_OVER : Int := -15
/-- Modelled from the spec: error code `ONIGERR_INVALID_ARGUMENT` of oniguruma.h. -/
def ONIGERR_INVALID_ARGUMENT : Int := -30
/-- Modelled from the spec: error code `ONIGERR_INVALID_WIDE_CHAR_VALUE` of oniguruma.h. -/
def ONIGERR_INVALID_WIDE_CHAR_VALUE : Int := -400
/-- Modelled from the spec: the sentinel `NOTPOS = -1` of unset region endpoints. -/
def ONIG_REGION_NOTPOS : Int := -1
/-- Modelled from the spec: `ONIG_NREGION` of oniguruma.h, the least region allocation. -/
def ONIG_NREGION : Nat := 10
/-- The `#define INVALID_STACK_INDEX -1` of regexec.c. -/
def INVALID_STACK_INDEX : Int := -1

/-- Modelled from the spec: option bit `ONIG_OPTION_FIND_LONGEST` of oniguruma.h. -/
def ONIG_OPTION_FIND_LONGEST : Nat := 16
/-- Modelled from the spec: option bit `ONIG_OPTION_FIND_NOT_EMPTY` of oniguruma.h. -/
def ONIG_OPTION_FIND_NOT_EMPTY : Nat := 32
/-- Modelled from the spec: option bit `ONIG_OPTION_NOTBOL` of oniguruma.h. -/
def ONIG_OPTION_NOTBOL : Nat := 512
/-- Modelled from the spec: option bit `ONIG_OPTION_NOTEOL` of oniguruma.h. -/
def ONIG_OPTION_NOTEOL : Nat := 1024
/-- Modelled from the spec: option bit `ONIG_OPTION_POSIX_REGION` of oniguruma.h. -/
def ONIG_OPTION_POSIX_REGION : Nat := 2048
/-- Modelled from the spec: option bit `ONIG_OPTION_CHECK_VALIDITY_OF_STRING`. -/
def ONIG_OPTION_CHECK_VALIDITY_OF_STRING : Nat := 4096

/-- Modelled from the spec: the macro `ONIG_IS_OPTION_ON(options, option)`. -/
def ONIG_IS_OPTION_ON (options option : Nat) : Bool := options &&& option != 0
/-- Modelled from the spec: the macro `IS_FIND_LONGEST` of regint.h. -/
def IS_FIND_LONGEST (option : Nat) : Bool := option &&& ONIG_OPTION_FIND_LONGEST != 0
/-- Modelled from the spec: the macro `IS_FIND_NOT_EMPTY` of regint.h. -/
def IS_FIND_NOT_EMPTY (option : Nat) : Bool := option &&& ONIG_OPTION_FIND_NOT_EMPTY != 0
/-- Modelled from the spec: the macro `IS_FIND_CONDITION` of regint.h. -/
def IS_FIND_CONDITION (option : Nat) : Bool :=
  option &&& (ONIG_OPTION_FIND_LONGEST ||| ONIG_OPTION_FIND_NOT_EMPTY) != 0
/-- Modelled from the spec: the macro `IS_NOTBOL` of regint.h. -/
def IS_NOTBOL (option : Nat) : Bool := option &&& ONIG_OPTION_NOTBOL != 0
/-- Modelled from the spec: the macro `IS_NOTEOL` of regint.h. -/
def IS_NOTEOL (option : Nat) : Bool := option &&& ONIG_OPTION_NOTEOL != 0
/-- Modelled from the spec: the macro `IS_POSIX_REGION` of regint.h. -/
def IS_POSIX_REGION (option : Nat) : Bool := option &&& ONIG_OPTION_POSIX_REGION != 0

/-- Modelled from the spec: optimize kind `ONIG_OPTIMIZE_NONE` of regint.h. -/
def ONIG_OPTIMIZE_NONE : Nat := 0
/-- Modelled from the spec: optimize kind `ONIG_OPTIMIZE_EXACT` (slow literal scan). -/
def ONIG_OPTIMIZE_EXACT : Nat := 1
/-- Modelled from the spec: optimize kind `ONIG_OPTIMIZE_EXACT_BM` (Boyer-Moore). -/
def ONIG_OPTIMIZE_EXACT_BM : Nat := 2
/-- Modelled from the spec: optimize kind `ONIG_OPTIMIZE_EXACT_BM_NOT_REV`. -/
def ONIG_OPTIMIZE_EXACT_BM_NOT_REV : Nat := 3
/-- Modelled from the spec: optimize kind `ONIG_OPTIMIZE_EXACT_IC` (case folded scan). -/
def ONIG_OPTIMIZE_EXACT_IC : Nat := 4
/-- Modelled from the spec: optimize kind `ONIG_OPTIMIZE_MAP` (first byte map). -/
def ONIG_OPTIMIZE_MAP : Nat := 5

/-- Modelled from the spec: anchor flag `ANCHOR_BEGIN_BUF` of regint.h. -/
def ANCHOR_BEGIN_BUF : Nat := 1
/-- Modelled from the spec: anchor flag `ANCHOR_BEGIN_LINE` of regint.h. -/
def ANCHOR_BEGIN_LINE : Nat := 2
/-- Modelled from the spec: anchor flag `ANCHOR_BEGIN_POSITION` of regint.h. -/
def ANCHOR_BEGIN_POSITION : Nat := 4
/-- Modelled from the spec: anchor flag `ANCHOR_END_BUF` of regint.h. -/
def ANCHOR_END_BUF : Nat := 8
/-- Modelled from the spec: anchor flag `ANCHOR_SEMI_END_BUF` of regint.h. -/
def ANCHOR_SEMI_END_BUF : Nat := 16
/-- Modelled from the spec: anchor flag `ANCHOR_END_LINE` of regint.h. -/
def ANCHOR_END_LINE : Nat := 32
/-- Modelled from the spec: anchor flag `ANCHOR_PREC_READ_NOT` of regint.h. -/
def ANCHOR_PREC_READ_NOT : Nat := 2048
/-- Modelled from the spec: anchor flag `ANCHOR_LOOK_BEHIND` of regint.h. -/
def ANCHOR_LOOK_BEHIND : Nat := 4096
/-- Modelled from the spec: anchor flag `ANCHOR_ANYCHAR_STAR` of regint.h. -/
def ANCHOR_ANYCHAR_STAR : Nat := 16384
/-- Modelled from the spec: anchor flag `ANCHOR_ANYCHAR_STAR_ML` of regint.h. -/
def ANCHOR_ANYCHAR_STAR_ML : Nat := 32768

/-- Modelled from the spec: `INFINITE_LEN` of regint.h, the unbounded distance. -/
def INFINITE_LEN : Int := 4294967295

/-- Modelled from the spec: pop level `STACK_POP_LEVEL_FREE` of regint.h. -/
def STACK_POP_LEVEL_FREE : Nat := 0
/-- Modelled from the spec: pop level `STACK_POP_LEVEL_MEM_START` of regint.h. -/
def STACK_POP_LEVEL_MEM_START : Nat := 1
/-- Modelled from the spec: pop level `STACK_POP_LEVEL_ALL` (the default arm). -/
def STACK_POP_LEVEL_ALL : Nat := 2

/-- Modelled from the spec: `INIT_MATCH_STACK_SIZE` of regint.h. -/
def INIT_MATCH_STACK_SIZE : Nat := 160
/-- The `#define ALLOCA_PTR_NUM_LIMIT 50` of regexec.c. -/
def ALLOCA_PTR_NUM_LIMIT : Int := 50

/-- Modelled from the spec: `enum SaveType` value `SAVE_KEEP`. -/
def SAVE_KEEP : Int := 0
/-- Modelled from the spec: `enum SaveType` value `SAVE_S`. -/
def SAVE_S : Int := 1
/-- Modelled from the spec: `enum SaveType` value `SAVE_RIGHT_RANGE`. -/
def SAVE_RIGHT_RANGE : Int := 2
/-- Modelled from the spec: `enum UpdateVarType` value for the keep position. -/
def UPDATE_VAR_KEEP_FROM_STACK_LAST : Int := 0
/-- Modelled from the spec: `enum UpdateVarType` value for the restart position. -/
def UPDATE_VAR_S_FROM_STACK_LAST : Int := 1
/-- Modelled from the spec: `enum UpdateVarType` value for the saved right range. -/
def UPDATE_VAR_RIGHT_RANGE_FROM_STACK_LAST : Int := 2
/-- Modelled from the spec: `enum UpdateVarType` value `UPDATE_VAR_RIGHT_RANGE_SPREV`. -/
def UPDATE_VAR_RIGHT_RANGE_SPREV : Int := 3

/-- Modelled from the spec: the configuration macro
`USE_NEWLINE_AT_END_OF_STRING_HAS_EMPTY_LINE` of regint.h is defined. -/
def USE_NEWLINE_AT_END_OF_STRING_HAS_EMPTY_LINE : Bool := true

/-! ### Stack frame tags (regexec.c lines 308-333) -/

def STK_ALT : Nat := 0x0001
def STK_ALT_PREC_READ_NOT : Nat := 0x0002 ||| STK_ALT
def STK_ALT_LOOK_BEHIND_NOT : Nat := 0x0004 ||| STK_ALT
def STK_MEM_START : Nat := 0x0100
def STK_MEM_END : Nat := 0x8200
def STK_REPEAT_INC : Nat := 0x0300
def STK_STATE_CHECK_MARK : Nat := 0x1000
def STK_VOID : Nat := 0x0000
def STK_EMPTY_CHECK_START : Nat := 0x3000
def STK_EMPTY_CHECK_END : Nat := 0x5000
def STK_MEM_END_MARK : Nat := 0x8400
def STK_POS : Nat := 0x0500
def STK_STOP_BT : Nat := 0x0600
def STK_REPEAT : Nat := 0x0700
def STK_CALL_FRAME : Nat := 0x0800
def STK_RETURN : Nat := 0x0900
def STK_SAVE_VAL : Nat := 0x0a00
def STK_MASK_POP_USED : Nat := STK_ALT
def STK_MASK_TO_VOID_TARGET : Nat := 0x10ff
def STK_MASK_MEM_END_OR_MARK : Nat := 0x8000

/-! ### Operand widths -/

/-- Modelled from the spec: width in bytes of a `RelAddrType` operand. -/
def SIZE_RELADDR : Int := 4
/-- Modelled from the spec: width in bytes of an `AbsAddrType` operand. -/
def SIZE_ABSADDR : Int := 4
/-- Modelled from the spec: width in bytes of a `LengthType` operand. -/
def SIZE_LENGTH : Int := 4
/-- Modelled from the spec: width in bytes of a `MemNumType` operand. -/
def SIZE_MEMNUM : Int := 2
/-- Modelled from the spec: width in bytes of an `OnigOptionType` operand. -/
def SIZE_OPTION : Int := 4
/-- Modelled from the spec: width in bytes of a `SaveType` operand (an enum byte). -/
def SIZE_SAVE_TYPE : Int := 1
/-- Modelled from the spec: width in bytes of an `UpdateVarType` operand (an enum byte). -/
def SIZE_UPDATE_VAR_TYPE : Int := 1
/-- Modelled from the spec: width in bytes of a `PointerType` operand. -/
def SIZE_POINTER : Int := 8
/-- Modelled from the spec: width in bytes of a 256-bit `BitSet`. -/
def SIZE_BITSET : Int := 32

/-! ## Opcodes -/

/-- Modelled from the spec: `enum OpCode` of regint.h; the byte value of an
opcode is its position in this list. -/
inductive OpCode
  | FINISH | END
  | EXACT1 | EXACT2 | EXACT3 | EXACT4 | EXACT5 | EXACTN
  | EXACTMB2N1 | EXACTMB2N2 | EXACTMB2N3 | EXACTMB2N | EXACTMB3N | EXACTMBN
  | EXACT1_IC | EXACTN_IC
  | CCLASS | CCLASS_MB | CCLASS_MIX | CCLASS_NOT | CCLASS_MB_NOT | CCLASS_MIX_NOT
  | CCLASS_NODE
  | ANYCHAR | ANYCHAR_ML | ANYCHAR_STAR | ANYCHAR_ML_STAR
  | ANYCHAR_STAR_PEEK_NEXT | ANYCHAR_ML_STAR_PEEK_NEXT
  | WORD | NOT_WORD | WORD_BOUND | NOT_WORD_BOUND | WORD_BEGIN | WORD_END
  | BEGIN_BUF | END_BUF | BEGIN_LINE | END_LINE | SEMI_END_BUF | BEGIN_POSITION
  | BACKREF1 | BACKREF2 | BACKREF_N | BACKREF_N_IC | BACKREF_MULTI | BACKREF_MULTI_IC
  | BACKREF_WITH_LEVEL | BACKREF_CHECK | BACKREF_CHECK_WITH_LEVEL
  | MEMORY_START | MEMORY_START_PUSH | MEMORY_END_PUSH | MEMORY_END_PUSH_REC
  | MEMORY_END | MEMORY_END_REC
  | FAIL | JUMP | PUSH | POP | PUSH_OR_JUMP_EXACT1 | PUSH_IF_PEEK_NEXT
  | REPEAT | REPEAT_NG | REPEAT_INC | REPEAT_INC_NG | REPEAT_INC_SG | REPEAT_INC_NG_SG
  | EMPTY_CHECK_START | EMPTY_CHECK_END | EMPTY_CHECK_END_MEMST
  | EMPTY_CHECK_END_MEMST_PUSH
  | PUSH_POS | POP_POS | PUSH_PREC_READ_NOT | FAIL_PREC_READ_NOT
  | PUSH_STOP_BT | POP_STOP_BT | LOOK_BEHIND | PUSH_LOOK_BEHIND_NOT
  | FAIL_LOOK_BEHIND_NOT
  | CALL | RETURN | PUSH_SAVE_VAL | UPDATE_VAR
  | STATE_CHECK_PUSH | STATE_CHECK_PUSH_OR_JUMP | STATE_CHECK
  | STATE_CHECK_ANYCHAR_STAR | STATE_CHECK_ANYCHAR_ML_STAR
  | SET_OPTION_PUSH | SET_OPTION

/-- The opcodes in the order of their byte values. -/
def opcode_list : List OpCode :=
  [OpCode.FINISH, OpCode.END, OpCode.EXACT1, OpCode.EXACT2, OpCode.EXACT3, OpCode.EXACT4, OpCode.EXACT5, OpCode.EXACTN,
   OpCode.EXACTMB2N1, OpCode.EXACTMB2N2, OpCode.EXACTMB2N3, OpCode.EXACTMB2N, OpCode.EXACTMB3N, OpCode.EXACTMBN,
   OpCode.EXACT1_IC, OpCode.EXACTN_IC,
   OpCode.CCLASS, OpCode.CCLASS_MB, OpCode.CCLASS_MIX, OpCode.CCLASS_NOT, OpCode.CCLASS_MB_NOT, OpCode.CCLASS_MIX_NOT,
   OpCode.CCLASS_NODE,
   OpCode.ANYCHAR, OpCode.ANYCHAR_ML, OpCode.ANYCHAR_STAR, OpCode.ANYCHAR_ML_STAR,
   OpCode.ANYCHAR_STAR_PEEK_NEXT, OpCode.ANYCHAR_ML_STAR_PEEK_NEXT,
   OpCode.WORD, OpCode.NOT_WORD, OpCode.WORD_BOUND, OpCode.NOT_WORD_BOUND, OpCode.WORD_BEGIN, OpCode.WORD_END,
   OpCode.BEGIN_BUF, OpCode.END_BUF, OpCode.BEGIN_LINE, OpCode.END_LINE, OpCode.SEMI_END_BUF, OpCode.BEGIN_POSITION,
   OpCode.BACKREF1, OpCode.BACKREF2, OpCode.BACKREF_N, OpCode.BACKREF_N_IC, OpCode.BACKREF_MULTI, OpCode.BACKREF_MULTI_IC,
   OpCode.BACKREF_WITH_LEVEL, OpCode.BACKREF_CHECK, OpCode.BACKREF_CHECK_WITH_LEVEL,
   OpCode.MEMORY_START, OpCode.MEMORY_START_PUSH, OpCode.MEMORY_END_PUSH, OpCode.MEMORY_END_PUSH_REC,
   OpCode.MEMORY_END, OpCode.MEMORY_END_REC,
   OpCode.FAIL, OpCode.JUMP, OpCode.PUSH, OpCode.POP, OpCode.PUSH_OR_JUMP_EXACT1, OpCode.PUSH_IF_PEEK_NEXT,
   OpCode.REPEAT, OpCode.REPEAT_NG, OpCode.REPEAT_INC, OpCode.REPEAT_INC_NG, OpCode.REPEAT_INC_SG, OpCode.REPEAT_INC_NG_SG,
   OpCode.EMPTY_CHECK_START, OpCode.EMPTY_CHECK_END, OpCode.EMPTY_CHECK_END_MEMST,
   OpCode.EMPTY_CHECK_END_MEMST_PUSH,
   OpCode.PUSH_POS, OpCode.POP_POS, OpCode.PUSH_PREC_READ_NOT, OpCode.FAIL_PREC_READ_NOT,
   OpCode.PUSH_STOP_BT, OpCode.POP_STOP_BT, OpCode.LOOK_BEHIND, OpCode.PUSH_LOOK_BEHIND_NOT,
   OpCode.FAIL_LOOK_BEHIND_NOT,
   OpCode.CALL, OpCode.RETURN, OpCode.PUSH_SAVE_VAL, OpCode.UPDATE_VAR,
   OpCode.STATE_CHECK_PUSH, OpCode.STATE_CHECK_PUSH_OR_JUMP, OpCode.STATE_CHECK,
   OpCode.STATE_CHECK_ANYCHAR_STAR, OpCode.STATE_CHECK_ANYCHAR_ML_STAR,
   OpCode.SET_OPTION_PUSH, OpCode.SET_OPTION]

/-- The byte value of an opcode: its position in `enum OpCode`. -/
def OpCode.toByte (o : OpCode) : Nat := o.toCtorIdx

/-- The opcode a program byte denotes, if any. -/
def OpCode.ofByte (b : Nat) : Option OpCode := opcode_list.get? b


/-! ## Subject string, encoding capability, compiled program, region -/

/-- The subject string `str .. end`: its first address and its bytes. -/
structure Subject where
  str : Int
  bytes : List Nat

/-- The pointer `end`, one past the last byte of the subject. -/
def Subject.end_ (x : Subject) : Int := x.str + x.bytes.length

/-- The byte `*a` of the subject; reading outside `str .. end` is undefined. -/
def Subject.rd (x : Subject) (a : Int) : Option Nat :=
  if x.str ≤ a then x.bytes.get? (a - x.str).toNat else none

/-- Modelled from the spec: the encoding capability (regenc.h, regenc.c and the
encoding tables are not in the sources).  Each field is one of the functions the
engine calls; a result `none` stands for a read outside the subject. -/
structure OnigEncodingType where
  /-- The macro `enclen(enc, p)`: the byte length of the character at `p`. -/
  mbc_enc_len : Subject → Int → Option Int
  /-- The macro `ONIGENC_IS_SINGLEBYTE(enc)`. -/
  is_singlebyte : Bool
  /-- The macro `ONIGENC_IS_MBC_NEWLINE(enc, p, end)`. -/
  is_mbc_newline : Subject → Int → Option Bool
  /-- The macro `ONIGENC_IS_MBC_WORD(enc, p, end)`. -/
  is_mbc_word : Subject → Int → Option Bool
  /-- The macro `ONIGENC_MBC_TO_CODE(enc, p, end)`. -/
  mbc_to_code : Subject → Int → Int → Option Nat
  /-- The macro `ONIGENC_MBC_CASE_FOLD(enc, flag, &p, end, buf)`: the advanced
  pointer and the folded bytes. -/
  mbc_case_fold : Nat → Subject → Int → Int → Option (Int × List Nat)
  /-- The macro `ONIGENC_LEFT_ADJUST_CHAR_HEAD(enc, start, s)`. -/
  left_adjust_char_head : Subject → Int → Int → Int
  /-- The function `onigenc_get_right_adjust_char_head(enc, start, s)`. -/
  right_adjust_char_head : Subject → Int → Int → Int
  /-- The function `onigenc_get_right_adjust_char_head_with_prev`: the head and
  the value stored through `prev`. -/
  right_adjust_char_head_with_prev : Subject → Int → Int → Int × Int
  /-- The function `onigenc_get_prev_char_head(enc, start, s)`; `0` is null. -/
  prev_char_head : Subject → Int → Int → Int
  /-- The macro `ONIGENC_STEP_BACK(enc, start, s, n)`; `0` is null. -/
  step_back : Subject → Int → Int → Int → Int
  /-- The macro `ONIGENC_IS_VALID_MBC_STRING(enc, str, end)`. -/
  is_valid_mbc_string : Subject → Bool
  /-- The function `onig_is_in_code_range(p, code)` on the range table that
  the program holds at code offset `p`. -/
  is_in_code_range : List Nat → Int → Nat → Option Bool
  /-- The function `onig_is_code_in_cc_len(mb_len, code, node)`; `node` is the
  pointer operand of `OP_CCLASS_NODE`. -/
  is_code_in_cc_len : Int → Nat → Nat → Bool

/-- The macro `ONIGENC_IS_MBC_HEAD(enc, p)`: the character at `p` is longer
than one byte. -/
def OnigEncodingType.is_mbc_head (enc : OnigEncodingType) (x : Subject) (p : Int) :
    Option Bool :=
  (enc.mbc_enc_len x p).map (fun n => n != 1)

/-- Modelled from the spec: the ASCII case of `ONIGENC_ASCII_CODE_TO_LOWER_CASE`. -/
def ascii_to_lower (c : Nat) : Nat := if 65 ≤ c ∧ c ≤ 90 then c + 32 else c

/-- Modelled from the spec: the word characters of the ASCII encoding,
letters, digits and the underscore. -/
def ascii_is_word (c : Nat) : Bool :=
  (48 ≤ c && c ≤ 57) || (65 ≤ c && c ≤ 90) || c == 95 || (97 ≤ c && c ≤ 122)

/-- Modelled from the spec: the single-byte encoding `ONIG_ENCODING_ASCII`. -/
def ONIG_ENCODING_ASCII : OnigEncodingType where
  mbc_enc_len := fun _ _ => some 1
  is_singlebyte := true
  is_mbc_newline := fun x p =>
    if p < x.end_ then (x.rd p).map (fun c => c == 10) else some false
  is_mbc_word := fun x p => (x.rd p).map ascii_is_word
  mbc_to_code := fun x p _ => x.rd p
  mbc_case_fold := fun _ x p _ => (x.rd p).map (fun c => (p + 1, [ascii_to_lower c]))
  left_adjust_char_head := fun _ _ s => s
  right_adjust_char_head := fun _ _ s => s
  right_adjust_char_head_with_prev := fun _ _ s => (s, 0)
  prev_char_head := fun _ start s => if s ≤ start then 0 else s - 1
  step_back := fun _ start s n => if n ≤ 0 then s else if s - n < start then 0 else s - n
  is_valid_mbc_string := fun _ => true
  is_in_code_range := fun _ _ _ => some false
  is_code_in_cc_len := fun _ _ _ => false

/-- One entry of `reg->repeat_range`. -/
structure OnigRepeatRange where
  lower : Int
  upper : Int

/-- The compiled program `regex_t` as far as the engine reads it. -/
structure regex_t where
  /-- The byte code `reg->p`. -/
  p : List Nat
  num_mem : Nat
  num_repeat : Nat
  repeat_range : List OnigRepeatRange
  bt_mem_start : Nat
  bt_mem_end : Nat
  capture_history : Nat
  options : Nat
  enc : OnigEncodingType
  case_fold_flag : Nat
  stack_pop_level : Nat
  optimize : Nat
  /-- The literal `reg->exact .. reg->exact_end`. -/
  exact : List Nat
  map : List Nat
  int_map : Option (List Int)
  int_map_backward : Option (List Int)
  dmin : Int
  dmax : Int
  threshold_len : Int
  anchor : Nat
  sub_anchor : Nat
  anchor_dmin : Int
  anchor_dmax : Int

/-- Modelled from the spec: the macro `MEM_STATUS_AT(stats, n)` of regint.h on
a 32-bit status word; groups past the word share bit 0. -/
def MEM_STATUS_AT (stats : Nat) (n : Int) : Bool :=
  if n < 32 then stats &&& (1 <<< n.toNat) != 0 else stats &&& 1 != 0

/-- Modelled from the spec: `ONIG_MAX_CAPTURE_HISTORY_GROUP` of oniguruma.h. -/
def ONIG_MAX_CAPTURE_HISTORY_GROUP : Int := 31

/-- The capture history node `OnigCaptureTreeNode`. -/
inductive OnigCaptureTreeNode where
  | node (group : Int) (beg : Int) (end_ : Int) (childs : List OnigCaptureTreeNode)

/-- The region `OnigRegion`. -/
structure OnigRegion where
  allocated : Int
  num_regs : Int
  beg : List Int
  end_ : List Int
  history_root : Option OnigCaptureTreeNode

/-- The region argument of the API: no region, a region, or (with
`ONIG_OPTION_POSIX_REGION`) an array of `posix_regmatch_t`. -/
inductive RegionArg where
  | null
  | onig (r : OnigRegion)
  | posix (rmt : List (Int × Int))

/-- Element `l[i]` of a C array, `none` outside it. -/
def getI {α : Type} (l : List α) (i : Int) : Option α :=
  if 0 ≤ i then l.get? i.toNat else none

/-- The array `l` after `l[i] = v`; `none` when `i` is outside it. -/
def setI {α : Type} (l : List α) (i : Int) (v : α) : Option (List α) :=
  if 0 ≤ i ∧ i.toNat < l.length then some (l.set i.toNat v) else none

/-- The function `onig_region_clear`. -/
def onig_region_clear (region : OnigRegion) : OnigRegion :=
  { region with
    beg := region.beg.enum.map
      (fun iv => if (iv.1 : Int) < region.num_regs then ONIG_REGION_NOTPOS else iv.2)
    end_ := region.end_.enum.map
      (fun iv => if (iv.1 : Int) < region.num_regs then ONIG_REGION_NOTPOS else iv.2)
    history_root := none }

/-- The array `l` grown to `n` cells; the new cells are not initialised (they
hold `0` in the model). -/
def xrealloc_ints (l : List Int) (n : Nat) : List Int :=
  l ++ List.replicate (n - l.length) 0

/-- The function `onig_region_resize` (allocation succeeds). -/
def onig_region_resize (region : OnigRegion) (n : Int) : Int × OnigRegion :=
  let region := { region with num_regs := n }
  let n := if n < ONIG_NREGION then (ONIG_NREGION : Int) else n
  if region.allocated = 0 then
    (0, { region with beg := List.replicate n.toNat 0, end_ := List.replicate n.toNat 0,
                      allocated := n })
  else if region.allocated < n then
    (0, { region with beg := xrealloc_ints region.beg n.toNat,
                      end_ := xrealloc_ints region.end_ n.toNat, allocated := n })
  else (0, region)

/-- The function `onig_region_resize_clear`. -/
def onig_region_resize_clear (region : OnigRegion) (n : Int) : Int × OnigRegion :=
  let rr := onig_region_resize region n
  if rr.1 ≠ 0 then rr else (0, onig_region_clear rr.2)

/-- The function `onig_region_set`; `none` is undefined (a write outside). -/
def onig_region_set (region : OnigRegion) (at_ : Int) (beg : Int) (end_ : Int) :
    Option (Int × OnigRegion) :=
  if at_ < 0 then some (ONIGERR_INVALID_ARGUMENT, region)
  else
    let rr := if at_ ≥ region.allocated then onig_region_resize region (at_ + 1)
              else (0, region)
    if rr.1 < 0 then some rr
    else
      match setI rr.2.beg at_ beg, setI rr.2.end_ at_ end_ with
      | some b, some e => some (0, { rr.2 with beg := b, end_ := e })
      | _, _ => none

/-- The function `onig_region_init`. -/
def onig_region_init : OnigRegion :=
  { allocated := 0, num_regs := 0, beg := [], end_ := [], history_root := none }


/-! ## The backtrack stack -/

/-- The union `u` of `StackType`: the member that was written last.  A push
macro that writes only some fields of a member leaves the others
indeterminate; such frames have their own case. -/
inductive StackU where
  /-- No member was written (`STACK_PUSH_TYPE`). -/
  | blank
  /-- The member `state` written by `STACK_PUSH`. -/
  | state (pcode : Int) (pstr : Int) (pstr_prev : Int)
  /-- The member `state` with `pcode` alone written (`STACK_PUSH_ENSURED`). -/
  | state_pcode (pcode : Int)
  /-- The member `repeat`. -/
  | repeat_ (count : Int) (pcode : Int) (num : Int)
  /-- The member `repeat_inc`. -/
  | repeat_inc (si : Int)
  /-- The member `mem` written by `STACK_PUSH_MEM_START` and `STACK_PUSH_MEM_END`. -/
  | mem (num : Int) (pstr : Int) (start : Int) (end_ : Int)
  /-- The member `mem` with `num` alone written (`STACK_PUSH_MEM_END_MARK`). -/
  | mem_num (num : Int)
  /-- The member `empty_check`. -/
  | empty_check (num : Int) (pstr : Int)
  /-- The member `empty_check` with `num` alone written. -/
  | empty_check_num (num : Int)
  /-- The member `call_frame`. -/
  | call_frame (ret_addr : Int)
  /-- The member `val`. -/
  | val (id : Int) (type : Int) (v : Int)

/-- A stack frame `StackType`: the tag and the union. -/
structure StackType where
  type : Nat
  u : StackU

/-- The field `u.mem.num`. -/
def StackU.get_mem_num : StackU → Option Int
  | .mem num _ _ _ => some num
  | .mem_num num => some num
  | _ => none

/-- The field `u.mem.pstr`. -/
def StackU.get_mem_pstr : StackU → Option Int
  | .mem _ pstr _ _ => some pstr
  | _ => none

/-- The field `u.empty_check.num`. -/
def StackU.get_empty_check_num : StackU → Option Int
  | .empty_check num _ => some num
  | .empty_check_num num => some num
  | _ => none

/-- The locals of `match_at` that the opcode arms read and write.  `stk` and
`stk_end` are the offsets of the pointers of the same name from `stk_base`;
`stack` is the memory behind `stk_base`, slots above `stk` keep what was
written to them, `none` is a slot never written. -/
structure MatchState where
  p : Int
  s : Int
  sprev : Int
  keep : Int
  right_range : Int
  right_range_index : Int
  stk : Nat
  stk_end : Nat
  is_alloca : Bool
  stack : List (Option StackType)
  repeat_stk : List (Option Int)
  mem_start_stk : List (Option Int)
  mem_end_stk : List (Option Int)

/-- What `match_at` finds around it: the global `MatchStackLimitSize`, and
the content of the fields `u.state.pstr` and `u.state.pstr_prev` of the slot
of the bottom frame.  `STACK_PUSH_ENSURED` writes `type` and `u.state.pcode`
alone, so the two fields hold what the memory of the stack held before:
indeterminate values in C, parameters of the run here. -/
structure Env where
  MatchStackLimitSize : Nat
  unwritten_pstr : Int
  unwritten_pstr_prev : Int

/-- A numeral as an `Env`: that `MatchStackLimitSize`, and the address 0 in
the two unwritten fields. -/
instance (n : Nat) : OfNat Env n := ⟨⟨n, 0, 0⟩⟩

/-- What `match_at` is called with, and what it finds around it. -/
structure Ctx where
  reg : regex_t
  x : Subject
  sstart : Int
  msa_options : Nat
  msa_start : Int
  env : Env

/-- The global `MatchStackLimitSize`. -/
@[reducible] def Ctx.MatchStackLimitSize (ctx : Ctx) : Nat := ctx.env.MatchStackLimitSize

/-- How an opcode arm leaves the straight line: `goto fail`, `goto finish`,
a `return` of an error code, undefined behaviour, or the end of the fuel
of the model. -/
inductive Exit where
  | fail
  | finish
  | err (r : Int)
  | undef
  | nofuel

/-- The result of a piece of an opcode arm. -/
inductive Res (α : Type) where
  | ok (a : α) (st : MatchState)
  | exit (e : Exit) (st : MatchState)

/-- A piece of an opcode arm: a function of the locals. -/
def M (α : Type) : Type := MatchState → Res α

/-- Sequencing of two pieces. -/
def M.bind {α β : Type} (m : M α) (f : α → M β) : M β := fun st =>
  match m st with
  | .ok a st1 => f a st1
  | .exit e st1 => .exit e st1

instance : Monad M where
  pure a := fun st => .ok a st
  bind := M.bind

/-- The locals. -/
def getS : M MatchState := fun st => .ok st st

/-- An assignment to locals. -/
def modS (f : MatchState → MatchState) : M Unit := fun st => .ok () (f st)

/-- Leaving the arm. -/
def goto {α : Type} (e : Exit) : M α := fun st => .exit e st

/-- A value whose absence is undefined behaviour. -/
def liftO {α : Type} (o : Option α) : M α := fun st =>
  match o with
  | some a => .ok a st
  | none => .exit .undef st

/-- The macro `STACK_AT(index)` as a read; `none` outside the stack
memory or at a slot never written. -/
def STACK_AT (st : MatchState) (index : Int) : Option StackType :=
  (getI st.stack index).join

/-- A cell of `repeat_stk`, `mem_start_stk` or `mem_end_stk`; `none` outside
the array or at a cell never written. -/
def ptr_get (l : List (Option Int)) (i : Int) : Option Int := (getI l i).join

/-- The function `stack_double` (allocation succeeds): the new `stk_end`
offset, or the error code. -/
def stack_double (MatchStackLimitSize : Nat) (is_alloca : Bool) (stk_end : Nat) :
    Except Int Nat :=
  let n := (stk_end * 2) % 4294967296
  if is_alloca then .ok n
  else if MatchStackLimitSize ≠ 0 ∧ n > MatchStackLimitSize then
    if stk_end % 4294967296 = MatchStackLimitSize then .error ONIGERR_MATCH_STACK_LIMIT_OVER
    else .ok MatchStackLimitSize
  else .ok n

/-- The stack memory after `stack_double`: `new_size` is computed from the
doubled `n`; the slots of the old block are kept. -/
def stack_realloc (stack : List (Option StackType)) (stk_end : Nat) :
    List (Option StackType) :=
  let n := (stk_end * 2) % 4294967296
  stack.take n ++ List.replicate (n - stack.length) none

/-- The macro `STACK_ENSURE(n)`. -/
def STACK_ENSURE (ctx : Ctx) (n : Int) : M Unit := fun st =>
  if (st.stk_end : Int) - st.stk < n then
    match stack_double ctx.MatchStackLimitSize st.is_alloca st.stk_end with
    | .error r => .exit (.err r) st
    | .ok n1 =>
      .ok () { st with stk_end := n1, stack := stack_realloc st.stack st.stk_end,
                       is_alloca := false }
  else .ok () st

/-- The writes `stk->type = ..; stk->u = ..; STACK_INC`. -/
def push_frame (fr : StackType) : M Unit := fun st =>
  if st.stk < st.stack.length then
    .ok () { st with stack := st.stack.set st.stk (some fr), stk := st.stk + 1 }
  else .exit .undef st

/-- The macro `STACK_PUSH_TYPE(stack_type)`: the union keeps what the slot held. -/
def STACK_PUSH_TYPE (ctx : Ctx) (stack_type : Nat) : M Unit := do
  STACK_ENSURE ctx 1
  let st ← getS
  let u := match (st.stack.get? st.stk).join with
    | some fr => fr.u
    | none => StackU.blank
  push_frame ⟨stack_type, u⟩

/-- The macro `STACK_PUSH(stack_type, pat, s, sprev)`. -/
def STACK_PUSH (ctx : Ctx) (stack_type : Nat) (pat : Int) (s : Int) (sprev : Int) :
    M Unit := do
  STACK_ENSURE ctx 1
  push_frame ⟨stack_type, .state pat s sprev⟩

/-- The macro `STACK_PUSH_ENSURED(stack_type, pat)`. -/
def STACK_PUSH_ENSURED (stack_type : Nat) (pat : Int) : M Unit :=
  push_frame ⟨stack_type, .state_pcode pat⟩

/-- The macro `STACK_PUSH_ALT(pat, s, sprev)`. -/
def STACK_PUSH_ALT (ctx : Ctx) (pat : Int) (s : Int) (sprev : Int) : M Unit :=
  STACK_PUSH ctx STK_ALT pat s sprev

/-- The macro `STACK_PUSH_POS(s, sprev)`; the null code pointer is `0`. -/
def STACK_PUSH_POS (ctx : Ctx) (s : Int) (sprev : Int) : M Unit :=
  STACK_PUSH ctx STK_POS 0 s sprev

/-- The macro `STACK_PUSH_ALT_PREC_READ_NOT(pat, s, sprev)`. -/
def STACK_PUSH_ALT_PREC_READ_NOT (ctx : Ctx) (pat : Int) (s : Int) (sprev : Int) :
    M Unit :=
  STACK_PUSH ctx STK_ALT_PREC_READ_NOT pat s sprev

/-- The macro `STACK_PUSH_STOP_BT`. -/
def STACK_PUSH_STOP_BT (ctx : Ctx) : M Unit := STACK_PUSH_TYPE ctx STK_STOP_BT

/-- The macro `STACK_PUSH_ALT_LOOK_BEHIND_NOT(pat, s, sprev)`. -/
def STACK_PUSH_ALT_LOOK_BEHIND_NOT (ctx : Ctx) (pat : Int) (s : Int) (sprev : Int) :
    M Unit :=
  STACK_PUSH ctx STK_ALT_LOOK_BEHIND_NOT pat s sprev

/-- The macro `STACK_PUSH_REPEAT(id, pat)`. -/
def STACK_PUSH_REPEAT (ctx : Ctx) (id : Int) (pat : Int) : M Unit := do
  STACK_ENSURE ctx 1
  push_frame ⟨STK_REPEAT, .repeat_ 0 pat id⟩

/-- The macro `STACK_PUSH_REPEAT_INC(sindex)`. -/
def STACK_PUSH_REPEAT_INC (ctx : Ctx) (sindex : Int) : M Unit := do
  STACK_ENSURE ctx 1
  push_frame ⟨STK_REPEAT_INC, .repeat_inc sindex⟩

/-- The macro `STACK_PUSH_MEM_START(mnum, s)`. -/
def STACK_PUSH_MEM_START (ctx : Ctx) (mnum : Int) (s : Int) : M Unit := do
  STACK_ENSURE ctx 1
  let st ← getS
  let start ← liftO (ptr_get st.mem_start_stk mnum)
  let end_ ← liftO (ptr_get st.mem_end_stk mnum)
  let ms ← liftO (setI st.mem_start_stk mnum (some (st.stk : Int)))
  let me ← liftO (setI st.mem_end_stk mnum (some INVALID_STACK_INDEX))
  modS (fun st => { st with mem_start_stk := ms, mem_end_stk := me })
  push_frame ⟨STK_MEM_START, .mem mnum s start end_⟩

/-- The macro `STACK_PUSH_MEM_END(mnum, s)`. -/
def STACK_PUSH_MEM_END (ctx : Ctx) (mnum : Int) (s : Int) : M Unit := do
  STACK_ENSURE ctx 1
  let st ← getS
  let start ← liftO (ptr_get st.mem_start_stk mnum)
  let end_ ← liftO (ptr_get st.mem_end_stk mnum)
  let me ← liftO (setI st.mem_end_stk mnum (some (st.stk : Int)))
  modS (fun st => { st with mem_end_stk := me })
  push_frame ⟨STK_MEM_END, .mem mnum s start end_⟩

/-- The macro `STACK_PUSH_MEM_END_MARK(mnum)`. -/
def STACK_PUSH_MEM_END_MARK (ctx : Ctx) (mnum : Int) : M Unit := do
  STACK_ENSURE ctx 1
  push_frame ⟨STK_MEM_END_MARK, .mem_num mnum⟩

/-- The macro `STACK_PUSH_EMPTY_CHECK_START(cnum, s)`. -/
def STACK_PUSH_EMPTY_CHECK_START (ctx : Ctx) (cnum : Int) (s : Int) : M Unit := do
  STACK_ENSURE ctx 1
  push_frame ⟨STK_EMPTY_CHECK_START, .empty_check cnum s⟩

/-- The macro `STACK_PUSH_EMPTY_CHECK_END(cnum)`. -/
def STACK_PUSH_EMPTY_CHECK_END (ctx : Ctx) (cnum : Int) : M Unit := do
  STACK_ENSURE ctx 1
  push_frame ⟨STK_EMPTY_CHECK_END, .empty_check_num cnum⟩

/-- The macro `STACK_PUSH_CALL_FRAME(pat)`. -/
def STACK_PUSH_CALL_FRAME (ctx : Ctx) (pat : Int) : M Unit := do
  STACK_ENSURE ctx 1
  push_frame ⟨STK_CALL_FRAME, .call_frame pat⟩

/-- The macro `STACK_PUSH_RETURN`: the union keeps what the slot held. -/
def STACK_PUSH_RETURN (ctx : Ctx) : M Unit := STACK_PUSH_TYPE ctx STK_RETURN

/-- The macro `STACK_PUSH_SAVE_VAL(sid, stype, sval)` (it has no `STACK_ENSURE`). -/
def STACK_PUSH_SAVE_VAL (sid : Int) (stype : Int) (sval : Int) : M Unit :=
  push_frame ⟨STK_SAVE_VAL, .val sid stype sval⟩

/-- The macro `STACK_POP_ONE`. -/
def STACK_POP_ONE : M Unit := fun st =>
  match st.stk with
  | 0 => .exit .undef st
  | k + 1 => .ok () { st with stk := k }


/-! ## Walks over the backtrack stack -/

/-- The assignments `mem_start_stk[num] = start; mem_end_stk[num] = end` from
the `mem` member of a popped frame. -/
def pop_restore_mem (st : MatchState) (fr : StackType) : Option MatchState :=
  match fr.u with
  | .mem num _ start end_ =>
    match setI st.mem_start_stk num (some start), setI st.mem_end_stk num (some end_) with
    | some ms, some me => some { st with mem_start_stk := ms, mem_end_stk := me }
    | _, _ => none
  | _ => none

/-- The statement `STACK_AT(stk->u.repeat_inc.si)->u.repeat.count--`. -/
def pop_repeat_dec (st : MatchState) (fr : StackType) : Option MatchState :=
  match fr.u with
  | .repeat_inc si =>
    match STACK_AT st si with
    | some ⟨t, .repeat_ count pcode num⟩ =>
      (setI st.stack si (some ⟨t, .repeat_ (count - 1) pcode num⟩)).map
        (fun stack => { st with stack := stack })
    | _ => none
  | _ => none

/-- What the default arm of `STACK_POP` and the `STACK_POP_TIL_*` macros do
with a frame that does not end the walk. -/
def pop_restore_all (st : MatchState) (fr : StackType) : Option MatchState :=
  if fr.type = STK_MEM_START then pop_restore_mem st fr
  else if fr.type = STK_REPEAT_INC then pop_repeat_dec st fr
  else if fr.type = STK_MEM_END then pop_restore_mem st fr
  else some st

/-- The loop of the macro `STACK_POP` with `stk` at offset `k`; on return
`stk` is the offset of the frame that ended the walk. -/
def STACK_POP_loop (pop_level : Nat) : Nat → MatchState → Option MatchState
  | 0, _ => none
  | k + 1, st =>
    match STACK_AT st k with
    | none => none
    | some fr =>
      if fr.type &&& STK_MASK_POP_USED ≠ 0 then some { st with stk := k }
      else if pop_level = STACK_POP_LEVEL_FREE then STACK_POP_loop pop_level k st
      else if pop_level = STACK_POP_LEVEL_MEM_START then
        if fr.type = STK_MEM_START then
          (pop_restore_mem st fr).bind (STACK_POP_loop pop_level k)
        else STACK_POP_loop pop_level k st
      else (pop_restore_all st fr).bind (STACK_POP_loop pop_level k)

/-- The macro `STACK_POP`. -/
def STACK_POP (pop_level : Nat) : M Unit := fun st =>
  match STACK_POP_loop pop_level st.stk st with
  | some st1 => .ok () st1
  | none => .exit .undef st

/-- The loop of `STACK_POP_TIL_ALT_PREC_READ_NOT` and of
`STACK_POP_TIL_ALT_LOOK_BEHIND_NOT`: pop down to the frame of type `til`. -/
def STACK_POP_TIL_loop (til : Nat) : Nat → MatchState → Option MatchState
  | 0, _ => none
  | k + 1, st =>
    match STACK_AT st k with
    | none => none
    | some fr =>
      if fr.type = til then some { st with stk := k }
      else (pop_restore_all st fr).bind (STACK_POP_TIL_loop til k)

/-- The macro `STACK_POP_TIL_ALT_PREC_READ_NOT`. -/
def STACK_POP_TIL_ALT_PREC_READ_NOT : M Unit := fun st =>
  match STACK_POP_TIL_loop STK_ALT_PREC_READ_NOT st.stk st with
  | some st1 => .ok () st1
  | none => .exit .undef st

/-- The macro `STACK_POP_TIL_ALT_LOOK_BEHIND_NOT`. -/
def STACK_POP_TIL_ALT_LOOK_BEHIND_NOT : M Unit := fun st =>
  match STACK_POP_TIL_loop STK_ALT_LOOK_BEHIND_NOT st.stk st with
  | some st1 => .ok () st1
  | none => .exit .undef st

/-- The macro `IS_TO_VOID_TARGET(stk)`. -/
def IS_TO_VOID_TARGET (fr : StackType) : Bool := fr.type &&& STK_MASK_TO_VOID_TARGET != 0

/-- The loop of `STACK_POS_END` (`mark = STK_POS`) and `STACK_STOP_BT_END`
(`mark = STK_STOP_BT`) with `k` at offset `k`: the stack memory after the
walk and the offset of the marker. -/
def STACK_VOID_loop (mark : Nat) :
    Nat → List (Option StackType) → Option (List (Option StackType) × Nat)
  | 0, _ => none
  | k + 1, stack =>
    match (stack.get? k).join with
    | none => none
    | some fr =>
      if IS_TO_VOID_TARGET fr then
        STACK_VOID_loop mark k (stack.set k (some { fr with type := STK_VOID }))
      else if fr.type = mark then
        some (stack.set k (some { fr with type := STK_VOID }), k)
      else STACK_VOID_loop mark k stack

/-- The macro `STACK_POS_END(k)`: the frame `k` as it is after the walk. -/
def STACK_POS_END : M StackType := fun st =>
  match STACK_VOID_loop STK_POS st.stk st.stack with
  | some (stack, k) =>
    match (stack.get? k).join with
    | some fr => .ok fr { st with stack := stack }
    | none => .exit .undef st
  | none => .exit .undef st

/-- The macro `STACK_STOP_BT_END`. -/
def STACK_STOP_BT_END : M Unit := fun st =>
  match STACK_VOID_loop STK_STOP_BT st.stk st.stack with
  | some (stack, _) => .ok () { st with stack := stack }
  | none => .exit .undef st

/-- The loop of the macro `STACK_EMPTY_CHECK(isnull, id, s)`. -/
def STACK_EMPTY_CHECK_loop (st : MatchState) (id : Int) (s : Int) : Nat → Option Int
  | 0 => none
  | k + 1 =>
    match STACK_AT st k with
    | none => none
    | some fr =>
      if fr.type = STK_EMPTY_CHECK_START then
        match fr.u with
        | .empty_check num pstr =>
          if num = id then some (if pstr = s then 1 else 0)
          else STACK_EMPTY_CHECK_loop st id s k
        | _ => none
      else STACK_EMPTY_CHECK_loop st id s k

/-- The macro `STACK_EMPTY_CHECK(isnull, id, s)`. -/
def STACK_EMPTY_CHECK (id : Int) (s : Int) : M Int := fun st =>
  match STACK_EMPTY_CHECK_loop st id s st.stk with
  | some v => .ok v st
  | none => .exit .undef st

/-- The inner loop `while (k < stk)` of `STACK_EMPTY_CHECK_MEMST` with `k` at
offset `k`, `n` frames below `stk`, and the current value of `isnull`. -/
def EMPTY_CHECK_MEMST_inner (reg : regex_t) (st : MatchState) (s : Int) :
    Nat → Nat → Int → Option Int
  | 0, _, isnull => some isnull
  | n + 1, k, isnull =>
    match STACK_AT st k with
    | none => none
    | some fr =>
      if fr.type = STK_MEM_START then
        match fr.u with
        | .mem num _ start end_ =>
          if end_ = INVALID_STACK_INDEX then some 0
          else
            let endp : Option Int :=
              if MEM_STATUS_AT reg.bt_mem_end num then
                (STACK_AT st end_).bind (fun f => f.u.get_mem_pstr)
              else some end_
            match endp, (STACK_AT st start).bind (fun f => f.u.get_mem_pstr) with
            | some endp, some pstart =>
              if pstart ≠ endp then some 0
              else if endp ≠ s then EMPTY_CHECK_MEMST_inner reg st s n (k + 1) (-1)
              else EMPTY_CHECK_MEMST_inner reg st s n (k + 1) isnull
            | _, _ => none
        | _ => none
      else EMPTY_CHECK_MEMST_inner reg st s n (k + 1) isnull

/-- The loop of the macro `STACK_EMPTY_CHECK_MEMST(isnull, id, s, reg)`. -/
def STACK_EMPTY_CHECK_MEMST_loop (reg : regex_t) (st : MatchState) (id : Int) (s : Int) :
    Nat → Option Int
  | 0 => none
  | k + 1 =>
    match STACK_AT st k with
    | none => none
    | some fr =>
      if fr.type = STK_EMPTY_CHECK_START then
        match fr.u with
        | .empty_check num pstr =>
          if num = id then
            if pstr ≠ s then some 0
            else EMPTY_CHECK_MEMST_inner reg st s (st.stk - k) k 1
          else STACK_EMPTY_CHECK_MEMST_loop reg st id s k
        | _ => none
      else STACK_EMPTY_CHECK_MEMST_loop reg st id s k

/-- The macro `STACK_EMPTY_CHECK_MEMST(isnull, id, s, reg)`. -/
def STACK_EMPTY_CHECK_MEMST (reg : regex_t) (id : Int) (s : Int) : M Int := fun st =>
  match STACK_EMPTY_CHECK_MEMST_loop reg st id s st.stk with
  | some v => .ok v st
  | none => .exit .undef st

/-- The loop of the macro `STACK_EMPTY_CHECK_MEMST_REC(isnull, id, s, reg)`. -/
def STACK_EMPTY_CHECK_MEMST_REC_loop (reg : regex_t) (st : MatchState) (id : Int)
    (s : Int) : Nat → Int → Option Int
  | 0, _ => none
  | k + 1, level =>
    match STACK_AT st k with
    | none => none
    | some fr =>
      if fr.type = STK_EMPTY_CHECK_START then
        match fr.u with
        | .empty_check num pstr =>
          if num = id then
            if level = 0 then
              if pstr ≠ s then some 0
              else EMPTY_CHECK_MEMST_inner reg st s (st.stk - k) k 1
            else STACK_EMPTY_CHECK_MEMST_REC_loop reg st id s k (level - 1)
          else STACK_EMPTY_CHECK_MEMST_REC_loop reg st id s k level
        | _ => none
      else if fr.type = STK_EMPTY_CHECK_END then
        match fr.u.get_empty_check_num with
        | some num =>
          if num = id then STACK_EMPTY_CHECK_MEMST_REC_loop reg st id s k (level + 1)
          else STACK_EMPTY_CHECK_MEMST_REC_loop reg st id s k level
        | none => none
      else STACK_EMPTY_CHECK_MEMST_REC_loop reg st id s k level

/-- The macro `STACK_EMPTY_CHECK_MEMST_REC(isnull, id, s, reg)`. -/
def STACK_EMPTY_CHECK_MEMST_REC (reg : regex_t) (id : Int) (s : Int) : M Int := fun st =>
  match STACK_EMPTY_CHECK_MEMST_REC_loop reg st id s st.stk 0 with
  | some v => .ok v st
  | none => .exit .undef st

/-- The loop of the macro `STACK_GET_MEM_START(mnum, k)`: the offset of `k`
when the loop ends. -/
def STACK_GET_MEM_START_loop (st : MatchState) (mnum : Int) : Nat → Int → Option Nat
  | 0, _ => some 0
  | k + 1, level =>
    match STACK_AT st k with
    | none => none
    | some fr =>
      if fr.type &&& STK_MASK_MEM_END_OR_MARK ≠ 0 then
        match fr.u.get_mem_num with
        | some num =>
          if num = mnum then STACK_GET_MEM_START_loop st mnum k (level + 1)
          else if fr.type = STK_MEM_START then
            if level = 0 then some k else STACK_GET_MEM_START_loop st mnum k (level - 1)
          else STACK_GET_MEM_START_loop st mnum k level
        | none => none
      else if fr.type = STK_MEM_START then
        match fr.u.get_mem_num with
        | some num =>
          if num = mnum then
            if level = 0 then some k else STACK_GET_MEM_START_loop st mnum k (level - 1)
          else STACK_GET_MEM_START_loop st mnum k level
        | none => none
      else STACK_GET_MEM_START_loop st mnum k level

/-- The macro `STACK_GET_MEM_START(mnum, k)`. -/
def STACK_GET_MEM_START (mnum : Int) : M Nat := fun st =>
  match STACK_GET_MEM_START_loop st mnum st.stk 0 with
  | some k => .ok k st
  | none => .exit .undef st

/-- The loop of the macro `STACK_GET_REPEAT(id, k)`. -/
def STACK_GET_REPEAT_loop (st : MatchState) (id : Int) : Nat → Int → Option Nat
  | 0, _ => none
  | k + 1, level =>
    match STACK_AT st k with
    | none => none
    | some fr =>
      if fr.type = STK_REPEAT then
        if level = 0 then
          match fr.u with
          | .repeat_ _ _ num =>
            if num = id then some k else STACK_GET_REPEAT_loop st id k level
          | _ => none
        else STACK_GET_REPEAT_loop st id k level
      else if fr.type = STK_CALL_FRAME then STACK_GET_REPEAT_loop st id k (level - 1)
      else if fr.type = STK_RETURN then STACK_GET_REPEAT_loop st id k (level + 1)
      else STACK_GET_REPEAT_loop st id k level

/-- The macro `STACK_GET_REPEAT(id, k)`. -/
def STACK_GET_REPEAT (id : Int) : M Nat := fun st =>
  match STACK_GET_REPEAT_loop st id st.stk 0 with
  | some k => .ok k st
  | none => .exit .undef st

/-- The loop of the macro `STACK_RETURN(addr)`. -/
def STACK_RETURN_loop (st : MatchState) : Nat → Int → Option Int
  | 0, _ => none
  | k + 1, level =>
    match STACK_AT st k with
    | none => none
    | some fr =>
      if fr.type = STK_CALL_FRAME then
        if level = 0 then
          match fr.u with
          | .call_frame ret_addr => some ret_addr
          | _ => none
        else STACK_RETURN_loop st k (level - 1)
      else if fr.type = STK_RETURN then STACK_RETURN_loop st k (level + 1)
      else STACK_RETURN_loop st k level

/-- The macro `STACK_RETURN(addr)`. -/
def STACK_RETURN : M Int := fun st =>
  match STACK_RETURN_loop st st.stk 0 with
  | some a => .ok a st
  | none => .exit .undef st

/-- The loop of the macro `STACK_GET_SAVE_VAL_TYPE_LAST(stype, sval)`: the
value found, or `sval` when there is none. -/
def STACK_GET_SAVE_VAL_TYPE_LAST_loop (st : MatchState) (stype : Int) (sval : Int) :
    Nat → Option Int
  | 0 => some sval
  | k + 1 =>
    match STACK_AT st k with
    | none => none
    | some fr =>
      if fr.type = STK_SAVE_VAL then
        match fr.u with
        | .val _ type v =>
          if type = stype then some v
          else STACK_GET_SAVE_VAL_TYPE_LAST_loop st stype sval k
        | _ => none
      else STACK_GET_SAVE_VAL_TYPE_LAST_loop st stype sval k

/-- The loop of the macro `STACK_GET_SAVE_VAL_TYPE_LAST_ID(stype, sid, sval)`. -/
def STACK_GET_SAVE_VAL_TYPE_LAST_ID_loop (st : MatchState) (stype : Int) (sid : Int)
    (sval : Int) : Nat → Int → Option Int
  | 0, _ => some sval
  | k + 1, level =>
    match STACK_AT st k with
    | none => none
    | some fr =>
      let other : Option Int :=
        if fr.type = STK_CALL_FRAME then
          STACK_GET_SAVE_VAL_TYPE_LAST_ID_loop st stype sid sval k (level - 1)
        else if fr.type = STK_RETURN then
          STACK_GET_SAVE_VAL_TYPE_LAST_ID_loop st stype sid sval k (level + 1)
        else STACK_GET_SAVE_VAL_TYPE_LAST_ID_loop st stype sid sval k level
      if fr.type = STK_SAVE_VAL then
        match fr.u with
        | .val id type v =>
          if type = stype ∧ id = sid then
            if level = 0 then some v
            else STACK_GET_SAVE_VAL_TYPE_LAST_ID_loop st stype sid sval k level
          else other
        | _ => none
      else other

/-- The loop of the macro `STACK_GET_SAVE_VAL_TYPE_LAST_ID_FROM(stype, sid,
sval, stk_from)` with `k` at offset `k`: the frame `k` itself is examined
first, the frame at `stk_base` never. -/
def STACK_GET_SAVE_VAL_TYPE_LAST_ID_FROM_loop (st : MatchState) (stype : Int) (sid : Int)
    (sval : Int) : Nat → Option Int
  | 0 => some sval
  | k + 1 =>
    match STACK_AT st ((k : Int) + 1) with
    | none => none
    | some fr =>
      if fr.type = STK_SAVE_VAL then
        match fr.u with
        | .val id type v =>
          if type = stype ∧ id = sid then some v
          else STACK_GET_SAVE_VAL_TYPE_LAST_ID_FROM_loop st stype sid sval k
        | _ => none
      else STACK_GET_SAVE_VAL_TYPE_LAST_ID_FROM_loop st stype sid sval k


/-! ## Reading the program -/

/-- The address of the static array `FinishCode` of `match_at`, as a code
offset; it lies outside every program. -/
def FinishCode : Int := -1

/-- The opcode byte `*p`: `FinishCode` holds `OP_FINISH`. -/
def opcode_at (reg : regex_t) (p : Int) : Option Nat :=
  if p = FinishCode then some OpCode.FINISH.toByte else getI reg.p p

/-- Modelled from the spec: an operand of `w` bytes at code offset `p`, read
as an unsigned little-endian integer (`PLATFORM_GET_INC` of regint.h). -/
def operand_at (reg : regex_t) (p : Int) : Nat → Option Nat
  | 0 => some 0
  | w + 1 =>
    match getI reg.p p, operand_at reg (p + 1) w with
    | some b, some v => some (b + 256 * v)
    | _, _ => none

/-- The value of an unsigned operand of `bits` bits as a signed integer. -/
def to_signed (bits : Nat) (v : Nat) : Int :=
  if v < 2 ^ (bits - 1) then (v : Int) else (v : Int) - 2 ^ bits

/-- An operand of `w` bytes read at `p`, and `p += w`. -/
def GET_OPERAND_INC (ctx : Ctx) (w : Nat) : M Nat := do
  let st ← getS
  let v ← liftO (operand_at ctx.reg st.p w)
  modS (fun st => { st with p := st.p + w })
  pure v

/-- The macro `GET_RELADDR_INC(addr, p)`. -/
def GET_RELADDR_INC (ctx : Ctx) : M Int := do
  let v ← GET_OPERAND_INC ctx SIZE_RELADDR.toNat
  pure (to_signed 32 v)

/-- The macro `GET_ABSADDR_INC(addr, p)`. -/
def GET_ABSADDR_INC (ctx : Ctx) : M Int := do
  let v ← GET_OPERAND_INC ctx SIZE_ABSADDR.toNat
  pure (to_signed 32 v)

/-- The macro `GET_LENGTH_INC(len, p)`. -/
def GET_LENGTH_INC (ctx : Ctx) : M Int := do
  let v ← GET_OPERAND_INC ctx SIZE_LENGTH.toNat
  pure (to_signed 32 v)

/-- The macro `GET_MEMNUM_INC(num, p)`. -/
def GET_MEMNUM_INC (ctx : Ctx) : M Int := do
  let v ← GET_OPERAND_INC ctx SIZE_MEMNUM.toNat
  pure (to_signed 16 v)

/-- The macro `GET_OPTION_INC(option, p)`. -/
def GET_OPTION_INC (ctx : Ctx) : M Nat := GET_OPERAND_INC ctx SIZE_OPTION.toNat

/-- The macro `GET_SAVE_TYPE_INC(type, p)`. -/
def GET_SAVE_TYPE_INC (ctx : Ctx) : M Int := do
  let v ← GET_OPERAND_INC ctx SIZE_SAVE_TYPE.toNat
  pure (v : Int)

/-- The macro `GET_UPDATE_VAR_TYPE_INC(type, p)`. -/
def GET_UPDATE_VAR_TYPE_INC (ctx : Ctx) : M Int := do
  let v ← GET_OPERAND_INC ctx SIZE_UPDATE_VAR_TYPE.toNat
  pure (v : Int)

/-- The macro `GET_POINTER_INC(ptr, p)`. -/
def GET_POINTER_INC (ctx : Ctx) : M Nat := GET_OPERAND_INC ctx SIZE_POINTER.toNat

/-- Modelled from the spec: the macro `BITSET_AT(bs, pos)` on the bit set at
code offset `p` (bit `pos % 8` of byte `pos / 8`). -/
def BITSET_AT (reg : regex_t) (p : Int) (pos : Nat) : Option Bool :=
  (getI reg.p (p + (pos / 8 : Nat))).map (fun b => b &&& (1 <<< (pos % 8)) != 0)

/-- The macro `DATA_ENSURE(n)`. -/
def DATA_ENSURE (n : Int) : M Unit := do
  let st ← getS
  if st.s + n > st.right_range then goto .fail

/-- The macro `DATA_ENSURE_CHECK1`. -/
def DATA_ENSURE_CHECK1 (st : MatchState) : Bool := st.s < st.right_range

/-- The macro `DATA_ENSURE_CHECK(n)`. -/
def DATA_ENSURE_CHECK (st : MatchState) (n : Int) : Bool := st.s + n ≤ st.right_range

/-- The statement `sprev = v`. -/
def set_sprev (v : Int) : M Unit := modS (fun st => { st with sprev := v })

/-- The statements `if (*p != *s) goto fail; p++; s++;`. -/
def cmp_byte (ctx : Ctx) : M Unit := do
  let st ← getS
  let c ← liftO (getI ctx.reg.p st.p)
  let b ← liftO (ctx.x.rd st.s)
  if c ≠ b then goto .fail
  modS (fun st => { st with p := st.p + 1, s := st.s + 1 })

/-- The statements `if (*p != *s) goto fail; sprev = s; p++; s++;`. -/
def cmp_byte_sprev (ctx : Ctx) : M Unit := do
  let st ← getS
  let c ← liftO (getI ctx.reg.p st.p)
  let b ← liftO (ctx.x.rd st.s)
  if c ≠ b then goto .fail
  modS (fun st => { st with sprev := st.s, p := st.p + 1, s := st.s + 1 })

/-- A loop that runs `body` `n` times. -/
def times (n : Nat) (body : M Unit) : M Unit :=
  match n with
  | 0 => pure ()
  | k + 1 => do body; times k body

/-- The loop `while (len-- > 0) { if (*p != *q) goto fail; p++; q++; }` over
the folded bytes `lowbuf`. -/
def cmp_lowbuf (ctx : Ctx) : List Nat → M Unit
  | [] => pure ()
  | q :: rest => do
    let st ← getS
    let c ← liftO (getI ctx.reg.p st.p)
    if c ≠ q then goto .fail
    modS (fun st => { st with p := st.p + 1 })
    cmp_lowbuf ctx rest

/-- The call `len = ONIGENC_MBC_CASE_FOLD(encode, case_fold_flag, &s, end, lowbuf)`. -/
def case_fold_s (ctx : Ctx) : M (List Nat) := do
  let st ← getS
  let r ← liftO (ctx.reg.enc.mbc_case_fold ctx.reg.case_fold_flag ctx.x st.s ctx.x.end_)
  modS (fun st => { st with s := r.1 })
  pure r.2

/-- The call `enclen(encode, s)`. -/
def enclen_s (ctx : Ctx) : M Int := do
  let st ← getS
  liftO (ctx.reg.enc.mbc_enc_len ctx.x st.s)

/-- The statement `s += n`. -/
def add_s (n : Int) : M Unit := modS (fun st => { st with s := st.s + n })

/-- The statement `p += n`. -/
def add_p (n : Int) : M Unit := modS (fun st => { st with p := st.p + n })

/-! ## The opcode arms of `match_at`: literals -/

/-- The arm `case OP_EXACT1` up to its `break`. -/
def op_EXACT1 (ctx : Ctx) : M Unit := do
  DATA_ENSURE 1
  cmp_byte ctx

/-- The arm `case OP_EXACT1_IC` up to its `break`. -/
def op_EXACT1_IC (ctx : Ctx) : M Unit := do
  DATA_ENSURE 1
  let lowbuf ← case_fold_s ctx
  DATA_ENSURE 0
  cmp_lowbuf ctx lowbuf

/-- The arm `case OP_EXACT2`. -/
def op_EXACT2 (ctx : Ctx) : M Unit := do
  DATA_ENSURE 2
  cmp_byte ctx
  cmp_byte_sprev ctx

/-- The arm `case OP_EXACT3`. -/
def op_EXACT3 (ctx : Ctx) : M Unit := do
  DATA_ENSURE 3
  cmp_byte ctx
  cmp_byte ctx
  cmp_byte_sprev ctx

/-- The arm `case OP_EXACT4`. -/
def op_EXACT4 (ctx : Ctx) : M Unit := do
  DATA_ENSURE 4
  cmp_byte ctx
  cmp_byte ctx
  cmp_byte ctx
  cmp_byte_sprev ctx

/-- The arm `case OP_EXACT5`. -/
def op_EXACT5 (ctx : Ctx) : M Unit := do
  DATA_ENSURE 5
  cmp_byte ctx
  cmp_byte ctx
  cmp_byte ctx
  cmp_byte ctx
  cmp_byte_sprev ctx

/-- The arm `case OP_EXACTN`. -/
def op_EXACTN (ctx : Ctx) : M Unit := do
  let tlen ← GET_LENGTH_INC ctx
  DATA_ENSURE tlen
  times tlen.toNat (cmp_byte ctx)
  let st ← getS
  set_sprev (st.s - 1)

/-- The loop `while (p < endp)` of the arm `case OP_EXACTN_IC`. -/
def EXACTN_IC_loop (ctx : Ctx) (endp : Int) : Nat → M Unit
  | 0 => do
    let st ← getS
    if st.p < endp then goto .nofuel
  | k + 1 => do
    let st ← getS
    if st.p < endp then
      set_sprev st.s
      DATA_ENSURE 1
      let lowbuf ← case_fold_s ctx
      DATA_ENSURE 0
      cmp_lowbuf ctx lowbuf
      EXACTN_IC_loop ctx endp k

/-- The arm `case OP_EXACTN_IC`. -/
def op_EXACTN_IC (ctx : Ctx) : M Unit := do
  let tlen ← GET_LENGTH_INC ctx
  let st ← getS
  let endp := st.p + tlen
  EXACTN_IC_loop ctx endp (tlen.toNat + (st.right_range - st.s).toNat) 

/-- The arm `case OP_EXACTMB2N1` up to its `break`. -/
def op_EXACTMB2N1 (ctx : Ctx) : M Unit := do
  DATA_ENSURE 2
  cmp_byte ctx
  cmp_byte ctx

/-- The arm `case OP_EXACTMB2N2`. -/
def op_EXACTMB2N2 (ctx : Ctx) : M Unit := do
  DATA_ENSURE 4
  cmp_byte ctx
  cmp_byte ctx
  let st ← getS
  set_sprev st.s
  cmp_byte ctx
  cmp_byte ctx

/-- The arm `case OP_EXACTMB2N3`. -/
def op_EXACTMB2N3 (ctx : Ctx) : M Unit := do
  DATA_ENSURE 6
  cmp_byte ctx
  cmp_byte ctx
  cmp_byte ctx
  cmp_byte ctx
  let st ← getS
  set_sprev st.s
  cmp_byte ctx
  cmp_byte ctx

/-- The arm `case OP_EXACTMB2N`. -/
def op_EXACTMB2N (ctx : Ctx) : M Unit := do
  let tlen ← GET_LENGTH_INC ctx
  DATA_ENSURE (tlen * 2)
  times tlen.toNat (do cmp_byte ctx; cmp_byte ctx)
  let st ← getS
  set_sprev (st.s - 2)

/-- The arm `case OP_EXACTMB3N`. -/
def op_EXACTMB3N (ctx : Ctx) : M Unit := do
  let tlen ← GET_LENGTH_INC ctx
  DATA_ENSURE (tlen * 3)
  times tlen.toNat (do cmp_byte ctx; cmp_byte ctx; cmp_byte ctx)
  let st ← getS
  set_sprev (st.s - 3)

/-- The arm `case OP_EXACTMBN`. -/
def op_EXACTMBN (ctx : Ctx) : M Unit := do
  let tlen ← GET_LENGTH_INC ctx
  let tlen2 ← GET_LENGTH_INC ctx
  let tlen2 := tlen2 * tlen
  DATA_ENSURE tlen2
  times tlen2.toNat (cmp_byte ctx)
  let st ← getS
  set_sprev (st.s - tlen)


/-! ## The opcode arms of `match_at`: character classes and any-char -/

/-- The byte `*s`. -/
def rd_s (ctx : Ctx) : M Nat := do
  let st ← getS
  liftO (ctx.x.rd st.s)

/-- The call `ONIGENC_IS_MBC_HEAD(encode, s)`. -/
def is_mbc_head_s (ctx : Ctx) : M Bool := do
  let st ← getS
  liftO (ctx.reg.enc.is_mbc_head ctx.x st.s)

/-- The call `ONIGENC_IS_MBC_NEWLINE(encode, q, end)`. -/
def is_newline (ctx : Ctx) (q : Int) : M Bool :=
  liftO (ctx.reg.enc.is_mbc_newline ctx.x q)

/-- The call `ONIGENC_IS_MBC_WORD(encode, q, end)`. -/
def is_word (ctx : Ctx) (q : Int) : M Bool :=
  liftO (ctx.reg.enc.is_mbc_word ctx.x q)

/-- The arm `case OP_CCLASS` up to its `break`. -/
def op_CCLASS (ctx : Ctx) : M Unit := do
  DATA_ENSURE 1
  let st ← getS
  let c ← rd_s ctx
  let b ← liftO (BITSET_AT ctx.reg st.p c)
  if b == false then goto .fail
  add_p SIZE_BITSET
  let n ← enclen_s ctx
  add_s n

/-- The code from the label `cclass_mb` to the `break`. -/
def cclass_mb (ctx : Ctx) : M Unit := do
  let tlen ← GET_LENGTH_INC ctx
  DATA_ENSURE 1
  let mb_len ← enclen_s ctx
  DATA_ENSURE mb_len
  let st ← getS
  let ss := st.s
  add_s mb_len
  let code ← liftO (ctx.reg.enc.mbc_to_code ctx.x ss (ss + mb_len))
  let r ← liftO (ctx.reg.enc.is_in_code_range ctx.reg.p st.p code)
  if !r then goto .fail
  add_p tlen

/-- The arm `case OP_CCLASS_MB`. -/
def op_CCLASS_MB (ctx : Ctx) : M Unit := do
  let h ← is_mbc_head_s ctx
  if !h then goto .fail
  cclass_mb ctx

/-- The arm `case OP_CCLASS_MIX`. -/
def op_CCLASS_MIX (ctx : Ctx) : M Unit := do
  DATA_ENSURE 1
  let h ← is_mbc_head_s ctx
  if h then
    add_p SIZE_BITSET
    cclass_mb ctx
  else
    let st ← getS
    let c ← rd_s ctx
    let b ← liftO (BITSET_AT ctx.reg st.p c)
    if b == false then goto .fail
    add_p SIZE_BITSET
    let tlen ← GET_LENGTH_INC ctx
    add_p tlen
    add_s 1

/-- The arm `case OP_CCLASS_NOT`. -/
def op_CCLASS_NOT (ctx : Ctx) : M Unit := do
  DATA_ENSURE 1
  let st ← getS
  let c ← rd_s ctx
  let b ← liftO (BITSET_AT ctx.reg st.p c)
  if b != false then goto .fail
  add_p SIZE_BITSET
  let n ← enclen_s ctx
  add_s n

/-- The code from the label `cclass_mb_not` to the label `cc_mb_not_success`. -/
def cclass_mb_not (ctx : Ctx) : M Unit := do
  let tlen ← GET_LENGTH_INC ctx
  let mb_len ← enclen_s ctx
  let st ← getS
  if !DATA_ENSURE_CHECK st mb_len then
    DATA_ENSURE 1
    modS (fun st => { st with s := ctx.x.end_ })
    add_p tlen
  else
    let ss := st.s
    add_s mb_len
    let code ← liftO (ctx.reg.enc.mbc_to_code ctx.x ss (ss + mb_len))
    let r ← liftO (ctx.reg.enc.is_in_code_range ctx.reg.p st.p code)
    if r then goto .fail
    add_p tlen

/-- The arm `case OP_CCLASS_MB_NOT`. -/
def op_CCLASS_MB_NOT (ctx : Ctx) : M Unit := do
  DATA_ENSURE 1
  let h ← is_mbc_head_s ctx
  if !h then
    add_s 1
    let tlen ← GET_LENGTH_INC ctx
    add_p tlen
  else
    cclass_mb_not ctx

/-- The arm `case OP_CCLASS_MIX_NOT`. -/
def op_CCLASS_MIX_NOT (ctx : Ctx) : M Unit := do
  DATA_ENSURE 1
  let h ← is_mbc_head_s ctx
  if h then
    add_p SIZE_BITSET
    cclass_mb_not ctx
  else
    let st ← getS
    let c ← rd_s ctx
    let b ← liftO (BITSET_AT ctx.reg st.p c)
    if b != false then goto .fail
    add_p SIZE_BITSET
    let tlen ← GET_LENGTH_INC ctx
    add_p tlen
    add_s 1

/-- The arm `case OP_CCLASS_NODE`. -/
def op_CCLASS_NODE (ctx : Ctx) : M Unit := do
  DATA_ENSURE 1
  let node ← GET_POINTER_INC ctx
  let mb_len ← enclen_s ctx
  let st ← getS
  let ss := st.s
  add_s mb_len
  DATA_ENSURE 0
  let code ← liftO (ctx.reg.enc.mbc_to_code ctx.x ss (ss + mb_len))
  if ctx.reg.enc.is_code_in_cc_len mb_len code node == false then goto .fail

/-- The arm `case OP_ANYCHAR`. -/
def op_ANYCHAR (ctx : Ctx) : M Unit := do
  DATA_ENSURE 1
  let n ← enclen_s ctx
  DATA_ENSURE n
  let st ← getS
  let nl ← is_newline ctx st.s
  if nl then goto .fail
  add_s n

/-- The arm `case OP_ANYCHAR_ML`. -/
def op_ANYCHAR_ML (ctx : Ctx) : M Unit := do
  DATA_ENSURE 1
  let n ← enclen_s ctx
  DATA_ENSURE n
  add_s n

/-- The statement `if (*p == *s) STACK_PUSH_ALT(p + 1, s, sprev)` of the
peek-next arms. -/
def peek_push (ctx : Ctx) : M Unit := do
  let st ← getS
  let c ← liftO (getI ctx.reg.p st.p)
  let b ← rd_s ctx
  if c = b then STACK_PUSH_ALT ctx (st.p + 1) st.s st.sprev

/-- One round of the loop of `OP_ANYCHAR_STAR` after the push:
`n = enclen; DATA_ENSURE(n); if newline goto fail; sprev = s; s += n`. -/
def anychar_star_step (ctx : Ctx) : M Unit := do
  let n ← enclen_s ctx
  DATA_ENSURE n
  let st ← getS
  let nl ← is_newline ctx st.s
  if nl then goto .fail
  modS (fun st => { st with sprev := st.s, s := st.s + n })

/-- One round of the loop of `OP_ANYCHAR_ML_STAR` after the push. -/
def anychar_ml_star_step (ctx : Ctx) : M Unit := do
  let n ← enclen_s ctx
  if n > 1 then
    DATA_ENSURE n
    modS (fun st => { st with sprev := st.s, s := st.s + n })
  else
    modS (fun st => { st with sprev := st.s, s := st.s + 1 })

/-- The loop `while (DATA_ENSURE_CHECK1) { body }`; `k` bounds the rounds. -/
def while_data (body : M Unit) : Nat → M Unit
  | 0 => do
    let st ← getS
    if DATA_ENSURE_CHECK1 st then goto .nofuel
  | k + 1 => do
    let st ← getS
    if DATA_ENSURE_CHECK1 st then
      body
      while_data body k

/-- The bound on the rounds of a `while (DATA_ENSURE_CHECK1)` loop: each
round moves `s` forward by one character. -/
def data_left (st : MatchState) : Nat := (st.right_range - st.s).toNat

/-- The arm `case OP_ANYCHAR_STAR` up to its `break`. -/
def op_ANYCHAR_STAR (ctx : Ctx) : M Unit := do
  let st ← getS
  while_data (do
    let st ← getS
    STACK_PUSH_ALT ctx st.p st.s st.sprev
    anychar_star_step ctx) (data_left st)

/-- The arm `case OP_ANYCHAR_ML_STAR`. -/
def op_ANYCHAR_ML_STAR (ctx : Ctx) : M Unit := do
  let st ← getS
  while_data (do
    let st ← getS
    STACK_PUSH_ALT ctx st.p st.s st.sprev
    anychar_ml_star_step ctx) (data_left st)

/-- The arm `case OP_ANYCHAR_STAR_PEEK_NEXT`. -/
def op_ANYCHAR_STAR_PEEK_NEXT (ctx : Ctx) : M Unit := do
  let st ← getS
  while_data (do
    peek_push ctx
    anychar_star_step ctx) (data_left st)
  add_p 1

/-- The arm `case OP_ANYCHAR_ML_STAR_PEEK_NEXT`. -/
def op_ANYCHAR_ML_STAR_PEEK_NEXT (ctx : Ctx) : M Unit := do
  let st ← getS
  while_data (do
    peek_push ctx
    anychar_ml_star_step ctx) (data_left st)
  add_p 1

/-! ## Words and anchors -/

/-- The arm `case OP_WORD`. -/
def op_WORD (ctx : Ctx) : M Unit := do
  DATA_ENSURE 1
  let st ← getS
  let w ← is_word ctx st.s
  if !w then goto .fail
  let n ← enclen_s ctx
  add_s n

/-- The arm `case OP_NOT_WORD`. -/
def op_NOT_WORD (ctx : Ctx) : M Unit := do
  DATA_ENSURE 1
  let st ← getS
  let w ← is_word ctx st.s
  if w then goto .fail
  let n ← enclen_s ctx
  add_s n

/-- The macro `ON_STR_BEGIN(s)`. -/
def ON_STR_BEGIN (ctx : Ctx) (s : Int) : Bool := s == ctx.x.str

/-- The macro `ON_STR_END(s)`. -/
def ON_STR_END (ctx : Ctx) (s : Int) : Bool := s == ctx.x.end_

/-- The macro `IS_EMPTY_STR`. -/
def IS_EMPTY_STR (ctx : Ctx) : Bool := ctx.x.str == ctx.x.end_

/-- The arm `case OP_WORD_BOUND`. -/
def op_WORD_BOUND (ctx : Ctx) : M Unit := do
  let st ← getS
  if ON_STR_BEGIN ctx st.s then
    DATA_ENSURE 1
    let w ← is_word ctx st.s
    if !w then goto .fail
  else if ON_STR_END ctx st.s then
    let w ← is_word ctx st.sprev
    if !w then goto .fail
  else
    let w1 ← is_word ctx st.s
    let w2 ← is_word ctx st.sprev
    if w1 == w2 then goto .fail

/-- The arm `case OP_NOT_WORD_BOUND`. -/
def op_NOT_WORD_BOUND (ctx : Ctx) : M Unit := do
  let st ← getS
  if ON_STR_BEGIN ctx st.s then
    if DATA_ENSURE_CHECK1 st then
      let w ← is_word ctx st.s
      if w then goto .fail
  else if ON_STR_END ctx st.s then
    let w ← is_word ctx st.sprev
    if w then goto .fail
  else
    let w1 ← is_word ctx st.s
    let w2 ← is_word ctx st.sprev
    if w1 != w2 then goto .fail

/-- The arm `case OP_WORD_BEGIN`. -/
def op_WORD_BEGIN (ctx : Ctx) : M Unit := do
  let st ← getS
  if DATA_ENSURE_CHECK1 st then
    let w ← is_word ctx st.s
    if w then
      if ON_STR_BEGIN ctx st.s then
        pure ()
      else
        let w2 ← is_word ctx st.sprev
        if !w2 then pure () else goto .fail
    else goto .fail
  else goto .fail

/-- The arm `case OP_WORD_END`. -/
def op_WORD_END (ctx : Ctx) : M Unit := do
  let st ← getS
  if !ON_STR_BEGIN ctx st.s then
    let w ← is_word ctx st.sprev
    if w then
      if ON_STR_END ctx st.s then
        pure ()
      else
        let w2 ← is_word ctx st.s
        if !w2 then pure () else goto .fail
    else goto .fail
  else goto .fail

/-- The arm `case OP_BEGIN_BUF`. -/
def op_BEGIN_BUF (ctx : Ctx) : M Unit := do
  let st ← getS
  if !ON_STR_BEGIN ctx st.s then goto .fail

/-- The arm `case OP_END_BUF`. -/
def op_END_BUF (ctx : Ctx) : M Unit := do
  let st ← getS
  if !ON_STR_END ctx st.s then goto .fail

/-- The arm `case OP_BEGIN_LINE`. -/
def op_BEGIN_LINE (ctx : Ctx) : M Unit := do
  let st ← getS
  if ON_STR_BEGIN ctx st.s then
    if IS_NOTBOL ctx.msa_options then goto .fail
  else
    let nl ← is_newline ctx st.sprev
    if nl && !ON_STR_END ctx st.s then pure () else goto .fail

/-- The test of `OP_END_LINE` and `OP_SEMI_END_BUF` at the end of the
string: with `USE_NEWLINE_AT_END_OF_STRING_HAS_EMPTY_LINE` the arm goes on
at once, without it only when the string is empty or does not end in a
newline.  The result is false when the arm falls through to `goto fail`. -/
def at_end_ok (ctx : Ctx) : M Bool := do
  let st ← getS
  if USE_NEWLINE_AT_END_OF_STRING_HAS_EMPTY_LINE then
    if IS_NOTEOL ctx.msa_options then goto .fail
    pure true
  else if IS_EMPTY_STR ctx then
    if IS_NOTEOL ctx.msa_options then goto .fail
    pure true
  else
    let nl ← is_newline ctx st.sprev
    if !nl then
      if IS_NOTEOL ctx.msa_options then goto .fail
      pure true
    else pure false

/-- The arm `case OP_END_LINE`. -/
def op_END_LINE (ctx : Ctx) : M Unit := do
  let st ← getS
  if ON_STR_END ctx st.s then
    let ok ← at_end_ok ctx
    if !ok then goto .fail
  else
    let nl ← is_newline ctx st.s
    if !nl then goto .fail

/-- The arm `case OP_SEMI_END_BUF`. -/
def op_SEMI_END_BUF (ctx : Ctx) : M Unit := do
  let st ← getS
  if ON_STR_END ctx st.s then
    let ok ← at_end_ok ctx
    if !ok then goto .fail
  else
    let nl ← is_newline ctx st.s
    if nl then
      let n ← enclen_s ctx
      if !ON_STR_END ctx (st.s + n) then goto .fail
    else goto .fail

/-- The arm `case OP_BEGIN_POSITION`. -/
def op_BEGIN_POSITION (ctx : Ctx) : M Unit := do
  let st ← getS
  if st.s ≠ ctx.msa_start then goto .fail


/-! ## Capture bookkeeping and back-references -/

/-- The arm `case OP_MEMORY_START_PUSH`. -/
def op_MEMORY_START_PUSH (ctx : Ctx) : M Unit := do
  let mem ← GET_MEMNUM_INC ctx
  let st ← getS
  STACK_PUSH_MEM_START ctx mem st.s

/-- The arm `case OP_MEMORY_START`. -/
def op_MEMORY_START (ctx : Ctx) : M Unit := do
  let mem ← GET_MEMNUM_INC ctx
  let st ← getS
  let ms ← liftO (setI st.mem_start_stk mem (some st.s))
  modS (fun st => { st with mem_start_stk := ms })

/-- The arm `case OP_MEMORY_END_PUSH`. -/
def op_MEMORY_END_PUSH (ctx : Ctx) : M Unit := do
  let mem ← GET_MEMNUM_INC ctx
  let st ← getS
  STACK_PUSH_MEM_END ctx mem st.s

/-- The arm `case OP_MEMORY_END`. -/
def op_MEMORY_END (ctx : Ctx) : M Unit := do
  let mem ← GET_MEMNUM_INC ctx
  let st ← getS
  let me ← liftO (setI st.mem_end_stk mem (some st.s))
  modS (fun st => { st with mem_end_stk := me })

/-- The arm `case OP_MEMORY_END_PUSH_REC`. -/
def op_MEMORY_END_PUSH_REC (ctx : Ctx) : M Unit := do
  let mem ← GET_MEMNUM_INC ctx
  let stkp ← STACK_GET_MEM_START mem
  let st ← getS
  STACK_PUSH_MEM_END ctx mem st.s
  let st ← getS
  let ms ← liftO (setI st.mem_start_stk mem (some (stkp : Int)))
  modS (fun st => { st with mem_start_stk := ms })

/-- The arm `case OP_MEMORY_END_REC`. -/
def op_MEMORY_END_REC (ctx : Ctx) : M Unit := do
  let mem ← GET_MEMNUM_INC ctx
  let st ← getS
  let me ← liftO (setI st.mem_end_stk mem (some st.s))
  modS (fun st => { st with mem_end_stk := me })
  let stkp ← STACK_GET_MEM_START mem
  let st ← getS
  if MEM_STATUS_AT ctx.reg.bt_mem_start mem then
    let ms ← liftO (setI st.mem_start_stk mem (some (stkp : Int)))
    modS (fun st => { st with mem_start_stk := ms })
  else
    let pstr ← liftO ((STACK_AT st stkp).bind (fun f => f.u.get_mem_pstr))
    let ms ← liftO (setI st.mem_start_stk mem (some pstr))
    modS (fun st => { st with mem_start_stk := ms })
  STACK_PUSH_MEM_END_MARK ctx mem

/-- The start `pstart` of the text of group `mem`: through the stack when
`bt_mem_start` has the bit of the group, else the raw pointer. -/
def mem_pstart (ctx : Ctx) (st : MatchState) (mem : Int) : Option Int :=
  (ptr_get st.mem_start_stk mem).bind (fun v =>
    if MEM_STATUS_AT ctx.reg.bt_mem_start mem then
      (STACK_AT st v).bind (fun f => f.u.get_mem_pstr)
    else some v)

/-- The end `pend` of the text of group `mem`. -/
def mem_pend (ctx : Ctx) (st : MatchState) (mem : Int) : Option Int :=
  (ptr_get st.mem_end_stk mem).bind (fun v =>
    if MEM_STATUS_AT ctx.reg.bt_mem_end mem then
      (STACK_AT st v).bind (fun f => f.u.get_mem_pstr)
    else some v)

/-- The loop `while (sprev + (len = enclen(encode, sprev)) < s) sprev += len`. -/
def sprev_loop (ctx : Ctx) : Nat → M Unit
  | 0 => do
    let st ← getS
    let len ← liftO (ctx.reg.enc.mbc_enc_len ctx.x st.sprev)
    if st.sprev + len < st.s then goto .nofuel
  | k + 1 => do
    let st ← getS
    let len ← liftO (ctx.reg.enc.mbc_enc_len ctx.x st.sprev)
    if st.sprev + len < st.s then
      set_sprev (st.sprev + len)
      sprev_loop ctx k

/-- The macro `STRING_CMP(s1, s, len)`: `s1` runs over the group text, the
second pointer is `s` itself. -/
def STRING_CMP (ctx : Ctx) : Int → Nat → M Unit
  | _, 0 => pure ()
  | s1, k + 1 => do
    let st ← getS
    let a ← liftO (ctx.x.rd s1)
    let b ← liftO (ctx.x.rd st.s)
    modS (fun st => { st with s := st.s + 1 })
    if a ≠ b then goto .fail
    STRING_CMP ctx (s1 + 1) k

/-- The inner loop of `string_cmp_ic` comparing the two folded buffers. -/
def lowbuf_eq : List Nat → List Nat → Bool
  | [], _ => true
  | _ :: _, [] => true
  | a :: as, b :: bs => if a ≠ b then false else lowbuf_eq as bs

/-- The function `string_cmp_ic`: `none` is undefined, `some none` the result
0, `some (some s2)` the result 1 with `*ps2 = s2`. -/
def string_cmp_ic (enc : OnigEncodingType) (case_fold_flag : Nat) (x : Subject)
    (end1 : Int) (end2 : Int) : Nat → Int → Int → Option (Option Int)
  | 0, s1, s2 => if s1 < end1 then none else some (some s2)
  | k + 1, s1, s2 =>
    if s1 < end1 then
      match enc.mbc_case_fold case_fold_flag x s1 end1,
            enc.mbc_case_fold case_fold_flag x s2 end2 with
      | some (s1n, buf1), some (s2n, buf2) =>
        if buf1.length ≠ buf2.length then some none
        else if lowbuf_eq buf1 buf2 then
          string_cmp_ic enc case_fold_flag x end1 end2 k s1n s2n
        else some none
      | _, _ => none
    else some (some s2)

/-- The macro `STRING_CMP_IC(case_fold_flag, s1, &s, len)`. -/
def STRING_CMP_IC (ctx : Ctx) (s1 : Int) (len : Int) : M Unit := do
  let st ← getS
  let r ← liftO (string_cmp_ic ctx.reg.enc ctx.reg.case_fold_flag ctx.x
    (s1 + len) (st.s + len) len.toNat s1 st.s)
  match r with
  | none => goto .fail
  | some s2 => modS (fun st => { st with s := s2 })

/-- The code from the label `backref` to the `continue`. -/
def backref (ctx : Ctx) (mem : Int) : M Unit := do
  let st ← getS
  let e ← liftO (ptr_get st.mem_end_stk mem)
  if e = INVALID_STACK_INDEX then goto .fail
  let b ← liftO (ptr_get st.mem_start_stk mem)
  if b = INVALID_STACK_INDEX then goto .fail
  let pstart ← liftO (mem_pstart ctx st mem)
  let pend ← liftO (mem_pend ctx st mem)
  let n := pend - pstart
  DATA_ENSURE n
  set_sprev st.s
  STRING_CMP ctx pstart n.toNat
  let st ← getS
  sprev_loop ctx (st.s - st.sprev).toNat

/-- The arm `case OP_BACKREF_N`. -/
def op_BACKREF_N (ctx : Ctx) : M Unit := do
  let mem ← GET_MEMNUM_INC ctx
  backref ctx mem

/-- The arm `case OP_BACKREF_N_IC`. -/
def op_BACKREF_N_IC (ctx : Ctx) : M Unit := do
  let mem ← GET_MEMNUM_INC ctx
  let st ← getS
  let e ← liftO (ptr_get st.mem_end_stk mem)
  if e = INVALID_STACK_INDEX then goto .fail
  let b ← liftO (ptr_get st.mem_start_stk mem)
  if b = INVALID_STACK_INDEX then goto .fail
  let pstart ← liftO (mem_pstart ctx st mem)
  let pend ← liftO (mem_pend ctx st mem)
  let n := pend - pstart
  DATA_ENSURE n
  set_sprev st.s
  STRING_CMP_IC ctx pstart n
  let st ← getS
  sprev_loop ctx (st.s - st.sprev).toNat

/-- The macro `STRING_CMP_VALUE(s1, s2, len, is_fail)`: `none` is undefined,
else `is_fail` and the final `s2`. -/
def STRING_CMP_VALUE (x : Subject) : Nat → Int → Int → Option (Bool × Int)
  | 0, _, s2 => some (false, s2)
  | k + 1, s1, s2 =>
    match x.rd s1, x.rd s2 with
    | some a, some b =>
      if a ≠ b then some (true, s2 + 1) else STRING_CMP_VALUE x k (s1 + 1) (s2 + 1)
    | _, _ => none

/-- The loop `for (i = 0; i < tlen; i++)` of the arms `OP_BACKREF_MULTI`
(`ic = false`) and `OP_BACKREF_MULTI_IC` (`ic = true`) with `k = tlen - i`
rounds left; the result is whether the loop ended by `break`. -/
def backref_multi_loop (ctx : Ctx) (ic : Bool) : Nat → M Bool
  | 0 => pure false
  | k + 1 => do
    let mem ← GET_MEMNUM_INC ctx
    let st ← getS
    let e ← liftO (ptr_get st.mem_end_stk mem)
    if e = INVALID_STACK_INDEX then backref_multi_loop ctx ic k
    else
      let b ← liftO (ptr_get st.mem_start_stk mem)
      if b = INVALID_STACK_INDEX then backref_multi_loop ctx ic k
      else
        let pstart ← liftO (mem_pstart ctx st mem)
        let pend ← liftO (mem_pend ctx st mem)
        let n := pend - pstart
        DATA_ENSURE n
        set_sprev st.s
        let r ←
          if ic then do
            let r ← liftO (string_cmp_ic ctx.reg.enc ctx.reg.case_fold_flag ctx.x
              (pstart + n) (st.s + n) n.toNat pstart st.s)
            pure r
          else do
            let r ← liftO (STRING_CMP_VALUE ctx.x n.toNat pstart st.s)
            pure (if r.1 then none else some r.2)
        match r with
        | none => backref_multi_loop ctx ic k
        | some swork =>
          modS (fun st => { st with s := swork })
          let st ← getS
          sprev_loop ctx (st.s - st.sprev).toNat
          add_p (SIZE_MEMNUM * k)
          pure true

/-- The arm `case OP_BACKREF_MULTI`. -/
def op_BACKREF_MULTI (ctx : Ctx) : M Unit := do
  let tlen ← GET_LENGTH_INC ctx
  let found ← backref_multi_loop ctx false tlen.toNat
  if !found then goto .fail

/-- The arm `case OP_BACKREF_MULTI_IC`. -/
def op_BACKREF_MULTI_IC (ctx : Ctx) : M Unit := do
  let tlen ← GET_LENGTH_INC ctx
  let found ← backref_multi_loop ctx true tlen.toNat
  if !found then goto .fail

/-- The function `mem_is_in_memp(mem, num, memp)`. -/
def mem_is_in_memp (reg : regex_t) (mem : Int) : Nat → Int → Option Bool
  | 0, _ => some false
  | k + 1, memp =>
    match operand_at reg memp SIZE_MEMNUM.toNat with
    | some v =>
      if mem = to_signed 16 v then some true
      else mem_is_in_memp reg mem k (memp + SIZE_MEMNUM)
    | none => none

/-- The comparison of `backref_match_at_nested_level` once `pstart` and
`pend` are known: `some none` is the result 0, `some (some ss)` the result 1
with `*s = ss`. -/
def backref_level_cmp (ctx : Ctx) (ignore_case : Nat) (pstart : Int) (pend : Int)
    (s : Int) : Option (Option Int) :=
  if pend - pstart > ctx.x.end_ - s then some none
  else if ignore_case ≠ 0 then
    string_cmp_ic ctx.reg.enc ctx.reg.case_fold_flag ctx.x
      (pstart + (pend - pstart)) (s + (pend - pstart)) (pend - pstart).toNat pstart s
  else
    (STRING_CMP_VALUE ctx.x (pend - pstart).toNat pstart s).map
      (fun r => if r.1 then none else some r.2)

/-- The loop of the function `backref_match_at_nested_level` with `k + 1`
frames left below the pointer; `pend` is `0` while it is null. -/
def backref_match_at_nested_level_loop (ctx : Ctx) (st : MatchState) (ignore_case : Nat)
    (nest : Int) (mem_num : Nat) (memp : Int) (s : Int) :
    Nat → Int → Int → Option (Option Int)
  | 0, _, _ => some none
  | k + 1, level, pend =>
    match STACK_AT st k with
    | none => none
    | some fr =>
      if fr.type = STK_CALL_FRAME then
        backref_match_at_nested_level_loop ctx st ignore_case nest mem_num memp s k
          (level - 1) pend
      else if fr.type = STK_RETURN then
        backref_match_at_nested_level_loop ctx st ignore_case nest mem_num memp s k
          (level + 1) pend
      else if level = nest then
        if fr.type = STK_MEM_START then
          match fr.u with
          | .mem num pstr _ _ =>
            match mem_is_in_memp ctx.reg num mem_num memp with
            | none => none
            | some true =>
              if pend ≠ 0 then backref_level_cmp ctx ignore_case pstr pend s
              else backref_match_at_nested_level_loop ctx st ignore_case nest mem_num
                memp s k level pend
            | some false =>
              backref_match_at_nested_level_loop ctx st ignore_case nest mem_num memp s k
                level pend
          | _ => none
        else if fr.type = STK_MEM_END then
          match fr.u with
          | .mem num pstr _ _ =>
            match mem_is_in_memp ctx.reg num mem_num memp with
            | none => none
            | some true =>
              backref_match_at_nested_level_loop ctx st ignore_case nest mem_num memp s k
                level pstr
            | some false =>
              backref_match_at_nested_level_loop ctx st ignore_case nest mem_num memp s k
                level pend
          | _ => none
        else
          backref_match_at_nested_level_loop ctx st ignore_case nest mem_num memp s k
            level pend
      else
        backref_match_at_nested_level_loop ctx st ignore_case nest mem_num memp s k
          level pend

/-- The loop of the function `backref_check_at_nested_level`. -/
def backref_check_at_nested_level_loop (ctx : Ctx) (st : MatchState) (nest : Int)
    (mem_num : Nat) (memp : Int) : Nat → Int → Option Bool
  | 0, _ => some false
  | k + 1, level =>
    match STACK_AT st k with
    | none => none
    | some fr =>
      if fr.type = STK_CALL_FRAME then
        backref_check_at_nested_level_loop ctx st nest mem_num memp k (level - 1)
      else if fr.type = STK_RETURN then
        backref_check_at_nested_level_loop ctx st nest mem_num memp k (level + 1)
      else if level = nest then
        if fr.type = STK_MEM_END then
          match fr.u with
          | .mem num _ _ _ =>
            match mem_is_in_memp ctx.reg num mem_num memp with
            | none => none
            | some true => some true
            | some false =>
              backref_check_at_nested_level_loop ctx st nest mem_num memp k level
          | _ => none
        else backref_check_at_nested_level_loop ctx st nest mem_num memp k level
      else backref_check_at_nested_level_loop ctx st nest mem_num memp k level

/-- The arm `case OP_BACKREF_WITH_LEVEL`. -/
def op_BACKREF_WITH_LEVEL (ctx : Ctx) : M Unit := do
  let ic ← GET_OPTION_INC ctx
  let level ← GET_LENGTH_INC ctx
  let tlen ← GET_LENGTH_INC ctx
  let st ← getS
  set_sprev st.s
  let r ← liftO (backref_match_at_nested_level_loop ctx st ic level tlen.toNat st.p st.s
    st.stk 0 0)
  match r with
  | some ss =>
    modS (fun st => { st with s := ss })
    let st ← getS
    sprev_loop ctx (st.s - st.sprev).toNat
    add_p (SIZE_MEMNUM * tlen)
  | none => goto .fail

/-- The loop of the arm `case OP_BACKREF_CHECK`; the result is whether the
loop ended by `break`. -/
def backref_check_loop (ctx : Ctx) : Nat → M Bool
  | 0 => pure false
  | k + 1 => do
    let mem ← GET_MEMNUM_INC ctx
    let st ← getS
    let e ← liftO (ptr_get st.mem_end_stk mem)
    if e = INVALID_STACK_INDEX then backref_check_loop ctx k
    else
      let b ← liftO (ptr_get st.mem_start_stk mem)
      if b = INVALID_STACK_INDEX then backref_check_loop ctx k
      else
        add_p (SIZE_MEMNUM * k)
        pure true

/-- The arm `case OP_BACKREF_CHECK`. -/
def op_BACKREF_CHECK (ctx : Ctx) : M Unit := do
  let tlen ← GET_LENGTH_INC ctx
  let found ← backref_check_loop ctx tlen.toNat
  if !found then goto .fail

/-- The arm `case OP_BACKREF_CHECK_WITH_LEVEL`. -/
def op_BACKREF_CHECK_WITH_LEVEL (ctx : Ctx) : M Unit := do
  let level ← GET_LENGTH_INC ctx
  let tlen ← GET_LENGTH_INC ctx
  let st ← getS
  let r ← liftO (backref_check_at_nested_level_loop ctx st level tlen.toNat st.p st.stk 0)
  if r then add_p (SIZE_MEMNUM * tlen) else goto .fail


/-! ## Empty-loop guard, control flow, repetition, assertions, calls -/

/-- The arm `case OP_EMPTY_CHECK_START`. -/
def op_EMPTY_CHECK_START (ctx : Ctx) : M Unit := do
  let mem ← GET_MEMNUM_INC ctx
  let st ← getS
  STACK_PUSH_EMPTY_CHECK_START ctx mem st.s

/-- The code at the label `empty_check_found`: skip the next instruction. -/
def empty_check_found (ctx : Ctx) : M Unit := do
  let st ← getS
  let b ← liftO (getI ctx.reg.p st.p)
  add_p 1
  match OpCode.ofByte b with
  | some .JUMP => add_p SIZE_RELADDR
  | some .PUSH => add_p SIZE_RELADDR
  | some .REPEAT_INC => add_p SIZE_MEMNUM
  | some .REPEAT_INC_NG => add_p SIZE_MEMNUM
  | some .REPEAT_INC_SG => add_p SIZE_MEMNUM
  | some .REPEAT_INC_NG_SG => add_p SIZE_MEMNUM
  | _ => goto (.err ONIGERR_UNEXPECTED_BYTECODE)

/-- The arm `case OP_EMPTY_CHECK_END`. -/
def op_EMPTY_CHECK_END (ctx : Ctx) : M Unit := do
  let mem ← GET_MEMNUM_INC ctx
  let st ← getS
  let is_empty ← STACK_EMPTY_CHECK mem st.s
  if is_empty ≠ 0 then empty_check_found ctx

/-- The arm `case OP_EMPTY_CHECK_END_MEMST`. -/
def op_EMPTY_CHECK_END_MEMST (ctx : Ctx) : M Unit := do
  let mem ← GET_MEMNUM_INC ctx
  let st ← getS
  let is_empty ← STACK_EMPTY_CHECK_MEMST ctx.reg mem st.s
  if is_empty ≠ 0 then
    if is_empty = -1 then goto .fail
    empty_check_found ctx

/-- The arm `case OP_EMPTY_CHECK_END_MEMST_PUSH`. -/
def op_EMPTY_CHECK_END_MEMST_PUSH (ctx : Ctx) : M Unit := do
  let mem ← GET_MEMNUM_INC ctx
  let st ← getS
  let is_empty ← STACK_EMPTY_CHECK_MEMST_REC ctx.reg mem st.s
  if is_empty ≠ 0 then
    if is_empty = -1 then goto .fail
    empty_check_found ctx
  else
    STACK_PUSH_EMPTY_CHECK_END ctx mem

/-- Modelled from the spec: the macro `CHECK_INTERRUPT_IN_MATCH_AT` of
regint.h, the optional interrupt hook; no hook is installed. -/
def CHECK_INTERRUPT_IN_MATCH_AT : M Unit := pure ()

/-- The arm `case OP_JUMP`. -/
def op_JUMP (ctx : Ctx) : M Unit := do
  let addr ← GET_RELADDR_INC ctx
  add_p addr
  CHECK_INTERRUPT_IN_MATCH_AT

/-- The arm `case OP_PUSH`. -/
def op_PUSH (ctx : Ctx) : M Unit := do
  let addr ← GET_RELADDR_INC ctx
  let st ← getS
  STACK_PUSH_ALT ctx (st.p + addr) st.s st.sprev

/-- The arm `case OP_POP`. -/
def op_POP : M Unit := STACK_POP_ONE

/-- The arm `case OP_PUSH_OR_JUMP_EXACT1`. -/
def op_PUSH_OR_JUMP_EXACT1 (ctx : Ctx) : M Unit := do
  let addr ← GET_RELADDR_INC ctx
  let st ← getS
  let c ← liftO (getI ctx.reg.p st.p)
  let b ← rd_s ctx
  if c = b ∧ DATA_ENSURE_CHECK1 st then
    add_p 1
    STACK_PUSH_ALT ctx (st.p + 1 + addr) st.s st.sprev
  else
    add_p (addr + 1)

/-- The arm `case OP_PUSH_IF_PEEK_NEXT`. -/
def op_PUSH_IF_PEEK_NEXT (ctx : Ctx) : M Unit := do
  let addr ← GET_RELADDR_INC ctx
  let st ← getS
  let c ← liftO (getI ctx.reg.p st.p)
  let b ← rd_s ctx
  if c = b then
    add_p 1
    STACK_PUSH_ALT ctx (st.p + 1 + addr) st.s st.sprev
  else
    add_p 1

/-- The statements `STACK_ENSURE(1); repeat_stk[mem] = GET_STACK_INDEX(stk);
STACK_PUSH_REPEAT(mem, p)` of `OP_REPEAT` and `OP_REPEAT_NG`. -/
def repeat_start (ctx : Ctx) (mem : Int) : M Unit := do
  STACK_ENSURE ctx 1
  let st ← getS
  let rs ← liftO (setI st.repeat_stk mem (some (st.stk : Int)))
  modS (fun st => { st with repeat_stk := rs })
  STACK_PUSH_REPEAT ctx mem st.p

/-- The arm `case OP_REPEAT`. -/
def op_REPEAT (ctx : Ctx) : M Unit := do
  let mem ← GET_MEMNUM_INC ctx
  let addr ← GET_RELADDR_INC ctx
  repeat_start ctx mem
  let rr ← liftO (getI ctx.reg.repeat_range mem)
  if rr.lower = 0 then
    let st ← getS
    STACK_PUSH_ALT ctx (st.p + addr) st.s st.sprev

/-- The arm `case OP_REPEAT_NG`. -/
def op_REPEAT_NG (ctx : Ctx) : M Unit := do
  let mem ← GET_MEMNUM_INC ctx
  let addr ← GET_RELADDR_INC ctx
  repeat_start ctx mem
  let rr ← liftO (getI ctx.reg.repeat_range mem)
  if rr.lower = 0 then
    let st ← getS
    STACK_PUSH_ALT ctx st.p st.s st.sprev
    add_p addr

/-- The statement `stkp->u.repeat.count++` on the frame at `si`; the result
is the frame after it. -/
def repeat_count_inc (si : Int) : M (Int × Int) := do
  let st ← getS
  let fr ← liftO (STACK_AT st si)
  match fr.u with
  | .repeat_ count pcode num =>
    let stack ← liftO (setI st.stack si (some ⟨fr.type, .repeat_ (count + 1) pcode num⟩))
    modS (fun st => { st with stack := stack })
    pure (count + 1, pcode)
  | _ => goto Exit.undef

/-- The field `STACK_AT(si)->u.repeat.pcode`. -/
def repeat_pcode (si : Int) : M Int := do
  let st ← getS
  let fr ← liftO (STACK_AT st si)
  match fr.u with
  | .repeat_ _ pcode _ => pure pcode
  | _ => goto Exit.undef

/-- The code from the label `repeat_inc` to the `continue`. -/
def repeat_inc (ctx : Ctx) (mem : Int) (si : Int) : M Unit := do
  let cp ← repeat_count_inc si
  let rr ← liftO (getI ctx.reg.repeat_range mem)
  if cp.1 ≥ rr.upper then
    pure ()
  else if cp.1 ≥ rr.lower then
    let st ← getS
    STACK_PUSH_ALT ctx st.p st.s st.sprev
    let pcode ← repeat_pcode si
    modS (fun st => { st with p := pcode })
  else
    modS (fun st => { st with p := cp.2 })
  STACK_PUSH_REPEAT_INC ctx si
  CHECK_INTERRUPT_IN_MATCH_AT

/-- The arm `case OP_REPEAT_INC`. -/
def op_REPEAT_INC (ctx : Ctx) : M Unit := do
  let mem ← GET_MEMNUM_INC ctx
  let st ← getS
  let si ← liftO (ptr_get st.repeat_stk mem)
  repeat_inc ctx mem si

/-- The arm `case OP_REPEAT_INC_SG`. -/
def op_REPEAT_INC_SG (ctx : Ctx) : M Unit := do
  let mem ← GET_MEMNUM_INC ctx
  let stkp ← STACK_GET_REPEAT mem
  repeat_inc ctx mem stkp

/-- The code from the label `repeat_inc_ng` to the `continue`. -/
def repeat_inc_ng (ctx : Ctx) (mem : Int) (si : Int) : M Unit := do
  let cp ← repeat_count_inc si
  let rr ← liftO (getI ctx.reg.repeat_range mem)
  if cp.1 < rr.upper then
    if cp.1 ≥ rr.lower then
      STACK_PUSH_REPEAT_INC ctx si
      let st ← getS
      STACK_PUSH_ALT ctx cp.2 st.s st.sprev
    else
      modS (fun st => { st with p := cp.2 })
      STACK_PUSH_REPEAT_INC ctx si
  else if cp.1 = rr.upper then
    STACK_PUSH_REPEAT_INC ctx si
  CHECK_INTERRUPT_IN_MATCH_AT

/-- The arm `case OP_REPEAT_INC_NG`. -/
def op_REPEAT_INC_NG (ctx : Ctx) : M Unit := do
  let mem ← GET_MEMNUM_INC ctx
  let st ← getS
  let si ← liftO (ptr_get st.repeat_stk mem)
  repeat_inc_ng ctx mem si

/-- The arm `case OP_REPEAT_INC_NG_SG`. -/
def op_REPEAT_INC_NG_SG (ctx : Ctx) : M Unit := do
  let mem ← GET_MEMNUM_INC ctx
  let stkp ← STACK_GET_REPEAT mem
  repeat_inc_ng ctx mem stkp

/-- The arm `case OP_PUSH_POS`. -/
def op_PUSH_POS (ctx : Ctx) : M Unit := do
  let st ← getS
  STACK_PUSH_POS ctx st.s st.sprev

/-- The arm `case OP_POP_POS`. -/
def op_POP_POS : M Unit := do
  let stkp ← STACK_POS_END
  match stkp.u with
  | .state _ pstr pstr_prev => modS (fun st => { st with s := pstr, sprev := pstr_prev })
  | _ => goto Exit.undef

/-- The arm `case OP_PUSH_PREC_READ_NOT`. -/
def op_PUSH_PREC_READ_NOT (ctx : Ctx) : M Unit := do
  let addr ← GET_RELADDR_INC ctx
  let st ← getS
  STACK_PUSH_ALT_PREC_READ_NOT ctx (st.p + addr) st.s st.sprev

/-- The arm `case OP_FAIL_PREC_READ_NOT`. -/
def op_FAIL_PREC_READ_NOT : M Unit := do
  STACK_POP_TIL_ALT_PREC_READ_NOT
  goto .fail

/-- The arm `case OP_PUSH_STOP_BT`. -/
def op_PUSH_STOP_BT (ctx : Ctx) : M Unit := STACK_PUSH_STOP_BT ctx

/-- The arm `case OP_POP_STOP_BT`. -/
def op_POP_STOP_BT : M Unit := STACK_STOP_BT_END

/-- The arm `case OP_LOOK_BEHIND`. -/
def op_LOOK_BEHIND (ctx : Ctx) : M Unit := do
  let tlen ← GET_LENGTH_INC ctx
  let st ← getS
  let s := ctx.reg.enc.step_back ctx.x ctx.x.str st.s tlen
  modS (fun st => { st with s := s })
  if s = 0 then goto .fail
  set_sprev (ctx.reg.enc.prev_char_head ctx.x ctx.x.str s)

/-- The arm `case OP_PUSH_LOOK_BEHIND_NOT`. -/
def op_PUSH_LOOK_BEHIND_NOT (ctx : Ctx) : M Unit := do
  let addr ← GET_RELADDR_INC ctx
  let tlen ← GET_LENGTH_INC ctx
  let st ← getS
  let q := ctx.reg.enc.step_back ctx.x ctx.x.str st.s tlen
  if q = 0 then
    add_p addr
  else
    STACK_PUSH_ALT_LOOK_BEHIND_NOT ctx (st.p + addr) st.s st.sprev
    modS (fun st => { st with s := q,
                              sprev := ctx.reg.enc.prev_char_head ctx.x ctx.x.str q })

/-- The arm `case OP_FAIL_LOOK_BEHIND_NOT`. -/
def op_FAIL_LOOK_BEHIND_NOT : M Unit := do
  STACK_POP_TIL_ALT_LOOK_BEHIND_NOT
  goto .fail

/-- The arm `case OP_CALL`. -/
def op_CALL (ctx : Ctx) : M Unit := do
  let addr ← GET_ABSADDR_INC ctx
  let st ← getS
  STACK_PUSH_CALL_FRAME ctx st.p
  modS (fun st => { st with p := addr })

/-- The arm `case OP_RETURN`. -/
def op_RETURN (ctx : Ctx) : M Unit := do
  let addr ← STACK_RETURN
  modS (fun st => { st with p := addr })
  STACK_PUSH_RETURN ctx

/-- The arm `case OP_PUSH_SAVE_VAL`. -/
def op_PUSH_SAVE_VAL (ctx : Ctx) : M Unit := do
  let type ← GET_SAVE_TYPE_INC ctx
  let mem ← GET_MEMNUM_INC ctx
  STACK_ENSURE ctx 1
  let st ← getS
  if type = SAVE_KEEP ∨ type = SAVE_S then
    STACK_PUSH_SAVE_VAL mem type st.s
  else if type = SAVE_RIGHT_RANGE then
    modS (fun st => { st with right_range_index := st.stk })
    STACK_PUSH_SAVE_VAL mem SAVE_RIGHT_RANGE st.right_range

/-- The arm `case OP_UPDATE_VAR`. -/
def op_UPDATE_VAR (ctx : Ctx) : M Unit := do
  let type ← GET_UPDATE_VAR_TYPE_INC ctx
  let mem ← GET_MEMNUM_INC ctx
  let st ← getS
  if type = UPDATE_VAR_KEEP_FROM_STACK_LAST then
    let v ← liftO (STACK_GET_SAVE_VAL_TYPE_LAST_loop st SAVE_KEEP st.keep st.stk)
    modS (fun st => { st with keep := v })
  else if type = UPDATE_VAR_S_FROM_STACK_LAST then
    let v ← liftO (STACK_GET_SAVE_VAL_TYPE_LAST_ID_loop st SAVE_S mem st.s st.stk 0)
    modS (fun st => { st with s := v })
  else if type = UPDATE_VAR_RIGHT_RANGE_FROM_STACK_LAST then
    let from_ : Nat :=
      if st.right_range_index ≠ INVALID_STACK_INDEX ∧ st.right_range_index < st.stk then
        st.right_range_index.toNat
      else st.stk
    let v ← liftO (STACK_GET_SAVE_VAL_TYPE_LAST_ID_FROM_loop st SAVE_RIGHT_RANGE mem
      st.right_range from_)
    modS (fun st => { st with right_range := v })
  else if type = UPDATE_VAR_RIGHT_RANGE_SPREV then
    modS (fun st => { st with right_range := st.sprev })

/-- The code at the label `fail` (`case OP_FAIL`): `STACK_POP; p =
stk->u.state.pcode; s = stk->u.state.pstr; sprev = stk->u.state.pstr_prev;`.
When the popped frame is the bottom frame, whose `pstr` and `pstr_prev` were
never written, `s` and `sprev` get what those fields held
(`Env.unwritten_pstr`, `Env.unwritten_pstr_prev`). -/
def op_FAIL (ctx : Ctx) : M Unit := do
  STACK_POP ctx.reg.stack_pop_level
  let st ← getS
  let fr ← liftO (STACK_AT st st.stk)
  match fr.u with
  | .state pcode pstr pstr_prev =>
    modS (fun st => { st with p := pcode, s := pstr, sprev := pstr_prev })
  | .state_pcode pcode =>
    modS (fun st => { st with p := pcode, s := ctx.env.unwritten_pstr,
                              sprev := ctx.env.unwritten_pstr_prev })
  | _ => goto Exit.undef


/-! ## `OP_END`, the dispatch loop, `match_at` and `onig_match` -/

/-- The block `alloc_base`: the three index arrays and the stack memory. -/
structure StackBlock where
  repeat_stk : List (Option Int)
  mem_start_stk : List (Option Int)
  mem_end_stk : List (Option Int)
  stack : List (Option StackType)

/-- The match argument `OnigMatchArg`. -/
structure OnigMatchArg where
  stack_p : Option StackBlock
  stack_n : Nat
  options : Nat
  region : RegionArg
  start : Int
  best_len : Int
  best_s : Int
  ptr_num : Int

/-- The macro `MATCH_ARG_INIT(msa, reg, arg_option, arg_region, arg_start)`;
`stack_n` and `best_s` are not initialised. -/
def MATCH_ARG_INIT (reg : regex_t) (arg_option : Nat) (arg_region : RegionArg)
    (arg_start : Int) : OnigMatchArg :=
  { stack_p := none, stack_n := 0, options := arg_option, region := arg_region,
    start := arg_start, best_len := ONIG_MISMATCH, best_s := 0,
    ptr_num := reg.num_repeat + (reg.num_mem + 1) * 2 }

/-- What `OP_END` writes besides the locals: the local `best_len`, the fields
`best_len` and `best_s` of the match argument, and the region. -/
structure MatchOut where
  best_len : Int
  msa_best_len : Int
  msa_best_s : Int
  region : RegionArg

/-- The function `make_capture_history_tree(node, kp, stk_top, str, reg)`
with `k = *kp`: the result `r`, the node, and `*kp` on return.  Each call
handles the frame `k` and goes on; `fuel` bounds the calls. -/
def make_capture_history_tree (reg : regex_t) (st : MatchState) (str : Int)
    (stk_top : Nat) :
    Nat → OnigCaptureTreeNode → Nat → Option (Int × OnigCaptureTreeNode × Nat)
  | 0, _, _ => none
  | fuel + 1, .node group beg end_ childs, k =>
    if k < stk_top then
      match STACK_AT st k with
      | none => none
      | some fr =>
        if fr.type = STK_MEM_START then
          match fr.u with
          | .mem n pstr _ _ =>
            if n ≤ ONIG_MAX_CAPTURE_HISTORY_GROUP ∧ MEM_STATUS_AT reg.capture_history n then
              match make_capture_history_tree reg st str stk_top fuel
                  (.node n (pstr - str) ONIG_REGION_NOTPOS []) (k + 1) with
              | none => none
              | some (r, .node cg cb ce cc, k1) =>
                if r ≠ 0 then some (r, .node group beg end_ (childs ++ [.node cg cb ce cc]), k1)
                else
                  match (STACK_AT st k1).bind (fun f => f.u.get_mem_pstr) with
                  | none => none
                  | some pe =>
                    make_capture_history_tree reg st str stk_top fuel
                      (.node group beg end_ (childs ++ [.node cg cb (pe - str) cc])) (k1 + 1)
            else
              make_capture_history_tree reg st str stk_top fuel
                (.node group beg end_ childs) (k + 1)
          | _ => none
        else if fr.type = STK_MEM_END then
          match fr.u with
          | .mem n pstr _ _ =>
            if n = group then some (0, .node group beg (pstr - str) childs, k)
            else
              make_capture_history_tree reg st str stk_top fuel
                (.node group beg end_ childs) (k + 1)
          | _ => none
        else
          make_capture_history_tree reg st str stk_top fuel
            (.node group beg end_ childs) (k + 1)
    else some (1, .node group beg end_ childs, k)

/-- The loop `for (i = 1; i <= num_mem; i++)` of `OP_END` on a region, with
`n` rounds left. -/
def end_region_loop (ctx : Ctx) (st : MatchState) : Nat → Int → OnigRegion →
    Option OnigRegion
  | 0, _, region => some region
  | n + 1, i, region =>
    match ptr_get st.mem_end_stk i with
    | none => none
    | some e =>
      if e ≠ INVALID_STACK_INDEX then
        match mem_pstart ctx st i, mem_pend ctx st i with
        | some pstart, some pend =>
          match setI region.beg i (pstart - ctx.x.str), setI region.end_ i (pend - ctx.x.str) with
          | some b, some e =>
            end_region_loop ctx st n (i + 1) { region with beg := b, end_ := e }
          | _, _ => none
        | _, _ => none
      else
        match setI region.beg i ONIG_REGION_NOTPOS, setI region.end_ i ONIG_REGION_NOTPOS with
        | some b, some e =>
          end_region_loop ctx st n (i + 1) { region with beg := b, end_ := e }
        | _, _ => none

/-- The same loop on an array of `posix_regmatch_t`. -/
def end_posix_loop (ctx : Ctx) (st : MatchState) : Nat → Int → List (Int × Int) →
    Option (List (Int × Int))
  | 0, _, rmt => some rmt
  | n + 1, i, rmt =>
    match ptr_get st.mem_end_stk i with
    | none => none
    | some e =>
      if e ≠ INVALID_STACK_INDEX then
        match mem_pstart ctx st i, mem_pend ctx st i with
        | some pstart, some pend =>
          match setI rmt i (pstart - ctx.x.str, pend - ctx.x.str) with
          | some rmt1 => end_posix_loop ctx st n (i + 1) rmt1
          | none => none
        | _, _ => none
      else
        match setI rmt i (ONIG_REGION_NOTPOS, ONIG_REGION_NOTPOS) with
        | some rmt1 => end_posix_loop ctx st n (i + 1) rmt1
        | none => none

/-- The block `if (region) { .. }` of `OP_END` after `keep` was lowered to
`s`: the region as committed; `none` is undefined. -/
def end_commit (ctx : Ctx) (st : MatchState) (region : RegionArg) : Option RegionArg :=
  match region with
  | .null => some .null
  | .posix rmt =>
    if IS_POSIX_REGION ctx.msa_options then
      match setI rmt 0 (st.keep - ctx.x.str, st.s - ctx.x.str) with
      | some rmt1 => (end_posix_loop ctx st ctx.reg.num_mem 1 rmt1).map RegionArg.posix
      | none => none
    else none
  | .onig r =>
    if IS_POSIX_REGION ctx.msa_options then none
    else
      match setI r.beg 0 (st.keep - ctx.x.str), setI r.end_ 0 (st.s - ctx.x.str) with
      | some b, some e =>
        match end_region_loop ctx st ctx.reg.num_mem 1 { r with beg := b, end_ := e } with
        | some r1 =>
          if ctx.reg.capture_history ≠ 0 then
            match make_capture_history_tree ctx.reg st ctx.x.str st.stk (st.stk + 1)
                (.node 0 (st.keep - ctx.x.str) (st.s - ctx.x.str) []) 0 with
            | some (_, root, _) => some (.onig { r1 with history_root := some root })
            | none => none
          else some (.onig r1)
        | none => none
      | _, _ => none

/-- The exit of an opcode arm together with what it wrote. -/
structure EndResult where
  e : Exit
  st : MatchState
  out : MatchOut

/-- The code from the label `end_best_len` to the `goto finish`. -/
def end_best_len (ctx : Ctx) (st : MatchState) (out : MatchOut) : EndResult :=
  if IS_FIND_CONDITION ctx.reg.options then
    if IS_FIND_NOT_EMPTY ctx.reg.options ∧ st.s = ctx.sstart then
      ⟨.fail, st, { out with best_len := ONIG_MISMATCH }⟩
    else if IS_FIND_LONGEST ctx.reg.options ∧ DATA_ENSURE_CHECK1 st then
      ⟨.fail, st, out⟩
    else ⟨.finish, st, out⟩
  else ⟨.finish, st, out⟩

/-- The assignments `msa->best_len = n; msa->best_s = sstart` (with
`ONIG_OPTION_FIND_LONGEST`) and `best_len = n` of `OP_END`. -/
def end_new_best (ctx : Ctx) (st : MatchState) (out : MatchOut) : MatchOut :=
  let n := st.s - ctx.sstart
  let out := if IS_FIND_LONGEST ctx.reg.options then
      { out with msa_best_len := n, msa_best_s := ctx.sstart }
    else out
  { out with best_len := n }

/-- The code `region = msa->region; if (region) { .. }` of `OP_END` down to
the `goto finish`. -/
def end_region (ctx : Ctx) (st : MatchState) (out : MatchOut) : EndResult :=
  match out.region with
  | .null => end_best_len ctx st out
  | region =>
    let st := if st.keep > st.s then { st with keep := st.s } else st
    match end_commit ctx st region with
    | some region1 => end_best_len ctx st { out with region := region1 }
    | none => ⟨.undef, st, out⟩

/-- The arm `case OP_END`. -/
def op_END (ctx : Ctx) (st : MatchState) (out : MatchOut) : EndResult :=
  let n := st.s - ctx.sstart
  if n > out.best_len then
    if IS_FIND_LONGEST ctx.reg.options ∧ ¬ (n > out.msa_best_len) then
      end_best_len ctx st out
    else end_region ctx st (end_new_best ctx st out)
  else end_best_len ctx st out

/-- The arm of the `switch` for an opcode other than `OP_END`, with the
statement `sprev = sbegin` that follows the `switch` for the arms that end
in `break`. -/
def dispatch (ctx : Ctx) (op : OpCode) (sbegin : Int) : M Unit :=
  match op with
  | .FINISH => goto .finish
  | .END => goto Exit.undef
  | .EXACT1 => do op_EXACT1 ctx; set_sprev sbegin
  | .EXACT2 => op_EXACT2 ctx
  | .EXACT3 => op_EXACT3 ctx
  | .EXACT4 => op_EXACT4 ctx
  | .EXACT5 => op_EXACT5 ctx
  | .EXACTN => op_EXACTN ctx
  | .EXACTMB2N1 => do op_EXACTMB2N1 ctx; set_sprev sbegin
  | .EXACTMB2N2 => op_EXACTMB2N2 ctx
  | .EXACTMB2N3 => op_EXACTMB2N3 ctx
  | .EXACTMB2N => op_EXACTMB2N ctx
  | .EXACTMB3N => op_EXACTMB3N ctx
  | .EXACTMBN => op_EXACTMBN ctx
  | .EXACT1_IC => do op_EXACT1_IC ctx; set_sprev sbegin
  | .EXACTN_IC => op_EXACTN_IC ctx
  | .CCLASS => do op_CCLASS ctx; set_sprev sbegin
  | .CCLASS_MB => do op_CCLASS_MB ctx; set_sprev sbegin
  | .CCLASS_MIX => do op_CCLASS_MIX ctx; set_sprev sbegin
  | .CCLASS_NOT => do op_CCLASS_NOT ctx; set_sprev sbegin
  | .CCLASS_MB_NOT => do op_CCLASS_MB_NOT ctx; set_sprev sbegin
  | .CCLASS_MIX_NOT => do op_CCLASS_MIX_NOT ctx; set_sprev sbegin
  | .CCLASS_NODE => do op_CCLASS_NODE ctx; set_sprev sbegin
  | .ANYCHAR => do op_ANYCHAR ctx; set_sprev sbegin
  | .ANYCHAR_ML => do op_ANYCHAR_ML ctx; set_sprev sbegin
  | .ANYCHAR_STAR => do op_ANYCHAR_STAR ctx; set_sprev sbegin
  | .ANYCHAR_ML_STAR => do op_ANYCHAR_ML_STAR ctx; set_sprev sbegin
  | .ANYCHAR_STAR_PEEK_NEXT => do op_ANYCHAR_STAR_PEEK_NEXT ctx; set_sprev sbegin
  | .ANYCHAR_ML_STAR_PEEK_NEXT => do op_ANYCHAR_ML_STAR_PEEK_NEXT ctx; set_sprev sbegin
  | .WORD => do op_WORD ctx; set_sprev sbegin
  | .NOT_WORD => do op_NOT_WORD ctx; set_sprev sbegin
  | .WORD_BOUND => op_WORD_BOUND ctx
  | .NOT_WORD_BOUND => op_NOT_WORD_BOUND ctx
  | .WORD_BEGIN => op_WORD_BEGIN ctx
  | .WORD_END => op_WORD_END ctx
  | .BEGIN_BUF => op_BEGIN_BUF ctx
  | .END_BUF => op_END_BUF ctx
  | .BEGIN_LINE => op_BEGIN_LINE ctx
  | .END_LINE => op_END_LINE ctx
  | .SEMI_END_BUF => op_SEMI_END_BUF ctx
  | .BEGIN_POSITION => op_BEGIN_POSITION ctx
  | .BACKREF1 => backref ctx 1
  | .BACKREF2 => backref ctx 2
  | .BACKREF_N => op_BACKREF_N ctx
  | .BACKREF_N_IC => op_BACKREF_N_IC ctx
  | .BACKREF_MULTI => op_BACKREF_MULTI ctx
  | .BACKREF_MULTI_IC => op_BACKREF_MULTI_IC ctx
  | .BACKREF_WITH_LEVEL => op_BACKREF_WITH_LEVEL ctx
  | .BACKREF_CHECK => op_BACKREF_CHECK ctx
  | .BACKREF_CHECK_WITH_LEVEL => op_BACKREF_CHECK_WITH_LEVEL ctx
  | .MEMORY_START => op_MEMORY_START ctx
  | .MEMORY_START_PUSH => op_MEMORY_START_PUSH ctx
  | .MEMORY_END_PUSH => op_MEMORY_END_PUSH ctx
  | .MEMORY_END_PUSH_REC => op_MEMORY_END_PUSH_REC ctx
  | .MEMORY_END => op_MEMORY_END ctx
  | .MEMORY_END_REC => op_MEMORY_END_REC ctx
  | .FAIL => goto .fail
  | .JUMP => op_JUMP ctx
  | .PUSH => op_PUSH ctx
  | .POP => op_POP
  | .PUSH_OR_JUMP_EXACT1 => op_PUSH_OR_JUMP_EXACT1 ctx
  | .PUSH_IF_PEEK_NEXT => op_PUSH_IF_PEEK_NEXT ctx
  | .REPEAT => op_REPEAT ctx
  | .REPEAT_NG => op_REPEAT_NG ctx
  | .REPEAT_INC => op_REPEAT_INC ctx
  | .REPEAT_INC_NG => op_REPEAT_INC_NG ctx
  | .REPEAT_INC_SG => op_REPEAT_INC_SG ctx
  | .REPEAT_INC_NG_SG => op_REPEAT_INC_NG_SG ctx
  | .EMPTY_CHECK_START => op_EMPTY_CHECK_START ctx
  | .EMPTY_CHECK_END => op_EMPTY_CHECK_END ctx
  | .EMPTY_CHECK_END_MEMST => op_EMPTY_CHECK_END_MEMST ctx
  | .EMPTY_CHECK_END_MEMST_PUSH => op_EMPTY_CHECK_END_MEMST_PUSH ctx
  | .PUSH_POS => op_PUSH_POS ctx
  | .POP_POS => op_POP_POS
  | .PUSH_PREC_READ_NOT => op_PUSH_PREC_READ_NOT ctx
  | .FAIL_PREC_READ_NOT => op_FAIL_PREC_READ_NOT
  | .PUSH_STOP_BT => op_PUSH_STOP_BT ctx
  | .POP_STOP_BT => op_POP_STOP_BT
  | .LOOK_BEHIND => op_LOOK_BEHIND ctx
  | .PUSH_LOOK_BEHIND_NOT => op_PUSH_LOOK_BEHIND_NOT ctx
  | .FAIL_LOOK_BEHIND_NOT => op_FAIL_LOOK_BEHIND_NOT
  | .CALL => op_CALL ctx
  | .RETURN => op_RETURN ctx
  | .PUSH_SAVE_VAL => op_PUSH_SAVE_VAL ctx
  | .UPDATE_VAR => op_UPDATE_VAR ctx
  | .STATE_CHECK_PUSH => goto (.err ONIGERR_UNDEFINED_BYTECODE)
  | .STATE_CHECK_PUSH_OR_JUMP => goto (.err ONIGERR_UNDEFINED_BYTECODE)
  | .STATE_CHECK => goto (.err ONIGERR_UNDEFINED_BYTECODE)
  | .STATE_CHECK_ANYCHAR_STAR => goto (.err ONIGERR_UNDEFINED_BYTECODE)
  | .STATE_CHECK_ANYCHAR_ML_STAR => goto (.err ONIGERR_UNDEFINED_BYTECODE)
  | .SET_OPTION_PUSH => goto (.err ONIGERR_UNDEFINED_BYTECODE)
  | .SET_OPTION => goto (.err ONIGERR_UNDEFINED_BYTECODE)

/-- How one round of the loop `while (1)` ends: the loop goes on, or
`match_at` is left through `e`. -/
inductive StepResult where
  | cont (st : MatchState) (out : MatchOut)
  | stop (e : Exit) (st : MatchState) (out : MatchOut)

/-- What follows an arm that left the straight line: the code at the label
`fail` for `goto fail`, else the exit itself. -/
def after_arm (ctx : Ctx) (e : Exit) (st : MatchState) (out : MatchOut) : StepResult :=
  match e with
  | .fail =>
    match op_FAIL ctx st with
    | .ok _ st1 => .cont st1 out
    | .exit e1 st1 => .stop e1 st1 out
  | e => .stop e st out

/-- One round of the loop `while (1)` of `match_at`: `sbegin = s`, the
`switch (*p++)`, and the code at `fail` when the arm went there. -/
def match_at_step (ctx : Ctx) (st : MatchState) (out : MatchOut) : StepResult :=
  let sbegin := st.s
  match opcode_at ctx.reg st.p with
  | none => .stop .undef st out
  | some b =>
    let st := { st with p := st.p + 1 }
    match OpCode.ofByte b with
    | none => .stop (.err ONIGERR_UNDEFINED_BYTECODE) st out
    | some .END =>
      let r := op_END ctx st out
      after_arm ctx r.e r.st r.out
    | some op =>
      match dispatch ctx op sbegin st with
      | .ok _ st1 => .cont st1 out
      | .exit e st1 => after_arm ctx e st1 out

/-- The loop `while (1)` of `match_at`, at most `fuel` rounds. -/
def match_at_loop (ctx : Ctx) : Nat → MatchState → MatchOut → Exit × MatchState × MatchOut
  | 0, st, out => (.nofuel, st, out)
  | fuel + 1, st, out =>
    match match_at_step ctx st out with
    | .cont st1 out1 => match_at_loop ctx fuel st1 out1
    | .stop e st1 out1 => (e, st1, out1)

/-- The result of a function of the engine: its value, undefined behaviour,
or the end of the fuel of the model. -/
inductive Outcome (α : Type) where
  | done (a : α)
  | undef
  | nofuel

/-- The loop `for (i = 1; i <= num_mem; i++)` at the head of `match_at` on
one of the two arrays. -/
def init_mem_stk (l : List (Option Int)) (num_mem : Nat) : List (Option Int) :=
  l.enum.map (fun iv => if 1 ≤ iv.1 ∧ iv.1 ≤ num_mem then some INVALID_STACK_INDEX else iv.2)

/-- The locals of `match_at` after `STACK_INIT`, `UPDATE_FOR_STACK_REALLOC`
and the initialisations, before the bottom frame is pushed. -/
def match_at_init (reg : regex_t) (in_right_range : Int) (sstart : Int) (sprev : Int)
    (msa : OnigMatchArg) : MatchState :=
  let blk : StackBlock :=
    match msa.stack_p with
    | some blk => blk
    | none =>
      { repeat_stk := List.replicate reg.num_repeat none,
        mem_start_stk := List.replicate (reg.num_mem + 1) none,
        mem_end_stk := List.replicate (reg.num_mem + 1) none,
        stack := List.replicate INIT_MATCH_STACK_SIZE none }
  { p := 0, s := sstart, sprev := sprev, keep := sstart,
    right_range := in_right_range, right_range_index := INVALID_STACK_INDEX,
    stk := 0,
    stk_end := match msa.stack_p with
      | some _ => msa.stack_n
      | none => INIT_MATCH_STACK_SIZE,
    is_alloca := match msa.stack_p with
      | some _ => false
      | none => !(decide (msa.ptr_num > ALLOCA_PTR_NUM_LIMIT)),
    stack := blk.stack,
    repeat_stk := blk.repeat_stk,
    mem_start_stk := init_mem_stk blk.mem_start_stk reg.num_mem,
    mem_end_stk := init_mem_stk blk.mem_end_stk reg.num_mem }

/-- The macro `STACK_SAVE` and the fields of the match argument that
`match_at` leaves behind. -/
def STACK_SAVE (msa : OnigMatchArg) (st : MatchState) (out : MatchOut) : OnigMatchArg :=
  { msa with
    stack_n := st.stk_end,
    stack_p := some { repeat_stk := st.repeat_stk, mem_start_stk := st.mem_start_stk,
                      mem_end_stk := st.mem_end_stk, stack := st.stack },
    region := out.region, best_len := out.msa_best_len, best_s := out.msa_best_s }

/-- The function `match_at(reg, str, end, in_right_range, sstart, sprev, msa)`
and what it finds around it (`env`); the loop runs at most `fuel` rounds. -/
def match_at (env : Env) (fuel : Nat) (reg : regex_t) (x : Subject)
    (in_right_range : Int) (sstart : Int) (sprev : Int) (msa : OnigMatchArg) :
    Outcome (Int × OnigMatchArg) :=
  let ctx : Ctx := { reg := reg, x := x, sstart := sstart, msa_options := msa.options,
                     msa_start := msa.start, env := env }
  let out0 : MatchOut := { best_len := ONIG_MISMATCH, msa_best_len := msa.best_len,
                           msa_best_s := msa.best_s, region := msa.region }
  match STACK_PUSH_ENSURED STK_ALT FinishCode
      (match_at_init reg in_right_range sstart sprev msa) with
  | .exit _ _ => .undef
  | .ok _ st0 =>
    match match_at_loop ctx fuel st0 out0 with
    | (.finish, st, out) => .done (out.best_len, STACK_SAVE msa st out)
    | (.err r, st, out) => .done (r, STACK_SAVE msa st out)
    | (.nofuel, _, _) => .nofuel
    | (_, _, _) => Outcome.undef

/-- The statement `if (region && !IS_POSIX_REGION(option)) r =
onig_region_resize_clear(region, reg->num_mem + 1); else r = 0;` at the head
of `onig_match` and of `onig_search`: `r` and the region.  An array of
`posix_regmatch_t` passed without `ONIG_OPTION_POSIX_REGION` is undefined. -/
def region_prepare (reg : regex_t) (region : RegionArg) (option : Nat) :
    Option (Int × RegionArg) :=
  match region with
  | .onig r =>
    if !IS_POSIX_REGION option then
      let c := onig_region_resize_clear r (reg.num_mem + 1)
      some (c.1, .onig c.2)
    else some (0, region)
  | .posix _ => if !IS_POSIX_REGION option then none else some (0, region)
  | .null => some (0, region)

/-- The function `onig_match(reg, str, end, at, region, option)`: the value
returned and the region as the call leaves it. -/
def onig_match (env : Env) (fuel : Nat) (reg : regex_t) (x : Subject)
    (at_ : Int) (region : RegionArg) (option : Nat) : Outcome (Int × RegionArg) :=
  match region_prepare reg region option with
  | none => .undef
  | some (r, region) =>
    if r = 0 then
      if ONIG_IS_OPTION_ON option ONIG_OPTION_CHECK_VALIDITY_OF_STRING ∧
          ¬ reg.enc.is_valid_mbc_string x then
        .done (ONIGERR_INVALID_WIDE_CHAR_VALUE, region)
      else
        let msa := MATCH_ARG_INIT reg option region at_
        let prev := reg.enc.prev_char_head x x.str at_
        match match_at env fuel reg x x.end_ at_ prev msa with
        | .done (r, msa1) => .done (r, msa1.region)
        | .undef => .undef
        | .nofuel => .nofuel
    else .done (r, region)


/-! ## Prefix scanners

A scanner returns a pointer, `0` for null; the result `none` is undefined
behaviour (a read outside the subject or the literal) or a scan that does
not advance. -/

/-- Modelled from the spec: the configuration macro `USE_INT_MAP_BACKWARD`
of regint.h is not defined. -/
def USE_INT_MAP_BACKWARD : Bool := false

/-- The loop `while (t < target_end) { if (*t != *p++) break; t++; }` and the
test `t == target_end` over the rest `t ..` of the literal. -/
def match_rest (x : Subject) : List Nat → Int → Option Bool
  | [], _ => some true
  | t :: ts, p =>
    match x.rd p with
    | none => none
    | some b => if t ≠ b then some false else match_rest x ts (p + 1)

/-- The test of `slow_search` and `slow_search_backward` at `s`: the literal
`target` stands at `s`. -/
def match_here (x : Subject) (target : List Nat) (s : Int) : Option Bool :=
  match x.rd s, target with
  | some b, t :: ts => if b = t then match_rest x ts (s + 1) else some false
  | _, _ => none

/-- The loop `while (s < end)` of `slow_search`. -/
def slow_search_loop (enc : OnigEncodingType) (x : Subject) (target : List Nat)
    (end_ : Int) : Nat → Int → Option Int
  | 0, s => if s < end_ then none else some 0
  | k + 1, s =>
    if s < end_ then
      match match_here x target s with
      | none => none
      | some true => some s
      | some false =>
        match enc.mbc_enc_len x s with
        | none => none
        | some n => slow_search_loop enc x target end_ k (s + n)
    else some 0

/-- The function `slow_search(enc, target, target_end, text, text_end, text_range)`. -/
def slow_search (enc : OnigEncodingType) (x : Subject) (target : List Nat)
    (text : Int) (text_end : Int) (text_range : Int) : Option Int :=
  let end_ := text_end - ((target.length : Int) - 1)
  let end_ := if end_ > text_range then text_range else end_
  slow_search_loop enc x target end_ (end_ - text).toNat text

/-- The inner loop `while (lowlen > 0)` of `str_lower_case_match`: the rest
of the literal, or `none` at a difference (a read past the literal counts
as one). -/
def lower_case_prefix : List Nat → List Nat → Option (List Nat)
  | t, [] => some t
  | [], _ :: _ => none
  | t :: ts, q :: qs => if t ≠ q then none else lower_case_prefix ts qs

/-- The function `str_lower_case_match(enc, case_fold_flag, t, tend, p, end)`. -/
def str_lower_case_match (enc : OnigEncodingType) (case_fold_flag : Nat) (x : Subject)
    (end_ : Int) : Nat → List Nat → Int → Option Bool
  | 0, t, _ => if t.isEmpty then some true else none
  | k + 1, t, p =>
    if t.isEmpty then some true
    else
      match enc.mbc_case_fold case_fold_flag x p end_ with
      | none => none
      | some (p1, lowbuf) =>
        match lower_case_prefix t lowbuf with
        | none => some false
        | some t1 => str_lower_case_match enc case_fold_flag x end_ k t1 p1

/-- The loop `while (s < end)` of `slow_search_ic`. -/
def slow_search_ic_loop (enc : OnigEncodingType) (case_fold_flag : Nat) (x : Subject)
    (target : List Nat) (text_end : Int) (end_ : Int) : Nat → Int → Option Int
  | 0, s => if s < end_ then none else some 0
  | k + 1, s =>
    if s < end_ then
      match str_lower_case_match enc case_fold_flag x text_end target.length target s with
      | none => none
      | some true => some s
      | some false =>
        match enc.mbc_enc_len x s with
        | none => none
        | some n => slow_search_ic_loop enc case_fold_flag x target text_end end_ k (s + n)
    else some 0

/-- The function `slow_search_ic`. -/
def slow_search_ic (enc : OnigEncodingType) (case_fold_flag : Nat) (x : Subject)
    (target : List Nat) (text : Int) (text_end : Int) (text_range : Int) : Option Int :=
  let end_ := text_end - ((target.length : Int) - 1)
  let end_ := if end_ > text_range then text_range else end_
  slow_search_ic_loop enc case_fold_flag x target text_end end_ (end_ - text).toNat text

/-- The loop `while (s >= text)` of `slow_search_backward`. -/
def slow_search_backward_loop (enc : OnigEncodingType) (x : Subject) (target : List Nat)
    (text : Int) (adjust_text : Int) : Nat → Int → Option Int
  | 0, s => if s ≥ text then none else some 0
  | k + 1, s =>
    if s ≥ text then
      match match_here x target s with
      | none => none
      | some true => some s
      | some false =>
        slow_search_backward_loop enc x target text adjust_text k
          (enc.prev_char_head x adjust_text s)
    else some 0

/-- The function `slow_search_backward`. -/
def slow_search_backward (enc : OnigEncodingType) (x : Subject) (target : List Nat)
    (text : Int) (adjust_text : Int) (text_end : Int) (text_start : Int) : Option Int :=
  let s := text_end - (target.length : Int)
  let s := if s > text_start then text_start else enc.left_adjust_char_head x adjust_text s
  slow_search_backward_loop enc x target text adjust_text ((s - text).toNat + 1) s

/-- The loop `while (s >= text)` of `slow_search_backward_ic`. -/
def slow_search_backward_ic_loop (enc : OnigEncodingType) (case_fold_flag : Nat)
    (x : Subject) (target : List Nat) (text : Int) (adjust_text : Int) (text_end : Int) :
    Nat → Int → Option Int
  | 0, s => if s ≥ text then none else some 0
  | k + 1, s =>
    if s ≥ text then
      match str_lower_case_match enc case_fold_flag x text_end target.length target s with
      | none => none
      | some true => some s
      | some false =>
        slow_search_backward_ic_loop enc case_fold_flag x target text adjust_text text_end k
          (enc.prev_char_head x adjust_text s)
    else some 0

/-- The function `slow_search_backward_ic`. -/
def slow_search_backward_ic (enc : OnigEncodingType) (case_fold_flag : Nat) (x : Subject)
    (target : List Nat) (text : Int) (adjust_text : Int) (text_end : Int)
    (text_start : Int) : Option Int :=
  let s := text_end - (target.length : Int)
  let s := if s > text_start then text_start else enc.left_adjust_char_head x adjust_text s
  slow_search_backward_ic_loop enc case_fold_flag x target text adjust_text text_end
    ((s - text).toNat + 1) s

/-- The loop `while (*p == *t) { if (t == target) return ..; p--; t--; }` of
the Boyer-Moore scanners over the reversed literal `t, t-1, .., target`:
whether the literal ends at `p`. -/
def bm_match_back (x : Subject) : List Nat → Int → Option Bool
  | [], _ => none
  | [t], p =>
    match x.rd p with
    | none => none
    | some b => some (b = t)
  | t :: t1 :: ts, p =>
    match x.rd p with
    | none => none
    | some b => if b = t then bm_match_back x (t1 :: ts) (p - 1) else some false

/-- The skip `reg->map[c]`, or `reg->int_map[c]` when there is an `int_map`. -/
def bm_skip (reg : regex_t) (c : Nat) : Option Int :=
  match reg.int_map with
  | none => (reg.map.get? c).map (fun v => (v : Int))
  | some m => m.get? c

/-- The loop `do { s += enclen(reg->enc, s); } while ((s - t) < skip && s < end)`
of `bm_search_notrev`. -/
def bm_notrev_advance (enc : OnigEncodingType) (x : Subject) (t : Int) (skip : Int)
    (end_ : Int) : Nat → Int → Option Int
  | 0, _ => none
  | k + 1, s =>
    match enc.mbc_enc_len x s with
    | none => none
    | some n =>
      if (s + n) - t < skip ∧ s + n < end_ then bm_notrev_advance enc x t skip end_ k (s + n)
      else some (s + n)

/-- The loop `while (s < end)` of `bm_search_notrev`. -/
def bm_search_notrev_loop (reg : regex_t) (x : Subject) (target : List Nat) (end_ : Int) :
    Nat → Int → Option Int
  | 0, s => if s < end_ then none else some 0
  | k + 1, s =>
    if s < end_ then
      let se := s + ((target.length : Int) - 1)
      match bm_match_back x target.reverse se with
      | none => none
      | some true => some s
      | some false =>
        match (x.rd se).bind (bm_skip reg) with
        | none => none
        | some skip =>
          match bm_notrev_advance reg.enc x s skip end_ ((end_ - s).toNat + 1) s with
          | none => none
          | some s1 => if s1 ≤ s then none else bm_search_notrev_loop reg x target end_ k s1
    else some 0

/-- The function `bm_search_notrev`. -/
def bm_search_notrev (reg : regex_t) (x : Subject) (target : List Nat) (text : Int)
    (text_end : Int) (text_range : Int) : Option Int :=
  let tlen1 := (target.length : Int) - 1
  let end_ := if text_range + tlen1 > text_end then text_end - tlen1 else text_range
  bm_search_notrev_loop reg x target end_ (end_ - text).toNat text

/-- The loop `while (s < end)` of `bm_search`. -/
def bm_search_loop (reg : regex_t) (x : Subject) (target : List Nat) (end_ : Int) :
    Nat → Int → Option Int
  | 0, s => if s < end_ then none else some 0
  | k + 1, s =>
    if s < end_ then
      match bm_match_back x target.reverse s with
      | none => none
      | some true => some (s - ((target.length : Int) - 1))
      | some false =>
        match (x.rd s).bind (bm_skip reg) with
        | none => none
        | some skip => if skip ≤ 0 then none else bm_search_loop reg x target end_ k (s + skip)
    else some 0

/-- The function `bm_search`. -/
def bm_search (reg : regex_t) (x : Subject) (target : List Nat) (text : Int)
    (text_end : Int) (text_range : Int) : Option Int :=
  let end_ := text_range + (target.length : Int) - 1
  let end_ := if end_ > text_end then text_end else end_
  let s := text + (target.length : Int) - 1
  bm_search_loop reg x target end_ (end_ - s).toNat s

/-- The function `set_bm_backward_skip` (allocation succeeds): the table
`*skip`. -/
def set_bm_backward_skip (s : List Nat) : List Int :=
  let len := s.length
  (List.range (len - 1)).foldl
    (fun skip j => skip.set (s.getD (len - 1 - j) 0) ((len - 1 - j : Nat) : Int))
    (List.replicate 256 (len : Int))

/-- The loop `while (s >= text)` of `bm_search_backward`. -/
def bm_search_backward_loop (reg : regex_t) (skip : List Int) (x : Subject)
    (target : List Nat) (text : Int) (adjust_text : Int) : Nat → Int → Option Int
  | 0, s => if s ≥ text then none else some 0
  | k + 1, s =>
    if s ≥ text then
      match match_rest x target s with
      | none => none
      | some true => some s
      | some false =>
        match (x.rd s).bind (fun c => skip.get? c) with
        | none => none
        | some d =>
          let s1 := reg.enc.left_adjust_char_head x adjust_text (s - d)
          if s1 < s then bm_search_backward_loop reg skip x target text adjust_text k s1
          else none
    else some 0

/-- The function `bm_search_backward` with the table `reg->int_map_backward`. -/
def bm_search_backward (reg : regex_t) (skip : List Int) (x : Subject) (target : List Nat)
    (text : Int) (adjust_text : Int) (text_end : Int) (text_start : Int) : Option Int :=
  let s := text_end - (target.length : Int)
  let s := if text_start < s then text_start
           else reg.enc.left_adjust_char_head x adjust_text s
  bm_search_backward_loop reg skip x target text adjust_text ((s - text).toNat + 1) s

/-- The loop of `map_search`. -/
def map_search_loop (enc : OnigEncodingType) (map : List Nat) (x : Subject)
    (text_range : Int) : Nat → Int → Option Int
  | 0, s => if s < text_range then none else some 0
  | k + 1, s =>
    if s < text_range then
      match (x.rd s).bind (fun c => map.get? c) with
      | none => none
      | some m =>
        if m ≠ 0 then some s
        else
          match enc.mbc_enc_len x s with
          | none => none
          | some n => map_search_loop enc map x text_range k (s + n)
    else some 0

/-- The function `map_search(enc, map, text, text_range)`. -/
def map_search (enc : OnigEncodingType) (map : List Nat) (x : Subject) (text : Int)
    (text_range : Int) : Option Int :=
  map_search_loop enc map x text_range (text_range - text).toNat text

/-- The loop of `map_search_backward`. -/
def map_search_backward_loop (enc : OnigEncodingType) (map : List Nat) (x : Subject)
    (text : Int) (adjust_text : Int) : Nat → Int → Option Int
  | 0, s => if s ≥ text then none else some 0
  | k + 1, s =>
    if s ≥ text then
      match (x.rd s).bind (fun c => map.get? c) with
      | none => none
      | some m =>
        if m ≠ 0 then some s
        else map_search_backward_loop enc map x text adjust_text k
          (enc.prev_char_head x adjust_text s)
    else some 0

/-- The function `map_search_backward(enc, map, text, adjust_text, text_start)`. -/
def map_search_backward (enc : OnigEncodingType) (map : List Nat) (x : Subject)
    (text : Int) (adjust_text : Int) (text_start : Int) : Option Int :=
  map_search_backward_loop enc map x text adjust_text ((text_start - text).toNat + 1)
    text_start


/-! ## The search driver -/

/-- The cast `(OnigLen )d` of a pointer difference to `unsigned int`. -/
def OnigLen_of (d : Int) : Int := d % 4294967296

/-- What `forward_search_range` and `backward_search_range` return: the
value and the pointers behind `low`, `high` and `low_prev`. -/
structure RangeResult where
  ret : Int
  low : Int
  high : Int
  low_prev : Int

/-- The `switch (reg->optimize)` of `forward_search_range`. -/
def forward_scan (reg : regex_t) (x : Subject) (p : Int) (range : Int) : Option Int :=
  if reg.optimize = ONIG_OPTIMIZE_EXACT then
    slow_search reg.enc x reg.exact p x.end_ range
  else if reg.optimize = ONIG_OPTIMIZE_EXACT_IC then
    slow_search_ic reg.enc reg.case_fold_flag x reg.exact p x.end_ range
  else if reg.optimize = ONIG_OPTIMIZE_EXACT_BM then
    bm_search reg x reg.exact p x.end_ range
  else if reg.optimize = ONIG_OPTIMIZE_EXACT_BM_NOT_REV then
    bm_search_notrev reg x reg.exact p x.end_ range
  else if reg.optimize = ONIG_OPTIMIZE_MAP then
    map_search reg.enc reg.map x p range
  else some p

/-- The test of `reg->sub_anchor` in `forward_search_range`: true when the
candidate `p` is refused (`goto retry_gate`). -/
def forward_sub_anchor_refuses (reg : regex_t) (x : Subject) (p : Int) (pprev : Int) :
    Option Bool :=
  if reg.sub_anchor = ANCHOR_BEGIN_LINE then
    if p ≠ x.str then
      let prev := reg.enc.prev_char_head x (if pprev ≠ 0 then pprev else x.str) p
      (reg.enc.is_mbc_newline x prev).map (fun nl => !nl)
    else some false
  else if reg.sub_anchor = ANCHOR_END_LINE then
    if p = x.end_ then
      if USE_NEWLINE_AT_END_OF_STRING_HAS_EMPTY_LINE then some false
      else
        let prev := reg.enc.prev_char_head x (if pprev ≠ 0 then pprev else x.str) p
        if prev ≠ 0 then reg.enc.is_mbc_newline x prev else some false
    else (reg.enc.is_mbc_newline x p).map (fun nl => !nl)
  else some false

/-- The stores to `*low`, `*low_prev` and `*high` of `forward_search_range`
for the accepted candidate `p`. -/
def forward_set_range (reg : regex_t) (x : Subject) (s : Int) (p : Int) (pprev : Int)
    (want_low_prev : Bool) (r : RangeResult) : RangeResult :=
  let base := if pprev ≠ 0 then pprev else x.str
  let r :=
    if reg.dmax = 0 then
      { r with low := p,
               low_prev := if want_low_prev then
                   (if p > s then reg.enc.prev_char_head x s p
                    else reg.enc.prev_char_head x base p)
                 else r.low_prev }
    else if reg.dmax ≠ INFINITE_LEN then
      if p - x.str < reg.dmax then
        { r with low := x.str,
                 low_prev := if want_low_prev then reg.enc.prev_char_head x x.str x.str
                             else r.low_prev }
      else
        let low := p - reg.dmax
        if low > s then
          let a := reg.enc.right_adjust_char_head_with_prev x s low
          let lp := if want_low_prev then a.2 else r.low_prev
          { r with low := a.1,
                   low_prev := if want_low_prev ∧ lp = 0 then
                       reg.enc.prev_char_head x (if pprev ≠ 0 then pprev else s) a.1
                     else lp }
        else
          { r with low := low,
                   low_prev := if want_low_prev then reg.enc.prev_char_head x base low
                               else r.low_prev }
    else r
  { r with high := p - reg.dmin, ret := 1 }

/-- The code of `forward_search_range` from the label `retry`; `k` bounds the
rounds through `retry_gate`. -/
def forward_search_retry (reg : regex_t) (x : Subject) (s : Int) (range : Int)
    (want_low_prev : Bool) (r : RangeResult) : Nat → Int → Int → Option RangeResult
  | 0, _, _ => none
  | k + 1, p, pprev =>
    match forward_scan reg x p range with
    | none => none
    | some p =>
      if p ≠ 0 ∧ p < range then
        let gate : Option Bool :=
          if p - reg.dmin < s then some true
          else if reg.sub_anchor ≠ 0 then forward_sub_anchor_refuses reg x p pprev
          else some false
        match gate with
        | none => none
        | some true =>
          match reg.enc.mbc_enc_len x p with
          | none => none
          | some n =>
            if n ≤ 0 then none
            else forward_search_retry reg x s range want_low_prev r k (p + n) p
        | some false => some (forward_set_range reg x s p pprev want_low_prev r)
      else some { r with ret := 0 }

/-- The loop `while (p < q) p += enclen(reg->enc, p)` of `forward_search_range`. -/
def skip_chars (enc : OnigEncodingType) (x : Subject) (q : Int) : Nat → Int → Option Int
  | 0, p => if p < q then none else some p
  | k + 1, p =>
    if p < q then
      match enc.mbc_enc_len x p with
      | none => none
      | some n => skip_chars enc x q k (p + n)
    else some p

/-- The function `forward_search_range(reg, str, end, s, range, low, high,
low_prev)`; `want_low_prev` is false when `low_prev` is null, `r` holds the
caller's `low`, `high` and `low_prev`. -/
def forward_search_range (reg : regex_t) (x : Subject) (s : Int) (range : Int)
    (want_low_prev : Bool) (r : RangeResult) : Option RangeResult :=
  let p0 : Option (Option Int) :=
    if reg.dmin > 0 then
      if reg.enc.is_singlebyte then some (some (s + reg.dmin))
      else
        let q := s + reg.dmin
        if q ≥ x.end_ then some none
        else (skip_chars reg.enc x q (q - s).toNat s).map some
    else some (some s)
  match p0 with
  | none => none
  | some none => some { r with ret := 0 }
  | some (some p) =>
    forward_search_retry reg x s range want_low_prev r ((range - p).toNat + 1) p 0

/-- The `switch (reg->optimize)` of `backward_search_range`; `s` is the
argument of the same name. -/
def backward_scan (reg : regex_t) (x : Subject) (s : Int) (range : Int) (adjrange : Int)
    (p : Int) : Option Int :=
  if reg.optimize = ONIG_OPTIMIZE_EXACT then
    slow_search_backward reg.enc x reg.exact range adjrange x.end_ p
  else if reg.optimize = ONIG_OPTIMIZE_EXACT_IC then
    slow_search_backward_ic reg.enc reg.case_fold_flag x reg.exact range adjrange x.end_ p
  else if reg.optimize = ONIG_OPTIMIZE_EXACT_BM ∨
      reg.optimize = ONIG_OPTIMIZE_EXACT_BM_NOT_REV then
    if USE_INT_MAP_BACKWARD then
      match reg.int_map_backward with
      | some skip => bm_search_backward reg skip x reg.exact range adjrange x.end_ p
      | none =>
        if s - range < 100 then
          slow_search_backward reg.enc x reg.exact range adjrange x.end_ p
        else
          bm_search_backward reg (set_bm_backward_skip reg.exact) x reg.exact range adjrange
            x.end_ p
    else slow_search_backward reg.enc x reg.exact range adjrange x.end_ p
  else if reg.optimize = ONIG_OPTIMIZE_MAP then
    map_search_backward reg.enc reg.map x range adjrange p
  else some p

/-- The test of `reg->sub_anchor` in `backward_search_range`: `some (some q)`
is `p = q; goto retry`, `some none` is `goto fail`, `none` accepts `p`. -/
def backward_sub_anchor (reg : regex_t) (x : Subject) (adjrange : Int) (p : Int) :
    Option (Option (Option Int)) :=
  if reg.sub_anchor = ANCHOR_BEGIN_LINE then
    if p ≠ x.str then
      let prev := reg.enc.prev_char_head x x.str p
      (reg.enc.is_mbc_newline x prev).map (fun nl => if !nl then some (some prev) else none)
    else some none
  else if reg.sub_anchor = ANCHOR_END_LINE then
    if p = x.end_ then
      if USE_NEWLINE_AT_END_OF_STRING_HAS_EMPTY_LINE then some none
      else
        let prev := reg.enc.prev_char_head x adjrange p
        if prev = 0 then some (some none)
        else (reg.enc.is_mbc_newline x prev).map
          (fun nl => if nl then some (some prev) else none)
    else
      (reg.enc.is_mbc_newline x p).map (fun nl =>
        if !nl then
          let q := reg.enc.prev_char_head x adjrange p
          if q = 0 then some none else some (some q)
        else none)
  else some none

/-- The code of `backward_search_range` from the label `retry`. -/
def backward_search_retry (reg : regex_t) (x : Subject) (s : Int) (range : Int)
    (adjrange : Int) (r : RangeResult) : Nat → Int → Option RangeResult
  | 0, _ => none
  | k + 1, p =>
    match backward_scan reg x s range adjrange p with
    | none => none
    | some p =>
      if p ≠ 0 then
        match (if reg.sub_anchor ≠ 0 then backward_sub_anchor reg x adjrange p
               else some none) with
        | none => none
        | some (some (some q)) =>
          if q < p then backward_search_retry reg x s range adjrange r k q else none
        | some (some none) => some { r with ret := 0 }
        | some none =>
          if reg.dmax ≠ INFINITE_LEN then
            some { r with low := p - reg.dmax,
                          high := reg.enc.right_adjust_char_head x adjrange (p - reg.dmin),
                          ret := 1 }
          else some { r with ret := 1 }
      else some { r with ret := 0 }

/-- The function `backward_search_range(reg, str, end, s, range, adjrange,
low, high)`. -/
def backward_search_range (reg : regex_t) (x : Subject) (s : Int) (range : Int)
    (adjrange : Int) (r : RangeResult) : Option RangeResult :=
  let range := range + reg.dmin
  backward_search_retry reg x s range adjrange r ((s - x.str).toNat + 2) s


/-- The locals `s`, `prev` and `msa` of `onig_search`, and the positions at
which `match_at` was called so far (`calls` is a record of the run, not a
variable of the source). -/
structure SearchState where
  s : Int
  prev : Int
  msa : OnigMatchArg
  calls : List Int

/-- Where a piece of `onig_search` goes next: `goto match`, `goto finish`
with the value of `r`, `goto mismatch`, or on to the next statement. -/
inductive SearchGoto where
  | to_match (ss : SearchState)
  | to_finish (r : Int) (ss : SearchState)
  | to_mismatch (ss : SearchState)
  | next (ss : SearchState)

/-- The macro `MATCH_AND_RETURN_CHECK(upper_range)`. -/
def MATCH_AND_RETURN_CHECK (env : Env) (fuel : Nat) (reg : regex_t)
    (x : Subject) (upper_range : Int) (ss : SearchState) : Outcome SearchGoto :=
  match match_at env fuel reg x upper_range ss.s ss.prev ss.msa with
  | .undef => .undef
  | .nofuel => .nofuel
  | .done (r, msa1) =>
    let ss1 := { ss with msa := msa1, calls := ss.calls ++ [ss.s] }
    if r ≠ ONIG_MISMATCH then
      if r ≥ 0 then
        if !IS_FIND_LONGEST reg.options then .done (.to_match ss1) else .done (.next ss1)
      else .done (.to_finish r ss1)
    else .done (.next ss1)

/-- The statements `prev = s; s += enclen(reg->enc, s);`. -/
def search_advance (reg : regex_t) (x : Subject) (ss : SearchState) : Option SearchState :=
  (reg.enc.mbc_enc_len x ss.s).map (fun n => { ss with prev := ss.s, s := ss.s + n })

/-- The loop `do { MATCH_AND_RETURN_CHECK(orig_range); prev = s; s +=
enclen(reg->enc, s); } while (s < range);` of the forward search. -/
def forward_loop (env : Env) (fuel : Nat) (reg : regex_t) (x : Subject)
    (orig_range : Int) (range : Int) : Nat → SearchState → Outcome SearchGoto
  | 0, _ => .undef
  | k + 1, ss =>
    match MATCH_AND_RETURN_CHECK env fuel reg x orig_range ss with
    | .done (.next ss1) =>
      match search_advance reg x ss1 with
      | none => .undef
      | some ss2 =>
        if ss2.s < range then
          forward_loop env fuel reg x orig_range range k ss2
        else .done (.next ss2)
    | other => other

/-- The statement `if (s == range) { MATCH_AND_RETURN_CHECK(orig_range); }`
and the `goto mismatch` after the forward loop, given how the loop ended. -/
def forward_retry (env : Env) (fuel : Nat) (reg : regex_t) (x : Subject)
    (orig_range : Int) (range : Int) (o : Outcome SearchGoto) : Outcome SearchGoto :=
  match o with
  | .done (.next ss1) =>
    if ss1.s = range then
      match MATCH_AND_RETURN_CHECK env fuel reg x orig_range ss1 with
      | .done (.next ss2) => .done (.to_mismatch ss2)
      | other => other
    else .done (.to_mismatch ss1)
  | other => other

/-- The plain forward search: the loop and the statement
`if (s == range) { MATCH_AND_RETURN_CHECK(orig_range); }`, then `mismatch`. -/
def forward_plain (env : Env) (fuel : Nat) (reg : regex_t) (x : Subject)
    (orig_range : Int) (range : Int) (ss : SearchState) : Outcome SearchGoto :=
  forward_retry env fuel reg x orig_range range
    (forward_loop env fuel reg x orig_range range
      ((range - ss.s).toNat + 1) ss)

/-- The loop `while (s <= high) { MATCH_AND_RETURN_CHECK(orig_range); prev =
s; s += enclen(reg->enc, s); }`. -/
def forward_high_loop (env : Env) (fuel : Nat) (reg : regex_t)
    (x : Subject) (orig_range : Int) (high : Int) : Nat → SearchState → Outcome SearchGoto
  | 0, ss => if ss.s ≤ high then .undef else .done (.next ss)
  | k + 1, ss =>
    if ss.s ≤ high then
      match MATCH_AND_RETURN_CHECK env fuel reg x orig_range ss with
      | .done (.next ss1) =>
        match search_advance reg x ss1 with
        | none => .undef
        | some ss2 => forward_high_loop env fuel reg x orig_range high k ss2
      | other => other
    else .done (.next ss)

/-- The loop `do { forward_search_range ..; while (s <= high) ..; } while (s
< range); goto mismatch;` for `reg->dmax != INFINITE_LEN`. -/
def forward_opt_loop (env : Env) (fuel : Nat) (reg : regex_t)
    (x : Subject) (orig_range : Int) (range : Int) (sch_range : Int) :
    Nat → RangeResult → SearchState → Outcome SearchGoto
  | 0, _, _ => .undef
  | k + 1, rr, ss =>
    match forward_search_range reg x ss.s sch_range true rr with
    | none => .undef
    | some rr1 =>
      if rr1.ret = 0 then .done (.to_mismatch ss)
      else
        let ss1 := if ss.s < rr1.low then { ss with s := rr1.low, prev := rr1.low_prev }
                   else ss
        match forward_high_loop env fuel reg x orig_range rr1.high
            ((rr1.high - ss1.s).toNat + 1) ss1 with
        | .done (.next ss2) =>
          if ss2.s < range then
            forward_opt_loop env fuel reg x orig_range range sch_range k rr1 ss2
          else .done (.to_mismatch ss2)
        | other => other

/-- The loop `while (!ONIGENC_IS_MBC_NEWLINE(reg->enc, prev, end) && s <
range) { prev = s; s += enclen(reg->enc, s); }`. -/
def skip_to_newline (reg : regex_t) (x : Subject) (range : Int) :
    Nat → SearchState → Option SearchState
  | 0, _ => none
  | k + 1, ss =>
    match reg.enc.is_mbc_newline x ss.prev with
    | none => none
    | some nl =>
      if !nl ∧ ss.s < range then
        (search_advance reg x ss).bind (skip_to_newline reg x range k)
      else some ss

/-- The loop of the forward search for `ANCHOR_ANYCHAR_STAR` with an
unbounded `reg->dmax`. -/
def forward_anychar_loop (env : Env) (fuel : Nat) (reg : regex_t)
    (x : Subject) (orig_range : Int) (range : Int) : Nat → SearchState → Outcome SearchGoto
  | 0, _ => .undef
  | k + 1, ss =>
    match MATCH_AND_RETURN_CHECK env fuel reg x orig_range ss with
    | .done (.next ss1) =>
      match search_advance reg x ss1 with
      | none => .undef
      | some ss2 =>
        let ss3 : Option SearchState :=
          if reg.anchor &&& (ANCHOR_LOOK_BEHIND ||| ANCHOR_PREC_READ_NOT) = 0 then
            skip_to_newline reg x range ((range - ss2.s).toNat + 1) ss2
          else some ss2
        match ss3 with
        | none => .undef
        | some ss3 =>
          if ss3.s < range then
            forward_anychar_loop env fuel reg x orig_range range k ss3
          else .done (.to_mismatch ss3)
    | other => other

/-- The forward search of `onig_search`: the branch `if (range > start)`. -/
def forward_search (env : Env) (fuel : Nat) (reg : regex_t) (x : Subject)
    (orig_range : Int) (start : Int) (range : Int) (ss : SearchState) :
    Outcome SearchGoto :=
  let ss := { ss with prev := if ss.s > x.str then reg.enc.prev_char_head x x.str ss.s
                              else 0 }
  if reg.optimize ≠ ONIG_OPTIMIZE_NONE then
    let sch_range :=
      if reg.dmax ≠ 0 then
        if reg.dmax = INFINITE_LEN then x.end_
        else if range + reg.dmax > x.end_ then x.end_ else range + reg.dmax
      else range
    if x.end_ - start < reg.threshold_len then .done (.to_mismatch ss)
    else if reg.dmax ≠ INFINITE_LEN then
      forward_opt_loop env fuel reg x orig_range range sch_range
        ((range - ss.s).toNat + 1) ⟨0, 0, 0, 0⟩ ss
    else
      match forward_search_range reg x ss.s sch_range false ⟨0, 0, 0, 0⟩ with
      | none => .undef
      | some rr =>
        if rr.ret = 0 then .done (.to_mismatch ss)
        else if reg.anchor &&& ANCHOR_ANYCHAR_STAR ≠ 0 then
          forward_anychar_loop env fuel reg x orig_range range
            ((range - ss.s).toNat + 1) ss
        else forward_plain env fuel reg x orig_range range ss
  else forward_plain env fuel reg x orig_range range ss

/-- The loop `do { prev = onigenc_get_prev_char_head(reg->enc, str, s);
MATCH_AND_RETURN_CHECK(orig_start); s = prev; } while (s >= range);`. -/
def backward_loop (env : Env) (fuel : Nat) (reg : regex_t) (x : Subject)
    (orig_start : Int) (range : Int) : Nat → SearchState → Outcome SearchGoto
  | 0, _ => .undef
  | k + 1, ss =>
    let ss := { ss with prev := reg.enc.prev_char_head x x.str ss.s }
    match MATCH_AND_RETURN_CHECK env fuel reg x orig_start ss with
    | .done (.next ss1) =>
      let ss2 := { ss1 with s := ss1.prev }
      if ss2.s ≥ range then
        backward_loop env fuel reg x orig_start range k ss2
      else .done (.to_mismatch ss2)
    | other => other

/-- The loop `while (s >= low) { prev = ..; MATCH_AND_RETURN_CHECK(orig_start);
s = prev; }`. -/
def backward_low_loop (env : Env) (fuel : Nat) (reg : regex_t)
    (x : Subject) (orig_start : Int) (low : Int) : Nat → SearchState → Outcome SearchGoto
  | 0, ss => if ss.s ≥ low then .undef else .done (.next ss)
  | k + 1, ss =>
    if ss.s ≥ low then
      let ss := { ss with prev := reg.enc.prev_char_head x x.str ss.s }
      match MATCH_AND_RETURN_CHECK env fuel reg x orig_start ss with
      | .done (.next ss1) =>
        backward_low_loop env fuel reg x orig_start low k
          { ss1 with s := ss1.prev }
      | other => other
    else .done (.next ss)

/-- The loop `do { backward_search_range ..; while (s >= low) ..; } while (s
>= range); goto mismatch;` of the backward search. -/
def backward_opt_loop (env : Env) (fuel : Nat) (reg : regex_t)
    (x : Subject) (orig_start : Int) (range : Int) (adjrange : Int) :
    Nat → RangeResult → SearchState → Outcome SearchGoto
  | 0, _, _ => .undef
  | k + 1, rr, ss =>
    let sch_start := if ss.s + reg.dmax > x.end_ then x.end_ else ss.s + reg.dmax
    match backward_search_range reg x sch_start range adjrange rr with
    | none => .undef
    | some rr1 =>
      if rr1.ret ≤ 0 then .done (.to_mismatch ss)
      else
        let ss1 := if ss.s > rr1.high then { ss with s := rr1.high } else ss
        match backward_low_loop env fuel reg x orig_start rr1.low
            ((ss1.s - x.str).toNat + 2) ss1 with
        | .done (.next ss2) =>
          if ss2.s ≥ range then
            backward_opt_loop env fuel reg x orig_start range adjrange k rr1 ss2
          else .done (.to_mismatch ss2)
        | other => other

/-- The backward search of `onig_search`: the branch `else` of
`if (range > start)`; `orig_start` is the start the caller passed. -/
def backward_search (env : Env) (fuel : Nat) (reg : regex_t) (x : Subject)
    (orig_start : Int) (start : Int) (range : Int) (ss : SearchState) :
    Outcome SearchGoto :=
  match (if orig_start < x.end_ then
           (reg.enc.mbc_enc_len x orig_start).map (fun n => orig_start + n)
         else some orig_start) with
  | none => .undef
  | some orig_start =>
    let plain := backward_loop env fuel reg x orig_start range
      ((ss.s - x.str).toNat + 2) ss
    if reg.optimize ≠ ONIG_OPTIMIZE_NONE then
      let adjrange := if range < x.end_ then reg.enc.left_adjust_char_head x x.str range
                      else x.end_
      if reg.dmax ≠ INFINITE_LEN ∧ x.end_ - range ≥ reg.threshold_len then
        backward_opt_loop env fuel reg x orig_start range adjrange
          ((ss.s - x.str).toNat + 2) ⟨0, 0, 0, 0⟩ ss
      else if x.end_ - range < reg.threshold_len then .done (.to_mismatch ss)
      else
        let sch_start :=
          if reg.dmax ≠ 0 then
            if reg.dmax = INFINITE_LEN then x.end_
            else if ss.s + reg.dmax > x.end_ then x.end_
            else reg.enc.left_adjust_char_head x start (ss.s + reg.dmax)
          else ss.s
        match backward_search_range reg x sch_start range adjrange ⟨0, 0, 0, 0⟩ with
        | none => .undef
        | some rr => if rr.ret ≤ 0 then .done (.to_mismatch ss) else plain
    else plain

/-- The outcome of the block `anchor optimize`: `goto mismatch_no_msa`, the
branch of the empty string, or the search with the new `start` and `range`. -/
inductive AnchorResult where
  | mismatch_no_msa
  | empty_string
  | search (start : Int) (range : Int)

/-- The code at the label `end_buf` of `onig_search`. -/
def anchor_end_buf (reg : regex_t) (x : Subject) (start : Int) (range : Int)
    (min_semi_end : Int) (max_semi_end : Int) : AnchorResult :=
  if OnigLen_of (max_semi_end - x.str) < reg.anchor_dmin then .mismatch_no_msa
  else if range > start then
    let start :=
      if OnigLen_of (min_semi_end - start) > reg.anchor_dmax then
        let start := min_semi_end - reg.anchor_dmax
        if start < x.end_ then reg.enc.right_adjust_char_head x x.str start else start
      else start
    let range :=
      if OnigLen_of (max_semi_end - (range - 1)) < reg.anchor_dmin then
        max_semi_end - reg.anchor_dmin + 1
      else range
    if start > range then .mismatch_no_msa else .search start range
  else
    let range :=
      if OnigLen_of (min_semi_end - range) > reg.anchor_dmax then
        min_semi_end - reg.anchor_dmax
      else range
    let start :=
      if OnigLen_of (max_semi_end - start) < reg.anchor_dmin then
        reg.enc.left_adjust_char_head x x.str (max_semi_end - reg.anchor_dmin)
      else start
    if range > start then .mismatch_no_msa else .search start range

/-- The code at the label `begin_position` of `onig_search`. -/
def anchor_begin_position (start : Int) (range : Int) : AnchorResult :=
  if range > start then .search start (start + 1) else .search start start

/-- The block `anchor optimize: resume search range` of `onig_search` with
its `else if (str == end)`; `none` is undefined. -/
def anchor_optimize (reg : regex_t) (x : Subject) (start : Int) (range : Int) :
    Option AnchorResult :=
  if reg.anchor ≠ 0 ∧ x.str < x.end_ then
    if reg.anchor &&& ANCHOR_BEGIN_POSITION ≠ 0 then
      some (anchor_begin_position start range)
    else if reg.anchor &&& ANCHOR_BEGIN_BUF ≠ 0 then
      if range > start then
        if start ≠ x.str then some .mismatch_no_msa else some (.search start (x.str + 1))
      else if range ≤ x.str then some (.search x.str x.str)
      else some .mismatch_no_msa
    else if reg.anchor &&& ANCHOR_END_BUF ≠ 0 then
      some (anchor_end_buf reg x start range x.end_ x.end_)
    else if reg.anchor &&& ANCHOR_SEMI_END_BUF ≠ 0 then
      let pre_end := reg.enc.step_back x x.str x.end_ 1
      match reg.enc.is_mbc_newline x pre_end with
      | none => none
      | some true =>
        if pre_end > x.str ∧ start ≤ pre_end then
          some (anchor_end_buf reg x start range pre_end x.end_)
        else some (.search start range)
      | some false => some (anchor_end_buf reg x start range x.end_ x.end_)
    else if reg.anchor &&& ANCHOR_ANYCHAR_STAR_ML ≠ 0 then
      some (anchor_begin_position start range)
    else some (.search start range)
  else if x.str = x.end_ then some .empty_string
  else some (.search start range)

/-- What `onig_search` returns and leaves behind: the value, the region, and
the positions at which `match_at` was called. -/
structure SearchResult where
  r : Int
  region : RegionArg
  calls : List Int

/-- The code at the labels `mismatch`, `finish` and `match` of `onig_search`. -/
def search_finish (reg : regex_t) (x : Subject) (option : Nat) (g : SearchGoto) :
    SearchResult :=
  let fin (r : Int) (ss : SearchState) : SearchResult :=
    { r := r,
      region := match ss.msa.region with
        | .onig rg =>
          if IS_FIND_NOT_EMPTY reg.options ∧ !IS_POSIX_REGION option then
            .onig (onig_region_clear rg)
          else .onig rg
        | other => other,
      calls := ss.calls }
  match g with
  | .to_match ss => { r := ss.s - x.str, region := ss.msa.region, calls := ss.calls }
  | .to_finish r ss => fin r ss
  | .to_mismatch ss =>
    if IS_FIND_LONGEST reg.options ∧ ss.msa.best_len ≥ 0 then
      { r := ss.msa.best_s - x.str, region := ss.msa.region, calls := ss.calls }
    else fin ONIG_MISMATCH ss
  | .next ss => fin ONIG_MISMATCH ss

/-- The function `onig_search(reg, str, end, start, range, region, option)`
with the record of its calls of `match_at`. -/
def onig_search_run (env : Env) (fuel : Nat) (reg : regex_t) (x : Subject)
    (start : Int) (range : Int) (region : RegionArg) (option : Nat) :
    Outcome SearchResult :=
  let orig_start := start
  let orig_range := range
  match region_prepare reg region option with
  | none => .undef
  | some (r, region) =>
    if r ≠ 0 then .done ⟨r, region, []⟩
    else if start > x.end_ ∨ start < x.str then .done ⟨ONIG_MISMATCH, region, []⟩
    else if ONIG_IS_OPTION_ON option ONIG_OPTION_CHECK_VALIDITY_OF_STRING ∧
        ¬ reg.enc.is_valid_mbc_string x then
      .done ⟨ONIGERR_INVALID_WIDE_CHAR_VALUE, region, []⟩
    else
      match anchor_optimize reg x start range with
      | none => .undef
      | some .mismatch_no_msa => .done ⟨ONIG_MISMATCH, region, []⟩
      | some .empty_string =>
        if reg.threshold_len = 0 then
          let ss : SearchState :=
            { s := x.str, prev := 0, msa := MATCH_ARG_INIT reg option region x.str,
              calls := [] }
          match MATCH_AND_RETURN_CHECK env fuel reg x x.end_ ss with
          | .done (.next ss1) => .done (search_finish reg x option (.to_mismatch ss1))
          | .done g => .done (search_finish reg x option g)
          | .undef => .undef
          | .nofuel => .nofuel
        else .done ⟨ONIG_MISMATCH, region, []⟩
      | some (.search start range) =>
        let ss : SearchState :=
          { s := start, prev := 0, msa := MATCH_ARG_INIT reg option region orig_start,
            calls := [] }
        let g :=
          if range > start then
            forward_search env fuel reg x orig_range start range ss
          else
            backward_search env fuel reg x orig_start start range ss
        match g with
        | .done g => .done (search_finish reg x option g)
        | .undef => .undef
        | .nofuel => .nofuel

/-- The function `onig_search`: the value returned and the region. -/
def onig_search (env : Env) (fuel : Nat) (reg : regex_t) (x : Subject)
    (start : Int) (range : Int) (region : RegionArg) (option : Nat) :
    Outcome (Int × RegionArg) :=
  match onig_search_run env fuel reg x start range region option with
  | .done res => .done (res.r, res.region)
  | .undef => .undef
  | .nofuel => .nofuel

/-- What `onig_scan` returns and leaves behind: the value, the region, the
state of the callback, and the arguments `(n, r)` of the calls of the
callback in order (a record of the run). -/
structure ScanResult (α : Type) where
  r : Int
  region : RegionArg
  arg : α
  reported : List (Int × Int)

/-- The loop `while (1)` of `onig_scan`, at most `k` rounds.  The callback
`scan_callback(n, r, region, callback_arg)` gets the pointer to the region
and the pointer `callback_arg`: it is a function of its arguments that
returns its value, the region as it leaves it, and the state `α` behind
`callback_arg` as it leaves it.  The loop reads `region->end[0]` after the
callback returned. -/
def onig_scan_loop {α : Type} (env : Env) (fuel : Nat) (reg : regex_t)
    (x : Subject) (option : Nat)
    (scan_callback : Int → Int → RegionArg → α → Int × RegionArg × α) :
    Nat → Int → Int → RegionArg → α → List (Int × Int) → Outcome (ScanResult α)
  | 0, _, _, _, _, _ => .nofuel
  | k + 1, n, start, region, arg, reported =>
    match onig_search env fuel reg x start x.end_ region option with
    | .undef => .undef
    | .nofuel => .nofuel
    | .done (r, region) =>
      if r ≥ 0 then
        let rs := scan_callback n r region arg
        let region := rs.2.1
        let reported := reported ++ [(n, r)]
        let n := n + 1
        if rs.1 ≠ 0 then .done ⟨rs.1, region, rs.2.2, reported⟩
        else
          match region with
          | .onig rg =>
            match getI rg.end_ 0 with
            | none => .undef
            | some e0 =>
              if e0 = start - x.str then
                if start ≥ x.end_ then .done ⟨n, region, rs.2.2, reported⟩
                else
                  match reg.enc.mbc_enc_len x start with
                  | none => .undef
                  | some len =>
                    if start + len > x.end_ then .done ⟨n, region, rs.2.2, reported⟩
                    else onig_scan_loop env fuel reg x option scan_callback
                      k n (start + len) region rs.2.2 reported
              else
                if x.str + e0 > x.end_ then .done ⟨n, region, rs.2.2, reported⟩
                else onig_scan_loop env fuel reg x option scan_callback
                  k n (x.str + e0) region rs.2.2 reported
          | _ => .undef
      else if r = ONIG_MISMATCH then .done ⟨n, region, arg, reported⟩
      else .done ⟨r, region, arg, reported⟩

/-- The function `onig_scan(reg, str, end, region, option, scan_callback,
callback_arg)`; `rounds` bounds the rounds of its loop. -/
def onig_scan {α : Type} (env : Env) (fuel : Nat) (rounds : Nat)
    (reg : regex_t) (x : Subject) (region : RegionArg) (option : Nat)
    (scan_callback : Int → Int → RegionArg → α → Int × RegionArg × α) (callback_arg : α) :
    Outcome (ScanResult α) :=
  if ONIG_IS_OPTION_ON option ONIG_OPTION_CHECK_VALIDITY_OF_STRING ∧
      ¬ reg.enc.is_valid_mbc_string x then
    .done ⟨ONIGERR_INVALID_WIDE_CHAR_VALUE, region, callback_arg, []⟩
  else
    let option :=
      if ONIG_IS_OPTION_ON option ONIG_OPTION_CHECK_VALIDITY_OF_STRING then
        option ^^^ ONIG_OPTION_CHECK_VALIDITY_OF_STRING
      else option
    onig_scan_loop env fuel reg x option scan_callback rounds 0 x.str
      region callback_arg []


/-! ## Writing programs down -/

/-- The `w` bytes of the operand `v`, least significant first. -/
def operand_bytes (w : Nat) (v : Int) : List Nat :=
  (List.range w).map (fun i => ((v % ((256 ^ w : Nat) : Int)).toNat / 256 ^ i) % 256)

/-- A `MemNumType` operand. -/
def memnum_bytes (v : Int) : List Nat := operand_bytes SIZE_MEMNUM.toNat v

/-- A `RelAddrType` operand. -/
def reladdr_bytes (v : Int) : List Nat := operand_bytes SIZE_RELADDR.toNat v

/-- A `LengthType` operand. -/
def length_bytes (v : Int) : List Nat := operand_bytes SIZE_LENGTH.toNat v

/-- A program without optimisation data: the byte code `p` on `num_mem`
groups with the given status bits, pop level, options and anchors, in the
encoding `enc`. -/
def plain_regex (enc : OnigEncodingType) (p : List Nat) (num_mem : Nat) (bt_mem_start : Nat)
    (bt_mem_end : Nat) (stack_pop_level : Nat) (options : Nat) (anchor : Nat) : regex_t :=
  { p := p, num_mem := num_mem, num_repeat := 0, repeat_range := [],
    bt_mem_start := bt_mem_start, bt_mem_end := bt_mem_end, capture_history := 0,
    options := options, enc := enc, case_fold_flag := 0,
    stack_pop_level := stack_pop_level, optimize := ONIG_OPTIMIZE_NONE, exact := [],
    map := [], int_map := none, int_map_backward := none, dmin := 0, dmax := 0,
    threshold_len := 0, anchor := anchor, sub_anchor := 0, anchor_dmin := 0,
    anchor_dmax := 0 }

/-- The value of a result, when there is one. -/
def Outcome.toOption {α : Type} : Outcome α → Option α
  | .done a => some a
  | .undef => none
  | .nofuel => none

/-- The value that a call returned (0 when there is none). -/
def Outcome.value (o : Outcome (Int × RegionArg)) : Int :=
  match o with
  | .done (r, _) => r
  | _ => 0

/-- The region that a call left behind (`.null` when there is none). -/
def Outcome.region (o : Outcome (Int × RegionArg)) : RegionArg :=
  match o with
  | .done (_, region) => region
  | _ => .null

/-- The `OnigRegion` behind a region argument (an empty one when there is
none). -/
def RegionArg.onig_region (region : RegionArg) : OnigRegion :=
  match region with
  | .onig rg => rg
  | _ => onig_region_init

/-- The region argument is an `OnigRegion`. -/
def RegionArg.is_onig (region : RegionArg) : Bool :=
  match region with
  | .onig _ => true
  | _ => false

/-- The call returned, and left an `OnigRegion`. -/
def Outcome.is_done_onig (o : Outcome (Int × RegionArg)) : Bool :=
  match o with
  | .done (_, .onig _) => true
  | _ => false

/-- The first `n` entries `(beg[i], end[i])` of a region. -/
def RegionArg.spans (region : RegionArg) (n : Nat) : List (Int × Int) :=
  match region with
  | .null => []
  | .onig r => (r.beg.zip r.end_).take n
  | .posix rmt => rmt.take n

/-- The entry `(beg[i], end[i])` of a region, when the region has one. -/
def RegionArg.entry (region : RegionArg) (i : Int) : Option (Int × Int) :=
  match region with
  | .null => none
  | .onig r =>
    match getI r.beg i, getI r.end_ i with
    | some b, some e => some (b, e)
    | _, _ => none
  | .posix rmt => getI rmt i

/-- What a call of `onig_match` or `onig_search` is observed to give: the
value returned and the first `n` entries of the region. -/
def observe (n : Nat) (o : Outcome (Int × RegionArg)) : Option (Int × List (Int × Int)) :=
  o.toOption.map (fun r => (r.1, r.2.spans n))

/-- A scan callback that returns 0, leaves the region as it is and keeps no
state. -/
def callback_zero (_n : Int) (_r : Int) (region : RegionArg) (u : Unit) :
    Int × RegionArg × Unit :=
  (0, region, u)

/-- What a call of `onig_scan` is observed to give: the value returned and
the arguments `(n, offset)` of the callback invocations. -/
def observe_scan {α : Type} (o : Outcome (ScanResult α)) :
    Option (Int × List (Int × Int)) :=
  o.toOption.map (fun r => (r.r, r.reported))

/-- What a call of `onig_search` is observed to do: the value returned and
the positions at which the interpreter was invoked. -/
def observe_calls (o : Outcome SearchResult) : Option (Int × List Int) :=
  o.toOption.map (fun r => (r.r, r.calls))

/-- Modelled from the spec: the character length table of a multibyte
encoding in the manner of UTF-8 (a lead byte `0xE0 .. 0xEF` starts a
character of three bytes). -/
def utf8_enc_len (c : Nat) : Int :=
  if c < 0xC2 then 1 else if c < 0xE0 then 2 else if c < 0xF0 then 3
  else if c < 0xF5 then 4 else 1

/-- Modelled from the spec: a multibyte encoding in the manner of
`ONIG_ENCODING_UTF8`, as far as the length of characters goes. -/
def ONIG_ENCODING_UTF8 : OnigEncodingType :=
  { ONIG_ENCODING_ASCII with
    mbc_enc_len := fun x p => (x.rd p).map utf8_enc_len
    is_singlebyte := false }

/-- The program of `a\Kb`: the keep position is saved and taken over after `a`. -/
def prog_keep : List Nat :=
  [OpCode.EXACT1.toByte, 97, OpCode.PUSH_SAVE_VAL.toByte, 0] ++ memnum_bytes 0 ++
  [OpCode.UPDATE_VAR.toByte, 0] ++ memnum_bytes 0 ++
  [OpCode.EXACT1.toByte, 98, OpCode.END.toByte]

/-- The program of `(?=(ab))a`: group 1 is captured inside a look-ahead. -/
def prog_lookahead_group : List Nat :=
  [OpCode.PUSH_POS.toByte, OpCode.MEMORY_START.toByte] ++ memnum_bytes 1 ++
  [OpCode.EXACT2.toByte, 97, 98, OpCode.MEMORY_END.toByte] ++ memnum_bytes 1 ++
  [OpCode.POP_POS.toByte, OpCode.EXACT1.toByte, 97, OpCode.END.toByte]

/-- The program `OP_MEMORY_END 1; OP_END`: the end of group 1 is recorded,
its start never. -/
def prog_end_only : List Nat :=
  [OpCode.MEMORY_END.toByte] ++ memnum_bytes 1 ++ [OpCode.END.toByte]

/-- The program of `[^a]`: `OP_CCLASS_NOT` with the bit of `a` alone set. -/
def prog_not_a : List Nat :=
  [OpCode.CCLASS_NOT.toByte] ++ (List.replicate 32 0).set 12 2 ++ [OpCode.END.toByte]

/-- The program of `ab`. -/
def prog_ab : List Nat := [OpCode.EXACT2.toByte, 97, 98, OpCode.END.toByte]

/-- The program of `a`. -/
def prog_a : List Nat := [OpCode.EXACT1.toByte, 97, OpCode.END.toByte]

/-- The program of `\Gb`. -/
def prog_begin_position_b : List Nat :=
  [OpCode.BEGIN_POSITION.toByte, OpCode.EXACT1.toByte, 98, OpCode.END.toByte]

/-- The program of `(?<=a)`: an empty match after an `a`. -/
def prog_after_a : List Nat :=
  [OpCode.LOOK_BEHIND.toByte] ++ length_bytes 1 ++
  [OpCode.EXACT1.toByte, 97, OpCode.END.toByte]

/-- The program of `ab` over the ASCII encoding, without groups, options
and anchors. -/
def regex_ab : regex_t := plain_regex ONIG_ENCODING_ASCII prog_ab 0 0 0 0 0 0

/-- The program of `a` over the ASCII encoding. -/
def regex_a : regex_t := plain_regex ONIG_ENCODING_ASCII prog_a 0 0 0 0 0 0

/-- The program of `\Gb` over the ASCII encoding with `ANCHOR_BEGIN_POSITION`. -/
def regex_begin_position_b : regex_t :=
  plain_regex ONIG_ENCODING_ASCII prog_begin_position_b 0 0 0 0 0 ANCHOR_BEGIN_POSITION

/-- The subject `xab` at the address 1000. -/
def subject_xab : Subject := ⟨1000, [120, 97, 98]⟩

/-- The subject `ab` at the address 1000. -/
def subject_ab : Subject := ⟨1000, [97, 98]⟩

/-- The subject `a` at the address 1000. -/
def subject_a : Subject := ⟨1000, [97]⟩

/-- The region that `onig_search` and `onig_match` prepare from an empty
`OnigRegion` for a program without groups. -/
def region_cleared : RegionArg := .onig (onig_region_resize_clear onig_region_init 1).2

/-- Locals for an example of the commit of `OP_END`: the match is `1000 ..
1002` in a subject at `1000`, group 1 is recorded as `1000 .. 1001`, the end
of group 2 is not recorded. -/
def commit_example_state : MatchState :=
  { p := 0, s := 1002, sprev := 1001, keep := 1000, right_range := 1002,
    right_range_index := INVALID_STACK_INDEX, stk := 0, stk_end := 0, is_alloca := false,
    stack := [], repeat_stk := [],
    mem_start_stk := [none, some 1000, some 1001],
    mem_end_stk := [none, some 1001, some INVALID_STACK_INDEX] }

/-- The call of `match_at` for the example of the commit: two groups, no
status bits, a subject of two bytes at `1000`. -/
def commit_example_ctx : Ctx :=
  { reg := plain_regex ONIG_ENCODING_ASCII prog_ab 2 0 0 0 0 0, x := ⟨1000, [97, 98]⟩,
    sstart := 1000, msa_options := 0, msa_start := 1000, env := 0 }

/-- A region of `ONIG_NREGION` cleared entries. -/
def commit_example_region : OnigRegion :=
  (onig_region_resize_clear onig_region_init 3).2


/-! ## Copying a region -/

/-- The function `history_node_new` (allocation succeeds). -/
def history_node_new : OnigCaptureTreeNode :=
  .node (-1) ONIG_REGION_NOTPOS ONIG_REGION_NOTPOS []

/-- The function `history_tree_add_child(parent, child)` (allocation succeeds). -/
def history_tree_add_child (parent : OnigCaptureTreeNode) (child : OnigCaptureTreeNode) :
    OnigCaptureTreeNode :=
  match parent with
  | .node group beg end_ childs => .node group beg end_ (childs ++ [child])

mutual
/-- The function `history_tree_clone(node)` (allocations succeed): a fresh
node, the assignments `clone->beg = node->beg; clone->end = node->end`, and
the loop over the children. -/
def history_tree_clone : OnigCaptureTreeNode → OnigCaptureTreeNode
  | .node _ beg end_ childs =>
    match history_node_new with
    | .node g _ _ cs => history_tree_clone_loop childs (.node g beg end_ cs)
/-- The loop `for (i = 0; i < node->num_childs; i++)` of `history_tree_clone`
over the children that are left, with the clone built so far. -/
def history_tree_clone_loop : List OnigCaptureTreeNode → OnigCaptureTreeNode →
    OnigCaptureTreeNode
  | [], clone => clone
  | child :: rest, clone =>
    history_tree_clone_loop rest (history_tree_add_child clone (history_tree_clone child))
end

/-- The loop `for (i = 0; i < from->num_regs; i++)` of `onig_region_copy`
with `n` rounds left; `none` is a read or a write outside an array. -/
def region_copy_loop (from_ : OnigRegion) : Nat → Int → OnigRegion → Option OnigRegion
  | 0, _, to_ => some to_
  | n + 1, i, to_ =>
    match getI from_.beg i, getI from_.end_ i with
    | some b, some e =>
      match setI to_.beg i b, setI to_.end_ i e with
      | some tb, some te => region_copy_loop from_ n (i + 1) { to_ with beg := tb, end_ := te }
      | _, _ => none
    | _, _ => none

/-- The function `onig_region_copy(to, from)` (allocations succeed) for two
regions; `same` tells that `to` and `from` are one object, and `none` is
undefined behaviour.  A block from `xmalloc` is not initialised (it holds
`0` in the model). -/
def onig_region_copy (to_ : OnigRegion) (from_ : OnigRegion) (same : Bool) :
    Option OnigRegion :=
  if same then some to_
  else
    let to_ :=
      if to_.allocated = 0 then
        if from_.num_regs > 0 then
          { to_ with
            beg := List.replicate from_.num_regs.toNat 0
            end_ := List.replicate from_.num_regs.toNat 0
            allocated := from_.num_regs }
        else to_
      else if to_.allocated < from_.num_regs then
        { to_ with
          beg := xrealloc_ints to_.beg from_.num_regs.toNat
          end_ := xrealloc_ints to_.end_ from_.num_regs.toNat
          allocated := from_.num_regs }
      else to_
    match region_copy_loop from_ from_.num_regs.toNat 0 to_ with
    | none => none
    | some to_ =>
      let to_ := { to_ with num_regs := from_.num_regs }
      let to_ := { to_ with history_root := none }
      match from_.history_root with
      | some root => some { to_ with history_root := some (history_tree_clone root) }
      | none => some to_

/-- The field `group` of a capture history node. -/
def OnigCaptureTreeNode.group : OnigCaptureTreeNode → Int
  | .node group _ _ _ => group

/-- A region as `OP_END` leaves it for a program with capture history after
a match of one character: one entry, and a root node of group 0. -/
def region_with_history : OnigRegion :=
  { allocated := 10, num_regs := 1, beg := List.replicate 10 0,
    end_ := 1 :: List.replicate 9 0, history_root := some (.node 0 0 1 []) }


/-! ## Predicates used in the statements and proofs -/

/-- An exit that is not a `return` of `ONIG_MISMATCH` or of a non-negative
code. -/
def ErrNeg (e : Exit) : Prop := ∀ r, e = Exit.err r → r < -1

/-- The result of a piece of an opcode arm is not a `return` of
`ONIG_MISMATCH` or of a non-negative code. -/
def Res.errNeg {α : Type} : Res α → Prop
  | .ok _ _ => True
  | .exit e _ => ErrNeg e

/-- A piece of an opcode arm whose `return`s all carry codes below
`ONIG_MISMATCH`. -/
structure NegErr {α : Type} (m : M α) : Prop where
  run : ∀ st, (m st).errNeg

/-- A round of the loop ends in a way that satisfies `C` when the loop goes
on and `S` when `match_at` is left. -/
def StepResult.sat (r : StepResult) (C : MatchState → MatchOut → Prop)
    (S : Exit → MatchState → MatchOut → Prop) : Prop :=
  match r with
  | .cont st out => C st out
  | .stop e st out => S e st out

/-- What the loop of `OP_END` leaves in the entry of group `i`, read off the
locals at the commit: the pair of `ONIG_REGION_NOTPOS` when the end of the
group is not recorded, else the offsets of the recorded start and end. -/
def EntryOf (ctx : Ctx) (st : MatchState) (i : Int) (be : Option (Int × Int)) : Prop :=
  (ptr_get st.mem_end_stk i = some INVALID_STACK_INDEX →
    be = some (ONIG_REGION_NOTPOS, ONIG_REGION_NOTPOS)) ∧
  (∀ e, ptr_get st.mem_end_stk i = some e → e ≠ INVALID_STACK_INDEX →
    ∃ ps pe, mem_pstart ctx st i = some ps ∧ mem_pend ctx st i = some pe ∧
      be = some (ps - ctx.x.str, pe - ctx.x.str))

/-- Once a match was found (`best_len` is not negative) the region, when it
is an `OnigRegion`, holds an entry 0 that stands in the relation `A` to
`best_len`. -/
def Committed (A : Int → Int → Int → Prop) (out : MatchOut) : Prop :=
  0 ≤ out.best_len → ∀ rg, out.region = RegionArg.onig rg →
    ∃ b e, getI rg.beg 0 = some b ∧ getI rg.end_ 0 = some e ∧ A out.best_len b e

/-- The value of `prev` at the attempt `j` of a forward search over a
single-byte encoding that began at `s0` with `prev = prev0`. -/
def search_prev (prev0 : Int) (s0 : Int) (j : Nat) : Int :=
  if j = 0 then prev0 else s0 + j - 1

/-- The value of `prev` with which the forward search of `onig_search`
begins. -/
def forward_prev (reg : regex_t) (x : Subject) (start : Int) : Int :=
  if start > x.str then reg.enc.prev_char_head x x.str start else 0

/-- The value that `match_at` returned (0 when it did not return). -/
def match_value (o : Outcome (Int × OnigMatchArg)) : Int :=
  match o with
  | .done (r, _) => r
  | _ => 0

/-- The match argument that `match_at` left behind (`msa` itself when it
did not return). -/
def match_msa (msa : OnigMatchArg) (o : Outcome (Int × OnigMatchArg)) : OnigMatchArg :=
  match o with
  | .done (_, m) => m
  | _ => msa

/-- The call of `match_at` returned. -/
def match_done (o : Outcome (Int × OnigMatchArg)) : Bool :=
  match o with
  | .done _ => true
  | _ => false

/-- The match argument before the attempt `j` of a forward search over a
single-byte encoding: the one that the attempt before left behind. -/
def attempt_msa (L : Env) (fuel : Nat) (reg : regex_t) (x : Subject) (range start prev0 : Int)
    (msa0 : OnigMatchArg) : Nat → OnigMatchArg
  | 0 => msa0
  | j + 1 =>
    match_msa (attempt_msa L fuel reg x range start prev0 msa0 j)
      (match_at L fuel reg x range (start + j) (search_prev prev0 start j)
        (attempt_msa L fuel reg x range start prev0 msa0 j))

/-- The attempt `j` of a forward search over a single-byte encoding. -/
def attempt (L : Env) (fuel : Nat) (reg : regex_t) (x : Subject) (range start prev0 : Int)
    (msa0 : OnigMatchArg) (j : Nat) : Outcome (Int × OnigMatchArg) :=
  match_at L fuel reg x range (start + j) (search_prev prev0 start j)
    (attempt_msa L fuel reg x range start prev0 msa0 j)

/-- The match arguments of the attempts of the search for `ab` in `xab` from
`str` to `end`. -/
def xab_msas (j : Nat) : OnigMatchArg :=
  attempt_msa 0 100 regex_ab subject_xab 1003 1000 (forward_prev regex_ab subject_xab 1000)
    (MATCH_ARG_INIT regex_ab 0 region_cleared 1000) j

/-- The values of the attempts of the search for `ab` in `xab`. -/
def xab_values (j : Nat) : Int :=
  match_value (attempt 0 100 regex_ab subject_xab 1003 1000
    (forward_prev regex_ab subject_xab 1000) (MATCH_ARG_INIT regex_ab 0 region_cleared 1000) j)


/-- The locals of `onig_search` at a jump. -/
def SearchGoto.state : SearchGoto → SearchState
  | .to_match ss => ss
  | .to_finish _ ss => ss
  | .to_mismatch ss => ss
  | .next ss => ss

/-- What a jump out of a search loop says about the position `lo` from which
the loop ran: a match is not before `lo`, and a code that is returned is an
error code. -/
def SearchGoto.from_ (g : SearchGoto) (lo : Int) : Prop :=
  match g with
  | .to_match ss => lo ≤ ss.s
  | .to_finish r _ => r < 0
  | .to_mismatch _ => True
  | .next ss => lo ≤ ss.s

/-- The function returned. -/
def Outcome.is_done {α : Type} : Outcome α → Bool
  | .done _ => true
  | _ => false

/-- The value that the function returned, `d` when it did not return. -/
def Outcome.get {α : Type} (d : α) : Outcome α → α
  | .done a => a
  | _ => d

/-- The attempt of the search for `ab` in `ab` at `str` with the right range
`range`. -/
def ab_attempt (range : Int) : Outcome (Int × OnigMatchArg) :=
  match_at 0 100 regex_ab subject_ab range 1000 (forward_prev regex_ab subject_ab 1000)
    (MATCH_ARG_INIT regex_ab 0 region_cleared 1000)

/-- The attempt of the backward search for `a` in `a` at `str`. -/
def a_attempt : Outcome (Int × OnigMatchArg) :=
  match_at 0 100 regex_a subject_a (if (1000 : Int) < subject_a.end_ then 1000 + 1 else 1000)
    1000 (regex_a.enc.prev_char_head subject_a subject_a.str 1000)
    (MATCH_ARG_INIT regex_a 0 region_cleared 1000)

/-- The run of the search for `\Gb` in `ab` from `str` to `end`. -/
def begin_position_run : Outcome SearchResult :=
  onig_search_run 0 100 regex_begin_position_b subject_ab 1000 1002 (.onig onig_region_init) 0


/-- A scan callback that returns 5 and keeps no state. -/
def callback_five (_n : Int) (_r : Int) (region : RegionArg) (u : Unit) :
    Int × RegionArg × Unit :=
  (5, region, u)

/-- The scan of `ab` for the program of `a` with the callback that returns 0. -/
def scan_a_in_ab : Outcome (ScanResult Unit) :=
  onig_scan 0 100 10 regex_a subject_ab (.onig onig_region_init) 0 callback_zero ()

/-- A result of `onig_scan` to stand for none. -/
def ScanResult.none_ : ScanResult Unit := ⟨0, .null, (), []⟩

/-- The program of `a` over the ASCII encoding with the threshold length 1
of its one character. -/
def regex_a_threshold : regex_t := { regex_a with threshold_len := 1 }

/-- The empty subject at the address 1000. -/
def subject_empty : Subject := ⟨1000, []⟩

/-- The piece went on. -/
def Res.is_ok {α : Type} : Res α → Bool
  | .ok _ _ => true
  | .exit _ _ => false

/-- The locals that the piece left. -/
def Res.state {α : Type} : Res α → MatchState
  | .ok _ st => st
  | .exit _ st => st

/-- The locals `(p, s, sprev, stk)` of `match_at` after `rounds` rounds of
its loop, when the loop is still running then. -/
def locals_after (reg : regex_t) (x : Subject) (at_ : Int) (rounds : Nat) :
    Option (Int × Int × Int × Nat) :=
  let msa := MATCH_ARG_INIT reg 0 region_cleared at_
  let ctx : Ctx := Ctx.mk reg x at_ msa.options msa.start 0
  let out0 : MatchOut := MatchOut.mk ONIG_MISMATCH msa.best_len msa.best_s msa.region
  match STACK_PUSH_ENSURED STK_ALT FinishCode
      (match_at_init reg x.end_ at_ (reg.enc.prev_char_head x x.str at_) msa) with
  | .exit _ _ => none
  | .ok _ st0 =>
    match match_at_loop ctx rounds st0 out0 with
    | (.nofuel, st, _) => some (st.p, st.s, st.sprev, st.stk)
    | _ => none

/-- The program of `(a|ab)c`: group 1 around the alternation. -/
def prog_alt_c : List Nat :=
  [OpCode.MEMORY_START.toByte] ++ memnum_bytes 1 ++
  [OpCode.PUSH.toByte] ++ reladdr_bytes 7 ++
  [OpCode.EXACT1.toByte, 97, OpCode.JUMP.toByte] ++ reladdr_bytes 3 ++
  [OpCode.EXACT2.toByte, 97, 98, OpCode.MEMORY_END.toByte] ++ memnum_bytes 1 ++
  [OpCode.EXACT1.toByte, 99, OpCode.END.toByte]

/-- The program `OP_PUSH +2; OP_POP; OP_FAIL; OP_END`: the alternative that
`OP_PUSH` records is the `OP_END`. -/
def prog_push_pop_fail : List Nat :=
  [OpCode.PUSH.toByte] ++ reladdr_bytes 2 ++
  [OpCode.POP.toByte, OpCode.FAIL.toByte, OpCode.END.toByte]

/-- The subject `abc` at the address 1000. -/
def subject_abc : Subject := ⟨1000, [97, 98, 99]⟩

/-- The program of `(a|ab)c` over the ASCII encoding with one group. -/
def regex_alt_c : regex_t := plain_regex ONIG_ENCODING_ASCII prog_alt_c 1 0 0 0 0 0

/-- What `match_at` is called with for `(a|ab)c` on `abc` at `str`. -/
def alt_c_ctx : Ctx := Ctx.mk regex_alt_c subject_abc 1000 0 1000 0

/-- The locals of `match_at` for `(a|ab)c` on `abc` when the `OP_PUSH` at
offset 3 has been fetched: the code pointer is at its operand. -/
def alt_c_at_push : MatchState :=
  { (STACK_PUSH_ENSURED STK_ALT FinishCode
      (match_at_init regex_alt_c subject_abc.end_ 1000 0
        (MATCH_ARG_INIT regex_alt_c 0 region_cleared 1000))).state with p := 4 }

/-- The locals of `match_at` after `rounds` rounds of its loop (the locals
at the exit when the loop ended before). -/
def state_after (reg : regex_t) (x : Subject) (at_ : Int) (rounds : Nat) : MatchState :=
  let msa := MATCH_ARG_INIT reg 0 region_cleared at_
  let ctx : Ctx := Ctx.mk reg x at_ msa.options msa.start 0
  let out0 : MatchOut := MatchOut.mk ONIG_MISMATCH msa.best_len msa.best_s msa.region
  match STACK_PUSH_ENSURED STK_ALT FinishCode
      (match_at_init reg x.end_ at_ (reg.enc.prev_char_head x x.str at_) msa) with
  | .exit _ st => st
  | .ok _ st0 => (match_at_loop ctx rounds st0 out0).2.1

/-- The program of `(a)` with the frames of group 1 pushed:
`OP_MEMORY_START_PUSH 1; OP_EXACT1 a; OP_MEMORY_END_PUSH 1; OP_END`. -/
def prog_group_push : List Nat :=
  [OpCode.MEMORY_START_PUSH.toByte] ++ memnum_bytes 1 ++
  [OpCode.EXACT1.toByte, 97, OpCode.MEMORY_END_PUSH.toByte] ++ memnum_bytes 1 ++
  [OpCode.END.toByte]

/-- The program of `(a)` over the ASCII encoding with both status bits of
group 1 and the pop level `STACK_POP_LEVEL_ALL`. -/
def regex_group_push : regex_t :=
  plain_regex ONIG_ENCODING_ASCII prog_group_push 1 2 2 STACK_POP_LEVEL_ALL 0 0

/-- What `match_at` is called with for `(a)` on `a` at `str`. -/
def group_push_ctx : Ctx := Ctx.mk regex_group_push subject_a 1000 0 1000 0

/-- The locals for `(a)` on `a` when the `OP_MEMORY_START_PUSH` at offset 0
has been fetched. -/
def group_push_at_start : MatchState :=
  { state_after regex_group_push subject_a 1000 0 with p := 1 }

/-- The locals for `(a)` on `a` when the `OP_MEMORY_END_PUSH` at offset 5
has been fetched. -/
def group_push_at_end : MatchState :=
  { state_after regex_group_push subject_a 1000 2 with p := 6 }

/-- The locals that `OP_MEMORY_START_PUSH` leaves for `(a)` on `a`. -/
def group_push_after_start : MatchState :=
  (op_MEMORY_START_PUSH group_push_ctx group_push_at_start).state

/-- The locals that `OP_MEMORY_END_PUSH` leaves for `(a)` on `a`. -/
def group_push_after_end : MatchState :=
  (op_MEMORY_END_PUSH group_push_ctx group_push_at_end).state

/-- The type of the frame at the index `j` of the stack memory. -/
def frame_type (st : MatchState) (j : Int) : Option Nat :=
  (STACK_AT st j).map (fun fr => fr.type)

/-- The union of the frame at the index `j` of the stack memory. -/
def frame_union (st : MatchState) (j : Int) : Option StackU :=
  (STACK_AT st j).map (fun fr => fr.u)

/-- The program of `(?>a|ab)c`. -/
def prog_atomic : List Nat :=
  [OpCode.PUSH_STOP_BT.toByte, OpCode.PUSH.toByte] ++ reladdr_bytes 7 ++
  [OpCode.EXACT1.toByte, 97, OpCode.JUMP.toByte] ++ reladdr_bytes 3 ++
  [OpCode.EXACT2.toByte, 97, 98, OpCode.POP_STOP_BT.toByte,
   OpCode.EXACT1.toByte, 99, OpCode.END.toByte]

/-- The program of `(?>a|ab)c` over the ASCII encoding. -/
def regex_atomic : regex_t := plain_regex ONIG_ENCODING_ASCII prog_atomic 0 0 0 0 0 0

/-- The locals for `(?>a|ab)c` on `abc` when the `OP_POP_STOP_BT` at offset
16 has been fetched. -/
def atomic_at_pop : MatchState :=
  { state_after regex_atomic subject_abc 1000 4 with p := 17 }


/-! ## Proof-side definitions: repetition, calls, look-behind, capture history -/

/-- The stack block is in order for two pushes in a row: `stk` lies in the
block, the block is not empty, its capacity doubled twice stays below
`2 ^ 32`, and the limit, when there is one, is not below the capacity. -/
structure StackRoom (ctx : Ctx) (st : MatchState) : Prop where
  stk_le : st.stk ≤ st.stk_end
  pos : 0 < st.stk_end
  small : st.stk_end * 4 < 4294967296
  limit : ctx.MatchStackLimitSize = 0 ∨ st.stk_end ≤ ctx.MatchStackLimitSize

deriving instance DecidableEq for StackU

deriving instance DecidableEq for StackType

/-- The piece ended in undefined behaviour. -/
def Res.is_undef {α : Type} : Res α → Bool
  | .exit .undef _ => true
  | _ => false

/-- The locals of `match_at` when its loop starts, for the right range
`range` and the start position `at_`. -/
def locals_at_start (reg : regex_t) (x : Subject) (range : Int) (at_ : Int) : MatchState :=
  (STACK_PUSH_ENSURED STK_ALT FinishCode
    (match_at_init reg range at_ (reg.enc.prev_char_head x x.str at_)
      (MATCH_ARG_INIT reg 0 region_cleared at_))).state

/-- The context of `match_at` for a start position, with no stack limit. -/
def ctx_at (reg : regex_t) (x : Subject) (at_ : Int) : Ctx := Ctx.mk reg x at_ 0 at_ 0

/-- The value of `k`, as an offset, at the `break` of the macro
`STACK_RETURN(addr)`: the frame whose `ret_addr` is taken. -/
def STACK_RETURN_frame (st : MatchState) : Nat → Int → Option Nat
  | 0, _ => none
  | k + 1, level =>
    match STACK_AT st k with
    | none => none
    | some fr =>
      if fr.type = STK_CALL_FRAME then
        if level = 0 then some k
        else STACK_RETURN_frame st k (level - 1)
      else if fr.type = STK_RETURN then STACK_RETURN_frame st k (level + 1)
      else STACK_RETURN_frame st k level

/-- The program of a group called once, `\g<1>` with the body `a` out of
line: `OP_CALL 6; OP_END; OP_EXACT1 a; OP_RETURN`. -/
def prog_call : List Nat :=
  [OpCode.CALL.toByte] ++ operand_bytes SIZE_ABSADDR.toNat 6 ++ [OpCode.END.toByte] ++
  [OpCode.EXACT1.toByte, 97, OpCode.RETURN.toByte]

/-- The regex of `prog_call`. -/
def regex_call : regex_t := plain_regex ONIG_ENCODING_ASCII prog_call 0 0 0 0 0 0

/-- The locals of `prog_call` on `a` in the arm of `OP_RETURN`. -/
def call_at_return : MatchState :=
  { state_after regex_call subject_a 1000 2 with p := 9 }

/-- The program of `(?<!x)a`: `OP_PUSH_LOOK_BEHIND_NOT 3, 1; OP_EXACT1 x;
OP_FAIL_LOOK_BEHIND_NOT; OP_EXACT1 a; OP_END`. -/
def prog_look_behind_not : List Nat :=
  [OpCode.PUSH_LOOK_BEHIND_NOT.toByte] ++ reladdr_bytes 3 ++ length_bytes 1 ++
  [OpCode.EXACT1.toByte, 120, OpCode.FAIL_LOOK_BEHIND_NOT.toByte,
   OpCode.EXACT1.toByte, 97, OpCode.END.toByte]

/-- The regex of `prog_look_behind_not`. -/
def regex_look_behind_not : regex_t :=
  plain_regex ONIG_ENCODING_ASCII prog_look_behind_not 0 0 0 0 0 0

/-- The subject `ba` at the address 1000. -/
def subject_ba : Subject := ⟨1000, [98, 97]⟩

/-- The locals of `prog_look_behind_not` on `ba` from `at_` in the arm of
`OP_PUSH_LOOK_BEHIND_NOT`. -/
def look_behind_not_at (at_ : Int) : MatchState :=
  { locals_at_start regex_look_behind_not subject_ba subject_ba.end_ at_ with p := 1 }

/-- The program `OP_PUSH_IF_PEEK_NEXT 2, a; OP_EXACT1 a; OP_END`. -/
def prog_push_if_peek_next : List Nat :=
  [OpCode.PUSH_IF_PEEK_NEXT.toByte] ++ reladdr_bytes 2 ++ [97] ++
  [OpCode.EXACT1.toByte, 97, OpCode.END.toByte]

/-- The program `OP_PUSH_OR_JUMP_EXACT1 2, a; OP_EXACT1 a; OP_END`. -/
def prog_push_or_jump_exact1 : List Nat :=
  [OpCode.PUSH_OR_JUMP_EXACT1.toByte] ++ reladdr_bytes 2 ++ [97] ++
  [OpCode.EXACT1.toByte, 97, OpCode.END.toByte]

/-- The regex of `prog_push_if_peek_next`. -/
def regex_push_if_peek_next : regex_t :=
  plain_regex ONIG_ENCODING_ASCII prog_push_if_peek_next 0 0 0 0 0 0

/-- The regex of `prog_push_or_jump_exact1`. -/
def regex_push_or_jump_exact1 : regex_t :=
  plain_regex ONIG_ENCODING_ASCII prog_push_or_jump_exact1 0 0 0 0 0 0

/-- The locals of a program on the subject `x` with the right range `range`
and `s = at_`, in the arm of the first opcode. -/
def first_arm_at (reg : regex_t) (x : Subject) (range : Int) (at_ : Int) : MatchState :=
  { locals_at_start reg x range at_ with p := 1 }

/-- The frame at `k` is the topmost frame of type `EMPTY_CHECK_START` with
the id `id` below `stk`, and it recorded the position `pstr`: the frames
above it are written, and those of type `EMPTY_CHECK_START` have another
id. -/
structure TopEmptyCheckStart (st : MatchState) (id : Int) (k : Nat) (pstr : Int) : Prop where
  lt : k < st.stk
  frame : STACK_AT st k = some ⟨STK_EMPTY_CHECK_START, .empty_check id pstr⟩
  above : ∀ j : Nat, k < j → j < st.stk → ∃ fr, STACK_AT st j = some fr ∧
    (fr.type = STK_EMPTY_CHECK_START → ∃ num p, fr.u = .empty_check num p ∧ num ≠ id)

/-- The program of `(a*)*b` with the empty check `0` around the body of the
outer loop:
`0: OP_PUSH 23; 5: OP_EMPTY_CHECK_START 0; 8: OP_PUSH 7; 13: OP_EXACT1 a;
15: OP_JUMP -12; 20: OP_EMPTY_CHECK_END 0; 23: OP_JUMP -28; 28: OP_EXACT1 b;
30: OP_END`. -/
def prog_star_star_b : List Nat :=
  [OpCode.PUSH.toByte] ++ reladdr_bytes 23 ++
  [OpCode.EMPTY_CHECK_START.toByte] ++ memnum_bytes 0 ++
  [OpCode.PUSH.toByte] ++ reladdr_bytes 7 ++
  [OpCode.EXACT1.toByte, 97] ++
  [OpCode.JUMP.toByte] ++ reladdr_bytes (-12) ++
  [OpCode.EMPTY_CHECK_END.toByte] ++ memnum_bytes 0 ++
  [OpCode.JUMP.toByte] ++ reladdr_bytes (-28) ++
  [OpCode.EXACT1.toByte, 98, OpCode.END.toByte]

/-- The regex of `prog_star_star_b`. -/
def regex_star_star_b : regex_t := plain_regex ONIG_ENCODING_ASCII prog_star_star_b 0 0 0 0 0 0

/-- The subject `aaaab` at the address 1000. -/
def subject_aaaab : Subject := ⟨1000, [97, 97, 97, 97, 98]⟩

/-- The same program with `OP_END` in the place of the outer loop-back, which
the empty check may not skip. -/
def prog_empty_check_end_then_end : List Nat :=
  [OpCode.EMPTY_CHECK_START.toByte] ++ memnum_bytes 0 ++
  [OpCode.EMPTY_CHECK_END.toByte] ++ memnum_bytes 0 ++ [OpCode.END.toByte]

/-- The regex of `prog_empty_check_end_then_end`. -/
def regex_empty_check_end_then_end : regex_t :=
  plain_regex ONIG_ENCODING_ASCII prog_empty_check_end_then_end 0 0 0 0 0 0

/-- The locals of `prog_star_star_b` on `aaaab` when the second round of the
outer loop reaches `OP_EMPTY_CHECK_END` (22 rounds of `match_at`). -/
def star_star_b_at_check : MatchState := state_after regex_star_star_b subject_aaaab 1000 22

/-- The locals of `prog_star_star_b` on `aaaab` when the first round of the
outer loop reaches `OP_EMPTY_CHECK_END` (16 rounds of `match_at`). -/
def star_star_b_at_first_check : MatchState :=
  state_after regex_star_star_b subject_aaaab 1000 16

/-- The output of `match_at` that the examples start from. -/
def out_start (reg : regex_t) (at_ : Int) : MatchOut :=
  MatchOut.mk ONIG_MISMATCH (MATCH_ARG_INIT reg 0 region_cleared at_).best_len
    (MATCH_ARG_INIT reg 0 region_cleared at_).best_s
    (MATCH_ARG_INIT reg 0 region_cleared at_).region

/-- The program of `a{2,3}` as a counted loop with id 0:
`0: OP_REPEAT 0, 5; 7: OP_EXACT1 a; 9: OP_REPEAT_INC 0; 12: OP_END`. -/
def prog_repeat : List Nat :=
  [OpCode.REPEAT.toByte] ++ memnum_bytes 0 ++ reladdr_bytes 5 ++
  [OpCode.EXACT1.toByte, 97] ++
  [OpCode.REPEAT_INC.toByte] ++ memnum_bytes 0 ++ [OpCode.END.toByte]

/-- The regex of `prog_repeat`: one counted loop with the range `(2, 3)`,
pops at the level `ALL`. -/
def regex_repeat : regex_t :=
  { plain_regex ONIG_ENCODING_ASCII prog_repeat 0 0 0 STACK_POP_LEVEL_ALL 0 0 with
    num_repeat := 1
    repeat_range := [⟨2, 3⟩] }

/-- The subject `aaa` at the address 1000. -/
def subject_aaa : Subject := ⟨1000, [97, 97, 97]⟩

/-- The locals of `prog_repeat` on `aaa` in the arm of `OP_REPEAT_INC` when
the count is about to reach 2 (4 rounds of `match_at`). -/
def repeat_at_inc : MatchState := { state_after regex_repeat subject_aaa 1000 4 with p := 10 }

/-- The program of `(?:a{1,2}b)*` with the counted loop 0 inside the outer
loop:
`0: OP_PUSH 19; 5: OP_REPEAT 0, 5; 12: OP_EXACT1 a; 14: OP_REPEAT_INC 0;
17: OP_EXACT1 b; 19: OP_JUMP -24; 24: OP_END`. -/
def prog_repeat_in_loop : List Nat :=
  [OpCode.PUSH.toByte] ++ reladdr_bytes 19 ++
  [OpCode.REPEAT.toByte] ++ memnum_bytes 0 ++ reladdr_bytes 5 ++
  [OpCode.EXACT1.toByte, 97] ++
  [OpCode.REPEAT_INC.toByte] ++ memnum_bytes 0 ++
  [OpCode.EXACT1.toByte, 98] ++
  [OpCode.JUMP.toByte] ++ reladdr_bytes (-24) ++ [OpCode.END.toByte]

/-- The regex of `prog_repeat_in_loop`: one counted loop with the range
`(1, 2)`, pops at the level `ALL`. -/
def regex_repeat_in_loop : regex_t :=
  { plain_regex ONIG_ENCODING_ASCII prog_repeat_in_loop 0 0 0 STACK_POP_LEVEL_ALL 0 0 with
    num_repeat := 1
    repeat_range := [⟨1, 2⟩] }

/-- The subject `abab` at the address 1000. -/
def subject_abab : Subject := ⟨1000, [97, 98, 97, 98]⟩

/-- The id `num` of the frame at the index `j`, when it is a `REPEAT` frame. -/
def repeat_frame_id (st : MatchState) (j : Int) : Option Int :=
  match STACK_AT st j with
  | some ⟨t, .repeat_ _ _ num⟩ => if t = STK_REPEAT then some num else none
  | _ => none

/-- The locals of `prog_repeat_in_loop` on `abab` in the arm of the second
`OP_REPEAT` (8 rounds of `match_at`). -/
def repeat_in_loop_at_repeat : MatchState :=
  { state_after regex_repeat_in_loop subject_abab 1000 8 with p := 6 }

/-- The locals of `prog_repeat_in_loop` on `abab` when the last `OP_EXACT1 a`
has gone to `fail` (16 rounds of `match_at` and the arm of `OP_EXACT1`). -/
def repeat_in_loop_at_fail : MatchState :=
  (op_EXACT1 (ctx_at regex_repeat_in_loop subject_abab 1000)
    { state_after regex_repeat_in_loop subject_abab 1000 16 with p := 13 }).state

/-- The macro `STACK_EMPTY_CHECK_REC(isnull, id, s)`, the variant of the
recursive empty check without the look at the captures: the loop with `k`
at offset `k`. -/
def STACK_EMPTY_CHECK_REC_loop (st : MatchState) (id : Int) (s : Int) : Nat → Int → Option Int
  | 0, _ => none
  | k + 1, level =>
    match STACK_AT st k with
    | none => none
    | some fr =>
      if fr.type = STK_EMPTY_CHECK_START then
        match fr.u with
        | .empty_check num pstr =>
          if num = id ∧ level = 0 then some (if pstr = s then 1 else 0)
          else STACK_EMPTY_CHECK_REC_loop st id s k (level - 1)
        | _ => none
      else if fr.type = STK_EMPTY_CHECK_END then
        STACK_EMPTY_CHECK_REC_loop st id s k (level + 1)
      else STACK_EMPTY_CHECK_REC_loop st id s k level

/-- The value of `k`, as an offset, where the outer walk of the macro
`STACK_EMPTY_CHECK_MEMST_REC` ends: the frame of type `EMPTY_CHECK_START`
with the id that it finds at the level 0. -/
def STACK_EMPTY_CHECK_MEMST_REC_frame (st : MatchState) (id : Int) : Nat → Int → Option Nat
  | 0, _ => none
  | k + 1, level =>
    match STACK_AT st k with
    | none => none
    | some fr =>
      if fr.type = STK_EMPTY_CHECK_START then
        match fr.u with
        | .empty_check num _ =>
          if num = id then
            if level = 0 then some k
            else STACK_EMPTY_CHECK_MEMST_REC_frame st id k (level - 1)
          else STACK_EMPTY_CHECK_MEMST_REC_frame st id k level
        | _ => none
      else if fr.type = STK_EMPTY_CHECK_END then
        match fr.u.get_empty_check_num with
        | some num =>
          if num = id then STACK_EMPTY_CHECK_MEMST_REC_frame st id k (level + 1)
          else STACK_EMPTY_CHECK_MEMST_REC_frame st id k level
        | none => none
      else STACK_EMPTY_CHECK_MEMST_REC_frame st id k level

/-- What `STACK_EMPTY_CHECK_MEMST_REC` computes from the frame at `k` where
its outer walk ended. -/
def empty_check_memst_at (reg : regex_t) (st : MatchState) (s : Int) (k : Nat) : Option Int :=
  match STACK_AT st k with
  | some ⟨_, .empty_check _ pstr⟩ =>
    if pstr ≠ s then some 0 else EMPTY_CHECK_MEMST_inner reg st s (st.stk - k) k 1
  | _ => none

/-- The frame that the recursive empty check would select if its level
counted calls, written after the words of the specification: walking down
from the index `k`, the nearest frame of type `EMPTY_CHECK_START` with the
id at the level 0, the level going up by one on each `RETURN` frame and down
by one on each `CALL_FRAME` frame passed. -/
def empty_check_start_by_call_level (st : MatchState) (id : Int) : Nat → Int → Option Nat
  | 0, _ => none
  | k + 1, level =>
    match STACK_AT st k with
    | none => none
    | some fr =>
      if fr.type = STK_EMPTY_CHECK_START then
        if fr.u.get_empty_check_num = some id ∧ level = 0 then some k
        else empty_check_start_by_call_level st id k level
      else if fr.type = STK_RETURN then empty_check_start_by_call_level st id k (level + 1)
      else if fr.type = STK_CALL_FRAME then empty_check_start_by_call_level st id k (level - 1)
      else empty_check_start_by_call_level st id k level

/-- The frame at `j` is of the type `t` and carries the empty-check id `id`. -/
def is_empty_check_frame (st : MatchState) (t : Nat) (id : Int) (j : Nat) : Bool :=
  match STACK_AT st j with
  | some fr => fr.type == t && fr.u.get_empty_check_num == some id
  | none => false

/-- The number of frames of the type `t` with the empty-check id `id` among
the `d` frames from the index `m` on. -/
def count_empty_check (st : MatchState) (t : Nat) (id : Int) : Nat → Nat → Nat
  | _, 0 => 0
  | m, d + 1 =>
    (if is_empty_check_frame st t id m then 1 else 0) + count_empty_check st t id (m + 1) d

/-- The program of a group that calls itself inside a loop with the empty
check 0, `(?<g>(?:(?:b\g<g>)?)*)` entered by a call:
`0: OP_CALL 6; 5: OP_END; 6: OP_PUSH 23; 11: OP_EMPTY_CHECK_START 0;
14: OP_PUSH 7; 19: OP_EXACT1 b; 21: OP_CALL 6;
26: OP_EMPTY_CHECK_END_MEMST_PUSH 0; 29: OP_JUMP -28; 34: OP_RETURN`. -/
def prog_recursive_loop : List Nat :=
  [OpCode.CALL.toByte] ++ operand_bytes SIZE_ABSADDR.toNat 6 ++ [OpCode.END.toByte] ++
  [OpCode.PUSH.toByte] ++ reladdr_bytes 23 ++
  [OpCode.EMPTY_CHECK_START.toByte] ++ memnum_bytes 0 ++
  [OpCode.PUSH.toByte] ++ reladdr_bytes 7 ++
  [OpCode.EXACT1.toByte, 98] ++
  [OpCode.CALL.toByte] ++ operand_bytes SIZE_ABSADDR.toNat 6 ++
  [OpCode.EMPTY_CHECK_END_MEMST_PUSH.toByte] ++ memnum_bytes 0 ++
  [OpCode.JUMP.toByte] ++ reladdr_bytes (-28) ++ [OpCode.RETURN.toByte]

/-- The regex of `prog_recursive_loop`. -/
def regex_recursive_loop : regex_t :=
  plain_regex ONIG_ENCODING_ASCII prog_recursive_loop 0 0 0 0 0 0

/-- The subject `b` at the address 1000. -/
def subject_b : Subject := ⟨1000, [98]⟩

/-- The locals of `prog_recursive_loop` on `b` when the outer round of the
loop reaches `OP_EMPTY_CHECK_END_MEMST_PUSH` after the call returned (12
rounds of `match_at`). -/
def recursive_loop_at_check : MatchState := state_after regex_recursive_loop subject_b 1000 12

/-- The position that the frame at the index `j` recorded, when it is a
frame of an empty check. -/
def empty_check_pstr (st : MatchState) (j : Int) : Option Int :=
  match STACK_AT st j with
  | some ⟨_, .empty_check _ pstr⟩ => some pstr
  | _ => none

/-- The frame at `j` is written, and when it is of one of the two types of
the empty check its union is a member `empty_check` as a push macro of the
empty check writes it (with the position for `EMPTY_CHECK_START`). -/
def empty_check_frame_ok (st : MatchState) (j : Nat) : Bool :=
  match STACK_AT st j with
  | some ⟨_, .empty_check _ _⟩ => true
  | some ⟨t, .empty_check_num _⟩ => t != STK_EMPTY_CHECK_START
  | some ⟨t, _⟩ => t != STK_EMPTY_CHECK_START && t != STK_EMPTY_CHECK_END
  | none => false

/-- The calls that are open after the `d` frames from the index `m` on,
innermost first, as indices of their `CALL_FRAME` frames: read in the order
of the pushes, a `CALL_FRAME` opens a call and a `RETURN` marker closes the
innermost open one; `none` when a `RETURN` marker has no open call before
it, or a slot was never written. -/
def open_calls (st : MatchState) (m : Nat) : Nat → Option (List Nat)
  | 0 => some []
  | d + 1 =>
    match open_calls st m d, STACK_AT st ((m + d : Nat) : Int) with
    | some os, some fr =>
      if fr.type = STK_CALL_FRAME then some ((m + d) :: os)
      else if fr.type = STK_RETURN then
        match os with
        | [] => none
        | _ :: rest => some rest
      else some os
    | _, _ => none

/-- The field `u.call_frame.ret_addr` of the frame at `k`. -/
def call_frame_ret_addr (st : MatchState) (k : Nat) : Option Int :=
  match STACK_AT st k with
  | some ⟨_, .call_frame ret_addr⟩ => some ret_addr
  | _ => none

/-- The program of a group that calls another: `\g<1>` with the body
`a\g<2>` and the group 2 with the body `b`:
`0: OP_CALL 6; 5: OP_END; 6: OP_EXACT1 a; 8: OP_CALL 14; 13: OP_RETURN;
14: OP_EXACT1 b; 16: OP_RETURN`. -/
def prog_nested_call : List Nat :=
  [OpCode.CALL.toByte] ++ operand_bytes SIZE_ABSADDR.toNat 6 ++ [OpCode.END.toByte] ++
  [OpCode.EXACT1.toByte, 97] ++
  [OpCode.CALL.toByte] ++ operand_bytes SIZE_ABSADDR.toNat 14 ++ [OpCode.RETURN.toByte] ++
  [OpCode.EXACT1.toByte, 98, OpCode.RETURN.toByte]

/-- The regex of `prog_nested_call`. -/
def regex_nested_call : regex_t := plain_regex ONIG_ENCODING_ASCII prog_nested_call 0 0 0 0 0 0

/-- The locals of `prog_nested_call` on `ab` in the arm of the first
`OP_CALL`. -/
def nested_call_at_call : MatchState :=
  { state_after regex_nested_call subject_ab 1000 0 with p := 1 }

/-- The locals of `prog_nested_call` on `ab` in the arm of the `OP_RETURN`
of the outer group, after the inner call has returned (5 rounds of
`match_at`). -/
def nested_call_at_return : MatchState :=
  { state_after regex_nested_call subject_ab 1000 5 with p := 14 }

/-- The locals of `match_at` for `a{2,3}` on `aaa` when the loop starts, with
all 160 frames of the initial block in use. -/
def full_stack_at_start : MatchState :=
  { locals_at_start regex_repeat subject_aaa 1003 1000 with stk := INIT_MATCH_STACK_SIZE }

/-- The program
`0: OP_PUSH 5; 5: OP_PUSH_SAVE_VAL RIGHT_RANGE, 1; 9: OP_FAIL; 10: OP_EXACT1 a;
12: OP_UPDATE_VAR RIGHT_RANGE_SPREV, 0; 16: OP_PUSH_SAVE_VAL KEEP, 0;
20: OP_UPDATE_VAR RIGHT_RANGE_FROM_STACK_LAST, 1; 24: OP_EXACT1 b; 26: OP_END`. -/
def prog_update_var : List Nat :=
  [OpCode.PUSH.toByte] ++ reladdr_bytes 5 ++
  [OpCode.PUSH_SAVE_VAL.toByte, 2] ++ memnum_bytes 1 ++
  [OpCode.FAIL.toByte] ++
  [OpCode.EXACT1.toByte, 97] ++
  [OpCode.UPDATE_VAR.toByte, 3] ++ memnum_bytes 0 ++
  [OpCode.PUSH_SAVE_VAL.toByte, 0] ++ memnum_bytes 0 ++
  [OpCode.UPDATE_VAR.toByte, 2] ++ memnum_bytes 1 ++
  [OpCode.EXACT1.toByte, 98] ++
  [OpCode.END.toByte]

/-- The regex of `prog_update_var`. -/
def regex_update_var : regex_t :=
  plain_regex ONIG_ENCODING_ASCII prog_update_var 0 0 0 0 0 0

/-- The locals of `prog_update_var` on `ab` in the arm of the second
`OP_UPDATE_VAR` (6 rounds of `match_at`), `p` after the opcode byte. -/
def update_var_at_op : MatchState :=
  { state_after regex_update_var subject_ab 1000 6 with p := 21 }

/-- The program of `(a)\k<1+0>` with the frames of group 1 pushed:
`0: OP_MEMORY_START_PUSH 1; 3: OP_EXACT1 a; 5: OP_MEMORY_END_PUSH 1;
8: OP_BACKREF_WITH_LEVEL 0, 0, 1: 1; 23: OP_END`. -/
def prog_backref_level : List Nat :=
  [OpCode.MEMORY_START_PUSH.toByte] ++ memnum_bytes 1 ++
  [OpCode.EXACT1.toByte, 97, OpCode.MEMORY_END_PUSH.toByte] ++ memnum_bytes 1 ++
  [OpCode.BACKREF_WITH_LEVEL.toByte] ++ operand_bytes SIZE_OPTION.toNat 0 ++
  length_bytes 0 ++ length_bytes 1 ++ memnum_bytes 1 ++
  [OpCode.END.toByte]

/-- The regex of `prog_backref_level`: one group with both status bits, the
pop level `STACK_POP_LEVEL_ALL`. -/
def regex_backref_level : regex_t :=
  plain_regex ONIG_ENCODING_ASCII prog_backref_level 1 2 2 STACK_POP_LEVEL_ALL 0 0

/-- The subject `aa` at the address 1000. -/
def subject_aa : Subject := ⟨1000, [97, 97]⟩

/-- The opcode `OP_EXACTk` for `k` in `1 .. 5`. -/
def exact_opcode : Nat → OpCode
  | 1 => .EXACT1
  | 2 => .EXACT2
  | 3 => .EXACT3
  | 4 => .EXACT4
  | _ => .EXACT5

/-- The arms of the literals of `k` bytes written the way of `OP_EXACTN`:
the test of the range, `k` comparisons, and `sprev = s - 1`. -/
def exact_body (ctx : Ctx) (k : Nat) : M Unit := do
  DATA_ENSURE (k : Int)
  times k (cmp_byte ctx)
  let st ← getS
  set_sprev (st.s - 1)

/-- The literal of `k` bytes at the code offset `p` does not stand in the
subject at `s`: the range ends before `s + k`, or a byte differs. -/
def literal_differs (ctx : Ctx) (st : MatchState) (k : Nat) : Prop :=
  st.s + k > st.right_range ∨
    ∃ i : Nat, i < k ∧ getI ctx.reg.p (st.p + i) ≠ ctx.x.rd (st.s + i)

/-- The program `0: OP_EXACT2 a b; 3: OP_EXACTN 2 a b; 10: OP_END`. -/
def prog_exact_both : List Nat :=
  [OpCode.EXACT2.toByte, 97, 98] ++
  [OpCode.EXACTN.toByte] ++ length_bytes 2 ++ [97, 98] ++
  [OpCode.END.toByte]

/-- The regex of `prog_exact_both`. -/
def regex_exact_both : regex_t :=
  plain_regex ONIG_ENCODING_ASCII prog_exact_both 0 0 0 0 0 0

/-- The locals of `prog_exact_both` on `ab` in an arm of the first round, `p`
at the operands at the code offset `p`. -/
def exact_both_at (p : Int) : MatchState :=
  { locals_at_start regex_exact_both subject_ab 1002 1000 with p := p }

/-- What the round wrote. -/
def StepResult.out : StepResult → MatchOut
  | .cont _ out => out
  | .stop _ _ out => out

/-- The opcode at `p` is `OP_END`. -/
def is_end_at (ctx : Ctx) (st : MatchState) : Bool :=
  match opcode_at ctx.reg st.p with
  | none => false
  | some b =>
    match OpCode.ofByte b with
    | some .END => true
    | _ => false

/-- The arm `OP_END` at the locals `st` reaches the block `if (region)` with
a region: the match is longer than `best_len`, and with
`ONIG_OPTION_FIND_LONGEST` also longer than `msa->best_len`. -/
def end_writes (ctx : Ctx) (st : MatchState) (out : MatchOut) : Bool :=
  decide (st.s - ctx.sstart > out.best_len) &&
    !(IS_FIND_LONGEST ctx.reg.options && !decide (st.s - ctx.sstart > out.msa_best_len)) &&
    (match out.region with
     | .null => false
     | _ => true)

/-- The value `s - sstart` at the last execution of `OP_END` that wrote the
region in at most `fuel` rounds of the loop of `match_at`; `last` is that of
the rounds before. -/
def last_end_write (ctx : Ctx) : Nat → MatchState → MatchOut → Option Int → Option Int
  | 0, _, _, last => last
  | fuel + 1, st, out, last =>
    match match_at_step ctx st out with
    | .cont st1 out1 =>
      last_end_write ctx fuel st1 out1
        (if is_end_at ctx st && end_writes ctx st out then some (st.s - ctx.sstart) else last)
    | .stop _ _ _ =>
      if is_end_at ctx st && end_writes ctx st out then some (st.s - ctx.sstart) else last

/-- The program `OP_END` of the empty pattern. -/
def prog_empty : List Nat := [OpCode.END.toByte]

/-- The regex of `prog_empty` with the option `ONIG_OPTION_FIND_NOT_EMPTY`. -/
def regex_empty_not_empty : regex_t :=
  plain_regex ONIG_ENCODING_ASCII prog_empty 0 0 0 0 ONIG_OPTION_FIND_NOT_EMPTY 0

/-- The program of `a|ab`:
`0: OP_PUSH 7; 5: OP_EXACT1 a; 7: OP_JUMP 3; 12: OP_EXACT2 a b; 15: OP_END`. -/
def prog_a_or_ab : List Nat :=
  [OpCode.PUSH.toByte] ++ reladdr_bytes 7 ++
  [OpCode.EXACT1.toByte, 97, OpCode.JUMP.toByte] ++ reladdr_bytes 3 ++
  [OpCode.EXACT2.toByte, 97, 98, OpCode.END.toByte]

/-- The regex of `prog_a_or_ab` with the option `ONIG_OPTION_FIND_LONGEST`. -/
def regex_a_or_ab_longest : regex_t :=
  plain_regex ONIG_ENCODING_ASCII prog_a_or_ab 0 0 0 0 ONIG_OPTION_FIND_LONGEST 0

/-- The literal `target` stands in the subject at `p`. -/
def occurs_here (x : Subject) (target : List Nat) (p : Int) : Prop :=
  ∀ i : Nat, i < target.length → x.rd (p + i) = target.get? i

/-- The greatest index below `k` at which `c` stands in `l`. -/
def last_index_below (l : List Nat) (c : Nat) : Nat → Option Nat
  | 0 => none
  | k + 1 => if l.get? k = some c then some k else last_index_below l c k

/-- The skip table in the words of the specification: for a target of the
length `m`, `m - 1 - (last index of c in target[0 .. m-2])`, or `m` when `c`
does not occur there. -/
def bm_skip_table (target : List Nat) (c : Nat) : Int :=
  match last_index_below target c (target.length - 1) with
  | some i => (target.length : Int) - 1 - i
  | none => target.length

/-- What a forward scanner is to return for a target of the length `m`: the
least position `p` with `text <= p < text_range`, `p + m <= text_end` at
which the target stands, or null when there is none. -/
def is_first_match (x : Subject) (target : List Nat) (text text_end text_range r : Int) :
    Prop :=
  (r ≠ 0 ∧ text ≤ r ∧ r < text_range ∧ r + target.length ≤ text_end ∧
      occurs_here x target r ∧ ∀ q, text ≤ q → q < r → ¬ occurs_here x target q) ∨
    (r = 0 ∧ ∀ q, text ≤ q → q < text_range → q + target.length ≤ text_end →
      ¬ occurs_here x target q)

/-- The least index from 1 on at which `c` stands in `l`, searched in
`l[k ..]` with `k` the index of the head. -/
def first_index_from (c : Nat) : List Nat → Nat → Option Nat
  | [], _ => none
  | t :: ts, k => if t = c then some k else first_index_from c ts (k + 1)

/-- The backward skip table in the words of the specification: for a target
of the length `m`, `min { i : 1 <= i < m and target[i] = c }`, or `m` when
there is no such `i`. -/
def bm_backward_skip_table (target : List Nat) (c : Nat) : Int :=
  match first_index_from c target.tail 1 with
  | some i => i
  | none => target.length

/-- What a backward scanner is to return for a target of the length `m`:
the greatest position `p` with `text <= p <= min(text_start, text_end - m)`
at which the target stands, or null when there is none. -/
def is_last_match (x : Subject) (target : List Nat) (text text_end text_start r : Int) :
    Prop :=
  (r ≠ 0 ∧ text ≤ r ∧ r ≤ text_start ∧ r + target.length ≤ text_end ∧
      occurs_here x target r ∧
      ∀ q, r < q → q ≤ text_start → q + target.length ≤ text_end →
        ¬ occurs_here x target q) ∨
    (r = 0 ∧ ∀ q, text ≤ q → q ≤ text_start → q + target.length ≤ text_end →
      ¬ occurs_here x target q)

/-- The array `reg->map` filled with the skip table of `target`. -/
def bm_map (target : List Nat) : List Nat :=
  (List.range 256).map (fun c => (bm_skip_table target c).toNat)

/-- The regex of `ab` with the literal `ab` as `reg->exact` and its skip
table as `reg->map`. -/
def regex_bm_ab : regex_t := { regex_ab with exact := [97, 98], map := bm_map [97, 98] }

/-- The subject `aabab` at the address 1000. -/
def subject_aabab : Subject := ⟨1000, [97, 97, 98, 97, 98]⟩

/-- The locals with which the round ended. -/
def StepResult.state : StepResult → MatchState
  | .cont st _ => st
  | .stop _ st _ => st

/-- The frames of the stack from the index `k` on are the frames `l`. -/
def frames_at (st : MatchState) (k : Nat) (l : List StackType) : Prop :=
  ∀ i : Nat, i < l.length → STACK_AT st ((k + i : Nat) : Int) = l.get? i

/-- The group `n` is one of the capture-history groups: the test of
`make_capture_history_tree` at a `STK_MEM_START` frame. -/
def history_group (reg : regex_t) (n : Int) : Prop :=
  n ≤ ONIG_MAX_CAPTURE_HISTORY_GROUP ∧ MEM_STATUS_AT reg.capture_history n = true

/-- A frame that belongs to no pair of a capture-history group, seen from
inside the pair of the group `g`: a frame that is neither `STK_MEM_START` nor
`STK_MEM_END`, the `STK_MEM_START` of a group without capture history, or the
`STK_MEM_END` of a group other than `g`. -/
def outside_pairs (reg : regex_t) (g : Int) (fr : StackType) : Prop :=
  (fr.type ≠ STK_MEM_START ∧ fr.type ≠ STK_MEM_END) ∨
    (∃ n pstr a b, fr = ⟨STK_MEM_START, .mem n pstr a b⟩ ∧ ¬ history_group reg n) ∨
    (∃ n pstr a b, fr = ⟨STK_MEM_END, .mem n pstr a b⟩ ∧ n ≠ g)

/-- The frames `l`, read inside the pair of the group `g`, are a well nested
sequence of `STK_MEM_START`/`STK_MEM_END` pairs of capture-history groups
(and frames outside the pairs), and `cs` is the forest of the nesting: a pair
of the group `n` from `pb` to `pe` around the frames `l1` is the node
`(n, pb - str, pe - str)` over the forest of `l1`. -/
inductive WellNested (reg : regex_t) (str : Int) :
    Int → List StackType → List OnigCaptureTreeNode → Prop where
  | nil (g : Int) : WellNested reg str g [] []
  | skip (g : Int) (fr : StackType) (l : List StackType) (cs : List OnigCaptureTreeNode) :
      outside_pairs reg g fr → WellNested reg str g l cs → WellNested reg str g (fr :: l) cs
  | pair (g n pb pe a b c d : Int) (l1 l2 : List StackType)
      (cs1 cs2 : List OnigCaptureTreeNode) :
      history_group reg n → WellNested reg str n l1 cs1 → WellNested reg str g l2 cs2 →
      WellNested reg str g
        (⟨STK_MEM_START, .mem n pb a b⟩ :: (l1 ++ ⟨STK_MEM_END, .mem n pe c d⟩ :: l2))
        (.node n (pb - str) (pe - str) cs1 :: cs2)

mutual
/-- The groups and starts of the nodes of a capture history tree in
pre-order. -/
def preorder : OnigCaptureTreeNode → List (Int × Int)
  | .node g b _ cs => (g, b) :: preorder_list cs
/-- The groups and starts of the nodes of a forest in pre-order. -/
def preorder_list : List OnigCaptureTreeNode → List (Int × Int)
  | [] => []
  | c :: cs => preorder c ++ preorder_list cs
end

/-- The group and the start offset that a frame contributes to the capture
history: those of a `STK_MEM_START` frame of a capture-history group. -/
def history_start (reg : regex_t) (str : Int) (fr : StackType) : Option (Int × Int) :=
  if fr.type = STK_MEM_START then
    match fr.u with
    | .mem n pstr _ _ =>
      if n ≤ ONIG_MAX_CAPTURE_HISTORY_GROUP ∧ MEM_STATUS_AT reg.capture_history n = true then
        some (n, pstr - str)
      else none
    | _ => none
  else none

/-- The program of `(a)` with pushed frames (`regex_group_push`) and the
capture history of group 1. -/
def regex_group_history : regex_t := { regex_group_push with capture_history := 2 }


/-! ## Proof-side definitions: what a search keeps about its match argument -/

/-- The region is a supplied `OnigRegion` with `n` registers, all of them
inside the arrays `beg` and `end`. -/
def region_holds (n : Int) (region : RegionArg) : Prop :=
  ∃ rg, region = .onig rg ∧ rg.num_regs = n ∧ n ≤ rg.beg.length ∧ n ≤ rg.end_.length

/-- What `onig_search` keeps between two calls of `match_at`: the region of
the match argument holds `n` registers, and a `best_s` that goes with a
`best_len` that is not negative is a position at which `match_at` was
called. -/
def search_inv (n : Int) (msa : OnigMatchArg) (calls : List Int) : Prop :=
  region_holds n msa.region ∧ (0 ≤ msa.best_len → msa.best_s ∈ calls)

/-- The same at a jump out of a search loop; a jump to `match` is taken at a
position at which `match_at` was called. -/
def SearchGoto.inv (n : Int) (g : SearchGoto) : Prop :=
  search_inv n g.state.msa g.state.calls ∧
    match g with
    | .to_match ss => ss.s ∈ ss.calls
    | _ => True

/-- Every register of the region holds `ONIG_REGION_NOTPOS` in `beg` and in
`end`. -/
def region_is_clear (rg : OnigRegion) : Prop :=
  ∀ i : Int, 0 ≤ i → i < rg.num_regs →
    getI rg.beg i = some ONIG_REGION_NOTPOS ∧ getI rg.end_ i = some ONIG_REGION_NOTPOS

/-- The result that is read when the search did not return. -/
def SearchResult.none : SearchResult := ⟨0, .null, []⟩

/-- The program `OP_CCLASS_MB_NOT` with an empty list of code ranges, then
`OP_END`: the program of a character class that excludes no multibyte
character. -/
def prog_cclass_mb_not : List Nat :=
  [OpCode.CCLASS_MB_NOT.toByte] ++ length_bytes 0 ++ [OpCode.END.toByte]

/-- The subject of the one byte `0xE3` at the address 1000: in the manner of
UTF-8 the lead byte of a character of three bytes, cut off by `end`. -/
def subject_cut : Subject := ⟨1000, [0xE3]⟩

/-- The function ran out of the fuel of the model. -/
def Outcome.is_nofuel {α : Type} : Outcome α → Bool
  | .nofuel => true
  | _ => false

/-- A scan callback that writes `region->end[0] = 0` and returns 0, but 7 at
its fourth invocation (`n = 3`). -/
def callback_rewind (n : Int) (_r : Int) (region : RegionArg) (u : Unit) :
    Int × RegionArg × Unit :=
  match region with
  | .onig rg => (if n ≥ 3 then 7 else 0, .onig { rg with end_ := rg.end_.set 0 0 }, u)
  | other => (if n ≥ 3 then 7 else 0, other, u)

/-- The region that the search for `a` in `aa` from `str` leaves. -/
def scan_region_1 : RegionArg :=
  (onig_search 0 100 regex_a subject_aa 1000 subject_aa.end_ (.onig onig_region_init) 0).region

/-- The region that the search for `a` in `aa` from `str + 1` leaves. -/
def scan_region_2 : RegionArg :=
  (onig_search 0 100 regex_a subject_aa 1001 subject_aa.end_ scan_region_1 0).region

/-- The values of `start` and the regions with which the loop of `onig_scan`
is entered in the scan of `aa` for `a` with a callback that leaves the region
as it is. -/
def scan_inv (start : Int) (region : RegionArg) : Prop :=
  (start = 1000 ∧ region = .onig onig_region_init) ∨
  (start = 1001 ∧ region = scan_region_1) ∨
  (start = 1002 ∧ region = scan_region_2)

/-- The positions `s` of the rounds of the loop of `match_at` that begin with
the code pointer at `target`, in the order of the run, over at most `fuel`
rounds from the locals `st` (a record of the run). -/
def rounds_at (ctx : Ctx) (target : Int) : Nat → MatchState → MatchOut → List Int
  | 0, _, _ => []
  | fuel + 1, st, out =>
    let here := if st.p = target then [st.s] else []
    match match_at_step ctx st out with
    | .cont st1 out1 => here ++ rounds_at ctx target fuel st1 out1
    | .stop _ _ _ => here

/-- Whether the cells that the walk of `STACK_POP` writes when it passes the
frame `fr` exist: for a `STK_MEM_START` or `STK_MEM_END` frame the member
`mem` with the two cells of its group, for a `STK_REPEAT_INC` frame the
member `repeat_inc` with a frame of member `repeat` at its index. -/
def pop_frame_defined (st : MatchState) (fr : StackType) : Bool :=
  if fr.type = STK_MEM_START ∨ fr.type = STK_MEM_END then
    match fr.u with
    | .mem num _ _ _ =>
      decide (0 ≤ num ∧ num.toNat < st.mem_start_stk.length ∧
        num.toNat < st.mem_end_stk.length)
    | _ => false
  else if fr.type = STK_REPEAT_INC then
    match fr.u with
    | .repeat_inc si =>
      match STACK_AT st si with
      | some ⟨_, .repeat_ _ _ _⟩ => true
      | _ => false
    | _ => false
  else true

/-- Whether the slot `j` holds a frame that is no `ALT*` frame (its type has
no bit of `STK_MASK_POP_USED`) and that the walk of `STACK_POP` can pass. -/
def frame_above_ok (st : MatchState) (j : Nat) : Bool :=
  match STACK_AT st j with
  | some fr => decide (fr.type &&& STK_MASK_POP_USED = 0) && pop_frame_defined st fr
  | none => false

/-- Whether the slot `j` holds a `STK_REPEAT_INC` frame that refers to the
frame at the index `si`. -/
def refers_to (st : MatchState) (j : Nat) (si : Int) : Bool :=
  match STACK_AT st j with
  | some ⟨t, .repeat_inc i⟩ => decide (t = STK_REPEAT_INC ∧ i = si)
  | _ => false

/-- How often the walk of `STACK_POP` at the level `lvl` from the slot `k`
down to an `ALT*` frame at the slot `base` runs
`STACK_AT(stk->u.repeat_inc.si)->u.repeat.count--` for the index `si`: once
for each `STK_REPEAT_INC` frame in the slots `base < j < k` that refers to
`si`, in the default arm of the macro, and never at the levels
`STACK_POP_LEVEL_FREE` and `STACK_POP_LEVEL_MEM_START`. -/
def pop_decrements (lvl : Nat) (st : MatchState) (base : Nat) (si : Int) : Nat → Nat
  | 0 => 0
  | k + 1 =>
    (if lvl ≠ STACK_POP_LEVEL_FREE ∧ lvl ≠ STACK_POP_LEVEL_MEM_START ∧ base < k ∧
        refers_to st k si = true then 1 else 0) + pop_decrements lvl st base si k

/-- The frame `fr` with `n` taken from the count of its member `repeat`; a
frame with another member as it is. -/
def StackType.count_down (fr : StackType) (n : Int) : StackType :=
  match fr.u with
  | .repeat_ c pcode num => ⟨fr.type, .repeat_ (c - n) pcode num⟩
  | _ => fr

/-- What the walk of `STACK_POP` at the level `lvl` does with a frame that
does not end it. -/
def pop_step (lvl : Nat) (st : MatchState) (fr : StackType) : Option MatchState :=
  if lvl = STACK_POP_LEVEL_FREE then some st
  else if lvl = STACK_POP_LEVEL_MEM_START then
    if fr.type = STK_MEM_START then pop_restore_mem st fr else some st
  else pop_restore_all st fr

/-- The locals `st1` hold the frames of `st` but for the counts of frames with
the member `repeat`, and arrays of the groups of the same lengths. -/
def same_but_counts (st st1 : MatchState) : Prop :=
  st1.mem_start_stk.length = st.mem_start_stk.length ∧
  st1.mem_end_stk.length = st.mem_end_stk.length ∧
  ∀ j : Int, ∃ n : Int, STACK_AT st1 j = (STACK_AT st j).map (fun fr => fr.count_down n)

/-- The program of `(?:(a)b|ac)` with the frames of group 1 pushed:
`0: OP_PUSH +15; 5: OP_MEMORY_START_PUSH 1; 8: OP_EXACT1 a;
10: OP_MEMORY_END_PUSH 1; 13: OP_EXACT1 b; 15: OP_JUMP +3; 20: OP_EXACT2 ac;
23: OP_END`. -/
def prog_alt_group : List Nat :=
  [OpCode.PUSH.toByte] ++ reladdr_bytes 15 ++
  [OpCode.MEMORY_START_PUSH.toByte] ++ memnum_bytes 1 ++
  [OpCode.EXACT1.toByte, 97, OpCode.MEMORY_END_PUSH.toByte] ++ memnum_bytes 1 ++
  [OpCode.EXACT1.toByte, 98, OpCode.JUMP.toByte] ++ reladdr_bytes 3 ++
  [OpCode.EXACT2.toByte, 97, 99, OpCode.END.toByte]

/-- The regex of `prog_alt_group` over the ASCII encoding with both status
bits of group 1 and the pop level `STACK_POP_LEVEL_ALL`. -/
def regex_alt_group : regex_t :=
  plain_regex ONIG_ENCODING_ASCII prog_alt_group 1 2 2 STACK_POP_LEVEL_ALL 0 0

/-- The subject `ac` at the address 1000. -/
def subject_ac : Subject := ⟨1000, [97, 99]⟩

/-- The locals for `(?:(a)b|ac)` on `ac` when the `OP_PUSH` at offset 0 has
been fetched. -/
def alt_group_at_push : MatchState :=
  { state_after regex_alt_group subject_ac 1000 0 with p := 1 }

/-- The locals for `(?:(a)b|ac)` on `ac` after four rounds, where the
`OP_EXACT1 b` at offset 13 goes to `fail`. -/
def alt_group_at_fail : MatchState := state_after regex_alt_group subject_ac 1000 4


/-! ## Error exits carry codes below `ONIG_MISMATCH` -/

@[simp] theorem Res.errNeg_ok {α : Type} (a : α) (st : MatchState) :
    (Res.ok a st).errNeg := trivial

@[simp] theorem Res.errNeg_undef {α : Type} (st : MatchState) :
    (Res.exit Exit.undef st : Res α).errNeg := by intro r h; cases h

@[simp] theorem Res.errNeg_fail {α : Type} (st : MatchState) :
    (Res.exit Exit.fail st : Res α).errNeg := by intro r h; cases h

@[simp] theorem Res.errNeg_finish {α : Type} (st : MatchState) :
    (Res.exit Exit.finish st : Res α).errNeg := by intro r h; cases h

@[simp] theorem Res.errNeg_err {α : Type} (r : Int) (st : MatchState) :
    (Res.exit (Exit.err r) st : Res α).errNeg ↔ r < -1 := by
  constructor
  · intro h; exact h r rfl
  · intro h r1 h1; cases h1; exact h

theorem NegErr.pure {α : Type} (a : α) : NegErr (pure a : M α) := ⟨fun _ => trivial⟩

theorem NegErr.bind {α β : Type} {m : M α} {f : α → M β} (hm : NegErr m)
    (hf : ∀ a, NegErr (f a)) : NegErr (m >>= f) := by
  refine ⟨fun st => ?_⟩
  have h1 := hm.run st
  show (M.bind m f st).errNeg
  unfold M.bind
  cases h : m st with
  | ok a st1 => exact (hf a).run st1
  | exit e st1 => rw [h] at h1; exact h1

@[simp] theorem negErr_pure {α : Type} (a : α) : NegErr (pure a : M α) := NegErr.pure a

@[simp] theorem negErr_getS : NegErr getS := ⟨fun _ => trivial⟩

@[simp] theorem negErr_modS (f : MatchState → MatchState) : NegErr (modS f) :=
  ⟨fun _ => trivial⟩

@[simp] theorem negErr_liftO {α : Type} (o : Option α) : NegErr (liftO o) := by
  refine ⟨fun st => ?_⟩; cases o <;> simp [liftO]

@[simp] theorem negErr_goto_fail {α : Type} : NegErr (goto Exit.fail : M α) := by
  refine ⟨fun st => ?_⟩; simp [goto]

@[simp] theorem negErr_goto_finish {α : Type} : NegErr (goto Exit.finish : M α) := by
  refine ⟨fun st => ?_⟩; simp [goto]

@[simp] theorem negErr_goto_undef {α : Type} : NegErr (goto Exit.undef : M α) := by
  refine ⟨fun st => ?_⟩; simp [goto]

@[simp] theorem Res.errNeg_nofuel {α : Type} (st : MatchState) :
    (Res.exit Exit.nofuel st : Res α).errNeg := by intro r h; cases h

@[simp] theorem negErr_goto_nofuel {α : Type} : NegErr (goto Exit.nofuel : M α) := by
  refine ⟨fun st => ?_⟩; simp [goto]

@[simp] theorem negErr_goto_err_undefined {α : Type} :
    NegErr (goto (Exit.err ONIGERR_UNDEFINED_BYTECODE) : M α) := by
  refine ⟨fun st => ?_⟩; simp [goto, ONIGERR_UNDEFINED_BYTECODE]

@[simp] theorem negErr_goto_err_unexpected {α : Type} :
    NegErr (goto (Exit.err ONIGERR_UNEXPECTED_BYTECODE) : M α) := by
  refine ⟨fun st => ?_⟩; simp [goto, ONIGERR_UNEXPECTED_BYTECODE]

theorem stack_double_error (L : Nat) (a : Bool) (n : Nat) (r : Int)
    (h : stack_double L a n = Except.error r) : r = ONIGERR_MATCH_STACK_LIMIT_OVER := by
  unfold stack_double at h
  simp only [] at h
  split at h
  · cases h
  · split at h
    · split at h
      · cases h; rfl
      · cases h
    · cases h

@[simp] theorem negErr_STACK_ENSURE (ctx : Ctx) (n : Int) : NegErr (STACK_ENSURE ctx n) := by
  refine ⟨fun st => ?_⟩
  unfold STACK_ENSURE
  split
  · split
    · rename_i r h
      rw [stack_double_error _ _ _ _ h]
      simp [ONIGERR_MATCH_STACK_LIMIT_OVER]
    · simp
  · simp


theorem negErr_push_frame (fr : StackType) :
    NegErr (push_frame fr) := by
  refine ⟨fun st => ?_⟩
  unfold push_frame
  repeat' split
  all_goals simp

theorem negErr_STACK_PUSH_TYPE (ctx : Ctx) (stack_type : Nat) :
    NegErr (STACK_PUSH_TYPE ctx stack_type) := by
  unfold STACK_PUSH_TYPE
  repeat (first | focus (simp only [negErr_pure, negErr_getS, negErr_modS, negErr_liftO, negErr_goto_fail, negErr_goto_finish, negErr_goto_undef, negErr_goto_nofuel, negErr_goto_err_undefined, negErr_goto_err_unexpected, negErr_STACK_ENSURE, negErr_push_frame]; done) | apply negErr_times | apply negErr_while_data | apply NegErr.bind | intro _ | split | dsimp only)

theorem negErr_STACK_PUSH (ctx : Ctx) (stack_type : Nat) (pat : Int) (s : Int) (sprev : Int) :
    NegErr (STACK_PUSH ctx stack_type pat s sprev) := by
  unfold STACK_PUSH
  repeat (first | focus (simp only [negErr_pure, negErr_getS, negErr_modS, negErr_liftO, negErr_goto_fail, negErr_goto_finish, negErr_goto_undef, negErr_goto_nofuel, negErr_goto_err_undefined, negErr_goto_err_unexpected, negErr_STACK_ENSURE, negErr_push_frame]; done) | apply negErr_times | apply negErr_while_data | apply NegErr.bind | intro _ | split | dsimp only)

theorem negErr_STACK_PUSH_ENSURED (stack_type : Nat) (pat : Int) :
    NegErr (STACK_PUSH_ENSURED stack_type pat) := by
  unfold STACK_PUSH_ENSURED
  repeat (first | focus (simp only [negErr_pure, negErr_getS, negErr_modS, negErr_liftO, negErr_goto_fail, negErr_goto_finish, negErr_goto_undef, negErr_goto_nofuel, negErr_goto_err_undefined, negErr_goto_err_unexpected, negErr_push_frame]; done) | apply negErr_times | apply negErr_while_data | apply NegErr.bind | intro _ | split | dsimp only)

theorem negErr_STACK_PUSH_ALT (ctx : Ctx) (pat : Int) (s : Int) (sprev : Int) :
    NegErr (STACK_PUSH_ALT ctx pat s sprev) := by
  unfold STACK_PUSH_ALT
  repeat (first | focus (simp only [negErr_pure, negErr_getS, negErr_modS, negErr_liftO, negErr_goto_fail, negErr_goto_finish, negErr_goto_undef, negErr_goto_nofuel, negErr_goto_err_undefined, negErr_goto_err_unexpected, negErr_STACK_PUSH]; done) | apply negErr_times | apply negErr_while_data | apply NegErr.bind | intro _ | split | dsimp only)

theorem negErr_STACK_PUSH_POS (ctx : Ctx) (s : Int) (sprev : Int) :
    NegErr (STACK_PUSH_POS ctx s sprev) := by
  unfold STACK_PUSH_POS
  repeat (first | focus (simp only [negErr_pure, negErr_getS, negErr_modS, negErr_liftO, negErr_goto_fail, negErr_goto_finish, negErr_goto_undef, negErr_goto_nofuel, negErr_goto_err_undefined, negErr_goto_err_unexpected, negErr_STACK_PUSH]; done) | apply negErr_times | apply negErr_while_data | apply NegErr.bind | intro _ | split | dsimp only)

theorem negErr_STACK_PUSH_ALT_PREC_READ_NOT (ctx : Ctx) (pat : Int) (s : Int) (sprev : Int) :
    NegErr (STACK_PUSH_ALT_PREC_READ_NOT ctx pat s sprev) := by
  unfold STACK_PUSH_ALT_PREC_READ_NOT
  repeat (first | focus (simp only [negErr_pure, negErr_getS, negErr_modS, negErr_liftO, negErr_goto_fail, negErr_goto_finish, negErr_goto_undef, negErr_goto_nofuel, negErr_goto_err_undefined, negErr_goto_err_unexpected, negErr_STACK_PUSH]; done) | apply negErr_times | apply negErr_while_data | apply NegErr.bind | intro _ | split | dsimp only)

theorem negErr_STACK_PUSH_STOP_BT (ctx : Ctx) :
    NegErr (STACK_PUSH_STOP_BT ctx) := by
  unfold STACK_PUSH_STOP_BT
  repeat (first | focus (simp only [negErr_pure, negErr_getS, negErr_modS, negErr_liftO, negErr_goto_fail, negErr_goto_finish, negErr_goto_undef, negErr_goto_nofuel, negErr_goto_err_undefined, negErr_goto_err_unexpected, negErr_STACK_PUSH_TYPE]; done) | apply negErr_times | apply negErr_while_data | apply NegErr.bind | intro _ | split | dsimp only)

theorem negErr_STACK_PUSH_ALT_LOOK_BEHIND_NOT (ctx : Ctx) (pat : Int) (s : Int) (sprev : Int) :
    NegErr (STACK_PUSH_ALT_LOOK_BEHIND_NOT ctx pat s sprev) := by
  unfold STACK_PUSH_ALT_LOOK_BEHIND_NOT
  repeat (first | focus (simp only [negErr_pure, negErr_getS, negErr_modS, negErr_liftO, negErr_goto_fail, negErr_goto_finish, negErr_goto_undef, negErr_goto_nofuel, negErr_goto_err_undefined, negErr_goto_err_unexpected, negErr_STACK_PUSH]; done) | apply negErr_times | apply negErr_while_data | apply NegErr.bind | intro _ | split | dsimp only)

theorem negErr_STACK_PUSH_REPEAT (ctx : Ctx) (id : Int) (pat : Int) :
    NegErr (STACK_PUSH_REPEAT ctx id pat) := by
  unfold STACK_PUSH_REPEAT
  repeat (first | focus (simp only [negErr_pure, negErr_getS, negErr_modS, negErr_liftO, negErr_goto_fail, negErr_goto_finish, negErr_goto_undef, negErr_goto_nofuel, negErr_goto_err_undefined, negErr_goto_err_unexpected, negErr_STACK_ENSURE, negErr_push_frame]; done) | apply negErr_times | apply negErr_while_data | apply NegErr.bind | intro _ | split | dsimp only)

theorem negErr_STACK_PUSH_REPEAT_INC (ctx : Ctx) (sindex : Int) :
    NegErr (STACK_PUSH_REPEAT_INC ctx sindex) := by
  unfold STACK_PUSH_REPEAT_INC
  repeat (first | focus (simp only [negErr_pure, negErr_getS, negErr_modS, negErr_liftO, negErr_goto_fail, negErr_goto_finish, negErr_goto_undef, negErr_goto_nofuel, negErr_goto_err_undefined, negErr_goto_err_unexpected, negErr_STACK_ENSURE, negErr_push_frame]; done) | apply negErr_times | apply negErr_while_data | apply NegErr.bind | intro _ | split | dsimp only)

theorem negErr_STACK_PUSH_MEM_START (ctx : Ctx) (mnum : Int) (s : Int) :
    NegErr (STACK_PUSH_MEM_START ctx mnum s) := by
  unfold STACK_PUSH_MEM_START
  repeat (first | focus (simp only [negErr_pure, negErr_getS, negErr_modS, negErr_liftO, negErr_goto_fail, negErr_goto_finish, negErr_goto_undef, negErr_goto_nofuel, negErr_goto_err_undefined, negErr_goto_err_unexpected, negErr_STACK_ENSURE, negErr_push_frame]; done) | apply negErr_times | apply negErr_while_data | apply NegErr.bind | intro _ | split | dsimp only)

theorem negErr_STACK_PUSH_MEM_END (ctx : Ctx) (mnum : Int) (s : Int) :
    NegErr (STACK_PUSH_MEM_END ctx mnum s) := by
  unfold STACK_PUSH_MEM_END
  repeat (first | focus (simp only [negErr_pure, negErr_getS, negErr_modS, negErr_liftO, negErr_goto_fail, negErr_goto_finish, negErr_goto_undef, negErr_goto_nofuel, negErr_goto_err_undefined, negErr_goto_err_unexpected, negErr_STACK_ENSURE, negErr_push_frame]; done) | apply negErr_times | apply negErr_while_data | apply NegErr.bind | intro _ | split | dsimp only)

theorem negErr_STACK_PUSH_MEM_END_MARK (ctx : Ctx) (mnum : Int) :
    NegErr (STACK_PUSH_MEM_END_MARK ctx mnum) := by
  unfold STACK_PUSH_MEM_END_MARK
  repeat (first | focus (simp only [negErr_pure, negErr_getS, negErr_modS, negErr_liftO, negErr_goto_fail, negErr_goto_finish, negErr_goto_undef, negErr_goto_nofuel, negErr_goto_err_undefined, negErr_goto_err_unexpected, negErr_STACK_ENSURE, negErr_push_frame]; done) | apply negErr_times | apply negErr_while_data | apply NegErr.bind | intro _ | split | dsimp only)

theorem negErr_STACK_PUSH_EMPTY_CHECK_START (ctx : Ctx) (cnum : Int) (s : Int) :
    NegErr (STACK_PUSH_EMPTY_CHECK_START ctx cnum s) := by
  unfold STACK_PUSH_EMPTY_CHECK_START
  repeat (first | focus (simp only [negErr_pure, negErr_getS, negErr_modS, negErr_liftO, negErr_goto_fail, negErr_goto_finish, negErr_goto_undef, negErr_goto_nofuel, negErr_goto_err_undefined, negErr_goto_err_unexpected, negErr_STACK_ENSURE, negErr_push_frame]; done) | apply negErr_times | apply negErr_while_data | apply NegErr.bind | intro _ | split | dsimp only)

theorem negErr_STACK_PUSH_EMPTY_CHECK_END (ctx : Ctx) (cnum : Int) :
    NegErr (STACK_PUSH_EMPTY_CHECK_END ctx cnum) := by
  unfold STACK_PUSH_EMPTY_CHECK_END
  repeat (first | focus (simp only [negErr_pure, negErr_getS, negErr_modS, negErr_liftO, negErr_goto_fail, negErr_goto_finish, negErr_goto_undef, negErr_goto_nofuel, negErr_goto_err_undefined, negErr_goto_err_unexpected, negErr_STACK_ENSURE, negErr_push_frame]; done) | apply negErr_times | apply negErr_while_data | apply NegErr.bind | intro _ | split | dsimp only)

theorem negErr_STACK_PUSH_CALL_FRAME (ctx : Ctx) (pat : Int) :
    NegErr (STACK_PUSH_CALL_FRAME ctx pat) := by
  unfold STACK_PUSH_CALL_FRAME
  repeat (first | focus (simp only [negErr_pure, negErr_getS, negErr_modS, negErr_liftO, negErr_goto_fail, negErr_goto_finish, negErr_goto_undef, negErr_goto_nofuel, negErr_goto_err_undefined, negErr_goto_err_unexpected, negErr_STACK_ENSURE, negErr_push_frame]; done) | apply negErr_times | apply negErr_while_data | apply NegErr.bind | intro _ | split | dsimp only)

theorem negErr_STACK_PUSH_RETURN (ctx : Ctx) :
    NegErr (STACK_PUSH_RETURN ctx) := by
  unfold STACK_PUSH_RETURN
  repeat (first | focus (simp only [negErr_pure, negErr_getS, negErr_modS, negErr_liftO, negErr_goto_fail, negErr_goto_finish, negErr_goto_undef, negErr_goto_nofuel, negErr_goto_err_undefined, negErr_goto_err_unexpected, negErr_STACK_PUSH_TYPE]; done) | apply negErr_times | apply negErr_while_data | apply NegErr.bind | intro _ | split | dsimp only)

theorem negErr_STACK_PUSH_SAVE_VAL (sid : Int) (stype : Int) (sval : Int) :
    NegErr (STACK_PUSH_SAVE_VAL sid stype sval) := by
  unfold STACK_PUSH_SAVE_VAL
  repeat (first | focus (simp only [negErr_pure, negErr_getS, negErr_modS, negErr_liftO, negErr_goto_fail, negErr_goto_finish, negErr_goto_undef, negErr_goto_nofuel, negErr_goto_err_undefined, negErr_goto_err_unexpected, negErr_push_frame]; done) | apply negErr_times | apply negErr_while_data | apply NegErr.bind | intro _ | split | dsimp only)

theorem negErr_STACK_POP_ONE :
    NegErr (STACK_POP_ONE) := by
  refine ⟨fun st => ?_⟩
  unfold STACK_POP_ONE
  repeat' split
  all_goals simp

theorem negErr_STACK_POP (pop_level : Nat) :
    NegErr (STACK_POP pop_level) := by
  refine ⟨fun st => ?_⟩
  unfold STACK_POP
  repeat' split
  all_goals simp

theorem negErr_STACK_POP_TIL_ALT_PREC_READ_NOT :
    NegErr (STACK_POP_TIL_ALT_PREC_READ_NOT) := by
  refine ⟨fun st => ?_⟩
  unfold STACK_POP_TIL_ALT_PREC_READ_NOT
  repeat' split
  all_goals simp

theorem negErr_STACK_POP_TIL_ALT_LOOK_BEHIND_NOT :
    NegErr (STACK_POP_TIL_ALT_LOOK_BEHIND_NOT) := by
  refine ⟨fun st => ?_⟩
  unfold STACK_POP_TIL_ALT_LOOK_BEHIND_NOT
  repeat' split
  all_goals simp

theorem negErr_STACK_POS_END :
    NegErr (STACK_POS_END) := by
  refine ⟨fun st => ?_⟩
  unfold STACK_POS_END
  repeat' split
  all_goals simp

theorem negErr_STACK_STOP_BT_END :
    NegErr (STACK_STOP_BT_END) := by
  refine ⟨fun st => ?_⟩
  unfold STACK_STOP_BT_END
  repeat' split
  all_goals simp

theorem negErr_STACK_EMPTY_CHECK (id : Int) (s : Int) :
    NegErr (STACK_EMPTY_CHECK id s) := by
  refine ⟨fun st => ?_⟩
  unfold STACK_EMPTY_CHECK
  repeat' split
  all_goals simp

theorem negErr_STACK_EMPTY_CHECK_MEMST (reg : regex_t) (id : Int) (s : Int) :
    NegErr (STACK_EMPTY_CHECK_MEMST reg id s) := by
  refine ⟨fun st => ?_⟩
  unfold STACK_EMPTY_CHECK_MEMST
  repeat' split
  all_goals simp

theorem negErr_STACK_EMPTY_CHECK_MEMST_REC (reg : regex_t) (id : Int) (s : Int) :
    NegErr (STACK_EMPTY_CHECK_MEMST_REC reg id s) := by
  refine ⟨fun st => ?_⟩
  unfold STACK_EMPTY_CHECK_MEMST_REC
  repeat' split
  all_goals simp

theorem negErr_STACK_GET_MEM_START (mnum : Int) :
    NegErr (STACK_GET_MEM_START mnum) := by
  refine ⟨fun st => ?_⟩
  unfold STACK_GET_MEM_START
  repeat' split
  all_goals simp

theorem negErr_STACK_GET_REPEAT (id : Int) :
    NegErr (STACK_GET_REPEAT id) := by
  refine ⟨fun st => ?_⟩
  unfold STACK_GET_REPEAT
  repeat' split
  all_goals simp

theorem negErr_STACK_RETURN :
    NegErr (STACK_RETURN) := by
  refine ⟨fun st => ?_⟩
  unfold STACK_RETURN
  repeat' split
  all_goals simp

theorem negErr_GET_OPERAND_INC (ctx : Ctx) (w : Nat) :
    NegErr (GET_OPERAND_INC ctx w) := by
  unfold GET_OPERAND_INC
  repeat (first | focus (simp only [negErr_pure, negErr_getS, negErr_modS, negErr_liftO, negErr_goto_fail, negErr_goto_finish, negErr_goto_undef, negErr_goto_nofuel, negErr_goto_err_undefined, negErr_goto_err_unexpected]; done) | apply negErr_times | apply negErr_while_data | apply NegErr.bind | intro _ | split | dsimp only)

theorem negErr_GET_RELADDR_INC (ctx : Ctx) :
    NegErr (GET_RELADDR_INC ctx) := by
  unfold GET_RELADDR_INC
  repeat (first | focus (simp only [negErr_pure, negErr_getS, negErr_modS, negErr_liftO, negErr_goto_fail, negErr_goto_finish, negErr_goto_undef, negErr_goto_nofuel, negErr_goto_err_undefined, negErr_goto_err_unexpected, negErr_GET_OPERAND_INC]; done) | apply negErr_times | apply negErr_while_data | apply NegErr.bind | intro _ | split | dsimp only)

theorem negErr_GET_ABSADDR_INC (ctx : Ctx) :
    NegErr (GET_ABSADDR_INC ctx) := by
  unfold GET_ABSADDR_INC
  repeat (first | focus (simp only [negErr_pure, negErr_getS, negErr_modS, negErr_liftO, negErr_goto_fail, negErr_goto_finish, negErr_goto_undef, negErr_goto_nofuel, negErr_goto_err_undefined, negErr_goto_err_unexpected, negErr_GET_OPERAND_INC]; done) | apply negErr_times | apply negErr_while_data | apply NegErr.bind | intro _ | split | dsimp only)

theorem negErr_GET_LENGTH_INC (ctx : Ctx) :
    NegErr (GET_LENGTH_INC ctx) := by
  unfold GET_LENGTH_INC
  repeat (first | focus (simp only [negErr_pure, negErr_getS, negErr_modS, negErr_liftO, negErr_goto_fail, negErr_goto_finish, negErr_goto_undef, negErr_goto_nofuel, negErr_goto_err_undefined, negErr_goto_err_unexpected, negErr_GET_OPERAND_INC]; done) | apply negErr_times | apply negErr_while_data | apply NegErr.bind | intro _ | split | dsimp only)

theorem negErr_GET_MEMNUM_INC (ctx : Ctx) :
    NegErr (GET_MEMNUM_INC ctx) := by
  unfold GET_MEMNUM_INC
  repeat (first | focus (simp only [negErr_pure, negErr_getS, negErr_modS, negErr_liftO, negErr_goto_fail, negErr_goto_finish, negErr_goto_undef, negErr_goto_nofuel, negErr_goto_err_undefined, negErr_goto_err_unexpected, negErr_GET_OPERAND_INC]; done) | apply negErr_times | apply negErr_while_data | apply NegErr.bind | intro _ | split | dsimp only)

theorem negErr_GET_OPTION_INC (ctx : Ctx) :
    NegErr (GET_OPTION_INC ctx) := by
  unfold GET_OPTION_INC
  repeat (first | focus (simp only [negErr_pure, negErr_getS, negErr_modS, negErr_liftO, negErr_goto_fail, negErr_goto_finish, negErr_goto_undef, negErr_goto_nofuel, negErr_goto_err_undefined, negErr_goto_err_unexpected, negErr_GET_OPERAND_INC]; done) | apply negErr_times | apply negErr_while_data | apply NegErr.bind | intro _ | split | dsimp only)

theorem negErr_GET_SAVE_TYPE_INC (ctx : Ctx) :
    NegErr (GET_SAVE_TYPE_INC ctx) := by
  unfold GET_SAVE_TYPE_INC
  repeat (first | focus (simp only [negErr_pure, negErr_getS, negErr_modS, negErr_liftO, negErr_goto_fail, negErr_goto_finish, negErr_goto_undef, negErr_goto_nofuel, negErr_goto_err_undefined, negErr_goto_err_unexpected, negErr_GET_OPERAND_INC]; done) | apply negErr_times | apply negErr_while_data | apply NegErr.bind | intro _ | split | dsimp only)

theorem negErr_GET_UPDATE_VAR_TYPE_INC (ctx : Ctx) :
    NegErr (GET_UPDATE_VAR_TYPE_INC ctx) := by
  unfold GET_UPDATE_VAR_TYPE_INC
  repeat (first | focus (simp only [negErr_pure, negErr_getS, negErr_modS, negErr_liftO, negErr_goto_fail, negErr_goto_finish, negErr_goto_undef, negErr_goto_nofuel, negErr_goto_err_undefined, negErr_goto_err_unexpected, negErr_GET_OPERAND_INC]; done) | apply negErr_times | apply negErr_while_data | apply NegErr.bind | intro _ | split | dsimp only)

theorem negErr_GET_POINTER_INC (ctx : Ctx) :
    NegErr (GET_POINTER_INC ctx) := by
  unfold GET_POINTER_INC
  repeat (first | focus (simp only [negErr_pure, negErr_getS, negErr_modS, negErr_liftO, negErr_goto_fail, negErr_goto_finish, negErr_goto_undef, negErr_goto_nofuel, negErr_goto_err_undefined, negErr_goto_err_unexpected, negErr_GET_OPERAND_INC]; done) | apply negErr_times | apply negErr_while_data | apply NegErr.bind | intro _ | split | dsimp only)

theorem negErr_DATA_ENSURE (n : Int) :
    NegErr (DATA_ENSURE n) := by
  unfold DATA_ENSURE
  repeat (first | focus (simp only [negErr_pure, negErr_getS, negErr_modS, negErr_liftO, negErr_goto_fail, negErr_goto_finish, negErr_goto_undef, negErr_goto_nofuel, negErr_goto_err_undefined, negErr_goto_err_unexpected]; done) | apply negErr_times | apply negErr_while_data | apply NegErr.bind | intro _ | split | dsimp only)

theorem negErr_set_sprev (v : Int) :
    NegErr (set_sprev v) := by
  unfold set_sprev
  repeat (first | focus (simp only [negErr_pure, negErr_getS, negErr_modS, negErr_liftO, negErr_goto_fail, negErr_goto_finish, negErr_goto_undef, negErr_goto_nofuel, negErr_goto_err_undefined, negErr_goto_err_unexpected]; done) | apply negErr_times | apply negErr_while_data | apply NegErr.bind | intro _ | split | dsimp only)

theorem negErr_cmp_byte (ctx : Ctx) :
    NegErr (cmp_byte ctx) := by
  unfold cmp_byte
  repeat (first | focus (simp only [negErr_pure, negErr_getS, negErr_modS, negErr_liftO, negErr_goto_fail, negErr_goto_finish, negErr_goto_undef, negErr_goto_nofuel, negErr_goto_err_undefined, negErr_goto_err_unexpected]; done) | apply negErr_times | apply negErr_while_data | apply NegErr.bind | intro _ | split | dsimp only)

theorem negErr_cmp_byte_sprev (ctx : Ctx) :
    NegErr (cmp_byte_sprev ctx) := by
  unfold cmp_byte_sprev
  repeat (first | focus (simp only [negErr_pure, negErr_getS, negErr_modS, negErr_liftO, negErr_goto_fail, negErr_goto_finish, negErr_goto_undef, negErr_goto_nofuel, negErr_goto_err_undefined, negErr_goto_err_unexpected]; done) | apply negErr_times | apply negErr_while_data | apply NegErr.bind | intro _ | split | dsimp only)

theorem negErr_times (n : Nat) (body : M Unit) (hbody : NegErr body) :
    NegErr (times n body) := by
  induction n with
  | zero => unfold times; simp only [negErr_pure]
  | succ k ih => unfold times; exact NegErr.bind hbody (fun _ => ih)

theorem negErr_cmp_lowbuf (ctx : Ctx) (a0 : List Nat) :
    NegErr (cmp_lowbuf ctx a0) := by
  induction a0 with
  | nil => unfold cmp_lowbuf; repeat (first | focus (simp only [negErr_pure, negErr_getS, negErr_modS, negErr_liftO, negErr_goto_fail, negErr_goto_finish, negErr_goto_undef, negErr_goto_nofuel, negErr_goto_err_undefined, negErr_goto_err_unexpected]; done) | apply negErr_times | apply negErr_while_data | apply NegErr.bind | intro _ | split | dsimp only)
  | cons q rest ih => unfold cmp_lowbuf; repeat (first | focus (simp only [negErr_pure, negErr_getS, negErr_modS, negErr_liftO, negErr_goto_fail, negErr_goto_finish, negErr_goto_undef, negErr_goto_nofuel, negErr_goto_err_undefined, negErr_goto_err_unexpected]; done) | apply negErr_times | apply negErr_while_data | apply NegErr.bind | intro _ | split | apply ih | dsimp only)

theorem negErr_case_fold_s (ctx : Ctx) :
    NegErr (case_fold_s ctx) := by
  unfold case_fold_s
  repeat (first | focus (simp only [negErr_pure, negErr_getS, negErr_modS, negErr_liftO, negErr_goto_fail, negErr_goto_finish, negErr_goto_undef, negErr_goto_nofuel, negErr_goto_err_undefined, negErr_goto_err_unexpected]; done) | apply negErr_times | apply negErr_while_data | apply NegErr.bind | intro _ | split | dsimp only)

theorem negErr_enclen_s (ctx : Ctx) :
    NegErr (enclen_s ctx) := by
  unfold enclen_s
  repeat (first | focus (simp only [negErr_pure, negErr_getS, negErr_modS, negErr_liftO, negErr_goto_fail, negErr_goto_finish, negErr_goto_undef, negErr_goto_nofuel, negErr_goto_err_undefined, negErr_goto_err_unexpected]; done) | apply negErr_times | apply negErr_while_data | apply NegErr.bind | intro _ | split | dsimp only)

theorem negErr_add_s (n : Int) :
    NegErr (add_s n) := by
  unfold add_s
  repeat (first | focus (simp only [negErr_pure, negErr_getS, negErr_modS, negErr_liftO, negErr_goto_fail, negErr_goto_finish, negErr_goto_undef, negErr_goto_nofuel, negErr_goto_err_undefined, negErr_goto_err_unexpected]; done) | apply negErr_times | apply negErr_while_data | apply NegErr.bind | intro _ | split | dsimp only)

theorem negErr_add_p (n : Int) :
    NegErr (add_p n) := by
  unfold add_p
  repeat (first | focus (simp only [negErr_pure, negErr_getS, negErr_modS, negErr_liftO, negErr_goto_fail, negErr_goto_finish, negErr_goto_undef, negErr_goto_nofuel, negErr_goto_err_undefined, negErr_goto_err_unexpected]; done) | apply negErr_times | apply negErr_while_data | apply NegErr.bind | intro _ | split | dsimp only)

theorem negErr_op_EXACT1 (ctx : Ctx) :
    NegErr (op_EXACT1 ctx) := by
  unfold op_EXACT1
  repeat (first | focus (simp only [negErr_pure, negErr_getS, negErr_modS, negErr_liftO, negErr_goto_fail, negErr_goto_finish, negErr_goto_undef, negErr_goto_nofuel, negErr_goto_err_undefined, negErr_goto_err_unexpected, negErr_DATA_ENSURE, negErr_cmp_byte]; done) | apply negErr_times | apply negErr_while_data | apply NegErr.bind | intro _ | split | dsimp only)

theorem negErr_op_EXACT1_IC (ctx : Ctx) :
    NegErr (op_EXACT1_IC ctx) := by
  unfold op_EXACT1_IC
  repeat (first | focus (simp only [negErr_pure, negErr_getS, negErr_modS, negErr_liftO, negErr_goto_fail, negErr_goto_finish, negErr_goto_undef, negErr_goto_nofuel, negErr_goto_err_undefined, negErr_goto_err_unexpected, negErr_DATA_ENSURE, negErr_case_fold_s, negErr_cmp_lowbuf]; done) | apply negErr_times | apply negErr_while_data | apply NegErr.bind | intro _ | split | dsimp only)

theorem negErr_op_EXACT2 (ctx : Ctx) :
    NegErr (op_EXACT2 ctx) := by
  unfold op_EXACT2
  repeat (first | focus (simp only [negErr_pure, negErr_getS, negErr_modS, negErr_liftO, negErr_goto_fail, negErr_goto_finish, negErr_goto_undef, negErr_goto_nofuel, negErr_goto_err_undefined, negErr_goto_err_unexpected, negErr_DATA_ENSURE, negErr_cmp_byte, negErr_cmp_byte_sprev]; done) | apply negErr_times | apply negErr_while_data | apply NegErr.bind | intro _ | split | dsimp only)

theorem negErr_op_EXACT3 (ctx : Ctx) :
    NegErr (op_EXACT3 ctx) := by
  unfold op_EXACT3
  repeat (first | focus (simp only [negErr_pure, negErr_getS, negErr_modS, negErr_liftO, negErr_goto_fail, negErr_goto_finish, negErr_goto_undef, negErr_goto_nofuel, negErr_goto_err_undefined, negErr_goto_err_unexpected, negErr_DATA_ENSURE, negErr_cmp_byte, negErr_cmp_byte_sprev]; done) | apply negErr_times | apply negErr_while_data | apply NegErr.bind | intro _ | split | dsimp only)

theorem negErr_op_EXACT4 (ctx : Ctx) :
    NegErr (op_EXACT4 ctx) := by
  unfold op_EXACT4
  repeat (first | focus (simp only [negErr_pure, negErr_getS, negErr_modS, negErr_liftO, negErr_goto_fail, negErr_goto_finish, negErr_goto_undef, negErr_goto_nofuel, negErr_goto_err_undefined, negErr_goto_err_unexpected, negErr_DATA_ENSURE, negErr_cmp_byte, negErr_cmp_byte_sprev]; done) | apply negErr_times | apply negErr_while_data | apply NegErr.bind | intro _ | split | dsimp only)

theorem negErr_op_EXACT5 (ctx : Ctx) :
    NegErr (op_EXACT5 ctx) := by
  unfold op_EXACT5
  repeat (first | focus (simp only [negErr_pure, negErr_getS, negErr_modS, negErr_liftO, negErr_goto_fail, negErr_goto_finish, negErr_goto_undef, negErr_goto_nofuel, negErr_goto_err_undefined, negErr_goto_err_unexpected, negErr_DATA_ENSURE, negErr_cmp_byte, negErr_cmp_byte_sprev]; done) | apply negErr_times | apply negErr_while_data | apply NegErr.bind | intro _ | split | dsimp only)

theorem negErr_op_EXACTN (ctx : Ctx) :
    NegErr (op_EXACTN ctx) := by
  unfold op_EXACTN
  repeat (first | focus (simp only [negErr_pure, negErr_getS, negErr_modS, negErr_liftO, negErr_goto_fail, negErr_goto_finish, negErr_goto_undef, negErr_goto_nofuel, negErr_goto_err_undefined, negErr_goto_err_unexpected, negErr_DATA_ENSURE, negErr_GET_LENGTH_INC, negErr_cmp_byte, negErr_set_sprev, negErr_times]; done) | apply negErr_times | apply negErr_while_data | apply NegErr.bind | intro _ | split | dsimp only)

theorem negErr_EXACTN_IC_loop (ctx : Ctx) (endp : Int) (a0 : Nat) :
    NegErr (EXACTN_IC_loop ctx endp a0) := by
  induction a0 with
  | zero => unfold EXACTN_IC_loop; repeat (first | focus (simp only [negErr_pure, negErr_getS, negErr_modS, negErr_liftO, negErr_goto_fail, negErr_goto_finish, negErr_goto_undef, negErr_goto_nofuel, negErr_goto_err_undefined, negErr_goto_err_unexpected, negErr_DATA_ENSURE, negErr_case_fold_s, negErr_cmp_lowbuf, negErr_set_sprev]; done) | apply negErr_times | apply negErr_while_data | apply NegErr.bind | intro _ | split | dsimp only)
  | succ k ih => unfold EXACTN_IC_loop; repeat (first | focus (simp only [negErr_pure, negErr_getS, negErr_modS, negErr_liftO, negErr_goto_fail, negErr_goto_finish, negErr_goto_undef, negErr_goto_nofuel, negErr_goto_err_undefined, negErr_goto_err_unexpected, negErr_DATA_ENSURE, negErr_case_fold_s, negErr_cmp_lowbuf, negErr_set_sprev]; done) | apply negErr_times | apply negErr_while_data | apply NegErr.bind | intro _ | split | apply ih | dsimp only)

theorem negErr_op_EXACTN_IC (ctx : Ctx) :
    NegErr (op_EXACTN_IC ctx) := by
  unfold op_EXACTN_IC
  repeat (first | focus (simp only [negErr_pure, negErr_getS, negErr_modS, negErr_liftO, negErr_goto_fail, negErr_goto_finish, negErr_goto_undef, negErr_goto_nofuel, negErr_goto_err_undefined, negErr_goto_err_unexpected, negErr_EXACTN_IC_loop, negErr_GET_LENGTH_INC]; done) | apply negErr_times | apply negErr_while_data | apply NegErr.bind | intro _ | split | dsimp only)

theorem negErr_op_EXACTMB2N1 (ctx : Ctx) :
    NegErr (op_EXACTMB2N1 ctx) := by
  unfold op_EXACTMB2N1
  repeat (first | focus (simp only [negErr_pure, negErr_getS, negErr_modS, negErr_liftO, negErr_goto_fail, negErr_goto_finish, negErr_goto_undef, negErr_goto_nofuel, negErr_goto_err_undefined, negErr_goto_err_unexpected, negErr_DATA_ENSURE, negErr_cmp_byte]; done) | apply negErr_times | apply negErr_while_data | apply NegErr.bind | intro _ | split | dsimp only)

theorem negErr_op_EXACTMB2N2 (ctx : Ctx) :
    NegErr (op_EXACTMB2N2 ctx) := by
  unfold op_EXACTMB2N2
  repeat (first | focus (simp only [negErr_pure, negErr_getS, negErr_modS, negErr_liftO, negErr_goto_fail, negErr_goto_finish, negErr_goto_undef, negErr_goto_nofuel, negErr_goto_err_undefined, negErr_goto_err_unexpected, negErr_DATA_ENSURE, negErr_cmp_byte, negErr_set_sprev]; done) | apply negErr_times | apply negErr_while_data | apply NegErr.bind | intro _ | split | dsimp only)

theorem negErr_op_EXACTMB2N3 (ctx : Ctx) :
    NegErr (op_EXACTMB2N3 ctx) := by
  unfold op_EXACTMB2N3
  repeat (first | focus (simp only [negErr_pure, negErr_getS, negErr_modS, negErr_liftO, negErr_goto_fail, negErr_goto_finish, negErr_goto_undef, negErr_goto_nofuel, negErr_goto_err_undefined, negErr_goto_err_unexpected, negErr_DATA_ENSURE, negErr_cmp_byte, negErr_set_sprev]; done) | apply negErr_times | apply negErr_while_data | apply NegErr.bind | intro _ | split | dsimp only)

theorem negErr_op_EXACTMB2N (ctx : Ctx) :
    NegErr (op_EXACTMB2N ctx) := by
  unfold op_EXACTMB2N
  repeat (first | focus (simp only [negErr_pure, negErr_getS, negErr_modS, negErr_liftO, negErr_goto_fail, negErr_goto_finish, negErr_goto_undef, negErr_goto_nofuel, negErr_goto_err_undefined, negErr_goto_err_unexpected, negErr_DATA_ENSURE, negErr_GET_LENGTH_INC, negErr_cmp_byte, negErr_set_sprev, negErr_times]; done) | apply negErr_times | apply negErr_while_data | apply NegErr.bind | intro _ | split | dsimp only)

theorem negErr_op_EXACTMB3N (ctx : Ctx) :
    NegErr (op_EXACTMB3N ctx) := by
  unfold op_EXACTMB3N
  repeat (first | focus (simp only [negErr_pure, negErr_getS, negErr_modS, negErr_liftO, negErr_goto_fail, negErr_goto_finish, negErr_goto_undef, negErr_goto_nofuel, negErr_goto_err_undefined, negErr_goto_err_unexpected, negErr_DATA_ENSURE, negErr_GET_LENGTH_INC, negErr_cmp_byte, negErr_set_sprev, negErr_times]; done) | apply negErr_times | apply negErr_while_data | apply NegErr.bind | intro _ | split | dsimp only)

theorem negErr_op_EXACTMBN (ctx : Ctx) :
    NegErr (op_EXACTMBN ctx) := by
  unfold op_EXACTMBN
  repeat (first | focus (simp only [negErr_pure, negErr_getS, negErr_modS, negErr_liftO, negErr_goto_fail, negErr_goto_finish, negErr_goto_undef, negErr_goto_nofuel, negErr_goto_err_undefined, negErr_goto_err_unexpected, negErr_DATA_ENSURE, negErr_GET_LENGTH_INC, negErr_cmp_byte, negErr_set_sprev, negErr_times]; done) | apply negErr_times | apply negErr_while_data | apply NegErr.bind | intro _ | split | dsimp only)

theorem negErr_rd_s (ctx : Ctx) :
    NegErr (rd_s ctx) := by
  unfold rd_s
  repeat (first | focus (simp only [negErr_pure, negErr_getS, negErr_modS, negErr_liftO, negErr_goto_fail, negErr_goto_finish, negErr_goto_undef, negErr_goto_nofuel, negErr_goto_err_undefined, negErr_goto_err_unexpected]; done) | apply negErr_times | apply negErr_while_data | apply NegErr.bind | intro _ | split | dsimp only)

theorem negErr_is_mbc_head_s (ctx : Ctx) :
    NegErr (is_mbc_head_s ctx) := by
  unfold is_mbc_head_s
  repeat (first | focus (simp only [negErr_pure, negErr_getS, negErr_modS, negErr_liftO, negErr_goto_fail, negErr_goto_finish, negErr_goto_undef, negErr_goto_nofuel, negErr_goto_err_undefined, negErr_goto_err_unexpected]; done) | apply negErr_times | apply negErr_while_data | apply NegErr.bind | intro _ | split | dsimp only)

theorem negErr_is_newline (ctx : Ctx) (q : Int) :
    NegErr (is_newline ctx q) := by
  unfold is_newline
  repeat (first | focus (simp only [negErr_pure, negErr_getS, negErr_modS, negErr_liftO, negErr_goto_fail, negErr_goto_finish, negErr_goto_undef, negErr_goto_nofuel, negErr_goto_err_undefined, negErr_goto_err_unexpected]; done) | apply negErr_times | apply negErr_while_data | apply NegErr.bind | intro _ | split | dsimp only)

theorem negErr_is_word (ctx : Ctx) (q : Int) :
    NegErr (is_word ctx q) := by
  unfold is_word
  repeat (first | focus (simp only [negErr_pure, negErr_getS, negErr_modS, negErr_liftO, negErr_goto_fail, negErr_goto_finish, negErr_goto_undef, negErr_goto_nofuel, negErr_goto_err_undefined, negErr_goto_err_unexpected]; done) | apply negErr_times | apply negErr_while_data | apply NegErr.bind | intro _ | split | dsimp only)

theorem negErr_op_CCLASS (ctx : Ctx) :
    NegErr (op_CCLASS ctx) := by
  unfold op_CCLASS
  repeat (first | focus (simp only [negErr_pure, negErr_getS, negErr_modS, negErr_liftO, negErr_goto_fail, negErr_goto_finish, negErr_goto_undef, negErr_goto_nofuel, negErr_goto_err_undefined, negErr_goto_err_unexpected, negErr_DATA_ENSURE, negErr_add_p, negErr_add_s, negErr_enclen_s, negErr_rd_s]; done) | apply negErr_times | apply negErr_while_data | apply NegErr.bind | intro _ | split | dsimp only)

theorem negErr_cclass_mb (ctx : Ctx) :
    NegErr (cclass_mb ctx) := by
  unfold cclass_mb
  repeat (first | focus (simp only [negErr_pure, negErr_getS, negErr_modS, negErr_liftO, negErr_goto_fail, negErr_goto_finish, negErr_goto_undef, negErr_goto_nofuel, negErr_goto_err_undefined, negErr_goto_err_unexpected, negErr_DATA_ENSURE, negErr_GET_LENGTH_INC, negErr_add_p, negErr_add_s, negErr_enclen_s]; done) | apply negErr_times | apply negErr_while_data | apply NegErr.bind | intro _ | split | dsimp only)

theorem negErr_op_CCLASS_MB (ctx : Ctx) :
    NegErr (op_CCLASS_MB ctx) := by
  unfold op_CCLASS_MB
  repeat (first | focus (simp only [negErr_pure, negErr_getS, negErr_modS, negErr_liftO, negErr_goto_fail, negErr_goto_finish, negErr_goto_undef, negErr_goto_nofuel, negErr_goto_err_undefined, negErr_goto_err_unexpected, negErr_cclass_mb, negErr_is_mbc_head_s]; done) | apply negErr_times | apply negErr_while_data | apply NegErr.bind | intro _ | split | dsimp only)

theorem negErr_op_CCLASS_MIX (ctx : Ctx) :
    NegErr (op_CCLASS_MIX ctx) := by
  unfold op_CCLASS_MIX
  repeat (first | focus (simp only [negErr_pure, negErr_getS, negErr_modS, negErr_liftO, negErr_goto_fail, negErr_goto_finish, negErr_goto_undef, negErr_goto_nofuel, negErr_goto_err_undefined, negErr_goto_err_unexpected, negErr_DATA_ENSURE, negErr_GET_LENGTH_INC, negErr_add_p, negErr_add_s, negErr_cclass_mb, negErr_is_mbc_head_s, negErr_rd_s]; done) | apply negErr_times | apply negErr_while_data | apply NegErr.bind | intro _ | split | dsimp only)

theorem negErr_op_CCLASS_NOT (ctx : Ctx) :
    NegErr (op_CCLASS_NOT ctx) := by
  unfold op_CCLASS_NOT
  repeat (first | focus (simp only [negErr_pure, negErr_getS, negErr_modS, negErr_liftO, negErr_goto_fail, negErr_goto_finish, negErr_goto_undef, negErr_goto_nofuel, negErr_goto_err_undefined, negErr_goto_err_unexpected, negErr_DATA_ENSURE, negErr_add_p, negErr_add_s, negErr_enclen_s, negErr_rd_s]; done) | apply negErr_times | apply negErr_while_data | apply NegErr.bind | intro _ | split | dsimp only)

theorem negErr_cclass_mb_not (ctx : Ctx) :
    NegErr (cclass_mb_not ctx) := by
  unfold cclass_mb_not
  repeat (first | focus (simp only [negErr_pure, negErr_getS, negErr_modS, negErr_liftO, negErr_goto_fail, negErr_goto_finish, negErr_goto_undef, negErr_goto_nofuel, negErr_goto_err_undefined, negErr_goto_err_unexpected, negErr_DATA_ENSURE, negErr_GET_LENGTH_INC, negErr_add_p, negErr_add_s, negErr_enclen_s]; done) | apply negErr_times | apply negErr_while_data | apply NegErr.bind | intro _ | split | dsimp only)

theorem negErr_op_CCLASS_MB_NOT (ctx : Ctx) :
    NegErr (op_CCLASS_MB_NOT ctx) := by
  unfold op_CCLASS_MB_NOT
  repeat (first | focus (simp only [negErr_pure, negErr_getS, negErr_modS, negErr_liftO, negErr_goto_fail, negErr_goto_finish, negErr_goto_undef, negErr_goto_nofuel, negErr_goto_err_undefined, negErr_goto_err_unexpected, negErr_DATA_ENSURE, negErr_GET_LENGTH_INC, negErr_add_p, negErr_add_s, negErr_cclass_mb_not, negErr_is_mbc_head_s]; done) | apply negErr_times | apply negErr_while_data | apply NegErr.bind | intro _ | split | dsimp only)

theorem negErr_op_CCLASS_MIX_NOT (ctx : Ctx) :
    NegErr (op_CCLASS_MIX_NOT ctx) := by
  unfold op_CCLASS_MIX_NOT
  repeat (first | focus (simp only [negErr_pure, negErr_getS, negErr_modS, negErr_liftO, negErr_goto_fail, negErr_goto_finish, negErr_goto_undef, negErr_goto_nofuel, negErr_goto_err_undefined, negErr_goto_err_unexpected, negErr_DATA_ENSURE, negErr_GET_LENGTH_INC, negErr_add_p, negErr_add_s, negErr_cclass_mb_not, negErr_is_mbc_head_s, negErr_rd_s]; done) | apply negErr_times | apply negErr_while_data | apply NegErr.bind | intro _ | split | dsimp only)

theorem negErr_op_CCLASS_NODE (ctx : Ctx) :
    NegErr (op_CCLASS_NODE ctx) := by
  unfold op_CCLASS_NODE
  repeat (first | focus (simp only [negErr_pure, negErr_getS, negErr_modS, negErr_liftO, negErr_goto_fail, negErr_goto_finish, negErr_goto_undef, negErr_goto_nofuel, negErr_goto_err_undefined, negErr_goto_err_unexpected, negErr_DATA_ENSURE, negErr_GET_POINTER_INC, negErr_add_s, negErr_enclen_s]; done) | apply negErr_times | apply negErr_while_data | apply NegErr.bind | intro _ | split | dsimp only)

theorem negErr_op_ANYCHAR (ctx : Ctx) :
    NegErr (op_ANYCHAR ctx) := by
  unfold op_ANYCHAR
  repeat (first | focus (simp only [negErr_pure, negErr_getS, negErr_modS, negErr_liftO, negErr_goto_fail, negErr_goto_finish, negErr_goto_undef, negErr_goto_nofuel, negErr_goto_err_undefined, negErr_goto_err_unexpected, negErr_DATA_ENSURE, negErr_add_s, negErr_enclen_s, negErr_is_newline]; done) | apply negErr_times | apply negErr_while_data | apply NegErr.bind | intro _ | split | dsimp only)

theorem negErr_op_ANYCHAR_ML (ctx : Ctx) :
    NegErr (op_ANYCHAR_ML ctx) := by
  unfold op_ANYCHAR_ML
  repeat (first | focus (simp only [negErr_pure, negErr_getS, negErr_modS, negErr_liftO, negErr_goto_fail, negErr_goto_finish, negErr_goto_undef, negErr_goto_nofuel, negErr_goto_err_undefined, negErr_goto_err_unexpected, negErr_DATA_ENSURE, negErr_add_s, negErr_enclen_s]; done) | apply negErr_times | apply negErr_while_data | apply NegErr.bind | intro _ | split | dsimp only)

theorem negErr_peek_push (ctx : Ctx) :
    NegErr (peek_push ctx) := by
  unfold peek_push
  repeat (first | focus (simp only [negErr_pure, negErr_getS, negErr_modS, negErr_liftO, negErr_goto_fail, negErr_goto_finish, negErr_goto_undef, negErr_goto_nofuel, negErr_goto_err_undefined, negErr_goto_err_unexpected, negErr_STACK_PUSH_ALT, negErr_rd_s]; done) | apply negErr_times | apply negErr_while_data | apply NegErr.bind | intro _ | split | dsimp only)

theorem negErr_anychar_star_step (ctx : Ctx) :
    NegErr (anychar_star_step ctx) := by
  unfold anychar_star_step
  repeat (first | focus (simp only [negErr_pure, negErr_getS, negErr_modS, negErr_liftO, negErr_goto_fail, negErr_goto_finish, negErr_goto_undef, negErr_goto_nofuel, negErr_goto_err_undefined, negErr_goto_err_unexpected, negErr_DATA_ENSURE, negErr_enclen_s, negErr_is_newline]; done) | apply negErr_times | apply negErr_while_data | apply NegErr.bind | intro _ | split | dsimp only)

theorem negErr_anychar_ml_star_step (ctx : Ctx) :
    NegErr (anychar_ml_star_step ctx) := by
  unfold anychar_ml_star_step
  repeat (first | focus (simp only [negErr_pure, negErr_getS, negErr_modS, negErr_liftO, negErr_goto_fail, negErr_goto_finish, negErr_goto_undef, negErr_goto_nofuel, negErr_goto_err_undefined, negErr_goto_err_unexpected, negErr_DATA_ENSURE, negErr_enclen_s]; done) | apply negErr_times | apply negErr_while_data | apply NegErr.bind | intro _ | split | dsimp only)

theorem negErr_while_data (body : M Unit) (hbody : NegErr body) (a0 : Nat) :
    NegErr (while_data body a0) := by
  induction a0 with
  | zero => unfold while_data; repeat (first | focus (simp only [negErr_pure, negErr_getS, negErr_modS, negErr_liftO, negErr_goto_fail, negErr_goto_finish, negErr_goto_undef, negErr_goto_nofuel, negErr_goto_err_undefined, negErr_goto_err_unexpected, hbody]; done) | apply negErr_times | apply NegErr.bind | intro _ | split | dsimp only)
  | succ k ih => unfold while_data; repeat (first | focus (simp only [negErr_pure, negErr_getS, negErr_modS, negErr_liftO, negErr_goto_fail, negErr_goto_finish, negErr_goto_undef, negErr_goto_nofuel, negErr_goto_err_undefined, negErr_goto_err_unexpected, hbody]; done) | apply negErr_times | apply NegErr.bind | intro _ | split | apply ih | dsimp only)

theorem negErr_op_ANYCHAR_STAR (ctx : Ctx) :
    NegErr (op_ANYCHAR_STAR ctx) := by
  unfold op_ANYCHAR_STAR
  repeat (first | focus (simp only [negErr_pure, negErr_getS, negErr_modS, negErr_liftO, negErr_goto_fail, negErr_goto_finish, negErr_goto_undef, negErr_goto_nofuel, negErr_goto_err_undefined, negErr_goto_err_unexpected, negErr_STACK_PUSH_ALT, negErr_anychar_star_step, negErr_while_data]; done) | apply negErr_times | apply negErr_while_data | apply NegErr.bind | intro _ | split | dsimp only)

theorem negErr_op_ANYCHAR_ML_STAR (ctx : Ctx) :
    NegErr (op_ANYCHAR_ML_STAR ctx) := by
  unfold op_ANYCHAR_ML_STAR
  repeat (first | focus (simp only [negErr_pure, negErr_getS, negErr_modS, negErr_liftO, negErr_goto_fail, negErr_goto_finish, negErr_goto_undef, negErr_goto_nofuel, negErr_goto_err_undefined, negErr_goto_err_unexpected, negErr_STACK_PUSH_ALT, negErr_anychar_ml_star_step, negErr_while_data]; done) | apply negErr_times | apply negErr_while_data | apply NegErr.bind | intro _ | split | dsimp only)

theorem negErr_op_ANYCHAR_STAR_PEEK_NEXT (ctx : Ctx) :
    NegErr (op_ANYCHAR_STAR_PEEK_NEXT ctx) := by
  unfold op_ANYCHAR_STAR_PEEK_NEXT
  repeat (first | focus (simp only [negErr_pure, negErr_getS, negErr_modS, negErr_liftO, negErr_goto_fail, negErr_goto_finish, negErr_goto_undef, negErr_goto_nofuel, negErr_goto_err_undefined, negErr_goto_err_unexpected, negErr_add_p, negErr_anychar_star_step, negErr_peek_push, negErr_while_data]; done) | apply negErr_times | apply negErr_while_data | apply NegErr.bind | intro _ | split | dsimp only)

theorem negErr_op_ANYCHAR_ML_STAR_PEEK_NEXT (ctx : Ctx) :
    NegErr (op_ANYCHAR_ML_STAR_PEEK_NEXT ctx) := by
  unfold op_ANYCHAR_ML_STAR_PEEK_NEXT
  repeat (first | focus (simp only [negErr_pure, negErr_getS, negErr_modS, negErr_liftO, negErr_goto_fail, negErr_goto_finish, negErr_goto_undef, negErr_goto_nofuel, negErr_goto_err_undefined, negErr_goto_err_unexpected, negErr_add_p, negErr_anychar_ml_star_step, negErr_peek_push, negErr_while_data]; done) | apply negErr_times | apply negErr_while_data | apply NegErr.bind | intro _ | split | dsimp only)

theorem negErr_op_WORD (ctx : Ctx) :
    NegErr (op_WORD ctx) := by
  unfold op_WORD
  repeat (first | focus (simp only [negErr_pure, negErr_getS, negErr_modS, negErr_liftO, negErr_goto_fail, negErr_goto_finish, negErr_goto_undef, negErr_goto_nofuel, negErr_goto_err_undefined, negErr_goto_err_unexpected, negErr_DATA_ENSURE, negErr_add_s, negErr_enclen_s, negErr_is_word]; done) | apply negErr_times | apply negErr_while_data | apply NegErr.bind | intro _ | split | dsimp only)

theorem negErr_op_NOT_WORD (ctx : Ctx) :
    NegErr (op_NOT_WORD ctx) := by
  unfold op_NOT_WORD
  repeat (first | focus (simp only [negErr_pure, negErr_getS, negErr_modS, negErr_liftO, negErr_goto_fail, negErr_goto_finish, negErr_goto_undef, negErr_goto_nofuel, negErr_goto_err_undefined, negErr_goto_err_unexpected, negErr_DATA_ENSURE, negErr_add_s, negErr_enclen_s, negErr_is_word]; done) | apply negErr_times | apply negErr_while_data | apply NegErr.bind | intro _ | split | dsimp only)

theorem negErr_op_WORD_BOUND (ctx : Ctx) :
    NegErr (op_WORD_BOUND ctx) := by
  unfold op_WORD_BOUND
  repeat (first | focus (simp only [negErr_pure, negErr_getS, negErr_modS, negErr_liftO, negErr_goto_fail, negErr_goto_finish, negErr_goto_undef, negErr_goto_nofuel, negErr_goto_err_undefined, negErr_goto_err_unexpected, negErr_DATA_ENSURE, negErr_is_word]; done) | apply negErr_times | apply negErr_while_data | apply NegErr.bind | intro _ | split | dsimp only)

theorem negErr_op_NOT_WORD_BOUND (ctx : Ctx) :
    NegErr (op_NOT_WORD_BOUND ctx) := by
  unfold op_NOT_WORD_BOUND
  repeat (first | focus (simp only [negErr_pure, negErr_getS, negErr_modS, negErr_liftO, negErr_goto_fail, negErr_goto_finish, negErr_goto_undef, negErr_goto_nofuel, negErr_goto_err_undefined, negErr_goto_err_unexpected, negErr_is_word]; done) | apply negErr_times | apply negErr_while_data | apply NegErr.bind | intro _ | split | dsimp only)

theorem negErr_op_WORD_BEGIN (ctx : Ctx) :
    NegErr (op_WORD_BEGIN ctx) := by
  unfold op_WORD_BEGIN
  repeat (first | focus (simp only [negErr_pure, negErr_getS, negErr_modS, negErr_liftO, negErr_goto_fail, negErr_goto_finish, negErr_goto_undef, negErr_goto_nofuel, negErr_goto_err_undefined, negErr_goto_err_unexpected, negErr_is_word]; done) | apply negErr_times | apply negErr_while_data | apply NegErr.bind | intro _ | split | dsimp only)

theorem negErr_op_WORD_END (ctx : Ctx) :
    NegErr (op_WORD_END ctx) := by
  unfold op_WORD_END
  repeat (first | focus (simp only [negErr_pure, negErr_getS, negErr_modS, negErr_liftO, negErr_goto_fail, negErr_goto_finish, negErr_goto_undef, negErr_goto_nofuel, negErr_goto_err_undefined, negErr_goto_err_unexpected, negErr_is_word]; done) | apply negErr_times | apply negErr_while_data | apply NegErr.bind | intro _ | split | dsimp only)

theorem negErr_op_BEGIN_BUF (ctx : Ctx) :
    NegErr (op_BEGIN_BUF ctx) := by
  unfold op_BEGIN_BUF
  repeat (first | focus (simp only [negErr_pure, negErr_getS, negErr_modS, negErr_liftO, negErr_goto_fail, negErr_goto_finish, negErr_goto_undef, negErr_goto_nofuel, negErr_goto_err_undefined, negErr_goto_err_unexpected]; done) | apply negErr_times | apply negErr_while_data | apply NegErr.bind | intro _ | split | dsimp only)

theorem negErr_op_END_BUF (ctx : Ctx) :
    NegErr (op_END_BUF ctx) := by
  unfold op_END_BUF
  repeat (first | focus (simp only [negErr_pure, negErr_getS, negErr_modS, negErr_liftO, negErr_goto_fail, negErr_goto_finish, negErr_goto_undef, negErr_goto_nofuel, negErr_goto_err_undefined, negErr_goto_err_unexpected]; done) | apply negErr_times | apply negErr_while_data | apply NegErr.bind | intro _ | split | dsimp only)

theorem negErr_op_BEGIN_LINE (ctx : Ctx) :
    NegErr (op_BEGIN_LINE ctx) := by
  unfold op_BEGIN_LINE
  repeat (first | focus (simp only [negErr_pure, negErr_getS, negErr_modS, negErr_liftO, negErr_goto_fail, negErr_goto_finish, negErr_goto_undef, negErr_goto_nofuel, negErr_goto_err_undefined, negErr_goto_err_unexpected, negErr_is_newline]; done) | apply negErr_times | apply negErr_while_data | apply NegErr.bind | intro _ | split | dsimp only)

theorem negErr_at_end_ok (ctx : Ctx) :
    NegErr (at_end_ok ctx) := by
  unfold at_end_ok
  repeat (first | focus (simp only [negErr_pure, negErr_getS, negErr_modS, negErr_liftO, negErr_goto_fail, negErr_goto_finish, negErr_goto_undef, negErr_goto_nofuel, negErr_goto_err_undefined, negErr_goto_err_unexpected, negErr_is_newline]; done) | apply negErr_times | apply negErr_while_data | apply NegErr.bind | intro _ | split | dsimp only)

theorem negErr_op_END_LINE (ctx : Ctx) :
    NegErr (op_END_LINE ctx) := by
  unfold op_END_LINE
  repeat (first | focus (simp only [negErr_pure, negErr_getS, negErr_modS, negErr_liftO, negErr_goto_fail, negErr_goto_finish, negErr_goto_undef, negErr_goto_nofuel, negErr_goto_err_undefined, negErr_goto_err_unexpected, negErr_at_end_ok, negErr_is_newline]; done) | apply negErr_times | apply negErr_while_data | apply NegErr.bind | intro _ | split | dsimp only)

theorem negErr_op_SEMI_END_BUF (ctx : Ctx) :
    NegErr (op_SEMI_END_BUF ctx) := by
  unfold op_SEMI_END_BUF
  repeat (first | focus (simp only [negErr_pure, negErr_getS, negErr_modS, negErr_liftO, negErr_goto_fail, negErr_goto_finish, negErr_goto_undef, negErr_goto_nofuel, negErr_goto_err_undefined, negErr_goto_err_unexpected, negErr_at_end_ok, negErr_enclen_s, negErr_is_newline]; done) | apply negErr_times | apply negErr_while_data | apply NegErr.bind | intro _ | split | dsimp only)

theorem negErr_op_BEGIN_POSITION (ctx : Ctx) :
    NegErr (op_BEGIN_POSITION ctx) := by
  unfold op_BEGIN_POSITION
  repeat (first | focus (simp only [negErr_pure, negErr_getS, negErr_modS, negErr_liftO, negErr_goto_fail, negErr_goto_finish, negErr_goto_undef, negErr_goto_nofuel, negErr_goto_err_undefined, negErr_goto_err_unexpected]; done) | apply negErr_times | apply negErr_while_data | apply NegErr.bind | intro _ | split | dsimp only)

theorem negErr_op_MEMORY_START_PUSH (ctx : Ctx) :
    NegErr (op_MEMORY_START_PUSH ctx) := by
  unfold op_MEMORY_START_PUSH
  repeat (first | focus (simp only [negErr_pure, negErr_getS, negErr_modS, negErr_liftO, negErr_goto_fail, negErr_goto_finish, negErr_goto_undef, negErr_goto_nofuel, negErr_goto_err_undefined, negErr_goto_err_unexpected, negErr_GET_MEMNUM_INC, negErr_STACK_PUSH_MEM_START]; done) | apply negErr_times | apply negErr_while_data | apply NegErr.bind | intro _ | split | dsimp only)

theorem negErr_op_MEMORY_START (ctx : Ctx) :
    NegErr (op_MEMORY_START ctx) := by
  unfold op_MEMORY_START
  repeat (first | focus (simp only [negErr_pure, negErr_getS, negErr_modS, negErr_liftO, negErr_goto_fail, negErr_goto_finish, negErr_goto_undef, negErr_goto_nofuel, negErr_goto_err_undefined, negErr_goto_err_unexpected, negErr_GET_MEMNUM_INC]; done) | apply negErr_times | apply negErr_while_data | apply NegErr.bind | intro _ | split | dsimp only)

theorem negErr_op_MEMORY_END_PUSH (ctx : Ctx) :
    NegErr (op_MEMORY_END_PUSH ctx) := by
  unfold op_MEMORY_END_PUSH
  repeat (first | focus (simp only [negErr_pure, negErr_getS, negErr_modS, negErr_liftO, negErr_goto_fail, negErr_goto_finish, negErr_goto_undef, negErr_goto_nofuel, negErr_goto_err_undefined, negErr_goto_err_unexpected, negErr_GET_MEMNUM_INC, negErr_STACK_PUSH_MEM_END]; done) | apply negErr_times | apply negErr_while_data | apply NegErr.bind | intro _ | split | dsimp only)

theorem negErr_op_MEMORY_END (ctx : Ctx) :
    NegErr (op_MEMORY_END ctx) := by
  unfold op_MEMORY_END
  repeat (first | focus (simp only [negErr_pure, negErr_getS, negErr_modS, negErr_liftO, negErr_goto_fail, negErr_goto_finish, negErr_goto_undef, negErr_goto_nofuel, negErr_goto_err_undefined, negErr_goto_err_unexpected, negErr_GET_MEMNUM_INC]; done) | apply negErr_times | apply negErr_while_data | apply NegErr.bind | intro _ | split | dsimp only)

theorem negErr_op_MEMORY_END_PUSH_REC (ctx : Ctx) :
    NegErr (op_MEMORY_END_PUSH_REC ctx) := by
  unfold op_MEMORY_END_PUSH_REC
  repeat (first | focus (simp only [negErr_pure, negErr_getS, negErr_modS, negErr_liftO, negErr_goto_fail, negErr_goto_finish, negErr_goto_undef, negErr_goto_nofuel, negErr_goto_err_undefined, negErr_goto_err_unexpected, negErr_GET_MEMNUM_INC, negErr_STACK_GET_MEM_START, negErr_STACK_PUSH_MEM_END]; done) | apply negErr_times | apply negErr_while_data | apply NegErr.bind | intro _ | split | dsimp only)

theorem negErr_op_MEMORY_END_REC (ctx : Ctx) :
    NegErr (op_MEMORY_END_REC ctx) := by
  unfold op_MEMORY_END_REC
  repeat (first | focus (simp only [negErr_pure, negErr_getS, negErr_modS, negErr_liftO, negErr_goto_fail, negErr_goto_finish, negErr_goto_undef, negErr_goto_nofuel, negErr_goto_err_undefined, negErr_goto_err_unexpected, negErr_GET_MEMNUM_INC, negErr_STACK_GET_MEM_START, negErr_STACK_PUSH_MEM_END_MARK]; done) | apply negErr_times | apply negErr_while_data | apply NegErr.bind | intro _ | split | dsimp only)

theorem negErr_sprev_loop (ctx : Ctx) (a0 : Nat) :
    NegErr (sprev_loop ctx a0) := by
  induction a0 with
  | zero => unfold sprev_loop; repeat (first | focus (simp only [negErr_pure, negErr_getS, negErr_modS, negErr_liftO, negErr_goto_fail, negErr_goto_finish, negErr_goto_undef, negErr_goto_nofuel, negErr_goto_err_undefined, negErr_goto_err_unexpected, negErr_set_sprev]; done) | apply negErr_times | apply negErr_while_data | apply NegErr.bind | intro _ | split | dsimp only)
  | succ k ih => unfold sprev_loop; repeat (first | focus (simp only [negErr_pure, negErr_getS, negErr_modS, negErr_liftO, negErr_goto_fail, negErr_goto_finish, negErr_goto_undef, negErr_goto_nofuel, negErr_goto_err_undefined, negErr_goto_err_unexpected, negErr_set_sprev]; done) | apply negErr_times | apply negErr_while_data | apply NegErr.bind | intro _ | split | apply ih | dsimp only)

theorem negErr_STRING_CMP (ctx : Ctx) (a0 : Int) (a1 : Nat) :
    NegErr (STRING_CMP ctx a0 a1) := by
  induction a1 generalizing a0 with
  | zero => unfold STRING_CMP; repeat (first | focus (simp only [negErr_pure, negErr_getS, negErr_modS, negErr_liftO, negErr_goto_fail, negErr_goto_finish, negErr_goto_undef, negErr_goto_nofuel, negErr_goto_err_undefined, negErr_goto_err_unexpected]; done) | apply negErr_times | apply negErr_while_data | apply NegErr.bind | intro _ | split | dsimp only)
  | succ k ih => unfold STRING_CMP; repeat (first | focus (simp only [negErr_pure, negErr_getS, negErr_modS, negErr_liftO, negErr_goto_fail, negErr_goto_finish, negErr_goto_undef, negErr_goto_nofuel, negErr_goto_err_undefined, negErr_goto_err_unexpected]; done) | apply negErr_times | apply negErr_while_data | apply NegErr.bind | intro _ | split | apply ih | dsimp only)

theorem negErr_STRING_CMP_IC (ctx : Ctx) (s1 : Int) (len : Int) :
    NegErr (STRING_CMP_IC ctx s1 len) := by
  unfold STRING_CMP_IC
  repeat (first | focus (simp only [negErr_pure, negErr_getS, negErr_modS, negErr_liftO, negErr_goto_fail, negErr_goto_finish, negErr_goto_undef, negErr_goto_nofuel, negErr_goto_err_undefined, negErr_goto_err_unexpected]; done) | apply negErr_times | apply negErr_while_data | apply NegErr.bind | intro _ | split | dsimp only)

theorem negErr_backref (ctx : Ctx) (mem : Int) :
    NegErr (backref ctx mem) := by
  unfold backref
  repeat (first | focus (simp only [negErr_pure, negErr_getS, negErr_modS, negErr_liftO, negErr_goto_fail, negErr_goto_finish, negErr_goto_undef, negErr_goto_nofuel, negErr_goto_err_undefined, negErr_goto_err_unexpected, negErr_DATA_ENSURE, negErr_STRING_CMP, negErr_set_sprev, negErr_sprev_loop]; done) | apply negErr_times | apply negErr_while_data | apply NegErr.bind | intro _ | split | dsimp only)

theorem negErr_op_BACKREF_N (ctx : Ctx) :
    NegErr (op_BACKREF_N ctx) := by
  unfold op_BACKREF_N
  repeat (first | focus (simp only [negErr_pure, negErr_getS, negErr_modS, negErr_liftO, negErr_goto_fail, negErr_goto_finish, negErr_goto_undef, negErr_goto_nofuel, negErr_goto_err_undefined, negErr_goto_err_unexpected, negErr_GET_MEMNUM_INC, negErr_backref]; done) | apply negErr_times | apply negErr_while_data | apply NegErr.bind | intro _ | split | dsimp only)

theorem negErr_op_BACKREF_N_IC (ctx : Ctx) :
    NegErr (op_BACKREF_N_IC ctx) := by
  unfold op_BACKREF_N_IC
  repeat (first | focus (simp only [negErr_pure, negErr_getS, negErr_modS, negErr_liftO, negErr_goto_fail, negErr_goto_finish, negErr_goto_undef, negErr_goto_nofuel, negErr_goto_err_undefined, negErr_goto_err_unexpected, negErr_DATA_ENSURE, negErr_GET_MEMNUM_INC, negErr_STRING_CMP_IC, negErr_set_sprev, negErr_sprev_loop]; done) | apply negErr_times | apply negErr_while_data | apply NegErr.bind | intro _ | split | dsimp only)

theorem negErr_backref_multi_loop (ctx : Ctx) (ic : Bool) (a0 : Nat) :
    NegErr (backref_multi_loop ctx ic a0) := by
  induction a0 with
  | zero => unfold backref_multi_loop; repeat (first | focus (simp only [negErr_pure, negErr_getS, negErr_modS, negErr_liftO, negErr_goto_fail, negErr_goto_finish, negErr_goto_undef, negErr_goto_nofuel, negErr_goto_err_undefined, negErr_goto_err_unexpected, negErr_DATA_ENSURE, negErr_GET_MEMNUM_INC, negErr_add_p, negErr_set_sprev, negErr_sprev_loop]; done) | apply negErr_times | apply negErr_while_data | apply NegErr.bind | intro _ | split | dsimp only)
  | succ k ih => unfold backref_multi_loop; repeat (first | focus (simp only [negErr_pure, negErr_getS, negErr_modS, negErr_liftO, negErr_goto_fail, negErr_goto_finish, negErr_goto_undef, negErr_goto_nofuel, negErr_goto_err_undefined, negErr_goto_err_unexpected, negErr_DATA_ENSURE, negErr_GET_MEMNUM_INC, negErr_add_p, negErr_set_sprev, negErr_sprev_loop]; done) | apply negErr_times | apply negErr_while_data | apply NegErr.bind | intro _ | split | apply ih | dsimp only)

theorem negErr_op_BACKREF_MULTI (ctx : Ctx) :
    NegErr (op_BACKREF_MULTI ctx) := by
  unfold op_BACKREF_MULTI
  repeat (first | focus (simp only [negErr_pure, negErr_getS, negErr_modS, negErr_liftO, negErr_goto_fail, negErr_goto_finish, negErr_goto_undef, negErr_goto_nofuel, negErr_goto_err_undefined, negErr_goto_err_unexpected, negErr_GET_LENGTH_INC, negErr_backref_multi_loop]; done) | apply negErr_times | apply negErr_while_data | apply NegErr.bind | intro _ | split | dsimp only)

theorem negErr_op_BACKREF_MULTI_IC (ctx : Ctx) :
    NegErr (op_BACKREF_MULTI_IC ctx) := by
  unfold op_BACKREF_MULTI_IC
  repeat (first | focus (simp only [negErr_pure, negErr_getS, negErr_modS, negErr_liftO, negErr_goto_fail, negErr_goto_finish, negErr_goto_undef, negErr_goto_nofuel, negErr_goto_err_undefined, negErr_goto_err_unexpected, negErr_GET_LENGTH_INC, negErr_backref_multi_loop]; done) | apply negErr_times | apply negErr_while_data | apply NegErr.bind | intro _ | split | dsimp only)

theorem negErr_op_BACKREF_WITH_LEVEL (ctx : Ctx) :
    NegErr (op_BACKREF_WITH_LEVEL ctx) := by
  unfold op_BACKREF_WITH_LEVEL
  repeat (first | focus (simp only [negErr_pure, negErr_getS, negErr_modS, negErr_liftO, negErr_goto_fail, negErr_goto_finish, negErr_goto_undef, negErr_goto_nofuel, negErr_goto_err_undefined, negErr_goto_err_unexpected, negErr_GET_LENGTH_INC, negErr_GET_OPTION_INC, negErr_add_p, negErr_set_sprev, negErr_sprev_loop]; done) | apply negErr_times | apply negErr_while_data | apply NegErr.bind | intro _ | split | dsimp only)

theorem negErr_backref_check_loop (ctx : Ctx) (a0 : Nat) :
    NegErr (backref_check_loop ctx a0) := by
  induction a0 with
  | zero => unfold backref_check_loop; repeat (first | focus (simp only [negErr_pure, negErr_getS, negErr_modS, negErr_liftO, negErr_goto_fail, negErr_goto_finish, negErr_goto_undef, negErr_goto_nofuel, negErr_goto_err_undefined, negErr_goto_err_unexpected, negErr_GET_MEMNUM_INC, negErr_add_p]; done) | apply negErr_times | apply negErr_while_data | apply NegErr.bind | intro _ | split | dsimp only)
  | succ k ih => unfold backref_check_loop; repeat (first | focus (simp only [negErr_pure, negErr_getS, negErr_modS, negErr_liftO, negErr_goto_fail, negErr_goto_finish, negErr_goto_undef, negErr_goto_nofuel, negErr_goto_err_undefined, negErr_goto_err_unexpected, negErr_GET_MEMNUM_INC, negErr_add_p]; done) | apply negErr_times | apply negErr_while_data | apply NegErr.bind | intro _ | split | apply ih | dsimp only)

theorem negErr_op_BACKREF_CHECK (ctx : Ctx) :
    NegErr (op_BACKREF_CHECK ctx) := by
  unfold op_BACKREF_CHECK
  repeat (first | focus (simp only [negErr_pure, negErr_getS, negErr_modS, negErr_liftO, negErr_goto_fail, negErr_goto_finish, negErr_goto_undef, negErr_goto_nofuel, negErr_goto_err_undefined, negErr_goto_err_unexpected, negErr_GET_LENGTH_INC, negErr_backref_check_loop]; done) | apply negErr_times | apply negErr_while_data | apply NegErr.bind | intro _ | split | dsimp only)

theorem negErr_op_BACKREF_CHECK_WITH_LEVEL (ctx : Ctx) :
    NegErr (op_BACKREF_CHECK_WITH_LEVEL ctx) := by
  unfold op_BACKREF_CHECK_WITH_LEVEL
  repeat (first | focus (simp only [negErr_pure, negErr_getS, negErr_modS, negErr_liftO, negErr_goto_fail, negErr_goto_finish, negErr_goto_undef, negErr_goto_nofuel, negErr_goto_err_undefined, negErr_goto_err_unexpected, negErr_GET_LENGTH_INC, negErr_add_p]; done) | apply negErr_times | apply negErr_while_data | apply NegErr.bind | intro _ | split | dsimp only)

theorem negErr_op_EMPTY_CHECK_START (ctx : Ctx) :
    NegErr (op_EMPTY_CHECK_START ctx) := by
  unfold op_EMPTY_CHECK_START
  repeat (first | focus (simp only [negErr_pure, negErr_getS, negErr_modS, negErr_liftO, negErr_goto_fail, negErr_goto_finish, negErr_goto_undef, negErr_goto_nofuel, negErr_goto_err_undefined, negErr_goto_err_unexpected, negErr_GET_MEMNUM_INC, negErr_STACK_PUSH_EMPTY_CHECK_START]; done) | apply negErr_times | apply negErr_while_data | apply NegErr.bind | intro _ | split | dsimp only)

theorem negErr_empty_check_found (ctx : Ctx) :
    NegErr (empty_check_found ctx) := by
  unfold empty_check_found
  repeat (first | focus (simp only [negErr_pure, negErr_getS, negErr_modS, negErr_liftO, negErr_goto_fail, negErr_goto_finish, negErr_goto_undef, negErr_goto_nofuel, negErr_goto_err_undefined, negErr_goto_err_unexpected, negErr_add_p]; done) | apply negErr_times | apply negErr_while_data | apply NegErr.bind | intro _ | split | dsimp only)

theorem negErr_op_EMPTY_CHECK_END (ctx : Ctx) :
    NegErr (op_EMPTY_CHECK_END ctx) := by
  unfold op_EMPTY_CHECK_END
  repeat (first | focus (simp only [negErr_pure, negErr_getS, negErr_modS, negErr_liftO, negErr_goto_fail, negErr_goto_finish, negErr_goto_undef, negErr_goto_nofuel, negErr_goto_err_undefined, negErr_goto_err_unexpected, negErr_GET_MEMNUM_INC, negErr_STACK_EMPTY_CHECK, negErr_empty_check_found]; done) | apply negErr_times | apply negErr_while_data | apply NegErr.bind | intro _ | split | dsimp only)

theorem negErr_op_EMPTY_CHECK_END_MEMST (ctx : Ctx) :
    NegErr (op_EMPTY_CHECK_END_MEMST ctx) := by
  unfold op_EMPTY_CHECK_END_MEMST
  repeat (first | focus (simp only [negErr_pure, negErr_getS, negErr_modS, negErr_liftO, negErr_goto_fail, negErr_goto_finish, negErr_goto_undef, negErr_goto_nofuel, negErr_goto_err_undefined, negErr_goto_err_unexpected, negErr_GET_MEMNUM_INC, negErr_STACK_EMPTY_CHECK_MEMST, negErr_empty_check_found]; done) | apply negErr_times | apply negErr_while_data | apply NegErr.bind | intro _ | split | dsimp only)

theorem negErr_op_EMPTY_CHECK_END_MEMST_PUSH (ctx : Ctx) :
    NegErr (op_EMPTY_CHECK_END_MEMST_PUSH ctx) := by
  unfold op_EMPTY_CHECK_END_MEMST_PUSH
  repeat (first | focus (simp only [negErr_pure, negErr_getS, negErr_modS, negErr_liftO, negErr_goto_fail, negErr_goto_finish, negErr_goto_undef, negErr_goto_nofuel, negErr_goto_err_undefined, negErr_goto_err_unexpected, negErr_GET_MEMNUM_INC, negErr_STACK_EMPTY_CHECK_MEMST_REC, negErr_STACK_PUSH_EMPTY_CHECK_END, negErr_empty_check_found]; done) | apply negErr_times | apply negErr_while_data | apply NegErr.bind | intro _ | split | dsimp only)

theorem negErr_CHECK_INTERRUPT_IN_MATCH_AT :
    NegErr (CHECK_INTERRUPT_IN_MATCH_AT) := by
  unfold CHECK_INTERRUPT_IN_MATCH_AT
  repeat (first | focus (simp only [negErr_pure, negErr_getS, negErr_modS, negErr_liftO, negErr_goto_fail, negErr_goto_finish, negErr_goto_undef, negErr_goto_nofuel, negErr_goto_err_undefined, negErr_goto_err_unexpected]; done) | apply negErr_times | apply negErr_while_data | apply NegErr.bind | intro _ | split | dsimp only)

theorem negErr_op_JUMP (ctx : Ctx) :
    NegErr (op_JUMP ctx) := by
  unfold op_JUMP
  repeat (first | focus (simp only [negErr_pure, negErr_getS, negErr_modS, negErr_liftO, negErr_goto_fail, negErr_goto_finish, negErr_goto_undef, negErr_goto_nofuel, negErr_goto_err_undefined, negErr_goto_err_unexpected, negErr_CHECK_INTERRUPT_IN_MATCH_AT, negErr_GET_RELADDR_INC, negErr_add_p]; done) | apply negErr_times | apply negErr_while_data | apply NegErr.bind | intro _ | split | dsimp only)

theorem negErr_op_PUSH (ctx : Ctx) :
    NegErr (op_PUSH ctx) := by
  unfold op_PUSH
  repeat (first | focus (simp only [negErr_pure, negErr_getS, negErr_modS, negErr_liftO, negErr_goto_fail, negErr_goto_finish, negErr_goto_undef, negErr_goto_nofuel, negErr_goto_err_undefined, negErr_goto_err_unexpected, negErr_GET_RELADDR_INC, negErr_STACK_PUSH_ALT]; done) | apply negErr_times | apply negErr_while_data | apply NegErr.bind | intro _ | split | dsimp only)

theorem negErr_op_POP :
    NegErr (op_POP) := by
  unfold op_POP
  repeat (first | focus (simp only [negErr_pure, negErr_getS, negErr_modS, negErr_liftO, negErr_goto_fail, negErr_goto_finish, negErr_goto_undef, negErr_goto_nofuel, negErr_goto_err_undefined, negErr_goto_err_unexpected, negErr_STACK_POP_ONE]; done) | apply negErr_times | apply negErr_while_data | apply NegErr.bind | intro _ | split | dsimp only)

theorem negErr_op_PUSH_OR_JUMP_EXACT1 (ctx : Ctx) :
    NegErr (op_PUSH_OR_JUMP_EXACT1 ctx) := by
  unfold op_PUSH_OR_JUMP_EXACT1
  repeat (first | focus (simp only [negErr_pure, negErr_getS, negErr_modS, negErr_liftO, negErr_goto_fail, negErr_goto_finish, negErr_goto_undef, negErr_goto_nofuel, negErr_goto_err_undefined, negErr_goto_err_unexpected, negErr_GET_RELADDR_INC, negErr_STACK_PUSH_ALT, negErr_add_p, negErr_rd_s]; done) | apply negErr_times | apply negErr_while_data | apply NegErr.bind | intro _ | split | dsimp only)

theorem negErr_op_PUSH_IF_PEEK_NEXT (ctx : Ctx) :
    NegErr (op_PUSH_IF_PEEK_NEXT ctx) := by
  unfold op_PUSH_IF_PEEK_NEXT
  repeat (first | focus (simp only [negErr_pure, negErr_getS, negErr_modS, negErr_liftO, negErr_goto_fail, negErr_goto_finish, negErr_goto_undef, negErr_goto_nofuel, negErr_goto_err_undefined, negErr_goto_err_unexpected, negErr_GET_RELADDR_INC, negErr_STACK_PUSH_ALT, negErr_add_p, negErr_rd_s]; done) | apply negErr_times | apply negErr_while_data | apply NegErr.bind | intro _ | split | dsimp only)

theorem negErr_repeat_start (ctx : Ctx) (mem : Int) :
    NegErr (repeat_start ctx mem) := by
  unfold repeat_start
  repeat (first | focus (simp only [negErr_pure, negErr_getS, negErr_modS, negErr_liftO, negErr_goto_fail, negErr_goto_finish, negErr_goto_undef, negErr_goto_nofuel, negErr_goto_err_undefined, negErr_goto_err_unexpected, negErr_STACK_ENSURE, negErr_STACK_PUSH_REPEAT]; done) | apply negErr_times | apply negErr_while_data | apply NegErr.bind | intro _ | split | dsimp only)

theorem negErr_op_REPEAT (ctx : Ctx) :
    NegErr (op_REPEAT ctx) := by
  unfold op_REPEAT
  repeat (first | focus (simp only [negErr_pure, negErr_getS, negErr_modS, negErr_liftO, negErr_goto_fail, negErr_goto_finish, negErr_goto_undef, negErr_goto_nofuel, negErr_goto_err_undefined, negErr_goto_err_unexpected, negErr_GET_MEMNUM_INC, negErr_GET_RELADDR_INC, negErr_STACK_PUSH_ALT, negErr_repeat_start]; done) | apply negErr_times | apply negErr_while_data | apply NegErr.bind | intro _ | split | dsimp only)

theorem negErr_op_REPEAT_NG (ctx : Ctx) :
    NegErr (op_REPEAT_NG ctx) := by
  unfold op_REPEAT_NG
  repeat (first | focus (simp only [negErr_pure, negErr_getS, negErr_modS, negErr_liftO, negErr_goto_fail, negErr_goto_finish, negErr_goto_undef, negErr_goto_nofuel, negErr_goto_err_undefined, negErr_goto_err_unexpected, negErr_GET_MEMNUM_INC, negErr_GET_RELADDR_INC, negErr_STACK_PUSH_ALT, negErr_add_p, negErr_repeat_start]; done) | apply negErr_times | apply negErr_while_data | apply NegErr.bind | intro _ | split | dsimp only)

theorem negErr_repeat_count_inc (si : Int) :
    NegErr (repeat_count_inc si) := by
  unfold repeat_count_inc
  repeat (first | focus (simp only [negErr_pure, negErr_getS, negErr_modS, negErr_liftO, negErr_goto_fail, negErr_goto_finish, negErr_goto_undef, negErr_goto_nofuel, negErr_goto_err_undefined, negErr_goto_err_unexpected]; done) | apply negErr_times | apply negErr_while_data | apply NegErr.bind | intro _ | split | dsimp only)

theorem negErr_repeat_pcode (si : Int) :
    NegErr (repeat_pcode si) := by
  unfold repeat_pcode
  repeat (first | focus (simp only [negErr_pure, negErr_getS, negErr_modS, negErr_liftO, negErr_goto_fail, negErr_goto_finish, negErr_goto_undef, negErr_goto_nofuel, negErr_goto_err_undefined, negErr_goto_err_unexpected]; done) | apply negErr_times | apply negErr_while_data | apply NegErr.bind | intro _ | split | dsimp only)

theorem negErr_repeat_inc (ctx : Ctx) (mem : Int) (si : Int) :
    NegErr (repeat_inc ctx mem si) := by
  unfold repeat_inc
  repeat (first | focus (simp only [negErr_pure, negErr_getS, negErr_modS, negErr_liftO, negErr_goto_fail, negErr_goto_finish, negErr_goto_undef, negErr_goto_nofuel, negErr_goto_err_undefined, negErr_goto_err_unexpected, negErr_CHECK_INTERRUPT_IN_MATCH_AT, negErr_STACK_PUSH_ALT, negErr_STACK_PUSH_REPEAT_INC, negErr_repeat_count_inc, negErr_repeat_pcode]; done) | apply negErr_times | apply negErr_while_data | apply NegErr.bind | intro _ | split | dsimp only)

theorem negErr_op_REPEAT_INC (ctx : Ctx) :
    NegErr (op_REPEAT_INC ctx) := by
  unfold op_REPEAT_INC
  repeat (first | focus (simp only [negErr_pure, negErr_getS, negErr_modS, negErr_liftO, negErr_goto_fail, negErr_goto_finish, negErr_goto_undef, negErr_goto_nofuel, negErr_goto_err_undefined, negErr_goto_err_unexpected, negErr_GET_MEMNUM_INC, negErr_repeat_inc]; done) | apply negErr_times | apply negErr_while_data | apply NegErr.bind | intro _ | split | dsimp only)

theorem negErr_op_REPEAT_INC_SG (ctx : Ctx) :
    NegErr (op_REPEAT_INC_SG ctx) := by
  unfold op_REPEAT_INC_SG
  repeat (first | focus (simp only [negErr_pure, negErr_getS, negErr_modS, negErr_liftO, negErr_goto_fail, negErr_goto_finish, negErr_goto_undef, negErr_goto_nofuel, negErr_goto_err_undefined, negErr_goto_err_unexpected, negErr_GET_MEMNUM_INC, negErr_STACK_GET_REPEAT, negErr_repeat_inc]; done) | apply negErr_times | apply negErr_while_data | apply NegErr.bind | intro _ | split | dsimp only)

theorem negErr_repeat_inc_ng (ctx : Ctx) (mem : Int) (si : Int) :
    NegErr (repeat_inc_ng ctx mem si) := by
  unfold repeat_inc_ng
  repeat (first | focus (simp only [negErr_pure, negErr_getS, negErr_modS, negErr_liftO, negErr_goto_fail, negErr_goto_finish, negErr_goto_undef, negErr_goto_nofuel, negErr_goto_err_undefined, negErr_goto_err_unexpected, negErr_CHECK_INTERRUPT_IN_MATCH_AT, negErr_STACK_PUSH_ALT, negErr_STACK_PUSH_REPEAT_INC, negErr_repeat_count_inc]; done) | apply negErr_times | apply negErr_while_data | apply NegErr.bind | intro _ | split | dsimp only)

theorem negErr_op_REPEAT_INC_NG (ctx : Ctx) :
    NegErr (op_REPEAT_INC_NG ctx) := by
  unfold op_REPEAT_INC_NG
  repeat (first | focus (simp only [negErr_pure, negErr_getS, negErr_modS, negErr_liftO, negErr_goto_fail, negErr_goto_finish, negErr_goto_undef, negErr_goto_nofuel, negErr_goto_err_undefined, negErr_goto_err_unexpected, negErr_GET_MEMNUM_INC, negErr_repeat_inc_ng]; done) | apply negErr_times | apply negErr_while_data | apply NegErr.bind | intro _ | split | dsimp only)

theorem negErr_op_REPEAT_INC_NG_SG (ctx : Ctx) :
    NegErr (op_REPEAT_INC_NG_SG ctx) := by
  unfold op_REPEAT_INC_NG_SG
  repeat (first | focus (simp only [negErr_pure, negErr_getS, negErr_modS, negErr_liftO, negErr_goto_fail, negErr_goto_finish, negErr_goto_undef, negErr_goto_nofuel, negErr_goto_err_undefined, negErr_goto_err_unexpected, negErr_GET_MEMNUM_INC, negErr_STACK_GET_REPEAT, negErr_repeat_inc_ng]; done) | apply negErr_times | apply negErr_while_data | apply NegErr.bind | intro _ | split | dsimp only)

theorem negErr_op_PUSH_POS (ctx : Ctx) :
    NegErr (op_PUSH_POS ctx) := by
  unfold op_PUSH_POS
  repeat (first | focus (simp only [negErr_pure, negErr_getS, negErr_modS, negErr_liftO, negErr_goto_fail, negErr_goto_finish, negErr_goto_undef, negErr_goto_nofuel, negErr_goto_err_undefined, negErr_goto_err_unexpected, negErr_STACK_PUSH_POS]; done) | apply negErr_times | apply negErr_while_data | apply NegErr.bind | intro _ | split | dsimp only)

theorem negErr_op_POP_POS :
    NegErr (op_POP_POS) := by
  unfold op_POP_POS
  repeat (first | focus (simp only [negErr_pure, negErr_getS, negErr_modS, negErr_liftO, negErr_goto_fail, negErr_goto_finish, negErr_goto_undef, negErr_goto_nofuel, negErr_goto_err_undefined, negErr_goto_err_unexpected, negErr_STACK_POS_END]; done) | apply negErr_times | apply negErr_while_data | apply NegErr.bind | intro _ | split | dsimp only)

theorem negErr_op_PUSH_PREC_READ_NOT (ctx : Ctx) :
    NegErr (op_PUSH_PREC_READ_NOT ctx) := by
  unfold op_PUSH_PREC_READ_NOT
  repeat (first | focus (simp only [negErr_pure, negErr_getS, negErr_modS, negErr_liftO, negErr_goto_fail, negErr_goto_finish, negErr_goto_undef, negErr_goto_nofuel, negErr_goto_err_undefined, negErr_goto_err_unexpected, negErr_GET_RELADDR_INC, negErr_STACK_PUSH_ALT_PREC_READ_NOT]; done) | apply negErr_times | apply negErr_while_data | apply NegErr.bind | intro _ | split | dsimp only)

theorem negErr_op_FAIL_PREC_READ_NOT :
    NegErr (op_FAIL_PREC_READ_NOT) := by
  unfold op_FAIL_PREC_READ_NOT
  repeat (first | focus (simp only [negErr_pure, negErr_getS, negErr_modS, negErr_liftO, negErr_goto_fail, negErr_goto_finish, negErr_goto_undef, negErr_goto_nofuel, negErr_goto_err_undefined, negErr_goto_err_unexpected, negErr_STACK_POP_TIL_ALT_PREC_READ_NOT]; done) | apply negErr_times | apply negErr_while_data | apply NegErr.bind | intro _ | split | dsimp only)

theorem negErr_op_PUSH_STOP_BT (ctx : Ctx) :
    NegErr (op_PUSH_STOP_BT ctx) := by
  unfold op_PUSH_STOP_BT
  repeat (first | focus (simp only [negErr_pure, negErr_getS, negErr_modS, negErr_liftO, negErr_goto_fail, negErr_goto_finish, negErr_goto_undef, negErr_goto_nofuel, negErr_goto_err_undefined, negErr_goto_err_unexpected, negErr_STACK_PUSH_STOP_BT]; done) | apply negErr_times | apply negErr_while_data | apply NegErr.bind | intro _ | split | dsimp only)

theorem negErr_op_POP_STOP_BT :
    NegErr (op_POP_STOP_BT) := by
  unfold op_POP_STOP_BT
  repeat (first | focus (simp only [negErr_pure, negErr_getS, negErr_modS, negErr_liftO, negErr_goto_fail, negErr_goto_finish, negErr_goto_undef, negErr_goto_nofuel, negErr_goto_err_undefined, negErr_goto_err_unexpected, negErr_STACK_STOP_BT_END]; done) | apply negErr_times | apply negErr_while_data | apply NegErr.bind | intro _ | split | dsimp only)

theorem negErr_op_LOOK_BEHIND (ctx : Ctx) :
    NegErr (op_LOOK_BEHIND ctx) := by
  unfold op_LOOK_BEHIND
  repeat (first | focus (simp only [negErr_pure, negErr_getS, negErr_modS, negErr_liftO, negErr_goto_fail, negErr_goto_finish, negErr_goto_undef, negErr_goto_nofuel, negErr_goto_err_undefined, negErr_goto_err_unexpected, negErr_GET_LENGTH_INC, negErr_set_sprev]; done) | apply negErr_times | apply negErr_while_data | apply NegErr.bind | intro _ | split | dsimp only)

theorem negErr_op_PUSH_LOOK_BEHIND_NOT (ctx : Ctx) :
    NegErr (op_PUSH_LOOK_BEHIND_NOT ctx) := by
  unfold op_PUSH_LOOK_BEHIND_NOT
  repeat (first | focus (simp only [negErr_pure, negErr_getS, negErr_modS, negErr_liftO, negErr_goto_fail, negErr_goto_finish, negErr_goto_undef, negErr_goto_nofuel, negErr_goto_err_undefined, negErr_goto_err_unexpected, negErr_GET_LENGTH_INC, negErr_GET_RELADDR_INC, negErr_STACK_PUSH_ALT_LOOK_BEHIND_NOT, negErr_add_p]; done) | apply negErr_times | apply negErr_while_data | apply NegErr.bind | intro _ | split | dsimp only)

theorem negErr_op_FAIL_LOOK_BEHIND_NOT :
    NegErr (op_FAIL_LOOK_BEHIND_NOT) := by
  unfold op_FAIL_LOOK_BEHIND_NOT
  repeat (first | focus (simp only [negErr_pure, negErr_getS, negErr_modS, negErr_liftO, negErr_goto_fail, negErr_goto_finish, negErr_goto_undef, negErr_goto_nofuel, negErr_goto_err_undefined, negErr_goto_err_unexpected, negErr_STACK_POP_TIL_ALT_LOOK_BEHIND_NOT]; done) | apply negErr_times | apply negErr_while_data | apply NegErr.bind | intro _ | split | dsimp only)

theorem negErr_op_CALL (ctx : Ctx) :
    NegErr (op_CALL ctx) := by
  unfold op_CALL
  repeat (first | focus (simp only [negErr_pure, negErr_getS, negErr_modS, negErr_liftO, negErr_goto_fail, negErr_goto_finish, negErr_goto_undef, negErr_goto_nofuel, negErr_goto_err_undefined, negErr_goto_err_unexpected, negErr_GET_ABSADDR_INC, negErr_STACK_PUSH_CALL_FRAME]; done) | apply negErr_times | apply negErr_while_data | apply NegErr.bind | intro _ | split | dsimp only)

theorem negErr_op_RETURN (ctx : Ctx) :
    NegErr (op_RETURN ctx) := by
  unfold op_RETURN
  repeat (first | focus (simp only [negErr_pure, negErr_getS, negErr_modS, negErr_liftO, negErr_goto_fail, negErr_goto_finish, negErr_goto_undef, negErr_goto_nofuel, negErr_goto_err_undefined, negErr_goto_err_unexpected, negErr_STACK_PUSH_RETURN, negErr_STACK_RETURN]; done) | apply negErr_times | apply negErr_while_data | apply NegErr.bind | intro _ | split | dsimp only)

theorem negErr_op_PUSH_SAVE_VAL (ctx : Ctx) :
    NegErr (op_PUSH_SAVE_VAL ctx) := by
  unfold op_PUSH_SAVE_VAL
  repeat (first | focus (simp only [negErr_pure, negErr_getS, negErr_modS, negErr_liftO, negErr_goto_fail, negErr_goto_finish, negErr_goto_undef, negErr_goto_nofuel, negErr_goto_err_undefined, negErr_goto_err_unexpected, negErr_GET_MEMNUM_INC, negErr_GET_SAVE_TYPE_INC, negErr_STACK_ENSURE, negErr_STACK_PUSH_SAVE_VAL]; done) | apply negErr_times | apply negErr_while_data | apply NegErr.bind | intro _ | split | dsimp only)

theorem negErr_op_UPDATE_VAR (ctx : Ctx) :
    NegErr (op_UPDATE_VAR ctx) := by
  unfold op_UPDATE_VAR
  repeat (first | focus (simp only [negErr_pure, negErr_getS, negErr_modS, negErr_liftO, negErr_goto_fail, negErr_goto_finish, negErr_goto_undef, negErr_goto_nofuel, negErr_goto_err_undefined, negErr_goto_err_unexpected, negErr_GET_MEMNUM_INC, negErr_GET_UPDATE_VAR_TYPE_INC]; done) | apply negErr_times | apply negErr_while_data | apply NegErr.bind | intro _ | split | dsimp only)

theorem negErr_op_FAIL (ctx : Ctx) :
    NegErr (op_FAIL ctx) := by
  unfold op_FAIL
  repeat (first | focus (simp only [negErr_pure, negErr_getS, negErr_modS, negErr_liftO, negErr_goto_fail, negErr_goto_finish, negErr_goto_undef, negErr_goto_nofuel, negErr_goto_err_undefined, negErr_goto_err_unexpected, negErr_STACK_POP]; done) | apply negErr_times | apply negErr_while_data | apply NegErr.bind | intro _ | split | dsimp only)

theorem negErr_dispatch (ctx : Ctx) (op : OpCode) (sbegin : Int) :
    NegErr (dispatch ctx op sbegin) := by
  cases op <;>
  repeat (first | focus (simp only [dispatch, negErr_pure, negErr_getS, negErr_modS, negErr_liftO, negErr_goto_fail, negErr_goto_finish, negErr_goto_undef, negErr_goto_nofuel, negErr_goto_err_undefined, negErr_goto_err_unexpected, negErr_backref, negErr_op_ANYCHAR, negErr_op_ANYCHAR_ML, negErr_op_ANYCHAR_ML_STAR, negErr_op_ANYCHAR_ML_STAR_PEEK_NEXT, negErr_op_ANYCHAR_STAR, negErr_op_ANYCHAR_STAR_PEEK_NEXT, negErr_op_BACKREF_CHECK, negErr_op_BACKREF_CHECK_WITH_LEVEL, negErr_op_BACKREF_MULTI, negErr_op_BACKREF_MULTI_IC, negErr_op_BACKREF_N, negErr_op_BACKREF_N_IC, negErr_op_BACKREF_WITH_LEVEL, negErr_op_BEGIN_BUF, negErr_op_BEGIN_LINE, negErr_op_BEGIN_POSITION, negErr_op_CALL, negErr_op_CCLASS, negErr_op_CCLASS_MB, negErr_op_CCLASS_MB_NOT, negErr_op_CCLASS_MIX, negErr_op_CCLASS_MIX_NOT, negErr_op_CCLASS_NODE, negErr_op_CCLASS_NOT, negErr_op_EMPTY_CHECK_END, negErr_op_EMPTY_CHECK_END_MEMST, negErr_op_EMPTY_CHECK_END_MEMST_PUSH, negErr_op_EMPTY_CHECK_START, negErr_op_END_BUF, negErr_op_END_LINE, negErr_op_EXACT1, negErr_op_EXACT1_IC, negErr_op_EXACT2, negErr_op_EXACT3, negErr_op_EXACT4, negErr_op_EXACT5, negErr_op_EXACTMB2N, negErr_op_EXACTMB2N1, negErr_op_EXACTMB2N2, negErr_op_EXACTMB2N3, negErr_op_EXACTMB3N, negErr_op_EXACTMBN, negErr_op_EXACTN, negErr_op_EXACTN_IC, negErr_op_FAIL_LOOK_BEHIND_NOT, negErr_op_FAIL_PREC_READ_NOT, negErr_op_JUMP, negErr_op_LOOK_BEHIND, negErr_op_MEMORY_END, negErr_op_MEMORY_END_PUSH, negErr_op_MEMORY_END_PUSH_REC, negErr_op_MEMORY_END_REC, negErr_op_MEMORY_START, negErr_op_MEMORY_START_PUSH, negErr_op_NOT_WORD, negErr_op_NOT_WORD_BOUND, negErr_op_POP, negErr_op_POP_POS, negErr_op_POP_STOP_BT, negErr_op_PUSH, negErr_op_PUSH_IF_PEEK_NEXT, negErr_op_PUSH_LOOK_BEHIND_NOT, negErr_op_PUSH_OR_JUMP_EXACT1, negErr_op_PUSH_POS, negErr_op_PUSH_PREC_READ_NOT, negErr_op_PUSH_SAVE_VAL, negErr_op_PUSH_STOP_BT, negErr_op_REPEAT, negErr_op_REPEAT_INC, negErr_op_REPEAT_INC_NG, negErr_op_REPEAT_INC_NG_SG, negErr_op_REPEAT_INC_SG, negErr_op_REPEAT_NG, negErr_op_RETURN, negErr_op_SEMI_END_BUF, negErr_op_UPDATE_VAR, negErr_op_WORD, negErr_op_WORD_BEGIN, negErr_op_WORD_BOUND, negErr_op_WORD_END, negErr_set_sprev]; done) | apply NegErr.bind | intro _)


/-! ## The loop of `match_at` and what `OP_END` commits -/

theorem ErrNeg_fail : ErrNeg Exit.fail := by intro r h; cases h
theorem ErrNeg_finish : ErrNeg Exit.finish := by intro r h; cases h
theorem ErrNeg_undef : ErrNeg Exit.undef := by intro r h; cases h
theorem ErrNeg_nofuel : ErrNeg Exit.nofuel := by intro r h; cases h

/-- A property of the locals and of what `OP_END` wrote that every round of
the loop keeps holds when the loop is left through `finish`, and the loop is
left with a negative code when it is left by an error. -/
theorem match_at_loop_inv (ctx : Ctx) (I : MatchState → Prop) (P : MatchOut → Prop)
    (hstep : ∀ st out, I st → P out →
      (match_at_step ctx st out).sat (fun st1 out1 => I st1 ∧ P out1)
        (fun e _ out1 => ErrNeg e ∧ (e = Exit.finish → P out1))) :
    ∀ fuel st out, I st → P out →
      ErrNeg (match_at_loop ctx fuel st out).1 ∧
      ((match_at_loop ctx fuel st out).1 = Exit.finish →
        P (match_at_loop ctx fuel st out).2.2) := by
  intro fuel
  induction fuel with
  | zero => intro st out _ hP; exact ⟨ErrNeg_nofuel, fun h => by cases h⟩
  | succ k ih =>
    intro st out hI hP
    have h := hstep st out hI hP
    unfold match_at_loop
    cases hs : match_at_step ctx st out with
    | cont st1 out1 => rw [hs] at h; exact ih st1 out1 h.1 h.2
    | stop e st1 out1 => rw [hs] at h; exact h

theorem end_best_len_out (ctx : Ctx) (st : MatchState) (out : MatchOut) :
    ((end_best_len ctx st out).out = out ∨
      (end_best_len ctx st out).out = { out with best_len := ONIG_MISMATCH }) ∧
    ((end_best_len ctx st out).e = Exit.fail ∨ (end_best_len ctx st out).e = Exit.finish) ∧
    (end_best_len ctx st out).st = st := by
  unfold end_best_len
  repeat' split
  all_goals simp

theorem end_region_exit (ctx : Ctx) (st : MatchState) (out : MatchOut) :
    ErrNeg (end_region ctx st out).e := by
  unfold end_region
  simp only []
  repeat' split
  all_goals first
    | exact ErrNeg_undef
    | (rcases (end_best_len_out ctx _ _).2.1 with h | h <;> rw [h] <;>
        first | exact ErrNeg_fail | exact ErrNeg_finish)

theorem op_END_exit (ctx : Ctx) (st : MatchState) (out : MatchOut) :
    ErrNeg (op_END ctx st out).e := by
  unfold op_END
  simp only []
  repeat' split
  all_goals first
    | exact end_region_exit _ _ _
    | (rcases (end_best_len_out ctx _ _).2.1 with h | h <;> rw [h] <;>
        first | exact ErrNeg_fail | exact ErrNeg_finish)

/-- The code at `fail` does not go to `finish`. -/
theorem op_FAIL_not_finish (ctx : Ctx) (st st1 : MatchState) :
    op_FAIL ctx st ≠ Res.exit Exit.finish st1 := by
  intro h
  unfold op_FAIL STACK_POP at h
  simp only [bind, M.bind, getS, liftO, modS, goto] at h
  cases h1 : STACK_POP_loop ctx.reg.stack_pop_level st.stk st with
  | none => rw [h1] at h; cases h
  | some st2 =>
    rw [h1] at h
    simp only [] at h
    cases h2 : STACK_AT st2 st2.stk with
    | none => rw [h2] at h; cases h
    | some fr =>
      rw [h2] at h
      simp only [] at h
      cases hu : fr.u <;> rw [hu] at h <;> cases h

/-- After an arm that left the straight line: the loop goes on from the
frame that `fail` popped, or `match_at` is left. -/
theorem after_arm_sat (ctx : Ctx) (e : Exit) (st : MatchState) (out : MatchOut)
    (C : MatchState → MatchOut → Prop) (P : MatchOut → Prop)
    (hfail : e = Exit.fail → ∀ st1, op_FAIL ctx st = Res.ok () st1 → C st1 out)
    (hfin : e = Exit.finish → P out)
    (he : ErrNeg e) :
    (after_arm ctx e st out).sat C (fun e1 _ out1 => ErrNeg e1 ∧ (e1 = Exit.finish → P out1)) := by
  have h := (negErr_op_FAIL ctx).run st
  cases e with
  | fail =>
    unfold after_arm
    simp only []
    cases hf : op_FAIL ctx st with
    | ok a st1 => exact hfail rfl st1 hf
    | exit e1 st1 =>
      rw [hf] at h
      refine ⟨h, fun h1 => ?_⟩
      subst h1
      exact absurd hf (op_FAIL_not_finish ctx st st1)
  | finish => exact ⟨he, fun _ => hfin rfl⟩
  | err r => exact ⟨he, fun h1 => by cases h1⟩
  | undef => exact ⟨he, fun h1 => by cases h1⟩
  | nofuel => exact ⟨he, fun h1 => by cases h1⟩

/-- A property of what `OP_END` wrote that the arm `OP_END` keeps is kept by
every round of the loop. -/
theorem match_at_step_out (ctx : Ctx) (P : MatchOut → Prop)
    (hend : ∀ st out, P out → (op_END ctx st out).e ≠ Exit.undef →
      P (op_END ctx st out).out) (st : MatchState) (out : MatchOut)
    (hP : P out) :
    (match_at_step ctx st out).sat (fun _ out1 => True ∧ P out1)
      (fun e _ out1 => ErrNeg e ∧ (e = Exit.finish → P out1)) := by
  unfold match_at_step
  simp only []
  split
  · exact ⟨ErrNeg_undef, fun h => by cases h⟩
  · split
    · refine ⟨?_, fun h => by cases h⟩
      intro r h; cases h; decide
    · apply after_arm_sat
      · intro h1 st1 _; exact ⟨trivial, hend _ _ hP (by rw [h1]; intro h2; cases h2)⟩
      · intro h1; exact hend _ _ hP (by rw [h1]; intro h2; cases h2)
      · exact op_END_exit _ _ _
    · rename_i op _ _
      have hd := (negErr_dispatch ctx op st.s).run { st with p := st.p + 1 }
      cases hdp : dispatch ctx op st.s { st with p := st.p + 1 } with
      | ok a st1 => exact ⟨trivial, hP⟩
      | exit e st1 =>
        rw [hdp] at hd
        apply after_arm_sat
        · intro _ st2 _; exact ⟨trivial, hP⟩
        · intro _; exact hP
        · exact hd


/-! ## The region that `OP_END` commits -/

theorem getI_setI_ne {α : Type} {l l1 : List α} {i j : Int} {v : α}
    (h : setI l i v = some l1) (hij : j ≠ i) : getI l1 j = getI l j := by
  unfold setI at h
  split at h
  · cases h
    unfold getI
    split
    · rename_i h1 h2
      have : i.toNat ≠ j.toNat := by omega
      simp [List.getElem?_set_ne this]
    · rfl
  · cases h

theorem getI_setI_eq {α : Type} {l l1 : List α} {i : Int} {v : α}
    (h : setI l i v = some l1) : getI l1 i = some v := by
  unfold setI at h
  split at h
  · cases h
    rename_i h1
    unfold getI
    simp [h1.1, h1.2]
  · cases h

/-- The loop over the groups writes the entries `i .. i + n - 1` as `EntryOf`
says and leaves the entries below `i` alone. -/
theorem end_region_loop_spec (ctx : Ctx) (st : MatchState) :
    ∀ (n : Nat) (i : Int) (r r1 : OnigRegion), end_region_loop ctx st n i r = some r1 →
      (∀ j, j < i → getI r1.beg j = getI r.beg j ∧ getI r1.end_ j = getI r.end_ j) ∧
      (∀ j, i ≤ j → j < i + n → EntryOf ctx st j (RegionArg.entry (.onig r1) j)) := by
  intro n
  induction n with
  | zero =>
    intro i r r1 h
    unfold end_region_loop at h
    cases h
    exact ⟨fun j _ => ⟨rfl, rfl⟩, fun j h1 h2 => by omega⟩
  | succ k ih =>
    intro i r r1 h
    unfold end_region_loop at h
    cases he : ptr_get st.mem_end_stk i with
    | none => rw [he] at h; cases h
    | some e =>
      rw [he] at h
      simp only [] at h
      by_cases hinv : e ≠ INVALID_STACK_INDEX
      · rw [if_pos hinv] at h
        cases hps : mem_pstart ctx st i with
        | none => rw [hps] at h; cases h
        | some ps =>
          cases hpe : mem_pend ctx st i with
          | none => rw [hps, hpe] at h; cases h
          | some pe =>
            rw [hps, hpe] at h
            simp only [] at h
            cases hb : setI r.beg i (ps - ctx.x.str) with
            | none => rw [hb] at h; cases h
            | some b =>
              cases hee : setI r.end_ i (pe - ctx.x.str) with
              | none => rw [hb, hee] at h; cases h
              | some e1 =>
                rw [hb, hee] at h
                simp only [] at h
                have := ih (i + 1) _ r1 h
                refine ⟨fun j hj => ?_, fun j h1 h2 => ?_⟩
                · have h3 := this.1 j (by omega)
                  simp only [] at h3
                  rw [h3.1, h3.2, getI_setI_ne hb (by omega), getI_setI_ne hee (by omega)]
                  exact ⟨rfl, rfl⟩
                · by_cases hji : j = i
                  · subst hji
                    have h3 := this.1 j (by omega)
                    simp only [] at h3
                    unfold RegionArg.entry
                    simp only []
                    rw [h3.1, h3.2, getI_setI_eq hb, getI_setI_eq hee]
                    refine ⟨fun h4 => ?_, fun e2 h4 h5 => ⟨ps, pe, hps, hpe, rfl⟩⟩
                    rw [he] at h4
                    cases h4
                    exact absurd rfl hinv
                  · exact this.2 j (by omega) (by push_cast; omega)
      · rw [if_neg hinv] at h
        cases hb : setI r.beg i ONIG_REGION_NOTPOS with
        | none => rw [hb] at h; cases h
        | some b =>
          cases hee : setI r.end_ i ONIG_REGION_NOTPOS with
          | none => rw [hb, hee] at h; cases h
          | some e1 =>
            rw [hb, hee] at h
            simp only [] at h
            have := ih (i + 1) _ r1 h
            refine ⟨fun j hj => ?_, fun j h1 h2 => ?_⟩
            · have h3 := this.1 j (by omega)
              simp only [] at h3
              rw [h3.1, h3.2, getI_setI_ne hb (by omega), getI_setI_ne hee (by omega)]
              exact ⟨rfl, rfl⟩
            · by_cases hji : j = i
              · subst hji
                have h3 := this.1 j (by omega)
                simp only [] at h3
                unfold RegionArg.entry
                simp only []
                rw [h3.1, h3.2, getI_setI_eq hb, getI_setI_eq hee]
                refine ⟨fun _ => rfl, fun e2 h4 h5 => ?_⟩
                rw [he] at h4
                cases h4
                exact absurd h5 hinv
              · exact this.2 j (by omega) (by push_cast; omega)

/-- What `OP_END` commits to an `OnigRegion`: entry 0 is the pair of the
offsets of `keep` and `s`, the entry of group `i` is as `EntryOf` says. -/
theorem end_commit_spec (ctx : Ctx) (st : MatchState) (r r1 : OnigRegion)
    (h : end_commit ctx st (.onig r) = some (.onig r1)) :
    getI r1.beg 0 = some (st.keep - ctx.x.str) ∧ getI r1.end_ 0 = some (st.s - ctx.x.str) ∧
    ∀ j : Int, 1 ≤ j → j ≤ (ctx.reg.num_mem : Int) →
      EntryOf ctx st j (RegionArg.entry (.onig r1) j) := by
  unfold end_commit at h
  simp only [] at h
  split at h
  · cases h
  · cases hb : setI r.beg 0 (st.keep - ctx.x.str) with
    | none => rw [hb] at h; cases h
    | some b =>
      cases he : setI r.end_ 0 (st.s - ctx.x.str) with
      | none => rw [hb, he] at h; cases h
      | some e =>
        rw [hb, he] at h
        simp only [] at h
        cases hl : end_region_loop ctx st ctx.reg.num_mem 1 { r with beg := b, end_ := e } with
        | none => rw [hl] at h; cases h
        | some r2 =>
          rw [hl] at h
          simp only [] at h
          have hs := end_region_loop_spec ctx st _ _ _ _ hl
          have h0 := hs.1 0 (by omega)
          simp only [] at h0
          rw [getI_setI_eq hb, getI_setI_eq he] at h0
          have key : r1.beg = r2.beg ∧ r1.end_ = r2.end_ := by
            split at h
            · split at h
              · cases h; exact ⟨rfl, rfl⟩
              · cases h
            · cases h; exact ⟨rfl, rfl⟩
          refine ⟨by rw [key.1]; exact h0.1, by rw [key.2]; exact h0.2, fun j h1 h2 => ?_⟩
          have h3 := hs.2 j h1 (by omega)
          unfold RegionArg.entry at h3 ⊢
          simp only [] at h3 ⊢
          rw [key.1, key.2]
          exact h3

theorem end_commit_onig (ctx : Ctx) (st : MatchState) (r : OnigRegion) (region1 : RegionArg)
    (h : end_commit ctx st (.onig r) = some region1) : ∃ r1, region1 = .onig r1 := by
  unfold end_commit at h
  simp only [] at h
  repeat' split at h
  all_goals first | (cases h; done) | (cases h; exact ⟨_, rfl⟩)

theorem Committed_end_best_len (ctx : Ctx) (st : MatchState) (out : MatchOut)
    (A : Int → Int → Int → Prop) (h : Committed A out) :
    Committed A (end_best_len ctx st out).out := by
  rcases (end_best_len_out ctx st out).1 with h1 | h1 <;> rw [h1]
  · exact h
  · intro h2
    simp [ONIG_MISMATCH] at h2

theorem end_commit_posix (ctx : Ctx) (st : MatchState) (rmt : List (Int × Int))
    (region1 : RegionArg) (h : end_commit ctx st (.posix rmt) = some region1) :
    ∃ rmt1, region1 = .posix rmt1 := by
  unfold end_commit at h
  simp only [] at h
  split at h
  · split at h
    · cases hl : end_posix_loop ctx st ctx.reg.num_mem 1 _ with
      | none => rw [hl] at h; cases h
      | some r => rw [hl] at h; cases h; exact ⟨_, rfl⟩
    · cases h
  · cases h

theorem end_region_committed (ctx : Ctx) (st : MatchState) (out : MatchOut)
    (A : Int → Int → Int → Prop)
    (hA : A out.best_len ((if st.keep > st.s then st.s else st.keep) - ctx.x.str)
      (st.s - ctx.x.str))
    (hne : (end_region ctx st out).e ≠ Exit.undef) :
    Committed A (end_region ctx st out).out := by
  unfold end_region at hne ⊢
  have hk : ∃ st1 : MatchState, st1 = (if st.keep > st.s then { st with keep := st.s } else st) ∧
      st1.s = st.s ∧ st1.keep = (if st.keep > st.s then st.s else st.keep) := by
    refine ⟨_, rfl, ?_, ?_⟩ <;> split <;> rfl
  obtain ⟨st1, hst1, hs1, hk1⟩ := hk
  simp only [] at hne ⊢
  rw [← hst1] at hne ⊢
  cases hr : out.region with
  | null =>
    simp only []
    apply Committed_end_best_len
    intro _ rg h3
    rw [hr] at h3
    cases h3
  | posix rmt =>
    simp only []
    rw [hr] at hne
    simp only [] at hne
    cases hc : end_commit ctx st1 (.posix rmt) with
    | none => rw [hc] at hne; exact absurd rfl hne
    | some region1 =>
      simp only []
      apply Committed_end_best_len
      obtain ⟨rmt1, h4⟩ := end_commit_posix ctx st1 rmt region1 hc
      intro _ rg h3
      rw [h4] at h3
      cases h3
  | onig r =>
    simp only []
    rw [hr] at hne
    simp only [] at hne
    cases hc : end_commit ctx st1 (.onig r) with
    | none => rw [hc] at hne; exact absurd rfl hne
    | some region1 =>
      simp only []
      apply Committed_end_best_len
      obtain ⟨r1, h4⟩ := end_commit_onig ctx st1 r region1 hc
      subst h4
      have hs := end_commit_spec ctx st1 r r1 hc
      intro _ rg h3
      cases h3
      refine ⟨_, _, hs.1, hs.2.1, ?_⟩
      rw [hk1, hs1]
      exact hA

/-- The arm `OP_END` keeps `Committed`: when it commits, entry 0 is the pair of
the offsets of `keep` (lowered to `s`) and `s`. -/
theorem op_END_committed (ctx : Ctx) (st : MatchState) (out : MatchOut)
    (A : Int → Int → Int → Prop)
    (hA : A (st.s - ctx.sstart) ((if st.keep > st.s then st.s else st.keep) - ctx.x.str)
      (st.s - ctx.x.str))
    (hP : Committed A out) (hne : (op_END ctx st out).e ≠ Exit.undef) :
    Committed A (op_END ctx st out).out := by
  unfold op_END at hne ⊢
  simp only [] at hne ⊢
  by_cases h1 : st.s - ctx.sstart > out.best_len
  · rw [if_pos h1] at hne ⊢
    by_cases h2 : IS_FIND_LONGEST ctx.reg.options = true ∧
        ¬ (st.s - ctx.sstart > out.msa_best_len)
    · rw [if_pos h2]
      exact Committed_end_best_len ctx st out A hP
    · rw [if_neg h2] at hne ⊢
      exact end_region_committed ctx st _ A hA hne
  · rw [if_neg h1]
    exact Committed_end_best_len ctx st out A hP


/-! ## What a successful `match_at` leaves in the region -/

theorem onig_region_resize_ok (r : OnigRegion) (n : Int) : (onig_region_resize r n).1 = 0 := by
  unfold onig_region_resize
  simp only []
  repeat' split
  all_goals rfl

theorem onig_region_resize_clear_ok (r : OnigRegion) (n : Int) :
    (onig_region_resize_clear r n).1 = 0 := by
  unfold onig_region_resize_clear
  simp only []
  split
  · rename_i h; exact absurd (onig_region_resize_ok r n) h
  · rfl

/-- A relation `A` between the length of the match and entry 0 that holds at
every `OP_END` holds for the value and the region that `match_at` returns. -/
theorem match_at_committed (L : Env) (fuel : Nat) (reg : regex_t) (x : Subject)
    (rr sstart sprev : Int) (msa msa1 : OnigMatchArg) (r : Int)
    (A : Int → Int → Int → Prop)
    (hA : ∀ st : MatchState, A (st.s - sstart)
      ((if st.keep > st.s then st.s else st.keep) - x.str) (st.s - x.str))
    (h : match_at L fuel reg x rr sstart sprev msa = .done (r, msa1)) (hr : 0 ≤ r) :
    ∀ rg, msa1.region = RegionArg.onig rg →
      ∃ b e, getI rg.beg 0 = some b ∧ getI rg.end_ 0 = some e ∧ A r b e := by
  unfold match_at at h
  simp only [] at h
  cases h0 : STACK_PUSH_ENSURED STK_ALT FinishCode (match_at_init reg rr sstart sprev msa) with
  | exit e st => rw [h0] at h; cases h
  | ok a st0 =>
    rw [h0] at h
    simp only [] at h
    generalize hctx : Ctx.mk reg x sstart msa.options msa.start L = ctx at h
    generalize hout : MatchOut.mk ONIG_MISMATCH msa.best_len msa.best_s msa.region = out0 at h
    have hinv := match_at_loop_inv ctx (fun _ => True) (Committed A)
      (fun st out _ hP => match_at_step_out ctx (Committed A)
        (fun st1 out1 hP1 hne => op_END_committed ctx st1 out1 A
          (by rw [← hctx]; exact hA st1) hP1 hne) st out hP)
      fuel st0 out0 trivial
      (by rw [← hout]; intro h1; simp [ONIG_MISMATCH] at h1)
    rcases hl : match_at_loop ctx fuel st0 out0 with ⟨e, st, out⟩
    rw [hl] at h hinv
    cases e with
    | finish =>
      simp only [] at h
      cases h
      exact hinv.2 rfl hr
    | err r1 =>
      simp only [] at h
      cases h
      have := hinv.1 r rfl
      omega
    | fail => cases h
    | undef => cases h
    | nofuel => cases h

theorem region_prepare_ok (reg : regex_t) (region : RegionArg) (option : Nat) (r : Int)
    (region0 : RegionArg) (h : region_prepare reg region option = some (r, region0)) :
    r = 0 := by
  unfold region_prepare at h
  cases region with
  | null => simp only [] at h; cases h; rfl
  | posix rmt =>
    simp only [] at h
    split at h
    · cases h
    · cases h; rfl
  | onig r2 =>
    simp only [] at h
    split at h
    · cases h; exact onig_region_resize_clear_ok _ _
    · cases h; rfl

/-- When `onig_match` returns a value that is not negative, entry 0 of the
`OnigRegion` ends at `at - str` plus that value and does not begin after
its end. -/
theorem onig_match_entry0 (L : Env) (fuel : Nat) (reg : regex_t) (x : Subject) (at_ : Int)
    (region : RegionArg) (option : Nat) (r : Int) (rg : OnigRegion)
    (h : onig_match L fuel reg x at_ region option = .done (r, .onig rg)) (hr : 0 ≤ r) :
    ∃ b e, getI rg.beg 0 = some b ∧ getI rg.end_ 0 = some e ∧
      e = at_ - x.str + r ∧ b ≤ e := by
  unfold onig_match at h
  cases hp : region_prepare reg region option with
  | none => rw [hp] at h; cases h
  | some v =>
    obtain ⟨r0, region0⟩ := v
    rw [hp] at h
    dsimp only at h
    rw [if_pos (region_prepare_ok reg region option r0 region0 hp)] at h
    split at h
    · cases h
      unfold ONIGERR_INVALID_WIDE_CHAR_VALUE at hr
      omega
    · cases hm : match_at L fuel reg x x.end_ at_ (reg.enc.prev_char_head x x.str at_)
          (MATCH_ARG_INIT reg option region0 at_) with
      | done v =>
        rw [hm] at h
        obtain ⟨r1, msa1⟩ := v
        simp only [Outcome.done.injEq, Prod.mk.injEq] at h
        obtain ⟨h1, h2⟩ := h
        subst h1
        exact match_at_committed L fuel reg x x.end_ at_ _ _ msa1 r1
          (fun n b e => e = at_ - x.str + n ∧ b ≤ e)
          (fun st => ⟨by omega, by split <;> omega⟩) hm hr rg h2
      | undef => rw [hm] at h; cases h
      | nofuel => rw [hm] at h; cases h


/-! ## The plain forward search -/

/-- What `MATCH_AND_RETURN_CHECK` does with the value of `match_at`. -/
theorem MATCH_AND_RETURN_CHECK_eq (L : Env) (fuel : Nat) (reg : regex_t) (x : Subject) (upper : Int)
    (ss : SearchState) (r : Int) (msa1 : OnigMatchArg)
    (h : match_at L fuel reg x upper ss.s ss.prev ss.msa = .done (r, msa1)) :
    MATCH_AND_RETURN_CHECK L fuel reg x upper ss =
      if r ≠ ONIG_MISMATCH then
        if r ≥ 0 then
          if !IS_FIND_LONGEST reg.options then
            .done (.to_match { ss with msa := msa1, calls := ss.calls ++ [ss.s] })
          else .done (.next { ss with msa := msa1, calls := ss.calls ++ [ss.s] })
        else .done (.to_finish r { ss with msa := msa1, calls := ss.calls ++ [ss.s] })
      else .done (.next { ss with msa := msa1, calls := ss.calls ++ [ss.s] }) := by
  unfold MATCH_AND_RETURN_CHECK
  rw [h]

theorem forward_loop_succ (L : Env) (fuel : Nat) (reg : regex_t) (x : Subject)
    (orig_range range : Int) (k : Nat) (ss : SearchState) :
    forward_loop L fuel reg x orig_range range (k + 1) ss =
      match MATCH_AND_RETURN_CHECK L fuel reg x orig_range ss with
      | .done (.next ss1) =>
        match search_advance reg x ss1 with
        | none => .undef
        | some ss2 =>
          if ss2.s < range then forward_loop L fuel reg x orig_range range k ss2
          else .done (.next ss2)
      | other => other := rfl

theorem search_prev_shift (p0 s0 : Int) (j : Nat) :
    search_prev s0 (s0 + 1) j = search_prev p0 s0 (j + 1) := by
  unfold search_prev
  by_cases h : j = 0
  · subst h; simp
  · rw [if_neg h, if_neg (by omega)]
    push_cast
    ring

theorem pos_shift (s0 : Int) (j : Nat) : s0 + 1 + (j : Int) = s0 + ((j + 1 : Nat) : Int) := by
  push_cast
  ring

/-- The forward loop over a single-byte encoding, when the attempts before
the attempt `k` all gave `ONIG_MISMATCH`: what the attempt `k` decides. -/
theorem forward_loop_run (L : Env) (fuel : Nat) (reg : regex_t) (x : Subject) (orig_range range : Int)
    (henc : ∀ p, reg.enc.mbc_enc_len x p = some 1)
    (hFL : IS_FIND_LONGEST reg.options = false) :
    ∀ (k n : Nat) (ss : SearchState) (msas : Nat → OnigMatchArg) (rs : Nat → Int),
      k < n → msas 0 = ss.msa →
      (∀ j, j ≤ k → match_at L fuel reg x orig_range (ss.s + j) (search_prev ss.prev ss.s j)
        (msas j) = .done (rs j, msas (j + 1))) →
      (∀ j, j < k → rs j = ONIG_MISMATCH) → ss.s + k < range →
      ∃ calls, forward_loop L fuel reg x orig_range range n ss =
        if rs k = ONIG_MISMATCH then
          if ss.s + k + 1 < range then
            forward_loop L fuel reg x orig_range range (n - k - 1)
              ⟨ss.s + k + 1, ss.s + k, msas (k + 1), calls⟩
          else .done (.next ⟨ss.s + k + 1, ss.s + k, msas (k + 1), calls⟩)
        else if rs k ≥ 0 then
          .done (.to_match ⟨ss.s + k, search_prev ss.prev ss.s k, msas (k + 1), calls⟩)
        else
          .done (.to_finish (rs k) ⟨ss.s + k, search_prev ss.prev ss.s k, msas (k + 1), calls⟩) := by
  intro k
  induction k with
  | zero =>
    intro n ss msas rs hn h0 hat hmis hlt
    have h := hat 0 (Nat.le_refl 0)
    simp only [Nat.cast_zero, add_zero, search_prev, if_true] at h
    rw [h0] at h
    have hm := MATCH_AND_RETURN_CHECK_eq L fuel reg x orig_range ss _ _ h
    obtain ⟨m, rfl⟩ : ∃ m, n = m + 1 := ⟨n - 1, by omega⟩
    refine ⟨ss.calls ++ [ss.s], ?_⟩
    rw [forward_loop_succ, hm]
    simp only [hFL, Bool.not_false, if_true, Nat.cast_zero, add_zero, search_prev]
    by_cases hr : rs 0 = ONIG_MISMATCH
    · simp only [hr, ne_eq, not_true_eq_false, if_false, if_true, search_advance, henc,
        Option.map_some']
      simp only [Nat.add_sub_cancel, Nat.sub_zero]
    · simp only [hr, ne_eq, not_false_eq_true, if_true, if_false]
      by_cases hp : rs 0 ≥ 0
      · simp only [hp, if_true]
      · simp only [hp, if_false]
  | succ k ih =>
    intro n ss msas rs hn h0 hat hmis hlt
    have h := hat 0 (Nat.zero_le _)
    simp only [Nat.cast_zero, add_zero, search_prev, if_true] at h
    rw [h0] at h
    have hr0 : rs 0 = ONIG_MISMATCH := hmis 0 (Nat.succ_pos k)
    rw [hr0] at h
    have hm := MATCH_AND_RETURN_CHECK_eq L fuel reg x orig_range ss _ _ h
    obtain ⟨m, rfl⟩ : ∃ m, n = m + 1 := ⟨n - 1, by omega⟩
    have hlt1 : ss.s + 1 < range := by push_cast at hlt; omega
    obtain ⟨calls, hc⟩ := ih m ⟨ss.s + 1, ss.s, msas 1, ss.calls ++ [ss.s]⟩
      (fun j => msas (j + 1)) (fun j => rs (j + 1)) (by omega) rfl
      (fun j hj => by
        show match_at L fuel reg x orig_range (ss.s + 1 + (j : Int))
          (search_prev ss.s (ss.s + 1) j) (msas (j + 1)) = _
        rw [search_prev_shift ss.prev, pos_shift]
        exact hat (j + 1) (by omega))
      (fun j hj => hmis (j + 1) (by omega))
      (by show ss.s + 1 + (k : Int) < range; push_cast at hlt; omega)
    refine ⟨calls, ?_⟩
    rw [forward_loop_succ, hm]
    simp only [ne_eq, not_true_eq_false, if_false, search_advance, henc, Option.map_some',
      hlt1, if_true]
    rw [hc]
    simp only [search_prev_shift ss.prev, pos_shift]
    have e4 : m - k - 1 = m + 1 - (k + 1) - 1 := by omega
    rw [e4]

/-- The plain forward search over a single-byte encoding, when the attempts
before the attempt `k` all gave `ONIG_MISMATCH`: a value that is not negative
at `k` is a match at `s + k`, another code but `ONIG_MISMATCH` is returned,
and `ONIG_MISMATCH` at `s + k = range` is the mismatch of the search. -/
theorem forward_plain_run (L : Env) (fuel : Nat) (reg : regex_t) (x : Subject) (orig_range range : Int)
    (henc : ∀ p, reg.enc.mbc_enc_len x p = some 1)
    (hFL : IS_FIND_LONGEST reg.options = false)
    (k : Nat) (ss : SearchState) (msas : Nat → OnigMatchArg) (rs : Nat → Int)
    (hlt : ss.s < range) (hk : ss.s + k ≤ range) (h0 : msas 0 = ss.msa)
    (hat : ∀ j, j ≤ k → match_at L fuel reg x orig_range (ss.s + j)
      (search_prev ss.prev ss.s j) (msas j) = .done (rs j, msas (j + 1)))
    (hmis : ∀ j, j < k → rs j = ONIG_MISMATCH)
    (hend : rs k = ONIG_MISMATCH → ss.s + k = range) :
    ∃ ssk : SearchState, ssk.s = ss.s + k ∧ ssk.msa = msas (k + 1) ∧
      forward_plain L fuel reg x orig_range range ss =
        .done (if rs k = ONIG_MISMATCH then .to_mismatch ssk
          else if rs k ≥ 0 then .to_match ssk else .to_finish (rs k) ssk) := by
  by_cases hin : ss.s + k < range
  · have hne : rs k ≠ ONIG_MISMATCH := fun h => by have := hend h; omega
    obtain ⟨calls, hc⟩ := forward_loop_run L fuel reg x orig_range range henc hFL k
      ((range - ss.s).toNat + 1) ss msas rs (by omega) h0 hat hmis hin
    refine ⟨⟨ss.s + k, search_prev ss.prev ss.s k, msas (k + 1), calls⟩, rfl, rfl, ?_⟩
    unfold forward_plain forward_retry
    rw [hc]
    simp only [hne, if_false]
    by_cases hp : rs k ≥ 0
    · simp only [hp, if_true]
    · simp only [hp, if_false]
  · have hkr : ss.s + k = range := by omega
    obtain ⟨k1, rfl⟩ : ∃ k1, k = k1 + 1 := ⟨k - 1, by omega⟩
    obtain ⟨calls, hc⟩ := forward_loop_run L fuel reg x orig_range range henc hFL k1
      ((range - ss.s).toNat + 1) ss msas rs (by omega) h0
      (fun j hj => hat j (by omega)) (fun j hj => hmis j (by omega))
      (by push_cast at hkr; omega)
    have hr1 : rs k1 = ONIG_MISMATCH := hmis k1 (by omega)
    have hnl : ¬ (ss.s + (k1 : Int) + 1 < range) := by push_cast at hkr; omega
    rw [hr1] at hc
    simp only [if_true, hnl, if_false] at hc
    have hk := hat (k1 + 1) (Nat.le_refl _)
    have hs : ss.s + ((k1 + 1 : Nat) : Int) = ss.s + (k1 : Int) + 1 := by push_cast; ring
    have hpv : search_prev ss.prev ss.s (k1 + 1) = ss.s + (k1 : Int) := by
      unfold search_prev
      rw [if_neg (by omega)]
      push_cast
      ring
    rw [hs, hpv] at hk
    have hm := MATCH_AND_RETURN_CHECK_eq L fuel reg x orig_range
      ⟨ss.s + (k1 : Int) + 1, ss.s + (k1 : Int), msas (k1 + 1), calls⟩ _ _ hk
    refine ⟨⟨ss.s + (k1 : Int) + 1, ss.s + (k1 : Int), msas (k1 + 1 + 1),
      calls ++ [ss.s + (k1 : Int) + 1]⟩, hs.symm, rfl, ?_⟩
    unfold forward_plain forward_retry
    rw [hc]
    have hsr : ss.s + (k1 : Int) + 1 = range := by push_cast at hkr; omega
    simp only [hsr, if_true]
    rw [hsr] at hm
    rw [hm]
    simp only [hFL, Bool.not_false, if_true]
    by_cases hr : rs (k1 + 1) = ONIG_MISMATCH
    · simp only [hr, ne_eq, not_true_eq_false, if_false, if_true]
    · simp only [hr, ne_eq, not_false_eq_true, if_true, if_false]
      by_cases hp : rs (k1 + 1) ≥ 0
      · simp only [hp, if_true]
      · simp only [hp, if_false]


/-! ## `onig_search` down to the search loops -/

/-- With a region that was prepared, a start inside the subject and a valid
subject, `onig_search` is the search that the anchors leave. -/
theorem onig_search_run_search (L : Env) (fuel : Nat) (reg : regex_t) (x : Subject)
    (start range : Int) (region : RegionArg) (option : Nat) (region0 : RegionArg)
    (start1 range1 : Int)
    (hprep : region_prepare reg region option = some (0, region0))
    (hs : x.str ≤ start) (he : start ≤ x.end_)
    (hv : ¬ (ONIG_IS_OPTION_ON option ONIG_OPTION_CHECK_VALIDITY_OF_STRING = true ∧
      ¬ reg.enc.is_valid_mbc_string x = true))
    (ha : anchor_optimize reg x start range = some (.search start1 range1)) :
    onig_search_run L fuel reg x start range region option =
      match (if range1 > start1 then
          forward_search L fuel reg x range start1 range1
            ⟨start1, 0, MATCH_ARG_INIT reg option region0 start, []⟩
        else
          backward_search L fuel reg x start start1 range1
            ⟨start1, 0, MATCH_ARG_INIT reg option region0 start, []⟩) with
      | .done g => .done (search_finish reg x option g)
      | .undef => .undef
      | .nofuel => .nofuel := by
  unfold onig_search_run
  rw [hprep]
  dsimp only
  rw [if_neg (by simp), if_neg (by omega), if_neg hv, ha]
  try rfl

/-- Without anchors and on a subject that is not empty the anchors leave
the search as it is. -/
theorem anchor_optimize_none (reg : regex_t) (x : Subject) (start range : Int)
    (hanc : reg.anchor = 0) (hne : x.str < x.end_) :
    anchor_optimize reg x start range = some (.search start range) := by
  unfold anchor_optimize
  rw [if_neg (by simp [hanc]), if_neg (by omega)]

/-- Without prefix optimisation the forward search is the plain one. -/
theorem forward_search_plain (L : Env) (fuel : Nat) (reg : regex_t) (x : Subject)
    (orig_range start range s p : Int) (msa : OnigMatchArg) (calls : List Int)
    (hopt : reg.optimize = ONIG_OPTIMIZE_NONE) :
    forward_search L fuel reg x orig_range start range ⟨s, p, msa, calls⟩ =
      forward_plain L fuel reg x orig_range range ⟨s, forward_prev reg x s, msa, calls⟩ := by
  unfold forward_search
  dsimp only
  rw [if_neg (by simp [hopt])]
  rfl

/-- The value and the region of `onig_search` when the record of the run is
dropped. -/
theorem onig_search_of_run (L : Env) (fuel : Nat) (reg : regex_t) (x : Subject)
    (start range : Int) (region : RegionArg) (option : Nat) (res : SearchResult)
    (h : onig_search_run L fuel reg x start range region option = .done res) :
    onig_search L fuel reg x start range region option = .done (res.r, res.region) := by
  unfold onig_search
  rw [h]

/-- The plain forward search inside `onig_search`: no prefix optimisation, no
anchors, a valid subject that is not empty. -/
theorem onig_search_run_plain_forward (L : Env) (fuel : Nat) (reg : regex_t) (x : Subject)
    (start range : Int) (region region0 : RegionArg) (option : Nat) (g : SearchGoto)
    (hopt : reg.optimize = ONIG_OPTIMIZE_NONE) (hanc : reg.anchor = 0)
    (hvalid : reg.enc.is_valid_mbc_string x = true)
    (hprep : region_prepare reg region option = some (0, region0))
    (h1 : x.str ≤ start) (h2 : start < range) (h3 : start < x.end_)
    (hg : forward_plain L fuel reg x range range
      ⟨start, forward_prev reg x start, MATCH_ARG_INIT reg option region0 start, []⟩ = .done g) :
    onig_search_run L fuel reg x start range region option =
      .done (search_finish reg x option g) := by
  rw [onig_search_run_search L fuel reg x start range region option region0
    start range hprep h1 (by omega) (by simp [hvalid])
    (anchor_optimize_none reg x start range hanc (by omega)),
    if_pos h2, forward_search_plain _ _ _ _ _ _ _ _ _ _ _ hopt, hg]

/-- The plain forward search inside `onig_search`, as an equation. -/
theorem onig_search_run_plain_forward_eq (L : Env) (fuel : Nat) (reg : regex_t) (x : Subject)
    (start range : Int) (region region0 : RegionArg) (option : Nat)
    (hopt : reg.optimize = ONIG_OPTIMIZE_NONE) (hanc : reg.anchor = 0)
    (hvalid : reg.enc.is_valid_mbc_string x = true)
    (hprep : region_prepare reg region option = some (0, region0))
    (h1 : x.str ≤ start) (h2 : start < range) (h3 : start < x.end_) :
    onig_search_run L fuel reg x start range region option =
      match forward_plain L fuel reg x range range
        ⟨start, forward_prev reg x start, MATCH_ARG_INIT reg option region0 start, []⟩ with
      | .done g => .done (search_finish reg x option g)
      | .undef => .undef
      | .nofuel => .nofuel := by
  rw [onig_search_run_search L fuel reg x start range region option region0
    start range hprep h1 (by omega) (by simp [hvalid])
    (anchor_optimize_none reg x start range hanc (by omega)),
    if_pos h2, forward_search_plain _ _ _ _ _ _ _ _ _ _ _ hopt]

/-- When `onig_search` returns, the run returned the same value and region. -/
theorem onig_search_run_of_search (L : Env) (fuel : Nat) (reg : regex_t) (x : Subject)
    (start range : Int) (region : RegionArg) (option : Nat) (r : Int) (region1 : RegionArg)
    (h : onig_search L fuel reg x start range region option = .done (r, region1)) :
    ∃ res, onig_search_run L fuel reg x start range region option = .done res ∧
      res.r = r ∧ res.region = region1 := by
  unfold onig_search at h
  cases hr : onig_search_run L fuel reg x start range region option with
  | done res =>
    rw [hr] at h
    simp only [Outcome.done.injEq, Prod.mk.injEq] at h
    exact ⟨res, rfl, h.1, h.2⟩
  | undef => rw [hr] at h; cases h
  | nofuel => rw [hr] at h; cases h


/-! ## Where the search loops call `match_at` -/

/-- What `MATCH_AND_RETURN_CHECK` leaves when it returns: the position is
kept, the call is recorded, the jump is not to `mismatch`, and a code that
goes to `finish` is negative. -/
theorem MATCH_AND_RETURN_CHECK_inv (L : Env) (fuel : Nat) (reg : regex_t) (x : Subject) (upper : Int)
    (ss : SearchState) (g : SearchGoto)
    (h : MATCH_AND_RETURN_CHECK L fuel reg x upper ss = .done g) :
    g.state.s = ss.s ∧ g.state.prev = ss.prev ∧ g.state.calls = ss.calls ++ [ss.s] ∧
    g.from_ ss.s ∧ (∀ ss1, g ≠ .to_mismatch ss1) := by
  unfold MATCH_AND_RETURN_CHECK at h
  cases hm : match_at L fuel reg x upper ss.s ss.prev ss.msa with
  | undef => rw [hm] at h; cases h
  | nofuel => rw [hm] at h; cases h
  | done v =>
    obtain ⟨r, msa1⟩ := v
    rw [hm] at h
    dsimp only at h
    by_cases h1 : r ≠ ONIG_MISMATCH
    · rw [if_pos h1] at h
      by_cases h2 : r ≥ 0
      · rw [if_pos h2] at h
        by_cases h3 : (!IS_FIND_LONGEST reg.options) = true
        · rw [if_pos h3] at h
          cases h
          exact ⟨rfl, rfl, rfl, le_refl _, fun _ h4 => by cases h4⟩
        · rw [if_neg h3] at h
          cases h
          exact ⟨rfl, rfl, rfl, le_refl _, fun _ h4 => by cases h4⟩
      · rw [if_neg h2] at h
        cases h
        exact ⟨rfl, rfl, rfl, by show r < 0; omega, fun _ h4 => by cases h4⟩
    · rw [if_neg h1] at h
      cases h
      exact ⟨rfl, rfl, rfl, le_refl _, fun _ h4 => by cases h4⟩

theorem SearchGoto.from_mono (g : SearchGoto) (lo lo1 : Int) (h : g.from_ lo) (hle : lo1 ≤ lo) :
    g.from_ lo1 := by
  cases g <;> simp only [SearchGoto.from_] at h ⊢ <;> omega

/-- The forward loop over an encoding whose characters are not empty jumps
out at a position that is not before the one from which it ran. -/
theorem forward_loop_from (L : Env) (fuel : Nat) (reg : regex_t) (x : Subject) (orig_range range : Int)
    (henc : ∀ p n, reg.enc.mbc_enc_len x p = some n → 0 ≤ n) :
    ∀ (n : Nat) (ss : SearchState) (g : SearchGoto),
      forward_loop L fuel reg x orig_range range n ss = .done g → g.from_ ss.s := by
  intro n
  induction n with
  | zero => intro ss g h; unfold forward_loop at h; cases h
  | succ k ih =>
    intro ss g h
    rw [forward_loop_succ] at h
    cases hm : MATCH_AND_RETURN_CHECK L fuel reg x orig_range ss with
    | undef => rw [hm] at h; cases h
    | nofuel => rw [hm] at h; cases h
    | done g1 =>
      have hi := MATCH_AND_RETURN_CHECK_inv L fuel reg x orig_range ss g1 hm
      rw [hm] at h
      cases g1 with
      | to_match ss1 => cases h; exact hi.2.2.2.1
      | to_finish r ss1 => cases h; exact hi.2.2.2.1
      | to_mismatch ss1 => cases h; trivial
      | next ss1 =>
        dsimp only at h
        unfold search_advance at h
        cases he : reg.enc.mbc_enc_len x ss1.s with
        | none => rw [he] at h; cases h
        | some n1 =>
          rw [he] at h
          have hn := henc _ _ he
          have hs1 : ss1.s = ss.s := hi.1
          simp only [Option.map_some'] at h
          split at h
          · have := ih _ g h
            exact SearchGoto.from_mono g _ _ this (by show ss.s ≤ ss1.s + n1; omega)
          · cases h
            show ss.s ≤ ss1.s + n1
            omega

/-- The retry after the forward loop jumps out at a position that is not
before the one from which the loop ran. -/
theorem forward_retry_from (L : Env) (fuel : Nat) (reg : regex_t) (x : Subject) (orig_range range : Int)
    (o : Outcome SearchGoto) (g : SearchGoto) (lo : Int)
    (ho : ∀ g1, o = .done g1 → g1.from_ lo)
    (h : forward_retry L fuel reg x orig_range range o = .done g) : g.from_ lo := by
  unfold forward_retry at h
  cases o with
  | undef => cases h
  | nofuel => cases h
  | done g1 =>
    have h1 := ho g1 rfl
    cases g1 with
    | to_match ss1 => cases h; exact h1
    | to_finish r ss1 => cases h; exact h1
    | to_mismatch ss1 => cases h; trivial
    | next ss1 =>
      dsimp only at h
      split at h
      · cases hm : MATCH_AND_RETURN_CHECK L fuel reg x orig_range ss1 with
        | undef => rw [hm] at h; cases h
        | nofuel => rw [hm] at h; cases h
        | done g2 =>
          have hi := MATCH_AND_RETURN_CHECK_inv L fuel reg x orig_range ss1 g2 hm
          rw [hm] at h
          cases g2 with
          | next ss2 => cases h; trivial
          | to_match ss2 => cases h; exact SearchGoto.from_mono _ _ _ hi.2.2.2.1 h1
          | to_finish r ss2 => cases h; exact hi.2.2.2.1
          | to_mismatch ss2 => cases h; trivial
      · cases h; trivial

/-- The plain forward search jumps out at a position that is not before
its start. -/
theorem forward_plain_from (L : Env) (fuel : Nat) (reg : regex_t) (x : Subject) (orig_range range : Int)
    (henc : ∀ p n, reg.enc.mbc_enc_len x p = some n → 0 ≤ n)
    (ss : SearchState) (g : SearchGoto)
    (h : forward_plain L fuel reg x orig_range range ss = .done g) : g.from_ ss.s := by
  unfold forward_plain at h
  exact forward_retry_from L fuel reg x orig_range range _ g ss.s
    (fun g1 h1 => forward_loop_from L fuel reg x orig_range range henc _ ss g1 h1) h

/-- After a first attempt that gave `ONIG_MISMATCH` the plain forward search
jumps out at a position after its start. -/
theorem forward_plain_after_mismatch (L : Env) (fuel : Nat) (reg : regex_t) (x : Subject)
    (orig_range range : Int)
    (henc : ∀ p n, reg.enc.mbc_enc_len x p = some n → 1 ≤ n)
    (ss : SearchState) (msa1 : OnigMatchArg) (g : SearchGoto)
    (h0 : match_at L fuel reg x orig_range ss.s ss.prev ss.msa = .done (ONIG_MISMATCH, msa1))
    (h : forward_plain L fuel reg x orig_range range ss = .done g) : g.from_ (ss.s + 1) := by
  unfold forward_plain at h
  rw [forward_loop_succ, MATCH_AND_RETURN_CHECK_eq L fuel reg x orig_range ss _ _ h0] at h
  simp only [ne_eq, not_true_eq_false, if_false] at h
  unfold search_advance at h
  dsimp only at h
  cases he : reg.enc.mbc_enc_len x ss.s with
  | none =>
    rw [he] at h
    cases h
  | some n1 =>
    rw [he] at h
    have hn := henc _ _ he
    simp only [Option.map_some'] at h
    refine forward_retry_from L fuel reg x orig_range range _ g (ss.s + 1) ?_ h
    intro g1 h1
    split at h1
    · have := forward_loop_from L fuel reg x orig_range range
        (fun p n hp => by have := henc p n hp; omega) _ _ g1 h1
      exact SearchGoto.from_mono g1 _ _ this (by show ss.s + 1 ≤ ss.s + n1; omega)
    · cases h1
      show ss.s + 1 ≤ ss.s + n1
      omega

/-- The value that `onig_search` returns for a jump out of a search that ran
from `lo`, with `FIND_LONGEST` off: negative, or the offset of a position
that is not before `lo`. -/
theorem search_finish_from (reg : regex_t) (x : Subject) (option : Nat) (g : SearchGoto)
    (lo : Int) (hFL : IS_FIND_LONGEST reg.options = false) (h : g.from_ lo) :
    (search_finish reg x option g).r < 0 ∨ lo - x.str ≤ (search_finish reg x option g).r := by
  cases g with
  | to_match ss => right; show lo - x.str ≤ ss.s - x.str; have : lo ≤ ss.s := h; omega
  | to_finish r ss => left; exact h
  | to_mismatch ss =>
    left
    unfold search_finish
    simp only [hFL, Bool.false_eq_true, false_and, if_false]
    decide
  | next ss => left; show ONIG_MISMATCH < 0; decide


/-! ## The backward search at `range == start` and the anchored forward search -/

theorem Outcome.eq_done {α : Type} (o : Outcome α) (d : α) (h : o.is_done = true) :
    o = .done (o.get d) := by
  cases o with
  | done a => rfl
  | undef => cases h
  | nofuel => cases h

theorem match_at_eq_of_done (o : Outcome (Int × OnigMatchArg)) (msa : OnigMatchArg)
    (h : match_done o = true) : o = .done (match_value o, match_msa msa o) := by
  cases o with
  | done v => rfl
  | undef => cases h
  | nofuel => cases h

theorem backward_loop_succ (L : Env) (fuel : Nat) (reg : regex_t) (x : Subject)
    (orig_start range : Int) (k : Nat) (ss : SearchState) :
    backward_loop L fuel reg x orig_start range (k + 1) ss =
      match MATCH_AND_RETURN_CHECK L fuel reg x orig_start
          { ss with prev := reg.enc.prev_char_head x x.str ss.s } with
      | .done (.next ss1) =>
        if ss1.prev ≥ range then
          backward_loop L fuel reg x orig_start range k { ss1 with s := ss1.prev }
        else .done (.to_mismatch { ss1 with s := ss1.prev })
      | other => other := rfl

/-- The backward search with `range == start`, without prefix optimisation,
from the value of its one attempt. -/
theorem backward_search_at_start (L : Env) (fuel : Nat) (reg : regex_t) (x : Subject)
    (start n : Int) (msa0 msa1 : OnigMatchArg) (r0 : Int)
    (hopt : reg.optimize = ONIG_OPTIMIZE_NONE)
    (hn : start < x.end_ → reg.enc.mbc_enc_len x start = some n)
    (hprev : reg.enc.prev_char_head x x.str start < start)
    (h0 : match_at L fuel reg x (if start < x.end_ then start + n else start) start
      (reg.enc.prev_char_head x x.str start) msa0 = .done (r0, msa1)) :
    backward_search L fuel reg x start start start ⟨start, 0, msa0, []⟩ =
      .done (if r0 ≠ ONIG_MISMATCH then
          if r0 ≥ 0 then
            if !IS_FIND_LONGEST reg.options then
              .to_match ⟨start, reg.enc.prev_char_head x x.str start, msa1, [start]⟩
            else
              .to_mismatch ⟨reg.enc.prev_char_head x x.str start,
                reg.enc.prev_char_head x x.str start, msa1, [start]⟩
          else .to_finish r0 ⟨start, reg.enc.prev_char_head x x.str start, msa1, [start]⟩
        else
          .to_mismatch ⟨reg.enc.prev_char_head x x.str start,
            reg.enc.prev_char_head x x.str start, msa1, [start]⟩) := by
  have hup : (if start < x.end_ then (reg.enc.mbc_enc_len x start).map (fun n => start + n)
      else some start) = some (if start < x.end_ then start + n else start) := by
    by_cases hlt : start < x.end_
    · rw [if_pos hlt, if_pos hlt, hn hlt]; rfl
    · rw [if_neg hlt, if_neg hlt]
  unfold backward_search
  rw [hup]
  dsimp only
  rw [if_neg (by simp [hopt]), backward_loop_succ]
  have hm := MATCH_AND_RETURN_CHECK_eq L fuel reg x (if start < x.end_ then start + n else start)
    ⟨start, reg.enc.prev_char_head x x.str start, msa0, []⟩ r0 msa1 h0
  dsimp only at hm ⊢
  rw [hm]
  by_cases h1 : r0 ≠ ONIG_MISMATCH
  · rw [if_pos h1, if_pos h1]
    by_cases h2 : r0 ≥ 0
    · rw [if_pos h2, if_pos h2]
      by_cases h3 : (!IS_FIND_LONGEST reg.options) = true
      · rw [if_pos h3, if_pos h3]
        rfl
      · rw [if_neg h3, if_neg h3]
        dsimp only
        rw [if_neg (by omega)]
        rfl
    · rw [if_neg h2, if_neg h2]
      rfl
  · rw [if_neg h1, if_neg h1]
    dsimp only
    rw [if_neg (by omega)]
    rfl

theorem search_finish_calls (reg : regex_t) (x : Subject) (option : Nat) (g : SearchGoto) :
    (search_finish reg x option g).calls = g.state.calls := by
  cases g with
  | to_match ss => rfl
  | to_finish r ss => rfl
  | to_mismatch ss =>
    unfold search_finish
    dsimp only
    split <;> rfl
  | next ss => rfl

/-- The plain forward search with `range = s + 1` over an encoding whose
characters are not empty calls `match_at` at `s`, and after an
`ONIG_MISMATCH` there and a character of one byte once more at `s + 1`. -/
theorem forward_plain_one (L : Env) (fuel : Nat) (reg : regex_t) (x : Subject) (orig_range : Int)
    (henc : ∀ p n, reg.enc.mbc_enc_len x p = some n → 1 ≤ n)
    (s p : Int) (msa : OnigMatchArg) (g : SearchGoto)
    (h : forward_plain L fuel reg x orig_range (s + 1) ⟨s, p, msa, []⟩ = .done g) :
    (g.state.calls = [s] ∨ g.state.calls = [s, s + 1]) ∧
    (∀ ss1, g = .to_match ss1 → ss1.s = s ∨ ss1.s = s + 1) := by
  unfold forward_plain at h
  rw [forward_loop_succ] at h
  cases hm : MATCH_AND_RETURN_CHECK L fuel reg x orig_range ⟨s, p, msa, []⟩ with
  | undef => rw [hm] at h; cases h
  | nofuel => rw [hm] at h; cases h
  | done g1 =>
    have hi := MATCH_AND_RETURN_CHECK_inv L fuel reg x orig_range _ g1 hm
    rw [hm] at h
    cases g1 with
    | to_match ss1 =>
      cases h
      exact ⟨Or.inl hi.2.2.1, fun ss2 h2 => by cases h2; exact Or.inl hi.1⟩
    | to_finish r ss1 =>
      cases h
      exact ⟨Or.inl hi.2.2.1, fun ss2 h2 => by cases h2⟩
    | to_mismatch ss1 => exact absurd rfl (hi.2.2.2.2 ss1)
    | next ss1 =>
      dsimp only at h
      unfold search_advance at h
      have hs1 : ss1.s = s := hi.1
      have hc1 : ss1.calls = [s] := hi.2.2.1
      cases he : reg.enc.mbc_enc_len x ss1.s with
      | none => rw [he] at h; cases h
      | some n1 =>
        rw [he] at h
        have hn := henc _ _ he
        simp only [Option.map_some'] at h
        rw [if_neg (by omega)] at h
        unfold forward_retry at h
        dsimp only at h
        split at h
        · rename_i heq
          cases hm2 : MATCH_AND_RETURN_CHECK L fuel reg x orig_range
              { ss1 with prev := ss1.s, s := ss1.s + n1 } with
          | undef => rw [hm2] at h; cases h
          | nofuel => rw [hm2] at h; cases h
          | done g2 =>
            have hi2 := MATCH_AND_RETURN_CHECK_inv L fuel reg x orig_range _ g2 hm2
            rw [hm2] at h
            have hcalls : g2.state.calls = [s, s + 1] := by
              rw [hi2.2.2.1]
              show ss1.calls ++ [ss1.s + n1] = _
              rw [hc1, heq]
              rfl
            have hs2 : g2.state.s = s + 1 := by
              rw [hi2.1]
              exact heq
            cases g2 with
            | next ss2 =>
              cases h
              exact ⟨Or.inr hcalls, fun ss3 h3 => by cases h3⟩
            | to_match ss2 =>
              cases h
              exact ⟨Or.inr hcalls, fun ss3 h3 => by cases h3; exact Or.inr hs2⟩
            | to_finish r ss2 =>
              cases h
              exact ⟨Or.inr hcalls, fun ss3 h3 => by cases h3⟩
            | to_mismatch ss2 => exact absurd rfl (hi2.2.2.2.2 ss2)
        · cases h
          exact ⟨Or.inl hc1, fun ss3 h3 => by cases h3⟩

theorem and_ne_zero_left (a b : Nat) (h : a &&& b ≠ 0) : a ≠ 0 := by
  intro h1
  subst h1
  simp at h

/-- The anchors of which the forward search keeps the position `start`
alone: `ANCHOR_BEGIN_POSITION`, `ANCHOR_BEGIN_BUF` at `start == str`, and
`ANCHOR_ANYCHAR_STAR_ML` when no anchor before it in the test is set. -/
theorem anchor_optimize_one (reg : regex_t) (x : Subject) (start range : Int)
    (hne : x.str < x.end_) (hfwd : start < range)
    (hanchor : reg.anchor &&& ANCHOR_BEGIN_POSITION ≠ 0 ∨
      (reg.anchor &&& ANCHOR_BEGIN_POSITION = 0 ∧ reg.anchor &&& ANCHOR_BEGIN_BUF ≠ 0 ∧
        start = x.str) ∨
      (reg.anchor &&& ANCHOR_BEGIN_POSITION = 0 ∧ reg.anchor &&& ANCHOR_BEGIN_BUF = 0 ∧
        reg.anchor &&& ANCHOR_END_BUF = 0 ∧ reg.anchor &&& ANCHOR_SEMI_END_BUF = 0 ∧
        reg.anchor &&& ANCHOR_ANYCHAR_STAR_ML ≠ 0)) :
    anchor_optimize reg x start range = some (.search start (start + 1)) := by
  unfold anchor_optimize
  rcases hanchor with h | ⟨h1, h2, h3⟩ | ⟨h1, h2, h3, h4, h5⟩
  · rw [if_pos ⟨and_ne_zero_left _ _ h, hne⟩, if_pos h]
    unfold anchor_begin_position
    rw [if_pos hfwd]
  · rw [if_pos ⟨and_ne_zero_left _ _ h2, hne⟩, if_neg (by simp [h1]), if_pos h2,
      if_pos hfwd, if_neg (by simp [h3]), h3]
  · rw [if_pos ⟨and_ne_zero_left _ _ h5, hne⟩, if_neg (by simp [h1]), if_neg (by simp [h2]),
      if_neg (by simp [h3]), if_neg (by simp [h4]), if_pos h5]
    unfold anchor_begin_position
    rw [if_pos hfwd]


/-! ## Claims on the value and the region of `onig_match` -/

theorem Outcome.eq_of_is_done_onig (o : Outcome (Int × RegionArg))
    (h : o.is_done_onig = true) : o = .done (o.value, .onig o.region.onig_region) := by
  cases o with
  | done v =>
    obtain ⟨r, region⟩ := v
    cases region with
    | onig rg => rfl
    | null => cases h
    | posix rmt => cases h
  | undef => cases h
  | nofuel => cases h

theorem RegionArg.eq_of_is_onig (o : Option RegionArg)
    (h : (o.getD RegionArg.null).is_onig = true) :
    o = some (.onig (o.getD RegionArg.null).onig_region) := by
  cases o with
  | none => cases h
  | some region =>
    cases region with
    | onig rg => rfl
    | null => cases h
    | posix rmt => cases h

/-- C2 (amended): if `onig_match` returns `r >= 0` and leaves an `OnigRegion`, then
`region.end[0] = (at - str) + r`; so `region.end[0] - region.beg[0] = r` holds
exactly when `region.beg[0] = at - str`, that is when the keep position was
not moved. -/
theorem C2_end_is_at_plus_length (L : Env) (fuel : Nat) (reg : regex_t) (x : Subject) (at_ : Int)
    (region : RegionArg) (option : Nat) (r : Int) (rg : OnigRegion)
    (h : onig_match L fuel reg x at_ region option = .done (r, .onig rg)) (hr : 0 ≤ r) :
    ∃ b e, RegionArg.entry (.onig rg) 0 = some (b, e) ∧ e = at_ - x.str + r ∧
      (e - b = r ↔ b = at_ - x.str) := by
  obtain ⟨b, e, hb, he, h1, _⟩ := onig_match_entry0 L fuel reg x at_ region option r rg h hr
  refine ⟨b, e, ?_, h1, ?_⟩
  · unfold RegionArg.entry
    simp only [hb, he]
  · constructor <;> intro h3 <;> omega

/-- C2, witness: the theorem at the program of `a\Kb` on `ab`. -/
theorem C2_end_is_at_plus_length_witness :
    ∃ b e, RegionArg.entry (.onig (onig_match 0 100
        (plain_regex ONIG_ENCODING_ASCII prog_keep 0 0 0 0 0 0) ⟨1000, [97, 98]⟩ 1000
        (.onig onig_region_init) 0).region.onig_region) 0 = some (b, e) ∧
      e = 1000 - (Subject.mk 1000 [97, 98]).str + (onig_match 0 100
        (plain_regex ONIG_ENCODING_ASCII prog_keep 0 0 0 0 0 0) ⟨1000, [97, 98]⟩ 1000
        (.onig onig_region_init) 0).value ∧
      (e - b = (onig_match 0 100
        (plain_regex ONIG_ENCODING_ASCII prog_keep 0 0 0 0 0 0) ⟨1000, [97, 98]⟩ 1000
        (.onig onig_region_init) 0).value ↔ b = 1000 - (Subject.mk 1000 [97, 98]).str) :=
  C2_end_is_at_plus_length 0 100 (plain_regex ONIG_ENCODING_ASCII prog_keep 0 0 0 0 0 0)
    ⟨1000, [97, 98]⟩ 1000 (.onig onig_region_init) 0 _ _
    (Outcome.eq_of_is_done_onig _ (by decide!)) (by decide!)

/-- C3 (amended): for every successful match `region.beg[0] <= region.end[0]`; and at
the commit of `OP_END` every capture group `i` in `1..num_mem` gets `beg[i] =
end[i] = ONIG_REGION_NOTPOS` when its end is not recorded, and otherwise the
offsets of its recorded start and end, which are not confined to
`[beg[0], end[0]]`. -/
theorem C3_groups_as_recorded :
    (∀ (L : Env) (fuel : Nat) (reg : regex_t) (x : Subject) (at_ : Int) (region : RegionArg)
        (option : Nat) (r : Int) (rg : OnigRegion),
      onig_match L fuel reg x at_ region option = .done (r, .onig rg) → 0 ≤ r →
      ∃ b e, RegionArg.entry (.onig rg) 0 = some (b, e) ∧ b ≤ e) ∧
    (∀ (ctx : Ctx) (st : MatchState) (r r1 : OnigRegion),
      end_commit ctx st (.onig r) = some (.onig r1) →
      ∀ i : Int, 1 ≤ i → i ≤ (ctx.reg.num_mem : Int) →
        (ptr_get st.mem_end_stk i = some INVALID_STACK_INDEX →
          RegionArg.entry (.onig r1) i = some (ONIG_REGION_NOTPOS, ONIG_REGION_NOTPOS)) ∧
        (∀ e, ptr_get st.mem_end_stk i = some e → e ≠ INVALID_STACK_INDEX →
          ∃ ps pe, mem_pstart ctx st i = some ps ∧ mem_pend ctx st i = some pe ∧
            RegionArg.entry (.onig r1) i = some (ps - ctx.x.str, pe - ctx.x.str))) := by
  constructor
  · intro L fuel reg x at_ region option r rg h hr
    obtain ⟨b, e, hb, he, _, h2⟩ := onig_match_entry0 L fuel reg x at_ region option r rg h hr
    refine ⟨b, e, ?_, h2⟩
    unfold RegionArg.entry
    simp only [hb, he]
  · intro ctx st r r1 h i h1 h2
    exact (end_commit_spec ctx st r r1 h).2.2 i h1 h2

/-- C3, witness: the theorem at the program of `(?=(ab))a` on `ab`, and at a
commit with group 1 recorded and group 2 not. -/
theorem C3_groups_as_recorded_witness :
    (∃ b e, RegionArg.entry (.onig (onig_match 0 100
        (plain_regex ONIG_ENCODING_ASCII prog_lookahead_group 1 0 0 0 0 0) ⟨1000, [97, 98]⟩
        1000 (.onig onig_region_init) 0).region.onig_region) 0 = some (b, e) ∧ b ≤ e) ∧
    ((ptr_get commit_example_state.mem_end_stk 2 = some INVALID_STACK_INDEX →
        RegionArg.entry (.onig ((end_commit commit_example_ctx commit_example_state
          (.onig commit_example_region)).getD RegionArg.null).onig_region) 2
          = some (ONIG_REGION_NOTPOS, ONIG_REGION_NOTPOS)) ∧
      (∀ e, ptr_get commit_example_state.mem_end_stk 2 = some e → e ≠ INVALID_STACK_INDEX →
        ∃ ps pe, mem_pstart commit_example_ctx commit_example_state 2 = some ps ∧
          mem_pend commit_example_ctx commit_example_state 2 = some pe ∧
          RegionArg.entry (.onig ((end_commit commit_example_ctx commit_example_state
            (.onig commit_example_region)).getD RegionArg.null).onig_region) 2
            = some (ps - commit_example_ctx.x.str, pe - commit_example_ctx.x.str))) :=
  ⟨C3_groups_as_recorded.1 0 100
      (plain_regex ONIG_ENCODING_ASCII prog_lookahead_group 1 0 0 0 0 0) ⟨1000, [97, 98]⟩
      1000 (.onig onig_region_init) 0 _ _
      (Outcome.eq_of_is_done_onig _ (by decide!)) (by decide!),
    C3_groups_as_recorded.2 commit_example_ctx commit_example_state commit_example_region _
      (RegionArg.eq_of_is_onig _ (by decide!)) 2 (by decide) (by decide!)⟩


/-! ## Runs of the engine on concrete programs -/

/-- C2, counterexample: the program of `a\Kb` matches `ab` at `str` with the value 2
and the region entry `(1, 2)`, so `region.end[0] - region.beg[0] = 1` is not the
value returned. -/
theorem C2_counterexample :
    observe 1 (onig_match 0 100 (plain_regex ONIG_ENCODING_ASCII prog_keep 0 0 0 0 0 0)
      ⟨1000, [97, 98]⟩ 1000 (.onig onig_region_init) 0) = some (2, [(1, 2)]) ∧
    (2 : Int) - 1 ≠ 2 := by
  decide!

/-- C3, counterexample: the program of `(?=(ab))a` matches `ab` at `str` with the
entries `(0, 1)` for the match and `(0, 2)` for group 1: the group ends after
`region.end[0]`. -/
theorem C3_counterexample :
    observe 2 (onig_match 0 100
      (plain_regex ONIG_ENCODING_ASCII prog_lookahead_group 1 0 0 0 0 0)
      ⟨1000, [97, 98]⟩ 1000 (.onig onig_region_init) 0) = some (1, [(0, 1), (0, 2)]) ∧
    ¬ ((2 : Int) ≤ 1) := by
  decide!

/-- C4, the code at the failing input: the program `OP_MEMORY_END 1; OP_END` on
`ab` at `str = 1000` commits the entry `(-1001, 0)` for group 1, whose start was
never recorded. -/
theorem C4_end_without_start :
    observe 2 (onig_match 0 100 (plain_regex ONIG_ENCODING_ASCII prog_end_only 1 0 0 0 0 0)
      ⟨1000, [97, 98]⟩ 1000 (.onig onig_region_init) 0)
      = some (0, [(0, 0), (-1001, 0)]) := by
  decide!

/-- C6, counterexample: the program of `ab` on `ab`, `start = str`: with
`range = start + 1` the search returns `ONIG_MISMATCH`, with `range = end` it
returns `start - str = 0`. -/
theorem C6_counterexample :
    observe 1 (onig_search 0 100 (plain_regex ONIG_ENCODING_ASCII prog_ab 0 0 0 0 0 0)
      ⟨1000, [97, 98]⟩ 1000 1001 (.onig onig_region_init) 0)
      = some (ONIG_MISMATCH, [(-1, -1)]) ∧
    observe 1 (onig_search 0 100 (plain_regex ONIG_ENCODING_ASCII prog_ab 0 0 0 0 0 0)
      ⟨1000, [97, 98]⟩ 1000 1002 (.onig onig_region_init) 0) = some (0, [(0, 2)]) := by
  decide!

/-- C7, counterexample: the program of `a` on `a` with `range == start == str`
returns 0 although `start` is not `end`, and the match `(0, 1)` is not empty. -/
theorem C7_counterexample :
    observe 1 (onig_search 0 100 (plain_regex ONIG_ENCODING_ASCII prog_a 0 0 0 0 0 0)
      ⟨1000, [97]⟩ 1000 1000 (.onig onig_region_init) 0) = some (0, [(0, 1)]) ∧
    (1000 : Int) ≠ (Subject.mk 1000 [97]).end_ := by
  decide!

/-- C8, the code at the failing input: the program of `\Gb` with
`ANCHOR_BEGIN_POSITION` on `ab`, searched forward from `start = str` to
`end`.  The code at the anchor sets `range = start + 1` ("search
start-position only"); the forward loop calls the interpreter at `start`, and
the retry `if (s == range)` after the loop calls it once more, at
`start + 1`. -/
theorem C8_anchor_retry_past_start :
    observe_calls (onig_search_run 0 100
      (plain_regex ONIG_ENCODING_ASCII prog_begin_position_b 0 0 0 0 0
        ANCHOR_BEGIN_POSITION)
      ⟨1000, [97, 98]⟩ 1000 1002 (.onig onig_region_init) 0)
      = some (ONIG_MISMATCH, [1000, 1001]) := by
  decide!

/-- C10, the code at the failing input: scanning `ab` for the program of `(?<=a)`
invokes the callback twice with the offset 1. -/
theorem C10_scan_repeats_offset :
    observe_scan (onig_scan 0 100 10 (plain_regex ONIG_ENCODING_ASCII prog_after_a 0 0 0 0 0 0)
      ⟨1000, [97, 98]⟩ (.onig onig_region_init) 0 callback_zero ())
      = some (2, [(0, 1), (1, 1)]) := by
  decide!


/-! ## Claims on the forward search -/

theorem region_prepare_onig (reg : regex_t) (r : OnigRegion) (option : Nat)
    (h : IS_POSIX_REGION option = false) :
    region_prepare reg (.onig r) option =
      some (0, .onig (onig_region_resize_clear r (reg.num_mem + 1)).2) := by
  unfold region_prepare
  simp only [h, Bool.not_false, if_true]
  rw [onig_region_resize_clear_ok]

theorem attempt_eq (L : Env) (fuel : Nat) (reg : regex_t) (x : Subject) (range start prev0 : Int)
    (msa0 : OnigMatchArg) (j : Nat)
    (h : match_done (attempt L fuel reg x range start prev0 msa0 j) = true) :
    match_at L fuel reg x range (start + j) (search_prev prev0 start j)
        (attempt_msa L fuel reg x range start prev0 msa0 j) =
      .done (match_value (attempt L fuel reg x range start prev0 msa0 j),
        attempt_msa L fuel reg x range start prev0 msa0 (j + 1)) := by
  have e : attempt_msa L fuel reg x range start prev0 msa0 (j + 1) =
      match_msa (attempt_msa L fuel reg x range start prev0 msa0 j)
        (attempt L fuel reg x range start prev0 msa0 j) := rfl
  rw [e]
  unfold attempt at h ⊢
  generalize match_at L fuel reg x range (start + j) (search_prev prev0 start j)
      (attempt_msa L fuel reg x range start prev0 msa0 j) = o at h ⊢
  cases o with
  | done v => rfl
  | undef => cases h
  | nofuel => cases h

/-- C5: for a program with no prefix optimisation, no anchor flags, `FIND_LONGEST`
off, a single-byte encoding and `str <= start < range <= end`: when `match_at`
(right range `range`) gives `ONIG_MISMATCH` at the positions `start .. start
+ k - 1` and the value `rs k` at `q = start + k <= range`, then `onig_search`
returns `q - str` if `rs k >= 0`, returns `rs k` if it is an error code other
than `ONIG_MISMATCH`, and returns `ONIG_MISMATCH` if `rs k` is `ONIG_MISMATCH`
and `q = range`. -/
theorem C5_forward_search_first_result (L : Env) (fuel : Nat) (reg : regex_t) (x : Subject)
    (start range : Int) (region region0 : RegionArg) (option : Nat)
    (k : Nat) (msas : Nat → OnigMatchArg) (rs : Nat → Int)
    (hopt : reg.optimize = ONIG_OPTIMIZE_NONE) (hanc : reg.anchor = 0)
    (hFL : IS_FIND_LONGEST reg.options = false)
    (henc : ∀ p, reg.enc.mbc_enc_len x p = some 1)
    (hvalid : reg.enc.is_valid_mbc_string x = true)
    (hprep : region_prepare reg region option = some (0, region0))
    (h1 : x.str ≤ start) (h2 : start < range) (h3 : range ≤ x.end_)
    (hk : start + k ≤ range)
    (h0 : msas 0 = MATCH_ARG_INIT reg option region0 start)
    (hat : ∀ j, j ≤ k → match_at L fuel reg x range (start + j)
      (search_prev (forward_prev reg x start) start j) (msas j) = .done (rs j, msas (j + 1)))
    (hmis : ∀ j, j < k → rs j = ONIG_MISMATCH) :
    (0 ≤ rs k → onig_search L fuel reg x start range region option =
      .done (start + k - x.str, (msas (k + 1)).region)) ∧
    (rs k < 0 → rs k ≠ ONIG_MISMATCH →
      ∃ region1, onig_search L fuel reg x start range region option = .done (rs k, region1)) ∧
    (rs k = ONIG_MISMATCH → start + k = range →
      ∃ region1, onig_search L fuel reg x start range region option =
        .done (ONIG_MISMATCH, region1)) := by
  have htop := fun g hg => onig_search_of_run L fuel reg x start range region option _
    (onig_search_run_plain_forward L fuel reg x start range region region0 option g
      hopt hanc hvalid hprep h1 h2 (by omega) hg)
  have hrun := fun hend => forward_plain_run L fuel reg x range range henc hFL k
    ⟨start, forward_prev reg x start, MATCH_ARG_INIT reg option region0 start, []⟩ msas rs
    h2 hk h0 hat hmis hend
  refine ⟨fun hr => ?_, fun hr hne => ?_, fun hr hkr => ?_⟩
  · have hne : rs k ≠ ONIG_MISMATCH := by unfold ONIG_MISMATCH; omega
    obtain ⟨ssk, hs, hm, hf⟩ := hrun (fun h => absurd h hne)
    rw [if_neg hne, if_pos hr] at hf
    rw [htop _ hf]
    show Outcome.done (ssk.s - x.str, ssk.msa.region) = _
    rw [hs, hm]
  · obtain ⟨ssk, hs, hm, hf⟩ := hrun (fun h => absurd h hne)
    rw [if_neg hne, if_neg (by omega)] at hf
    rw [htop _ hf]
    exact ⟨_, rfl⟩
  · obtain ⟨ssk, hs, hm, hf⟩ := hrun (fun _ => hkr)
    rw [if_pos hr] at hf
    rw [htop _ hf]
    refine ⟨(search_finish reg x option (.to_mismatch ssk)).region, ?_⟩
    have : (search_finish reg x option (.to_mismatch ssk)).r = ONIG_MISMATCH := by
      unfold search_finish
      simp only [hFL, Bool.false_eq_true, false_and, if_false]
    rw [this]

/-- C5, witness: the search for `ab` in `xab` from `str` to `end`; the attempt at
`str` gives `ONIG_MISMATCH`, the attempt at `str + 1` the value 2. -/
theorem C5_forward_search_first_result_witness :
    (0 ≤ xab_values 1 → onig_search 0 100 regex_ab subject_xab 1000 1003
        (.onig onig_region_init) 0 =
      .done (1000 + (1 : Nat) - subject_xab.str, (xab_msas (1 + 1)).region)) ∧
    (xab_values 1 < 0 → xab_values 1 ≠ ONIG_MISMATCH →
      ∃ region1, onig_search 0 100 regex_ab subject_xab 1000 1003
        (.onig onig_region_init) 0 = .done (xab_values 1, region1)) ∧
    (xab_values 1 = ONIG_MISMATCH → 1000 + (1 : Nat) = (1003 : Int) →
      ∃ region1, onig_search 0 100 regex_ab subject_xab 1000 1003
        (.onig onig_region_init) 0 = .done (ONIG_MISMATCH, region1)) :=
  C5_forward_search_first_result 0 100 regex_ab subject_xab 1000 1003
    (.onig onig_region_init) region_cleared 0 1 xab_msas xab_values rfl rfl rfl
    (fun _ => rfl) rfl (region_prepare_onig regex_ab onig_region_init 0 rfl)
    (by decide) (by decide) (by decide) (by decide) rfl
    (fun j hj => attempt_eq 0 100 regex_ab subject_xab 1003 1000 _ _ j
      (by interval_cases j <;> decide!))
    (fun j hj => by interval_cases j; decide!)


/-! ## Claims on the range of the search -/

/-- C6 (amended): for a program with no prefix optimisation, no anchor flags,
`FIND_LONGEST` off, a single-byte encoding and `str <= start < end`:
`onig_search` called with a range `range > start` (`start + 1` or `end`)
returns `start - str` if and only if `match_at` at `start` succeeds with the
right range `range`.  The two calls agree on `start` exactly when these two
runs of the interpreter agree. -/
theorem C6_match_at_start_iff_attempt (L : Env) (fuel : Nat) (reg : regex_t) (x : Subject)
    (start range : Int) (region region0 : RegionArg) (option : Nat) (r0 : Int)
    (msa1 : OnigMatchArg)
    (hopt : reg.optimize = ONIG_OPTIMIZE_NONE) (hanc : reg.anchor = 0)
    (hFL : IS_FIND_LONGEST reg.options = false)
    (henc : ∀ p, reg.enc.mbc_enc_len x p = some 1)
    (hvalid : reg.enc.is_valid_mbc_string x = true)
    (hprep : region_prepare reg region option = some (0, region0))
    (h1 : x.str ≤ start) (h2 : start < range) (h3 : start < x.end_)
    (h0 : match_at L fuel reg x range start (forward_prev reg x start)
      (MATCH_ARG_INIT reg option region0 start) = .done (r0, msa1)) :
    (∃ region1, onig_search L fuel reg x start range region option =
      .done (start - x.str, region1)) ↔ 0 ≤ r0 := by
  have heq := onig_search_run_plain_forward_eq L fuel reg x start range region region0 option
    hopt hanc hvalid hprep h1 h2 h3
  constructor
  · rintro ⟨region1, hs⟩
    obtain ⟨res, hres, hr, _⟩ := onig_search_run_of_search L fuel reg x start range region
      option _ _ hs
    rw [heq] at hres
    cases hp : forward_plain L fuel reg x range range
        ⟨start, forward_prev reg x start, MATCH_ARG_INIT reg option region0 start, []⟩ with
    | undef => rw [hp] at hres; cases hres
    | nofuel => rw [hp] at hres; cases hres
    | done g =>
      rw [hp] at hres
      simp only [Outcome.done.injEq] at hres
      subst hres
      by_contra hneg
      by_cases hmis : r0 = ONIG_MISMATCH
      · rw [hmis] at h0
        have hf := forward_plain_after_mismatch L fuel reg x range range
          (fun p n hp => by rw [henc p] at hp; cases hp; exact le_refl _)
          ⟨start, forward_prev reg x start, MATCH_ARG_INIT reg option region0 start, []⟩
          msa1 g h0 hp
        rcases search_finish_from reg x option g _ hFL hf with h4 | h4
        · omega
        · have : start + 1 - x.str ≤ (search_finish reg x option g).r := h4
          omega
      · have hg : forward_plain L fuel reg x range range
            ⟨start, forward_prev reg x start, MATCH_ARG_INIT reg option region0 start, []⟩ =
            .done (.to_finish r0 ⟨start, forward_prev reg x start, msa1, [] ++ [start]⟩) := by
          unfold forward_plain
          rw [forward_loop_succ, MATCH_AND_RETURN_CHECK_eq L fuel reg x range
            ⟨start, forward_prev reg x start, MATCH_ARG_INIT reg option region0 start, []⟩
            r0 msa1 h0,
            if_pos hmis, if_neg hneg]
          rfl
        rw [hg] at hp
        simp only [Outcome.done.injEq] at hp
        subst hp
        have : (search_finish reg x option
          (.to_finish r0 ⟨start, forward_prev reg x start, msa1, [] ++ [start]⟩)).r = r0 := rfl
        omega
  · intro hr
    have hmis : r0 ≠ ONIG_MISMATCH := by unfold ONIG_MISMATCH; omega
    have hg : forward_plain L fuel reg x range range
        ⟨start, forward_prev reg x start, MATCH_ARG_INIT reg option region0 start, []⟩ =
        .done (.to_match ⟨start, forward_prev reg x start, msa1, [] ++ [start]⟩) := by
      unfold forward_plain
      rw [forward_loop_succ, MATCH_AND_RETURN_CHECK_eq L fuel reg x range
            ⟨start, forward_prev reg x start, MATCH_ARG_INIT reg option region0 start, []⟩
            r0 msa1 h0,
        if_pos hmis, if_pos hr, if_pos (by simp [hFL])]
      rfl
    rw [hg] at heq
    exact ⟨_, onig_search_of_run L fuel reg x start range region option _ heq⟩

/-- C6, witness: the search for `ab` in `ab` from `str` with `range = start + 1`. -/
theorem C6_match_at_start_iff_attempt_witness :
    (∃ region1, onig_search 0 100 regex_ab subject_ab 1000 1001 (.onig onig_region_init) 0 =
      .done (1000 - subject_ab.str, region1)) ↔ 0 ≤ match_value (ab_attempt 1001) :=
  C6_match_at_start_iff_attempt 0 100 regex_ab subject_ab 1000 1001 (.onig onig_region_init)
    region_cleared 0 _ _ rfl rfl rfl (fun _ => rfl) rfl
    (region_prepare_onig regex_ab onig_region_init 0 rfl) (by decide) (by decide) (by decide)
    (match_at_eq_of_done (ab_attempt 1001) (MATCH_ARG_INIT regex_ab 0 region_cleared 1000)
      (by decide!))

/-- C7 (amended): for a program with no prefix optimisation, no anchor flags and a
subject that is not empty: `onig_search` called with `range == start`
invokes the interpreter once, at `start`, with the right range one
character after `start` (`start` itself when `start == end`); it returns
`start - str` with the region of that run when the run succeeds, and the
value of the run when that is negative.  The match begins at `start`, it
need not be empty and `start` need not be `end`. -/
theorem C7_backward_at_start (L : Env) (fuel : Nat) (reg : regex_t) (x : Subject)
    (start n : Int) (region region0 : RegionArg) (option : Nat) (r0 : Int)
    (msa1 : OnigMatchArg)
    (hopt : reg.optimize = ONIG_OPTIMIZE_NONE) (hanc : reg.anchor = 0)
    (hFL : IS_FIND_LONGEST reg.options = false)
    (hvalid : reg.enc.is_valid_mbc_string x = true)
    (hprep : region_prepare reg region option = some (0, region0))
    (h1 : x.str ≤ start) (h2 : start ≤ x.end_) (h3 : x.str < x.end_)
    (hn : start < x.end_ → reg.enc.mbc_enc_len x start = some n)
    (hprev : reg.enc.prev_char_head x x.str start < start)
    (h0 : match_at L fuel reg x (if start < x.end_ then start + n else start) start
      (reg.enc.prev_char_head x x.str start) (MATCH_ARG_INIT reg option region0 start)
      = .done (r0, msa1)) :
    ∃ res, onig_search_run L fuel reg x start start region option = .done res ∧
      res.calls = [start] ∧
      (0 ≤ r0 → res.r = start - x.str ∧ res.region = msa1.region) ∧
      (r0 < 0 → res.r = r0) := by
  have htop := onig_search_run_search L fuel reg x start start region option region0
    start start hprep h1 h2 (by simp [hvalid])
    (anchor_optimize_none reg x start start hanc h3)
  rw [if_neg (by omega), backward_search_at_start L fuel reg x start n _ msa1 r0 hopt hn
    hprev h0] at htop
  refine ⟨_, htop, ?_, ?_, ?_⟩
  · rw [search_finish_calls]
    by_cases h4 : r0 ≠ ONIG_MISMATCH
    · rw [if_pos h4]
      by_cases h5 : r0 ≥ 0
      · rw [if_pos h5, if_pos (by simp [hFL])]
        rfl
      · rw [if_neg h5]
        rfl
    · rw [if_neg h4]
      rfl
  · intro hr
    have h4 : r0 ≠ ONIG_MISMATCH := by unfold ONIG_MISMATCH; omega
    rw [if_pos h4, if_pos hr, if_pos (by simp [hFL])]
    exact ⟨rfl, rfl⟩
  · intro hr
    by_cases h4 : r0 ≠ ONIG_MISMATCH
    · rw [if_pos h4, if_neg (by omega)]
      rfl
    · rw [if_neg h4]
      have h5 : r0 = ONIG_MISMATCH := by
        by_contra h6
        exact h4 h6
      rw [h5]
      unfold search_finish
      simp only [hFL, Bool.false_eq_true, false_and, if_false]

/-- C7, witness: the search for `a` in `a` with `range == start == str`. -/
theorem C7_backward_at_start_witness :
    ∃ res, onig_search_run 0 100 regex_a subject_a 1000 1000 (.onig onig_region_init) 0
        = .done res ∧
      res.calls = [1000] ∧
      (0 ≤ match_value a_attempt → res.r = 1000 - subject_a.str ∧
        res.region = (match_msa (MATCH_ARG_INIT regex_a 0 region_cleared 1000) a_attempt).region) ∧
      (match_value a_attempt < 0 → res.r = match_value a_attempt) :=
  C7_backward_at_start 0 100 regex_a subject_a 1000 1 (.onig onig_region_init)
    region_cleared 0 _ _ rfl rfl rfl rfl
    (region_prepare_onig regex_a onig_region_init 0 rfl) (by decide) (by decide) (by decide)
    (fun _ => rfl) (by decide)
    (match_at_eq_of_done a_attempt (MATCH_ARG_INIT regex_a 0 region_cleared 1000)
      (by decide!))

/-- What the code does for a program with no prefix optimisation whose anchor flags
contain `ANCHOR_BEGIN_POSITION` (or `ANCHOR_BEGIN_BUF` with `start == str`,
or `ANCHOR_ANYCHAR_STAR_ML` and none of the anchors tested before it), a
subject that is not empty and a forward search: `onig_search` invokes the
interpreter at `start` and, after an `ONIG_MISMATCH` there, once more at
`start + 1` (the retry `if (s == range)` after the loop), and nowhere else;
with `FIND_LONGEST` off every result that is not negative is `start - str`
or `start + 1 - str`. -/
theorem anchored_forward_calls (L : Env) (fuel : Nat) (reg : regex_t) (x : Subject)
    (start range : Int) (region region0 : RegionArg) (option : Nat) (res : SearchResult)
    (hopt : reg.optimize = ONIG_OPTIMIZE_NONE)
    (hanchor : reg.anchor &&& ANCHOR_BEGIN_POSITION ≠ 0 ∨
      (reg.anchor &&& ANCHOR_BEGIN_POSITION = 0 ∧ reg.anchor &&& ANCHOR_BEGIN_BUF ≠ 0 ∧
        start = x.str) ∨
      (reg.anchor &&& ANCHOR_BEGIN_POSITION = 0 ∧ reg.anchor &&& ANCHOR_BEGIN_BUF = 0 ∧
        reg.anchor &&& ANCHOR_END_BUF = 0 ∧ reg.anchor &&& ANCHOR_SEMI_END_BUF = 0 ∧
        reg.anchor &&& ANCHOR_ANYCHAR_STAR_ML ≠ 0))
    (henc : ∀ p n, reg.enc.mbc_enc_len x p = some n → 1 ≤ n)
    (hvalid : reg.enc.is_valid_mbc_string x = true)
    (hprep : region_prepare reg region option = some (0, region0))
    (h1 : x.str ≤ start) (h2 : start ≤ x.end_) (h3 : x.str < x.end_) (hfwd : start < range)
    (hres : onig_search_run L fuel reg x start range region option = .done res) :
    (res.calls = [start] ∨ res.calls = [start, start + 1]) ∧
    (IS_FIND_LONGEST reg.options = false → 0 ≤ res.r →
      res.r = start - x.str ∨ res.r = start + 1 - x.str) := by
  rw [onig_search_run_search L fuel reg x start range region option region0
    start (start + 1) hprep h1 h2 (by simp [hvalid])
    (anchor_optimize_one reg x start range h3 hfwd hanchor),
    if_pos (by omega), forward_search_plain _ _ _ _ _ _ _ _ _ _ _ hopt] at hres
  cases hp : forward_plain L fuel reg x range (start + 1)
      ⟨start, forward_prev reg x start, MATCH_ARG_INIT reg option region0 start, []⟩ with
  | undef => rw [hp] at hres; cases hres
  | nofuel => rw [hp] at hres; cases hres
  | done g =>
    rw [hp] at hres
    simp only [Outcome.done.injEq] at hres
    subst hres
    have hone := forward_plain_one L fuel reg x range henc start _ _ g hp
    refine ⟨by rw [search_finish_calls]; exact hone.1, fun hFL hr => ?_⟩
    cases g with
    | to_match ss =>
      rcases hone.2 ss rfl with h4 | h4
      · left; show ss.s - x.str = _; rw [h4]
      · right; show ss.s - x.str = _; rw [h4]
    | to_finish r ss =>
      exfalso
      have hf := forward_plain_from L fuel reg x range (start + 1)
        (fun p n hp => by have := henc p n hp; omega) _ _ hp
      have : r < 0 := hf
      have : (search_finish reg x option (.to_finish r ss)).r = r := rfl
      omega
    | to_mismatch ss =>
      exfalso
      have : (search_finish reg x option (.to_mismatch ss)).r = ONIG_MISMATCH := by
        unfold search_finish
        simp only [hFL, Bool.false_eq_true, false_and, if_false]
      rw [this] at hr
      revert hr
      decide
    | next ss =>
      exfalso
      have : (search_finish reg x option (.next ss)).r = ONIG_MISMATCH := rfl
      rw [this] at hr
      revert hr
      decide

/-- The search for `\Gb` in `ab` from `str` to `end`. -/
theorem anchored_forward_calls_begin_position :
    ((begin_position_run.get ⟨0, .null, []⟩).calls = [1000] ∨
      (begin_position_run.get ⟨0, .null, []⟩).calls = [1000, 1000 + 1]) ∧
    (IS_FIND_LONGEST regex_begin_position_b.options = false →
      0 ≤ (begin_position_run.get ⟨0, .null, []⟩).r →
      (begin_position_run.get ⟨0, .null, []⟩).r = 1000 - subject_ab.str ∨
      (begin_position_run.get ⟨0, .null, []⟩).r = 1000 + 1 - subject_ab.str) :=
  anchored_forward_calls 0 100 regex_begin_position_b subject_ab 1000 1002
    (.onig onig_region_init) region_cleared 0 _ rfl (Or.inl (by decide))
    (fun p n hp => by cases hp; exact le_refl _) rfl
    (region_prepare_onig regex_begin_position_b onig_region_init 0 rfl)
    (by decide) (by decide) (by decide) (by decide)
    (Outcome.eq_done begin_position_run ⟨0, .null, []⟩ (by decide!))


/-! ## Running the pieces of an opcode arm -/

theorem run_bind {α β : Type} (m : M α) (f : α → M β) (st : MatchState) :
    (m >>= f) st = match m st with
      | .ok a st1 => f a st1
      | .exit e st1 => .exit e st1 := rfl

theorem run_pure {α : Type} (a : α) (st : MatchState) : (pure a : M α) st = .ok a st := rfl

theorem run_getS (st : MatchState) : getS st = .ok st st := rfl

theorem run_modS (f : MatchState → MatchState) (st : MatchState) :
    modS f st = .ok () (f st) := rfl

theorem run_goto {α : Type} (e : Exit) (st : MatchState) : (goto e : M α) st = .exit e st := rfl

theorem run_liftO_some {α : Type} (a : α) (st : MatchState) :
    liftO (some a) st = .ok a st := rfl

theorem run_liftO_none {α : Type} (st : MatchState) :
    (liftO none : M α) st = .exit .undef st := rfl

theorem run_ite {α : Type} (c : Prop) [Decidable c] (m1 m2 : M α) (st : MatchState) :
    (if c then m1 else m2) st = if c then m1 st else m2 st := by
  split <;> rfl

theorem run_bind_ok {α β : Type} {m : M α} {f : α → M β} {st st1 : MatchState} {a : α}
    (h : m st = .ok a st1) : (m >>= f) st = f a st1 := by
  rw [run_bind, h]

theorem run_bind_exit {α β : Type} {m : M α} {f : α → M β} {st st1 : MatchState} {e : Exit}
    (h : m st = .exit e st1) : (m >>= f) st = .exit e st1 := by
  rw [run_bind, h]

/-- When a sequence of two pieces goes on, so did the first. -/
theorem bind_ok_inv {α β : Type} {m : M α} {f : α → M β} {st st2 : MatchState} {b : β}
    (h : (m >>= f) st = .ok b st2) : ∃ a st1, m st = .ok a st1 ∧ f a st1 = .ok b st2 := by
  rw [run_bind] at h
  cases hm : m st with
  | ok a st1 => rw [hm] at h; exact ⟨a, st1, rfl, h⟩
  | exit e st1 => rw [hm] at h; cases h

theorem liftO_ok_inv {α : Type} {o : Option α} {st st1 : MatchState} {a : α}
    (h : liftO o st = .ok a st1) : o = some a ∧ st1 = st := by
  cases o with
  | none => cases h
  | some v => cases h; exact ⟨rfl, rfl⟩

theorem GET_OPERAND_INC_ok_inv {ctx : Ctx} {w : Nat} {st st1 : MatchState} {v : Nat}
    (h : GET_OPERAND_INC ctx w st = .ok v st1) :
    operand_at ctx.reg st.p w = some v ∧ st1 = { st with p := st.p + w } := by
  unfold GET_OPERAND_INC at h
  simp only [run_bind, run_getS] at h
  cases ho : operand_at ctx.reg st.p w with
  | none => simp only [ho, run_liftO_none] at h; cases h
  | some v1 =>
    simp only [ho, run_liftO_some, run_modS, run_pure] at h
    cases h
    exact ⟨rfl, rfl⟩

theorem GET_OPERAND_INC_run {ctx : Ctx} {w : Nat} {st : MatchState} {v : Nat}
    (h : operand_at ctx.reg st.p w = some v) :
    GET_OPERAND_INC ctx w st = .ok v { st with p := st.p + w } := by
  unfold GET_OPERAND_INC
  simp only [run_bind, run_getS, h, run_liftO_some, run_modS, run_pure]

/-- What `STACK_ENSURE` leaves when it goes on: the frames below `stk` stay,
`stk` and the other locals stay, and there is room for the frame at `stk`
unless the block was cut to the limit. -/
theorem STACK_ENSURE_ok_inv {ctx : Ctx} {n : Int} {st st1 : MatchState}
    (h : STACK_ENSURE ctx n st = .ok () st1) :
    st1.p = st.p ∧ st1.s = st.s ∧ st1.sprev = st.sprev ∧ st1.keep = st.keep ∧
    st1.right_range = st.right_range ∧ st1.right_range_index = st.right_range_index ∧
    st1.stk = st.stk ∧ st1.repeat_stk = st.repeat_stk ∧
    st1.mem_start_stk = st.mem_start_stk ∧ st1.mem_end_stk = st.mem_end_stk ∧
    (st1.stack = st.stack ∨
      st1.stack = stack_realloc st.stack st.stk_end) := by
  unfold STACK_ENSURE at h
  split at h
  · split at h
    · cases h
    · cases h
      exact ⟨rfl, rfl, rfl, rfl, rfl, rfl, rfl, rfl, rfl, rfl, Or.inr rfl⟩
  · cases h
    exact ⟨rfl, rfl, rfl, rfl, rfl, rfl, rfl, rfl, rfl, rfl, Or.inl rfl⟩

theorem push_frame_ok_inv {fr : StackType} {st st1 : MatchState}
    (h : push_frame fr st = .ok () st1) :
    st.stk < st.stack.length ∧
    st1 = { st with stack := st.stack.set st.stk (some fr), stk := st.stk + 1 } := by
  unfold push_frame at h
  split at h
  · rename_i hlt
    cases h
    exact ⟨hlt, rfl⟩
  · cases h

theorem STACK_AT_set_eq {st : MatchState} {stack : List (Option StackType)} (k : Nat)
    (fr : StackType) (hs : st.stack = stack.set k (some fr)) (hk : k < stack.length) :
    STACK_AT st (k : Int) = some fr := by
  unfold STACK_AT getI
  rw [hs]
  simp [hk]

theorem STACK_AT_set_ne {st st0 : MatchState} (k : Nat) (fr : StackType) (i : Int)
    (hs : st.stack = st0.stack.set k (some fr)) (hi : i ≠ (k : Int)) :
    STACK_AT st i = STACK_AT st0 i := by
  unfold STACK_AT getI
  rw [hs]
  split
  · rename_i h0
    have : k ≠ i.toNat := by omega
    rw [List.get?_eq_getElem?, List.get?_eq_getElem?, List.getElem?_set_ne this]
  · rfl

theorem STACK_AT_congr {st st1 : MatchState} (h : st1.stack = st.stack) (i : Int) :
    STACK_AT st1 i = STACK_AT st i := by
  unfold STACK_AT
  rw [h]

theorem Res.eq_ok_unit (r : Res Unit) (h : r.is_ok = true) : r = .ok () r.state := by
  cases r with
  | ok a st => rfl
  | exit e st => cases h


/-! ## The stack limit and the copy of a region -/

/-- C17, the code at the failing input: with the limit 200 the first growth
of the stack in the `alloca` block, of the initial capacity 160, gives the
capacity 320, beyond the limit, and no error; the next growth, of the heap
block, cuts the capacity to 200 without an error although 320 is past the
limit. -/
theorem C17_alloca_ignores_limit :
    (stack_double 200 true INIT_MATCH_STACK_SIZE).toOption = some 320 ∧
    ¬ (320 ≤ 200) ∧ min (2 * INIT_MATCH_STACK_SIZE) 200 = 200 ∧
    (stack_double 200 false 320).toOption = some 200 := by
  decide

/-- The heap-backed case of `stack_double`: with a non-zero limit `L` and a
capacity `n ≤ L` (`2 n` below `2 ^ 32`) it returns
`ONIGERR_MATCH_STACK_LIMIT_OVER` exactly when `n = L`, and otherwise the new
capacity is `min (2 n) L`, which does not exceed `L`; the stack in the
`alloca` block is doubled without a look at the limit. -/
theorem stack_double_heap_limit (L n : Nat) (hL : L ≠ 0) (hn : n ≤ L)
    (h32 : 2 * n < 4294967296) :
    stack_double L false n =
      (if n = L then Except.error ONIGERR_MATCH_STACK_LIMIT_OVER
       else Except.ok (min (2 * n) L)) ∧
    (∀ c, stack_double L false n = Except.ok c → c ≤ L) ∧
    stack_double L true n = Except.ok (2 * n) := by
  have hmod : n * 2 % 4294967296 = 2 * n := by
    rw [Nat.mul_comm]; exact Nat.mod_eq_of_lt h32
  have hmod1 : n % 4294967296 = n := Nat.mod_eq_of_lt (by omega)
  have h1 : stack_double L false n =
      (if n = L then Except.error ONIGERR_MATCH_STACK_LIMIT_OVER
       else Except.ok (min (2 * n) L)) := by
    unfold stack_double
    simp only [hmod, hmod1, Bool.false_eq_true, if_false]
    by_cases h : n = L
    · subst h
      have : 2 * n > n := by omega
      simp [hL, this]
    · by_cases h2 : 2 * n > L
      · rw [if_pos ⟨hL, h2⟩, if_neg h, if_neg h, Nat.min_eq_right (Nat.le_of_lt h2)]
      · rw [if_neg (fun hh => h2 hh.2), if_neg h, Nat.min_eq_left (by omega)]
  refine ⟨h1, ?_, ?_⟩
  · intro c hc
    rw [h1] at hc
    split at hc
    · cases hc
    · cases hc
      exact Nat.min_le_right _ _
  · unfold stack_double
    simp only [hmod, if_true]

/-- C18, the code at the failing input: the copy of a region whose history
root is the node of group 0, as a match leaves it, has a root of group -1;
the entries and `num_regs` are copied. -/
theorem C18_clone_drops_group :
    (onig_region_copy onig_region_init region_with_history false).map
      (fun r => (r.num_regs, getI r.beg 0, getI r.end_ 0,
        r.history_root.map OnigCaptureTreeNode.group)) =
      some (1, some 0, some 1, some (-1)) ∧
    region_with_history.history_root.map OnigCaptureTreeNode.group = some 0 := by
  decide


/-! ## The count that `onig_scan` returns -/

theorem range_map_succ (n : Nat) :
    (List.range (n + 1)).map Int.ofNat = (List.range n).map Int.ofNat ++ [(n : Int)] := by
  rw [List.range_succ, List.map_append]
  rfl

theorem reported_snoc (reported : List (Int × Int)) (n r : Int)
    (hn : n = reported.length)
    (hi : reported.map Prod.fst = (List.range reported.length).map Int.ofNat) :
    (n + 1 = ((reported ++ [(n, r)]).length : Int)) ∧
    (reported ++ [(n, r)]).map Prod.fst =
      (List.range (reported ++ [(n, r)]).length).map Int.ofNat := by
  constructor
  · simp [hn]
  · rw [List.length_append, List.length_singleton, range_map_succ, List.map_append, hi, hn]
    rfl

theorem onig_scan_loop_count {α : Type} (L : Env) (fuel : Nat) (reg : regex_t) (x : Subject)
    (option : Nat) (cb : Int → Int → RegionArg → α → Int × RegionArg × α) :
    ∀ (k : Nat) (n start : Int) (region : RegionArg) (arg : α) (reported : List (Int × Int))
      (res : ScanResult α),
      onig_scan_loop L fuel reg x option cb k n start region arg reported = .done res →
      n = reported.length →
      reported.map Prod.fst = (List.range reported.length).map Int.ofNat →
      res.reported.map Prod.fst = (List.range res.reported.length).map Int.ofNat ∧
      ((∀ n r region a, (cb n r region a).1 ≤ 0) → 0 ≤ res.r →
        res.r = res.reported.length) := by
  intro k
  induction k with
  | zero =>
    intro n start region arg reported res h
    unfold onig_scan_loop at h
    cases h
  | succ k ih =>
    intro n start region arg reported res h hn hi
    unfold onig_scan_loop at h
    cases hs : onig_search L fuel reg x start x.end_ region option with
    | undef => rw [hs] at h; cases h
    | nofuel => rw [hs] at h; cases h
    | done v =>
      obtain ⟨r, region1⟩ := v
      rw [hs] at h
      dsimp only at h
      obtain ⟨hn1, hi1⟩ := reported_snoc reported n r hn hi
      by_cases hr : r ≥ 0
      · rw [if_pos hr] at h
        by_cases hrs : (cb n r region1 arg).1 ≠ 0
        · rw [if_pos hrs] at h
          cases h
          refine ⟨hi1, fun hcb h0 => ?_⟩
          have := hcb n r region1 arg
          dsimp only at h0
          omega
        · rw [if_neg hrs] at h
          repeat' (first
            | exact ih _ _ _ _ _ _ h hn1 hi1
            | (cases h; exact ⟨hi1, fun _ _ => hn1⟩)
            | (cases h; done)
            | split at h)
      · rw [if_neg hr] at h
        split at h
        · cases h
          exact ⟨hi, fun _ _ => hn⟩
        · cases h
          exact ⟨hi, fun _ h0 => absurd h0 hr⟩

/-- C12, a counterexample: with a callback that returns 5 the scan of `ab` for
the program of `a` returns 5 after one invocation of the callback. -/
theorem C12_counterexample :
    observe_scan (onig_scan 0 100 10 regex_a subject_ab (.onig onig_region_init) 0
      callback_five ()) = some (5, [(0, 0)]) := by
  decide!

/-- C12 as amended: in every call of `onig_scan` that returns, the
invocations of the callback receive 0, 1, 2, .. in this order as their first
argument; and when no invocation of the callback returns a positive value, a
non-negative value returned by `onig_scan` is the number of invocations. -/
theorem C12_scan_count {α : Type} (L : Env) (fuel rounds : Nat) (reg : regex_t) (x : Subject)
    (region : RegionArg) (option : Nat) (cb : Int → Int → RegionArg → α → Int × RegionArg × α)
    (arg : α) (res : ScanResult α)
    (h : onig_scan L fuel rounds reg x region option cb arg = .done res) :
    res.reported.map Prod.fst = (List.range res.reported.length).map Int.ofNat ∧
    ((∀ n r region a, (cb n r region a).1 ≤ 0) → 0 ≤ res.r →
      res.r = res.reported.length) := by
  unfold onig_scan at h
  split at h
  · cases h
    refine ⟨rfl, fun _ h0 => ?_⟩
    have h1 : ¬ (0 ≤ ONIGERR_INVALID_WIDE_CHAR_VALUE) := by decide
    exact absurd h0 h1
  · exact onig_scan_loop_count L fuel reg x _ cb rounds 0 x.str region arg [] res h rfl rfl

theorem C12_scan_count_witness :
    scan_a_in_ab = .done (scan_a_in_ab.get ScanResult.none_) ∧
    ((scan_a_in_ab.get ScanResult.none_).reported.map Prod.fst =
      (List.range (scan_a_in_ab.get ScanResult.none_).reported.length).map Int.ofNat ∧
    ((∀ n r region a, (callback_zero n r region a).1 ≤ 0) →
      0 ≤ (scan_a_in_ab.get ScanResult.none_).r →
      (scan_a_in_ab.get ScanResult.none_).r =
        (scan_a_in_ab.get ScanResult.none_).reported.length)) :=
  ⟨Outcome.eq_done _ _ (by decide!),
   C12_scan_count 0 100 10 regex_a subject_ab (.onig onig_region_init) 0 callback_zero ()
     (scan_a_in_ab.get ScanResult.none_) (Outcome.eq_done _ _ (by decide!))⟩


/-! ## The progress of `onig_scan` -/

theorem onig_scan_loop_succ {α : Type} (L : Env) (fuel : Nat) (reg : regex_t) (x : Subject)
    (option : Nat) (cb : Int → Int → RegionArg → α → Int × RegionArg × α)
    (k : Nat) (n start : Int) (region : RegionArg) (arg : α) (reported : List (Int × Int)) :
    onig_scan_loop L fuel reg x option cb (k + 1) n start region arg reported =
      match onig_search L fuel reg x start x.end_ region option with
      | .undef => .undef
      | .nofuel => .nofuel
      | .done (r, region) =>
        if r ≥ 0 then
          if (cb n r region arg).1 ≠ 0 then
            .done ⟨(cb n r region arg).1, (cb n r region arg).2.1, (cb n r region arg).2.2,
              reported ++ [(n, r)]⟩
          else
            match (cb n r region arg).2.1 with
            | .onig rg =>
              match getI rg.end_ 0 with
              | none => .undef
              | some e0 =>
                if e0 = start - x.str then
                  if start ≥ x.end_ then
                    .done ⟨n + 1, (cb n r region arg).2.1, (cb n r region arg).2.2,
                      reported ++ [(n, r)]⟩
                  else
                    match reg.enc.mbc_enc_len x start with
                    | none => .undef
                    | some len =>
                      if start + len > x.end_ then
                        .done ⟨n + 1, (cb n r region arg).2.1, (cb n r region arg).2.2,
                          reported ++ [(n, r)]⟩
                      else onig_scan_loop L fuel reg x option cb
                        k (n + 1) (start + len) (cb n r region arg).2.1
                        (cb n r region arg).2.2 (reported ++ [(n, r)])
                else
                  if x.str + e0 > x.end_ then
                    .done ⟨n + 1, (cb n r region arg).2.1, (cb n r region arg).2.2,
                      reported ++ [(n, r)]⟩
                  else onig_scan_loop L fuel reg x option cb
                    k (n + 1) (x.str + e0) (cb n r region arg).2.1 (cb n r region arg).2.2
                    (reported ++ [(n, r)])
            | _ => .undef
        else if r = ONIG_MISMATCH then .done ⟨n, region, arg, reported⟩
        else .done ⟨r, region, arg, reported⟩ := rfl

/-- One round of the loop of `onig_scan` after a successful search and a
callback that returned 0 and left an `OnigRegion` whose `end[0]` is not
before `start - str`: the round returns `n + 1`, or a read is undefined, or
the loop goes on from a `start` that moved forward. -/
theorem onig_scan_loop_round {α : Type} (L : Env) (fuel : Nat) (reg : regex_t) (x : Subject)
    (option : Nat) (cb : Int → Int → RegionArg → α → Int × RegionArg × α)
    (hlen : ∀ p l, reg.enc.mbc_enc_len x p = some l → 1 ≤ l)
    (k : Nat) (n start : Int) (region : RegionArg) (arg : α) (reported : List (Int × Int))
    (r : Int) (region1 : RegionArg) (rg : OnigRegion) (e0 : Int)
    (hs : onig_search L fuel reg x start x.end_ region option = .done (r, region1))
    (hr : 0 ≤ r) (hcb : (cb n r region1 arg).1 = 0)
    (hrg : (cb n r region1 arg).2.1 = .onig rg) (he : getI rg.end_ 0 = some e0)
    (hle : start - x.str ≤ e0) :
    (∃ res, onig_scan_loop L fuel reg x option cb (k + 1) n start region arg reported =
        .done res ∧ res.r = n + 1) ∨
    onig_scan_loop L fuel reg x option cb (k + 1) n start region arg reported = .undef ∨
    ∃ start', start < start' ∧ start' ≤ x.end_ ∧
      (if e0 = start - x.str then reg.enc.mbc_enc_len x start = some (start' - start)
       else start' = x.str + e0) ∧
      onig_scan_loop L fuel reg x option cb (k + 1) n start region arg reported =
        onig_scan_loop L fuel reg x option cb k (n + 1) start' (.onig rg)
          (cb n r region1 arg).2.2 (reported ++ [(n, r)]) := by
  rw [onig_scan_loop_succ]
  rw [hs]
  dsimp only
  rw [if_pos hr, if_neg (by rw [hcb]; decide), hrg]
  dsimp only
  rw [he]
  dsimp only
  by_cases h1 : e0 = start - x.str
  · rw [if_pos h1]
    by_cases h2 : start ≥ x.end_
    · rw [if_pos h2]
      exact Or.inl ⟨_, rfl, rfl⟩
    · rw [if_neg h2]
      cases hl : reg.enc.mbc_enc_len x start with
      | none => exact Or.inr (Or.inl rfl)
      | some len =>
        dsimp only
        by_cases h3 : start + len > x.end_
        · rw [if_pos h3]
          exact Or.inl ⟨_, rfl, rfl⟩
        · rw [if_neg h3]
          have := hlen _ _ hl
          refine Or.inr (Or.inr ⟨start + len, by omega, by omega, ?_, rfl⟩)
          rw [if_pos h1]
          congr 1
          omega
  · rw [if_neg h1]
    by_cases h3 : x.str + e0 > x.end_
    · rw [if_pos h3]
      exact Or.inl ⟨_, rfl, rfl⟩
    · rw [if_neg h3]
      refine Or.inr (Or.inr ⟨x.str + e0, by omega, by omega, ?_, rfl⟩)
      rw [if_neg h1]

theorem onig_scan_loop_returns {α : Type} (L : Env) (fuel : Nat) (reg : regex_t) (x : Subject)
    (option : Nat) (cb : Int → Int → RegionArg → α → Int × RegionArg × α)
    (I : Int → RegionArg → Prop)
    (hlen : ∀ p l, reg.enc.mbc_enc_len x p = some l → 1 ≤ l)
    (hend : ∀ start region r region1 n arg rg e0, I start region →
      onig_search L fuel reg x start x.end_ region option = .done (r, region1) → 0 ≤ r →
      (cb n r region1 arg).1 = 0 → (cb n r region1 arg).2.1 = .onig rg →
      getI rg.end_ 0 = some e0 →
      start - x.str ≤ e0 ∧
      ∀ start', (if e0 = start - x.str then
          reg.enc.mbc_enc_len x start = some (start' - start)
        else start' = x.str + e0) → I start' (.onig rg))
    (hterm : ∀ start region, I start region →
      onig_search L fuel reg x start x.end_ region option ≠ .nofuel) :
    ∀ (k : Nat) (n start : Int) (region : RegionArg) (arg : α) (reported : List (Int × Int)),
      I start region → (x.end_ - start).toNat + 1 ≤ k →
      onig_scan_loop L fuel reg x option cb k n start region arg reported ≠ .nofuel := by
  intro k
  induction k with
  | zero => intro n start region arg reported _ hk; omega
  | succ k ih =>
    intro n start region arg reported hI hk
    cases hs : onig_search L fuel reg x start x.end_ region option with
    | nofuel => exact absurd hs (hterm start region hI)
    | undef =>
      rw [onig_scan_loop_succ]
      rw [hs]
      intro h; cases h
    | done v =>
      obtain ⟨r, region1⟩ := v
      by_cases hr : r ≥ 0
      · by_cases hcb : (cb n r region1 arg).1 ≠ 0
        · rw [onig_scan_loop_succ]
          rw [hs]
          dsimp only
          rw [if_pos hr, if_pos hcb]
          intro h; cases h
        · cases hrg : (cb n r region1 arg).2.1 with
          | onig rg =>
            cases he : getI rg.end_ 0 with
            | none =>
              rw [onig_scan_loop_succ]
              rw [hs]
              dsimp only
              rw [if_pos hr, if_neg hcb, hrg]
              dsimp only
              rw [he]
              intro h; cases h
            | some e0 =>
              obtain ⟨hle, hnext⟩ := hend start region r region1 n arg rg e0 hI hs hr
                (by omega) hrg he
              rcases onig_scan_loop_round L fuel reg x option cb hlen k n start region arg
                reported r region1 rg e0 hs hr (by omega) hrg he hle with
                ⟨res, h1, _⟩ | h1 | ⟨s1, h1, h2, h4, h3⟩
              · rw [h1]; intro h; cases h
              · rw [h1]; intro h; cases h
              · rw [h3]
                exact ih _ _ _ _ _ (hnext s1 h4) (by omega)
          | null =>
            rw [onig_scan_loop_succ]
            rw [hs]
            dsimp only
            rw [if_pos hr, if_neg hcb, hrg]
            intro h; cases h
          | posix rmt =>
            rw [onig_scan_loop_succ]
            rw [hs]
            dsimp only
            rw [if_pos hr, if_neg hcb, hrg]
            intro h; cases h
      · rw [onig_scan_loop_succ]
        rw [hs]
        dsimp only
        rw [if_neg hr]
        split <;> (intro h; cases h)

/-- C11, a counterexample: the scan of `aa` for the program of `a` with a
callback that writes `region->end[0] = 0`.  The search from `str` leaves
`end[0] = 1 ≥ 0` and the search from `str + 1` leaves `end[0] = 2 ≥ 1`, but
the loop reads `region->end[0]` after the callback: the second round sets
`start = str + 0`, the third search matches at the offset 0 again, and the
callback is invoked a fourth time, after more than `(end - str) + 1 = 3`
searches. -/
theorem C11_counterexample :
    observe 1 (onig_search 0 100 regex_a subject_aa 1000 subject_aa.end_
      (.onig onig_region_init) 0) = some (0, [(0, 1)]) ∧
    observe 1 (onig_search 0 100 regex_a subject_aa 1001 subject_aa.end_
      (.onig onig_region_init) 0) = some (1, [(1, 2)]) ∧
    observe_scan (onig_scan 0 100 10 regex_a subject_aa (.onig onig_region_init) 0
      callback_rewind ()) = some (7, [(0, 0), (1, 1), (2, 0), (3, 1)]) ∧
    (4 : Int) > subject_aa.end_ - subject_aa.str + 1 := by
  decide!

/-- C11 as amended: in the loop of `onig_scan`, when every character of the
encoding is at least one byte long and in every round the `region.end[0]`
that the loop reads after the callback returned is not before `start - str`
(as when every successful search leaves it so and the callback does not write
it), a round that goes on moves `start` forward, by the length of the
character at `start` when `region.end[0] = start - str` and to `str +
region.end[0]` otherwise (else the round returns `n + 1`, or a read is
undefined); hence, when no search runs out of fuel, the loop returns within
`(end - start) + 1` rounds, that is searches, from any `start`, and within
`(end - str) + 1` from `str`.  `I` is any property of `start` and the region
that holds where the loop is entered and that the rounds keep, for instance
the one that always holds. -/
theorem C11_scan_progress {α : Type} (L : Env) (fuel : Nat) (reg : regex_t) (x : Subject)
    (option : Nat) (cb : Int → Int → RegionArg → α → Int × RegionArg × α)
    (I : Int → RegionArg → Prop)
    (hlen : ∀ p l, reg.enc.mbc_enc_len x p = some l → 1 ≤ l)
    (hend : ∀ start region r region1 n arg rg e0, I start region →
      onig_search L fuel reg x start x.end_ region option = .done (r, region1) → 0 ≤ r →
      (cb n r region1 arg).1 = 0 → (cb n r region1 arg).2.1 = .onig rg →
      getI rg.end_ 0 = some e0 →
      start - x.str ≤ e0 ∧
      ∀ start', (if e0 = start - x.str then
          reg.enc.mbc_enc_len x start = some (start' - start)
        else start' = x.str + e0) → I start' (.onig rg))
    (hterm : ∀ start region, I start region →
      onig_search L fuel reg x start x.end_ region option ≠ .nofuel) :
    (∀ (k : Nat) (n start : Int) (region : RegionArg) (arg : α)
        (reported : List (Int × Int)) (r : Int) (region1 : RegionArg) (rg : OnigRegion)
        (e0 : Int), I start region →
      onig_search L fuel reg x start x.end_ region option = .done (r, region1) → 0 ≤ r →
      (cb n r region1 arg).1 = 0 → (cb n r region1 arg).2.1 = .onig rg →
      getI rg.end_ 0 = some e0 →
      (∃ res, onig_scan_loop L fuel reg x option cb (k + 1) n start region arg reported =
          .done res ∧ res.r = n + 1) ∨
      onig_scan_loop L fuel reg x option cb (k + 1) n start region arg reported = .undef ∨
      ∃ start', start < start' ∧ start' ≤ x.end_ ∧
        (if e0 = start - x.str then reg.enc.mbc_enc_len x start = some (start' - start)
         else start' = x.str + e0) ∧
        onig_scan_loop L fuel reg x option cb (k + 1) n start region arg reported =
          onig_scan_loop L fuel reg x option cb k (n + 1) start' (.onig rg)
            (cb n r region1 arg).2.2 (reported ++ [(n, r)])) ∧
    (∀ (k : Nat) (n start : Int) (region : RegionArg) (arg : α)
        (reported : List (Int × Int)), I start region → (x.end_ - start).toNat + 1 ≤ k →
      onig_scan_loop L fuel reg x option cb k n start region arg reported ≠ .nofuel) ∧
    (∀ (region : RegionArg) (arg : α), I x.str region →
      onig_scan_loop L fuel reg x option cb ((x.end_ - x.str).toNat + 1) 0 x.str region arg []
        ≠ .nofuel) := by
  refine ⟨?_, ?_, ?_⟩
  · intro k n start region arg reported r region1 rg e0 hI hs hr hcb hrg he
    exact onig_scan_loop_round L fuel reg x option cb hlen k n start region arg reported r
      region1 rg e0 hs hr hcb hrg he (hend start region r region1 n arg rg e0 hI hs hr hcb
        hrg he).1
  · exact onig_scan_loop_returns L fuel reg x option cb I hlen hend hterm
  · intro region arg hI
    exact onig_scan_loop_returns L fuel reg x option cb I hlen hend hterm _ _ _ _ _ _ hI
      (le_refl _)

/-- In the scan of `aa` for `a` no search runs out of fuel. -/
theorem scan_inv_term (start : Int) (region : RegionArg) (hI : scan_inv start region) :
    onig_search 0 100 regex_a subject_aa start subject_aa.end_ region 0 ≠ .nofuel := by
  intro h
  have h1 := congrArg Outcome.is_nofuel h
  rcases hI with ⟨h2, h3⟩ | ⟨h2, h3⟩ | ⟨h2, h3⟩
  · rw [h2, h3] at h1
    have e1 : (onig_search 0 100 regex_a subject_aa 1000 subject_aa.end_
        (.onig onig_region_init) 0).is_nofuel = false := by decide!
    rw [e1] at h1
    cases h1
  · rw [h2, h3] at h1
    have e1 : (onig_search 0 100 regex_a subject_aa 1001 subject_aa.end_
        scan_region_1 0).is_nofuel = false := by decide!
    rw [e1] at h1
    cases h1
  · rw [h2, h3] at h1
    have e1 : (onig_search 0 100 regex_a subject_aa 1002 subject_aa.end_
        scan_region_2 0).is_nofuel = false := by decide!
    rw [e1] at h1
    cases h1

/-- In the scan of `aa` for `a` with a callback that leaves the region as it
is, every successful search leaves `end[0]` after `start - str`, and the next
round is entered as `scan_inv` says. -/
theorem scan_inv_end (start : Int) (region : RegionArg) (r : Int) (region1 : RegionArg)
    (n : Int) (arg : Unit) (rg : OnigRegion) (e0 : Int) (hI : scan_inv start region)
    (hs : onig_search 0 100 regex_a subject_aa start subject_aa.end_ region 0 =
      .done (r, region1))
    (hr : 0 ≤ r) (hcb : (callback_zero n r region1 arg).1 = 0)
    (hrg : (callback_zero n r region1 arg).2.1 = .onig rg) (he : getI rg.end_ 0 = some e0) :
    start - subject_aa.str ≤ e0 ∧
      ∀ start', (if e0 = start - subject_aa.str then
          regex_a.enc.mbc_enc_len subject_aa start = some (start' - start)
        else start' = subject_aa.str + e0) → scan_inv start' (.onig rg) := by
  have hv : (onig_search 0 100 regex_a subject_aa start subject_aa.end_ region 0).value = r :=
    congrArg Outcome.value hs
  have hreg : (onig_search 0 100 regex_a subject_aa start subject_aa.end_ region 0).region =
      .onig rg := (congrArg Outcome.region hs).trans hrg
  have hrg1 : (onig_search 0 100 regex_a subject_aa start subject_aa.end_
      region 0).region.onig_region = rg := congrArg RegionArg.onig_region hreg
  rw [← hrg1] at he
  rcases hI with ⟨h2, h3⟩ | ⟨h2, h3⟩ | ⟨h2, h3⟩
  · rw [h2, h3] at hv hreg he
    rw [h2]
    have e1 : getI (onig_search 0 100 regex_a subject_aa 1000 subject_aa.end_
        (.onig onig_region_init) 0).region.onig_region.end_ 0 = some 1 := by decide!
    rw [e1] at he
    cases he
    have hstr : subject_aa.str = 1000 := rfl
    rw [hstr]
    refine ⟨by omega, fun s1 hs1 => ?_⟩
    rw [if_neg (by omega)] at hs1
    refine Or.inr (Or.inl ⟨by omega, ?_⟩)
    exact hreg.symm
  · rw [h2, h3] at hv hreg he
    rw [h2]
    have e1 : getI (onig_search 0 100 regex_a subject_aa 1001 subject_aa.end_
        scan_region_1 0).region.onig_region.end_ 0 = some 2 := by decide!
    rw [e1] at he
    cases he
    have hstr : subject_aa.str = 1000 := rfl
    rw [hstr]
    refine ⟨by omega, fun s1 hs1 => ?_⟩
    rw [if_neg (by omega)] at hs1
    refine Or.inr (Or.inr ⟨by omega, ?_⟩)
    exact hreg.symm
  · rw [h2, h3] at hv hreg he
    rw [h2]
    have e1 : (onig_search 0 100 regex_a subject_aa 1002 subject_aa.end_
        scan_region_2 0).value = -1 := by decide!
    rw [e1] at hv
    omega

theorem C11_scan_progress_witness :
    observe_scan (onig_scan 0 100 3 regex_a subject_aa (.onig onig_region_init) 0
      callback_zero ()) = some (2, [(0, 0), (1, 1)]) ∧
    onig_scan_loop 0 100 regex_a subject_aa 0 callback_zero
      ((subject_aa.end_ - subject_aa.str).toNat + 1) 0 subject_aa.str
      (.onig onig_region_init) () [] ≠ .nofuel :=
  ⟨by decide!,
   (C11_scan_progress 0 100 regex_a subject_aa 0 callback_zero scan_inv
    (fun p l h => by cases h; decide)
    (fun start region r region1 n arg rg e0 hI hs hr hcb hrg he =>
      scan_inv_end start region r region1 n arg rg e0 hI hs hr hcb hrg he)
    scan_inv_term).2.2 (.onig onig_region_init) () (Or.inl ⟨rfl, rfl⟩)⟩


/-! ## A choice point and the failure that follows it -/

theorem join_get?_realloc (stack : List (Option StackType)) (n i : Nat) (hi : i < n) :
    ((stack.take n ++ List.replicate (n - stack.length) none).get? i).join =
      (stack.get? i).join := by
  rw [List.get?_eq_getElem?, List.get?_eq_getElem?]
  by_cases h : i < stack.length
  · rw [List.getElem?_append_left (by simp; omega), List.getElem?_take_of_lt hi]
  · rw [List.getElem?_append_right (by simp; omega)]
    rw [List.getElem?_eq_none (l := stack) (by omega)]
    simp only [List.length_take]
    rw [List.getElem?_replicate]
    split <;> rfl

theorem STACK_AT_realloc (st st1 : MatchState) (i : Int)
    (h : st1.stack = stack_realloc st.stack st.stk_end)
    (hi : i < ((st.stk_end * 2 % 4294967296 : Nat) : Int)) :
    STACK_AT st1 i = STACK_AT st i := by
  unfold STACK_AT getI
  rw [h]
  unfold stack_realloc
  dsimp only
  split
  · exact join_get?_realloc _ _ _ (by omega)
  · rfl

/-- What `STACK_PUSH` leaves when it goes on. -/
theorem STACK_PUSH_ok_inv {ctx : Ctx} {t : Nat} {pat s sprev : Int} {st st1 : MatchState}
    (hwf : st.stk ≤ st.stk_end) (h32 : st.stk_end * 2 < 4294967296)
    (h : STACK_PUSH ctx t pat s sprev st = .ok () st1) :
    st1.p = st.p ∧ st1.s = st.s ∧ st1.sprev = st.sprev ∧ st1.stk = st.stk + 1 ∧
    STACK_AT st1 st.stk = some ⟨t, .state pat s sprev⟩ ∧
    (∀ i : Int, i < st.stk → STACK_AT st1 i = STACK_AT st i) := by
  unfold STACK_PUSH at h
  obtain ⟨_, sta, h1, h2⟩ := bind_ok_inv h
  obtain ⟨e1, e2, e3, _, _, _, e7, _, _, _, e11⟩ := STACK_ENSURE_ok_inv h1
  obtain ⟨hlt, h3⟩ := push_frame_ok_inv h2
  subst h3
  refine ⟨e1, e2, e3, by simp only [e7], ?_, ?_⟩
  · rw [← e7]
    exact STACK_AT_set_eq _ _ rfl hlt
  · intro i hi
    rw [@STACK_AT_set_ne _ sta sta.stk _ i rfl (by omega)]
    rcases e11 with e | e
    · exact STACK_AT_congr e i
    · refine STACK_AT_realloc st _ i e ?_
      rw [Nat.mod_eq_of_lt h32]
      omega

theorem STACK_POP_loop_alt (lvl k : Nat) (st : MatchState) (fr : StackType)
    (hfr : STACK_AT st k = some fr) (halt : fr.type &&& STK_MASK_POP_USED ≠ 0) :
    STACK_POP_loop lvl (k + 1) st = some { st with stk := k } := by
  unfold STACK_POP_loop
  rw [hfr]
  dsimp only
  rw [if_pos halt]

/-- The code at `fail` when the frame below `stk` is a frame of `STACK_PUSH`
with the bit of `STK_ALT`. -/
theorem op_FAIL_top_alt (ctx : Ctx) (st : MatchState) (k : Nat) (t : Nat)
    (pat s sprev : Int) (hk : st.stk = k + 1)
    (hfr : STACK_AT st k = some ⟨t, .state pat s sprev⟩)
    (halt : t &&& STK_MASK_POP_USED ≠ 0) :
    op_FAIL ctx st = .ok () { st with p := pat, s := s, sprev := sprev, stk := k } := by
  have hpop : STACK_POP ctx.reg.stack_pop_level st = .ok () { st with stk := k } := by
    unfold STACK_POP
    rw [hk, STACK_POP_loop_alt _ k st _ hfr halt]
  unfold op_FAIL
  rw [run_bind_ok hpop]
  simp only [run_bind, run_getS]
  have h2 : STACK_AT { st with stk := k } (k : Int) = some ⟨t, .state pat s sprev⟩ := hfr
  rw [h2]
  simp only [run_liftO_some, run_modS]


/-! ## The frames of a group and their restoration -/

theorem setI_ok_inv {α : Type} {l l1 : List α} {i : Int} {v : α}
    (h : setI l i v = some l1) : 0 ≤ i ∧ i.toNat < l.length ∧ l1.length = l.length := by
  unfold setI at h
  split at h
  · rename_i hb
    cases h
    exact ⟨hb.1, hb.2, List.length_set _ _ _⟩
  · cases h

theorem setI_of_bounds {α : Type} (l : List α) (i : Int) (v : α)
    (h0 : 0 ≤ i) (h1 : i.toNat < l.length) : setI l i v = some (l.set i.toNat v) := by
  unfold setI
  rw [if_pos ⟨h0, h1⟩]

theorem ptr_get_setI_eq {l l1 : List (Option Int)} {i : Int} {v : Int}
    (h : setI l i (some v) = some l1) : ptr_get l1 i = some v := by
  unfold ptr_get
  rw [getI_setI_eq h]
  rfl

theorem ptr_get_some_bounds {l : List (Option Int)} {i v : Int}
    (h : ptr_get l i = some v) : 0 ≤ i ∧ i.toNat < l.length := by
  unfold ptr_get getI at h
  split at h
  · rename_i h0
    refine ⟨h0, ?_⟩
    by_contra hc
    rw [List.get?_eq_none.mpr (by omega)] at h
    cases h
  · cases h

/-- What `STACK_PUSH_MEM_START` leaves when it goes on. -/
theorem STACK_PUSH_MEM_START_ok_inv {ctx : Ctx} {mnum s : Int} {st st1 : MatchState}
    (hwf : st.stk ≤ st.stk_end) (h32 : st.stk_end * 2 < 4294967296)
    (h : STACK_PUSH_MEM_START ctx mnum s st = .ok () st1) :
    ∃ start0 end0, ptr_get st.mem_start_stk mnum = some start0 ∧
      ptr_get st.mem_end_stk mnum = some end0 ∧
      ptr_get st1.mem_start_stk mnum = some (st.stk : Int) ∧
      ptr_get st1.mem_end_stk mnum = some INVALID_STACK_INDEX ∧
      STACK_AT st1 st.stk = some ⟨STK_MEM_START, .mem mnum s start0 end0⟩ ∧
      st1.stk = st.stk + 1 ∧
      st1.mem_start_stk.length = st.mem_start_stk.length ∧
      st1.mem_end_stk.length = st.mem_end_stk.length := by
  unfold STACK_PUSH_MEM_START at h
  obtain ⟨_, sta, h1, h2⟩ := bind_ok_inv h
  obtain ⟨e1, e2, e3, _, _, _, e7, _, e9, e10, e11⟩ := STACK_ENSURE_ok_inv h1
  simp only [run_bind, run_getS] at h2
  cases hs : ptr_get sta.mem_start_stk mnum with
  | none => simp only [hs, run_liftO_none] at h2; cases h2
  | some start0 =>
    cases he : ptr_get sta.mem_end_stk mnum with
    | none => simp only [hs, he, run_liftO_some, run_liftO_none] at h2; cases h2
    | some end0 =>
      cases hms : setI sta.mem_start_stk mnum (some (sta.stk : Int)) with
      | none => simp only [hs, he, hms, run_liftO_some, run_liftO_none] at h2; cases h2
      | some ms =>
        cases hme : setI sta.mem_end_stk mnum (some INVALID_STACK_INDEX) with
        | none =>
          simp only [hs, he, hms, hme, run_liftO_some, run_liftO_none] at h2; cases h2
        | some me =>
          simp only [hs, he, hms, hme, run_liftO_some, run_modS] at h2
          obtain ⟨hlt, h3⟩ := push_frame_ok_inv h2
          subst h3
          dsimp only at hlt ⊢
          refine ⟨start0, end0, by rw [← e9]; exact hs, by rw [← e10]; exact he, ?_, ?_, ?_,
            by rw [e7], ?_, ?_⟩
          · rw [← e7]; exact ptr_get_setI_eq hms
          · exact ptr_get_setI_eq hme
          · rw [← e7]
            exact STACK_AT_set_eq _ _ rfl hlt
          · rw [(setI_ok_inv hms).2.2, e9]
          · rw [(setI_ok_inv hme).2.2, e10]

/-- What `STACK_PUSH_MEM_END` leaves when it goes on. -/
theorem STACK_PUSH_MEM_END_ok_inv {ctx : Ctx} {mnum s : Int} {st st1 : MatchState}
    (hwf : st.stk ≤ st.stk_end) (h32 : st.stk_end * 2 < 4294967296)
    (h : STACK_PUSH_MEM_END ctx mnum s st = .ok () st1) :
    ∃ start0 end0, ptr_get st.mem_start_stk mnum = some start0 ∧
      ptr_get st.mem_end_stk mnum = some end0 ∧
      ptr_get st1.mem_start_stk mnum = some start0 ∧
      ptr_get st1.mem_end_stk mnum = some (st.stk : Int) ∧
      STACK_AT st1 st.stk = some ⟨STK_MEM_END, .mem mnum s start0 end0⟩ ∧
      st1.stk = st.stk + 1 ∧
      st1.mem_start_stk.length = st.mem_start_stk.length ∧
      st1.mem_end_stk.length = st.mem_end_stk.length := by
  unfold STACK_PUSH_MEM_END at h
  obtain ⟨_, sta, h1, h2⟩ := bind_ok_inv h
  obtain ⟨e1, e2, e3, _, _, _, e7, _, e9, e10, e11⟩ := STACK_ENSURE_ok_inv h1
  simp only [run_bind, run_getS] at h2
  cases hs : ptr_get sta.mem_start_stk mnum with
  | none => simp only [hs, run_liftO_none] at h2; cases h2
  | some start0 =>
    cases he : ptr_get sta.mem_end_stk mnum with
    | none => simp only [hs, he, run_liftO_some, run_liftO_none] at h2; cases h2
    | some end0 =>
      cases hme : setI sta.mem_end_stk mnum (some (sta.stk : Int)) with
      | none => simp only [hs, he, hme, run_liftO_some, run_liftO_none] at h2; cases h2
      | some me =>
        simp only [hs, he, hme, run_liftO_some, run_modS] at h2
        obtain ⟨hlt, h3⟩ := push_frame_ok_inv h2
        subst h3
        dsimp only at hlt ⊢
        refine ⟨start0, end0, by rw [← e9]; exact hs, by rw [← e10]; exact he,
          hs, ?_, ?_, by rw [e7], by rw [e9], ?_⟩
        · rw [← e7]; exact ptr_get_setI_eq hme
        · rw [← e7]
          exact STACK_AT_set_eq _ _ rfl hlt
        · rw [(setI_ok_inv hme).2.2, e10]

theorem STACK_POP_loop_succ (lvl k : Nat) (st : MatchState) :
    STACK_POP_loop lvl (k + 1) st =
      match STACK_AT st k with
      | none => none
      | some fr =>
        if fr.type &&& STK_MASK_POP_USED ≠ 0 then some { st with stk := k }
        else if lvl = STACK_POP_LEVEL_FREE then STACK_POP_loop lvl k st
        else if lvl = STACK_POP_LEVEL_MEM_START then
          if fr.type = STK_MEM_START then
            (pop_restore_mem st fr).bind (STACK_POP_loop lvl k)
          else STACK_POP_loop lvl k st
        else (pop_restore_all st fr).bind (STACK_POP_loop lvl k) := rfl

/-- The walk of `STACK_POP` over a frame with the member `mem` that it
restores from: both cells of the group get the values kept in the frame,
and the walk goes on below the frame. -/
theorem STACK_POP_loop_restore (lvl k : Nat) (st : MatchState) (t : Nat)
    (num pstr start0 end0 : Int)
    (hfr : STACK_AT st k = some ⟨t, .mem num pstr start0 end0⟩)
    (ht : (t = STK_MEM_START ∧ lvl ≠ STACK_POP_LEVEL_FREE) ∨
      (t = STK_MEM_END ∧ lvl ≠ STACK_POP_LEVEL_FREE ∧ lvl ≠ STACK_POP_LEVEL_MEM_START))
    (h0 : 0 ≤ num) (hs : num.toNat < st.mem_start_stk.length)
    (he : num.toNat < st.mem_end_stk.length) :
    ∃ st3, STACK_POP_loop lvl (k + 1) st = STACK_POP_loop lvl k st3 ∧
      ptr_get st3.mem_start_stk num = some start0 ∧
      ptr_get st3.mem_end_stk num = some end0 ∧
      st3 = { st with mem_start_stk := st.mem_start_stk.set num.toNat (some start0),
                      mem_end_stk := st.mem_end_stk.set num.toNat (some end0) } := by
  have hms := setI_of_bounds st.mem_start_stk num (some start0) h0 hs
  have hme := setI_of_bounds st.mem_end_stk num (some end0) h0 he
  have hr : pop_restore_mem st ⟨t, .mem num pstr start0 end0⟩ =
      some { st with mem_start_stk := st.mem_start_stk.set num.toNat (some start0),
                     mem_end_stk := st.mem_end_stk.set num.toNat (some end0) } := by
    unfold pop_restore_mem
    dsimp only
    rw [hms, hme]
  refine ⟨_, ?_, ptr_get_setI_eq hms, ptr_get_setI_eq hme, rfl⟩
  rw [STACK_POP_loop_succ, hfr]
  dsimp only
  rcases ht with ⟨ht, hl⟩ | ⟨ht, hl, hl2⟩
  · subst ht
    rw [if_neg (by decide), if_neg hl]
    by_cases hl2 : lvl = STACK_POP_LEVEL_MEM_START
    · rw [if_pos hl2, if_pos rfl, hr]
      rfl
    · rw [if_neg hl2]
      unfold pop_restore_all
      dsimp only
      rw [if_pos rfl, hr]
      rfl
  · subst ht
    rw [if_neg (by decide), if_neg hl, if_neg hl2]
    unfold pop_restore_all
    dsimp only
    rw [if_neg (by decide), if_neg (by decide), if_pos rfl, hr]
    rfl

/-- C20: `OP_MEMORY_START_PUSH(num)` (in locals `st`, the stack not above its
end) sets `mem_start_stk[num]` to the index of the frame it pushes and
`mem_end_stk[num]` to `INVALID_STACK_INDEX`, and keeps in the frame the
values `start0` and `end0` that the two cells had; when a later walk of
`STACK_POP` with a pop level other than `STACK_POP_LEVEL_FREE` comes to that
frame (in locals `st2` that hold the frame at its index), it goes on below
the frame in the locals `st2` with `start0` in `mem_start_stk[num]` and
`end0` in `mem_end_stk[num]` and nothing else changed, and when the frame
below it is an `ALT*` frame the walk ends there and returns these locals.
With a pop level that
is neither `FREE` nor `MEM_START` the same holds of the frame of
`OP_MEMORY_END_PUSH(num)` (in locals `se`), which sets `mem_end_stk[num]` to
the index of its frame. -/
theorem C20_group_frames_restore (ctx : Ctx) (lvl : Nat) (st st1 st2 se se1 se2 : MatchState)
    (hwf : st.stk ≤ st.stk_end) (h32 : st.stk_end * 2 < 4294967296)
    (hwfe : se.stk ≤ se.stk_end) (h32e : se.stk_end * 2 < 4294967296)
    (hlvl : lvl ≠ STACK_POP_LEVEL_FREE)
    (h : op_MEMORY_START_PUSH ctx st = .ok () st1)
    (hfr : STACK_AT st2 st.stk = STACK_AT st1 st.stk)
    (hl1 : st2.mem_start_stk.length = st.mem_start_stk.length)
    (hl2 : st2.mem_end_stk.length = st.mem_end_stk.length)
    (he : op_MEMORY_END_PUSH ctx se = .ok () se1)
    (hfre : STACK_AT se2 se.stk = STACK_AT se1 se.stk)
    (hl1e : se2.mem_start_stk.length = se.mem_start_stk.length)
    (hl2e : se2.mem_end_stk.length = se.mem_end_stk.length) :
    (∃ v start0 end0, operand_at ctx.reg st.p SIZE_MEMNUM.toNat = some v ∧
      ptr_get st.mem_start_stk (to_signed 16 v) = some start0 ∧
      ptr_get st.mem_end_stk (to_signed 16 v) = some end0 ∧
      ptr_get st1.mem_start_stk (to_signed 16 v) = some (st.stk : Int) ∧
      ptr_get st1.mem_end_stk (to_signed 16 v) = some INVALID_STACK_INDEX ∧
      st1.stk = st.stk + 1 ∧
      STACK_AT st1 st.stk = some ⟨STK_MEM_START, .mem (to_signed 16 v) st.s start0 end0⟩ ∧
      STACK_POP_loop lvl (st.stk + 1) st2 =
        STACK_POP_loop lvl st.stk
          { st2 with
            mem_start_stk := st2.mem_start_stk.set (to_signed 16 v).toNat (some start0),
            mem_end_stk := st2.mem_end_stk.set (to_signed 16 v).toNat (some end0) } ∧
      ptr_get (st2.mem_start_stk.set (to_signed 16 v).toNat (some start0)) (to_signed 16 v) =
        some start0 ∧
      ptr_get (st2.mem_end_stk.set (to_signed 16 v).toNat (some end0)) (to_signed 16 v) =
        some end0 ∧
      ∀ (fr : StackType) (k : Nat), st.stk = k + 1 → STACK_AT st2 k = some fr →
        fr.type &&& STK_MASK_POP_USED ≠ 0 →
        STACK_POP_loop lvl (st.stk + 1) st2 = some
          { st2 with
            mem_start_stk := st2.mem_start_stk.set (to_signed 16 v).toNat (some start0),
            mem_end_stk := st2.mem_end_stk.set (to_signed 16 v).toNat (some end0),
            stk := k }) ∧
    (lvl ≠ STACK_POP_LEVEL_MEM_START →
      ∃ v start0 end0, operand_at ctx.reg se.p SIZE_MEMNUM.toNat = some v ∧
        ptr_get se.mem_start_stk (to_signed 16 v) = some start0 ∧
        ptr_get se.mem_end_stk (to_signed 16 v) = some end0 ∧
        ptr_get se1.mem_start_stk (to_signed 16 v) = some start0 ∧
        ptr_get se1.mem_end_stk (to_signed 16 v) = some (se.stk : Int) ∧
        se1.stk = se.stk + 1 ∧
        STACK_AT se1 se.stk = some ⟨STK_MEM_END, .mem (to_signed 16 v) se.s start0 end0⟩ ∧
        STACK_POP_loop lvl (se.stk + 1) se2 =
          STACK_POP_loop lvl se.stk
            { se2 with
              mem_start_stk := se2.mem_start_stk.set (to_signed 16 v).toNat (some start0),
              mem_end_stk := se2.mem_end_stk.set (to_signed 16 v).toNat (some end0) } ∧
        ptr_get (se2.mem_start_stk.set (to_signed 16 v).toNat (some start0))
          (to_signed 16 v) = some start0 ∧
        ptr_get (se2.mem_end_stk.set (to_signed 16 v).toNat (some end0))
          (to_signed 16 v) = some end0 ∧
        ∀ (fr : StackType) (k : Nat), se.stk = k + 1 → STACK_AT se2 k = some fr →
          fr.type &&& STK_MASK_POP_USED ≠ 0 →
          STACK_POP_loop lvl (se.stk + 1) se2 = some
            { se2 with
              mem_start_stk := se2.mem_start_stk.set (to_signed 16 v).toNat (some start0),
              mem_end_stk := se2.mem_end_stk.set (to_signed 16 v).toNat (some end0),
              stk := k }) := by
  constructor
  · unfold op_MEMORY_START_PUSH at h
    obtain ⟨mem, sta, h1, h2⟩ := bind_ok_inv h
    unfold GET_MEMNUM_INC at h1
    obtain ⟨v, stb, h3, h4⟩ := bind_ok_inv h1
    obtain ⟨hv, hstb⟩ := GET_OPERAND_INC_ok_inv h3
    cases h4
    subst hstb
    simp only [run_bind, run_getS] at h2
    obtain ⟨start0, end0, e1, e2, e3, e4, e5, e6, e7, e8⟩ :=
      @STACK_PUSH_MEM_START_ok_inv ctx _ _ { st with p := st.p + SIZE_MEMNUM.toNat } st1
        hwf h32 h2
    refine ⟨v, start0, end0, hv, e1, e2, e3, e4, e6, e5, ?_⟩
    dsimp only at e1 e2 e3 e4 e5 e6 e7 e8
    have hb := ptr_get_some_bounds e1
    have hbe := (ptr_get_some_bounds e2).2
    obtain ⟨st3, p1, p2, p3, p4⟩ := STACK_POP_loop_restore lvl st.stk st2 STK_MEM_START
      (to_signed 16 v) st.s start0 end0 (by rw [hfr]; exact e5) (Or.inl ⟨rfl, hlvl⟩) hb.1
      (by rw [hl1]; exact hb.2) (by rw [hl2]; exact hbe)
    subst p4
    refine ⟨p1, p2, p3, ?_⟩
    intro fr k hk hfrk halt
    rw [p1, hk]
    exact STACK_POP_loop_alt lvl k _ fr hfrk halt
  · intro hlvl2
    unfold op_MEMORY_END_PUSH at he
    obtain ⟨mem, sta, h1, h2⟩ := bind_ok_inv he
    unfold GET_MEMNUM_INC at h1
    obtain ⟨v, stb, h3, h4⟩ := bind_ok_inv h1
    obtain ⟨hv, hstb⟩ := GET_OPERAND_INC_ok_inv h3
    cases h4
    subst hstb
    simp only [run_bind, run_getS] at h2
    obtain ⟨start0, end0, e1, e2, e3, e4, e5, e6, e7, e8⟩ :=
      @STACK_PUSH_MEM_END_ok_inv ctx _ _ { se with p := se.p + SIZE_MEMNUM.toNat } se1
        hwfe h32e h2
    refine ⟨v, start0, end0, hv, e1, e2, e3, e4, e6, e5, ?_⟩
    dsimp only at e1 e2 e3 e4 e5 e6 e7 e8
    have hb := ptr_get_some_bounds e1
    have hbe := (ptr_get_some_bounds e2).2
    obtain ⟨se3, p1, p2, p3, p4⟩ := STACK_POP_loop_restore lvl se.stk se2 STK_MEM_END
      (to_signed 16 v) se.s start0 end0 (by rw [hfre]; exact e5)
      (Or.inr ⟨rfl, hlvl, hlvl2⟩) hb.1
      (by rw [hl1e]; exact hb.2) (by rw [hl2e]; exact hbe)
    subst p4
    refine ⟨p1, p2, p3, ?_⟩
    intro fr k hk hfrk halt
    rw [p1, hk]
    exact STACK_POP_loop_alt lvl k _ fr hfrk halt

theorem C20_group_frames_restore_witness :
    (∃ v start0 end0,
      operand_at group_push_ctx.reg group_push_at_start.p SIZE_MEMNUM.toNat = some v ∧
      ptr_get group_push_at_start.mem_start_stk (to_signed 16 v) = some start0 ∧
      ptr_get group_push_at_start.mem_end_stk (to_signed 16 v) = some end0 ∧
      ptr_get group_push_after_start.mem_start_stk (to_signed 16 v) =
        some (group_push_at_start.stk : Int) ∧
      ptr_get group_push_after_start.mem_end_stk (to_signed 16 v) =
        some INVALID_STACK_INDEX ∧
      group_push_after_start.stk = group_push_at_start.stk + 1 ∧
      STACK_AT group_push_after_start group_push_at_start.stk =
        some ⟨STK_MEM_START, .mem (to_signed 16 v) group_push_at_start.s start0 end0⟩ ∧
      STACK_POP_loop STACK_POP_LEVEL_ALL (group_push_at_start.stk + 1)
          group_push_after_start =
        STACK_POP_loop STACK_POP_LEVEL_ALL group_push_at_start.stk
          { group_push_after_start with
            mem_start_stk :=
              group_push_after_start.mem_start_stk.set (to_signed 16 v).toNat (some start0),
            mem_end_stk :=
              group_push_after_start.mem_end_stk.set (to_signed 16 v).toNat (some end0) } ∧
      ptr_get (group_push_after_start.mem_start_stk.set (to_signed 16 v).toNat (some start0))
        (to_signed 16 v) = some start0 ∧
      ptr_get (group_push_after_start.mem_end_stk.set (to_signed 16 v).toNat (some end0))
        (to_signed 16 v) = some end0 ∧
      ∀ (fr : StackType) (k : Nat), group_push_at_start.stk = k + 1 →
        STACK_AT group_push_after_start k = some fr →
        fr.type &&& STK_MASK_POP_USED ≠ 0 →
        STACK_POP_loop STACK_POP_LEVEL_ALL (group_push_at_start.stk + 1)
            group_push_after_start = some
          { group_push_after_start with
            mem_start_stk :=
              group_push_after_start.mem_start_stk.set (to_signed 16 v).toNat (some start0),
            mem_end_stk :=
              group_push_after_start.mem_end_stk.set (to_signed 16 v).toNat (some end0),
            stk := k }) ∧
    (∃ v start0 end0,
      operand_at group_push_ctx.reg group_push_at_end.p SIZE_MEMNUM.toNat = some v ∧
      ptr_get group_push_at_end.mem_start_stk (to_signed 16 v) = some start0 ∧
      ptr_get group_push_at_end.mem_end_stk (to_signed 16 v) = some end0 ∧
      ptr_get group_push_after_end.mem_start_stk (to_signed 16 v) = some start0 ∧
      ptr_get group_push_after_end.mem_end_stk (to_signed 16 v) =
        some (group_push_at_end.stk : Int) ∧
      group_push_after_end.stk = group_push_at_end.stk + 1 ∧
      STACK_AT group_push_after_end group_push_at_end.stk =
        some ⟨STK_MEM_END, .mem (to_signed 16 v) group_push_at_end.s start0 end0⟩ ∧
      STACK_POP_loop STACK_POP_LEVEL_ALL (group_push_at_end.stk + 1)
          group_push_after_end =
        STACK_POP_loop STACK_POP_LEVEL_ALL group_push_at_end.stk
          { group_push_after_end with
            mem_start_stk :=
              group_push_after_end.mem_start_stk.set (to_signed 16 v).toNat (some start0),
            mem_end_stk :=
              group_push_after_end.mem_end_stk.set (to_signed 16 v).toNat (some end0) } ∧
      ptr_get (group_push_after_end.mem_start_stk.set (to_signed 16 v).toNat (some start0))
        (to_signed 16 v) = some start0 ∧
      ptr_get (group_push_after_end.mem_end_stk.set (to_signed 16 v).toNat (some end0))
        (to_signed 16 v) = some end0 ∧
      ∀ (fr : StackType) (k : Nat), group_push_at_end.stk = k + 1 →
        STACK_AT group_push_after_end k = some fr →
        fr.type &&& STK_MASK_POP_USED ≠ 0 →
        STACK_POP_loop STACK_POP_LEVEL_ALL (group_push_at_end.stk + 1)
            group_push_after_end = some
          { group_push_after_end with
            mem_start_stk :=
              group_push_after_end.mem_start_stk.set (to_signed 16 v).toNat (some start0),
            mem_end_stk :=
              group_push_after_end.mem_end_stk.set (to_signed 16 v).toNat (some end0),
            stk := k }) :=
  ⟨(C20_group_frames_restore group_push_ctx STACK_POP_LEVEL_ALL group_push_at_start
      group_push_after_start group_push_after_start group_push_at_end group_push_after_end
      group_push_after_end (by decide!) (by decide!) (by decide!) (by decide!) (by decide)
      (Res.eq_ok_unit _ (by decide!)) rfl (by decide!) (by decide!)
      (Res.eq_ok_unit _ (by decide!)) rfl (by decide!) (by decide!)).1,
   (C20_group_frames_restore group_push_ctx STACK_POP_LEVEL_ALL group_push_at_start
      group_push_after_start group_push_after_start group_push_at_end group_push_after_end
      group_push_after_end (by decide!) (by decide!) (by decide!) (by decide!) (by decide)
      (Res.eq_ok_unit _ (by decide!)) rfl (by decide!) (by decide!)
      (Res.eq_ok_unit _ (by decide!)) rfl (by decide!) (by decide!)).2 (by decide)⟩


/-! ## The back-reference to a group -/

theorem rd_some_of_bounds (x : Subject) (a : Int) (h1 : x.str ≤ a) (h2 : a < x.end_) :
    ∃ b, x.rd a = some b := by
  unfold Subject.rd
  rw [if_pos h1]
  unfold Subject.end_ at h2
  have hlt : (a - x.str).toNat < x.bytes.length := by omega
  exact ⟨x.bytes[(a - x.str).toNat], by rw [List.get?_eq_getElem?]; exact List.getElem?_eq_getElem hlt⟩

theorem DATA_ENSURE_run (n : Int) (st : MatchState) :
    DATA_ENSURE n st = if st.s + n > st.right_range then .exit .fail st else .ok () st := by
  unfold DATA_ENSURE
  simp only [run_bind, run_getS, run_ite, run_goto, run_pure]

theorem STACK_AT_nat (st : MatchState) (j : Nat) :
    STACK_AT st (j : Int) = (st.stack.get? j).join := by
  unfold STACK_AT getI
  rw [if_pos (by omega)]
  rfl

theorem join_get?_set_eq (stack : List (Option StackType)) (k : Nat) (fr : StackType)
    (hk : k < stack.length) : ((stack.set k (some fr)).get? k).join = some fr := by
  rw [List.get?_eq_getElem?, List.getElem?_set_self hk]
  rfl

theorem get?_set_ne (stack : List (Option StackType)) (k j : Nat) (fr : StackType)
    (hkj : k ≠ j) : (stack.set k (some fr)).get? j = stack.get? j := by
  rw [List.get?_eq_getElem?, List.get?_eq_getElem?, List.getElem?_set_ne hkj]

theorem lt_length_of_join_get? {stack : List (Option StackType)} {k : Nat} {fr : StackType}
    (h : (stack.get? k).join = some fr) : k < stack.length := by
  by_contra hc
  rw [List.get?_eq_none.mpr (by omega)] at h
  cases h

theorem STACK_VOID_loop_succ (mark k : Nat) (stack : List (Option StackType)) :
    STACK_VOID_loop mark (k + 1) stack =
      match (stack.get? k).join with
      | none => none
      | some fr =>
        if IS_TO_VOID_TARGET fr then
          STACK_VOID_loop mark k (stack.set k (some { fr with type := STK_VOID }))
        else if fr.type = mark then
          some (stack.set k (some { fr with type := STK_VOID }), k)
        else STACK_VOID_loop mark k stack := rfl

/-- The walk of `STACK_STOP_BT_END` and `STACK_POS_END` from `k` down to the
nearest marker, at `m`: the marker and every frame above it whose type has a
bit of `STK_MASK_TO_VOID_TARGET` get the type `STK_VOID`, the unions and all
other frames stay. -/
theorem STACK_VOID_loop_spec (mark m : Nat) :
    ∀ (k : Nat) (stack : List (Option StackType)) (fm : StackType), m < k →
      (stack.get? m).join = some fm → fm.type = mark → IS_TO_VOID_TARGET fm = false →
      (∀ j, m < j → j < k → ∃ fr, (stack.get? j).join = some fr ∧ fr.type ≠ mark) →
      ∃ stack1, STACK_VOID_loop mark k stack = some (stack1, m) ∧
        (∀ j, (j < m ∨ k ≤ j) → stack1.get? j = stack.get? j) ∧
        (∀ j, m ≤ j → j < k → ∀ fr, (stack.get? j).join = some fr →
          (stack1.get? j).join = some { fr with
            type := if IS_TO_VOID_TARGET fr = true ∨ j = m then STK_VOID else fr.type }) := by
  intro k
  induction k with
  | zero => intro stack fm hm; omega
  | succ k ih =>
    intro stack fm hm hfm hmark hnt hbetween
    rw [STACK_VOID_loop_succ]
    by_cases hkm : k = m
    · subst hkm
      rw [hfm]
      dsimp only
      rw [hnt, if_neg (by decide), if_pos hmark]
      refine ⟨_, rfl, ?_, ?_⟩
      · intro j hj
        exact get?_set_ne _ _ _ _ (by omega)
      · intro j h1 h2 fr hfr
        have hj : j = k := by omega
        subst hj
        rw [hfm] at hfr
        cases hfr
        rw [join_get?_set_eq _ _ _ (lt_length_of_join_get? hfm)]
        simp
    · obtain ⟨fr, hfr, hne⟩ := hbetween k (by omega) (by omega)
      rw [hfr]
      dsimp only
      by_cases ht : IS_TO_VOID_TARGET fr = true
      · rw [if_pos ht]
        obtain ⟨stack1, h1, h2, h3⟩ := ih (stack.set k (some { fr with type := STK_VOID })) fm
          (by omega) (by rw [get?_set_ne _ _ _ _ hkm]; exact hfm) hmark hnt
          (fun j hj1 hj2 => by
            rw [get?_set_ne _ _ _ _ (by omega)]
            exact hbetween j hj1 (by omega))
        refine ⟨stack1, h1, ?_, ?_⟩
        · intro j hj
          rw [h2 j (by omega), get?_set_ne _ _ _ _ (by omega)]
        · intro j hj1 hj2 fr1 hfr1
          by_cases hjk : j = k
          · subst hjk
            rw [hfr] at hfr1
            cases hfr1
            rw [h2 j (Or.inr (le_refl _)),
              join_get?_set_eq _ _ _ (lt_length_of_join_get? hfr)]
            simp [ht]
          · have := h3 j hj1 (by omega) fr1
              (by rw [get?_set_ne _ _ _ _ (by omega)]; exact hfr1)
            exact this
      · rw [if_neg ht, if_neg hne]
        obtain ⟨stack1, h1, h2, h3⟩ := ih stack fm (by omega) hfm hmark hnt
          (fun j hj1 hj2 => hbetween j hj1 (by omega))
        refine ⟨stack1, h1, ?_, ?_⟩
        · intro j hj
          exact h2 j (by omega)
        · intro j hj1 hj2 fr1 hfr1
          by_cases hjk : j = k
          · subst hjk
            rw [hfr] at hfr1
            cases hfr1
            rw [h2 j (Or.inr (le_refl _)), hfr]
            simp [ht, hkm]
          · exact h3 j hj1 (by omega) fr1 hfr1

theorem frame_type_pop_restore_mem (st st1 : MatchState) (fr : StackType)
    (h : pop_restore_mem st fr = some st1) (j : Int) : frame_type st1 j = frame_type st j := by
  unfold pop_restore_mem at h
  split at h
  · split at h
    · cases h; rfl
    · cases h
  · cases h

theorem frame_type_pop_repeat_dec (st st1 : MatchState) (fr : StackType)
    (h : pop_repeat_dec st fr = some st1) (j : Int) : frame_type st1 j = frame_type st j := by
  unfold pop_repeat_dec at h
  split at h
  · rename_i si _
    split at h
    · rename_i t count pcode num hfr
      cases hs : setI st.stack si (some ⟨t, .repeat_ (count - 1) pcode num⟩) with
      | none => rw [hs] at h; cases h
      | some stack1 =>
        rw [hs] at h
        simp only [Option.map_some', Option.some.injEq] at h
        subst h
        unfold frame_type STACK_AT
        dsimp only
        by_cases hj : j = si
        · subst hj
          rw [getI_setI_eq hs]
          unfold STACK_AT at hfr
          rw [hfr]
          rfl
        · rw [getI_setI_ne hs hj]
    · cases h
  · cases h

theorem frame_type_pop_restore_all (st st1 : MatchState) (fr : StackType)
    (h : pop_restore_all st fr = some st1) (j : Int) : frame_type st1 j = frame_type st j := by
  unfold pop_restore_all at h
  split at h
  · exact frame_type_pop_restore_mem st st1 fr h j
  · split at h
    · exact frame_type_pop_repeat_dec st st1 fr h j
    · split at h
      · exact frame_type_pop_restore_mem st st1 fr h j
      · cases h; rfl

/-- Where the walk of `STACK_POP` from `k` ends: at a frame below `k` whose
type has the bit of `STK_MASK_POP_USED`, the topmost such frame; the walk
changes no frame type. -/
theorem STACK_POP_loop_stops (lvl : Nat) :
    ∀ (k : Nat) (st st3 : MatchState), STACK_POP_loop lvl k st = some st3 →
      st3.stk < k ∧
      (∃ t, frame_type st st3.stk = some t ∧ t &&& STK_MASK_POP_USED ≠ 0) ∧
      (∀ j : Nat, st3.stk < j → j < k →
        ∃ t, frame_type st j = some t ∧ t &&& STK_MASK_POP_USED = 0) ∧
      (∀ j : Int, frame_type st3 j = frame_type st j) := by
  intro k
  induction k with
  | zero => intro st st3 h; unfold STACK_POP_loop at h; cases h
  | succ k ih =>
    intro st st3 h
    rw [STACK_POP_loop_succ] at h
    cases hfr : STACK_AT st k with
    | none => rw [hfr] at h; cases h
    | some fr =>
      rw [hfr] at h
      dsimp only at h
      have hft : frame_type st k = some fr.type := by
        unfold frame_type
        rw [hfr]
        rfl
      have step : ∀ st1, (∀ j : Int, frame_type st1 j = frame_type st j) →
          fr.type &&& STK_MASK_POP_USED = 0 → STACK_POP_loop lvl k st1 = some st3 →
          st3.stk < k + 1 ∧
          (∃ t, frame_type st st3.stk = some t ∧ t &&& STK_MASK_POP_USED ≠ 0) ∧
          (∀ j : Nat, st3.stk < j → j < k + 1 →
            ∃ t, frame_type st j = some t ∧ t &&& STK_MASK_POP_USED = 0) ∧
          (∀ j : Int, frame_type st3 j = frame_type st j) := by
        intro st1 hty hno hrec
        obtain ⟨a1, ⟨t, a2, a3⟩, a4, a5⟩ := ih st1 st3 hrec
        refine ⟨by omega, ⟨t, by rw [← hty]; exact a2, a3⟩, ?_, fun j => by rw [a5, hty]⟩
        intro j hj1 hj2
        by_cases hjk : j = k
        · subst hjk
          exact ⟨fr.type, hft, hno⟩
        · obtain ⟨t1, b1, b2⟩ := a4 j hj1 (by omega)
          exact ⟨t1, by rw [← hty]; exact b1, b2⟩
      by_cases hflag : fr.type &&& STK_MASK_POP_USED ≠ 0
      · rw [if_pos hflag] at h
        cases h
        refine ⟨by show k < k + 1; omega, ⟨fr.type, hft, hflag⟩, ?_, fun j => rfl⟩
        intro j hj1 hj2
        exfalso
        have : k < j := hj1
        omega
      · rw [if_neg hflag] at h
        have hno : fr.type &&& STK_MASK_POP_USED = 0 := by
          by_contra hc
          exact hflag hc
        split at h
        · exact step st (fun j => rfl) hno h
        · split at h
          · split at h
            · cases hp : pop_restore_mem st fr with
              | none => rw [hp] at h; cases h
              | some st1 =>
                rw [hp] at h
                exact step st1 (frame_type_pop_restore_mem st st1 fr hp) hno h
            · exact step st (fun j => rfl) hno h
          · cases hp : pop_restore_all st fr with
            | none => rw [hp] at h; cases h
            | some st1 =>
              rw [hp] at h
              exact step st1 (frame_type_pop_restore_all st st1 fr hp) hno h

theorem pop_used_is_void_target (t : Nat) (h : t &&& STK_MASK_POP_USED ≠ 0) :
    t &&& STK_MASK_TO_VOID_TARGET ≠ 0 := by
  intro hc
  apply h
  have h0 : (t &&& STK_MASK_TO_VOID_TARGET).testBit 0 = false := by
    rw [hc]; rfl
  rw [Nat.testBit_and] at h0
  have h1 : STK_MASK_TO_VOID_TARGET.testBit 0 = true := by decide
  rw [h1, Bool.and_true] at h0
  show t &&& 1 = 0
  rw [Nat.and_one_is_mod]
  rw [Nat.testBit_zero] at h0
  simp only [decide_eq_false_iff_not] at h0
  omega

theorem frame_type_some {st : MatchState} {j : Int} {t : Nat}
    (h : frame_type st j = some t) : ∃ fr, STACK_AT st j = some fr ∧ fr.type = t := by
  unfold frame_type at h
  cases hfr : STACK_AT st j with
  | none => rw [hfr] at h; cases h
  | some fr =>
    rw [hfr] at h
    simp only [Option.map_some', Option.some.injEq] at h
    exact ⟨fr, rfl, h⟩

/-- The macro `STACK_STOP_BT_END` with the nearest marker at `m`. -/
theorem STACK_STOP_BT_END_spec (st : MatchState) (m : Nat)
    (hm : m < st.stk) (hfm : frame_type st m = some STK_STOP_BT)
    (hbetween : ∀ j : Nat, m < j → j < st.stk →
      ∃ t, frame_type st j = some t ∧ t ≠ STK_STOP_BT) :
    ∃ stack1, STACK_STOP_BT_END st = .ok () { st with stack := stack1 } ∧
      (∀ j : Nat, (j < m ∨ st.stk ≤ j) → stack1.get? j = st.stack.get? j) ∧
      (∀ j : Nat, m ≤ j → j < st.stk → ∀ fr, STACK_AT st j = some fr →
        (stack1.get? j).join = some { fr with
          type := if IS_TO_VOID_TARGET fr = true ∨ j = m then STK_VOID else fr.type }) := by
  obtain ⟨fm, hfm1, hfm2⟩ := frame_type_some hfm
  rw [STACK_AT_nat] at hfm1
  obtain ⟨stack1, h1, h2, h3⟩ := STACK_VOID_loop_spec STK_STOP_BT m st.stk st.stack fm hm hfm1
    hfm2 (by unfold IS_TO_VOID_TARGET; rw [hfm2]; decide)
    (fun j hj1 hj2 => by
      obtain ⟨t, ht1, ht2⟩ := hbetween j hj1 hj2
      obtain ⟨fr, hfr1, hfr2⟩ := frame_type_some ht1
      rw [STACK_AT_nat] at hfr1
      exact ⟨fr, hfr1, by rw [hfr2]; exact ht2⟩)
  refine ⟨stack1, ?_, h2, ?_⟩
  · unfold STACK_STOP_BT_END
    rw [h1]
  · intro j hj1 hj2 fr hfr
    rw [STACK_AT_nat] at hfr
    exact h3 j hj1 hj2 fr hfr

/-- C15: `OP_POP_STOP_BT` with the nearest `STK_STOP_BT` marker at the index
`m` (the frames above it written): it changes the stack memory alone; the
marker and every frame above it whose type has a bit of
`STK_MASK_TO_VOID_TARGET`, so every frame of type `STK_ALT`,
`STK_ALT_PREC_READ_NOT` or `STK_ALT_LOOK_BEHIND_NOT`, get the type
`STK_VOID`, the other types, all unions and the frames below the marker
stay; a walk of `STACK_POP` that follows ends below the marker, at the
topmost frame there whose type has the bit of `STK_ALT`.  The program of
`(?>a|ab)c` does not match `abc`. -/
theorem C15_atomic_group_end (st : MatchState) (m : Nat)
    (hm : m < st.stk) (hfm : frame_type st m = some STK_STOP_BT)
    (hbetween : ∀ j : Nat, m < j → j < st.stk →
      ∃ t, frame_type st j = some t ∧ t ≠ STK_STOP_BT) :
    (∃ st1, op_POP_STOP_BT st = .ok () st1 ∧ st1 = { st with stack := st1.stack } ∧
      (∀ j : Nat, m ≤ j → j < st.stk → ∀ t, frame_type st j = some t →
        frame_type st1 j = some
          (if t &&& STK_MASK_TO_VOID_TARGET ≠ 0 ∨ j = m then STK_VOID else t)) ∧
      (∀ j : Nat, m < j → j < st.stk → ∀ t, frame_type st j = some t →
        (t = STK_ALT ∨ t = STK_ALT_PREC_READ_NOT ∨ t = STK_ALT_LOOK_BEHIND_NOT) →
        frame_type st1 j = some STK_VOID) ∧
      frame_type st1 m = some STK_VOID ∧
      (∀ j : Nat, (j < m ∨ st.stk ≤ j) → STACK_AT st1 j = STACK_AT st j) ∧
      (∀ j : Nat, frame_union st1 j = frame_union st j) ∧
      (∀ lvl st3, STACK_POP_loop lvl st1.stk st1 = some st3 →
        st3.stk < m ∧
        (∃ t, frame_type st st3.stk = some t ∧ t &&& STK_MASK_POP_USED ≠ 0) ∧
        ∀ j : Nat, st3.stk < j → j < m →
          ∃ t, frame_type st j = some t ∧ t &&& STK_MASK_POP_USED = 0)) ∧
    observe 1 (onig_match 0 100 regex_atomic subject_abc 1000 (.onig onig_region_init) 0) =
      some (ONIG_MISMATCH, [(-1, -1)]) := by
  refine ⟨?_, by decide!⟩
  obtain ⟨stack1, h1, h2, h3⟩ := STACK_STOP_BT_END_spec st m hm hfm hbetween
  have hty : ∀ j : Nat, m ≤ j → j < st.stk → ∀ t, frame_type st j = some t →
      frame_type { st with stack := stack1 } j = some
        (if t &&& STK_MASK_TO_VOID_TARGET ≠ 0 ∨ j = m then STK_VOID else t) := by
    intro j hj1 hj2 t ht
    obtain ⟨fr, hfr1, hfr2⟩ := frame_type_some ht
    have := h3 j hj1 hj2 fr hfr1
    unfold frame_type
    rw [STACK_AT_nat]
    dsimp only
    rw [this]
    simp only [Option.map_some', Option.some.injEq]
    unfold IS_TO_VOID_TARGET
    rw [hfr2]
    simp only [bne_iff_ne, ne_eq]
  have hlow : ∀ j : Nat, (j < m ∨ st.stk ≤ j) →
      STACK_AT { st with stack := stack1 } j = STACK_AT st j := by
    intro j hj
    rw [STACK_AT_nat, STACK_AT_nat]
    dsimp only
    rw [h2 j hj]
  refine ⟨{ st with stack := stack1 }, h1, rfl, hty, ?_, ?_, hlow, ?_, ?_⟩
  · intro j hj1 hj2 t ht halt
    rw [hty j (by omega) hj2 t ht]
    have : t &&& STK_MASK_TO_VOID_TARGET ≠ 0 := by
      rcases halt with h | h | h <;> (subst h; decide)
    rw [if_pos (Or.inl this)]
  · rw [hty m (le_refl _) hm _ hfm]
    rw [if_pos (Or.inr rfl)]
  · intro j
    by_cases hj : j < m ∨ st.stk ≤ j
    · unfold frame_union
      rw [hlow j hj]
    · have hex : ∃ t0, frame_type st j = some t0 := by
        by_cases hjm : j = m
        · subst hjm
          exact ⟨_, hfm⟩
        · obtain ⟨t0, ht0, _⟩ := hbetween j (by omega) (by omega)
          exact ⟨t0, ht0⟩
      obtain ⟨t0, ht0⟩ := hex
      obtain ⟨fr, hfr, _⟩ := frame_type_some ht0
      unfold frame_union
      rw [hfr, STACK_AT_nat]
      dsimp only
      rw [h3 j (by omega) (by omega) fr hfr]
      rfl
  · intro lvl st3 hpop
    obtain ⟨a1, ⟨t, a2, a3⟩, a4, a5⟩ := STACK_POP_loop_stops lvl _ _ _ hpop
    dsimp only at a1
    have hnoflag : ∀ j : Nat, m ≤ j → j < st.stk →
        ∀ t, frame_type { st with stack := stack1 } j = some t →
        t &&& STK_MASK_POP_USED = 0 := by
      intro j hj1 hj2 t1 ht1
      obtain ⟨t0, ht0, _⟩ : ∃ t0, frame_type st j = some t0 ∧ True := by
        by_cases hjm : j = m
        · subst hjm
          exact ⟨_, hfm, trivial⟩
        · obtain ⟨t0, ht0, _⟩ := hbetween j (by omega) hj2
          exact ⟨t0, ht0, trivial⟩
      rw [hty j hj1 hj2 t0 ht0] at ht1
      cases ht1
      by_cases hc : t0 &&& STK_MASK_TO_VOID_TARGET ≠ 0 ∨ j = m
      · rw [if_pos hc]
        rfl
      · rw [if_neg hc]
        by_contra hh
        exact hc (Or.inl (pop_used_is_void_target t0 hh))
    have hlt : st3.stk < m := by
      by_contra hc
      have := hnoflag st3.stk (by omega) a1 t a2
      exact a3 this
    have hft : ∀ j : Nat, j < m → frame_type { st with stack := stack1 } j = frame_type st j := by
      intro j hj
      unfold frame_type
      rw [hlow j (Or.inl hj)]
    refine ⟨hlt, ⟨t, by rw [← hft _ hlt]; exact a2, a3⟩, ?_⟩
    intro j hj1 hj2
    obtain ⟨t1, b1, b2⟩ := a4 j hj1 (by show j < st.stk; omega)
    exact ⟨t1, by rw [← hft _ hj2]; exact b1, b2⟩

theorem C15_atomic_group_end_witness :
    ∃ st1, op_POP_STOP_BT atomic_at_pop = .ok () st1 ∧
      frame_type st1 (1 : Nat) = some STK_VOID ∧ frame_type st1 (2 : Nat) = some STK_VOID ∧
      ∀ lvl st3, STACK_POP_loop lvl st1.stk st1 = some st3 → st3.stk < 1 := by
  obtain ⟨⟨st1, h1, _, _, h4, h5, _, _, h8⟩, _⟩ := C15_atomic_group_end atomic_at_pop 1
    (by decide!) (by decide!)
    (fun j hj1 hj2 => by
      have hj : j = 2 := by
        have : atomic_at_pop.stk = 3 := by decide!
        omega
      subst hj
      exact ⟨STK_ALT, by decide!, by decide⟩)
  exact ⟨st1, h1, h5, h4 2 (by decide) (by decide!) STK_ALT (by decide!) (Or.inl rfl),
    fun lvl st3 h => (h8 lvl st3 h).1⟩


/-! ## Push macros in general -/

/-- What a push macro (`STACK_ENSURE(1)` and the writes of the frame) leaves
when it goes on. -/
theorem ensure_push_ok_inv {ctx : Ctx} {fr : StackType} {st st1 : MatchState}
    (hwf : st.stk ≤ st.stk_end) (h32 : st.stk_end * 2 < 4294967296)
    (h : (STACK_ENSURE ctx 1 >>= fun _ => push_frame fr) st = .ok () st1) :
    st1.p = st.p ∧ st1.s = st.s ∧ st1.sprev = st.sprev ∧ st1.keep = st.keep ∧
    st1.right_range = st.right_range ∧ st1.right_range_index = st.right_range_index ∧
    st1.repeat_stk = st.repeat_stk ∧ st1.mem_start_stk = st.mem_start_stk ∧
    st1.mem_end_stk = st.mem_end_stk ∧
    st1.stk = st.stk + 1 ∧ STACK_AT st1 st.stk = some fr ∧
    (∀ i : Int, i < st.stk → STACK_AT st1 i = STACK_AT st i) := by
  obtain ⟨_, sta, h1, h2⟩ := bind_ok_inv h
  obtain ⟨e1, e2, e3, e4, e5, e6, e7, e8, e9, e10, e11⟩ := STACK_ENSURE_ok_inv h1
  obtain ⟨hlt, h3⟩ := push_frame_ok_inv h2
  subst h3
  refine ⟨e1, e2, e3, e4, e5, e6, e8, e9, e10, by simp only [e7], ?_, ?_⟩
  · rw [← e7]
    exact STACK_AT_set_eq _ _ rfl hlt
  · intro i hi
    rw [@STACK_AT_set_ne _ sta sta.stk _ i rfl (by omega)]
    rcases e11 with e | e
    · exact STACK_AT_congr e i
    · refine STACK_AT_realloc st _ i e ?_
      rw [Nat.mod_eq_of_lt h32]
      omega

/-- The capacity that `stack_double` gives from a block that is in order. -/
theorem stack_double_room {L e n : Nat} {a : Bool} (hpos : 0 < e)
    (hsmall : e * 4 < 4294967296) (hlim : L = 0 ∨ e ≤ L)
    (h : stack_double L a e = .ok n) : e + 1 ≤ n ∧ n * 2 < 4294967296 := by
  unfold stack_double at h
  have hm : e * 2 % 4294967296 = e * 2 := Nat.mod_eq_of_lt (by omega)
  have hm1 : e % 4294967296 = e := Nat.mod_eq_of_lt (by omega)
  simp only [hm, hm1] at h
  split_ifs at h with c1 c2 c3
  · cases h; omega
  · cases h; omega
  · cases h; omega

/-- After a push macro went on in a stack block that is in order, there is
room in the sense that the next push macro needs. -/
theorem ensure_push_room {ctx : Ctx} {fr : StackType} {st st1 : MatchState}
    (hr : StackRoom ctx st)
    (h : (STACK_ENSURE ctx 1 >>= fun _ => push_frame fr) st = .ok () st1) :
    st1.stk ≤ st1.stk_end ∧ st1.stk_end * 2 < 4294967296 := by
  obtain ⟨_, sta, h1, h2⟩ := bind_ok_inv h
  obtain ⟨hlt, h3⟩ := push_frame_ok_inv h2
  subst h3
  obtain ⟨r1, r2, r3, r4⟩ := hr
  have key : sta.stk + 1 ≤ sta.stk_end ∧ sta.stk_end * 2 < 4294967296 := by
    unfold STACK_ENSURE at h1
    split at h1
    · rename_i hlt1
      cases hd : stack_double ctx.MatchStackLimitSize st.is_alloca st.stk_end with
      | error r => rw [hd] at h1; cases h1
      | ok n1 =>
        rw [hd] at h1
        cases h1
        have := stack_double_room r2 r3 r4 hd
        dsimp only
        omega
    · rename_i hge
      cases h1
      omega
  exact key

/-- After `STACK_ENSURE(1)` went on in a stack block that is in order, there
is room for a frame. -/
theorem STACK_ENSURE_room {ctx : Ctx} {st sta : MatchState}
    (hr : StackRoom ctx st) (h1 : STACK_ENSURE ctx 1 st = .ok () sta) :
    sta.stk + 1 ≤ sta.stk_end ∧ sta.stk_end * 2 < 4294967296 := by
  obtain ⟨r1, r2, r3, r4⟩ := hr
  unfold STACK_ENSURE at h1
  split at h1
  · rename_i hlt1
    cases hd : stack_double ctx.MatchStackLimitSize st.is_alloca st.stk_end with
    | error r => rw [hd] at h1; cases h1
    | ok n1 =>
      rw [hd] at h1
      cases h1
      have := stack_double_room r2 r3 r4 hd
      dsimp only
      omega
  · rename_i hge
    cases h1
    omega

/-- `STACK_ENSURE(1)` with room for a frame does nothing. -/
theorem STACK_ENSURE_noop {ctx : Ctx} {st : MatchState} (h : st.stk + 1 ≤ st.stk_end) :
    STACK_ENSURE ctx 1 st = .ok () st := by
  unfold STACK_ENSURE
  rw [if_neg (by omega)]

/-- What `STACK_PUSH_TYPE` leaves when it goes on: a frame of the type, with
whatever union the slot held. -/
theorem STACK_PUSH_TYPE_ok_inv {ctx : Ctx} {t : Nat} {st st1 : MatchState}
    (hwf : st.stk ≤ st.stk_end) (h32 : st.stk_end * 2 < 4294967296)
    (h : STACK_PUSH_TYPE ctx t st = .ok () st1) :
    st1.p = st.p ∧ st1.s = st.s ∧ st1.sprev = st.sprev ∧ st1.keep = st.keep ∧
    st1.right_range = st.right_range ∧ st1.right_range_index = st.right_range_index ∧
    st1.repeat_stk = st.repeat_stk ∧ st1.mem_start_stk = st.mem_start_stk ∧
    st1.mem_end_stk = st.mem_end_stk ∧
    st1.stk = st.stk + 1 ∧ (∃ u, STACK_AT st1 st.stk = some ⟨t, u⟩) ∧
    (∀ i : Int, i < st.stk → STACK_AT st1 i = STACK_AT st i) := by
  unfold STACK_PUSH_TYPE at h
  obtain ⟨_, sta, h1, h2⟩ := bind_ok_inv h
  simp only [run_bind, run_getS] at h2
  have h3 : (STACK_ENSURE ctx 1 >>= fun _ => push_frame ⟨t,
      match (sta.stack.get? sta.stk).join with
      | some fr => fr.u
      | none => StackU.blank⟩) st = .ok () st1 := by
    rw [run_bind, h1]
    exact h2
  obtain ⟨e1, e2, e3, e4, e5, e6, e7, e8, e9, e10, e11, e12⟩ := ensure_push_ok_inv hwf h32 h3
  exact ⟨e1, e2, e3, e4, e5, e6, e7, e8, e9, e10, ⟨_, e11⟩, e12⟩

/-! ## Reading operands -/

theorem GET_RELADDR_INC_run {ctx : Ctx} {st : MatchState} {v : Nat}
    (h : operand_at ctx.reg st.p SIZE_RELADDR.toNat = some v) :
    GET_RELADDR_INC ctx st = .ok (to_signed 32 v) { st with p := st.p + SIZE_RELADDR.toNat } := by
  unfold GET_RELADDR_INC
  rw [run_bind, GET_OPERAND_INC_run h]
  rfl

theorem GET_ABSADDR_INC_run {ctx : Ctx} {st : MatchState} {v : Nat}
    (h : operand_at ctx.reg st.p SIZE_ABSADDR.toNat = some v) :
    GET_ABSADDR_INC ctx st = .ok (to_signed 32 v) { st with p := st.p + SIZE_ABSADDR.toNat } := by
  unfold GET_ABSADDR_INC
  rw [run_bind, GET_OPERAND_INC_run h]
  rfl

theorem GET_LENGTH_INC_run {ctx : Ctx} {st : MatchState} {v : Nat}
    (h : operand_at ctx.reg st.p SIZE_LENGTH.toNat = some v) :
    GET_LENGTH_INC ctx st = .ok (to_signed 32 v) { st with p := st.p + SIZE_LENGTH.toNat } := by
  unfold GET_LENGTH_INC
  rw [run_bind, GET_OPERAND_INC_run h]
  rfl

theorem GET_MEMNUM_INC_run {ctx : Ctx} {st : MatchState} {v : Nat}
    (h : operand_at ctx.reg st.p SIZE_MEMNUM.toNat = some v) :
    GET_MEMNUM_INC ctx st = .ok (to_signed 16 v) { st with p := st.p + SIZE_MEMNUM.toNat } := by
  unfold GET_MEMNUM_INC
  rw [run_bind, GET_OPERAND_INC_run h]
  rfl

/-- A piece that went on, read through `Res.state`. -/
theorem Res.eq_ok_of_state (r : Res Unit) (st : MatchState) (h : r = .ok () st) :
    r.state = st := by
  rw [h]
  rfl


/-! ## `OP_RETURN`, `OP_PUSH_LOOK_BEHIND_NOT` and the peek opcodes -/

/-- The walk of `STACK_RETURN` ends at a frame of type `STK_CALL_FRAME` below
where it began, and takes the `ret_addr` of that frame. -/
theorem STACK_RETURN_loop_frame (st : MatchState) (n : Nat) (level : Int) (r : Int)
    (h : STACK_RETURN_loop st n level = some r) :
    ∃ k, k < n ∧ STACK_RETURN_frame st n level = some k ∧
      STACK_AT st k = some ⟨STK_CALL_FRAME, .call_frame r⟩ := by
  induction n generalizing level with
  | zero => cases h
  | succ n ih =>
    unfold STACK_RETURN_loop at h
    unfold STACK_RETURN_frame
    cases hfr : STACK_AT st n with
    | none => rw [hfr] at h; cases h
    | some fr =>
      rw [hfr] at h
      dsimp only at h ⊢
      by_cases hc : fr.type = STK_CALL_FRAME
      · rw [if_pos hc] at h ⊢
        by_cases hl : level = 0
        · rw [if_pos hl] at h ⊢
          obtain ⟨t, u⟩ := fr
          cases u <;> cases h
          dsimp only at hc
          subst hc
          exact ⟨n, by omega, rfl, hfr⟩
        · rw [if_neg hl] at h ⊢
          obtain ⟨k, hk, e1, e2⟩ := ih _ h
          exact ⟨k, by omega, e1, e2⟩
      · rw [if_neg hc] at h ⊢
        by_cases hr : fr.type = STK_RETURN
        · rw [if_pos hr] at h ⊢
          obtain ⟨k, hk, e1, e2⟩ := ih _ h
          exact ⟨k, by omega, e1, e2⟩
        · rw [if_neg hr] at h ⊢
          obtain ⟨k, hk, e1, e2⟩ := ih _ h
          exact ⟨k, by omega, e1, e2⟩

/-- C26, the claim as it stands fails on the code: in the program `OP_CALL
6; OP_END; OP_EXACT1 a; OP_RETURN` on `a`, the stack holds the bottom frame
and the `CALL_FRAME` when `OP_RETURN` is reached (two rounds), and after
`OP_RETURN` it holds three frames: the `CALL_FRAME` is still at index 1, the
`RETURN` marker above it. -/
theorem C26_counterexample :
    locals_after regex_call subject_a 1000 2 = some (8, 1001, 1000, 2) ∧
    frame_type (state_after regex_call subject_a 1000 2) 1 = some STK_CALL_FRAME ∧
    locals_after regex_call subject_a 1000 3 = some (5, 1001, 1000, 3) ∧
    frame_type (state_after regex_call subject_a 1000 3) 1 = some STK_CALL_FRAME ∧
    frame_type (state_after regex_call subject_a 1000 3) 2 = some STK_RETURN := by
  decide!

/-- C26 as amended: `OP_RETURN` removes nothing from the backtrack stack.
When its arm goes on (in a stack block with `stk` not above its end and the
doubled capacity below `2 ^ 32`), the walk of `STACK_RETURN` has ended at a
frame `k` below `stk` of type `CALL_FRAME`, the code pointer is the
`ret_addr` of that frame, the frame is still at `k`, as every frame below the
old `stk` is where it was, and the stack has grown by the one `RETURN`
marker on top. -/
theorem C26_return_keeps_call_frame (ctx : Ctx) (st st1 : MatchState)
    (hwf : st.stk ≤ st.stk_end) (h32 : st.stk_end * 2 < 4294967296)
    (h : op_RETURN ctx st = .ok () st1) :
    ∃ k ret, k < st.stk ∧ STACK_RETURN_frame st st.stk 0 = some k ∧
      STACK_AT st k = some ⟨STK_CALL_FRAME, .call_frame ret⟩ ∧
      st1.p = ret ∧
      STACK_AT st1 k = some ⟨STK_CALL_FRAME, .call_frame ret⟩ ∧
      st1.stk = st.stk + 1 ∧
      frame_type st1 st.stk = some STK_RETURN ∧
      (∀ i : Int, i < st.stk → STACK_AT st1 i = STACK_AT st i) := by
  unfold op_RETURN at h
  obtain ⟨addr, sta, h1, h2⟩ := bind_ok_inv h
  unfold STACK_RETURN at h1
  cases hl : STACK_RETURN_loop st st.stk 0 with
  | none => rw [hl] at h1; cases h1
  | some r =>
    rw [hl] at h1
    obtain ⟨ha, hb⟩ : r = addr ∧ st = sta := by cases h1; exact ⟨rfl, rfl⟩
    subst ha hb
    simp only [run_bind, run_modS] at h2
    unfold STACK_PUSH_RETURN at h2
    obtain ⟨e1, _, _, _, _, _, _, _, _, e10, ⟨u, e11⟩, e12⟩ :=
      @STACK_PUSH_TYPE_ok_inv ctx STK_RETURN { st with p := r } st1 hwf h32 h2
    obtain ⟨k, hk, f1, f2⟩ := STACK_RETURN_loop_frame st st.stk 0 r hl
    refine ⟨k, r, hk, f1, f2, e1, ?_, e10, ?_, ?_⟩
    · rw [e12 k (by show (k : Int) < (st.stk : Int); omega)]
      exact f2
    · unfold frame_type
      rw [e11]
      rfl
    · intro i hi
      exact e12 i hi

theorem C26_return_keeps_call_frame_witness :
    ∃ k ret, k < call_at_return.stk ∧
      STACK_RETURN_frame call_at_return call_at_return.stk 0 = some k ∧
      STACK_AT call_at_return k = some ⟨STK_CALL_FRAME, .call_frame ret⟩ ∧
      (op_RETURN (ctx_at regex_call subject_a 1000) call_at_return).state.p = ret ∧
      STACK_AT (op_RETURN (ctx_at regex_call subject_a 1000) call_at_return).state k =
        some ⟨STK_CALL_FRAME, .call_frame ret⟩ ∧
      (op_RETURN (ctx_at regex_call subject_a 1000) call_at_return).state.stk =
        call_at_return.stk + 1 ∧
      frame_type (op_RETURN (ctx_at regex_call subject_a 1000) call_at_return).state
        call_at_return.stk = some STK_RETURN ∧
      (∀ i : Int, i < call_at_return.stk →
        STACK_AT (op_RETURN (ctx_at regex_call subject_a 1000) call_at_return).state i =
          STACK_AT call_at_return i) :=
  C26_return_keeps_call_frame (ctx_at regex_call subject_a 1000) call_at_return
    (op_RETURN (ctx_at regex_call subject_a 1000) call_at_return).state
    (by decide!) (by decide!) (Res.eq_ok_unit _ (by decide!))

/-- C28: `OP_PUSH_LOOK_BEHIND_NOT(addr, len)`.  In locals `st` where
`ONIGENC_STEP_BACK(encode, str, s, len)` is null, the arm pushes no frame,
leaves `s`, `sprev` and all other locals and goes on at the code pointer
after the two operands plus `addr`.  In locals `sl` where it gives `q`, not
null, the arm (when it goes on, the stack block in order) has pushed the one
frame `ALT_LOOK_BEHIND_NOT` with the code pointer after the operands plus
`addr` and the old `s` and `sprev`, has left the frames below, and goes on
after the operands with `s = q` and `sprev` the head of the character before
`q`.  In the single-byte encoding stepping back `len > 0` characters is null
exactly when fewer than `len` bytes precede `s`, and `s - len` else. -/
theorem C28_push_look_behind_not (ctx : Ctx) (st sl sl1 : MatchState) (va vl wa wl : Nat)
    (hva : operand_at ctx.reg st.p SIZE_RELADDR.toNat = some va)
    (hvl : operand_at ctx.reg (st.p + SIZE_RELADDR.toNat) SIZE_LENGTH.toNat = some vl)
    (hq : ctx.reg.enc.step_back ctx.x ctx.x.str st.s (to_signed 32 vl) = 0)
    (hwa : operand_at ctx.reg sl.p SIZE_RELADDR.toNat = some wa)
    (hwl : operand_at ctx.reg (sl.p + SIZE_RELADDR.toNat) SIZE_LENGTH.toNat = some wl)
    (hql : ctx.reg.enc.step_back ctx.x ctx.x.str sl.s (to_signed 32 wl) ≠ 0)
    (hwf : sl.stk ≤ sl.stk_end) (h32 : sl.stk_end * 2 < 4294967296)
    (h : op_PUSH_LOOK_BEHIND_NOT ctx sl = .ok () sl1) :
    op_PUSH_LOOK_BEHIND_NOT ctx st = .ok ()
      { st with p := st.p + SIZE_RELADDR.toNat + SIZE_LENGTH.toNat + to_signed 32 va } ∧
    (sl1.stk = sl.stk + 1 ∧
      STACK_AT sl1 sl.stk = some ⟨STK_ALT_LOOK_BEHIND_NOT,
        .state (sl.p + SIZE_RELADDR.toNat + SIZE_LENGTH.toNat + to_signed 32 wa) sl.s sl.sprev⟩ ∧
      (∀ i : Int, i < sl.stk → STACK_AT sl1 i = STACK_AT sl i) ∧
      sl1.p = sl.p + SIZE_RELADDR.toNat + SIZE_LENGTH.toNat ∧
      sl1.s = ctx.reg.enc.step_back ctx.x ctx.x.str sl.s (to_signed 32 wl) ∧
      sl1.sprev = ctx.reg.enc.prev_char_head ctx.x ctx.x.str sl1.s) ∧
    (∀ (x : Subject) (s n : Int), 0 < n →
      ONIG_ENCODING_ASCII.step_back x x.str s n = if s - x.str < n then 0 else s - n) := by
  refine ⟨?_, ?_, ?_⟩
  · unfold op_PUSH_LOOK_BEHIND_NOT
    rw [run_bind, GET_RELADDR_INC_run hva]
    dsimp only
    rw [run_bind, @GET_LENGTH_INC_run ctx { st with p := st.p + SIZE_RELADDR.toNat } vl hvl]
    dsimp only
    rw [run_bind, run_getS]
    dsimp only
    rw [if_pos hq]
    rfl
  · unfold op_PUSH_LOOK_BEHIND_NOT at h
    rw [run_bind, GET_RELADDR_INC_run hwa] at h
    dsimp only at h
    rw [run_bind, @GET_LENGTH_INC_run ctx { sl with p := sl.p + SIZE_RELADDR.toNat } wl hwl] at h
    dsimp only at h
    rw [run_bind, run_getS] at h
    dsimp only at h
    rw [if_neg hql] at h
    obtain ⟨_, sta, h1, h2⟩ := bind_ok_inv h
    unfold STACK_PUSH_ALT_LOOK_BEHIND_NOT at h1
    obtain ⟨e1, e2, e3, e4, e5, e6⟩ := @STACK_PUSH_ok_inv ctx STK_ALT_LOOK_BEHIND_NOT _ _ _
      { sl with p := sl.p + SIZE_RELADDR.toNat + SIZE_LENGTH.toNat } sta hwf h32 h1
    rw [run_modS] at h2
    cases h2
    exact ⟨e4, e5, e6, e1, rfl, rfl⟩
  · intro x s n hn
    show (if n ≤ 0 then s else if s - n < x.str then 0 else s - n) = _
    rw [if_neg (by omega)]
    by_cases hc : s - n < x.str
    · rw [if_pos hc, if_pos (by omega)]
    · rw [if_neg hc, if_neg (by omega)]

theorem C28_push_look_behind_not_witness :
    op_PUSH_LOOK_BEHIND_NOT (ctx_at regex_look_behind_not subject_ba 1000)
        (look_behind_not_at 1000) = .ok ()
      { look_behind_not_at 1000 with
        p := (look_behind_not_at 1000).p + SIZE_RELADDR.toNat + SIZE_LENGTH.toNat +
          to_signed 32 3 } ∧
    ((op_PUSH_LOOK_BEHIND_NOT (ctx_at regex_look_behind_not subject_ba 1000)
        (look_behind_not_at 1001)).state.stk = (look_behind_not_at 1001).stk + 1 ∧
      STACK_AT (op_PUSH_LOOK_BEHIND_NOT (ctx_at regex_look_behind_not subject_ba 1000)
        (look_behind_not_at 1001)).state (look_behind_not_at 1001).stk =
        some ⟨STK_ALT_LOOK_BEHIND_NOT,
          .state ((look_behind_not_at 1001).p + SIZE_RELADDR.toNat + SIZE_LENGTH.toNat +
            to_signed 32 3) (look_behind_not_at 1001).s (look_behind_not_at 1001).sprev⟩ ∧
      (∀ i : Int, i < (look_behind_not_at 1001).stk →
        STACK_AT (op_PUSH_LOOK_BEHIND_NOT (ctx_at regex_look_behind_not subject_ba 1000)
          (look_behind_not_at 1001)).state i = STACK_AT (look_behind_not_at 1001) i) ∧
      (op_PUSH_LOOK_BEHIND_NOT (ctx_at regex_look_behind_not subject_ba 1000)
        (look_behind_not_at 1001)).state.p =
        (look_behind_not_at 1001).p + SIZE_RELADDR.toNat + SIZE_LENGTH.toNat ∧
      (op_PUSH_LOOK_BEHIND_NOT (ctx_at regex_look_behind_not subject_ba 1000)
        (look_behind_not_at 1001)).state.s =
        (ctx_at regex_look_behind_not subject_ba 1000).reg.enc.step_back
          (ctx_at regex_look_behind_not subject_ba 1000).x
          (ctx_at regex_look_behind_not subject_ba 1000).x.str (look_behind_not_at 1001).s
          (to_signed 32 1) ∧
      (op_PUSH_LOOK_BEHIND_NOT (ctx_at regex_look_behind_not subject_ba 1000)
        (look_behind_not_at 1001)).state.sprev =
        (ctx_at regex_look_behind_not subject_ba 1000).reg.enc.prev_char_head
          (ctx_at regex_look_behind_not subject_ba 1000).x
          (ctx_at regex_look_behind_not subject_ba 1000).x.str
          (op_PUSH_LOOK_BEHIND_NOT (ctx_at regex_look_behind_not subject_ba 1000)
            (look_behind_not_at 1001)).state.s) ∧
    (∀ (x : Subject) (s n : Int), 0 < n →
      ONIG_ENCODING_ASCII.step_back x x.str s n = if s - x.str < n then 0 else s - n) :=
  C28_push_look_behind_not (ctx_at regex_look_behind_not subject_ba 1000)
    (look_behind_not_at 1000) (look_behind_not_at 1001)
    (op_PUSH_LOOK_BEHIND_NOT (ctx_at regex_look_behind_not subject_ba 1000)
      (look_behind_not_at 1001)).state 3 1 3 1
    (by decide!) (by decide!) (by decide!) (by decide!) (by decide!) (by decide!)
    (by decide!) (by decide!) (Res.eq_ok_unit _ (by decide!))

/-- C29, the code evaluated where the claim fails.  With `s = end` (the
subject `a` from the position 1001, the right range at `end`) the arms of
`OP_PUSH_IF_PEEK_NEXT` and of `OP_PUSH_OR_JUMP_EXACT1` both read the byte
`*s` at `end`, outside the subject: the condition `*p == *s` is evaluated
first in the one and alone in the other.  With the right range before `end`
(`s = right_range = 1000`, the byte `a` at `s`) the arm of
`OP_PUSH_IF_PEEK_NEXT` pushes a frame of type `ALT` though no input within
the right range is left, where that of `OP_PUSH_OR_JUMP_EXACT1` pushes
none. -/
theorem C29_peek_reads_at_end :
    (first_arm_at regex_push_if_peek_next subject_a 1001 1001).s = subject_a.end_ ∧
    (op_PUSH_IF_PEEK_NEXT (ctx_at regex_push_if_peek_next subject_a 1001)
      (first_arm_at regex_push_if_peek_next subject_a 1001 1001)).is_undef = true ∧
    (op_PUSH_OR_JUMP_EXACT1 (ctx_at regex_push_or_jump_exact1 subject_a 1001)
      (first_arm_at regex_push_or_jump_exact1 subject_a 1001 1001)).is_undef = true ∧
    (first_arm_at regex_push_if_peek_next subject_a 1000 1000).s =
      (first_arm_at regex_push_if_peek_next subject_a 1000 1000).right_range ∧
    (first_arm_at regex_push_if_peek_next subject_a 1000 1000).stk = 1 ∧
    (op_PUSH_IF_PEEK_NEXT (ctx_at regex_push_if_peek_next subject_a 1000)
      (first_arm_at regex_push_if_peek_next subject_a 1000 1000)).is_ok = true ∧
    (op_PUSH_IF_PEEK_NEXT (ctx_at regex_push_if_peek_next subject_a 1000)
      (first_arm_at regex_push_if_peek_next subject_a 1000 1000)).state.stk = 2 ∧
    frame_type (op_PUSH_IF_PEEK_NEXT (ctx_at regex_push_if_peek_next subject_a 1000)
      (first_arm_at regex_push_if_peek_next subject_a 1000 1000)).state 1 = some STK_ALT ∧
    (op_PUSH_OR_JUMP_EXACT1 (ctx_at regex_push_or_jump_exact1 subject_a 1000)
      (first_arm_at regex_push_or_jump_exact1 subject_a 1000 1000)).state.stk = 1 := by
  decide!


/-! ## The empty check -/

/-- A byte that denotes an opcode is the byte value of that opcode. -/
theorem OpCode.byte_of_ofByte {b : Nat} {op : OpCode} (h : OpCode.ofByte b = some op) :
    b = op.toByte := by
  unfold OpCode.ofByte at h
  have hb : b < 92 := by
    by_contra hc
    rw [List.get?_eq_none.mpr (by show opcode_list.length ≤ b; have : opcode_list.length = 92 := rfl; omega)] at h
    cases h
  interval_cases b <;> (cases h; rfl)

/-- The walk of `STACK_EMPTY_CHECK` ends at the topmost frame of type
`EMPTY_CHECK_START` with the id. -/
theorem STACK_EMPTY_CHECK_loop_top (st : MatchState) (id s : Int) (k : Nat) (pstr : Int)
    (n : Nat) (hk : k < n)
    (hfr : STACK_AT st k = some ⟨STK_EMPTY_CHECK_START, .empty_check id pstr⟩)
    (habove : ∀ j : Nat, k < j → j < n → ∃ fr, STACK_AT st j = some fr ∧
      (fr.type = STK_EMPTY_CHECK_START → ∃ num p, fr.u = .empty_check num p ∧ num ≠ id)) :
    STACK_EMPTY_CHECK_loop st id s n = some (if pstr = s then 1 else 0) := by
  induction n with
  | zero => omega
  | succ n ih =>
    unfold STACK_EMPTY_CHECK_loop
    by_cases hkn : k = n
    · subst hkn
      rw [hfr]
      simp
    · have hkn1 : k < n := by omega
      obtain ⟨fr, hfr1, hfr2⟩ := habove n hkn1 (Nat.lt_succ_self n)
      rw [hfr1]
      dsimp only
      by_cases ht : fr.type = STK_EMPTY_CHECK_START
      · obtain ⟨num, p, hu, hne⟩ := hfr2 ht
        rw [if_pos ht, hu]
        dsimp only
        rw [if_neg hne]
        exact ih hkn1 (fun j h1 h2 => habove j h1 (Nat.lt_succ_of_lt h2))
      · rw [if_neg ht]
        exact ih hkn1 (fun j h1 h2 => habove j h1 (Nat.lt_succ_of_lt h2))

/-- The macro `STACK_EMPTY_CHECK` when the topmost frame of the id is known. -/
theorem STACK_EMPTY_CHECK_top {st : MatchState} {id : Int} {k : Nat} {pstr : Int} (s : Int)
    (h : TopEmptyCheckStart st id k pstr) :
    STACK_EMPTY_CHECK id s st = .ok (if pstr = s then 1 else 0) st := by
  unfold STACK_EMPTY_CHECK
  rw [STACK_EMPTY_CHECK_loop_top st id s k pstr st.stk h.lt h.frame h.above]

/-- The round of `match_at` at an opcode other than `OP_END` whose arm goes
on. -/
theorem match_at_step_cont (ctx : Ctx) (st st1 : MatchState) (out : MatchOut) (op : OpCode)
    (hop : opcode_at ctx.reg st.p = some op.toByte)
    (hne : op.toByte ≠ OpCode.END.toByte)
    (h : dispatch ctx op st.s { st with p := st.p + 1 } = .ok () st1) :
    match_at_step ctx st out = .cont st1 out := by
  unfold match_at_step
  rw [hop]
  dsimp only
  have e : OpCode.ofByte op.toByte = some op := by cases op <;> rfl
  rw [e]
  cases op <;> first
    | exact absurd rfl hne
    | (dsimp only; rw [h])

/-- The round of `match_at` at an opcode other than `OP_END` whose arm
returns an error code. -/
theorem match_at_step_err (ctx : Ctx) (st st1 : MatchState) (out : MatchOut) (op : OpCode)
    (r : Int)
    (hop : opcode_at ctx.reg st.p = some op.toByte)
    (hne : op.toByte ≠ OpCode.END.toByte)
    (h : dispatch ctx op st.s { st with p := st.p + 1 } = .exit (.err r) st1) :
    match_at_step ctx st out = .stop (.err r) st1 out := by
  unfold match_at_step
  rw [hop]
  dsimp only
  have e : OpCode.ofByte op.toByte = some op := by cases op <;> rfl
  rw [e]
  cases op <;> first
    | exact absurd rfl hne
    | (dsimp only; rw [h]; rfl)

/-- The arm of `OP_EMPTY_CHECK_END` when the frame of the id did not record
the current `s`. -/
theorem op_EMPTY_CHECK_END_progress (ctx : Ctx) (st : MatchState) (v k : Nat) (pstr : Int)
    (hv : operand_at ctx.reg st.p SIZE_MEMNUM.toNat = some v)
    (htop : TopEmptyCheckStart st (to_signed 16 v) k pstr) (hne : pstr ≠ st.s) :
    op_EMPTY_CHECK_END ctx st = .ok () { st with p := st.p + SIZE_MEMNUM.toNat } := by
  unfold op_EMPTY_CHECK_END
  rw [run_bind, GET_MEMNUM_INC_run hv]
  dsimp only
  rw [run_bind, run_getS]
  dsimp only
  have htop1 : TopEmptyCheckStart { st with p := st.p + SIZE_MEMNUM.toNat } (to_signed 16 v) k
      pstr := ⟨htop.lt, htop.frame, htop.above⟩
  rw [run_bind, STACK_EMPTY_CHECK_top st.s htop1]
  dsimp only
  rw [if_neg hne]
  rfl

/-- The arm of `OP_EMPTY_CHECK_END` when the frame of the id recorded the
current `s`: the code at `empty_check_found`. -/
theorem op_EMPTY_CHECK_END_empty (ctx : Ctx) (st : MatchState) (v k : Nat)
    (hv : operand_at ctx.reg st.p SIZE_MEMNUM.toNat = some v)
    (htop : TopEmptyCheckStart st (to_signed 16 v) k st.s) :
    op_EMPTY_CHECK_END ctx st = empty_check_found ctx { st with p := st.p + SIZE_MEMNUM.toNat } := by
  unfold op_EMPTY_CHECK_END
  rw [run_bind, GET_MEMNUM_INC_run hv]
  dsimp only
  rw [run_bind, run_getS]
  dsimp only
  have htop1 : TopEmptyCheckStart { st with p := st.p + SIZE_MEMNUM.toNat } (to_signed 16 v) k
      st.s := ⟨htop.lt, htop.frame, htop.above⟩
  rw [run_bind, STACK_EMPTY_CHECK_top st.s htop1]
  dsimp only
  rw [if_pos rfl]
  rfl

/-- The code at `empty_check_found` before a loop-back with an address. -/
theorem empty_check_found_reladdr (ctx : Ctx) (st : MatchState) (b : Nat)
    (hb : getI ctx.reg.p st.p = some b)
    (hop : b = OpCode.JUMP.toByte ∨ b = OpCode.PUSH.toByte) :
    empty_check_found ctx st = .ok () { st with p := st.p + 1 + SIZE_RELADDR } := by
  unfold empty_check_found
  rw [run_bind, run_getS]
  dsimp only
  rw [run_bind, hb, run_liftO_some]
  dsimp only
  rcases hop with e | e <;> subst e <;> rfl

/-- The code at `empty_check_found` before a loop-back of a counted loop. -/
theorem empty_check_found_memnum (ctx : Ctx) (st : MatchState) (b : Nat)
    (hb : getI ctx.reg.p st.p = some b)
    (hop : b = OpCode.REPEAT_INC.toByte ∨ b = OpCode.REPEAT_INC_NG.toByte ∨
      b = OpCode.REPEAT_INC_SG.toByte ∨ b = OpCode.REPEAT_INC_NG_SG.toByte) :
    empty_check_found ctx st = .ok () { st with p := st.p + 1 + SIZE_MEMNUM } := by
  unfold empty_check_found
  rw [run_bind, run_getS]
  dsimp only
  rw [run_bind, hb, run_liftO_some]
  dsimp only
  rcases hop with e | e | e | e <;> subst e <;> rfl

/-- The code at `empty_check_found` before any other byte. -/
theorem empty_check_found_other (ctx : Ctx) (st : MatchState) (b : Nat)
    (hb : getI ctx.reg.p st.p = some b)
    (h1 : b ≠ OpCode.JUMP.toByte) (h2 : b ≠ OpCode.PUSH.toByte)
    (h3 : b ≠ OpCode.REPEAT_INC.toByte) (h4 : b ≠ OpCode.REPEAT_INC_NG.toByte)
    (h5 : b ≠ OpCode.REPEAT_INC_SG.toByte) (h6 : b ≠ OpCode.REPEAT_INC_NG_SG.toByte) :
    empty_check_found ctx st =
      .exit (.err ONIGERR_UNEXPECTED_BYTECODE) { st with p := st.p + 1 } := by
  unfold empty_check_found
  rw [run_bind, run_getS]
  dsimp only
  rw [run_bind, hb, run_liftO_some]
  dsimp only
  cases ho : OpCode.ofByte b with
  | none => rfl
  | some op =>
    have e := OpCode.byte_of_ofByte ho
    cases op <;> first
      | exact absurd e h1
      | exact absurd e h2
      | exact absurd e h3
      | exact absurd e h4
      | exact absurd e h5
      | exact absurd e h6
      | rfl

/-- A frame of another type stands in no way of the walk of the empty check. -/
theorem frame_not_empty_check_start {st : MatchState} {j : Nat} (id : Int) (t : Nat)
    (h : frame_type st j = some t) (ht : t ≠ STK_EMPTY_CHECK_START) :
    ∃ fr, STACK_AT st j = some fr ∧
      (fr.type = STK_EMPTY_CHECK_START → ∃ num p, fr.u = .empty_check num p ∧ num ≠ id) := by
  obtain ⟨fr, hfr1, hfr2⟩ := frame_type_some h
  exact ⟨fr, hfr1, fun hc => absurd (hfr2.symm.trans hc) ht⟩

/-- C23: the round of `match_at` at `OP_EMPTY_CHECK_END(id)`, the topmost
frame of type `EMPTY_CHECK_START` with the id being at `k` with the recorded
position `pstr`, and `b` the byte of the next opcode.  When `pstr` differs
from `s` the loop goes on at the next instruction.  When `pstr = s` the next
instruction is skipped in full: the opcode and the `RelAddr` operand for
`OP_JUMP` and `OP_PUSH`, the opcode and the `MemNum` operand for
`OP_REPEAT_INC`, `OP_REPEAT_INC_NG`, `OP_REPEAT_INC_SG` and
`OP_REPEAT_INC_NG_SG`; for any other byte the round leaves `match_at` with
`ONIGERR_UNEXPECTED_BYTECODE`, which is then the value of the loop.  Where
the loop goes on, all locals but the code pointer (`s`, `sprev`, the stack)
are as they were.  The program `OP_EMPTY_CHECK_START 0; OP_EMPTY_CHECK_END
0; OP_END` returns `ONIGERR_UNEXPECTED_BYTECODE` from `onig_match`. -/
theorem C23_empty_check_end (ctx : Ctx) (st : MatchState) (out : MatchOut) (v k b : Nat)
    (pstr : Int)
    (hop : opcode_at ctx.reg st.p = some OpCode.EMPTY_CHECK_END.toByte)
    (hv : operand_at ctx.reg (st.p + 1) SIZE_MEMNUM.toNat = some v)
    (htop : TopEmptyCheckStart st (to_signed 16 v) k pstr)
    (hb : getI ctx.reg.p (st.p + 1 + SIZE_MEMNUM.toNat) = some b) :
    (pstr ≠ st.s →
      match_at_step ctx st out = .cont { st with p := st.p + 1 + SIZE_MEMNUM.toNat } out) ∧
    (pstr = st.s →
      ((b = OpCode.JUMP.toByte ∨ b = OpCode.PUSH.toByte) →
        match_at_step ctx st out =
          .cont { st with p := st.p + 1 + SIZE_MEMNUM.toNat + 1 + SIZE_RELADDR } out) ∧
      ((b = OpCode.REPEAT_INC.toByte ∨ b = OpCode.REPEAT_INC_NG.toByte ∨
          b = OpCode.REPEAT_INC_SG.toByte ∨ b = OpCode.REPEAT_INC_NG_SG.toByte) →
        match_at_step ctx st out =
          .cont { st with p := st.p + 1 + SIZE_MEMNUM.toNat + 1 + SIZE_MEMNUM } out) ∧
      ((b ≠ OpCode.JUMP.toByte ∧ b ≠ OpCode.PUSH.toByte ∧ b ≠ OpCode.REPEAT_INC.toByte ∧
          b ≠ OpCode.REPEAT_INC_NG.toByte ∧ b ≠ OpCode.REPEAT_INC_SG.toByte ∧
          b ≠ OpCode.REPEAT_INC_NG_SG.toByte) →
        match_at_step ctx st out = .stop (.err ONIGERR_UNEXPECTED_BYTECODE)
          { st with p := st.p + 1 + SIZE_MEMNUM.toNat + 1 } out ∧
        ∀ fuel, match_at_loop ctx (fuel + 1) st out = (.err ONIGERR_UNEXPECTED_BYTECODE,
          { st with p := st.p + 1 + SIZE_MEMNUM.toNat + 1 }, out))) ∧
    observe 1 (onig_match 0 100 regex_empty_check_end_then_end subject_aaaab 1000
      (.onig onig_region_init) 0) = some (ONIGERR_UNEXPECTED_BYTECODE, [(-1, -1)]) := by
  have htop1 : TopEmptyCheckStart { st with p := st.p + 1 } (to_signed 16 v) k pstr :=
    ⟨htop.lt, htop.frame, htop.above⟩
  refine ⟨?_, ?_, by decide!⟩
  · intro hne
    refine match_at_step_cont ctx st _ out .EMPTY_CHECK_END hop (by decide) ?_
    exact op_EMPTY_CHECK_END_progress ctx { st with p := st.p + 1 } v k pstr hv htop1 hne
  · intro he
    subst he
    have hrun : dispatch ctx .EMPTY_CHECK_END st.s { st with p := st.p + 1 } =
        empty_check_found ctx { st with p := st.p + 1 + SIZE_MEMNUM.toNat } :=
      op_EMPTY_CHECK_END_empty ctx { st with p := st.p + 1 } v k hv htop1
    refine ⟨?_, ?_, ?_⟩
    · intro hj
      refine match_at_step_cont ctx st _ out .EMPTY_CHECK_END hop (by decide) ?_
      rw [hrun]
      exact empty_check_found_reladdr ctx _ b hb hj
    · intro hj
      refine match_at_step_cont ctx st _ out .EMPTY_CHECK_END hop (by decide) ?_
      rw [hrun]
      exact empty_check_found_memnum ctx _ b hb hj
    · rintro ⟨h1, h2, h3, h4, h5, h6⟩
      have hstep : match_at_step ctx st out = .stop (.err ONIGERR_UNEXPECTED_BYTECODE)
          { st with p := st.p + 1 + SIZE_MEMNUM.toNat + 1 } out := by
        refine match_at_step_err ctx st _ out .EMPTY_CHECK_END _ hop (by decide) ?_
        rw [hrun]
        exact empty_check_found_other ctx _ b hb h1 h2 h3 h4 h5 h6
      refine ⟨hstep, ?_⟩
      intro fuel
      unfold match_at_loop
      rw [hstep]

theorem C23_empty_check_end_witness :
    match_at_step (ctx_at regex_star_star_b subject_aaaab 1000) star_star_b_at_first_check
        (out_start regex_star_star_b 1000) =
      .cont { star_star_b_at_first_check with
              p := star_star_b_at_first_check.p + 1 + SIZE_MEMNUM.toNat }
        (out_start regex_star_star_b 1000) ∧
    match_at_step (ctx_at regex_star_star_b subject_aaaab 1000) star_star_b_at_check
        (out_start regex_star_star_b 1000) =
      .cont { star_star_b_at_check with
              p := star_star_b_at_check.p + 1 + SIZE_MEMNUM.toNat + 1 + SIZE_RELADDR }
        (out_start regex_star_star_b 1000) :=
  ⟨(C23_empty_check_end (ctx_at regex_star_star_b subject_aaaab 1000)
      star_star_b_at_first_check (out_start regex_star_star_b 1000) 0 2 OpCode.JUMP.toByte 1000
      (by decide!) (by decide!)
      ⟨by decide!, by decide!, fun j h1 h2 => by
        have e : star_star_b_at_first_check.stk = 7 := by decide!
        rw [e] at h2
        have hj : j = 3 ∨ j = 4 ∨ j = 5 ∨ j = 6 := by omega
        rcases hj with hj | hj | hj | hj <;> subst hj <;>
          exact frame_not_empty_check_start _ STK_ALT (by decide!) (by decide)⟩
      (by decide!)).1 (by decide!),
   ((C23_empty_check_end (ctx_at regex_star_star_b subject_aaaab 1000)
      star_star_b_at_check (out_start regex_star_star_b 1000) 0 8 OpCode.JUMP.toByte 1004
      (by decide!) (by decide!)
      ⟨by decide!, by decide!, fun j h1 h2 => by
        have e : star_star_b_at_check.stk = 9 := by decide!
        rw [e] at h2
        omega⟩
      (by decide!)).2.1 (by decide!)).1 (Or.inl rfl)⟩

/-- C13: when `OP_EMPTY_CHECK_END(id)` finds that the topmost frame of type
`EMPTY_CHECK_START` with the id recorded the current `s`, the loop-back that
follows it (at the offset `q = p + 1 + SIZE_MEMNUM`) is not run: when it is
`OP_JUMP` or `OP_PUSH` the round goes on after its `RelAddr` operand, when it
is `OP_REPEAT_INC` or one of its variants after its `MemNum` operand, with
all locals but the code pointer as they were (no jump, no frame pushed, no
count changed), and the next round of `match_at` is the round of the
instruction after the loop-back; it is not a round at the target of the
jump, where the loop would be entered again.  In the run of the program of
`(a*)*b` on `aaaab` the rounds of `OP_EMPTY_CHECK_START` (code offset 5) are
at the positions 1000 and 1004, never twice at the same position; the run
reaches `OP_EMPTY_CHECK_END` (code offset 20) a second time after 22 rounds,
at the position 1004 where the second round of the outer loop began, goes on
at the offset 28 after the loop-back, and returns 5 with the region
`(0,5)`. -/
theorem C13_empty_iteration_skips_loop_back (ctx : Ctx) (st : MatchState) (out : MatchOut)
    (v k b fuel : Nat)
    (hop : opcode_at ctx.reg st.p = some OpCode.EMPTY_CHECK_END.toByte)
    (hv : operand_at ctx.reg (st.p + 1) SIZE_MEMNUM.toNat = some v)
    (htop : TopEmptyCheckStart st (to_signed 16 v) k st.s)
    (hb : getI ctx.reg.p (st.p + 1 + SIZE_MEMNUM.toNat) = some b) :
    ((b = OpCode.JUMP.toByte ∨ b = OpCode.PUSH.toByte) →
      match_at_step ctx st out =
        .cont { st with p := st.p + 1 + SIZE_MEMNUM.toNat + 1 + SIZE_RELADDR } out ∧
      match_at_loop ctx (fuel + 1) st out =
        match_at_loop ctx fuel
          { st with p := st.p + 1 + SIZE_MEMNUM.toNat + 1 + SIZE_RELADDR } out ∧
      ∀ a, operand_at ctx.reg (st.p + 1 + SIZE_MEMNUM.toNat + 1) SIZE_RELADDR.toNat = some a →
        to_signed 32 a ≠ 0 →
        st.p + 1 + SIZE_MEMNUM.toNat + 1 + SIZE_RELADDR ≠
          st.p + 1 + SIZE_MEMNUM.toNat + 1 + SIZE_RELADDR + to_signed 32 a) ∧
    ((b = OpCode.REPEAT_INC.toByte ∨ b = OpCode.REPEAT_INC_NG.toByte ∨
        b = OpCode.REPEAT_INC_SG.toByte ∨ b = OpCode.REPEAT_INC_NG_SG.toByte) →
      match_at_step ctx st out =
        .cont { st with p := st.p + 1 + SIZE_MEMNUM.toNat + 1 + SIZE_MEMNUM } out ∧
      match_at_loop ctx (fuel + 1) st out =
        match_at_loop ctx fuel
          { st with p := st.p + 1 + SIZE_MEMNUM.toNat + 1 + SIZE_MEMNUM } out) ∧
    rounds_at (ctx_at regex_star_star_b subject_aaaab 1000) 5 100
      (locals_at_start regex_star_star_b subject_aaaab subject_aaaab.end_ 1000)
      (out_start regex_star_star_b 1000) = [1000, 1004] ∧
    locals_after regex_star_star_b subject_aaaab 1000 22 = some (20, 1004, 1003, 9) ∧
    locals_after regex_star_star_b subject_aaaab 1000 23 = some (28, 1004, 1003, 9) ∧
    observe 1 (onig_match 0 100 regex_star_star_b subject_aaaab 1000
      (.onig onig_region_init) 0) = some (5, [(0, 5)]) := by
  have htop1 : TopEmptyCheckStart { st with p := st.p + 1 } (to_signed 16 v) k st.s :=
    ⟨htop.lt, htop.frame, htop.above⟩
  have hrun : dispatch ctx .EMPTY_CHECK_END st.s { st with p := st.p + 1 } =
      empty_check_found ctx { st with p := st.p + 1 + SIZE_MEMNUM.toNat } :=
    op_EMPTY_CHECK_END_empty ctx { st with p := st.p + 1 } v k hv htop1
  refine ⟨?_, ?_, by decide!, by decide!, by decide!, by decide!⟩
  · intro hj
    have hstep : match_at_step ctx st out =
        .cont { st with p := st.p + 1 + SIZE_MEMNUM.toNat + 1 + SIZE_RELADDR } out := by
      refine match_at_step_cont ctx st _ out .EMPTY_CHECK_END hop (by decide) ?_
      rw [hrun]
      exact empty_check_found_reladdr ctx _ b hb hj
    refine ⟨hstep, ?_, fun a _ ha => by omega⟩
    conv_lhs => unfold match_at_loop
    rw [hstep]
  · intro hj
    have hstep : match_at_step ctx st out =
        .cont { st with p := st.p + 1 + SIZE_MEMNUM.toNat + 1 + SIZE_MEMNUM } out := by
      refine match_at_step_cont ctx st _ out .EMPTY_CHECK_END hop (by decide) ?_
      rw [hrun]
      exact empty_check_found_memnum ctx _ b hb hj
    refine ⟨hstep, ?_⟩
    conv_lhs => unfold match_at_loop
    rw [hstep]

theorem C13_empty_iteration_skips_loop_back_witness :
    match_at_step (ctx_at regex_star_star_b subject_aaaab 1000) star_star_b_at_check
        (out_start regex_star_star_b 1000) =
      .cont { star_star_b_at_check with
              p := star_star_b_at_check.p + 1 + SIZE_MEMNUM.toNat + 1 + SIZE_RELADDR }
        (out_start regex_star_star_b 1000) ∧
    match_at_loop (ctx_at regex_star_star_b subject_aaaab 1000) (5 + 1) star_star_b_at_check
        (out_start regex_star_star_b 1000) =
      match_at_loop (ctx_at regex_star_star_b subject_aaaab 1000) 5
        { star_star_b_at_check with
          p := star_star_b_at_check.p + 1 + SIZE_MEMNUM.toNat + 1 + SIZE_RELADDR }
        (out_start regex_star_star_b 1000) ∧
    ∀ a, operand_at (ctx_at regex_star_star_b subject_aaaab 1000).reg
        (star_star_b_at_check.p + 1 + SIZE_MEMNUM.toNat + 1) SIZE_RELADDR.toNat = some a →
      to_signed 32 a ≠ 0 →
      star_star_b_at_check.p + 1 + SIZE_MEMNUM.toNat + 1 + SIZE_RELADDR ≠
        star_star_b_at_check.p + 1 + SIZE_MEMNUM.toNat + 1 + SIZE_RELADDR + to_signed 32 a :=
  (C13_empty_iteration_skips_loop_back (ctx_at regex_star_star_b subject_aaaab 1000)
    star_star_b_at_check (out_start regex_star_star_b 1000) 0 8 OpCode.JUMP.toByte 5
    (by decide!) (by decide!)
    ⟨by decide!, by decide!, fun j h1 h2 => by
      have e : star_star_b_at_check.stk = 9 := by decide!
      rw [e] at h2
      omega⟩
    (by decide!)).1 (Or.inl rfl)


/-! ## The counted loop: `OP_REPEAT_INC` and `OP_REPEAT_INC_NG` -/

theorem repeat_count_inc_run (st : MatchState) (si : Nat) (t : Nat) (c pcode num : Int)
    (hfr : STACK_AT st si = some ⟨t, .repeat_ c pcode num⟩) :
    repeat_count_inc si st = .ok (c + 1, pcode)
      { st with stack := st.stack.set si (some ⟨t, .repeat_ (c + 1) pcode num⟩) } := by
  have hlen : si < st.stack.length := by
    rw [STACK_AT_nat] at hfr
    exact lt_length_of_join_get? hfr
  unfold repeat_count_inc
  rw [run_bind, run_getS]
  dsimp only
  rw [run_bind, hfr, run_liftO_some]
  dsimp only
  rw [run_bind, setI_of_bounds _ _ _ (by omega) (by simpa using hlen), run_liftO_some]
  dsimp only
  rw [run_bind, run_modS]
  rfl

theorem repeat_pcode_run (st : MatchState) (si : Int) (t : Nat) (c pcode num : Int)
    (hfr : STACK_AT st si = some ⟨t, .repeat_ c pcode num⟩) :
    repeat_pcode si st = .ok pcode st := by
  unfold repeat_pcode
  rw [run_bind, run_getS]
  dsimp only
  rw [run_bind, hfr, run_liftO_some]
  rfl

/-- What `STACK_PUSH_REPEAT_INC` leaves when it goes on. -/
theorem STACK_PUSH_REPEAT_INC_ok_inv {ctx : Ctx} {si : Int} {st st1 : MatchState}
    (hwf : st.stk ≤ st.stk_end) (h32 : st.stk_end * 2 < 4294967296)
    (h : STACK_PUSH_REPEAT_INC ctx si st = .ok () st1) :
    st1.p = st.p ∧ st1.s = st.s ∧ st1.sprev = st.sprev ∧ st1.stk = st.stk + 1 ∧
    STACK_AT st1 st.stk = some ⟨STK_REPEAT_INC, .repeat_inc si⟩ ∧
    (∀ i : Int, i < st.stk → STACK_AT st1 i = STACK_AT st i) := by
  unfold STACK_PUSH_REPEAT_INC at h
  obtain ⟨e1, e2, e3, _, _, _, _, _, _, e10, e11, e12⟩ := ensure_push_ok_inv hwf h32 h
  exact ⟨e1, e2, e3, e10, e11, e12⟩

theorem STACK_PUSH_REPEAT_INC_room {ctx : Ctx} {si : Int} {st st1 : MatchState}
    (hr : StackRoom ctx st) (h : STACK_PUSH_REPEAT_INC ctx si st = .ok () st1) :
    st1.stk ≤ st1.stk_end ∧ st1.stk_end * 2 < 4294967296 := by
  unfold STACK_PUSH_REPEAT_INC at h
  exact ensure_push_room hr h

theorem STACK_PUSH_room {ctx : Ctx} {t : Nat} {pat s sprev : Int} {st st1 : MatchState}
    (hr : StackRoom ctx st) (h : STACK_PUSH ctx t pat s sprev st = .ok () st1) :
    st1.stk ≤ st1.stk_end ∧ st1.stk_end * 2 < 4294967296 := by
  unfold STACK_PUSH at h
  exact ensure_push_room hr h

/-- The `DEFAULT` arm of the pop on a frame `REPEAT_INC(si)`: the count of
the frame at `si` goes down by one. -/
theorem pop_restore_all_repeat_inc (st : MatchState) (si : Nat) (t : Nat) (c pcode num : Int)
    (hfr : STACK_AT st si = some ⟨t, .repeat_ c pcode num⟩) :
    ∃ st2, pop_restore_all st ⟨STK_REPEAT_INC, .repeat_inc si⟩ = some st2 ∧
      STACK_AT st2 si = some ⟨t, .repeat_ (c - 1) pcode num⟩ := by
  have hlen : si < st.stack.length := by
    rw [STACK_AT_nat] at hfr
    exact lt_length_of_join_get? hfr
  unfold pop_restore_all
  rw [if_neg (by show ¬ STK_REPEAT_INC = STK_MEM_START; decide), if_pos rfl]
  unfold pop_repeat_dec
  dsimp only
  rw [hfr]
  dsimp only
  rw [setI_of_bounds _ _ _ (by omega) (by simpa using hlen)]
  refine ⟨_, rfl, ?_⟩
  exact STACK_AT_set_eq si _ (by simp) hlen

/-- The same with the locals that the pop leaves: those it found, with the
count of the frame at `si` one lower. -/
theorem pop_restore_all_repeat_inc_eq (st : MatchState) (si : Nat) (t : Nat)
    (c pcode num : Int)
    (hfr : STACK_AT st si = some ⟨t, .repeat_ (c + 1) pcode num⟩) :
    pop_restore_all st ⟨STK_REPEAT_INC, .repeat_inc si⟩ =
        some { st with stack := st.stack.set si (some ⟨t, .repeat_ c pcode num⟩) } ∧
      STACK_AT { st with stack := st.stack.set si (some ⟨t, .repeat_ c pcode num⟩) } si =
        some ⟨t, .repeat_ c pcode num⟩ := by
  have hlen : si < st.stack.length := by
    rw [STACK_AT_nat] at hfr
    exact lt_length_of_join_get? hfr
  constructor
  · unfold pop_restore_all
    rw [if_neg (by show ¬ STK_REPEAT_INC = STK_MEM_START; decide), if_pos rfl]
    unfold pop_repeat_dec
    dsimp only
    rw [hfr]
    dsimp only
    rw [setI_of_bounds _ _ _ (by omega) (by simpa using hlen)]
    simp only [Option.map_some', Int.toNat_ofNat, Int.add_sub_cancel]
  · exact STACK_AT_set_eq si _ rfl hlen

/-- What the code from `repeat_inc` on leaves when it goes on. -/
theorem repeat_inc_spec (ctx : Ctx) (st st1 : MatchState) (mem : Int) (si : Nat) (c pcode num : Int)
    (rr : OnigRepeatRange)
    (hlive : si < st.stk)
    (hfr : STACK_AT st si = some ⟨STK_REPEAT, .repeat_ c pcode num⟩)
    (hrr : getI ctx.reg.repeat_range mem = some rr)
    (hroom : StackRoom ctx st)
    (h : repeat_inc ctx mem si st = .ok () st1) :
    STACK_AT st1 si = some ⟨STK_REPEAT, .repeat_ (c + 1) pcode num⟩ ∧
    st1.s = st.s ∧ st1.sprev = st.sprev ∧
    (∀ i : Int, i < st.stk → i ≠ si → STACK_AT st1 i = STACK_AT st i) ∧
    (rr.upper ≤ c + 1 → st1.p = st.p ∧ st1.stk = st.stk + 1 ∧
      STACK_AT st1 st.stk = some ⟨STK_REPEAT_INC, .repeat_inc si⟩) ∧
    (c + 1 < rr.upper → rr.lower ≤ c + 1 → st1.p = pcode ∧ st1.stk = st.stk + 2 ∧
      STACK_AT st1 st.stk = some ⟨STK_ALT, .state st.p st.s st.sprev⟩ ∧
      STACK_AT st1 (st.stk + 1 : Nat) = some ⟨STK_REPEAT_INC, .repeat_inc si⟩) ∧
    (c + 1 < rr.upper → c + 1 < rr.lower → st1.p = pcode ∧ st1.stk = st.stk + 1 ∧
      STACK_AT st1 st.stk = some ⟨STK_REPEAT_INC, .repeat_inc si⟩) := by
  unfold repeat_inc at h
  rw [run_bind, repeat_count_inc_run st si _ c pcode num hfr] at h
  dsimp only at h
  rw [run_bind, hrr, run_liftO_some] at h
  dsimp only at h
  have hlen : si < st.stack.length := by
    rw [STACK_AT_nat] at hfr
    exact lt_length_of_join_get? hfr
  obtain ⟨r1, r2, r3, r4⟩ := hroom
  -- the locals after the count went up
  generalize hsb : ({ st with
    stack := st.stack.set si (some ⟨STK_REPEAT, .repeat_ (c + 1) pcode num⟩) } : MatchState) =
    sb at h
  have b1 : STACK_AT sb si = some ⟨STK_REPEAT, .repeat_ (c + 1) pcode num⟩ := by
    subst hsb
    exact STACK_AT_set_eq si _ rfl hlen
  have b2 : ∀ i : Int, i ≠ si → STACK_AT sb i = STACK_AT st i := by
    intro i hi
    subst hsb
    exact @STACK_AT_set_ne _ st si _ i rfl hi
  have b3 : sb.p = st.p ∧ sb.s = st.s ∧ sb.sprev = st.sprev ∧ sb.stk = st.stk ∧
      sb.stk_end = st.stk_end := by
    subst hsb
    exact ⟨rfl, rfl, rfl, rfl, rfl⟩
  obtain ⟨b3p, b3s, b3v, b3k, b3e⟩ := b3
  have hroomb : StackRoom ctx sb := ⟨by omega, by omega, by omega, by rw [b3e]; exact r4⟩
  have hwfb : sb.stk ≤ sb.stk_end := by omega
  have h32b : sb.stk_end * 2 < 4294967296 := by omega
  by_cases hu : c + 1 ≥ rr.upper
  · rw [if_pos hu] at h
    obtain ⟨_, sc, h1, h2⟩ := bind_ok_inv h
    cases h1
    obtain ⟨_, sd, h3, h4⟩ := bind_ok_inv h2
    cases h4
    obtain ⟨e1, e2, e3, e4, e5, e6⟩ := STACK_PUSH_REPEAT_INC_ok_inv hwfb h32b h3
    refine ⟨?_, by rw [e2, b3s], by rw [e3, b3v], ?_, ?_, ?_, ?_⟩
    · rw [e6 si (by omega)]; exact b1
    · intro i hi hne
      rw [e6 i (by omega), b2 i hne]
    · intro _
      exact ⟨by rw [e1, b3p], by omega, by rw [← b3k]; exact e5⟩
    · intro hc; omega
    · intro hc; omega
  · rw [if_neg hu] at h
    by_cases hl : c + 1 ≥ rr.lower
    · rw [if_pos hl] at h
      rw [run_bind, run_getS] at h
      dsimp only at h
      obtain ⟨_, sc, h1, h2⟩ := bind_ok_inv h
      unfold STACK_PUSH_ALT at h1
      obtain ⟨f1, f2, f3, f4, f5, f6⟩ := STACK_PUSH_ok_inv hwfb h32b h1
      obtain ⟨g1, g2⟩ := STACK_PUSH_room hroomb h1
      have hc1 : STACK_AT sc si = some ⟨STK_REPEAT, .repeat_ (c + 1) pcode num⟩ := by
        rw [f6 si (by omega)]; exact b1
      rw [run_bind, repeat_pcode_run sc si _ _ _ _ hc1] at h2
      dsimp only at h2
      rw [run_bind, run_modS] at h2
      dsimp only at h2
      obtain ⟨_, sd, h3, h4⟩ := bind_ok_inv h2
      cases h4
      obtain ⟨e1, e2, e3, e4, e5, e6⟩ :=
        @STACK_PUSH_REPEAT_INC_ok_inv ctx si { sc with p := pcode } _ g1 g2 h3
      dsimp only at e1 e2 e3 e4 e5 e6
      refine ⟨?_, by rw [e2, f2, b3s], by rw [e3, f3, b3v], ?_, ?_, ?_, ?_⟩
      · rw [e6 si (by omega)]; exact hc1
      · intro i hi hne
        rw [e6 i (by omega)]
        show STACK_AT sc i = _
        rw [f6 i (by omega), b2 i hne]
      · intro hc; omega
      · intro _ _
        refine ⟨e1, by omega, ?_, ?_⟩
        · rw [e6 st.stk (by omega)]
          show STACK_AT sc st.stk = _
          rw [← b3k, f5, b3p, b3s, b3v]
        · have : sc.stk = st.stk + 1 := by omega
          rw [← this]
          exact e5
      · intro _ hc; omega
    · rw [if_neg hl] at h
      rw [run_bind, run_modS] at h
      dsimp only at h
      obtain ⟨_, sd, h3, h4⟩ := bind_ok_inv h
      cases h4
      obtain ⟨e1, e2, e3, e4, e5, e6⟩ :=
        @STACK_PUSH_REPEAT_INC_ok_inv ctx si { sb with p := pcode } _ hwfb h32b h3
      dsimp only at e1 e2 e3 e4 e5 e6
      refine ⟨?_, by rw [e2, b3s], by rw [e3, b3v], ?_, ?_, ?_, ?_⟩
      · rw [e6 si (by omega)]; exact b1
      · intro i hi hne
        rw [e6 i (by omega)]
        show STACK_AT sb i = _
        rw [b2 i hne]
      · intro hc; omega
      · intro _ hc; omega
      · intro _ _
        exact ⟨e1, by omega, by rw [← b3k]; exact e5⟩

/-- What the code from `repeat_inc_ng` on leaves when it goes on. -/
theorem repeat_inc_ng_spec (ctx : Ctx) (st st1 : MatchState) (mem : Int) (si : Nat)
    (c pcode num : Int) (rr : OnigRepeatRange)
    (hlive : si < st.stk)
    (hfr : STACK_AT st si = some ⟨STK_REPEAT, .repeat_ c pcode num⟩)
    (hrr : getI ctx.reg.repeat_range mem = some rr)
    (hroom : StackRoom ctx st)
    (h : repeat_inc_ng ctx mem si st = .ok () st1) :
    STACK_AT st1 si = some ⟨STK_REPEAT, .repeat_ (c + 1) pcode num⟩ ∧
    st1.s = st.s ∧ st1.sprev = st.sprev ∧
    (∀ i : Int, i < st.stk → i ≠ si → STACK_AT st1 i = STACK_AT st i) ∧
    (rr.upper = c + 1 → st1.p = st.p ∧ st1.stk = st.stk + 1 ∧
      STACK_AT st1 st.stk = some ⟨STK_REPEAT_INC, .repeat_inc si⟩) ∧
    (c + 1 < rr.upper → rr.lower ≤ c + 1 → st1.p = st.p ∧ st1.stk = st.stk + 2 ∧
      STACK_AT st1 st.stk = some ⟨STK_REPEAT_INC, .repeat_inc si⟩ ∧
      STACK_AT st1 (st.stk + 1 : Nat) = some ⟨STK_ALT, .state pcode st.s st.sprev⟩) ∧
    (c + 1 < rr.upper → c + 1 < rr.lower → st1.p = pcode ∧ st1.stk = st.stk + 1 ∧
      STACK_AT st1 st.stk = some ⟨STK_REPEAT_INC, .repeat_inc si⟩) := by
  unfold repeat_inc_ng at h
  rw [run_bind, repeat_count_inc_run st si _ c pcode num hfr] at h
  dsimp only at h
  rw [run_bind, hrr, run_liftO_some] at h
  dsimp only at h
  have hlen : si < st.stack.length := by
    rw [STACK_AT_nat] at hfr
    exact lt_length_of_join_get? hfr
  obtain ⟨r1, r2, r3, r4⟩ := hroom
  generalize hsb : ({ st with
    stack := st.stack.set si (some ⟨STK_REPEAT, .repeat_ (c + 1) pcode num⟩) } : MatchState) =
    sb at h
  have b1 : STACK_AT sb si = some ⟨STK_REPEAT, .repeat_ (c + 1) pcode num⟩ := by
    subst hsb
    exact STACK_AT_set_eq si _ rfl hlen
  have b2 : ∀ i : Int, i ≠ si → STACK_AT sb i = STACK_AT st i := by
    intro i hi
    subst hsb
    exact @STACK_AT_set_ne _ st si _ i rfl hi
  have b3 : sb.p = st.p ∧ sb.s = st.s ∧ sb.sprev = st.sprev ∧ sb.stk = st.stk ∧
      sb.stk_end = st.stk_end := by
    subst hsb
    exact ⟨rfl, rfl, rfl, rfl, rfl⟩
  obtain ⟨b3p, b3s, b3v, b3k, b3e⟩ := b3
  have hroomb : StackRoom ctx sb := ⟨by omega, by omega, by omega, by rw [b3e]; exact r4⟩
  have hwfb : sb.stk ≤ sb.stk_end := by omega
  have h32b : sb.stk_end * 2 < 4294967296 := by omega
  by_cases hu : c + 1 < rr.upper
  · rw [if_pos hu] at h
    by_cases hl : c + 1 ≥ rr.lower
    · rw [if_pos hl] at h
      obtain ⟨_, sc, h1, h2⟩ := bind_ok_inv h
      obtain ⟨e1, e2, e3, e4, e5, e6⟩ := STACK_PUSH_REPEAT_INC_ok_inv hwfb h32b h1
      obtain ⟨g1, g2⟩ := STACK_PUSH_REPEAT_INC_room hroomb h1
      rw [run_bind, run_getS] at h2
      dsimp only at h2
      obtain ⟨_, sd, h3, h4⟩ := bind_ok_inv h2
      cases h4
      unfold STACK_PUSH_ALT at h3
      obtain ⟨f1, f2, f3, f4, f5, f6⟩ := STACK_PUSH_ok_inv g1 g2 h3
      refine ⟨?_, by rw [f2, e2, b3s], by rw [f3, e3, b3v], ?_, ?_, ?_, ?_⟩
      · rw [f6 si (by omega), e6 si (by omega)]; exact b1
      · intro i hi hne
        rw [f6 i (by omega), e6 i (by omega), b2 i hne]
      · intro hc; omega
      · intro _ _
        refine ⟨by rw [f1, e1, b3p], by omega, ?_, ?_⟩
        · rw [f6 st.stk (by omega), ← b3k]
          exact e5
        · have : sc.stk = st.stk + 1 := by omega
          rw [← this, f5, e2, e3, b3s, b3v]
      · intro _ hc; omega
    · rw [if_neg hl] at h
      rw [run_bind, run_modS] at h
      dsimp only at h
      obtain ⟨_, sd, h3, h4⟩ := bind_ok_inv h
      cases h4
      obtain ⟨e1, e2, e3, e4, e5, e6⟩ :=
        @STACK_PUSH_REPEAT_INC_ok_inv ctx si { sb with p := pcode } _ hwfb h32b h3
      dsimp only at e1 e2 e3 e4 e5 e6
      refine ⟨?_, by rw [e2, b3s], by rw [e3, b3v], ?_, ?_, ?_, ?_⟩
      · rw [e6 si (by omega)]; exact b1
      · intro i hi hne
        rw [e6 i (by omega)]
        show STACK_AT sb i = _
        rw [b2 i hne]
      · intro hc; omega
      · intro _ hc; omega
      · intro _ _
        exact ⟨e1, by omega, by rw [← b3k]; exact e5⟩
  · rw [if_neg hu] at h
    by_cases he : c + 1 = rr.upper
    · rw [if_pos he] at h
      obtain ⟨_, sd, h3, h4⟩ := bind_ok_inv h
      cases h4
      obtain ⟨e1, e2, e3, e4, e5, e6⟩ := STACK_PUSH_REPEAT_INC_ok_inv hwfb h32b h3
      refine ⟨?_, by rw [e2, b3s], by rw [e3, b3v], ?_, ?_, ?_, ?_⟩
      · rw [e6 si (by omega)]; exact b1
      · intro i hi hne
        rw [e6 i (by omega), b2 i hne]
      · intro _
        exact ⟨by rw [e1, b3p], by omega, by rw [← b3k]; exact e5⟩
      · intro hc; omega
      · intro hc; omega
    · rw [if_neg he] at h
      obtain ⟨_, sd, h3, h4⟩ := bind_ok_inv h
      cases h3
      cases h4
      refine ⟨b1, b3s, b3v, fun i _ hne => b2 i hne, ?_, ?_, ?_⟩
      · intro hc; omega
      · intro hc; omega
      · intro hc; omega

/-- C21: `OP_REPEAT_INC` (locals `st1` after it) and `OP_REPEAT_INC_NG`
(locals `sn1`) on the repeat id `mem` with the range `(lower, upper)`,
`lower ≤ upper`, where `repeat_stk[mem]` is the index `si` of a live
`REPEAT` frame with the count `c`, the body `pcode`, and `c + 1 ≤ upper`
(the stack block in order, the arms go on).  Both leave the count `c + 1` in
that frame and `s`, `sprev` and the other frames below the old `stk` as they
were.  If `c + 1 < lower` both go on at the body having pushed the one frame
`REPEAT_INC(si)`.  If `lower ≤ c + 1 < upper` both push one `ALT` with the
current `s` and `sprev` and one `REPEAT_INC(si)`: `OP_REPEAT_INC` the `ALT`
to the instruction after the loop (the code pointer after the operand)
below the `REPEAT_INC` and goes on at the body, `OP_REPEAT_INC_NG` the `ALT`
to the body above the `REPEAT_INC` and goes on after the loop.  If
`c + 1 = upper` both go on after the loop having pushed the one frame
`REPEAT_INC(si)`.  In each case the walk of `STACK_POP` with the `DEFAULT`
arm goes on below that `REPEAT_INC` frame in the locals it found with the
count `c` back in the `REPEAT` frame and nothing else changed, and when the
frame below it is an `ALT*` frame the walk ends there and returns these
locals. -/
theorem C21_repeat_inc (ctx : Ctx) (st st1 sn1 : MatchState) (v si : Nat)
    (c pcode num : Int) (rr : OnigRepeatRange)
    (hv : operand_at ctx.reg st.p SIZE_MEMNUM.toNat = some v)
    (hsi : ptr_get st.repeat_stk (to_signed 16 v) = some (si : Int))
    (hlive : si < st.stk)
    (hfr : STACK_AT st si = some ⟨STK_REPEAT, .repeat_ c pcode num⟩)
    (hrr : getI ctx.reg.repeat_range (to_signed 16 v) = some rr)
    (hle : rr.lower ≤ rr.upper) (hc : c + 1 ≤ rr.upper)
    (hroom : StackRoom ctx st)
    (h : op_REPEAT_INC ctx st = .ok () st1)
    (hn : op_REPEAT_INC_NG ctx st = .ok () sn1) :
    (STACK_AT st1 si = some ⟨STK_REPEAT, .repeat_ (c + 1) pcode num⟩ ∧
      st1.s = st.s ∧ st1.sprev = st.sprev ∧
      (∀ i : Int, i < st.stk → i ≠ si → STACK_AT st1 i = STACK_AT st i) ∧
      (c + 1 < rr.lower → st1.p = pcode ∧ st1.stk = st.stk + 1 ∧
        STACK_AT st1 st.stk = some ⟨STK_REPEAT_INC, .repeat_inc si⟩) ∧
      (rr.lower ≤ c + 1 → c + 1 < rr.upper → st1.p = pcode ∧ st1.stk = st.stk + 2 ∧
        STACK_AT st1 st.stk =
          some ⟨STK_ALT, .state (st.p + SIZE_MEMNUM.toNat) st.s st.sprev⟩ ∧
        STACK_AT st1 (st.stk + 1 : Nat) = some ⟨STK_REPEAT_INC, .repeat_inc si⟩) ∧
      (c + 1 = rr.upper → st1.p = st.p + SIZE_MEMNUM.toNat ∧ st1.stk = st.stk + 1 ∧
        STACK_AT st1 st.stk = some ⟨STK_REPEAT_INC, .repeat_inc si⟩) ∧
      (∀ lvl, lvl ≠ STACK_POP_LEVEL_FREE → lvl ≠ STACK_POP_LEVEL_MEM_START →
        STACK_POP_loop lvl st1.stk st1 = STACK_POP_loop lvl (st1.stk - 1)
          { st1 with
            stack := st1.stack.set si (some ⟨STK_REPEAT, .repeat_ c pcode num⟩) }) ∧
      STACK_AT { st1 with
          stack := st1.stack.set si (some ⟨STK_REPEAT, .repeat_ c pcode num⟩) } si =
        some ⟨STK_REPEAT, .repeat_ c pcode num⟩ ∧
      ∀ (lvl : Nat) (fr : StackType) (k : Nat), lvl ≠ STACK_POP_LEVEL_FREE →
        lvl ≠ STACK_POP_LEVEL_MEM_START → st1.stk = k + 2 → STACK_AT st1 k = some fr →
        fr.type &&& STK_MASK_POP_USED ≠ 0 →
        STACK_POP_loop lvl st1.stk st1 = some
          { st1 with
            stack := st1.stack.set si (some ⟨STK_REPEAT, .repeat_ c pcode num⟩),
            stk := k }) ∧
    (STACK_AT sn1 si = some ⟨STK_REPEAT, .repeat_ (c + 1) pcode num⟩ ∧
      sn1.s = st.s ∧ sn1.sprev = st.sprev ∧
      (∀ i : Int, i < st.stk → i ≠ si → STACK_AT sn1 i = STACK_AT st i) ∧
      (c + 1 < rr.lower → sn1.p = pcode ∧ sn1.stk = st.stk + 1 ∧
        STACK_AT sn1 st.stk = some ⟨STK_REPEAT_INC, .repeat_inc si⟩) ∧
      (rr.lower ≤ c + 1 → c + 1 < rr.upper →
        sn1.p = st.p + SIZE_MEMNUM.toNat ∧ sn1.stk = st.stk + 2 ∧
        STACK_AT sn1 st.stk = some ⟨STK_REPEAT_INC, .repeat_inc si⟩ ∧
        STACK_AT sn1 (st.stk + 1 : Nat) = some ⟨STK_ALT, .state pcode st.s st.sprev⟩) ∧
      (c + 1 = rr.upper → sn1.p = st.p + SIZE_MEMNUM.toNat ∧ sn1.stk = st.stk + 1 ∧
        STACK_AT sn1 st.stk = some ⟨STK_REPEAT_INC, .repeat_inc si⟩) ∧
      (∀ lvl, lvl ≠ STACK_POP_LEVEL_FREE → lvl ≠ STACK_POP_LEVEL_MEM_START →
        STACK_POP_loop lvl (st.stk + 1) sn1 = STACK_POP_loop lvl st.stk
          { sn1 with
            stack := sn1.stack.set si (some ⟨STK_REPEAT, .repeat_ c pcode num⟩) }) ∧
      STACK_AT { sn1 with
          stack := sn1.stack.set si (some ⟨STK_REPEAT, .repeat_ c pcode num⟩) } si =
        some ⟨STK_REPEAT, .repeat_ c pcode num⟩ ∧
      ∀ (lvl : Nat) (fr : StackType) (k : Nat), lvl ≠ STACK_POP_LEVEL_FREE →
        lvl ≠ STACK_POP_LEVEL_MEM_START → st.stk = k + 1 → STACK_AT sn1 k = some fr →
        fr.type &&& STK_MASK_POP_USED ≠ 0 →
        STACK_POP_loop lvl (st.stk + 1) sn1 = some
          { sn1 with
            stack := sn1.stack.set si (some ⟨STK_REPEAT, .repeat_ c pcode num⟩),
            stk := k }) := by
  have hroom1 : StackRoom ctx { st with p := st.p + SIZE_MEMNUM.toNat } :=
    ⟨hroom.stk_le, hroom.pos, hroom.small, hroom.limit⟩
  constructor
  · unfold op_REPEAT_INC at h
    rw [run_bind, GET_MEMNUM_INC_run hv] at h
    dsimp only at h
    rw [run_bind, run_getS] at h
    dsimp only at h
    rw [run_bind, hsi, run_liftO_some] at h
    dsimp only at h
    obtain ⟨a1, a2, a3, a4, a5, a6, a7⟩ := repeat_inc_spec ctx
      { st with p := st.p + SIZE_MEMNUM.toNat } st1 _ si c pcode num rr hlive hfr hrr hroom1 h
    dsimp only at a2 a3 a4 a5 a6 a7
    have hri : STACK_AT st1 ((st1.stk - 1 : Nat) : Int) =
        some ⟨STK_REPEAT_INC, .repeat_inc si⟩ := by
      by_cases hu : rr.upper ≤ c + 1
      · obtain ⟨_, e2, e3⟩ := a5 hu
        rw [e2]
        exact e3
      · by_cases hl : rr.lower ≤ c + 1
        · obtain ⟨_, e2, _, e4⟩ := a6 (by omega) hl
          rw [e2]
          exact e4
        · obtain ⟨_, e2, e3⟩ := a7 (by omega) (by omega)
          rw [e2]
          exact e3
    have hpos : st1.stk - 1 + 1 = st1.stk := by
      by_cases hu : rr.upper ≤ c + 1
      · have := (a5 hu).2.1; omega
      · by_cases hl : rr.lower ≤ c + 1
        · have := (a6 (by omega) hl).2.1; omega
        · have := (a7 (by omega) (by omega)).2.1; omega
    obtain ⟨e1, e2⟩ := pop_restore_all_repeat_inc_eq st1 si _ _ _ _ a1
    have hloop : ∀ lvl, lvl ≠ STACK_POP_LEVEL_FREE → lvl ≠ STACK_POP_LEVEL_MEM_START →
        STACK_POP_loop lvl st1.stk st1 = STACK_POP_loop lvl (st1.stk - 1)
          { st1 with
            stack := st1.stack.set si (some ⟨STK_REPEAT, .repeat_ c pcode num⟩) } := by
      intro lvl h1 h2
      conv_lhs => rw [← hpos]
      rw [STACK_POP_loop_succ, hri]
      dsimp only
      rw [if_neg (by show ¬ (STK_REPEAT_INC &&& STK_MASK_POP_USED ≠ 0); decide), if_neg h1,
        if_neg h2, e1]
      rfl
    refine ⟨a1, a2, a3, a4, fun hl => a7 (by omega) hl, fun hl hu => a6 hu hl,
      fun he => a5 (by omega), hloop, e2, ?_⟩
    intro lvl fr k h1 h2 hk hfrk halt
    rw [hloop lvl h1 h2]
    have hk1 : st1.stk - 1 = k + 1 := by omega
    rw [hk1]
    refine STACK_POP_loop_alt lvl k _ fr ?_ halt
    have hne : (k : Int) ≠ (si : Int) := by
      intro hks
      have hks1 : k = si := by omega
      subst hks1
      rw [a1] at hfrk
      cases hfrk
      have hz : STK_REPEAT &&& STK_MASK_POP_USED = 0 := by decide
      exact halt hz
    rw [STACK_AT_set_ne si _ (k : Int) rfl hne]
    exact hfrk
  · unfold op_REPEAT_INC_NG at hn
    rw [run_bind, GET_MEMNUM_INC_run hv] at hn
    dsimp only at hn
    rw [run_bind, run_getS] at hn
    dsimp only at hn
    rw [run_bind, hsi, run_liftO_some] at hn
    dsimp only at hn
    obtain ⟨a1, a2, a3, a4, a5, a6, a7⟩ := repeat_inc_ng_spec ctx
      { st with p := st.p + SIZE_MEMNUM.toNat } sn1 _ si c pcode num rr hlive hfr hrr hroom1 hn
    dsimp only at a2 a3 a4 a5 a6 a7
    have hri : STACK_AT sn1 (st.stk : Int) = some ⟨STK_REPEAT_INC, .repeat_inc si⟩ := by
      by_cases hu : rr.upper = c + 1
      · exact (a5 hu).2.2
      · by_cases hl : rr.lower ≤ c + 1
        · exact (a6 (by omega) hl).2.2.1
        · exact (a7 (by omega) (by omega)).2.2
    obtain ⟨e1, e2⟩ := pop_restore_all_repeat_inc_eq sn1 si _ _ _ _ a1
    have hloop : ∀ lvl, lvl ≠ STACK_POP_LEVEL_FREE → lvl ≠ STACK_POP_LEVEL_MEM_START →
        STACK_POP_loop lvl (st.stk + 1) sn1 = STACK_POP_loop lvl st.stk
          { sn1 with
            stack := sn1.stack.set si (some ⟨STK_REPEAT, .repeat_ c pcode num⟩) } := by
      intro lvl h1 h2
      rw [STACK_POP_loop_succ, hri]
      dsimp only
      rw [if_neg (by show ¬ (STK_REPEAT_INC &&& STK_MASK_POP_USED ≠ 0); decide), if_neg h1,
        if_neg h2, e1]
      rfl
    refine ⟨a1, a2, a3, a4, fun hl => a7 (by omega) hl, fun hl hu => a6 hu hl,
      fun he => a5 (by omega), hloop, e2, ?_⟩
    intro lvl fr k h1 h2 hk hfrk halt
    rw [hloop lvl h1 h2, hk]
    refine STACK_POP_loop_alt lvl k _ fr ?_ halt
    have hne : (k : Int) ≠ (si : Int) := by
      intro hks
      have hks1 : k = si := by omega
      subst hks1
      rw [a1] at hfrk
      cases hfrk
      have hz : STK_REPEAT &&& STK_MASK_POP_USED = 0 := by decide
      exact halt hz
    rw [STACK_AT_set_ne si _ (k : Int) rfl hne]
    exact hfrk

theorem C21_repeat_inc_witness :
    ((op_REPEAT_INC (ctx_at regex_repeat subject_aaa 1000) repeat_at_inc).state.p = 7 ∧
      (op_REPEAT_INC (ctx_at regex_repeat subject_aaa 1000) repeat_at_inc).state.stk =
        repeat_at_inc.stk + 2 ∧
      STACK_AT (op_REPEAT_INC (ctx_at regex_repeat subject_aaa 1000) repeat_at_inc).state
          repeat_at_inc.stk =
        some ⟨STK_ALT, .state (repeat_at_inc.p + SIZE_MEMNUM.toNat) repeat_at_inc.s
          repeat_at_inc.sprev⟩ ∧
      STACK_AT (op_REPEAT_INC (ctx_at regex_repeat subject_aaa 1000) repeat_at_inc).state
          (repeat_at_inc.stk + 1 : Nat) = some ⟨STK_REPEAT_INC, .repeat_inc (1 : Nat)⟩) ∧
    ((op_REPEAT_INC_NG (ctx_at regex_repeat subject_aaa 1000) repeat_at_inc).state.p =
        repeat_at_inc.p + SIZE_MEMNUM.toNat ∧
      (op_REPEAT_INC_NG (ctx_at regex_repeat subject_aaa 1000) repeat_at_inc).state.stk =
        repeat_at_inc.stk + 2 ∧
      STACK_AT (op_REPEAT_INC_NG (ctx_at regex_repeat subject_aaa 1000) repeat_at_inc).state
          repeat_at_inc.stk = some ⟨STK_REPEAT_INC, .repeat_inc (1 : Nat)⟩ ∧
      STACK_AT (op_REPEAT_INC_NG (ctx_at regex_repeat subject_aaa 1000) repeat_at_inc).state
          (repeat_at_inc.stk + 1 : Nat) =
        some ⟨STK_ALT, .state 7 repeat_at_inc.s repeat_at_inc.sprev⟩) :=
  ⟨(C21_repeat_inc (ctx_at regex_repeat subject_aaa 1000) repeat_at_inc
      (op_REPEAT_INC (ctx_at regex_repeat subject_aaa 1000) repeat_at_inc).state
      (op_REPEAT_INC_NG (ctx_at regex_repeat subject_aaa 1000) repeat_at_inc).state
      0 1 1 7 0 ⟨2, 3⟩ (by decide!) (by decide!) (by decide!) (by decide!) rfl
      (by decide) (by decide)
      ⟨by decide!, by decide!, by decide!, Or.inl rfl⟩
      (Res.eq_ok_unit _ (by decide!)) (Res.eq_ok_unit _ (by decide!))).1.2.2.2.2.2.1
      (by decide) (by decide),
   (C21_repeat_inc (ctx_at regex_repeat subject_aaa 1000) repeat_at_inc
      (op_REPEAT_INC (ctx_at regex_repeat subject_aaa 1000) repeat_at_inc).state
      (op_REPEAT_INC_NG (ctx_at regex_repeat subject_aaa 1000) repeat_at_inc).state
      0 1 1 7 0 ⟨2, 3⟩ (by decide!) (by decide!) (by decide!) (by decide!) rfl
      (by decide) (by decide)
      ⟨by decide!, by decide!, by decide!, Or.inl rfl⟩
      (Res.eq_ok_unit _ (by decide!)) (Res.eq_ok_unit _ (by decide!))).2.2.2.2.2.2.1
      (by decide) (by decide)⟩


/-! ## `repeat_stk` -/

theorem pop_restore_all_repeat_stk {st st1 : MatchState} {fr : StackType}
    (h : pop_restore_all st fr = some st1) : st1.repeat_stk = st.repeat_stk := by
  have hm : ∀ s s1 : MatchState, pop_restore_mem s fr = some s1 →
      s1.repeat_stk = s.repeat_stk := by
    intro s s1 hs
    unfold pop_restore_mem at hs
    split at hs
    · split at hs
      · cases hs; rfl
      · cases hs
    · cases hs
  unfold pop_restore_all at h
  split at h
  · exact hm _ _ h
  · split at h
    · unfold pop_repeat_dec at h
      split at h
      · split at h
        · cases hs : setI st.stack _ _ with
          | none => rw [hs] at h; cases h
          | some l => rw [hs] at h; cases h; rfl
        · cases h
      · cases h
    · split at h
      · exact hm _ _ h
      · cases h; rfl

/-- No pop of the backtrack stack writes `repeat_stk`. -/
theorem STACK_POP_loop_repeat_stk (lvl : Nat) (k : Nat) (st st1 : MatchState)
    (h : STACK_POP_loop lvl k st = some st1) : st1.repeat_stk = st.repeat_stk := by
  induction k generalizing st with
  | zero => cases h
  | succ k ih =>
    rw [STACK_POP_loop_succ] at h
    cases hfr : STACK_AT st k with
    | none => rw [hfr] at h; cases h
    | some fr =>
      rw [hfr] at h
      dsimp only at h
      split at h
      · cases h; rfl
      · split at h
        · exact ih _ h
        · split at h
          · split at h
            · cases hp : pop_restore_mem st fr with
              | none => rw [hp] at h; cases h
              | some s2 =>
                rw [hp] at h
                have e1 := ih _ h
                have e2 : s2.repeat_stk = st.repeat_stk := by
                  unfold pop_restore_mem at hp
                  split at hp
                  · split at hp
                    · cases hp; rfl
                    · cases hp
                  · cases hp
                rw [e1, e2]
            · exact ih _ h
          · cases hp : pop_restore_all st fr with
            | none => rw [hp] at h; cases h
            | some s2 =>
              rw [hp] at h
              rw [ih _ h, pop_restore_all_repeat_stk hp]

/-- The code at `fail` does not write `repeat_stk`. -/
theorem op_FAIL_repeat_stk (ctx : Ctx) (st st1 : MatchState)
    (h : op_FAIL ctx st = .ok () st1) : st1.repeat_stk = st.repeat_stk := by
  unfold op_FAIL at h
  obtain ⟨_, sa, h1, h2⟩ := bind_ok_inv h
  unfold STACK_POP at h1
  cases hl : STACK_POP_loop ctx.reg.stack_pop_level st.stk st with
  | none => rw [hl] at h1; cases h1
  | some s2 =>
    rw [hl] at h1
    cases h1
    have e := STACK_POP_loop_repeat_stk _ _ _ _ hl
    rw [run_bind, run_getS] at h2
    dsimp only at h2
    obtain ⟨fr, sb, h3, h4⟩ := bind_ok_inv h2
    obtain ⟨_, h5⟩ := liftO_ok_inv h3
    subst h5
    obtain ⟨t, u⟩ := fr
    cases u <;> first | (cases h4; exact e) | cases h4

/-- What the statements `STACK_ENSURE(1); repeat_stk[mem] = GET_STACK_INDEX(stk);
STACK_PUSH_REPEAT(mem, p)` leave when they go on. -/
theorem repeat_start_ok_inv {ctx : Ctx} {mem : Int} {st st1 : MatchState}
    (hr : StackRoom ctx st) (h : repeat_start ctx mem st = .ok () st1) :
    ptr_get st1.repeat_stk mem = some (st.stk : Int) ∧
    STACK_AT st1 st.stk = some ⟨STK_REPEAT, .repeat_ 0 st.p mem⟩ ∧
    st1.stk = st.stk + 1 ∧ st1.p = st.p ∧ st1.s = st.s ∧ st1.sprev = st.sprev ∧
    st1.stk ≤ st1.stk_end ∧ st1.stk_end * 2 < 4294967296 ∧
    (∀ i : Int, i < st.stk → STACK_AT st1 i = STACK_AT st i) := by
  unfold repeat_start at h
  obtain ⟨_, sa, h1, h2⟩ := bind_ok_inv h
  obtain ⟨g1, g2⟩ := STACK_ENSURE_room hr h1
  obtain ⟨e1, e2, e3, _, _, _, e7, e8, _, _, e11⟩ := STACK_ENSURE_ok_inv h1
  rw [run_bind, run_getS] at h2
  dsimp only at h2
  cases hs : setI sa.repeat_stk mem (some (sa.stk : Int)) with
  | none => rw [run_bind, hs, run_liftO_none] at h2; cases h2
  | some rs =>
    rw [run_bind, hs, run_liftO_some] at h2
    dsimp only at h2
    rw [run_bind, run_modS] at h2
    dsimp only at h2
    unfold STACK_PUSH_REPEAT at h2
    rw [run_bind, @STACK_ENSURE_noop ctx { sa with repeat_stk := rs } g1] at h2
    dsimp only at h2
    obtain ⟨hlt, h3⟩ := push_frame_ok_inv h2
    subst h3
    dsimp only at hlt ⊢
    refine ⟨?_, ?_, by rw [e7], e1, e2, e3, by omega, g2, ?_⟩
    · rw [← e7]
      exact ptr_get_setI_eq hs
    · rw [← e7, e1]
      exact STACK_AT_set_eq _ _ rfl hlt
    · intro i hi
      rw [@STACK_AT_set_ne _ sa sa.stk _ i rfl (by omega)]
      rcases e11 with e | e
      · exact STACK_AT_congr e i
      · refine STACK_AT_realloc st _ i e ?_
        rw [Nat.mod_eq_of_lt (by have := hr.small; omega)]
        have := hr.stk_le
        omega

/-- C22, the claim as it stands fails on the code: in the program of
`(?:a{1,2}b)*` on `abab`, after the second `OP_REPEAT` (9 rounds) the frames
at the indices 2 and 4, both below `stk = 5`, are `REPEAT` frames with the
id 0, and `repeat_stk[0]` is 4; when the third round of the outer loop has
failed and the third `REPEAT` frame, at the index 6, is popped (17 rounds,
`stk = 5`), `repeat_stk[0]` is still 6, the index of no live frame, while the
`REPEAT` frames at 2 and 4 are live.  The match succeeds with 4. -/
theorem C22_counterexample :
    (state_after regex_repeat_in_loop subject_abab 1000 9).stk = 5 ∧
    repeat_frame_id (state_after regex_repeat_in_loop subject_abab 1000 9) 2 = some 0 ∧
    repeat_frame_id (state_after regex_repeat_in_loop subject_abab 1000 9) 4 = some 0 ∧
    ptr_get (state_after regex_repeat_in_loop subject_abab 1000 9).repeat_stk 0 = some 4 ∧
    locals_after regex_repeat_in_loop subject_abab 1000 17 = some (24, 1004, 1003, 5) ∧
    repeat_frame_id (state_after regex_repeat_in_loop subject_abab 1000 17) 2 = some 0 ∧
    repeat_frame_id (state_after regex_repeat_in_loop subject_abab 1000 17) 4 = some 0 ∧
    ptr_get (state_after regex_repeat_in_loop subject_abab 1000 17).repeat_stk 0 = some 6 ∧
    observe 1 (onig_match 0 100 regex_repeat_in_loop subject_abab 1000
      (.onig onig_region_init) 0) = some (4, [(0, 4)]) := by
  decide!

/-- C22 as amended: when `OP_REPEAT` (locals `st1` after it) or
`OP_REPEAT_NG` (locals `sn1`) with the id `mem` has run (the stack block in
order), the `REPEAT` frame it pushed, with the count 0, the body after the
operands and the id `mem`, is live and located at the index `repeat_stk[mem]`,
which is the old `stk`.  No pop writes `repeat_stk`: the code at `fail`
(locals `sf`, `sf1`) and `STACK_POP` at any level leave it as it was, so
that after backtracking past a `REPEAT` frame `repeat_stk[mem]` still holds
the index of that frame. -/
theorem C22_repeat_stk (ctx : Ctx) (st st1 sn1 sf sf1 : MatchState) (v va : Nat)
    (hv : operand_at ctx.reg st.p SIZE_MEMNUM.toNat = some v)
    (ha : operand_at ctx.reg (st.p + SIZE_MEMNUM.toNat) SIZE_RELADDR.toNat = some va)
    (hroom : StackRoom ctx st)
    (h : op_REPEAT ctx st = .ok () st1)
    (hn : op_REPEAT_NG ctx st = .ok () sn1)
    (hf : op_FAIL ctx sf = .ok () sf1) :
    (ptr_get st1.repeat_stk (to_signed 16 v) = some (st.stk : Int) ∧
      STACK_AT st1 st.stk = some ⟨STK_REPEAT,
        .repeat_ 0 (st.p + SIZE_MEMNUM.toNat + SIZE_RELADDR.toNat) (to_signed 16 v)⟩ ∧
      st.stk < st1.stk) ∧
    (ptr_get sn1.repeat_stk (to_signed 16 v) = some (st.stk : Int) ∧
      STACK_AT sn1 st.stk = some ⟨STK_REPEAT,
        .repeat_ 0 (st.p + SIZE_MEMNUM.toNat + SIZE_RELADDR.toNat) (to_signed 16 v)⟩ ∧
      st.stk < sn1.stk) ∧
    sf1.repeat_stk = sf.repeat_stk ∧
    (∀ lvl k s s1, STACK_POP_loop lvl k s = some s1 → s1.repeat_stk = s.repeat_stk) := by
  have hroom1 : StackRoom ctx
      { st with p := st.p + SIZE_MEMNUM.toNat + SIZE_RELADDR.toNat } :=
    ⟨hroom.stk_le, hroom.pos, hroom.small, hroom.limit⟩
  refine ⟨?_, ?_, op_FAIL_repeat_stk ctx sf sf1 hf,
    fun lvl k s s1 hs => STACK_POP_loop_repeat_stk lvl k s s1 hs⟩
  · unfold op_REPEAT at h
    rw [run_bind, GET_MEMNUM_INC_run hv] at h
    dsimp only at h
    rw [run_bind, @GET_RELADDR_INC_run ctx { st with p := st.p + SIZE_MEMNUM.toNat } va ha] at h
    dsimp only at h
    obtain ⟨_, sa, h1, h2⟩ := bind_ok_inv h
    obtain ⟨e1, e2, e3, e4, e5, e6, e7, e8, e9⟩ := repeat_start_ok_inv hroom1 h1
    dsimp only at e1 e2 e3 e4 e5 e6
    obtain ⟨rr, sb, h3, h4⟩ := bind_ok_inv h2
    obtain ⟨_, h5⟩ := liftO_ok_inv h3
    subst h5
    by_cases hc : rr.lower = 0
    · rw [if_pos hc] at h4
      rw [run_bind, run_getS] at h4
      dsimp only at h4
      unfold STACK_PUSH_ALT STACK_PUSH at h4
      obtain ⟨_, _, _, _, _, _, f7, _, _, f10, _, f12⟩ := ensure_push_ok_inv e7 e8 h4
      refine ⟨by rw [f7]; exact e1, ?_, by omega⟩
      rw [f12 st.stk (by omega)]
      exact e2
    · rw [if_neg hc] at h4
      cases h4
      exact ⟨e1, e2, by omega⟩
  · unfold op_REPEAT_NG at hn
    rw [run_bind, GET_MEMNUM_INC_run hv] at hn
    dsimp only at hn
    rw [run_bind, @GET_RELADDR_INC_run ctx { st with p := st.p + SIZE_MEMNUM.toNat } va ha] at hn
    dsimp only at hn
    obtain ⟨_, sa, h1, h2⟩ := bind_ok_inv hn
    obtain ⟨e1, e2, e3, e4, e5, e6, e7, e8, e9⟩ := repeat_start_ok_inv hroom1 h1
    dsimp only at e1 e2 e3 e4 e5 e6
    obtain ⟨rr, sb, h3, h4⟩ := bind_ok_inv h2
    obtain ⟨_, h5⟩ := liftO_ok_inv h3
    subst h5
    by_cases hc : rr.lower = 0
    · rw [if_pos hc] at h4
      rw [run_bind, run_getS] at h4
      dsimp only at h4
      obtain ⟨_, sc, h6, h7⟩ := bind_ok_inv h4
      unfold STACK_PUSH_ALT STACK_PUSH at h6
      obtain ⟨_, _, _, _, _, _, f7, _, _, f10, _, f12⟩ := ensure_push_ok_inv e7 e8 h6
      unfold add_p at h7
      rw [run_modS] at h7
      cases h7
      dsimp only
      refine ⟨by rw [f7]; exact e1, ?_, by omega⟩
      show STACK_AT sc _ = _
      rw [f12 st.stk (by omega)]
      exact e2
    · rw [if_neg hc] at h4
      cases h4
      exact ⟨e1, e2, by omega⟩

theorem C22_repeat_stk_witness :
    (ptr_get (op_REPEAT (ctx_at regex_repeat_in_loop subject_abab 1000)
        repeat_in_loop_at_repeat).state.repeat_stk (to_signed 16 0) =
        some (repeat_in_loop_at_repeat.stk : Int) ∧
      STACK_AT (op_REPEAT (ctx_at regex_repeat_in_loop subject_abab 1000)
        repeat_in_loop_at_repeat).state repeat_in_loop_at_repeat.stk = some ⟨STK_REPEAT,
        .repeat_ 0 (repeat_in_loop_at_repeat.p + SIZE_MEMNUM.toNat + SIZE_RELADDR.toNat)
          (to_signed 16 0)⟩ ∧
      repeat_in_loop_at_repeat.stk < (op_REPEAT (ctx_at regex_repeat_in_loop subject_abab 1000)
        repeat_in_loop_at_repeat).state.stk) ∧
    (op_FAIL (ctx_at regex_repeat_in_loop subject_abab 1000)
      repeat_in_loop_at_fail).state.repeat_stk = repeat_in_loop_at_fail.repeat_stk ∧
    ptr_get repeat_in_loop_at_fail.repeat_stk 0 = some 6 ∧
    (op_FAIL (ctx_at regex_repeat_in_loop subject_abab 1000) repeat_in_loop_at_fail).state.stk =
      5 :=
  ⟨(C22_repeat_stk (ctx_at regex_repeat_in_loop subject_abab 1000) repeat_in_loop_at_repeat
      (op_REPEAT (ctx_at regex_repeat_in_loop subject_abab 1000) repeat_in_loop_at_repeat).state
      (op_REPEAT_NG (ctx_at regex_repeat_in_loop subject_abab 1000)
        repeat_in_loop_at_repeat).state
      repeat_in_loop_at_fail
      (op_FAIL (ctx_at regex_repeat_in_loop subject_abab 1000) repeat_in_loop_at_fail).state
      0 5 (by decide!) (by decide!) ⟨by decide!, by decide!, by decide!, Or.inl rfl⟩
      (Res.eq_ok_unit _ (by decide!)) (Res.eq_ok_unit _ (by decide!))
      (Res.eq_ok_unit _ (by decide!))).1,
   (C22_repeat_stk (ctx_at regex_repeat_in_loop subject_abab 1000) repeat_in_loop_at_repeat
      (op_REPEAT (ctx_at regex_repeat_in_loop subject_abab 1000) repeat_in_loop_at_repeat).state
      (op_REPEAT_NG (ctx_at regex_repeat_in_loop subject_abab 1000)
        repeat_in_loop_at_repeat).state
      repeat_in_loop_at_fail
      (op_FAIL (ctx_at regex_repeat_in_loop subject_abab 1000) repeat_in_loop_at_fail).state
      0 5 (by decide!) (by decide!) ⟨by decide!, by decide!, by decide!, Or.inl rfl⟩
      (Res.eq_ok_unit _ (by decide!)) (Res.eq_ok_unit _ (by decide!))
      (Res.eq_ok_unit _ (by decide!))).2.2.1,
   by decide!, by decide!⟩


/-! ## The recursive empty check -/

theorem STACK_EMPTY_CHECK_MEMST_REC_loop_succ (reg : regex_t) (st : MatchState) (id s : Int)
    (k : Nat) (level : Int) :
    STACK_EMPTY_CHECK_MEMST_REC_loop reg st id s (k + 1) level =
      match STACK_AT st k with
      | none => none
      | some fr =>
        if fr.type = STK_EMPTY_CHECK_START then
          match fr.u with
          | .empty_check num pstr =>
            if num = id then
              if level = 0 then
                if pstr ≠ s then some 0
                else EMPTY_CHECK_MEMST_inner reg st s (st.stk - k) k 1
              else STACK_EMPTY_CHECK_MEMST_REC_loop reg st id s k (level - 1)
            else STACK_EMPTY_CHECK_MEMST_REC_loop reg st id s k level
          | _ => none
        else if fr.type = STK_EMPTY_CHECK_END then
          match fr.u.get_empty_check_num with
          | some num =>
            if num = id then STACK_EMPTY_CHECK_MEMST_REC_loop reg st id s k (level + 1)
            else STACK_EMPTY_CHECK_MEMST_REC_loop reg st id s k level
          | none => none
        else STACK_EMPTY_CHECK_MEMST_REC_loop reg st id s k level := rfl

theorem STACK_EMPTY_CHECK_MEMST_REC_frame_succ (st : MatchState) (id : Int)
    (k : Nat) (level : Int) :
    STACK_EMPTY_CHECK_MEMST_REC_frame st id (k + 1) level =
      match STACK_AT st k with
      | none => none
      | some fr =>
        if fr.type = STK_EMPTY_CHECK_START then
          match fr.u with
          | .empty_check num _ =>
            if num = id then
              if level = 0 then some k
              else STACK_EMPTY_CHECK_MEMST_REC_frame st id k (level - 1)
            else STACK_EMPTY_CHECK_MEMST_REC_frame st id k level
          | _ => none
        else if fr.type = STK_EMPTY_CHECK_END then
          match fr.u.get_empty_check_num with
          | some num =>
            if num = id then STACK_EMPTY_CHECK_MEMST_REC_frame st id k (level + 1)
            else STACK_EMPTY_CHECK_MEMST_REC_frame st id k level
          | none => none
        else STACK_EMPTY_CHECK_MEMST_REC_frame st id k level := rfl

/-- The value of `STACK_EMPTY_CHECK_MEMST_REC` is computed from the frame
where its outer walk ends. -/
theorem STACK_EMPTY_CHECK_MEMST_REC_loop_frame (reg : regex_t) (st : MatchState) (id s : Int)
    (n : Nat) (level : Int) :
    STACK_EMPTY_CHECK_MEMST_REC_loop reg st id s n level =
      (STACK_EMPTY_CHECK_MEMST_REC_frame st id n level).bind (empty_check_memst_at reg st s) := by
  induction n generalizing level with
  | zero => rfl
  | succ n ih =>
    rw [STACK_EMPTY_CHECK_MEMST_REC_loop_succ, STACK_EMPTY_CHECK_MEMST_REC_frame_succ]
    cases hfr : STACK_AT st n with
    | none => rfl
    | some fr =>
      dsimp only
      obtain ⟨t, u⟩ := fr
      dsimp only
      by_cases h1 : t = STK_EMPTY_CHECK_START
      · rw [if_pos h1, if_pos h1]
        cases u <;> try rfl
        rename_i num pstr
        dsimp only
        by_cases h2 : num = id
        · rw [if_pos h2, if_pos h2]
          by_cases h3 : level = 0
          · rw [if_pos h3, if_pos h3]
            show _ = empty_check_memst_at reg st s n
            unfold empty_check_memst_at
            rw [hfr]
          · rw [if_neg h3, if_neg h3]
            exact ih _
        · rw [if_neg h2, if_neg h2]
          exact ih _
      · rw [if_neg h1, if_neg h1]
        by_cases h4 : t = STK_EMPTY_CHECK_END
        · rw [if_pos h4, if_pos h4]
          cases hn : u.get_empty_check_num with
          | none => rfl
          | some num =>
            dsimp only
            by_cases h2 : num = id
            · rw [if_pos h2, if_pos h2]
              exact ih _
            · rw [if_neg h2, if_neg h2]
              exact ih _
        · rw [if_neg h4, if_neg h4]
          exact ih _

theorem count_empty_check_succ (st : MatchState) (t : Nat) (id : Int) (m d : Nat) :
    count_empty_check st t id m (d + 1) =
      (if is_empty_check_frame st t id m then 1 else 0) + count_empty_check st t id (m + 1) d :=
  rfl

/-- The level of the outer walk of `STACK_EMPTY_CHECK_MEMST_REC` is the
number of `EMPTY_CHECK_END` frames of the id passed less that of the
`EMPTY_CHECK_START` frames of the id passed; the walk ends at the first
frame of type `EMPTY_CHECK_START` with the id where the two are equal. -/
theorem STACK_EMPTY_CHECK_MEMST_REC_frame_spec (st : MatchState) (id : Int) (top : Nat)
    (m : Nat) (level : Int) (k : Nat) (hm : m ≤ top)
    (hlevel : level = (count_empty_check st STK_EMPTY_CHECK_END id m (top - m) : Int) -
      count_empty_check st STK_EMPTY_CHECK_START id m (top - m))
    (habove : ∀ j, m ≤ j → j < top →
      is_empty_check_frame st STK_EMPTY_CHECK_START id j = true →
      count_empty_check st STK_EMPTY_CHECK_END id (j + 1) (top - (j + 1)) ≠
        count_empty_check st STK_EMPTY_CHECK_START id (j + 1) (top - (j + 1)))
    (h : STACK_EMPTY_CHECK_MEMST_REC_frame st id m level = some k) :
    k < m ∧ is_empty_check_frame st STK_EMPTY_CHECK_START id k = true ∧
    count_empty_check st STK_EMPTY_CHECK_END id (k + 1) (top - (k + 1)) =
      count_empty_check st STK_EMPTY_CHECK_START id (k + 1) (top - (k + 1)) ∧
    (∀ j, k < j → j < top → is_empty_check_frame st STK_EMPTY_CHECK_START id j = true →
      count_empty_check st STK_EMPTY_CHECK_END id (j + 1) (top - (j + 1)) ≠
        count_empty_check st STK_EMPTY_CHECK_START id (j + 1) (top - (j + 1))) := by
  induction m generalizing level with
  | zero => cases h
  | succ m ih =>
    rw [STACK_EMPTY_CHECK_MEMST_REC_frame_succ] at h
    have hd : top - m = (top - (m + 1)) + 1 := by omega
    have cE := count_empty_check_succ st STK_EMPTY_CHECK_END id m (top - (m + 1))
    have cS := count_empty_check_succ st STK_EMPTY_CHECK_START id m (top - (m + 1))
    rw [← hd] at cE cS
    cases hfr : STACK_AT st m with
    | none => rw [hfr] at h; cases h
    | some fr =>
      rw [hfr] at h
      dsimp only at h
      obtain ⟨t, u⟩ := fr
      dsimp only at h
      have hE : is_empty_check_frame st STK_EMPTY_CHECK_END id m =
          (t == STK_EMPTY_CHECK_END && u.get_empty_check_num == some id) := by
        unfold is_empty_check_frame
        rw [hfr]
      have hS : is_empty_check_frame st STK_EMPTY_CHECK_START id m =
          (t == STK_EMPTY_CHECK_START && u.get_empty_check_num == some id) := by
        unfold is_empty_check_frame
        rw [hfr]
      -- the step to the frames below, with the level and the counts moved
      have step : ∀ level1 : Int,
          level1 = (count_empty_check st STK_EMPTY_CHECK_END id m (top - m) : Int) -
            count_empty_check st STK_EMPTY_CHECK_START id m (top - m) →
          (is_empty_check_frame st STK_EMPTY_CHECK_START id m = true → level ≠ 0) →
          STACK_EMPTY_CHECK_MEMST_REC_frame st id m level1 = some k →
          k < m + 1 ∧ is_empty_check_frame st STK_EMPTY_CHECK_START id k = true ∧
          count_empty_check st STK_EMPTY_CHECK_END id (k + 1) (top - (k + 1)) =
            count_empty_check st STK_EMPTY_CHECK_START id (k + 1) (top - (k + 1)) ∧
          (∀ j, k < j → j < top →
            is_empty_check_frame st STK_EMPTY_CHECK_START id j = true →
            count_empty_check st STK_EMPTY_CHECK_END id (j + 1) (top - (j + 1)) ≠
              count_empty_check st STK_EMPTY_CHECK_START id (j + 1) (top - (j + 1))) := by
        intro level1 hl1 hm0 hk
        have := ih level1 (by omega) hl1 (fun j hj1 hj2 hj3 => by
          by_cases hjm : j = m
          · subst hjm
            have := hm0 hj3
            intro hc
            apply this
            rw [hlevel, hc]
            omega
          · exact habove j (by omega) hj2 hj3) hk
        exact ⟨by omega, this.2⟩
      by_cases h1 : t = STK_EMPTY_CHECK_START
      · rw [if_pos h1] at h
        have hEf : is_empty_check_frame st STK_EMPTY_CHECK_END id m = false := by
          rw [hE, h1]; rfl
        cases u <;> first | cases h | skip
        rename_i num pstr
        dsimp only at h
        by_cases h2 : num = id
        · rw [if_pos h2] at h
          have hSt : is_empty_check_frame st STK_EMPTY_CHECK_START id m = true := by
            rw [hS, h1, h2]; simp [StackU.get_empty_check_num]
          by_cases h3 : level = 0
          · rw [if_pos h3] at h
            have hk : k = m := (Option.some.inj h).symm
            subst hk
            refine ⟨by omega, hSt, ?_, fun j hj1 hj2 hj3 => habove j (by omega) hj2 hj3⟩
            have : (count_empty_check st STK_EMPTY_CHECK_END id (k + 1) (top - (k + 1)) : Int) =
                count_empty_check st STK_EMPTY_CHECK_START id (k + 1) (top - (k + 1)) := by
              omega
            exact_mod_cast this
          · rw [if_neg h3] at h
            refine step (level - 1) ?_ (fun _ => h3) h
            rw [cE, cS, hEf, hSt, hlevel]
            simp
            omega
        · rw [if_neg h2] at h
          have hSf : is_empty_check_frame st STK_EMPTY_CHECK_START id m = false := by
            rw [hS, h1]
            simp [StackU.get_empty_check_num, h2]
          refine step level ?_ (fun hc => by rw [hSf] at hc; cases hc) h
          rw [cE, cS, hEf, hSf, hlevel]
          simp
      · rw [if_neg h1] at h
        have hSf : is_empty_check_frame st STK_EMPTY_CHECK_START id m = false := by
          rw [hS]
          simp [h1]
        by_cases h4 : t = STK_EMPTY_CHECK_END
        · rw [if_pos h4] at h
          cases hn : u.get_empty_check_num with
          | none => rw [hn] at h; cases h
          | some num =>
            rw [hn] at h
            dsimp only at h
            by_cases h2 : num = id
            · rw [if_pos h2] at h
              have hEt : is_empty_check_frame st STK_EMPTY_CHECK_END id m = true := by
                rw [hE, h4, hn, h2]; simp
              refine step (level + 1) ?_ (fun hc => by rw [hSf] at hc; cases hc) h
              rw [cE, cS, hEt, hSf, hlevel]
              simp
              omega
            · rw [if_neg h2] at h
              have hEf : is_empty_check_frame st STK_EMPTY_CHECK_END id m = false := by
                rw [hE, hn]
                simp [h2]
              refine step level ?_ (fun hc => by rw [hSf] at hc; cases hc) h
              rw [cE, cS, hEf, hSf, hlevel]
              simp
        · rw [if_neg h4] at h
          have hEf : is_empty_check_frame st STK_EMPTY_CHECK_END id m = false := by
            rw [hE]
            simp [h4]
          refine step level ?_ (fun hc => by rw [hSf] at hc; cases hc) h
          rw [cE, cS, hEf, hSf, hlevel]
          simp

/-- The walk of `STACK_EMPTY_CHECK_MEMST_REC` reaches the first frame of type
`EMPTY_CHECK_START` with the id above which the frames of the two types with
the id are equal in number, when the frames it passes are in order. -/
theorem STACK_EMPTY_CHECK_MEMST_REC_frame_complete (st : MatchState) (id : Int) (top : Nat)
    (m : Nat) (level : Int) (k : Nat) (hk : k < m) (hm : m ≤ top)
    (hlevel : level = (count_empty_check st STK_EMPTY_CHECK_END id m (top - m) : Int) -
      count_empty_check st STK_EMPTY_CHECK_START id m (top - m))
    (hok : ∀ j, k ≤ j → j < m → empty_check_frame_ok st j = true)
    (hsel : is_empty_check_frame st STK_EMPTY_CHECK_START id k = true)
    (hbal : count_empty_check st STK_EMPTY_CHECK_END id (k + 1) (top - (k + 1)) =
      count_empty_check st STK_EMPTY_CHECK_START id (k + 1) (top - (k + 1)))
    (hnone : ∀ j, k < j → j < m →
      is_empty_check_frame st STK_EMPTY_CHECK_START id j = true →
      count_empty_check st STK_EMPTY_CHECK_END id (j + 1) (top - (j + 1)) ≠
        count_empty_check st STK_EMPTY_CHECK_START id (j + 1) (top - (j + 1))) :
    STACK_EMPTY_CHECK_MEMST_REC_frame st id m level = some k := by
  induction m generalizing level with
  | zero => omega
  | succ m ih =>
    rw [STACK_EMPTY_CHECK_MEMST_REC_frame_succ]
    have hd : top - m = (top - (m + 1)) + 1 := by omega
    have cE := count_empty_check_succ st STK_EMPTY_CHECK_END id m (top - (m + 1))
    have cS := count_empty_check_succ st STK_EMPTY_CHECK_START id m (top - (m + 1))
    rw [← hd] at cE cS
    have hokm := hok m (by omega) (by omega)
    unfold empty_check_frame_ok at hokm
    cases hfr : STACK_AT st m with
    | none => rw [hfr] at hokm; cases hokm
    | some fr =>
      rw [hfr] at hokm
      obtain ⟨t, u⟩ := fr
      dsimp only
      have hE : is_empty_check_frame st STK_EMPTY_CHECK_END id m =
          (t == STK_EMPTY_CHECK_END && u.get_empty_check_num == some id) := by
        unfold is_empty_check_frame
        rw [hfr]
      have hS : is_empty_check_frame st STK_EMPTY_CHECK_START id m =
          (t == STK_EMPTY_CHECK_START && u.get_empty_check_num == some id) := by
        unfold is_empty_check_frame
        rw [hfr]
      have step : ∀ level1 : Int, k < m →
          level1 = (count_empty_check st STK_EMPTY_CHECK_END id m (top - m) : Int) -
            count_empty_check st STK_EMPTY_CHECK_START id m (top - m) →
          STACK_EMPTY_CHECK_MEMST_REC_frame st id m level1 = some k := by
        intro level1 hkm hl1
        exact ih level1 hkm (by omega) hl1 (fun j h1 h2 => hok j h1 (by omega))
          (fun j h1 h2 h3 => hnone j h1 (by omega) h3)
      by_cases h1 : t = STK_EMPTY_CHECK_START
      · rw [if_pos h1]
        have hEf : is_empty_check_frame st STK_EMPTY_CHECK_END id m = false := by
          rw [hE, h1]; rfl
        subst h1
        cases u <;> first | (simp at hokm; done) | skip
        rename_i num pstr
        dsimp only
        by_cases h2 : num = id
        · rw [if_pos h2]
          have hSt : is_empty_check_frame st STK_EMPTY_CHECK_START id m = true := by
            rw [hS, h2]; simp [StackU.get_empty_check_num]
          by_cases hkm : k = m
          · subst hkm
            have h0 : level = 0 := by
              have : (count_empty_check st STK_EMPTY_CHECK_END id (k + 1) (top - (k + 1)) : Int) =
                  count_empty_check st STK_EMPTY_CHECK_START id (k + 1) (top - (k + 1)) := by
                exact_mod_cast hbal
              omega
            rw [if_pos h0]
          · have hne : level ≠ 0 := by
              intro hc
              refine hnone m (by omega) (by omega) hSt ?_
              have : (count_empty_check st STK_EMPTY_CHECK_END id (m + 1) (top - (m + 1)) : Int) =
                  count_empty_check st STK_EMPTY_CHECK_START id (m + 1) (top - (m + 1)) := by
                omega
              exact_mod_cast this
            rw [if_neg hne]
            refine step (level - 1) (by omega) ?_
            rw [cE, cS, hEf, hSt, hlevel]
            simp
            omega
        · rw [if_neg h2]
          have hSf : is_empty_check_frame st STK_EMPTY_CHECK_START id m = false := by
            rw [hS]
            simp [StackU.get_empty_check_num, h2]
          have hkm : k < m := by
            by_contra hc
            have : k = m := by omega
            subst this
            rw [hSf] at hsel
            cases hsel
          refine step level hkm ?_
          rw [cE, cS, hEf, hSf, hlevel]
          simp
      · rw [if_neg h1]
        have hSf : is_empty_check_frame st STK_EMPTY_CHECK_START id m = false := by
          rw [hS]
          simp [h1]
        have hkm : k < m := by
          by_contra hc
          have : k = m := by omega
          subst this
          rw [hSf] at hsel
          cases hsel
        by_cases h4 : t = STK_EMPTY_CHECK_END
        · rw [if_pos h4]
          subst h4
          cases hn : u.get_empty_check_num with
          | none =>
            exfalso
            cases u <;> first | (simp at hokm; done) | cases hn
          | some num =>
            dsimp only
            by_cases h2 : num = id
            · rw [if_pos h2]
              have hEt : is_empty_check_frame st STK_EMPTY_CHECK_END id m = true := by
                rw [hE, hn, h2]; simp
              refine step (level + 1) hkm ?_
              rw [cE, cS, hEt, hSf, hlevel]
              simp
              omega
            · rw [if_neg h2]
              have hEf : is_empty_check_frame st STK_EMPTY_CHECK_END id m = false := by
                rw [hE, hn]
                simp [h2]
              refine step level hkm ?_
              rw [cE, cS, hEf, hSf, hlevel]
              simp
        · rw [if_neg h4]
          have hEf : is_empty_check_frame st STK_EMPTY_CHECK_END id m = false := by
            rw [hE]
            simp [h4]
          refine step level hkm ?_
          rw [cE, cS, hEf, hSf, hlevel]
          simp

/-- C24, the claim as it stands fails on the code: in the program of a group
that calls itself inside a loop with the empty check 0, on `b`, the outer
round of the loop reaches `OP_EMPTY_CHECK_END_MEMST_PUSH` (12 rounds, `s` at
1001) with the frames `ALT, CALL_FRAME, ALT, EMPTY_CHECK_START, ALT,
CALL_FRAME, ALT, EMPTY_CHECK_START, RETURN` on the stack; the frame of the
outer round, at the index 3, recorded 1000, that of the call, at 7, recorded
1001.  Counting calls (up on `RETURN`, down on `CALL_FRAME`) selects the
frame at 3; the walk of the code ends at the frame at 7 and gives 1, as does
the variant `STACK_EMPTY_CHECK_REC`, and the next round skips the loop-back
(code offset 34 instead of 29). -/
theorem C24_counterexample :
    locals_after regex_recursive_loop subject_b 1000 12 = some (26, 1001, 1000, 9) ∧
    (List.range 9).map (fun j => frame_type recursive_loop_at_check (j : Nat)) =
      [some STK_ALT, some STK_CALL_FRAME, some STK_ALT, some STK_EMPTY_CHECK_START,
       some STK_ALT, some STK_CALL_FRAME, some STK_ALT, some STK_EMPTY_CHECK_START,
       some STK_RETURN] ∧
    empty_check_pstr recursive_loop_at_check 3 = some 1000 ∧
    empty_check_pstr recursive_loop_at_check 7 = some 1001 ∧
    empty_check_start_by_call_level recursive_loop_at_check 0 recursive_loop_at_check.stk 0 =
      some 3 ∧
    STACK_EMPTY_CHECK_MEMST_REC_frame recursive_loop_at_check 0 recursive_loop_at_check.stk 0 =
      some 7 ∧
    STACK_EMPTY_CHECK_MEMST_REC_loop regex_recursive_loop recursive_loop_at_check 0
      recursive_loop_at_check.s recursive_loop_at_check.stk 0 = some 1 ∧
    STACK_EMPTY_CHECK_REC_loop recursive_loop_at_check 0 recursive_loop_at_check.s
      recursive_loop_at_check.stk 0 = some 1 ∧
    locals_after regex_recursive_loop subject_b 1000 13 = some (34, 1001, 1000, 9) := by
  decide!

/-- C24 as amended: the recursive empty check of
`OP_EMPTY_CHECK_END_MEMST_PUSH` (`STACK_EMPTY_CHECK_MEMST_REC`) selects,
walking down from the stack top, the nearest frame of type
`EMPTY_CHECK_START` with the id that lies at the nesting level 0 of the
frames of the empty check with that id: the level goes up by one on each
`EMPTY_CHECK_END` frame of the id and down by one on each `EMPTY_CHECK_START`
frame of the id passed; `CALL_FRAME` and `RETURN` frames do not count.  The
walk ends at the frame `k` exactly when `k` is a frame of type
`EMPTY_CHECK_START` with the id, the `EMPTY_CHECK_END` and
`EMPTY_CHECK_START` frames of the id above it are equal in number, and this
holds of no such frame above it (the frames from `k` up being in order); the
value of the macro is computed from the frame where the walk ends. -/
theorem C24_empty_check_rec_level (reg : regex_t) (st : MatchState) (id s : Int) (k : Nat)
    (hok : ∀ j, k ≤ j → j < st.stk → empty_check_frame_ok st j = true) :
    (STACK_EMPTY_CHECK_MEMST_REC_frame st id st.stk 0 = some k ↔
      (k < st.stk ∧ is_empty_check_frame st STK_EMPTY_CHECK_START id k = true ∧
        count_empty_check st STK_EMPTY_CHECK_END id (k + 1) (st.stk - (k + 1)) =
          count_empty_check st STK_EMPTY_CHECK_START id (k + 1) (st.stk - (k + 1)) ∧
        (∀ j, k < j → j < st.stk →
          is_empty_check_frame st STK_EMPTY_CHECK_START id j = true →
          count_empty_check st STK_EMPTY_CHECK_END id (j + 1) (st.stk - (j + 1)) ≠
            count_empty_check st STK_EMPTY_CHECK_START id (j + 1) (st.stk - (j + 1))))) ∧
    STACK_EMPTY_CHECK_MEMST_REC_loop reg st id s st.stk 0 =
      (STACK_EMPTY_CHECK_MEMST_REC_frame st id st.stk 0).bind (empty_check_memst_at reg st s) := by
  have h0 : (0 : Int) = (count_empty_check st STK_EMPTY_CHECK_END id st.stk (st.stk - st.stk) : Int)
      - count_empty_check st STK_EMPTY_CHECK_START id st.stk (st.stk - st.stk) := by
    rw [Nat.sub_self]
    rfl
  refine ⟨⟨?_, ?_⟩, STACK_EMPTY_CHECK_MEMST_REC_loop_frame reg st id s st.stk 0⟩
  · intro h
    exact STACK_EMPTY_CHECK_MEMST_REC_frame_spec st id st.stk st.stk 0 k (le_refl _) h0
      (fun j h1 h2 => absurd h2 (by omega)) h
  · rintro ⟨h1, h2, h3, h4⟩
    exact STACK_EMPTY_CHECK_MEMST_REC_frame_complete st id st.stk st.stk 0 k h1 (le_refl _) h0
      hok h2 h3 h4

theorem C24_empty_check_rec_level_witness :
    (STACK_EMPTY_CHECK_MEMST_REC_frame recursive_loop_at_check 0
        recursive_loop_at_check.stk 0 = some 7 ↔
      (7 < recursive_loop_at_check.stk ∧
        is_empty_check_frame recursive_loop_at_check STK_EMPTY_CHECK_START 0 7 = true ∧
        count_empty_check recursive_loop_at_check STK_EMPTY_CHECK_END 0 (7 + 1)
            (recursive_loop_at_check.stk - (7 + 1)) =
          count_empty_check recursive_loop_at_check STK_EMPTY_CHECK_START 0 (7 + 1)
            (recursive_loop_at_check.stk - (7 + 1)) ∧
        (∀ j, 7 < j → j < recursive_loop_at_check.stk →
          is_empty_check_frame recursive_loop_at_check STK_EMPTY_CHECK_START 0 j = true →
          count_empty_check recursive_loop_at_check STK_EMPTY_CHECK_END 0 (j + 1)
              (recursive_loop_at_check.stk - (j + 1)) ≠
            count_empty_check recursive_loop_at_check STK_EMPTY_CHECK_START 0 (j + 1)
              (recursive_loop_at_check.stk - (j + 1))))) ∧
    STACK_EMPTY_CHECK_MEMST_REC_loop regex_recursive_loop recursive_loop_at_check 0
        recursive_loop_at_check.s recursive_loop_at_check.stk 0 =
      (STACK_EMPTY_CHECK_MEMST_REC_frame recursive_loop_at_check 0
        recursive_loop_at_check.stk 0).bind
        (empty_check_memst_at regex_recursive_loop recursive_loop_at_check
          recursive_loop_at_check.s) :=
  C24_empty_check_rec_level regex_recursive_loop recursive_loop_at_check 0
    recursive_loop_at_check.s 7
    (fun j h1 h2 => by
      have e : recursive_loop_at_check.stk = 9 := by decide!
      rw [e] at h2
      have hj : j = 7 ∨ j = 8 := by omega
      rcases hj with hj | hj <;> subst hj <;> decide!)


/-! ## Calls and returns -/

theorem STACK_RETURN_frame_succ (st : MatchState) (k : Nat) (level : Int) :
    STACK_RETURN_frame st (k + 1) level =
      match STACK_AT st k with
      | none => none
      | some fr =>
        if fr.type = STK_CALL_FRAME then
          if level = 0 then some k
          else STACK_RETURN_frame st k (level - 1)
        else if fr.type = STK_RETURN then STACK_RETURN_frame st k (level + 1)
        else STACK_RETURN_frame st k level := rfl

theorem STACK_RETURN_loop_succ (st : MatchState) (k : Nat) (level : Int) :
    STACK_RETURN_loop st (k + 1) level =
      match STACK_AT st k with
      | none => none
      | some fr =>
        if fr.type = STK_CALL_FRAME then
          if level = 0 then
            match fr.u with
            | .call_frame ret_addr => some ret_addr
            | _ => none
          else STACK_RETURN_loop st k (level - 1)
        else if fr.type = STK_RETURN then STACK_RETURN_loop st k (level + 1)
        else STACK_RETURN_loop st k level := rfl

/-- The address that `STACK_RETURN` takes is the `ret_addr` of the frame
where its walk ends. -/
theorem STACK_RETURN_loop_eq_frame (st : MatchState) (n : Nat) (level : Int) :
    STACK_RETURN_loop st n level =
      (STACK_RETURN_frame st n level).bind (call_frame_ret_addr st) := by
  induction n generalizing level with
  | zero => rfl
  | succ n ih =>
    rw [STACK_RETURN_loop_succ, STACK_RETURN_frame_succ]
    cases hfr : STACK_AT st n with
    | none => rfl
    | some fr =>
      dsimp only
      obtain ⟨t, u⟩ := fr
      dsimp only
      by_cases h1 : t = STK_CALL_FRAME
      · rw [if_pos h1, if_pos h1]
        by_cases h2 : level = 0
        · rw [if_pos h2, if_pos h2]
          show _ = call_frame_ret_addr st n
          unfold call_frame_ret_addr
          rw [hfr]
          cases u <;> rfl
        · rw [if_neg h2, if_neg h2]
          exact ih _
      · rw [if_neg h1, if_neg h1]
        by_cases h3 : t = STK_RETURN
        · rw [if_pos h3, if_pos h3]
          exact ih _
        · rw [if_neg h3, if_neg h3]
          exact ih _

theorem open_calls_succ (st : MatchState) (m d : Nat) :
    open_calls st m (d + 1) =
      match open_calls st m d, STACK_AT st ((m + d : Nat) : Int) with
      | some os, some fr =>
        if fr.type = STK_CALL_FRAME then some ((m + d) :: os)
        else if fr.type = STK_RETURN then
          match os with
          | [] => none
          | _ :: rest => some rest
        else some os
      | _, _ => none := rfl

/-- The walk of `STACK_RETURN` that starts at the level `l` above frames
whose open calls are `os` ends at the call number `l` of `os`, counted from
the innermost. -/
theorem STACK_RETURN_frame_open_calls (st : MatchState) (m d : Nat) (os : List Nat)
    (h : open_calls st m d = some os) (l : Nat) (k : Nat) (hl : os.get? l = some k) :
    STACK_RETURN_frame st (m + d) (l : Int) = some k := by
  induction d generalizing os l with
  | zero =>
    cases h
    cases hl
  | succ d ih =>
    rw [open_calls_succ] at h
    rw [← Nat.add_assoc, STACK_RETURN_frame_succ]
    cases ho : open_calls st m d with
    | none => rw [ho] at h; cases h
    | some os1 =>
      rw [ho] at h
      cases hfr : STACK_AT st ((m + d : Nat) : Int) with
      | none => rw [hfr] at h; cases h
      | some fr =>
        rw [hfr] at h
        dsimp only at h ⊢
        by_cases h1 : fr.type = STK_CALL_FRAME
        · rw [if_pos h1] at h ⊢
          cases h
          cases l with
          | zero =>
            rw [if_pos (by rfl)]
            simpa using hl
          | succ l =>
            rw [if_neg (by omega)]
            have : ((l + 1 : Nat) : Int) - 1 = (l : Int) := by omega
            rw [this]
            exact ih os1 ho l (by simpa using hl)
        · rw [if_neg h1] at h ⊢
          by_cases h3 : fr.type = STK_RETURN
          · rw [if_pos h3] at h ⊢
            cases os1 with
            | nil => cases h
            | cons j rest =>
              cases h
              have : (l : Int) + 1 = ((l + 1 : Nat) : Int) := by omega
              rw [this]
              exact ih (j :: os) ho (l + 1) (by simpa using hl)
          · rw [if_neg h3] at h ⊢
            cases h
            exact ih os ho l hl

/-- `STACK_RETURN` on a stack whose innermost open call is the frame `k`. -/
theorem STACK_RETURN_open_calls (st : MatchState) (m : Nat) (k : Nat) (rest : List Nat)
    (ret : Int) (hm : m ≤ st.stk)
    (h : open_calls st m (st.stk - m) = some (k :: rest))
    (hfr : call_frame_ret_addr st k = some ret) :
    STACK_RETURN st = .ok ret st := by
  unfold STACK_RETURN
  have e := STACK_RETURN_frame_open_calls st m (st.stk - m) (k :: rest) h 0 k rfl
  rw [Nat.add_sub_cancel' hm] at e
  rw [STACK_RETURN_loop_eq_frame]
  have e1 : STACK_RETURN_frame st st.stk 0 = some k := e
  rw [e1]
  show (match call_frame_ret_addr st k with
    | some a => Res.ok a st
    | none => Res.exit Exit.undef st) = _
  rw [hfr]

/-- The push of the `RETURN` marker leaves the code pointer. -/
theorem STACK_PUSH_RETURN_p {ctx : Ctx} {st st1 : MatchState}
    (h : STACK_PUSH_RETURN ctx st = .ok () st1) : st1.p = st.p := by
  unfold STACK_PUSH_RETURN STACK_PUSH_TYPE at h
  obtain ⟨_, sa, h1, h2⟩ := bind_ok_inv h
  obtain ⟨e1, _⟩ := STACK_ENSURE_ok_inv h1
  rw [run_bind, run_getS] at h2
  dsimp only at h2
  obtain ⟨_, h3⟩ := push_frame_ok_inv h2
  subst h3
  exact e1

/-- The arm of `OP_RETURN` when `STACK_RETURN` is known. -/
theorem op_RETURN_of_STACK_RETURN (ctx : Ctx) (st : MatchState) (ret : Int)
    (h : STACK_RETURN st = .ok ret st) :
    op_RETURN ctx st = STACK_PUSH_RETURN ctx { st with p := ret } ∧
    ∀ st1, op_RETURN ctx st = .ok () st1 → st1.p = ret := by
  have e : op_RETURN ctx st = STACK_PUSH_RETURN ctx { st with p := ret } := by
    unfold op_RETURN
    rw [run_bind, h]
    dsimp only
    rw [run_bind, run_modS]
  refine ⟨e, fun st1 h1 => ?_⟩
  rw [e] at h1
  exact STACK_PUSH_RETURN_p h1

/-- C27.  On a stack in which, read in the order of the pushes, every
`RETURN` marker closes an open call and the innermost call left open is the
`CALL_FRAME` at `k` with the address `ret`: `STACK_RETURN` takes `ret`, and
the arm of `OP_RETURN` sets the code pointer to `ret` and pushes the `RETURN`
marker.  `OP_CALL(addr)` (locals `sc`, `sc1`) pushes the `CALL_FRAME` with
the address of the instruction after it and goes on at `addr`; when later
(locals `sr`) that frame is still in its place and the frames from it up
leave no call open but it (the body made balanced calls only), `OP_RETURN`
resumes at the instruction after the `OP_CALL`. -/
theorem C27_call_return (ctx : Ctx) (st sc sc1 sr : MatchState) (k : Nat) (rest : List Nat)
    (ret : Int) (va : Nat)
    (hopen : open_calls st 0 st.stk = some (k :: rest))
    (hfr : call_frame_ret_addr st k = some ret)
    (hva : operand_at ctx.reg sc.p SIZE_ABSADDR.toNat = some va)
    (hwf : sc.stk ≤ sc.stk_end) (h32 : sc.stk_end * 2 < 4294967296)
    (hcall : op_CALL ctx sc = .ok () sc1)
    (hkeep : STACK_AT sr sc.stk = STACK_AT sc1 sc.stk)
    (hle : sc.stk < sr.stk)
    (hbody : open_calls sr sc.stk (sr.stk - sc.stk) = some [sc.stk]) :
    (STACK_RETURN st = .ok ret st ∧
      op_RETURN ctx st = STACK_PUSH_RETURN ctx { st with p := ret } ∧
      ∀ st1, op_RETURN ctx st = .ok () st1 → st1.p = ret) ∧
    (sc1.p = to_signed 32 va ∧ sc1.stk = sc.stk + 1 ∧
      STACK_AT sc1 sc.stk =
        some ⟨STK_CALL_FRAME, .call_frame (sc.p + SIZE_ABSADDR.toNat)⟩ ∧
      STACK_RETURN sr = .ok (sc.p + SIZE_ABSADDR.toNat) sr ∧
      ∀ sr1, op_RETURN ctx sr = .ok () sr1 → sr1.p = sc.p + SIZE_ABSADDR.toNat) := by
  constructor
  · have e := STACK_RETURN_open_calls st 0 k rest ret (Nat.zero_le _) hopen hfr
    exact ⟨e, op_RETURN_of_STACK_RETURN ctx st ret e⟩
  · unfold op_CALL at hcall
    rw [run_bind, GET_ABSADDR_INC_run hva] at hcall
    dsimp only at hcall
    rw [run_bind, run_getS] at hcall
    dsimp only at hcall
    obtain ⟨_, sa, h1, h2⟩ := bind_ok_inv hcall
    unfold STACK_PUSH_CALL_FRAME at h1
    obtain ⟨_, _, _, _, _, _, _, _, _, e10, e11, _⟩ :=
      @ensure_push_ok_inv ctx _ { sc with p := sc.p + SIZE_ABSADDR.toNat } sa hwf h32 h1
    rw [run_modS] at h2
    cases h2
    dsimp only at e10 e11 ⊢
    have hret : call_frame_ret_addr sr sc.stk = some (sc.p + SIZE_ABSADDR.toNat) := by
      unfold call_frame_ret_addr
      rw [hkeep]
      show (match STACK_AT sa sc.stk with
        | some ⟨_, .call_frame ret_addr⟩ => some ret_addr
        | _ => none) = _
      rw [e11]
    have e := STACK_RETURN_open_calls sr sc.stk sc.stk [] _ (by omega) hbody hret
    exact ⟨rfl, e10, e11, e, (op_RETURN_of_STACK_RETURN ctx sr _ e).2⟩

theorem C27_call_return_witness :
    (STACK_RETURN nested_call_at_return = .ok 5 nested_call_at_return ∧
      op_RETURN (ctx_at regex_nested_call subject_ab 1000) nested_call_at_return =
        STACK_PUSH_RETURN (ctx_at regex_nested_call subject_ab 1000)
          { nested_call_at_return with p := 5 } ∧
      ∀ st1, op_RETURN (ctx_at regex_nested_call subject_ab 1000) nested_call_at_return =
        .ok () st1 → st1.p = 5) ∧
    ((op_CALL (ctx_at regex_nested_call subject_ab 1000) nested_call_at_call).state.p =
        to_signed 32 6 ∧
      (op_CALL (ctx_at regex_nested_call subject_ab 1000) nested_call_at_call).state.stk =
        nested_call_at_call.stk + 1 ∧
      STACK_AT (op_CALL (ctx_at regex_nested_call subject_ab 1000) nested_call_at_call).state
          nested_call_at_call.stk =
        some ⟨STK_CALL_FRAME, .call_frame (nested_call_at_call.p + SIZE_ABSADDR.toNat)⟩ ∧
      STACK_RETURN nested_call_at_return =
        .ok (nested_call_at_call.p + SIZE_ABSADDR.toNat) nested_call_at_return ∧
      ∀ sr1, op_RETURN (ctx_at regex_nested_call subject_ab 1000) nested_call_at_return =
        .ok () sr1 → sr1.p = nested_call_at_call.p + SIZE_ABSADDR.toNat) :=
  C27_call_return (ctx_at regex_nested_call subject_ab 1000) nested_call_at_return
    nested_call_at_call
    (op_CALL (ctx_at regex_nested_call subject_ab 1000) nested_call_at_call).state
    nested_call_at_return 1 [] 5 6
    (by decide!) (by decide!) (by decide!) (by decide!) (by decide!)
    (Res.eq_ok_unit _ (by decide!)) (by decide!) (by decide!) (by decide!)


/-! ## `OP_BACKREF_MULTI` -/

/-- C35, the code at the failing input: with `MatchStackLimitSize = 100` the
first growth, of the initial block of 160 frames, leaves a heap block of 320
frames; on that block `stack_double` returns 0 and leaves a capacity of 100,
below the old one; the same with a limit of 3 and a heap block of 4 frames,
all four in use. -/
theorem C35_heap_block_shrinks :
    stack_double 100 true INIT_MATCH_STACK_SIZE = .ok 320 ∧
      stack_double 100 false 320 = .ok 100 ∧ ¬ 320 < 100 ∧
      stack_double 3 false 4 = .ok 3 ∧ 1 ≤ 4 ∧ 4 ≤ 4 ∧ ¬ 4 < 3 :=
  ⟨rfl, rfl, by decide, rfl, by decide, by decide, by decide⟩

/-- For a stack with `1 ≤ capacity`, `used ≤ capacity` and
twice the capacity below `2 ^ 32`, when the block is still the initial one
(`is_alloca`) or `MatchStackLimitSize` is 0 or not below the capacity: when
`STACK_ENSURE` grows the stack and `stack_double` returns 0, the new capacity
is strictly greater than the old one, hence greater than `used`, and the
number of used frames and the frames themselves are unchanged. -/
theorem stack_double_grows (ctx : Ctx) (st st1 : MatchState) (n : Int)
    (hcap : 1 ≤ st.stk_end) (hused : st.stk ≤ st.stk_end)
    (h32 : st.stk_end * 2 < 4294967296)
    (hlim : st.is_alloca = true ∨ ctx.MatchStackLimitSize = 0 ∨
      st.stk_end ≤ ctx.MatchStackLimitSize)
    (hgrow : (st.stk_end : Int) - st.stk < n)
    (h : STACK_ENSURE ctx n st = .ok () st1) :
    stack_double ctx.MatchStackLimitSize st.is_alloca st.stk_end = .ok st1.stk_end ∧
      st.stk_end < st1.stk_end ∧ st.stk < st1.stk_end ∧ st1.stk = st.stk ∧
      ∀ i : Int, i < st.stk → STACK_AT st1 i = STACK_AT st i := by
  unfold STACK_ENSURE at h
  rw [if_pos hgrow] at h
  cases hd : stack_double ctx.MatchStackLimitSize st.is_alloca st.stk_end with
  | error r =>
    rw [hd] at h
    cases h
  | ok n1 =>
    rw [hd] at h
    cases h
    have hn1 : st.stk_end < n1 := by
      unfold stack_double at hd
      have hm : st.stk_end * 2 % 4294967296 = st.stk_end * 2 := Nat.mod_eq_of_lt h32
      have hm1 : st.stk_end % 4294967296 = st.stk_end := Nat.mod_eq_of_lt (by omega)
      simp only [hm, hm1] at hd
      split_ifs at hd with c1 c2 c3
      · cases hd; omega
      · cases hd
        rcases hlim with hl | hl | hl
        · exact absurd hl c1
        · exact absurd hl c2.1
        · omega
      · cases hd; omega
    refine ⟨rfl, hn1, by dsimp only; omega, rfl, ?_⟩
    intro i hi
    refine STACK_AT_realloc st _ i rfl ?_
    rw [Nat.mod_eq_of_lt h32]
    omega

theorem stack_double_grows_full_stack :
    stack_double (ctx_at regex_repeat subject_aaa 1000).MatchStackLimitSize
        full_stack_at_start.is_alloca full_stack_at_start.stk_end =
      .ok (STACK_ENSURE (ctx_at regex_repeat subject_aaa 1000) 1
        full_stack_at_start).state.stk_end ∧
    full_stack_at_start.stk_end <
      (STACK_ENSURE (ctx_at regex_repeat subject_aaa 1000) 1
        full_stack_at_start).state.stk_end ∧
    full_stack_at_start.stk <
      (STACK_ENSURE (ctx_at regex_repeat subject_aaa 1000) 1
        full_stack_at_start).state.stk_end ∧
    (STACK_ENSURE (ctx_at regex_repeat subject_aaa 1000) 1 full_stack_at_start).state.stk =
      full_stack_at_start.stk ∧
    ∀ i : Int, i < full_stack_at_start.stk →
      STACK_AT (STACK_ENSURE (ctx_at regex_repeat subject_aaa 1000) 1
        full_stack_at_start).state i = STACK_AT full_stack_at_start i :=
  stack_double_grows (ctx_at regex_repeat subject_aaa 1000) full_stack_at_start _ 1
    (by decide!) (by decide!) (by decide!) (Or.inl (by decide!)) (by decide!)
    (Res.eq_ok_unit _ (by decide!))

/-! ## `OP_UPDATE_VAR` and the right range -/

/-- C37: the code reads the slot at the index `stk`.  In `prog_update_var`
on `ab`, at the second `OP_UPDATE_VAR` two frames are pushed and
`right_range_index` is 2, the index of a frame that `OP_FAIL` popped, so
`from = stk`; the slot at the index 2 still holds the popped `SAVE_VAL`
frame of the right range with the id 1, the frames 0 and 1 hold no such
frame, and `right_range` is taken from the slot: the lowered value 1000
becomes 1002 again, and the match of `b` that the lowered right range
excludes is found. -/
theorem C37_update_var_reads_slot_at_stk :
    update_var_at_op.stk = 2 ∧ update_var_at_op.right_range_index = 2 ∧
      update_var_at_op.right_range = 1000 ∧
      STACK_AT update_var_at_op 2 = some ⟨STK_SAVE_VAL, .val 1 SAVE_RIGHT_RANGE 1002⟩ ∧
      STACK_AT update_var_at_op 1 = some ⟨STK_SAVE_VAL, .val 0 SAVE_KEEP 1001⟩ ∧
      frame_type update_var_at_op 0 = some STK_ALT ∧
      (op_UPDATE_VAR (ctx_at regex_update_var subject_ab 1000)
        update_var_at_op).state.right_range = 1002 ∧
      observe 1 (onig_match 0 100 regex_update_var subject_ab 1000
        (.onig onig_region_init) 0) = some (2, [(0, 2)]) := by
  decide!

/-- C34: the code lets a match end after `range`.  The forward search of
`(a)\k<1+0>` in `aa` with `start = str` and `range = str + 1` returns 0 and
leaves `region.end[0] = 2`, above `range - str = 1`: at `s = str + 1`, the
right range, `OP_BACKREF_WITH_LEVEL` compares the length of the group with
`end - s` and consumes the byte at `str + 1`. -/
theorem C34_backref_level_passes_range :
    subject_aa.str ≤ 1000 ∧ (1000 : Int) < 1001 ∧ 1001 ≤ subject_aa.end_ ∧
      observe 2 (onig_search 0 100 regex_backref_level subject_aa 1000 1001
        (.onig onig_region_init) 0) = some (0, [(0, 2), (0, 1)]) ∧
      ¬ (2 : Int) ≤ 1001 - subject_aa.str := by
  decide!

/-! ## `STACK_STOP_BT_END` and `STACK_POS_END` -/

/-- C36: `STACK_STOP_BT_END` (`mark = STK_STOP_BT`) and `STACK_POS_END`
(`mark = STK_POS`) with the nearest marker at the index `m` change the stack
memory alone, so the height stays; the type of the marker and of every frame
above it whose type has a bit of the mask `0x10ff` (`STK_ALT`,
`STK_ALT_PREC_READ_NOT`, `STK_ALT_LOOK_BEHIND_NOT`, `STK_STATE_CHECK_MARK`,
`STK_EMPTY_CHECK_START`, `STK_EMPTY_CHECK_END`) becomes `STK_VOID`; the type
of every other frame above the marker (`STK_MEM_START`, `STK_MEM_END`,
`STK_MEM_END_MARK`, `STK_REPEAT`, `STK_REPEAT_INC`, `STK_CALL_FRAME`,
`STK_RETURN`, `STK_SAVE_VAL`, `STK_POS`, `STK_STOP_BT`), all unions, and the
frames below the marker stay. -/
theorem C36_void_walk (st : MatchState) (m mark : Nat)
    (hmark : mark = STK_STOP_BT ∨ mark = STK_POS)
    (hm : m < st.stk) (hfm : frame_type st m = some mark)
    (hbetween : ∀ j : Nat, m < j → j < st.stk →
      ∃ t, frame_type st j = some t ∧ t ≠ mark) :
    ∃ st1, st1 = { st with stack := st1.stack } ∧ st1.stk = st.stk ∧
      (mark = STK_STOP_BT → STACK_STOP_BT_END st = .ok () st1) ∧
      (mark = STK_POS → ∃ fr, STACK_POS_END st = .ok fr st1) ∧
      (∀ j : Nat, j < st.stk → ∀ t, frame_type st j = some t →
        frame_type st1 j = some
          (if j = m ∨ (m < j ∧ t &&& 0x10ff ≠ 0) then STK_VOID else t)) ∧
      (∀ j : Nat, m < j → j < st.stk → ∀ t, frame_type st j = some t →
        (t = STK_ALT ∨ t = STK_ALT_PREC_READ_NOT ∨ t = STK_ALT_LOOK_BEHIND_NOT ∨
          t = STK_STATE_CHECK_MARK ∨ t = STK_EMPTY_CHECK_START ∨
          t = STK_EMPTY_CHECK_END) →
        frame_type st1 j = some STK_VOID) ∧
      (∀ j : Nat, m < j → j < st.stk → ∀ t, frame_type st j = some t →
        (t = STK_MEM_START ∨ t = STK_MEM_END ∨ t = STK_MEM_END_MARK ∨ t = STK_REPEAT ∨
          t = STK_REPEAT_INC ∨ t = STK_CALL_FRAME ∨ t = STK_RETURN ∨ t = STK_SAVE_VAL ∨
          t = STK_POS ∨ t = STK_STOP_BT) →
        frame_type st1 j = some t) ∧
      frame_type st1 m = some STK_VOID ∧
      (∀ j : Nat, frame_union st1 j = frame_union st j) ∧
      (∀ j : Nat, (j < m ∨ st.stk ≤ j) → STACK_AT st1 j = STACK_AT st j) := by
  obtain ⟨fm, hfm1, hfm2⟩ := frame_type_some hfm
  rw [STACK_AT_nat] at hfm1
  have hnt : IS_TO_VOID_TARGET fm = false := by
    unfold IS_TO_VOID_TARGET
    rw [hfm2]
    rcases hmark with h | h <;> (subst h; decide)
  obtain ⟨stack1, h1, h2, h3⟩ := STACK_VOID_loop_spec mark m st.stk st.stack fm hm hfm1
    hfm2 hnt
    (fun j hj1 hj2 => by
      obtain ⟨t, ht1, ht2⟩ := hbetween j hj1 hj2
      obtain ⟨fr, hfr1, hfr2⟩ := frame_type_some ht1
      rw [STACK_AT_nat] at hfr1
      exact ⟨fr, hfr1, by rw [hfr2]; exact ht2⟩)
  have hlow : ∀ j : Nat, (j < m ∨ st.stk ≤ j) →
      STACK_AT { st with stack := stack1 } j = STACK_AT st j := by
    intro j hj
    rw [STACK_AT_nat, STACK_AT_nat]
    dsimp only
    rw [h2 j hj]
  have hty : ∀ j : Nat, j < st.stk → ∀ t, frame_type st j = some t →
      frame_type { st with stack := stack1 } j = some
        (if j = m ∨ (m < j ∧ t &&& 0x10ff ≠ 0) then STK_VOID else t) := by
    intro j hj2 t ht
    by_cases hjm : j < m
    · rw [if_neg (by omega)]
      unfold frame_type
      rw [hlow j (Or.inl hjm)]
      exact ht
    · obtain ⟨fr, hfr1, hfr2⟩ := frame_type_some ht
      rw [STACK_AT_nat] at hfr1
      have := h3 j (by omega) hj2 fr hfr1
      unfold frame_type
      rw [STACK_AT_nat]
      dsimp only
      rw [this]
      simp only [Option.map_some', Option.some.injEq]
      unfold IS_TO_VOID_TARGET
      rw [hfr2]
      by_cases hje : j = m
      · rw [if_pos (Or.inr hje), if_pos (Or.inl hje)]
      · by_cases htt : t &&& 0x10ff ≠ 0
        · rw [if_pos (Or.inl (by simpa [STK_MASK_TO_VOID_TARGET] using htt)),
            if_pos (Or.inr ⟨by omega, htt⟩)]
        · rw [if_neg (by
              rintro (h | h)
              · exact htt (by simpa [STK_MASK_TO_VOID_TARGET] using h)
              · exact hje h),
            if_neg (by
              rintro (h | ⟨_, h⟩)
              · exact hje h
              · exact htt h)]
  refine ⟨{ st with stack := stack1 }, rfl, rfl, ?_, ?_, hty, ?_, ?_, ?_, ?_, hlow⟩
  · intro hmk
    subst hmk
    unfold STACK_STOP_BT_END
    rw [h1]
  · intro hmk
    subst hmk
    unfold STACK_POS_END
    rw [h1]
    dsimp only
    rw [h3 m (le_refl _) hm fm hfm1]
    exact ⟨_, rfl⟩
  · intro j hj1 hj2 t ht hlist
    rw [hty j hj2 t ht]
    have : t &&& 0x10ff ≠ 0 := by
      rcases hlist with h | h | h | h | h | h <;> (subst h; decide)
    rw [if_pos (Or.inr ⟨hj1, this⟩)]
  · intro j hj1 hj2 t ht hlist
    rw [hty j hj2 t ht]
    have : ¬ (t &&& 0x10ff ≠ 0) := by
      rcases hlist with h | h | h | h | h | h | h | h | h | h <;> (subst h; decide)
    rw [if_neg (by
      rintro (h | ⟨_, h⟩)
      · omega
      · exact this h)]
  · rw [hty m hm _ hfm, if_pos (Or.inl rfl)]
  · intro j
    by_cases hj : j < m ∨ st.stk ≤ j
    · unfold frame_union
      rw [hlow j hj]
    · have hex : ∃ t0, frame_type st j = some t0 := by
        by_cases hjm : j = m
        · subst hjm
          exact ⟨_, hfm⟩
        · obtain ⟨t0, ht0, _⟩ := hbetween j (by omega) (by omega)
          exact ⟨t0, ht0⟩
      obtain ⟨t0, ht0⟩ := hex
      obtain ⟨fr, hfr, _⟩ := frame_type_some ht0
      unfold frame_union
      rw [hfr, STACK_AT_nat]
      dsimp only
      rw [h3 j (by omega) (by omega) fr (by rw [← STACK_AT_nat]; exact hfr)]
      rfl

theorem C36_void_walk_witness :
    ∃ st1, st1 = { atomic_at_pop with stack := st1.stack } ∧
      st1.stk = atomic_at_pop.stk ∧
      STACK_STOP_BT_END atomic_at_pop = .ok () st1 ∧
      frame_type st1 (1 : Nat) = some STK_VOID ∧ frame_type st1 (2 : Nat) = some STK_VOID ∧
      STACK_AT st1 (0 : Nat) = STACK_AT atomic_at_pop (0 : Nat) := by
  obtain ⟨st1, h1, h2, h3, _, _, h6, _, h8, _, h10⟩ := C36_void_walk atomic_at_pop 1
    STK_STOP_BT (Or.inl rfl) (by decide!) (by decide!)
    (fun j hj1 hj2 => by
      have hj : j = 2 := by
        have : atomic_at_pop.stk = 3 := by decide!
        omega
      subst hj
      exact ⟨STK_ALT, by decide!, by decide⟩)
  exact ⟨st1, h1, h2, h3 rfl, h8, h6 2 (by decide) (by decide!) STK_ALT (by decide!)
    (Or.inl rfl), h10 0 (Or.inl (by decide))⟩

/-! ## `onig_region_set` -/

theorem getI_xrealloc_ints (l : List Int) (n : Nat) (i : Int) (h0 : 0 ≤ i)
    (hi : i < l.length) : getI (xrealloc_ints l n) i = getI l i := by
  unfold getI xrealloc_ints
  rw [if_pos h0, if_pos h0, List.get?_eq_getElem?, List.get?_eq_getElem?,
    List.getElem?_append_left (by omega)]

theorem length_xrealloc_ints (l : List Int) (n : Nat) (h : l.length ≤ n) :
    (xrealloc_ints l n).length = n := by
  unfold xrealloc_ints
  rw [List.length_append, List.length_replicate]
  omega

theorem getI_set_eq (l : List Int) (i : Int) (v : Int) (h0 : 0 ≤ i)
    (hi : i.toNat < l.length) : getI (l.set i.toNat v) i = some v := by
  unfold getI
  rw [if_pos h0, List.get?_eq_getElem?, List.getElem?_set_self hi]

theorem getI_set_ne (l : List Int) (i j : Int) (v : Int) (h0 : 0 ≤ i) (hij : j ≠ i) :
    getI (l.set i.toNat v) j = getI l j := by
  unfold getI
  split
  · rw [List.get?_eq_getElem?, List.get?_eq_getElem?, List.getElem?_set_ne (by omega)]
  · rfl

/-- What `onig_region_resize` leaves, for a region whose arrays have
`allocated` cells. -/
theorem onig_region_resize_spec (region : OnigRegion) (n : Int)
    (hb : region.allocated = region.beg.length)
    (he : region.allocated = region.end_.length) :
    (onig_region_resize region n).1 = 0 ∧
      (onig_region_resize region n).2.num_regs = n ∧
      (onig_region_resize region n).2.allocated = (onig_region_resize region n).2.beg.length ∧
      (onig_region_resize region n).2.allocated =
        (onig_region_resize region n).2.end_.length ∧
      n ≤ (onig_region_resize region n).2.allocated ∧
      ∀ i : Int, 0 ≤ i → i < region.allocated →
        getI (onig_region_resize region n).2.beg i = getI region.beg i ∧
        getI (onig_region_resize region n).2.end_ i = getI region.end_ i := by
  unfold onig_region_resize
  dsimp only
  have hN : (ONIG_NREGION : Int) = 10 := rfl
  by_cases h0 : region.allocated = 0
  · rw [if_pos h0]
    dsimp only
    refine ⟨rfl, rfl, ?_, ?_, ?_, ?_⟩
    · rw [List.length_replicate]
      split <;> omega
    · rw [List.length_replicate]
      split <;> omega
    · split <;> omega
    · intro i hi0 hi1
      omega
  · rw [if_neg h0]
    by_cases h1 : region.allocated < (if n < ONIG_NREGION then (ONIG_NREGION : Int) else n)
    · rw [if_pos h1]
      dsimp only
      have hbl : region.beg.length ≤
          (if n < ONIG_NREGION then (ONIG_NREGION : Int) else n).toNat := by omega
      have hel : region.end_.length ≤
          (if n < ONIG_NREGION then (ONIG_NREGION : Int) else n).toNat := by omega
      refine ⟨rfl, rfl, ?_, ?_, ?_, ?_⟩
      · rw [length_xrealloc_ints _ _ hbl]
        omega
      · rw [length_xrealloc_ints _ _ hel]
        omega
      · split <;> omega
      · intro i hi0 hi1
        exact ⟨getI_xrealloc_ints _ _ i hi0 (by omega), getI_xrealloc_ints _ _ i hi0 (by omega)⟩
    · rw [if_neg h1]
      dsimp only
      refine ⟨rfl, rfl, hb, he, ?_, fun i _ _ => ⟨rfl, rfl⟩⟩
      split at h1 <;> omega

/-- C38, as stated, fails: in a region with 10 allocated cells and
`num_regs = 2` (as `onig_region_resize(region, 2)` leaves it),
`onig_region_set(region, 5, 7, 9)` returns 0 and writes the cell 5, but
`num_regs` stays 2, so `at < num_regs` does not hold afterwards. -/
theorem C38_counterexample :
    (onig_region_resize onig_region_init 2).2.allocated = 10 ∧
      (onig_region_resize onig_region_init 2).2.num_regs = 2 ∧
      (onig_region_set (onig_region_resize onig_region_init 2).2 5 7 9).map
          (fun r => (r.1, r.2.num_regs, getI r.2.beg 5, getI r.2.end_ 5)) =
        some (0, 2, some 7, some 9) ∧
      ¬ (5 : Int) < 2 := by
  decide

/-- C38 (amended): `onig_region_set(region, at, b, e)` on a region whose arrays
have `allocated` cells: for `at < 0` it returns `ONIGERR_INVALID_ARGUMENT` and
leaves the region unchanged; for `at >= 0` it returns 0, sets `beg[at] = b`
and `end[at] = e`, leaves every other previously allocated cell unchanged,
and afterwards `at < allocated`; `num_regs` becomes `at + 1` when the region
was resized (`at >= allocated` before) and is unchanged otherwise, so
`at < num_regs` holds afterwards exactly when the region was resized or
`at < num_regs` held before. -/
theorem C38_region_set (region : OnigRegion) (at_ b e : Int)
    (hb : region.allocated = region.beg.length)
    (he : region.allocated = region.end_.length) :
    (at_ < 0 → onig_region_set region at_ b e = some (ONIGERR_INVALID_ARGUMENT, region)) ∧
    (0 ≤ at_ → ∃ r1, onig_region_set region at_ b e = some (0, r1) ∧
      getI r1.beg at_ = some b ∧ getI r1.end_ at_ = some e ∧
      (∀ i : Int, 0 ≤ i → i < region.allocated → i ≠ at_ →
        getI r1.beg i = getI region.beg i ∧ getI r1.end_ i = getI region.end_ i) ∧
      at_ < r1.allocated ∧
      (region.allocated ≤ at_ → r1.num_regs = at_ + 1) ∧
      (at_ < region.allocated → r1.num_regs = region.num_regs) ∧
      (at_ < r1.num_regs ↔ (region.allocated ≤ at_ ∨ at_ < region.num_regs))) := by
  constructor
  · intro h
    unfold onig_region_set
    rw [if_pos h]
  · intro h
    unfold onig_region_set
    rw [if_neg (by omega)]
    dsimp only
    by_cases hge : at_ ≥ region.allocated
    · rw [if_pos hge]
      obtain ⟨r1, r2, r3, r4, r5, r6⟩ := onig_region_resize_spec region (at_ + 1) hb he
      rw [if_neg (by omega)]
      have hlb : at_.toNat < (onig_region_resize region (at_ + 1)).2.beg.length := by omega
      have hle : at_.toNat < (onig_region_resize region (at_ + 1)).2.end_.length := by omega
      unfold setI
      rw [if_pos ⟨h, hlb⟩, if_pos ⟨h, hle⟩]
      refine ⟨_, rfl, getI_set_eq _ _ _ h hlb, getI_set_eq _ _ _ h hle, ?_, ?_, ?_, ?_, ?_⟩
      · intro i hi0 hi1 hne
        dsimp only
        rw [getI_set_ne _ _ _ _ h hne, getI_set_ne _ _ _ _ h hne]
        exact r6 i hi0 hi1
      · dsimp only
        omega
      · intro _
        exact r2
      · intro hlt
        omega
      · dsimp only
        rw [r2]
        constructor
        · intro _
          exact Or.inl hge
        · intro _
          omega
    · rw [if_neg hge]
      rw [if_neg (by show ¬ ((0 : Int) < 0); decide)]
      have hlb : at_.toNat < region.beg.length := by omega
      have hle : at_.toNat < region.end_.length := by omega
      unfold setI
      rw [if_pos ⟨h, hlb⟩, if_pos ⟨h, hle⟩]
      refine ⟨_, rfl, getI_set_eq _ _ _ h hlb, getI_set_eq _ _ _ h hle, ?_, ?_, ?_, ?_, ?_⟩
      · intro i hi0 hi1 hne
        dsimp only
        rw [getI_set_ne _ _ _ _ h hne, getI_set_ne _ _ _ _ h hne]
        exact ⟨rfl, rfl⟩
      · dsimp only
        omega
      · intro hc
        omega
      · intro _
        rfl
      · dsimp only
        constructor
        · intro hc
          exact Or.inr hc
        · rintro (hc | hc)
          · omega
          · exact hc

theorem C38_region_set_witness :
    onig_region_set (onig_region_resize onig_region_init 2).2 (-1) 7 9 =
      some (ONIGERR_INVALID_ARGUMENT, (onig_region_resize onig_region_init 2).2) ∧
    ∃ r1, onig_region_set (onig_region_resize onig_region_init 2).2 12 7 9 =
        some (0, r1) ∧
      getI r1.beg 12 = some 7 ∧ getI r1.end_ 12 = some 9 ∧ (12 : Int) < r1.allocated ∧
      r1.num_regs = 12 + 1 := by
  refine ⟨(C38_region_set (onig_region_resize onig_region_init 2).2 (-1) 7 9 (by decide)
    (by decide)).1 (by decide), ?_⟩
  obtain ⟨r1, h1, h2, h3, _, h5, h6, _, _⟩ :=
    (C38_region_set (onig_region_resize onig_region_init 2).2 12 7 9 (by decide)
      (by decide)).2 (by decide)
  exact ⟨r1, h1, h2, h3, h5, h6 (by decide)⟩


/-! ## The literals `OP_EXACT1 .. OP_EXACT5` and `OP_EXACTN` -/

theorem M.bind_assoc {α β γ : Type} (m : M α) (f : α → M β) (g : β → M γ) :
    (m >>= f) >>= g = m >>= fun a => f a >>= g := by
  funext st
  rw [run_bind, run_bind, run_bind]
  cases m st with
  | ok a st1 => rfl
  | exit e st1 => rfl

theorem M.pure_bind {α β : Type} (a : α) (f : α → M β) : (pure a : M α) >>= f = f a := by
  funext st
  rfl

theorem times_zero_bind {β : Type} (body : M Unit) (t : Unit → M β) :
    times 0 body >>= t = t () := by
  funext st
  rfl

theorem times_succ_bind {β : Type} (k : Nat) (body : M Unit) (t : Unit → M β) :
    times (k + 1) body >>= t = body >>= fun _ => times k body >>= t := by
  show (body >>= fun _ => times k body) >>= t = _
  rw [M.bind_assoc]

theorem cmp_byte_sprev_eq (ctx : Ctx) :
    cmp_byte_sprev ctx = (cmp_byte ctx >>= fun _ => getS >>= fun st => set_sprev (st.s - 1)) := by
  funext st
  unfold cmp_byte_sprev cmp_byte set_sprev
  simp only [run_bind, run_getS]
  cases h1 : getI ctx.reg.p st.p with
  | none => rfl
  | some c =>
    simp only [run_liftO_some]
    cases h2 : ctx.x.rd st.s with
    | none => rfl
    | some b =>
      simp only [run_liftO_some]
      by_cases hcb : c ≠ b
      · simp only [if_pos hcb, run_bind, run_goto]
      · simp only [if_neg hcb, run_bind, run_pure, run_modS, run_getS]
        have : st.s + 1 - 1 = st.s := by omega
        rw [this]

theorem op_EXACT2_eq (ctx : Ctx) : op_EXACT2 ctx = exact_body ctx 2 := by
  unfold op_EXACT2 exact_body
  rw [cmp_byte_sprev_eq]
  congr 1
  funext _
  rw [times_succ_bind, times_succ_bind, times_zero_bind]

theorem op_EXACT3_eq (ctx : Ctx) : op_EXACT3 ctx = exact_body ctx 3 := by
  unfold op_EXACT3 exact_body
  rw [cmp_byte_sprev_eq]
  congr 1
  funext _
  rw [times_succ_bind, times_succ_bind, times_succ_bind, times_zero_bind]

theorem op_EXACT4_eq (ctx : Ctx) : op_EXACT4 ctx = exact_body ctx 4 := by
  unfold op_EXACT4 exact_body
  rw [cmp_byte_sprev_eq]
  congr 1
  funext _
  rw [times_succ_bind, times_succ_bind, times_succ_bind, times_succ_bind, times_zero_bind]

theorem op_EXACT5_eq (ctx : Ctx) : op_EXACT5 ctx = exact_body ctx 5 := by
  unfold op_EXACT5 exact_body
  rw [cmp_byte_sprev_eq]
  congr 1
  funext _
  rw [times_succ_bind, times_succ_bind, times_succ_bind, times_succ_bind, times_succ_bind,
    times_zero_bind]

theorem cmp_byte_run (ctx : Ctx) (st : MatchState) (c b : Nat)
    (hc : getI ctx.reg.p st.p = some c) (hb : ctx.x.rd st.s = some b) :
    cmp_byte ctx st =
      if c ≠ b then .exit .fail st else .ok () { st with p := st.p + 1, s := st.s + 1 } := by
  unfold cmp_byte
  simp only [run_bind, run_getS, hc, hb, run_liftO_some]
  by_cases hcb : c ≠ b
  · simp only [if_pos hcb]
    rfl
  · simp only [if_neg hcb]
    rfl

/-- The arm of `OP_EXACT1` with the statement `sprev = sbegin` that follows
the `switch`, from the locals with which the round began. -/
theorem dispatch_EXACT1_eq (ctx : Ctx) (st : MatchState) :
    dispatch ctx .EXACT1 st.s st = exact_body ctx 1 st := by
  show ((op_EXACT1 ctx >>= fun _ => set_sprev st.s) : M Unit) st = _
  unfold op_EXACT1 exact_body
  rw [M.bind_assoc, times_succ_bind, times_zero_bind]
  simp only [Nat.cast_one]
  rw [run_bind, run_bind, DATA_ENSURE_run]
  by_cases hd : st.s + 1 > st.right_range
  · rw [if_pos hd]
  · rw [if_neg hd]
    dsimp only
    rw [run_bind, run_bind]
    unfold cmp_byte set_sprev
    simp only [run_bind, run_getS]
    cases h1 : getI ctx.reg.p st.p with
    | none => rfl
    | some c =>
      simp only [run_liftO_some]
      cases h2 : ctx.x.rd st.s with
      | none => rfl
      | some b =>
        simp only [run_liftO_some]
        by_cases hcb : c ≠ b
        · simp only [if_pos hcb, run_bind, run_goto]
        · simp only [if_neg hcb, run_bind, run_pure, run_modS, run_getS]
          have : st.s + 1 - 1 = st.s := by omega
          rw [this]

/-- The arm of `OP_EXACTk`, `k` in `1 .. 5`, from the locals with which the
round began. -/
theorem dispatch_exact_opcode (ctx : Ctx) (k : Nat) (hk1 : 1 ≤ k) (hk5 : k ≤ 5)
    (st : MatchState) :
    dispatch ctx (exact_opcode k) st.s st = exact_body ctx k st := by
  interval_cases k
  · exact dispatch_EXACT1_eq ctx st
  · show op_EXACT2 ctx st = _
    rw [op_EXACT2_eq]
  · show op_EXACT3 ctx st = _
    rw [op_EXACT3_eq]
  · show op_EXACT4 ctx st = _
    rw [op_EXACT4_eq]
  · show op_EXACT5 ctx st = _
    rw [op_EXACT5_eq]

/-- The arm of `OP_EXACTN` with the length operand `k`. -/
theorem dispatch_EXACTN_eq (ctx : Ctx) (k : Nat) (hk : k < 2147483648) (st : MatchState)
    (hv : operand_at ctx.reg st.p SIZE_LENGTH.toNat = some k) :
    dispatch ctx .EXACTN st.s st =
      exact_body ctx k { st with p := st.p + SIZE_LENGTH.toNat } := by
  show op_EXACTN ctx st = _
  unfold op_EXACTN exact_body
  rw [run_bind, GET_LENGTH_INC_run hv]
  dsimp only
  have hts : to_signed 32 k = (k : Int) := by
    unfold to_signed
    rw [if_pos (by simpa using hk)]
  rw [hts]
  rfl

/-- The comparisons of a literal of `k` bytes with the subject at `s`. -/
theorem times_cmp_byte_run (ctx : Ctx) :
    ∀ (k : Nat) (st : MatchState),
      (∀ i : Nat, i < k → ∃ c, getI ctx.reg.p (st.p + i) = some c) →
      (∀ i : Nat, i < k → ∃ b, ctx.x.rd (st.s + i) = some b) →
      ((∀ i : Nat, i < k → getI ctx.reg.p (st.p + i) = ctx.x.rd (st.s + i)) →
        times k (cmp_byte ctx) st = .ok () { st with p := st.p + k, s := st.s + k }) ∧
      ((∃ i : Nat, i < k ∧ getI ctx.reg.p (st.p + i) ≠ ctx.x.rd (st.s + i)) →
        ∃ st1, times k (cmp_byte ctx) st = .exit .fail st1 ∧
          st1 = { st with p := st1.p, s := st1.s }) := by
  intro k
  induction k with
  | zero =>
    intro st _ _
    refine ⟨fun _ => ?_, fun ⟨i, hi, _⟩ => by omega⟩
    show Res.ok () st = _
    simp
  | succ k ih =>
    intro st hp hs
    obtain ⟨c, hc⟩ := hp 0 (by omega)
    obtain ⟨b, hb⟩ := hs 0 (by omega)
    simp only [Nat.cast_zero, add_zero] at hc hb
    have hrun : times (k + 1) (cmp_byte ctx) st =
        if c ≠ b then .exit .fail st
        else times k (cmp_byte ctx) { st with p := st.p + 1, s := st.s + 1 } := by
      show (cmp_byte ctx >>= fun _ => times k (cmp_byte ctx)) st = _
      rw [run_bind, cmp_byte_run ctx st c b hc hb]
      by_cases hcb : c ≠ b
      · rw [if_pos hcb, if_pos hcb]
      · rw [if_neg hcb, if_neg hcb]
    have hshift : ∀ i : Nat, st.p + 1 + (i : Int) = st.p + ((i + 1 : Nat) : Int) := by
      intro i; push_cast; omega
    have hshift2 : ∀ i : Nat, st.s + 1 + (i : Int) = st.s + ((i + 1 : Nat) : Int) := by
      intro i; push_cast; omega
    obtain ⟨ihA, ihB⟩ := ih { st with p := st.p + 1, s := st.s + 1 }
      (fun i hi => by
        show ∃ c, getI ctx.reg.p (st.p + 1 + (i : Int)) = some c
        rw [hshift]; exact hp (i + 1) (by omega))
      (fun i hi => by
        show ∃ b, ctx.x.rd (st.s + 1 + (i : Int)) = some b
        rw [hshift2]; exact hs (i + 1) (by omega))
    constructor
    · intro hall
      have h0 := hall 0 (by omega)
      simp only [Nat.cast_zero, add_zero] at h0
      rw [hc, hb] at h0
      have hcb : ¬ c ≠ b := by
        intro hne
        exact hne (Option.some.inj h0)
      rw [hrun, if_neg hcb]
      rw [ihA (fun i hi => by
        show getI ctx.reg.p (st.p + 1 + (i : Int)) = ctx.x.rd (st.s + 1 + (i : Int))
        rw [hshift, hshift2]; exact hall (i + 1) (by omega))]
      dsimp only
      have e1 : st.p + 1 + (k : Int) = st.p + ((k + 1 : Nat) : Int) := hshift k
      have e2 : st.s + 1 + (k : Int) = st.s + ((k + 1 : Nat) : Int) := hshift2 k
      rw [e1, e2]
    · rintro ⟨i, hi, hne⟩
      rw [hrun]
      by_cases hcb : c ≠ b
      · rw [if_pos hcb]
        exact ⟨st, rfl, rfl⟩
      · rw [if_neg hcb]
        have hi0 : i ≠ 0 := by
          intro h0
          subst h0
          simp only [Nat.cast_zero, add_zero] at hne
          rw [hc, hb] at hne
          exact hne (by rw [not_not.mp hcb])
        obtain ⟨st1, h1, h2⟩ := ihB ⟨i - 1, by omega, by
          show getI ctx.reg.p (st.p + 1 + ((i - 1 : Nat) : Int)) ≠
            ctx.x.rd (st.s + 1 + ((i - 1 : Nat) : Int))
          rw [hshift, hshift2]
          have : i - 1 + 1 = i := by omega
          rw [this]
          exact hne⟩
        exact ⟨st1, h1, by rw [h2]⟩

/-- The arm of a literal of `k` bytes: it goes to `fail` exactly when the
range ends before `s + k` or a byte differs, the stack as it was; otherwise
`s` and `p` are `k` further and `sprev = s - 1`. -/
theorem exact_body_run (ctx : Ctx) (k : Nat) (st : MatchState)
    (hp : ∀ i : Nat, i < k → ∃ c, getI ctx.reg.p (st.p + i) = some c)
    (hs : ctx.x.str ≤ st.s) (hr : st.right_range ≤ ctx.x.end_) :
    (literal_differs ctx st k →
      ∃ st1, exact_body ctx k st = .exit .fail st1 ∧ st1.stk = st.stk ∧
        st1.stack = st.stack) ∧
    (¬ literal_differs ctx st k →
      exact_body ctx k st = .ok ()
        { st with p := st.p + k, s := st.s + k, sprev := st.s + k - 1 }) := by
  unfold exact_body literal_differs
  rw [run_bind, DATA_ENSURE_run]
  by_cases hd : st.s + (k : Int) > st.right_range
  · rw [if_pos hd]
    exact ⟨fun _ => ⟨st, rfl, rfl, rfl⟩, fun h => absurd (Or.inl hd) h⟩
  · rw [if_neg hd]
    dsimp only
    obtain ⟨hA, hB⟩ := times_cmp_byte_run ctx k st hp
      (fun i hi => rd_some_of_bounds ctx.x _ (by omega) (by omega))
    rw [run_bind]
    constructor
    · rintro (h | h)
      · exact absurd h hd
      · obtain ⟨st1, h1, h2⟩ := hB h
        rw [h1]
        exact ⟨st1, rfl, by rw [h2], by rw [h2]⟩
    · intro hno
      have hall : ∀ i : Nat, i < k → getI ctx.reg.p (st.p + i) = ctx.x.rd (st.s + i) := by
        intro i hi
        by_contra hne
        exact hno (Or.inr ⟨i, hi, hne⟩)
      rw [hA hall]
      rfl

/-- C40: for `k` in `1 .. 5`, `OP_EXACTk` on the literal at `st.p` and
`OP_EXACTN` with the length operand `k` at `pn` and the same literal, from
locals that differ in `p` alone: both go to `fail` in the same states (the
range ends before `s + k`, or a byte differs), the stack as it was; otherwise
both leave `s` advanced by `k`, `sprev = s - 1`, the stack unchanged, and `p`
after the literal. -/
theorem C40_exact_k_as_exact_n (ctx : Ctx) (k : Nat) (hk1 : 1 ≤ k) (hk5 : k ≤ 5)
    (st : MatchState) (pn : Int)
    (hv : operand_at ctx.reg pn SIZE_LENGTH.toNat = some k)
    (hlit : ∀ i : Nat, i < k → ∃ c, getI ctx.reg.p (st.p + i) = some c ∧
      getI ctx.reg.p (pn + SIZE_LENGTH + i) = some c)
    (hs : ctx.x.str ≤ st.s) (hr : st.right_range ≤ ctx.x.end_) :
    ((∃ st1, dispatch ctx (exact_opcode k) st.s st = .exit .fail st1 ∧ st1.stk = st.stk ∧
        st1.stack = st.stack) ↔ literal_differs ctx st k) ∧
    ((∃ st1, dispatch ctx .EXACTN st.s { st with p := pn } = .exit .fail st1 ∧
        st1.stk = st.stk ∧ st1.stack = st.stack) ↔ literal_differs ctx st k) ∧
    (¬ literal_differs ctx st k →
      dispatch ctx (exact_opcode k) st.s st = .ok ()
        { st with p := st.p + k, s := st.s + k, sprev := st.s + k - 1 } ∧
      dispatch ctx .EXACTN st.s { st with p := pn } = .ok ()
        { st with p := pn + SIZE_LENGTH + k, s := st.s + k, sprev := st.s + k - 1 }) := by
  have hsz : ((SIZE_LENGTH.toNat : Nat) : Int) = SIZE_LENGTH := rfl
  have e1 := dispatch_exact_opcode ctx k hk1 hk5 st
  have e2 := dispatch_EXACTN_eq ctx k (by omega) { st with p := pn } hv
  rw [hsz] at e2
  dsimp only at e2
  obtain ⟨a1, a2⟩ := exact_body_run ctx k st (fun i hi => by
    obtain ⟨c, hc, _⟩ := hlit i hi
    exact ⟨c, hc⟩) hs hr
  have hd2 : literal_differs ctx { st with p := pn + SIZE_LENGTH } k ↔
      literal_differs ctx st k := by
    unfold literal_differs
    dsimp only
    have : ∀ i : Nat, i < k →
        (getI ctx.reg.p (pn + SIZE_LENGTH + i) ≠ ctx.x.rd (st.s + i) ↔
          getI ctx.reg.p (st.p + i) ≠ ctx.x.rd (st.s + i)) := by
      intro i hi
      obtain ⟨c, hc1, hc2⟩ := hlit i hi
      rw [hc1, hc2]
    constructor
    · rintro (h | ⟨i, hi, h⟩)
      · exact Or.inl h
      · exact Or.inr ⟨i, hi, (this i hi).mp h⟩
    · rintro (h | ⟨i, hi, h⟩)
      · exact Or.inl h
      · exact Or.inr ⟨i, hi, (this i hi).mpr h⟩
  obtain ⟨b1, b2⟩ := exact_body_run ctx k { st with p := pn + SIZE_LENGTH }
    (fun i hi => by
      obtain ⟨c, _, hc⟩ := hlit i hi
      exact ⟨c, hc⟩) hs hr
  refine ⟨⟨?_, ?_⟩, ⟨?_, ?_⟩, ?_⟩
  · rintro ⟨st1, h1, _⟩
    by_contra hno
    rw [e1, a2 hno] at h1
    cases h1
  · intro hd
    rw [e1]
    exact a1 hd
  · rintro ⟨st1, h1, _⟩
    by_contra hno
    rw [e2, b2 (fun h => hno (hd2.mp h))] at h1
    cases h1
  · intro hd
    rw [e2]
    exact b1 (hd2.mpr hd)
  · intro hno
    refine ⟨by rw [e1]; exact a2 hno, ?_⟩
    rw [e2, b2 (fun h => hno (hd2.mp h))]

theorem C40_exact_k_as_exact_n_witness :
    dispatch (ctx_at regex_exact_both subject_ab 1000) (exact_opcode 2) (exact_both_at 1).s
        (exact_both_at 1) = .ok ()
      { exact_both_at 1 with p := (exact_both_at 1).p + (2 : Nat),
                             s := (exact_both_at 1).s + (2 : Nat),
                             sprev := (exact_both_at 1).s + (2 : Nat) - 1 } ∧
    dispatch (ctx_at regex_exact_both subject_ab 1000) .EXACTN (exact_both_at 1).s
        { exact_both_at 1 with p := 4 } = .ok ()
      { exact_both_at 1 with p := 4 + SIZE_LENGTH + (2 : Nat),
                             s := (exact_both_at 1).s + (2 : Nat),
                             sprev := (exact_both_at 1).s + (2 : Nat) - 1 } :=
  (C40_exact_k_as_exact_n (ctx_at regex_exact_both subject_ab 1000) 2 (by decide) (by decide)
    (exact_both_at 1) 4 (by decide!)
    (fun i hi => by
      have hc : i = 0 ∨ i = 1 := by omega
      rcases hc with rfl | rfl
      · exact ⟨97, by decide!, by decide!⟩
      · exact ⟨98, by decide!, by decide!⟩)
    (by decide!) (by decide!)).2.2
    (by
      rintro (h | ⟨i, hi, h⟩)
      · revert h
        decide!
      · have hc : i = 0 ∨ i = 1 := by omega
        rcases hc with rfl | rfl <;> (revert h; decide!))


/-! ## What `onig_match` leaves in the region -/

theorem after_arm_out (ctx : Ctx) (e : Exit) (st : MatchState) (out : MatchOut) :
    (after_arm ctx e st out).out = out := by
  unfold after_arm
  cases e with
  | fail =>
    dsimp only
    cases op_FAIL ctx st <;> rfl
  | finish => rfl
  | err r => rfl
  | undef => rfl
  | nofuel => rfl

/-- A round of the loop writes through the arm of `OP_END` alone. -/
theorem match_at_step_out_cases (ctx : Ctx) (st : MatchState) (out : MatchOut) :
    (is_end_at ctx st = true ∧
      (match_at_step ctx st out).out = (op_END ctx { st with p := st.p + 1 } out).out) ∨
    (is_end_at ctx st = false ∧ (match_at_step ctx st out).out = out) := by
  unfold match_at_step is_end_at
  dsimp only
  cases h1 : opcode_at ctx.reg st.p with
  | none => exact Or.inr ⟨rfl, rfl⟩
  | some b =>
    dsimp only
    cases h2 : OpCode.ofByte b with
    | none => exact Or.inr ⟨rfl, rfl⟩
    | some op =>
      cases op <;> first
        | exact Or.inl ⟨rfl, after_arm_out _ _ _ _⟩
        | (refine Or.inr ⟨rfl, ?_⟩
           dsimp only
           split <;> first | rfl | exact after_arm_out _ _ _ _)

theorem end_best_len_keep (ctx : Ctx) (st : MatchState) (out : MatchOut)
    (hne : IS_FIND_NOT_EMPTY ctx.reg.options = false) :
    (end_best_len ctx st out).out = out := by
  unfold end_best_len
  rw [hne]
  repeat' split
  all_goals first | rfl | (rename_i h; exact absurd h.1 (by decide))

theorem end_region_best_len (ctx : Ctx) (st : MatchState) (out : MatchOut)
    (hne : IS_FIND_NOT_EMPTY ctx.reg.options = false) :
    (end_region ctx st out).out.best_len = out.best_len := by
  unfold end_region
  dsimp only
  split
  · rw [end_best_len_keep ctx _ _ hne]
  · split
    · rw [end_best_len_keep ctx _ _ hne]
    · rfl

/-- Without `ONIG_OPTION_FIND_NOT_EMPTY` the arm `OP_END` leaves `best_len`
at `ONIG_MISMATCH` only when it did not write. -/
theorem op_END_mismatch_keeps (ctx : Ctx) (st : MatchState) (out : MatchOut)
    (region0 : RegionArg) (hne : IS_FIND_NOT_EMPTY ctx.reg.options = false)
    (hQ : -1 ≤ out.best_len ∧ (out.best_len = -1 → out.region = region0)) :
    -1 ≤ (op_END ctx st out).out.best_len ∧
      ((op_END ctx st out).out.best_len = -1 → (op_END ctx st out).out.region = region0) := by
  unfold op_END
  dsimp only
  by_cases h1 : st.s - ctx.sstart > out.best_len
  · rw [if_pos h1]
    by_cases h2 : IS_FIND_LONGEST ctx.reg.options = true ∧
        ¬ (st.s - ctx.sstart > out.msa_best_len)
    · rw [if_pos h2, end_best_len_keep ctx _ _ hne]
      exact hQ
    · rw [if_neg h2, end_region_best_len ctx _ _ hne]
      have hb : (end_new_best ctx st out).best_len = st.s - ctx.sstart := by
        unfold end_new_best
        rfl
      rw [hb]
      constructor
      · omega
      · intro hc
        omega
  · rw [if_neg h1, end_best_len_keep ctx _ _ hne]
    exact hQ

/-- Without `ONIG_OPTION_FIND_NOT_EMPTY`, a `match_at` that returns
`ONIG_MISMATCH` leaves the region as it got it. -/
theorem match_at_mismatch_region (L : Env) (fuel : Nat) (reg : regex_t) (x : Subject)
    (rr sstart sprev : Int) (msa msa1 : OnigMatchArg) (r : Int)
    (hne : IS_FIND_NOT_EMPTY reg.options = false)
    (h : match_at L fuel reg x rr sstart sprev msa = .done (r, msa1))
    (hr : r = ONIG_MISMATCH) : msa1.region = msa.region := by
  unfold match_at at h
  simp only [] at h
  cases h0 : STACK_PUSH_ENSURED STK_ALT FinishCode (match_at_init reg rr sstart sprev msa) with
  | exit e st => rw [h0] at h; cases h
  | ok a st0 =>
    rw [h0] at h
    simp only [] at h
    generalize hctx : Ctx.mk reg x sstart msa.options msa.start L = ctx at h
    generalize hout : MatchOut.mk ONIG_MISMATCH msa.best_len msa.best_s msa.region = out0 at h
    have hne1 : IS_FIND_NOT_EMPTY ctx.reg.options = false := by
      rw [← hctx]
      exact hne
    have hinv := match_at_loop_inv ctx (fun _ => True)
      (fun out => -1 ≤ out.best_len ∧ (out.best_len = -1 → out.region = msa.region))
      (fun st out _ hP => match_at_step_out ctx
        (fun out => -1 ≤ out.best_len ∧ (out.best_len = -1 → out.region = msa.region))
        (fun st1 out1 hP1 _ => op_END_mismatch_keeps ctx st1 out1 msa.region hne1 hP1)
        st out hP)
      fuel st0 out0 trivial
      (by rw [← hout]; exact ⟨by show (-1 : Int) ≤ ONIG_MISMATCH; decide, fun _ => rfl⟩)
    rcases hl : match_at_loop ctx fuel st0 out0 with ⟨e, st, out⟩
    rw [hl] at h hinv
    cases e with
    | finish =>
      simp only [] at h
      cases h
      exact (hinv.2 rfl).2 hr
    | err r1 =>
      simp only [] at h
      cases h
      have := hinv.1 r rfl
      rw [hr] at this
      exact absurd this (by decide)
    | fail => cases h
    | undef => cases h
    | nofuel => cases h

theorem getI_enum_map {α : Type} (l : List α) (f : Nat × α → α) (i : Int) (h0 : 0 ≤ i)
    (hi : i.toNat < l.length) :
    getI (l.enum.map f) i = some (f (i.toNat, l.get ⟨i.toNat, hi⟩)) := by
  unfold getI
  rw [if_pos h0, List.get?_eq_getElem?, List.getElem?_map, List.getElem?_enum,
    List.getElem?_eq_getElem hi]
  rfl

/-- The cells below `num_regs` after `onig_region_resize_clear`. -/
theorem onig_region_resize_clear_spec (r : OnigRegion) (n : Int)
    (hb : r.allocated = r.beg.length) (he : r.allocated = r.end_.length) :
    (onig_region_resize_clear r n).2.num_regs = n ∧
      ∀ i : Int, 0 ≤ i → i < n →
        getI (onig_region_resize_clear r n).2.beg i = some ONIG_REGION_NOTPOS ∧
        getI (onig_region_resize_clear r n).2.end_ i = some ONIG_REGION_NOTPOS := by
  obtain ⟨r1, r2, r3, r4, r5, _⟩ := onig_region_resize_spec r n hb he
  unfold onig_region_resize_clear
  dsimp only
  rw [if_neg (by rw [r1]; decide)]
  unfold onig_region_clear
  dsimp only
  refine ⟨r2, fun i hi0 hi1 => ⟨?_, ?_⟩⟩
  · rw [getI_enum_map _ _ i hi0 (by omega)]
    dsimp only
    rw [if_pos (by rw [r2]; omega)]
  · rw [getI_enum_map _ _ i hi0 (by omega)]
    dsimp only
    rw [if_pos (by rw [r2]; omega)]

/-- The loop of `match_at` is not left with a `return` of `ONIG_MISMATCH` or
of a code that is not negative other than through `finish`. -/
theorem negErr_match_at_loop (ctx : Ctx) (fuel : Nat) (st : MatchState) (out : MatchOut) :
    ErrNeg (match_at_loop ctx fuel st out).1 :=
  (match_at_loop_inv ctx (fun _ => True) (fun _ => True)
    (fun st out _ hP => match_at_step_out ctx (fun _ => True)
      (fun _ _ _ _ => trivial) st out hP) fuel st out trivial trivial).1

/-- C32, the code at the failing input: the empty pattern with
`ONIG_OPTION_FIND_NOT_EMPTY` on `ab` at `str`: `OP_END` writes the empty match
into the region, then rejects it and goes to `fail`; `onig_match` returns
`ONIG_MISMATCH` and the region holds `beg[0] = end[0] = 0`.  `onig_search`
from `str` to `end` on the same program and subject returns `ONIG_MISMATCH`
with the region cleared at `finish`. -/
theorem C32_onig_match_keeps_rejected_match :
    observe 1 (onig_match 0 100 regex_empty_not_empty subject_ab 1000
      (.onig onig_region_init) 0) = some (ONIG_MISMATCH, [(0, 0)]) ∧
    observe 1 (onig_search 0 100 regex_empty_not_empty subject_ab 1000 subject_ab.end_
      (.onig onig_region_init) 0) = some (ONIG_MISMATCH, [(-1, -1)]) := by
  decide!

/-- For every program without `ONIG_OPTION_FIND_NOT_EMPTY`, input
and supplied `OnigRegion`: if `onig_match` returns `ONIG_MISMATCH`, then every
slot `i < num_mem + 1` of the region has `beg[i] = end[i] =
ONIG_REGION_NOTPOS`, and `num_regs = num_mem + 1`. -/
theorem onig_match_mismatch_leaves_region_clear (L : Env) (fuel : Nat) (reg : regex_t) (x : Subject)
    (at_ : Int) (r0 rg : OnigRegion) (option : Nat) (v : Int)
    (hne : IS_FIND_NOT_EMPTY reg.options = false)
    (hpx : IS_POSIX_REGION option = false)
    (hb : r0.allocated = r0.beg.length) (he : r0.allocated = r0.end_.length)
    (h : onig_match L fuel reg x at_ (.onig r0) option = .done (v, .onig rg))
    (hv : v = ONIG_MISMATCH) :
    rg.num_regs = reg.num_mem + 1 ∧
      ∀ i : Int, 0 ≤ i → i < reg.num_mem + 1 →
        getI rg.beg i = some ONIG_REGION_NOTPOS ∧ getI rg.end_ i = some ONIG_REGION_NOTPOS := by
  unfold onig_match at h
  rw [region_prepare_onig reg r0 option hpx] at h
  dsimp only at h
  rw [if_pos rfl] at h
  split at h
  · cases h
    cases hv
  · cases hm : match_at L fuel reg x x.end_ at_ (reg.enc.prev_char_head x x.str at_)
        (MATCH_ARG_INIT reg option
          (.onig (onig_region_resize_clear r0 (reg.num_mem + 1)).2) at_) with
    | done res =>
      rw [hm] at h
      obtain ⟨r1, msa1⟩ := res
      simp only [Outcome.done.injEq, Prod.mk.injEq] at h
      obtain ⟨h1, h2⟩ := h
      subst h1
      have := match_at_mismatch_region L fuel reg x x.end_ at_ _ _ msa1 r1 hne hm hv
      rw [h2] at this
      have e : rg = (onig_region_resize_clear r0 (reg.num_mem + 1)).2 := by
        have e1 : (MATCH_ARG_INIT reg option
          (.onig (onig_region_resize_clear r0 (reg.num_mem + 1)).2) at_).region =
            .onig (onig_region_resize_clear r0 (reg.num_mem + 1)).2 := rfl
        rw [e1] at this
        cases this
        rfl
      rw [e]
      exact onig_region_resize_clear_spec r0 _ hb he
    | undef => rw [hm] at h; cases h
    | nofuel => rw [hm] at h; cases h

theorem onig_match_mismatch_clear_regex_a :
    (onig_match 0 100 regex_a subject_ab 1001
        (.onig onig_region_init) 0).region.onig_region.num_regs = regex_a.num_mem + 1 ∧
      ∀ i : Int, 0 ≤ i → i < regex_a.num_mem + 1 →
        getI (onig_match 0 100 regex_a subject_ab 1001
            (.onig onig_region_init) 0).region.onig_region.beg i =
          some ONIG_REGION_NOTPOS ∧
        getI (onig_match 0 100 regex_a subject_ab 1001
            (.onig onig_region_init) 0).region.onig_region.end_ i =
          some ONIG_REGION_NOTPOS :=
  onig_match_mismatch_leaves_region_clear 0 100 regex_a subject_ab 1001 onig_region_init
    (onig_match 0 100 regex_a subject_ab 1001 (.onig onig_region_init) 0).region.onig_region 0
    (onig_match 0 100 regex_a subject_ab 1001 (.onig onig_region_init) 0).value
    (by decide) (by decide) (by decide) (by decide)
    (Outcome.eq_of_is_done_onig _ (by decide!)) (by decide!)

theorem not_nonneg_mismatch : ¬ (0 : Int) ≤ ONIG_MISMATCH := by decide

theorem end_best_len_cases (ctx : Ctx) (st : MatchState) (out : MatchOut) :
    (end_best_len ctx st out).out = out ∨
      (end_best_len ctx st out).out = { out with best_len := ONIG_MISMATCH } :=
  (end_best_len_out ctx st out).1

/-- The arm `OP_END` and the record of its last write. -/
theorem op_END_last_write (ctx : Ctx) (st : MatchState) (out : MatchOut) (last : Option Int)
    (hJ : (∃ rg, out.region = .onig rg) ∧ (0 ≤ out.best_len → last = some out.best_len)) :
    (∃ rg, (op_END ctx st out).out.region = .onig rg) ∧
      (0 ≤ (op_END ctx st out).out.best_len →
        (if end_writes ctx st out then some (st.s - ctx.sstart) else last) =
          some (op_END ctx st out).out.best_len) := by
  obtain ⟨⟨rg, hrg⟩, hlast⟩ := hJ
  unfold op_END end_writes
  dsimp only
  rw [hrg]
  dsimp only
  by_cases h1 : st.s - ctx.sstart > out.best_len
  · rw [if_pos h1]
    by_cases h2 : IS_FIND_LONGEST ctx.reg.options = true ∧
        ¬ (st.s - ctx.sstart > out.msa_best_len)
    · rw [if_pos h2]
      have hw : (decide (st.s - ctx.sstart > out.best_len) &&
          !(IS_FIND_LONGEST ctx.reg.options && !decide (st.s - ctx.sstart > out.msa_best_len)) &&
          true) = false := by
        simp [h1, h2.1, h2.2]
      rw [hw]
      rcases end_best_len_cases ctx st out with e | e <;> rw [e]
      · exact ⟨⟨rg, hrg⟩, by simpa using hlast⟩
      · refine ⟨⟨rg, hrg⟩, fun hc => ?_⟩
        exact absurd hc not_nonneg_mismatch
    · rw [if_neg h2]
      have hw : (decide (st.s - ctx.sstart > out.best_len) &&
          !(IS_FIND_LONGEST ctx.reg.options && !decide (st.s - ctx.sstart > out.msa_best_len)) &&
          true) = true := by
        simp only [h1, decide_True, Bool.true_and, Bool.and_true, Bool.not_eq_true',
          Bool.and_eq_false_imp, Bool.not_eq_false', decide_eq_true_eq]
        intro hfl
        by_contra hc
        exact h2 ⟨hfl, hc⟩
      rw [hw]
      simp only [if_true]
      have hnb : (end_new_best ctx st out).best_len = st.s - ctx.sstart := by
        unfold end_new_best
        rfl
      have hnr : (end_new_best ctx st out).region = .onig rg := by
        unfold end_new_best
        dsimp only
        split <;> exact hrg
      unfold end_region
      dsimp only
      rw [hnr]
      dsimp only
      cases hc : end_commit ctx (if st.keep > st.s then { st with keep := st.s } else st)
          (.onig rg) with
      | none =>
        dsimp only
        exact ⟨⟨rg, hnr⟩, fun _ => by rw [hnb]⟩
      | some region1 =>
        dsimp only
        obtain ⟨r1, hr1⟩ := end_commit_onig ctx _ rg region1 hc
        rcases end_best_len_cases ctx
            (if st.keep > st.s then { st with keep := st.s } else st)
            { end_new_best ctx st out with region := region1 } with e | e <;> rw [e]
        · exact ⟨⟨r1, hr1⟩, fun _ => by rw [hnb]⟩
        · refine ⟨⟨r1, hr1⟩, fun hc1 => ?_⟩
          exact absurd hc1 not_nonneg_mismatch
  · rw [if_neg h1]
    have hw : (decide (st.s - ctx.sstart > out.best_len) &&
        !(IS_FIND_LONGEST ctx.reg.options && !decide (st.s - ctx.sstart > out.msa_best_len)) &&
        true) = false := by
      simp [h1]
    rw [hw]
    rcases end_best_len_cases ctx st out with e | e <;> rw [e]
    · exact ⟨⟨rg, hrg⟩, by simpa using hlast⟩
    · refine ⟨⟨rg, hrg⟩, fun hc => ?_⟩
      exact absurd hc not_nonneg_mismatch

theorem last_end_write_succ (ctx : Ctx) (fuel : Nat) (st : MatchState) (out : MatchOut)
    (last : Option Int) :
    last_end_write ctx (fuel + 1) st out last =
      match match_at_step ctx st out with
      | .cont st1 out1 =>
        last_end_write ctx fuel st1 out1
          (if is_end_at ctx st && end_writes ctx st out then some (st.s - ctx.sstart)
           else last)
      | .stop _ _ _ =>
        if is_end_at ctx st && end_writes ctx st out then some (st.s - ctx.sstart)
        else last := rfl

theorem match_at_loop_succ (ctx : Ctx) (fuel : Nat) (st : MatchState) (out : MatchOut) :
    match_at_loop ctx (fuel + 1) st out =
      match match_at_step ctx st out with
      | .cont st1 out1 => match_at_loop ctx fuel st1 out1
      | .stop e st1 out1 => (e, st1, out1) := rfl

/-- When the loop of `match_at` is left through `finish` with a `best_len`
that is not negative, `best_len` is the value `s - sstart` of the last
execution of `OP_END` that wrote the region. -/
theorem last_end_write_spec (ctx : Ctx) :
    ∀ (fuel : Nat) (st : MatchState) (out : MatchOut) (last : Option Int),
      ((∃ rg, out.region = .onig rg) ∧ (0 ≤ out.best_len → last = some out.best_len)) →
      (match_at_loop ctx fuel st out).1 = Exit.finish →
      0 ≤ (match_at_loop ctx fuel st out).2.2.best_len →
      last_end_write ctx fuel st out last =
        some (match_at_loop ctx fuel st out).2.2.best_len := by
  intro fuel
  induction fuel with
  | zero =>
    intro st out last _ h
    cases h
  | succ k ih =>
    intro st out last hJ hfin hpos
    rw [match_at_loop_succ] at hfin hpos ⊢
    rw [last_end_write_succ]
    have hstep : (∃ rg, (match_at_step ctx st out).out.region = .onig rg) ∧
        (0 ≤ (match_at_step ctx st out).out.best_len →
          (if is_end_at ctx st && end_writes ctx st out then some (st.s - ctx.sstart)
           else last) = some (match_at_step ctx st out).out.best_len) := by
      rcases match_at_step_out_cases ctx st out with ⟨h1, h2⟩ | ⟨h1, h2⟩
      · rw [h1, h2, Bool.true_and]
        exact op_END_last_write ctx { st with p := st.p + 1 } out last hJ
      · rw [h1, h2, Bool.false_and]
        simpa using hJ
    cases hs : match_at_step ctx st out with
    | cont st1 out1 =>
      rw [hs] at hfin hpos hstep
      dsimp only at hfin hpos ⊢
      exact ih st1 out1 _ hstep hfin hpos
    | stop e st1 out1 =>
      rw [hs] at hfin hpos hstep
      dsimp only at hfin hpos ⊢
      exact hstep.2 hpos

/-- C33: if `onig_match` returns `r >= 0` and leaves an `OnigRegion`, then
`region.end[0] = (at - str) + r`, and `r` is the value `s - sstart` of the
last execution of `OP_END` that wrote the region. -/
theorem C33_length_from_start (L : Env) (fuel : Nat) (reg : regex_t) (x : Subject) (at_ : Int)
    (r0 rg : OnigRegion) (option : Nat) (v : Int)
    (hpx : IS_POSIX_REGION option = false)
    (h : onig_match L fuel reg x at_ (.onig r0) option = .done (v, .onig rg))
    (hv : 0 ≤ v) :
    (∃ e, getI rg.end_ 0 = some e ∧ e = (at_ - x.str) + v) ∧
    last_end_write (Ctx.mk reg x at_ option at_ L) fuel (locals_at_start reg x x.end_ at_)
      (MatchOut.mk ONIG_MISMATCH ONIG_MISMATCH 0
        (.onig (onig_region_resize_clear r0 (reg.num_mem + 1)).2)) none = some v := by
  constructor
  · obtain ⟨b, e, _, he, h1, _⟩ := onig_match_entry0 L fuel reg x at_ _ option v rg h hv
    exact ⟨e, he, h1⟩
  · unfold onig_match at h
    rw [region_prepare_onig reg r0 option hpx] at h
    dsimp only at h
    rw [if_pos rfl] at h
    split at h
    · cases h
      exact absurd hv (by decide)
    · cases hm : match_at L fuel reg x x.end_ at_ (reg.enc.prev_char_head x x.str at_)
          (MATCH_ARG_INIT reg option
            (.onig (onig_region_resize_clear r0 (reg.num_mem + 1)).2) at_) with
      | undef => rw [hm] at h; cases h
      | nofuel => rw [hm] at h; cases h
      | done res =>
        rw [hm] at h
        obtain ⟨r1, msa1⟩ := res
        simp only [Outcome.done.injEq, Prod.mk.injEq] at h
        obtain ⟨h1, h2⟩ := h
        subst h1
        unfold match_at at hm
        dsimp only at hm
        have hst : STACK_PUSH_ENSURED STK_ALT FinishCode
            (match_at_init reg x.end_ at_ (reg.enc.prev_char_head x x.str at_)
              (MATCH_ARG_INIT reg option
                (.onig (onig_region_resize_clear r0 (reg.num_mem + 1)).2) at_)) =
            STACK_PUSH_ENSURED STK_ALT FinishCode
            (match_at_init reg x.end_ at_ (reg.enc.prev_char_head x x.str at_)
              (MATCH_ARG_INIT reg 0 region_cleared at_)) := rfl
        rw [hst] at hm
        have hloc : locals_at_start reg x x.end_ at_ =
            (STACK_PUSH_ENSURED STK_ALT FinishCode
              (match_at_init reg x.end_ at_ (reg.enc.prev_char_head x x.str at_)
                (MATCH_ARG_INIT reg 0 region_cleared at_))).state := rfl
        rw [hloc]
        cases h0 : STACK_PUSH_ENSURED STK_ALT FinishCode
            (match_at_init reg x.end_ at_ (reg.enc.prev_char_head x x.str at_)
              (MATCH_ARG_INIT reg 0 region_cleared at_)) with
        | exit e st => rw [h0] at hm; cases hm
        | ok a st0 =>
          rw [h0] at hm
          dsimp only at hm
          have hspec := last_end_write_spec
            (Ctx.mk reg x at_ option at_ L) fuel st0
            (MatchOut.mk ONIG_MISMATCH ONIG_MISMATCH 0
              (.onig (onig_region_resize_clear r0 (reg.num_mem + 1)).2)) none
            ⟨⟨_, rfl⟩, fun hc => absurd hc not_nonneg_mismatch⟩
          show last_end_write _ fuel st0 _ none = some r1
          rcases hl : match_at_loop (Ctx.mk reg x at_ option at_ L) fuel st0
            (MatchOut.mk ONIG_MISMATCH ONIG_MISMATCH 0
              (.onig (onig_region_resize_clear r0 (reg.num_mem + 1)).2)) with ⟨e, st, out⟩
          have hm1 : (match (e, st, out) with
              | (Exit.finish, st, out) => Outcome.done (out.best_len,
                  STACK_SAVE (MATCH_ARG_INIT reg option
                    (.onig (onig_region_resize_clear r0 (reg.num_mem + 1)).2) at_) st out)
              | (Exit.err r, st, out) => Outcome.done (r,
                  STACK_SAVE (MATCH_ARG_INIT reg option
                    (.onig (onig_region_resize_clear r0 (reg.num_mem + 1)).2) at_) st out)
              | (Exit.nofuel, _, _) => Outcome.nofuel
              | (_, _, _) => Outcome.undef) = Outcome.done (r1, msa1) := by
            rw [← hl]
            exact hm
          rw [hl] at hspec
          cases e with
          | finish =>
            simp only [Outcome.done.injEq, Prod.mk.injEq] at hm1
            rw [← hm1.1]
            exact hspec rfl (by rw [hm1.1]; exact hv)
          | err r2 =>
            simp only [Outcome.done.injEq, Prod.mk.injEq] at hm1
            have hneg := (negErr_match_at_loop (Ctx.mk reg x at_ option at_ L) fuel st0
              (MatchOut.mk ONIG_MISMATCH ONIG_MISMATCH 0
                (.onig (onig_region_resize_clear r0 (reg.num_mem + 1)).2)))
            rw [hl] at hneg
            have := hneg r2 rfl
            omega
          | fail => cases hm1
          | undef => cases hm1
          | nofuel => cases hm1

theorem C33_length_from_start_witness :
    (∃ e, getI (onig_match 0 100 regex_a_or_ab_longest subject_ab 1000
          (.onig onig_region_init) 0).region.onig_region.end_ 0 = some e ∧
        e = (1000 - subject_ab.str) + (onig_match 0 100 regex_a_or_ab_longest subject_ab 1000
          (.onig onig_region_init) 0).value) ∧
    last_end_write (Ctx.mk regex_a_or_ab_longest subject_ab 1000 0 1000 0) 100
      (locals_at_start regex_a_or_ab_longest subject_ab subject_ab.end_ 1000)
      (MatchOut.mk ONIG_MISMATCH ONIG_MISMATCH 0
        (.onig (onig_region_resize_clear onig_region_init
          (regex_a_or_ab_longest.num_mem + 1)).2)) none =
      some (onig_match 0 100 regex_a_or_ab_longest subject_ab 1000
          (.onig onig_region_init) 0).value :=
  C33_length_from_start 0 100 regex_a_or_ab_longest subject_ab 1000 onig_region_init
    (onig_match 0 100 regex_a_or_ab_longest subject_ab 1000
      (.onig onig_region_init) 0).region.onig_region 0
    (onig_match 0 100 regex_a_or_ab_longest subject_ab 1000
      (.onig onig_region_init) 0).value
    (by decide) (Outcome.eq_of_is_done_onig _ (by decide!)) (by decide!)


/-! ## The Boyer-Moore scanners -/

theorem last_index_below_succ (l : List Nat) (c : Nat) (k : Nat) :
    last_index_below l c (k + 1) =
      if l.get? k = some c then some k else last_index_below l c k := rfl

theorem last_index_below_spec (l : List Nat) (c : Nat) :
    ∀ k, (∀ i, last_index_below l c k = some i →
        i < k ∧ l.get? i = some c ∧ ∀ j, i < j → j < k → l.get? j ≠ some c) ∧
      (last_index_below l c k = none → ∀ j, j < k → l.get? j ≠ some c) := by
  intro k
  induction k with
  | zero =>
    refine ⟨fun i h => ?_, fun _ j hj => by omega⟩
    cases h
  | succ k ih =>
    rw [last_index_below_succ]
    by_cases hk : l.get? k = some c
    · rw [if_pos hk]
      refine ⟨fun i h => ?_, fun h => by cases h⟩
      cases h
      exact ⟨by omega, hk, fun j h1 h2 => by omega⟩
    · rw [if_neg hk]
      refine ⟨fun i h => ?_, fun h j hj => ?_⟩
      · obtain ⟨h1, h2, h3⟩ := ih.1 i h
        refine ⟨by omega, h2, fun j hj1 hj2 => ?_⟩
        by_cases hjk : j = k
        · subst hjk; exact hk
        · exact h3 j hj1 (by omega)
      · by_cases hjk : j = k
        · subst hjk; exact hk
        · exact ih.2 h j (by omega)

/-- The skip of the table is at least 1 and at most `m`, and no byte of the
target that a smaller shift would align with the byte `c` is `c`. -/
theorem bm_skip_table_spec (target : List Nat) (c : Nat) (hm : 0 < target.length) :
    1 ≤ bm_skip_table target c ∧ bm_skip_table target c ≤ target.length ∧
      ∀ i : Nat, i + 1 < target.length →
        (target.length : Int) - 1 - i < bm_skip_table target c → target.get? i ≠ some c := by
  unfold bm_skip_table
  obtain ⟨h1, h2⟩ := last_index_below_spec target c (target.length - 1)
  cases h : last_index_below target c (target.length - 1) with
  | none =>
    dsimp only
    refine ⟨by omega, le_refl _, fun i hi _ => h2 h i (by omega)⟩
  | some i0 =>
    dsimp only
    obtain ⟨a1, a2, a3⟩ := h1 i0 h
    refine ⟨by omega, by omega, fun i hi hlt => a3 i (by omega) (by omega)⟩

theorem match_rest_spec (x : Subject) :
    ∀ (ts : List Nat) (p : Int),
      (∀ i : Nat, i < ts.length → ∃ b, x.rd (p + i) = some b) →
      ∃ r, match_rest x ts p = some r ∧
        (r = true ↔ ∀ i : Nat, i < ts.length → x.rd (p + i) = ts.get? i) := by
  intro ts
  induction ts with
  | nil =>
    intro p _
    exact ⟨true, rfl, by simp⟩
  | cons t ts ih =>
    intro p hrd
    obtain ⟨b, hb⟩ := hrd 0 (by simp)
    simp only [Nat.cast_zero, add_zero] at hb
    have hshift : ∀ i : Nat, p + 1 + (i : Int) = p + ((i + 1 : Nat) : Int) := by
      intro i; push_cast; omega
    have hun : match_rest x (t :: ts) p =
        if t ≠ b then some false else match_rest x ts (p + 1) := by
      show (match x.rd p with
        | none => none
        | some b => if t ≠ b then some false else match_rest x ts (p + 1)) = _
      rw [hb]
    rw [hun]
    by_cases htb : t ≠ b
    · rw [if_pos htb]
      refine ⟨false, rfl, ⟨fun h => (by cases h), fun h => ?_⟩⟩
      have h0 := h 0 (by simp)
      simp only [Nat.cast_zero, add_zero, List.get?_cons_zero] at h0
      rw [hb] at h0
      exact absurd (Option.some.inj h0).symm htb
    · rw [if_neg htb]
      have htb1 : t = b := not_not.mp htb
      obtain ⟨r, hr1, hr2⟩ := ih (p + 1) (fun i hi => by
        rw [hshift]; exact hrd (i + 1) (by simp; omega))
      refine ⟨r, hr1, ?_⟩
      rw [hr2]
      constructor
      · intro h i hi
        cases i with
        | zero =>
          simp only [Nat.cast_zero, add_zero, List.get?_cons_zero]
          rw [hb, htb1]
        | succ j =>
          rw [← hshift, List.get?_cons_succ]
          exact h j (by simpa using hi)
      · intro h i hi
        have := h (i + 1) (by simp; omega)
        rw [← hshift, List.get?_cons_succ] at this
        exact this

theorem match_here_spec (x : Subject) (target : List Nat) (s : Int)
    (hm : 0 < target.length)
    (hrd : ∀ i : Nat, i < target.length → ∃ b, x.rd (s + i) = some b) :
    ∃ r, match_here x target s = some r ∧ (r = true ↔ occurs_here x target s) := by
  cases target with
  | nil => simp at hm
  | cons t ts =>
    obtain ⟨b, hb⟩ := hrd 0 (by simp)
    simp only [Nat.cast_zero, add_zero] at hb
    have hshift : ∀ i : Nat, s + 1 + (i : Int) = s + ((i + 1 : Nat) : Int) := by
      intro i; push_cast; omega
    have hun : match_here x (t :: ts) s =
        if b = t then match_rest x ts (s + 1) else some false := by
      unfold match_here
      rw [hb]
    rw [hun]
    unfold occurs_here
    by_cases hbt : b = t
    · rw [if_pos hbt]
      obtain ⟨r, hr1, hr2⟩ := match_rest_spec x ts (s + 1) (fun i hi => by
        rw [hshift]; exact hrd (i + 1) (by simp; omega))
      refine ⟨r, hr1, ?_⟩
      rw [hr2]
      constructor
      · intro h i hi
        cases i with
        | zero =>
          simp only [Nat.cast_zero, add_zero, List.get?_cons_zero]
          rw [hb, hbt]
        | succ j =>
          rw [← hshift, List.get?_cons_succ]
          exact h j (by simpa using hi)
      · intro h i hi
        have := h (i + 1) (by simp; omega)
        rw [← hshift, List.get?_cons_succ] at this
        exact this
    · rw [if_neg hbt]
      refine ⟨false, rfl, ⟨fun h => (by cases h), fun h => ?_⟩⟩
      have h0 := h 0 (by simp)
      simp only [Nat.cast_zero, add_zero, List.get?_cons_zero] at h0
      rw [hb] at h0
      exact absurd (Option.some.inj h0) hbt

theorem bm_match_back_spec (x : Subject) :
    ∀ (l : List Nat) (p : Int), 0 < l.length →
      (∀ i : Nat, i < l.length → ∃ b, x.rd (p - i) = some b) →
      ∃ r, bm_match_back x l p = some r ∧
        (r = true ↔ ∀ i : Nat, i < l.length → x.rd (p - i) = l.get? i) := by
  intro l
  induction l with
  | nil => intro p h; simp at h
  | cons t l1 ih =>
    intro p _ hrd
    obtain ⟨b, hb⟩ := hrd 0 (by simp)
    simp only [Nat.cast_zero, sub_zero] at hb
    have hshift : ∀ i : Nat, p - 1 - (i : Int) = p - ((i + 1 : Nat) : Int) := by
      intro i; push_cast; omega
    cases l1 with
    | nil =>
      have hun : bm_match_back x [t] p = some (decide (b = t)) := by
        unfold bm_match_back
        rw [hb]
      rw [hun]
      refine ⟨_, rfl, ?_⟩
      rw [decide_eq_true_iff]
      constructor
      · intro h i hi
        have hi0 : i = 0 := by simpa using hi
        subst hi0
        simp only [Nat.cast_zero, sub_zero, List.get?_cons_zero]
        rw [hb, h]
      · intro h
        have h0 := h 0 (by simp)
        simp only [Nat.cast_zero, sub_zero, List.get?_cons_zero] at h0
        rw [hb] at h0
        exact Option.some.inj h0
    | cons t1 ts =>
      have hun : bm_match_back x (t :: t1 :: ts) p =
          if b = t then bm_match_back x (t1 :: ts) (p - 1) else some false := by
        show (match x.rd p with
          | none => none
          | some b => if b = t then bm_match_back x (t1 :: ts) (p - 1) else some false) = _
        rw [hb]
      rw [hun]
      by_cases hbt : b = t
      · rw [if_pos hbt]
        obtain ⟨r, hr1, hr2⟩ := ih (p - 1) (by simp) (fun i hi => by
          rw [hshift]; exact hrd (i + 1) (by simp at hi ⊢; omega))
        refine ⟨r, hr1, ?_⟩
        rw [hr2]
        constructor
        · intro h i hi
          cases i with
          | zero =>
            simp only [Nat.cast_zero, sub_zero, List.get?_cons_zero]
            rw [hb, hbt]
          | succ j =>
            rw [← hshift, List.get?_cons_succ]
            exact h j (by simp at hi ⊢; omega)
        · intro h i hi
          have := h (i + 1) (by simp at hi ⊢; omega)
          rw [← hshift, List.get?_cons_succ] at this
          exact this
      · rw [if_neg hbt]
        refine ⟨false, rfl, ⟨fun h => (by cases h), fun h => ?_⟩⟩
        have h0 := h 0 (by simp)
        simp only [Nat.cast_zero, sub_zero, List.get?_cons_zero] at h0
        rw [hb] at h0
        exact absurd (Option.some.inj h0) hbt

/-- The comparison of the Boyer-Moore scanners with the tail of the target
at `q + m - 1` tells whether the target stands at `q`. -/
theorem bm_match_back_occurs (x : Subject) (target : List Nat) (q : Int)
    (hm : 0 < target.length)
    (hrd : ∀ i : Nat, i < target.length → ∃ b, x.rd (q + i) = some b) :
    ∃ r, bm_match_back x target.reverse (q + ((target.length : Int) - 1)) = some r ∧
      (r = true ↔ occurs_here x target q) := by
  obtain ⟨r, hr1, hr2⟩ := bm_match_back_spec x target.reverse
    (q + ((target.length : Int) - 1)) (by simpa using hm)
    (fun i hi => by
      rw [List.length_reverse] at hi
      have e : q + ((target.length : Int) - 1) - (i : Int) =
          q + ((target.length - 1 - i : Nat) : Int) := by omega
      rw [e]
      exact hrd _ (by omega))
  refine ⟨r, hr1, ?_⟩
  rw [hr2, List.length_reverse]
  unfold occurs_here
  constructor
  · intro h i hi
    have := h (target.length - 1 - i) (by omega)
    have e : q + ((target.length : Int) - 1) - ((target.length - 1 - i : Nat) : Int) =
        q + (i : Int) := by omega
    rw [e, List.get?_eq_getElem?, List.getElem?_reverse (by omega)] at this
    have e2 : target.length - 1 - (target.length - 1 - i) = i := by omega
    rw [e2] at this
    rw [List.get?_eq_getElem?]
    exact this
  · intro h i hi
    have := h (target.length - 1 - i) (by omega)
    have e : q + ((target.length : Int) - 1) - (i : Int) =
        q + ((target.length - 1 - i : Nat) : Int) := by omega
    rw [e, List.get?_eq_getElem?, List.getElem?_reverse (by omega)]
    rw [List.get?_eq_getElem?] at this
    exact this

theorem slow_search_loop_succ (enc : OnigEncodingType) (x : Subject) (target : List Nat)
    (end_ : Int) (k : Nat) (s : Int) :
    slow_search_loop enc x target end_ (k + 1) s =
      if s < end_ then
        match match_here x target s with
        | none => none
        | some true => some s
        | some false =>
          match enc.mbc_enc_len x s with
          | none => none
          | some n => slow_search_loop enc x target end_ k (s + n)
      else some 0 := rfl

/-- The loop of `slow_search` from `s`: the least position from `s` on and
below `end` at which the target stands, or null. -/
theorem slow_search_loop_spec (enc : OnigEncodingType) (x : Subject) (target : List Nat)
    (end_ : Int) (hm : 0 < target.length)
    (hsb : ∀ p, enc.mbc_enc_len x p = some 1)
    (hend : end_ + ((target.length : Int) - 1) ≤ x.end_) :
    ∀ (k : Nat) (s : Int), (end_ - s).toNat ≤ k → x.str ≤ s → 0 < s →
      ∃ r, slow_search_loop enc x target end_ k s = some r ∧
        ((r ≠ 0 ∧ s ≤ r ∧ r < end_ ∧ occurs_here x target r ∧
            ∀ q, s ≤ q → q < r → ¬ occurs_here x target q) ∨
          (r = 0 ∧ ∀ q, s ≤ q → q < end_ → ¬ occurs_here x target q)) := by
  intro k
  induction k with
  | zero =>
    intro s hk _ _
    refine ⟨0, ?_, Or.inr ⟨rfl, fun q h1 h2 => by omega⟩⟩
    show (if s < end_ then none else some 0) = some 0
    rw [if_neg (by omega)]
  | succ k ih =>
    intro s hk hs h0
    rw [slow_search_loop_succ]
    by_cases hlt : s < end_
    · rw [if_pos hlt]
      obtain ⟨r, hr1, hr2⟩ := match_here_spec x target s hm
        (fun i hi => rd_some_of_bounds x _ (by omega) (by omega))
      rw [hr1]
      cases r with
      | true =>
        dsimp only
        exact ⟨s, rfl, Or.inl ⟨by omega, le_refl _, hlt, hr2.mp rfl,
          fun q h1 h2 => by omega⟩⟩
      | false =>
        dsimp only
        rw [hsb s]
        dsimp only
        have hno : ¬ occurs_here x target s := fun h => by
          have := hr2.mpr h
          cases this
        obtain ⟨r, h1, h2⟩ := ih (s + 1) (by omega) (by omega) (by omega)
        refine ⟨r, h1, ?_⟩
        rcases h2 with ⟨a1, a2, a3, a4, a5⟩ | ⟨a1, a2⟩
        · refine Or.inl ⟨a1, by omega, a3, a4, fun q h3 h4 => ?_⟩
          by_cases hq : q = s
          · subst hq; exact hno
          · exact a5 q (by omega) h4
        · refine Or.inr ⟨a1, fun q h3 h4 => ?_⟩
          by_cases hq : q = s
          · subst hq; exact hno
          · exact a2 q (by omega) h4
    · rw [if_neg hlt]
      exact ⟨0, rfl, Or.inr ⟨rfl, fun q h1 h2 => by omega⟩⟩

theorem bm_search_loop_succ (reg : regex_t) (x : Subject) (target : List Nat) (end_ : Int)
    (k : Nat) (s : Int) :
    bm_search_loop reg x target end_ (k + 1) s =
      if s < end_ then
        match bm_match_back x target.reverse s with
        | none => none
        | some true => some (s - ((target.length : Int) - 1))
        | some false =>
          match (x.rd s).bind (bm_skip reg) with
          | none => none
          | some skip =>
            if skip ≤ 0 then none else bm_search_loop reg x target end_ k (s + skip)
      else some 0 := rfl

theorem rd_mem (x : Subject) (a : Int) (c : Nat) (h : x.rd a = some c) : c ∈ x.bytes := by
  unfold Subject.rd at h
  split at h
  · exact List.get?_mem h
  · cases h

/-- A shift by the skip of the table passes no position at which the target
stands. -/
theorem bm_shift_passes_none (x : Subject) (target : List Nat) (s : Int) (c : Nat)
    (hm : 0 < target.length) (hc : x.rd s = some c)
    (hno : ¬ occurs_here x target (s - ((target.length : Int) - 1))) :
    ∀ q, s - ((target.length : Int) - 1) ≤ q →
      q < s + bm_skip_table target c - ((target.length : Int) - 1) →
      ¬ occurs_here x target q := by
  intro q h1 h2 hocc
  obtain ⟨t1, t2, t3⟩ := bm_skip_table_spec target c hm
  by_cases hq : q = s - ((target.length : Int) - 1)
  · subst hq
    exact hno hocc
  · have hj1 : 1 ≤ q - (s - ((target.length : Int) - 1)) := by omega
    have hj2 : q - (s - ((target.length : Int) - 1)) < bm_skip_table target c := by omega
    have hi : (s - q).toNat + 1 < target.length := by omega
    have := hocc (s - q).toNat (by omega)
    have e : q + ((s - q).toNat : Int) = s := by omega
    rw [e, hc] at this
    exact t3 (s - q).toNat hi (by omega) this.symm

/-- The loop of `bm_search` with the tail of the target at `s`: the least
position from `s - (m - 1)` on at which the target stands with its tail
below `end`, or null. -/
theorem bm_search_loop_spec (reg : regex_t) (x : Subject) (target : List Nat) (end_ : Int)
    (hm : 0 < target.length)
    (htab : ∀ c, c < 256 → bm_skip reg c = some (bm_skip_table target c))
    (hbytes : ∀ b ∈ x.bytes, b < 256) (hend : end_ ≤ x.end_) :
    ∀ (k : Nat) (s : Int), (end_ - s).toNat ≤ k →
      x.str ≤ s - ((target.length : Int) - 1) → 0 < s - ((target.length : Int) - 1) →
      ∃ r, bm_search_loop reg x target end_ k s = some r ∧
        ((r ≠ 0 ∧ s - ((target.length : Int) - 1) ≤ r ∧
            r + ((target.length : Int) - 1) < end_ ∧ occurs_here x target r ∧
            ∀ q, s - ((target.length : Int) - 1) ≤ q → q < r → ¬ occurs_here x target q) ∨
          (r = 0 ∧ ∀ q, s - ((target.length : Int) - 1) ≤ q →
            q + ((target.length : Int) - 1) < end_ → ¬ occurs_here x target q)) := by
  intro k
  induction k with
  | zero =>
    intro s hk _ _
    refine ⟨0, ?_, Or.inr ⟨rfl, fun q h1 h2 => by omega⟩⟩
    show (if s < end_ then none else some 0) = some 0
    rw [if_neg (by omega)]
  | succ k ih =>
    intro s hk hs h0
    rw [bm_search_loop_succ]
    by_cases hlt : s < end_
    · rw [if_pos hlt]
      obtain ⟨r, hr1, hr2⟩ := bm_match_back_occurs x target
        (s - ((target.length : Int) - 1)) hm
        (fun i hi => rd_some_of_bounds x _ (by omega) (by omega))
      have e : s - ((target.length : Int) - 1) + ((target.length : Int) - 1) = s := by omega
      rw [e] at hr1
      rw [hr1]
      cases r with
      | true =>
        dsimp only
        exact ⟨_, rfl, Or.inl ⟨by omega, le_refl _, by omega, hr2.mp rfl,
          fun q h1 h2 => by omega⟩⟩
      | false =>
        dsimp only
        have hno : ¬ occurs_here x target (s - ((target.length : Int) - 1)) := fun h => by
          have := hr2.mpr h
          cases this
        obtain ⟨c, hc⟩ := rd_some_of_bounds x s (by omega) (by omega)
        obtain ⟨t1, t2, t3⟩ := bm_skip_table_spec target c hm
        rw [hc]
        have hb : (some c).bind (bm_skip reg) = bm_skip reg c := rfl
        rw [hb, htab c (hbytes c (rd_mem x s c hc))]
        dsimp only
        rw [if_neg (by omega)]
        have hpass := bm_shift_passes_none x target s c hm hc hno
        obtain ⟨r, h1, h2⟩ := ih (s + bm_skip_table target c) (by omega) (by omega) (by omega)
        refine ⟨r, h1, ?_⟩
        rcases h2 with ⟨a1, a2, a3, a4, a5⟩ | ⟨a1, a2⟩
        · refine Or.inl ⟨a1, by omega, a3, a4, fun q h3 h4 => ?_⟩
          by_cases hq : q < s + bm_skip_table target c - ((target.length : Int) - 1)
          · exact hpass q h3 hq
          · exact a5 q (by omega) h4
        · refine Or.inr ⟨a1, fun q h3 h4 => ?_⟩
          by_cases hq : q < s + bm_skip_table target c - ((target.length : Int) - 1)
          · exact hpass q h3 hq
          · exact a2 q (by omega) h4
    · rw [if_neg hlt]
      exact ⟨0, rfl, Or.inr ⟨rfl, fun q h1 h2 => by omega⟩⟩

theorem bm_map_skip (reg : regex_t) (target : List Nat) (hm : 0 < target.length)
    (hmap : reg.map = bm_map target) (hint : reg.int_map = none) (c : Nat) (hc : c < 256) :
    bm_skip reg c = some (bm_skip_table target c) := by
  unfold bm_skip
  rw [hint, hmap]
  dsimp only
  unfold bm_map
  rw [List.get?_eq_getElem?, List.getElem?_map, List.getElem?_range hc]
  simp only [Option.map_some', Option.some.injEq]
  have h1 := (bm_skip_table_spec target c hm).1
  have h2 : 0 ≤ bm_skip_table target c := by omega
  show some (((bm_skip_table target c).toNat : Nat) : Int) = some (bm_skip_table target c)
  rw [Int.toNat_of_nonneg h2]

/-- C31: for a single-byte encoding, a non-empty target of the length `m` and
the skip table `m - 1 - (last index of c in target[0 .. m-2])` or `m`:
`bm_search` returns what `slow_search` returns for every `text`, `text_end` and
`text_range` in the subject, namely the least position `p` with `text <= p <
text_range`, `p + m <= text_end` at which the target stands, or null when
there is none; it returns within the rounds that `end - s` allows, every
shift being at least 1. -/
theorem C31_bm_search_refines_slow_search (reg : regex_t) (x : Subject) (target : List Nat)
    (text text_end text_range : Int)
    (hsb : ∀ p, reg.enc.mbc_enc_len x p = some 1) (hm : 0 < target.length)
    (htab : ∀ c, c < 256 → bm_skip reg c = some (bm_skip_table target c))
    (hbytes : ∀ b ∈ x.bytes, b < 256)
    (h0 : 0 < text) (hstr : x.str ≤ text) (hend : text_end ≤ x.end_) :
    bm_search reg x target text text_end text_range =
        slow_search reg.enc x target text text_end text_range ∧
      (∃ r, bm_search reg x target text text_end text_range = some r ∧
        is_first_match x target text text_end text_range r) ∧
      ∀ c, 1 ≤ bm_skip_table target c := by
  refine ⟨?_, ?_, fun c => (bm_skip_table_spec target c hm).1⟩
  all_goals
    unfold bm_search
    dsimp only
    obtain ⟨rb, hb1, hb2⟩ := bm_search_loop_spec reg x target
      (if text_range + (target.length : Int) - 1 > text_end then text_end
        else text_range + (target.length : Int) - 1) hm htab hbytes
      (by split <;> omega)
      ((if text_range + (target.length : Int) - 1 > text_end then text_end
        else text_range + (target.length : Int) - 1) -
          (text + (target.length : Int) - 1)).toNat
      (text + (target.length : Int) - 1) (le_refl _) (by omega) (by omega)
    rw [hb1]
  · unfold slow_search
    dsimp only
    obtain ⟨rs, hs1, hs2⟩ := slow_search_loop_spec reg.enc x target
      (if text_end - ((target.length : Int) - 1) > text_range then text_range
        else text_end - ((target.length : Int) - 1)) hm hsb
      (by split <;> omega)
      ((if text_end - ((target.length : Int) - 1) > text_range then text_range
        else text_end - ((target.length : Int) - 1)) - text).toNat
      text (le_refl _) hstr h0
    rw [hs1]
    congr 1
    have hends : (if text_range + (target.length : Int) - 1 > text_end then text_end
        else text_range + (target.length : Int) - 1) =
        (if text_end - ((target.length : Int) - 1) > text_range then text_range
          else text_end - ((target.length : Int) - 1)) + ((target.length : Int) - 1) := by
      split <;> split <;> omega
    rw [hends] at hb2
    generalize (if text_end - ((target.length : Int) - 1) > text_range then text_range
        else text_end - ((target.length : Int) - 1)) = e at hb2 hs2
    have hte : text + (target.length : Int) - 1 - ((target.length : Int) - 1) = text := by
      omega
    rw [hte] at hb2
    rcases hb2 with ⟨b1, b2, b3, b4, b5⟩ | ⟨b1, b2⟩
    · rcases hs2 with ⟨s1, s2, s3, s4, s5⟩ | ⟨s1, s2⟩
      · by_contra hne
        rcases lt_or_gt_of_ne hne with hlt | hgt
        · exact s5 rb b2 hlt b4
        · exact b5 rs s2 hgt s4
      · exact absurd b4 (s2 rb b2 (by omega))
    · rcases hs2 with ⟨s1, s2, s3, s4, s5⟩ | ⟨s1, s2⟩
      · exact absurd s4 (b2 rs s2 (by omega))
      · rw [b1, s1]
  · refine ⟨rb, rfl, ?_⟩
    have hte : text + (target.length : Int) - 1 - ((target.length : Int) - 1) = text := by
      omega
    rw [hte] at hb2
    unfold is_first_match
    rcases hb2 with ⟨b1, b2, b3, b4, b5⟩ | ⟨b1, b2⟩
    · refine Or.inl ⟨b1, b2, ?_, ?_, b4, b5⟩
      · split at b3 <;> omega
      · split at b3 <;> omega
    · refine Or.inr ⟨b1, fun q h1 h2 h3 => b2 q h1 ?_⟩
      split <;> omega

theorem C31_bm_search_refines_slow_search_witness :
    bm_search regex_bm_ab subject_aabab [97, 98] 1000 1005 1005 =
        slow_search regex_bm_ab.enc subject_aabab [97, 98] 1000 1005 1005 ∧
      (∃ r, bm_search regex_bm_ab subject_aabab [97, 98] 1000 1005 1005 = some r ∧
        is_first_match subject_aabab [97, 98] 1000 1005 1005 r) ∧
      ∀ c, 1 ≤ bm_skip_table [97, 98] c :=
  C31_bm_search_refines_slow_search regex_bm_ab subject_aabab [97, 98] 1000 1005 1005
    (fun _ => rfl) (by decide)
    (bm_map_skip regex_bm_ab [97, 98] (by decide) rfl rfl)
    (by decide) (by decide) (by decide) (by decide)


/-! ## The backward Boyer-Moore scanner -/

theorem first_index_from_spec (c : Nat) :
    ∀ (l : List Nat) (k : Nat),
      (∀ i, first_index_from c l k = some i →
        k ≤ i ∧ i < k + l.length ∧ l.get? (i - k) = some c ∧
          ∀ j, k ≤ j → j < i → l.get? (j - k) ≠ some c) ∧
      (first_index_from c l k = none → ∀ j, j < l.length → l.get? j ≠ some c) := by
  intro l
  induction l with
  | nil =>
    intro k
    refine ⟨fun i h => (by cases h), fun _ j hj => ?_⟩
    simp at hj
  | cons t ts ih =>
    intro k
    have hun : first_index_from c (t :: ts) k =
        if t = c then some k else first_index_from c ts (k + 1) := rfl
    rw [hun]
    by_cases htc : t = c
    · rw [if_pos htc]
      refine ⟨fun i h => ?_, fun h => (by cases h)⟩
      cases h
      refine ⟨le_refl _, by simp, ?_, fun j h1 h2 => by omega⟩
      rw [Nat.sub_self, List.get?_cons_zero, htc]
    · rw [if_neg htc]
      obtain ⟨ih1, ih2⟩ := ih (k + 1)
      refine ⟨fun i h => ?_, fun h j hj => ?_⟩
      · obtain ⟨a1, a2, a3, a4⟩ := ih1 i h
        refine ⟨by omega, by simp; omega, ?_, fun j h1 h2 => ?_⟩
        · have e : i - k = (i - (k + 1)) + 1 := by omega
          rw [e, List.get?_cons_succ]
          exact a3
        · by_cases hjk : j = k
          · subst hjk
            rw [Nat.sub_self, List.get?_cons_zero]
            intro hc
            exact htc (Option.some.inj hc)
          · have e : j - k = (j - (k + 1)) + 1 := by omega
            rw [e, List.get?_cons_succ]
            exact a4 j (by omega) h2
      · cases j with
        | zero =>
          rw [List.get?_cons_zero]
          intro hc
          exact htc (Option.some.inj hc)
        | succ j1 =>
          rw [List.get?_cons_succ]
          exact ih2 h j1 (by simpa using hj)

theorem get?_tail (l : List Nat) (j : Nat) : l.tail.get? j = l.get? (j + 1) := by
  cases l with
  | nil => rfl
  | cons t ts => rfl

/-- The backward skip of the table is at least 1 and at most `m`, and no
byte of the target that a smaller shift would align with the byte `c` is
`c`. -/
theorem bm_backward_skip_table_spec (target : List Nat) (c : Nat) (hm : 0 < target.length) :
    1 ≤ bm_backward_skip_table target c ∧ bm_backward_skip_table target c ≤ target.length ∧
      ∀ j : Nat, 1 ≤ j → (j : Int) < bm_backward_skip_table target c →
        target.get? j ≠ some c := by
  unfold bm_backward_skip_table
  obtain ⟨h1, h2⟩ := first_index_from_spec c target.tail 1
  have hlen : target.tail.length = target.length - 1 := by simp
  cases h : first_index_from c target.tail 1 with
  | none =>
    dsimp only
    refine ⟨by omega, le_refl _, fun j hj1 hj2 => ?_⟩
    have := h2 h (j - 1) (by omega)
    rw [get?_tail] at this
    have e : j - 1 + 1 = j := by omega
    rw [e] at this
    exact this
  | some i0 =>
    dsimp only
    obtain ⟨a1, a2, a3, a4⟩ := h1 i0 h
    refine ⟨by omega, by omega, fun j hj1 hj2 => ?_⟩
    have := a4 j hj1 (by omega)
    rw [get?_tail] at this
    have e : j - 1 + 1 = j := by omega
    rw [e] at this
    exact this

theorem first_index_from_cons (c t : Nat) (ts : List Nat) (k : Nat) :
    first_index_from c (t :: ts) k =
      if t = c then some k else first_index_from c ts (k + 1) := rfl

/-- The table of `set_bm_backward_skip` after the rounds for the indices
`m - 1` down to `m - n`. -/
theorem set_bm_backward_skip_fold (target : List Nat) (htb : ∀ b ∈ target, b < 256) :
    ∀ n, n + 1 ≤ target.length →
      ((List.range n).foldl
        (fun skip j => skip.set (target.getD (target.length - 1 - j) 0)
          ((target.length - 1 - j : Nat) : Int))
        (List.replicate 256 (target.length : Int))).length = 256 ∧
      ∀ c, c < 256 →
        ((List.range n).foldl
          (fun skip j => skip.set (target.getD (target.length - 1 - j) 0)
            ((target.length - 1 - j : Nat) : Int))
          (List.replicate 256 (target.length : Int))).get? c =
        some (match first_index_from c (target.drop (target.length - n))
            (target.length - n) with
          | some i => (i : Int)
          | none => (target.length : Int)) := by
  intro n
  induction n with
  | zero =>
    intro _
    refine ⟨by rw [List.range_zero, List.foldl_nil, List.length_replicate], fun c hc => ?_⟩
    rw [List.range_zero, List.foldl_nil, Nat.sub_zero, List.drop_length]
    rw [List.get?_eq_getElem?, List.getElem?_replicate, if_pos hc]
    rfl
  | succ n ih =>
    intro hn
    obtain ⟨ihl, ihc⟩ := ih (by omega)
    rw [List.range_succ, List.foldl_append]
    simp only [List.foldl_cons, List.foldl_nil]
    have hlo : target.length - 1 - n < target.length := by omega
    have hd : target.drop (target.length - (n + 1)) =
        target[target.length - 1 - n] :: target.drop (target.length - n) := by
      have e1 : target.length - (n + 1) = target.length - 1 - n := by omega
      have e2 : target.length - n = target.length - 1 - n + 1 := by omega
      rw [e1, e2]
      exact List.drop_eq_getElem_cons hlo
    have hg : target.getD (target.length - 1 - n) 0 = target[target.length - 1 - n] := by
      rw [List.getD_eq_getElem?_getD, List.getElem?_eq_getElem hlo]
      rfl
    have ht : target[target.length - 1 - n] < 256 := htb _ (List.getElem_mem _)
    refine ⟨by rw [List.length_set]; exact ihl, fun c hc => ?_⟩
    rw [hd, first_index_from_cons, hg]
    have e3 : target.length - (n + 1) = target.length - 1 - n := by omega
    have e4 : target.length - (n + 1) + 1 = target.length - n := by omega
    rw [e4]
    by_cases htc : target[target.length - 1 - n] = c
    · rw [if_pos htc]
      dsimp only
      rw [List.get?_eq_getElem?, htc, List.getElem?_set_self (by rw [ihl]; exact hc), e3]
    · rw [if_neg htc]
      rw [List.get?_eq_getElem?, List.getElem?_set_ne htc, ← List.get?_eq_getElem?]
      exact ihc c hc

/-- The table that `set_bm_backward_skip` leaves is the table of the
specification. -/
theorem set_bm_backward_skip_spec (target : List Nat) (hm : 0 < target.length)
    (htb : ∀ b ∈ target, b < 256) (c : Nat) (hc : c < 256) :
    (set_bm_backward_skip target).get? c = some (bm_backward_skip_table target c) := by
  unfold set_bm_backward_skip bm_backward_skip_table
  dsimp only
  rw [(set_bm_backward_skip_fold target htb (target.length - 1) (by omega)).2 c hc]
  have e : target.length - (target.length - 1) = 1 := by omega
  rw [e]
  have e2 : target.drop 1 = target.tail := by
    cases target <;> rfl
  rw [e2] <;> cases first_index_from c target.tail 1 <;> rfl

theorem slow_search_backward_loop_zero (enc : OnigEncodingType) (x : Subject)
    (target : List Nat) (text adjust_text s : Int) :
    slow_search_backward_loop enc x target text adjust_text 0 s =
      if s ≥ text then none else some 0 := rfl

theorem slow_search_backward_loop_succ (enc : OnigEncodingType) (x : Subject)
    (target : List Nat) (text adjust_text : Int) (k : Nat) (s : Int) :
    slow_search_backward_loop enc x target text adjust_text (k + 1) s =
      if s ≥ text then
        match match_here x target s with
        | none => none
        | some true => some s
        | some false =>
          slow_search_backward_loop enc x target text adjust_text k
            (enc.prev_char_head x adjust_text s)
      else some 0 := rfl

/-- The loop of `slow_search_backward` from `s`: the greatest position from
`text` up to `s` at which the target stands, or null. -/
theorem slow_search_backward_loop_spec (enc : OnigEncodingType) (x : Subject)
    (target : List Nat) (text adjust_text : Int) (hm : 0 < target.length)
    (hprev : ∀ a s, enc.prev_char_head x a s = if s ≤ a then 0 else s - 1)
    (h0 : 0 < text) (hstr : x.str ≤ text) (hadjt : adjust_text ≤ text) :
    ∀ (k : Nat) (s : Int), (s - text + 1).toNat ≤ k → s + target.length ≤ x.end_ →
      ∃ r, slow_search_backward_loop enc x target text adjust_text k s = some r ∧
        ((r ≠ 0 ∧ text ≤ r ∧ r ≤ s ∧ occurs_here x target r ∧
            ∀ q, r < q → q ≤ s → ¬ occurs_here x target q) ∨
          (r = 0 ∧ ∀ q, text ≤ q → q ≤ s → ¬ occurs_here x target q)) := by
  intro k
  induction k with
  | zero =>
    intro s hk _
    rw [slow_search_backward_loop_zero, if_neg (by omega)]
    exact ⟨0, rfl, Or.inr ⟨rfl, fun q h1 h2 => by omega⟩⟩
  | succ k ih =>
    intro s hk hs
    rw [slow_search_backward_loop_succ]
    by_cases hge : s ≥ text
    · rw [if_pos hge]
      obtain ⟨r, hr1, hr2⟩ := match_here_spec x target s hm
        (fun i hi => rd_some_of_bounds x _ (by omega) (by omega))
      rw [hr1]
      cases r with
      | true =>
        dsimp only
        exact ⟨s, rfl, Or.inl ⟨by omega, hge, le_refl _, hr2.mp rfl,
          fun q h1 h2 => by omega⟩⟩
      | false =>
        dsimp only
        have hno : ¬ occurs_here x target s := fun h => by
          have := hr2.mpr h
          cases this
        rw [hprev]
        by_cases hsa : s ≤ adjust_text
        · rw [if_pos hsa]
          obtain ⟨r, h1, h2⟩ := ih 0 (by omega) (by omega)
          refine ⟨r, h1, ?_⟩
          rcases h2 with ⟨a1, a2, a3, a4, a5⟩ | ⟨a1, a2⟩
          · omega
          · refine Or.inr ⟨a1, fun q h3 h4 => ?_⟩
            have hq : q = s := by omega
            subst hq
            exact hno
        · rw [if_neg hsa]
          obtain ⟨r, h1, h2⟩ := ih (s - 1) (by omega) (by omega)
          refine ⟨r, h1, ?_⟩
          rcases h2 with ⟨a1, a2, a3, a4, a5⟩ | ⟨a1, a2⟩
          · refine Or.inl ⟨a1, a2, by omega, a4, fun q h3 h4 => ?_⟩
            by_cases hq : q = s
            · subst hq; exact hno
            · exact a5 q h3 (by omega)
          · refine Or.inr ⟨a1, fun q h3 h4 => ?_⟩
            by_cases hq : q = s
            · subst hq; exact hno
            · exact a2 q h3 (by omega)
    · rw [if_neg hge]
      exact ⟨0, rfl, Or.inr ⟨rfl, fun q h1 h2 => by omega⟩⟩

theorem bm_search_backward_loop_zero (reg : regex_t) (skip : List Int) (x : Subject)
    (target : List Nat) (text adjust_text s : Int) :
    bm_search_backward_loop reg skip x target text adjust_text 0 s =
      if s ≥ text then none else some 0 := rfl

theorem bm_search_backward_loop_succ (reg : regex_t) (skip : List Int) (x : Subject)
    (target : List Nat) (text adjust_text : Int) (k : Nat) (s : Int) :
    bm_search_backward_loop reg skip x target text adjust_text (k + 1) s =
      if s ≥ text then
        match match_rest x target s with
        | none => none
        | some true => some s
        | some false =>
          match (x.rd s).bind (fun c => skip.get? c) with
          | none => none
          | some d =>
            if reg.enc.left_adjust_char_head x adjust_text (s - d) < s then
              bm_search_backward_loop reg skip x target text adjust_text k
                (reg.enc.left_adjust_char_head x adjust_text (s - d))
            else none
      else some 0 := rfl

/-- A backward shift by the skip of the table passes no position at which
the target stands. -/
theorem bm_backward_shift_passes_none (x : Subject) (target : List Nat) (s : Int) (c : Nat)
    (hm : 0 < target.length) (hc : x.rd s = some c) :
    ∀ q, s - bm_backward_skip_table target c < q → q < s → ¬ occurs_here x target q := by
  intro q h1 h2 hocc
  obtain ⟨t1, t2, t3⟩ := bm_backward_skip_table_spec target c hm
  have := hocc (s - q).toNat (by omega)
  have e : q + ((s - q).toNat : Int) = s := by omega
  rw [e, hc] at this
  exact t3 (s - q).toNat (by omega) (by omega) this.symm

/-- The loop of `bm_search_backward` from `s`: the greatest position from
`text` up to `s` at which the target stands, or null. -/
theorem bm_search_backward_loop_spec (reg : regex_t) (skip : List Int) (x : Subject)
    (target : List Nat) (text adjust_text : Int) (hm : 0 < target.length)
    (hadj : ∀ a s, reg.enc.left_adjust_char_head x a s = s)
    (hskip : ∀ c, c < 256 → skip.get? c = some (bm_backward_skip_table target c))
    (hbytes : ∀ b ∈ x.bytes, b < 256) (h0 : 0 < text) (hstr : x.str ≤ text) :
    ∀ (k : Nat) (s : Int), (s - text + 1).toNat ≤ k → s + target.length ≤ x.end_ →
      ∃ r, bm_search_backward_loop reg skip x target text adjust_text k s = some r ∧
        ((r ≠ 0 ∧ text ≤ r ∧ r ≤ s ∧ occurs_here x target r ∧
            ∀ q, r < q → q ≤ s → ¬ occurs_here x target q) ∨
          (r = 0 ∧ ∀ q, text ≤ q → q ≤ s → ¬ occurs_here x target q)) := by
  intro k
  induction k with
  | zero =>
    intro s hk _
    rw [bm_search_backward_loop_zero, if_neg (by omega)]
    exact ⟨0, rfl, Or.inr ⟨rfl, fun q h1 h2 => by omega⟩⟩
  | succ k ih =>
    intro s hk hs
    rw [bm_search_backward_loop_succ]
    by_cases hge : s ≥ text
    · rw [if_pos hge]
      obtain ⟨r, hr1, hr2⟩ := match_rest_spec x target s
        (fun i hi => rd_some_of_bounds x _ (by omega) (by omega))
      rw [hr1]
      cases r with
      | true =>
        dsimp only
        exact ⟨s, rfl, Or.inl ⟨by omega, hge, le_refl _, hr2.mp rfl,
          fun q h1 h2 => by omega⟩⟩
      | false =>
        dsimp only
        have hno : ¬ occurs_here x target s := fun h => by
          have := hr2.mpr h
          cases this
        obtain ⟨c, hc⟩ := rd_some_of_bounds x s (by omega) (by omega)
        obtain ⟨t1, t2, t3⟩ := bm_backward_skip_table_spec target c hm
        have hb : (x.rd s).bind (fun c => skip.get? c) =
            some (bm_backward_skip_table target c) := by
          rw [hc]
          exact hskip c (hbytes c (rd_mem x s c hc))
        rw [hb]
        dsimp only
        rw [hadj, if_pos (by omega)]
        have hpass := bm_backward_shift_passes_none x target s c hm hc
        obtain ⟨r, h1, h2⟩ := ih (s - bm_backward_skip_table target c) (by omega) (by omega)
        refine ⟨r, h1, ?_⟩
        rcases h2 with ⟨a1, a2, a3, a4, a5⟩ | ⟨a1, a2⟩
        · refine Or.inl ⟨a1, a2, by omega, a4, fun q h3 h4 => ?_⟩
          by_cases hq : q = s
          · subst hq; exact hno
          · by_cases hq2 : q ≤ s - bm_backward_skip_table target c
            · exact a5 q h3 hq2
            · exact hpass q (by omega) (by omega)
        · refine Or.inr ⟨a1, fun q h3 h4 => ?_⟩
          by_cases hq : q = s
          · subst hq; exact hno
          · by_cases hq2 : q ≤ s - bm_backward_skip_table target c
            · exact a2 q h3 hq2
            · exact hpass q (by omega) (by omega)
    · rw [if_neg hge]
      exact ⟨0, rfl, Or.inr ⟨rfl, fun q h1 h2 => by omega⟩⟩

/-- C39: for a single-byte encoding and a non-empty target of the length
`m`: `set_bm_backward_skip` produces `skip[c] = min { i : 1 <= i < m and
target[i] = c }`, or `m` when there is no such `i`; and with that table
`bm_search_backward` returns what `slow_search_backward` returns for every
`text`, `text_end` and `text_start` in the subject, namely the greatest
position `p` with `text <= p <= min(text_start, text_end - m)` at which the
target stands, or null when there is none. -/
theorem C39_bm_search_backward (reg : regex_t) (x : Subject) (target : List Nat)
    (text adjust_text text_end text_start : Int)
    (hprev : ∀ a s, reg.enc.prev_char_head x a s = if s ≤ a then 0 else s - 1)
    (hadj : ∀ a s, reg.enc.left_adjust_char_head x a s = s)
    (hm : 0 < target.length) (htb : ∀ b ∈ target, b < 256)
    (hbytes : ∀ b ∈ x.bytes, b < 256)
    (h0 : 0 < text) (hstr : x.str ≤ text) (hend : text_end ≤ x.end_)
    (hadjt : adjust_text ≤ text) :
    (∀ c, c < 256 →
      (set_bm_backward_skip target).get? c = some (bm_backward_skip_table target c)) ∧
    bm_search_backward reg (set_bm_backward_skip target) x target text adjust_text text_end
        text_start =
      slow_search_backward reg.enc x target text adjust_text text_end text_start ∧
    ∃ r, bm_search_backward reg (set_bm_backward_skip target) x target text adjust_text
        text_end text_start = some r ∧
      is_last_match x target text text_end text_start r := by
  have htab := set_bm_backward_skip_spec target hm htb
  refine ⟨htab, ?_, ?_⟩
  all_goals
    unfold bm_search_backward
    dsimp only
    rw [hadj]
    obtain ⟨rb, hb1, hb2⟩ := bm_search_backward_loop_spec reg (set_bm_backward_skip target)
      x target text adjust_text hm hadj htab hbytes h0 hstr
      (((if text_start < text_end - (target.length : Int) then text_start
          else text_end - (target.length : Int)) - text).toNat + 1)
      (if text_start < text_end - (target.length : Int) then text_start
        else text_end - (target.length : Int))
      (by omega) (by split <;> omega)
    rw [hb1]
  · unfold slow_search_backward
    dsimp only
    rw [hadj]
    obtain ⟨rs, hs1, hs2⟩ := slow_search_backward_loop_spec reg.enc x target text adjust_text
      hm hprev h0 hstr hadjt
      (((if text_end - (target.length : Int) > text_start then text_start
          else text_end - (target.length : Int)) - text).toNat + 1)
      (if text_end - (target.length : Int) > text_start then text_start
        else text_end - (target.length : Int))
      (by omega) (by split <;> omega)
    rw [hs1]
    congr 1
    have hs0 : (if text_end - (target.length : Int) > text_start then text_start
        else text_end - (target.length : Int)) =
        (if text_start < text_end - (target.length : Int) then text_start
          else text_end - (target.length : Int)) := rfl
    rw [hs0] at hs2
    generalize (if text_start < text_end - (target.length : Int) then text_start
        else text_end - (target.length : Int)) = e at hb2 hs2
    rcases hb2 with ⟨b1, b2, b3, b4, b5⟩ | ⟨b1, b2⟩
    · rcases hs2 with ⟨s1, s2, s3, s4, s5⟩ | ⟨s1, s2⟩
      · by_contra hne
        rcases lt_or_gt_of_ne hne with hlt | hgt
        · exact b5 rs hlt s3 s4
        · exact s5 rb hgt b3 b4
      · exact absurd b4 (s2 rb b2 b3)
    · rcases hs2 with ⟨s1, s2, s3, s4, s5⟩ | ⟨s1, s2⟩
      · exact absurd s4 (b2 rs s2 s3)
      · rw [b1, s1]
  · refine ⟨rb, rfl, ?_⟩
    unfold is_last_match
    rcases hb2 with ⟨b1, b2, b3, b4, b5⟩ | ⟨b1, b2⟩
    · refine Or.inl ⟨b1, b2, ?_, ?_, b4, fun q h1 h2 h3 => b5 q h1 ?_⟩
      · split at b3 <;> omega
      · split at b3 <;> omega
      · split <;> omega
    · refine Or.inr ⟨b1, fun q h1 h2 h3 => b2 q h1 ?_⟩
      split <;> omega

theorem C39_bm_search_backward_witness :
    (∀ c, c < 256 →
      (set_bm_backward_skip [97, 98]).get? c = some (bm_backward_skip_table [97, 98] c)) ∧
    bm_search_backward regex_bm_ab (set_bm_backward_skip [97, 98]) subject_aabab [97, 98]
        1000 1000 1005 1005 =
      slow_search_backward regex_bm_ab.enc subject_aabab [97, 98] 1000 1000 1005 1005 ∧
    ∃ r, bm_search_backward regex_bm_ab (set_bm_backward_skip [97, 98]) subject_aabab
        [97, 98] 1000 1000 1005 1005 = some r ∧
      is_last_match subject_aabab [97, 98] 1000 1005 1005 r :=
  C39_bm_search_backward regex_bm_ab subject_aabab [97, 98] 1000 1000 1005 1005
    (fun _ _ => rfl) (fun _ _ => rfl) (by decide) (by decide) (by decide) (by decide)
    (by decide) (by decide) (by decide)


/-! ## The stack at the return of `match_at` -/

theorem make_capture_history_tree_succ (reg : regex_t) (st : MatchState) (str : Int)
    (stk_top fuel : Nat) (group beg end_ : Int) (childs : List OnigCaptureTreeNode) (k : Nat) :
    make_capture_history_tree reg st str stk_top (fuel + 1) (.node group beg end_ childs) k =
    if k < stk_top then
      match STACK_AT st k with
      | none => none
      | some fr =>
        if fr.type = STK_MEM_START then
          match fr.u with
          | .mem n pstr _ _ =>
            if n ≤ ONIG_MAX_CAPTURE_HISTORY_GROUP ∧ MEM_STATUS_AT reg.capture_history n then
              match make_capture_history_tree reg st str stk_top fuel
                  (.node n (pstr - str) ONIG_REGION_NOTPOS []) (k + 1) with
              | none => none
              | some (r, .node cg cb ce cc, k1) =>
                if r ≠ 0 then some (r, .node group beg end_ (childs ++ [.node cg cb ce cc]), k1)
                else
                  match (STACK_AT st k1).bind (fun f => f.u.get_mem_pstr) with
                  | none => none
                  | some pe =>
                    make_capture_history_tree reg st str stk_top fuel
                      (.node group beg end_ (childs ++ [.node cg cb (pe - str) cc])) (k1 + 1)
            else
              make_capture_history_tree reg st str stk_top fuel
                (.node group beg end_ childs) (k + 1)
          | _ => none
        else if fr.type = STK_MEM_END then
          match fr.u with
          | .mem n pstr _ _ =>
            if n = group then some (0, .node group beg (pstr - str) childs, k)
            else
              make_capture_history_tree reg st str stk_top fuel
                (.node group beg end_ childs) (k + 1)
          | _ => none
        else
          make_capture_history_tree reg st str stk_top fuel
            (.node group beg end_ childs) (k + 1)
    else some (1, .node group beg end_ childs, k) := rfl

/-- A frame outside the pairs is passed. -/
theorem make_tree_skip (reg : regex_t) (st : MatchState) (str : Int) (stk_top fuel : Nat)
    (g b e : Int) (ch : List OnigCaptureTreeNode) (k : Nat) (fr : StackType)
    (hk : k < stk_top) (hfr : STACK_AT st k = some fr) (ho : outside_pairs reg g fr) :
    make_capture_history_tree reg st str stk_top (fuel + 1) (.node g b e ch) k =
      make_capture_history_tree reg st str stk_top fuel (.node g b e ch) (k + 1) := by
  rw [make_capture_history_tree_succ, if_pos hk, hfr]
  dsimp only
  rcases ho with ⟨h1, h2⟩ | ⟨n, pstr, a, b1, hf, hn⟩ | ⟨n, pstr, a, b1, hf, hn⟩
  · rw [if_neg h1, if_neg h2]
  · subst hf
    dsimp only
    rw [if_pos rfl]
    unfold history_group at hn
    rw [if_neg (by simpa using hn)]
  · subst hf
    dsimp only
    rw [if_neg (by decide), if_pos rfl, if_neg hn]

/-- The `STK_MEM_END` frame of the group of the node closes the node. -/
theorem make_tree_end (reg : regex_t) (st : MatchState) (str : Int) (stk_top fuel : Nat)
    (g b e pe c d : Int) (ch : List OnigCaptureTreeNode) (k : Nat)
    (hk : k < stk_top) (hfr : STACK_AT st k = some ⟨STK_MEM_END, .mem g pe c d⟩) :
    make_capture_history_tree reg st str stk_top (fuel + 1) (.node g b e ch) k =
      some (0, .node g b (pe - str) ch, k) := by
  rw [make_capture_history_tree_succ, if_pos hk, hfr]
  dsimp only
  rw [if_neg (by decide), if_pos rfl, if_pos rfl]

theorem frames_at_cons {st : MatchState} {k : Nat} {fr : StackType} {l : List StackType}
    (h : frames_at st k (fr :: l)) :
    STACK_AT st (k : Int) = some fr ∧ frames_at st (k + 1) l := by
  constructor
  · have := h 0 (by simp)
    simpa using this
  · intro i hi
    have := h (i + 1) (by simp; omega)
    rw [List.get?_cons_succ] at this
    have e : k + 1 + i = k + (i + 1) := by omega
    rw [e]
    exact this

theorem frames_at_append {st : MatchState} {k : Nat} {l1 l2 : List StackType}
    (h : frames_at st k (l1 ++ l2)) :
    frames_at st k l1 ∧ frames_at st (k + l1.length) l2 := by
  constructor
  · intro i hi
    have := h i (by rw [List.length_append]; omega)
    rw [List.get?_eq_getElem?, List.getElem?_append_left hi] at this
    rw [List.get?_eq_getElem?]
    exact this
  · intro i hi
    have := h (l1.length + i) (by rw [List.length_append]; omega)
    rw [List.get?_eq_getElem?, List.getElem?_append_right (by omega)] at this
    have e1 : l1.length + i - l1.length = i := by omega
    have e2 : k + l1.length + i = k + (l1.length + i) := by omega
    rw [e1] at this
    rw [e2, List.get?_eq_getElem?]
    exact this

/-- On a well nested sequence of frames `make_capture_history_tree` adds the
forest of the nesting to the children of the node: it returns 1 at the top
of the stack, and 0 at the `STK_MEM_END` frame of the group of the node that
follows the sequence. -/
theorem make_tree_well_nested (reg : regex_t) (st : MatchState) (str : Int) (stk_top : Nat) :
    ∀ (g : Int) (l : List StackType) (cs : List OnigCaptureTreeNode),
      WellNested reg str g l cs →
      ∀ (k fuel : Nat) (b e : Int) (ch : List OnigCaptureTreeNode),
        frames_at st k l → l.length + 1 ≤ fuel →
        (k + l.length = stk_top →
          make_capture_history_tree reg st str stk_top fuel (.node g b e ch) k =
            some (1, .node g b e (ch ++ cs), stk_top)) ∧
        (∀ pe c d, k + l.length < stk_top →
          STACK_AT st ((k + l.length : Nat) : Int) = some ⟨STK_MEM_END, .mem g pe c d⟩ →
          make_capture_history_tree reg st str stk_top fuel (.node g b e ch) k =
            some (0, .node g b (pe - str) (ch ++ cs), k + l.length)) := by
  intro g l cs h
  induction h with
  | nil g =>
    intro k fuel b e ch _ hfuel
    obtain ⟨f, rfl⟩ : ∃ f, fuel = f + 1 := ⟨fuel - 1, by omega⟩
    simp only [List.length_nil, Nat.add_zero, List.append_nil]
    constructor
    · intro hk
      rw [make_capture_history_tree_succ, if_neg (by omega), hk]
    · intro pe c d hk hfr
      exact make_tree_end reg st str stk_top f g b e pe c d ch k hk hfr
  | skip g fr l cs ho hw ih =>
    intro k fuel b e ch hfr hfuel
    obtain ⟨f, rfl⟩ : ∃ f, fuel = f + 1 := ⟨fuel - 1, by omega⟩
    obtain ⟨h0, hrest⟩ := frames_at_cons hfr
    rw [List.length_cons] at hfuel ⊢
    obtain ⟨ihA, ihB⟩ := ih (k + 1) f b e ch hrest (by omega)
    have e1 : k + (l.length + 1) = k + 1 + l.length := by omega
    constructor
    · intro hk
      rw [make_tree_skip reg st str stk_top f g b e ch k fr (by omega) h0 ho]
      exact ihA (by omega)
    · intro pe c d hk hend
      rw [make_tree_skip reg st str stk_top f g b e ch k fr (by omega) h0 ho]
      rw [e1] at hend ⊢
      exact ihB pe c d (by omega) hend
  | pair g n pb pe a1 b1 c1 d1 l1 l2 cs1 cs2 hsel h1 h2 ih1 ih2 =>
    intro k fuel b e ch hfr hfuel
    obtain ⟨f, rfl⟩ : ∃ f, fuel = f + 1 := ⟨fuel - 1, by omega⟩
    obtain ⟨h0, hrest⟩ := frames_at_cons hfr
    obtain ⟨hl1, hrest2⟩ := frames_at_append hrest
    obtain ⟨hE, hl2⟩ := frames_at_cons hrest2
    simp only [List.length_cons, List.length_append] at hfuel ⊢
    have hlen : ∀ top, (k + (l1.length + (l2.length + 1) + 1) = top ∨
        k + (l1.length + (l2.length + 1) + 1) < top) → k + 1 + l1.length < top := by
      intro top h
      omega
    have hchild : ∀ top, k + 1 + l1.length < top → top = stk_top →
        make_capture_history_tree reg st str stk_top f
          (.node n (pb - str) ONIG_REGION_NOTPOS []) (k + 1) =
        some (0, .node n (pb - str) (pe - str) cs1, k + 1 + l1.length) := by
      intro top hlt htop
      have := (ih1 (k + 1) f (pb - str) ONIG_REGION_NOTPOS [] hl1 (by omega)).2 pe c1 d1
        (by omega) hE
      rw [List.nil_append] at this
      exact this
    have hstep : k + 1 + l1.length < stk_top →
        make_capture_history_tree reg st str stk_top (f + 1) (.node g b e ch) k =
          make_capture_history_tree reg st str stk_top f
            (.node g b e (ch ++ [.node n (pb - str) (pe - str) cs1]))
            (k + 1 + l1.length + 1) := by
      intro hlt
      rw [make_capture_history_tree_succ, if_pos (by omega), h0]
      dsimp only
      rw [if_pos rfl]
      unfold history_group at hsel
      rw [if_pos (by simpa using hsel)]
      rw [hchild stk_top hlt rfl]
      dsimp only
      rw [if_neg (by decide)]
      have hE1 : STACK_AT st ((k + 1 + l1.length : Nat) : Int) =
          some ⟨STK_MEM_END, .mem n pe c1 d1⟩ := hE
      rw [hE1]
      rfl
    obtain ⟨ihA, ihB⟩ := ih2 (k + 1 + l1.length + 1) f b e
      (ch ++ [.node n (pb - str) (pe - str) cs1]) hl2 (by omega)
    have happ : ch ++ [OnigCaptureTreeNode.node n (pb - str) (pe - str) cs1] ++ cs2 =
        ch ++ OnigCaptureTreeNode.node n (pb - str) (pe - str) cs1 :: cs2 := by
      rw [List.append_assoc]
      rfl
    constructor
    · intro hk
      rw [hstep (by omega), ihA (by omega), happ]
    · intro pe2 c d hk hend
      have e2 : k + (l1.length + (l2.length + 1) + 1) = k + 1 + l1.length + 1 + l2.length := by
        omega
      rw [e2] at hend ⊢
      rw [hstep (by omega), ihB pe2 c d (by omega) hend, happ]

theorem preorder_node (g b e : Int) (cs : List OnigCaptureTreeNode) :
    preorder (.node g b e cs) = (g, b) :: preorder_list cs := by
  rw [preorder]

theorem preorder_list_cons (c : OnigCaptureTreeNode) (cs : List OnigCaptureTreeNode) :
    preorder_list (c :: cs) = preorder c ++ preorder_list cs := by
  rw [preorder_list]

theorem history_start_outside (reg : regex_t) (str g : Int) (fr : StackType)
    (ho : outside_pairs reg g fr) : history_start reg str fr = none := by
  unfold history_start
  rcases ho with ⟨h1, _⟩ | ⟨n, pstr, a, b1, hf, hn⟩ | ⟨n, pstr, a, b1, hf, hn⟩
  · rw [if_neg h1]
  · subst hf
    dsimp only
    unfold history_group at hn
    rw [if_pos rfl, if_neg hn]
  · subst hf
    dsimp only
    rw [if_neg (by decide)]

/-- The nodes of the forest of a well nested sequence of frames, in
pre-order, are the `STK_MEM_START` frames of the capture-history groups in
the order of the stack. -/
theorem preorder_well_nested (reg : regex_t) (str : Int) :
    ∀ (g : Int) (l : List StackType) (cs : List OnigCaptureTreeNode),
      WellNested reg str g l cs → preorder_list cs = l.filterMap (history_start reg str) := by
  intro g l cs h
  induction h with
  | nil g =>
    rw [preorder_list]
    rfl
  | skip g fr l cs ho hw ih =>
    rw [List.filterMap_cons, history_start_outside reg str g fr ho]
    exact ih
  | pair g n pb pe a1 b1 c1 d1 l1 l2 cs1 cs2 hsel h1 h2 ih1 ih2 =>
    rw [preorder_list_cons, preorder_node, ih1, ih2]
    rw [List.filterMap_cons, List.filterMap_append, List.filterMap_cons]
    have hs : history_start reg str ⟨STK_MEM_START, .mem n pb a1 b1⟩ = some (n, pb - str) := by
      unfold history_start
      dsimp only
      unfold history_group at hsel
      rw [if_pos rfl, if_pos hsel]
    have he : history_start reg str ⟨STK_MEM_END, .mem n pe c1 d1⟩ = none := by
      unfold history_start
      dsimp only
      rw [if_neg (by decide)]
    rw [hs, he]
    rfl

/-- C30: for a backtrack stack whose frames are a well nested sequence of
`STK_MEM_START`/`STK_MEM_END` pairs of the capture-history groups,
`make_capture_history_tree` called on the root (group 0) with the fuel of
`OP_END` returns 1 with `*kp` at the top of the stack, and the children of
the root are the forest of the nesting: each pair is a node with the group of
its frames, `beg` the position of the `STK_MEM_START` frame less `str`, `end`
the position of the matching `STK_MEM_END` frame less `str`, over the nodes
of the pairs inside it; in pre-order the nodes are the `STK_MEM_START` frames
of the capture-history groups in the order of the stack. -/
theorem C30_capture_history_tree (reg : regex_t) (st : MatchState) (str : Int)
    (l : List StackType) (cs : List OnigCaptureTreeNode) (b e : Int)
    (hl : l.length = st.stk) (hfr : frames_at st 0 l) (hw : WellNested reg str 0 l cs) :
    make_capture_history_tree reg st str st.stk (st.stk + 1) (.node 0 b e []) 0 =
        some (1, .node 0 b e cs, st.stk) ∧
      preorder_list cs = l.filterMap (history_start reg str) := by
  refine ⟨?_, preorder_well_nested reg str 0 l cs hw⟩
  have := (make_tree_well_nested reg st str st.stk 0 l cs hw 0 (st.stk + 1) b e [] hfr
    (by omega)).1 (by omega)
  rw [List.nil_append] at this
  exact this

theorem C30_capture_history_tree_witness :
    make_capture_history_tree regex_group_history
        (state_after regex_group_history subject_a 1000 3) 1000
        (state_after regex_group_history subject_a 1000 3).stk
        ((state_after regex_group_history subject_a 1000 3).stk + 1) (.node 0 0 1 []) 0 =
        some (1, .node 0 0 1 [.node 1 (1000 - 1000) (1001 - 1000) []],
          (state_after regex_group_history subject_a 1000 3).stk) ∧
      preorder_list [.node 1 (1000 - 1000) (1001 - 1000) []] =
        [⟨STK_ALT, .state_pcode FinishCode⟩, ⟨STK_MEM_START, .mem 1 1000 (-1) (-1)⟩,
          ⟨STK_MEM_END, .mem 1 1001 1 (-1)⟩].filterMap (history_start regex_group_history 1000) :=
  C30_capture_history_tree regex_group_history
    (state_after regex_group_history subject_a 1000 3) 1000
    [⟨STK_ALT, .state_pcode FinishCode⟩, ⟨STK_MEM_START, .mem 1 1000 (-1) (-1)⟩,
      ⟨STK_MEM_END, .mem 1 1001 1 (-1)⟩]
    [.node 1 (1000 - 1000) (1001 - 1000) []] 0 1
    (by decide!)
    (fun i hi => by
      have hi3 : i < 3 := hi
      interval_cases i <;> decide!)
    (.skip 0 _ _ _ (Or.inl ⟨by decide, by decide⟩)
      (.pair 0 1 1000 1001 (-1) (-1) 1 (-1) [] [] [] [] ⟨by decide, by decide⟩
        (.nil 1) (.nil 0)))


/-! ## The region that a search without a match leaves -/

theorem end_region_loop_shape (ctx : Ctx) (st : MatchState) :
    ∀ (n : Nat) (i : Int) (r r1 : OnigRegion), end_region_loop ctx st n i r = some r1 →
      r1.num_regs = r.num_regs ∧ r1.beg.length = r.beg.length ∧
        r1.end_.length = r.end_.length := by
  intro n
  induction n with
  | zero =>
    intro i r r1 h
    unfold end_region_loop at h
    cases h
    exact ⟨rfl, rfl, rfl⟩
  | succ k ih =>
    intro i r r1 h
    unfold end_region_loop at h
    cases he : ptr_get st.mem_end_stk i with
    | none => rw [he] at h; cases h
    | some e =>
      rw [he] at h
      simp only [] at h
      by_cases hinv : e ≠ INVALID_STACK_INDEX
      · rw [if_pos hinv] at h
        cases hps : mem_pstart ctx st i with
        | none => rw [hps] at h; cases h
        | some ps =>
          cases hpe : mem_pend ctx st i with
          | none => rw [hps, hpe] at h; cases h
          | some pe =>
            rw [hps, hpe] at h
            simp only [] at h
            cases hb : setI r.beg i (ps - ctx.x.str) with
            | none => rw [hb] at h; cases h
            | some b =>
              cases hee : setI r.end_ i (pe - ctx.x.str) with
              | none => rw [hb, hee] at h; cases h
              | some e1 =>
                rw [hb, hee] at h
                simp only [] at h
                have := ih (i + 1) _ r1 h
                simp only [] at this
                rw [this.1, this.2.1, this.2.2, (setI_ok_inv hb).2.2, (setI_ok_inv hee).2.2]
                exact ⟨rfl, rfl, rfl⟩
      · rw [if_neg hinv] at h
        cases hb : setI r.beg i ONIG_REGION_NOTPOS with
        | none => rw [hb] at h; cases h
        | some b =>
          cases hee : setI r.end_ i ONIG_REGION_NOTPOS with
          | none => rw [hb, hee] at h; cases h
          | some e1 =>
            rw [hb, hee] at h
            simp only [] at h
            have := ih (i + 1) _ r1 h
            simp only [] at this
            rw [this.1, this.2.1, this.2.2, (setI_ok_inv hb).2.2, (setI_ok_inv hee).2.2]
            exact ⟨rfl, rfl, rfl⟩

/-- The commit of `OP_END` keeps the number of registers and the arrays'
lengths. -/
theorem end_commit_holds (ctx : Ctx) (st : MatchState) (n : Int) (region region1 : RegionArg)
    (h : end_commit ctx st region = some region1) (hr : region_holds n region) :
    region_holds n region1 := by
  obtain ⟨rg, hrg, hn, hlb, hle⟩ := hr
  subst hrg
  unfold end_commit at h
  simp only [] at h
  split at h
  · cases h
  · cases hb : setI rg.beg 0 (st.keep - ctx.x.str) with
    | none => rw [hb] at h; cases h
    | some b =>
      cases hee : setI rg.end_ 0 (st.s - ctx.x.str) with
      | none => rw [hb, hee] at h; cases h
      | some e1 =>
        rw [hb, hee] at h
        simp only [] at h
        cases hl : end_region_loop ctx st ctx.reg.num_mem 1 { rg with beg := b, end_ := e1 } with
        | none => rw [hl] at h; cases h
        | some r1 =>
          rw [hl] at h
          simp only [] at h
          have hs := end_region_loop_shape ctx st _ _ _ _ hl
          simp only [] at hs
          rw [(setI_ok_inv hb).2.2, (setI_ok_inv hee).2.2] at hs
          split at h
          · split at h
            · cases h
              exact ⟨_, rfl, by show r1.num_regs = n; rw [hs.1]; exact hn,
                by show n ≤ (r1.beg.length : Int); rw [hs.2.1]; exact hlb,
                by show n ≤ (r1.end_.length : Int); rw [hs.2.2]; exact hle⟩
            · cases h
          · cases h
            exact ⟨_, rfl, by rw [hs.1]; exact hn, by rw [hs.2.1]; exact hlb,
              by rw [hs.2.2]; exact hle⟩

/-- What the search keeps, on what `OP_END` wrote. -/
theorem end_best_len_inv (ctx : Ctx) (st : MatchState) (out : MatchOut) (n : Int)
    (cs : List Int)
    (hQ : region_holds n out.region ∧ (0 ≤ out.msa_best_len → out.msa_best_s ∈ cs)) :
    region_holds n (end_best_len ctx st out).out.region ∧
      (0 ≤ (end_best_len ctx st out).out.msa_best_len →
        (end_best_len ctx st out).out.msa_best_s ∈ cs) := by
  rcases end_best_len_cases ctx st out with h | h <;> rw [h] <;> exact hQ

theorem end_region_inv (ctx : Ctx) (st : MatchState) (out : MatchOut) (n : Int)
    (cs : List Int)
    (hQ : region_holds n out.region ∧ (0 ≤ out.msa_best_len → out.msa_best_s ∈ cs)) :
    region_holds n (end_region ctx st out).out.region ∧
      (0 ≤ (end_region ctx st out).out.msa_best_len →
        (end_region ctx st out).out.msa_best_s ∈ cs) := by
  unfold end_region
  split
  · exact end_best_len_inv ctx st out n cs hQ
  · dsimp only
    split
    · rename_i region1 hc
      exact end_best_len_inv ctx _ _ n cs ⟨end_commit_holds ctx _ n _ _ hc hQ.1, hQ.2⟩
    · exact hQ

theorem op_END_inv (ctx : Ctx) (st : MatchState) (out : MatchOut) (n : Int)
    (cs : List Int) (hs : ctx.sstart ∈ cs)
    (hQ : region_holds n out.region ∧ (0 ≤ out.msa_best_len → out.msa_best_s ∈ cs)) :
    region_holds n (op_END ctx st out).out.region ∧
      (0 ≤ (op_END ctx st out).out.msa_best_len →
        (op_END ctx st out).out.msa_best_s ∈ cs) := by
  unfold op_END
  dsimp only
  split
  · split
    · exact end_best_len_inv ctx st out n cs hQ
    · apply end_region_inv
      unfold end_new_best
      dsimp only
      split
      · exact ⟨hQ.1, fun _ => hs⟩
      · exact hQ
  · exact end_best_len_inv ctx st out n cs hQ

/-- The loop of `match_at` keeps what the search keeps, however it is left. -/
theorem match_at_loop_search_inv (ctx : Ctx) (n : Int) (cs : List Int)
    (hs : ctx.sstart ∈ cs) :
    ∀ (fuel : Nat) (st : MatchState) (out : MatchOut),
      (region_holds n out.region ∧ (0 ≤ out.msa_best_len → out.msa_best_s ∈ cs)) →
      region_holds n (match_at_loop ctx fuel st out).2.2.region ∧
        (0 ≤ (match_at_loop ctx fuel st out).2.2.msa_best_len →
          (match_at_loop ctx fuel st out).2.2.msa_best_s ∈ cs) := by
  intro fuel
  induction fuel with
  | zero =>
    intro st out hQ
    exact hQ
  | succ k ih =>
    intro st out hQ
    rw [match_at_loop_succ]
    have hstep : region_holds n (match_at_step ctx st out).out.region ∧
        (0 ≤ (match_at_step ctx st out).out.msa_best_len →
          (match_at_step ctx st out).out.msa_best_s ∈ cs) := by
      rcases match_at_step_out_cases ctx st out with ⟨_, h2⟩ | ⟨_, h2⟩
      · rw [h2]
        exact op_END_inv ctx _ out n cs hs hQ
      · rw [h2]
        exact hQ
    cases hst : match_at_step ctx st out with
    | cont st1 out1 =>
      rw [hst] at hstep
      exact ih st1 out1 hstep
    | stop e st1 out1 =>
      rw [hst] at hstep
      exact hstep

/-- A call of `match_at` keeps what the search keeps, with its own position
among the calls. -/
theorem match_at_search_inv (L : Env) (fuel : Nat) (reg : regex_t) (x : Subject)
    (rr sstart sprev : Int) (msa msa1 : OnigMatchArg) (r : Int) (n : Int) (cs : List Int)
    (h : match_at L fuel reg x rr sstart sprev msa = .done (r, msa1))
    (hi : search_inv n msa cs) : search_inv n msa1 (cs ++ [sstart]) := by
  unfold match_at at h
  simp only [] at h
  cases h0 : STACK_PUSH_ENSURED STK_ALT FinishCode (match_at_init reg rr sstart sprev msa) with
  | exit e st => rw [h0] at h; cases h
  | ok a st0 =>
    rw [h0] at h
    simp only [] at h
    generalize hctx : Ctx.mk reg x sstart msa.options msa.start L = ctx at h
    generalize hout : MatchOut.mk ONIG_MISMATCH msa.best_len msa.best_s msa.region = out0 at h
    have hs : ctx.sstart ∈ cs ++ [sstart] := by
      rw [← hctx]
      exact List.mem_append_right _ (List.mem_singleton.2 rfl)
    have hQ0 : region_holds n out0.region ∧
        (0 ≤ out0.msa_best_len → out0.msa_best_s ∈ cs ++ [sstart]) := by
      rw [← hout]
      exact ⟨hi.1, fun hb => List.mem_append_left _ (hi.2 hb)⟩
    have hinv := match_at_loop_search_inv ctx n _ hs fuel st0 out0 hQ0
    rcases hl : match_at_loop ctx fuel st0 out0 with ⟨e, st, out⟩
    rw [hl] at h hinv
    cases e with
    | finish =>
      simp only [] at h
      cases h
      exact hinv
    | err r1 =>
      simp only [] at h
      cases h
      exact hinv
    | fail => cases h
    | undef => cases h
    | nofuel => cases h

/-- The macro `MATCH_AND_RETURN_CHECK` keeps what the search keeps. -/
theorem MATCH_AND_RETURN_CHECK_search_inv (L : Env) (fuel : Nat) (reg : regex_t) (x : Subject)
    (upper : Int) (n : Int) (ss : SearchState) (g : SearchGoto)
    (hi : search_inv n ss.msa ss.calls)
    (h : MATCH_AND_RETURN_CHECK L fuel reg x upper ss = .done g) : g.inv n := by
  unfold MATCH_AND_RETURN_CHECK at h
  cases hm : match_at L fuel reg x upper ss.s ss.prev ss.msa with
  | undef => rw [hm] at h; cases h
  | nofuel => rw [hm] at h; cases h
  | done res =>
    obtain ⟨r, msa1⟩ := res
    rw [hm] at h
    have hk := match_at_search_inv L fuel reg x upper ss.s ss.prev ss.msa msa1 r n ss.calls hm hi
    dsimp only at h
    have hmem : ss.s ∈ ss.calls ++ [ss.s] := List.mem_append_right _ (List.mem_singleton.2 rfl)
    split at h
    · split at h
      · split at h
        · cases h
          exact ⟨hk, hmem⟩
        · cases h
          exact ⟨hk, trivial⟩
      · cases h
        exact ⟨hk, trivial⟩
    · cases h
      exact ⟨hk, trivial⟩

theorem search_advance_inv (reg : regex_t) (x : Subject) (n : Int) (ss ss1 : SearchState)
    (h : search_advance reg x ss = some ss1) (hi : search_inv n ss.msa ss.calls) :
    search_inv n ss1.msa ss1.calls := by
  unfold search_advance at h
  cases he : reg.enc.mbc_enc_len x ss.s with
  | none => rw [he] at h; cases h
  | some n1 =>
    rw [he] at h
    cases h
    exact hi

theorem forward_loop_search_inv (L : Env) (fuel : Nat) (reg : regex_t) (x : Subject)
    (orig_range range : Int) (n : Int) :
    ∀ (k : Nat) (ss : SearchState) (g : SearchGoto), search_inv n ss.msa ss.calls →
      forward_loop L fuel reg x orig_range range k ss = .done g → g.inv n := by
  intro k
  induction k with
  | zero => intro ss g _ h; unfold forward_loop at h; cases h
  | succ k ih =>
    intro ss g hi h
    rw [forward_loop_succ] at h
    cases hm : MATCH_AND_RETURN_CHECK L fuel reg x orig_range ss with
    | undef => rw [hm] at h; cases h
    | nofuel => rw [hm] at h; cases h
    | done g1 =>
      have hg1 := MATCH_AND_RETURN_CHECK_search_inv L fuel reg x orig_range n ss g1 hi hm
      rw [hm] at h
      cases g1 with
      | to_match ss1 => cases h; exact hg1
      | to_finish r ss1 => cases h; exact hg1
      | to_mismatch ss1 => cases h; exact hg1
      | next ss1 =>
        dsimp only at h
        cases ha : search_advance reg x ss1 with
        | none => rw [ha] at h; cases h
        | some ss2 =>
          rw [ha] at h
          dsimp only at h
          have hi2 := search_advance_inv reg x n ss1 ss2 ha hg1.1
          split at h
          · exact ih ss2 g hi2 h
          · cases h
            exact ⟨hi2, trivial⟩

theorem forward_retry_search_inv (L : Env) (fuel : Nat) (reg : regex_t) (x : Subject)
    (orig_range range : Int) (n : Int) (o : Outcome SearchGoto) (g : SearchGoto)
    (ho : ∀ g1, o = .done g1 → g1.inv n)
    (h : forward_retry L fuel reg x orig_range range o = .done g) : g.inv n := by
  unfold forward_retry at h
  cases o with
  | undef => cases h
  | nofuel => cases h
  | done g1 =>
    have h1 := ho g1 rfl
    cases g1 with
    | to_match ss1 => cases h; exact h1
    | to_finish r ss1 => cases h; exact h1
    | to_mismatch ss1 => cases h; exact h1
    | next ss1 =>
      dsimp only at h
      split at h
      · cases hm : MATCH_AND_RETURN_CHECK L fuel reg x orig_range ss1 with
        | undef => rw [hm] at h; cases h
        | nofuel => rw [hm] at h; cases h
        | done g2 =>
          have hg2 := MATCH_AND_RETURN_CHECK_search_inv L fuel reg x orig_range n ss1 g2 h1.1 hm
          rw [hm] at h
          cases g2 with
          | next ss2 => cases h; exact ⟨hg2.1, trivial⟩
          | to_match ss2 => cases h; exact hg2
          | to_finish r ss2 => cases h; exact hg2
          | to_mismatch ss2 => cases h; exact hg2
      · cases h
        exact ⟨h1.1, trivial⟩

theorem forward_plain_search_inv (L : Env) (fuel : Nat) (reg : regex_t) (x : Subject)
    (orig_range range : Int) (n : Int) (ss : SearchState) (g : SearchGoto)
    (hi : search_inv n ss.msa ss.calls)
    (h : forward_plain L fuel reg x orig_range range ss = .done g) : g.inv n := by
  unfold forward_plain at h
  exact forward_retry_search_inv L fuel reg x orig_range range n _ g
    (fun g1 h1 => forward_loop_search_inv L fuel reg x orig_range range n _ ss g1 hi h1) h

theorem forward_high_loop_search_inv (L : Env) (fuel : Nat) (reg : regex_t) (x : Subject)
    (orig_range high : Int) (n : Int) :
    ∀ (k : Nat) (ss : SearchState) (g : SearchGoto), search_inv n ss.msa ss.calls →
      forward_high_loop L fuel reg x orig_range high k ss = .done g → g.inv n := by
  intro k
  induction k with
  | zero =>
    intro ss g hi h
    unfold forward_high_loop at h
    split at h
    · cases h
    · cases h
      exact ⟨hi, trivial⟩
  | succ k ih =>
    intro ss g hi h
    unfold forward_high_loop at h
    split at h
    · cases hm : MATCH_AND_RETURN_CHECK L fuel reg x orig_range ss with
      | undef => rw [hm] at h; cases h
      | nofuel => rw [hm] at h; cases h
      | done g1 =>
        have hg1 := MATCH_AND_RETURN_CHECK_search_inv L fuel reg x orig_range n ss g1 hi hm
        rw [hm] at h
        cases g1 with
        | to_match ss1 => cases h; exact hg1
        | to_finish r ss1 => cases h; exact hg1
        | to_mismatch ss1 => cases h; exact hg1
        | next ss1 =>
          dsimp only at h
          cases ha : search_advance reg x ss1 with
          | none => rw [ha] at h; cases h
          | some ss2 =>
            rw [ha] at h
            dsimp only at h
            exact ih ss2 g (search_advance_inv reg x n ss1 ss2 ha hg1.1) h
    · cases h
      exact ⟨hi, trivial⟩

theorem forward_opt_loop_search_inv (L : Env) (fuel : Nat) (reg : regex_t) (x : Subject)
    (orig_range range sch_range : Int) (n : Int) :
    ∀ (k : Nat) (rr : RangeResult) (ss : SearchState) (g : SearchGoto),
      search_inv n ss.msa ss.calls →
      forward_opt_loop L fuel reg x orig_range range sch_range k rr ss = .done g →
      g.inv n := by
  intro k
  induction k with
  | zero => intro rr ss g _ h; unfold forward_opt_loop at h; cases h
  | succ k ih =>
    intro rr ss g hi h
    unfold forward_opt_loop at h
    cases hf : forward_search_range reg x ss.s sch_range true rr with
    | none => rw [hf] at h; cases h
    | some rr1 =>
      rw [hf] at h
      dsimp only at h
      split at h
      · cases h
        exact ⟨hi, trivial⟩
      · generalize hss1 : (if ss.s < rr1.low then
            ({ ss with s := rr1.low, prev := rr1.low_prev } : SearchState) else ss) = ss1 at h
        have hi1 : search_inv n ss1.msa ss1.calls := by
          rw [← hss1]
          split <;> exact hi
        cases hh : forward_high_loop L fuel reg x orig_range rr1.high
            ((rr1.high - ss1.s).toNat + 1) ss1 with
        | undef => rw [hh] at h; cases h
        | nofuel => rw [hh] at h; cases h
        | done g1 =>
          have hg1 := forward_high_loop_search_inv L fuel reg x orig_range rr1.high n _ ss1 g1
            hi1 hh
          rw [hh] at h
          cases g1 with
          | to_match ss2 => cases h; exact hg1
          | to_finish r ss2 => cases h; exact hg1
          | to_mismatch ss2 => cases h; exact hg1
          | next ss2 =>
            dsimp only at h
            split at h
            · exact ih rr1 ss2 g hg1.1 h
            · cases h
              exact ⟨hg1.1, trivial⟩

theorem skip_to_newline_inv (reg : regex_t) (x : Subject) (range : Int) (n : Int) :
    ∀ (k : Nat) (ss ss1 : SearchState), skip_to_newline reg x range k ss = some ss1 →
      search_inv n ss.msa ss.calls → search_inv n ss1.msa ss1.calls := by
  intro k
  induction k with
  | zero => intro ss ss1 h; unfold skip_to_newline at h; cases h
  | succ k ih =>
    intro ss ss1 h hi
    unfold skip_to_newline at h
    cases hn : reg.enc.is_mbc_newline x ss.prev with
    | none => rw [hn] at h; cases h
    | some nl =>
      rw [hn] at h
      dsimp only at h
      split at h
      · cases ha : search_advance reg x ss with
        | none => rw [ha] at h; cases h
        | some ss2 =>
          rw [ha] at h
          exact ih ss2 ss1 h (search_advance_inv reg x n ss ss2 ha hi)
      · cases h
        exact hi

theorem forward_anychar_loop_search_inv (L : Env) (fuel : Nat) (reg : regex_t) (x : Subject)
    (orig_range range : Int) (n : Int) :
    ∀ (k : Nat) (ss : SearchState) (g : SearchGoto), search_inv n ss.msa ss.calls →
      forward_anychar_loop L fuel reg x orig_range range k ss = .done g → g.inv n := by
  intro k
  induction k with
  | zero => intro ss g _ h; unfold forward_anychar_loop at h; cases h
  | succ k ih =>
    intro ss g hi h
    unfold forward_anychar_loop at h
    cases hm : MATCH_AND_RETURN_CHECK L fuel reg x orig_range ss with
    | undef => rw [hm] at h; cases h
    | nofuel => rw [hm] at h; cases h
    | done g1 =>
      have hg1 := MATCH_AND_RETURN_CHECK_search_inv L fuel reg x orig_range n ss g1 hi hm
      rw [hm] at h
      cases g1 with
      | to_match ss1 => cases h; exact hg1
      | to_finish r ss1 => cases h; exact hg1
      | to_mismatch ss1 => cases h; exact hg1
      | next ss1 =>
        dsimp only at h
        cases ha : search_advance reg x ss1 with
        | none => rw [ha] at h; cases h
        | some ss2 =>
          rw [ha] at h
          dsimp only at h
          have hi2 := search_advance_inv reg x n ss1 ss2 ha hg1.1
          generalize hs3 : (if reg.anchor &&& (ANCHOR_LOOK_BEHIND ||| ANCHOR_PREC_READ_NOT) = 0
            then skip_to_newline reg x range ((range - ss2.s).toNat + 1) ss2
            else some ss2) = o3 at h
          cases o3 with
          | none => cases h
          | some ss3 =>
            dsimp only at h
            have hi3 : search_inv n ss3.msa ss3.calls := by
              split at hs3
              · exact skip_to_newline_inv reg x range n _ ss2 ss3 hs3 hi2
              · cases hs3
                exact hi2
            split at h
            · exact ih ss3 g hi3 h
            · cases h
              exact ⟨hi3, trivial⟩

theorem forward_search_search_inv (L : Env) (fuel : Nat) (reg : regex_t) (x : Subject)
    (orig_range start range : Int) (n : Int) (ss : SearchState) (g : SearchGoto)
    (hi : search_inv n ss.msa ss.calls)
    (h : forward_search L fuel reg x orig_range start range ss = .done g) : g.inv n := by
  unfold forward_search at h
  dsimp only at h
  split at h
  · split at h
    · cases h
      exact ⟨hi, trivial⟩
    · split at h
      · refine forward_opt_loop_search_inv L fuel reg x orig_range range _ n _ _ _ g ?_ h
        exact hi
      · split at h
        · cases h
        · split at h
          · cases h
            exact ⟨hi, trivial⟩
          · split at h
            · refine forward_anychar_loop_search_inv L fuel reg x orig_range range n _ _ g ?_ h
              exact hi
            · refine forward_plain_search_inv L fuel reg x orig_range range n _ g ?_ h
              exact hi
  · refine forward_plain_search_inv L fuel reg x orig_range range n _ g ?_ h
    exact hi

theorem backward_loop_search_inv (L : Env) (fuel : Nat) (reg : regex_t) (x : Subject)
    (orig_start range : Int) (n : Int) :
    ∀ (k : Nat) (ss : SearchState) (g : SearchGoto), search_inv n ss.msa ss.calls →
      backward_loop L fuel reg x orig_start range k ss = .done g → g.inv n := by
  intro k
  induction k with
  | zero => intro ss g _ h; unfold backward_loop at h; cases h
  | succ k ih =>
    intro ss g hi h
    rw [backward_loop_succ] at h
    generalize hss0 : ({ ss with prev := reg.enc.prev_char_head x x.str ss.s } : SearchState) =
      ss0 at h
    have hi0 : search_inv n ss0.msa ss0.calls := by
      rw [← hss0]
      exact hi
    cases hm : MATCH_AND_RETURN_CHECK L fuel reg x orig_start ss0 with
    | undef => rw [hm] at h; cases h
    | nofuel => rw [hm] at h; cases h
    | done g1 =>
      have hg1 := MATCH_AND_RETURN_CHECK_search_inv L fuel reg x orig_start n ss0 g1 hi0 hm
      rw [hm] at h
      cases g1 with
      | to_match ss1 => cases h; exact hg1
      | to_finish r ss1 => cases h; exact hg1
      | to_mismatch ss1 => cases h; exact hg1
      | next ss1 =>
        dsimp only at h
        split at h
        · refine ih _ g ?_ h
          exact hg1.1
        · cases h
          exact ⟨hg1.1, trivial⟩

theorem backward_low_loop_search_inv (L : Env) (fuel : Nat) (reg : regex_t) (x : Subject)
    (orig_start low : Int) (n : Int) :
    ∀ (k : Nat) (ss : SearchState) (g : SearchGoto), search_inv n ss.msa ss.calls →
      backward_low_loop L fuel reg x orig_start low k ss = .done g → g.inv n := by
  intro k
  induction k with
  | zero =>
    intro ss g hi h
    unfold backward_low_loop at h
    split at h
    · cases h
    · cases h
      exact ⟨hi, trivial⟩
  | succ k ih =>
    intro ss g hi h
    unfold backward_low_loop at h
    split at h
    · dsimp only at h
      generalize hss0 : ({ ss with prev := reg.enc.prev_char_head x x.str ss.s } :
        SearchState) = ss0 at h
      have hi0 : search_inv n ss0.msa ss0.calls := by
        rw [← hss0]
        exact hi
      cases hm : MATCH_AND_RETURN_CHECK L fuel reg x orig_start ss0 with
      | undef => rw [hm] at h; cases h
      | nofuel => rw [hm] at h; cases h
      | done g1 =>
        have hg1 := MATCH_AND_RETURN_CHECK_search_inv L fuel reg x orig_start n ss0 g1 hi0 hm
        rw [hm] at h
        cases g1 with
        | to_match ss1 => cases h; exact hg1
        | to_finish r ss1 => cases h; exact hg1
        | to_mismatch ss1 => cases h; exact hg1
        | next ss1 =>
          dsimp only at h
          refine ih _ g ?_ h
          exact hg1.1
    · cases h
      exact ⟨hi, trivial⟩

theorem backward_opt_loop_search_inv (L : Env) (fuel : Nat) (reg : regex_t) (x : Subject)
    (orig_start range adjrange : Int) (n : Int) :
    ∀ (k : Nat) (rr : RangeResult) (ss : SearchState) (g : SearchGoto),
      search_inv n ss.msa ss.calls →
      backward_opt_loop L fuel reg x orig_start range adjrange k rr ss = .done g →
      g.inv n := by
  intro k
  induction k with
  | zero => intro rr ss g _ h; unfold backward_opt_loop at h; cases h
  | succ k ih =>
    intro rr ss g hi h
    unfold backward_opt_loop at h
    dsimp only at h
    generalize (if ss.s + reg.dmax > x.end_ then x.end_ else ss.s + reg.dmax) = sch_start at h
    cases hf : backward_search_range reg x sch_start range adjrange rr with
    | none => rw [hf] at h; cases h
    | some rr1 =>
      rw [hf] at h
      dsimp only at h
      split at h
      · cases h
        exact ⟨hi, trivial⟩
      · generalize hss1 : (if ss.s > rr1.high then
            ({ ss with s := rr1.high } : SearchState) else ss) = ss1 at h
        have hi1 : search_inv n ss1.msa ss1.calls := by
          rw [← hss1]
          split <;> exact hi
        cases hh : backward_low_loop L fuel reg x orig_start rr1.low
            ((ss1.s - x.str).toNat + 2) ss1 with
        | undef => rw [hh] at h; cases h
        | nofuel => rw [hh] at h; cases h
        | done g1 =>
          have hg1 := backward_low_loop_search_inv L fuel reg x orig_start rr1.low n _ ss1 g1
            hi1 hh
          rw [hh] at h
          cases g1 with
          | to_match ss2 => cases h; exact hg1
          | to_finish r ss2 => cases h; exact hg1
          | to_mismatch ss2 => cases h; exact hg1
          | next ss2 =>
            dsimp only at h
            split at h
            · exact ih rr1 ss2 g hg1.1 h
            · cases h
              exact ⟨hg1.1, trivial⟩

theorem backward_search_search_inv (L : Env) (fuel : Nat) (reg : regex_t) (x : Subject)
    (orig_start start range : Int) (n : Int) (ss : SearchState) (g : SearchGoto)
    (hi : search_inv n ss.msa ss.calls)
    (h : backward_search L fuel reg x orig_start start range ss = .done g) : g.inv n := by
  unfold backward_search at h
  split at h
  · cases h
  · dsimp only at h
    split at h
    · split at h
      · exact backward_opt_loop_search_inv L fuel reg x _ range _ n _ _ ss g hi h
      · split at h
        · cases h
          exact ⟨hi, trivial⟩
        · split at h
          · cases h
          · split at h
            · cases h
              exact ⟨hi, trivial⟩
            · exact backward_loop_search_inv L fuel reg x _ range n _ ss g hi h
    · exact backward_loop_search_inv L fuel reg x _ range n _ ss g hi h

/-- The cells below `num_regs` after `onig_region_clear`. -/
theorem onig_region_clear_is_clear (rg : OnigRegion)
    (hb : rg.num_regs ≤ rg.beg.length) (he : rg.num_regs ≤ rg.end_.length) :
    region_is_clear (onig_region_clear rg) := by
  intro i hi0 hi1
  have hi2 : i < rg.num_regs := hi1
  unfold onig_region_clear
  dsimp only
  constructor
  · rw [getI_enum_map _ _ i hi0 (by omega)]
    dsimp only
    rw [if_pos (by omega)]
  · rw [getI_enum_map _ _ i hi0 (by omega)]
    dsimp only
    rw [if_pos (by omega)]

/-- The code at the labels `mismatch`, `finish` and `match` with
`ONIG_OPTION_FIND_NOT_EMPTY`: the value `ONIG_MISMATCH` comes with a region
that was cleared. -/
theorem search_finish_mismatch_clear (reg : regex_t) (x : Subject) (option : Nat)
    (g : SearchGoto) (n : Int)
    (hne : IS_FIND_NOT_EMPTY reg.options = true) (hpx : IS_POSIX_REGION option = false)
    (hg : g.inv n) (hcalls : ∀ p ∈ g.state.calls, x.str ≤ p)
    (hv : (search_finish reg x option g).r = ONIG_MISMATCH) :
    ∃ rg, (search_finish reg x option g).region = .onig rg ∧ rg.num_regs = n ∧
      region_is_clear rg := by
  have hfin : ∀ (r : Int) (ss : SearchState), search_inv n ss.msa ss.calls →
      ∃ rg, (match ss.msa.region with
        | .onig rg =>
          if IS_FIND_NOT_EMPTY reg.options ∧ !IS_POSIX_REGION option then
            RegionArg.onig (onig_region_clear rg)
          else .onig rg
        | other => other) = .onig rg ∧ rg.num_regs = n ∧ region_is_clear rg := by
    intro r ss hi
    obtain ⟨⟨rg, hrg, hn, hlb, hle⟩, _⟩ := hi
    rw [hrg]
    dsimp only
    rw [if_pos ⟨hne, by rw [hpx]; rfl⟩]
    exact ⟨_, rfl, hn, onig_region_clear_is_clear rg (by omega) (by omega)⟩
  have hM : ONIG_MISMATCH = (-1 : Int) := rfl
  cases g with
  | to_match ss =>
    have h1 : ss.s - x.str = ONIG_MISMATCH := hv
    have h2 := hcalls ss.s hg.2
    omega
  | to_finish r ss => exact hfin r ss hg.1
  | to_mismatch ss =>
    unfold search_finish at hv ⊢
    dsimp only at hv ⊢
    split
    · rename_i hc
      rw [if_pos hc] at hv
      have h1 : ss.msa.best_s - x.str = ONIG_MISMATCH := hv
      have h2 := hcalls ss.msa.best_s (hg.1.2 hc.2)
      omega
    · exact hfin ONIG_MISMATCH ss hg.1
  | next ss => exact hfin ONIG_MISMATCH ss hg.1

theorem getI_some_length {α : Type} {l : List α} {i : Int} {v : α}
    (h : getI l i = some v) : i < l.length := by
  unfold getI at h
  split at h
  · rw [List.get?_eq_getElem?] at h
    have := (List.getElem?_eq_some_iff.1 h).1
    omega
  · cases h

/-- The region that `onig_search` prepares holds its registers. -/
theorem region_prepared_holds (r0 : OnigRegion) (n : Int)
    (hb : r0.allocated = r0.beg.length) (he : r0.allocated = r0.end_.length) :
    region_holds n (.onig (onig_region_resize_clear r0 n).2) := by
  obtain ⟨h1, h2⟩ := onig_region_resize_clear_spec r0 n hb he
  refine ⟨_, rfl, h1, ?_, ?_⟩
  · by_cases hn : 0 < n
    · have := getI_some_length (h2 (n - 1) (by omega) (by omega)).1
      omega
    · omega
  · by_cases hn : 0 < n
    · have := getI_some_length (h2 (n - 1) (by omega) (by omega)).2
      omega
    · omega

/-- C9: for every program with `ONIG_OPTION_FIND_NOT_EMPTY`, every input and
every supplied `OnigRegion` (without `ONIG_OPTION_POSIX_REGION`): if
`onig_search` returns `ONIG_MISMATCH`, then on return the region has
`num_regs = num_mem + 1` and every slot `i < num_regs` has `beg[i] = end[i] =
ONIG_REGION_NOTPOS`.  The region is one whose arrays have `allocated` cells,
and the search called `match_at` at positions not before `str` (the value
`s - str` of a match is then not `ONIG_MISMATCH`). -/
theorem C9_find_not_empty_mismatch_clears_region (L : Env) (fuel : Nat) (reg : regex_t)
    (x : Subject) (start range : Int) (r0 : OnigRegion) (option : Nat) (res : SearchResult)
    (hne : IS_FIND_NOT_EMPTY reg.options = true)
    (hpx : IS_POSIX_REGION option = false)
    (hb : r0.allocated = r0.beg.length) (he : r0.allocated = r0.end_.length)
    (h : onig_search_run L fuel reg x start range (.onig r0) option = .done res)
    (hcalls : ∀ p ∈ res.calls, x.str ≤ p)
    (hv : res.r = ONIG_MISMATCH) :
    onig_search L fuel reg x start range (.onig r0) option = .done (ONIG_MISMATCH, res.region) ∧
    ∃ rg, res.region = .onig rg ∧ rg.num_regs = reg.num_mem + 1 ∧
      ∀ i : Int, 0 ≤ i → i < rg.num_regs →
        getI rg.beg i = some ONIG_REGION_NOTPOS ∧ getI rg.end_ i = some ONIG_REGION_NOTPOS := by
  refine ⟨by rw [onig_search_of_run L fuel reg x start range _ option res h, hv], ?_⟩
  have hprep := onig_region_resize_clear_spec r0 (reg.num_mem + 1) hb he
  have hhold := region_prepared_holds r0 (reg.num_mem + 1) hb he
  have hclear : ∃ rg, RegionArg.onig (onig_region_resize_clear r0 (reg.num_mem + 1)).2 =
      .onig rg ∧ rg.num_regs = reg.num_mem + 1 ∧
      ∀ i : Int, 0 ≤ i → i < rg.num_regs →
        getI rg.beg i = some ONIG_REGION_NOTPOS ∧ getI rg.end_ i = some ONIG_REGION_NOTPOS :=
    ⟨_, rfl, hprep.1, fun i h0 h1 => hprep.2 i h0 (by rw [← hprep.1]; exact h1)⟩
  have hfinish : ∀ g : SearchGoto, g.inv (reg.num_mem + 1) →
      res = search_finish reg x option g →
      ∃ rg, res.region = .onig rg ∧ rg.num_regs = reg.num_mem + 1 ∧
        ∀ i : Int, 0 ≤ i → i < rg.num_regs →
          getI rg.beg i = some ONIG_REGION_NOTPOS ∧
          getI rg.end_ i = some ONIG_REGION_NOTPOS := by
    intro g hg hres
    have hc : ∀ p ∈ g.state.calls, x.str ≤ p := by
      rw [← search_finish_calls reg x option g, ← hres]
      exact hcalls
    have hv1 : (search_finish reg x option g).r = ONIG_MISMATCH := by
      rw [← hres]
      exact hv
    obtain ⟨rg, h1, h2, h3⟩ := search_finish_mismatch_clear reg x option g _ hne hpx hg hc hv1
    exact ⟨rg, by rw [hres]; exact h1, h2, h3⟩
  have hinit : ∀ p : Int, search_inv (reg.num_mem + 1)
      (MATCH_ARG_INIT reg option
        (.onig (onig_region_resize_clear r0 (reg.num_mem + 1)).2) p) [] :=
    fun p => ⟨hhold, fun hc => absurd hc not_nonneg_mismatch⟩
  unfold onig_search_run at h
  rw [region_prepare_onig reg r0 option hpx] at h
  dsimp only at h
  rw [if_neg (by decide)] at h
  split at h
  · cases h
    exact hclear
  · split at h
    · cases h
      have hv1 : ONIGERR_INVALID_WIDE_CHAR_VALUE = ONIG_MISMATCH := hv
      exact absurd hv1 (by decide)
    · cases ha : anchor_optimize reg x start range with
      | none => rw [ha] at h; cases h
      | some ar =>
        rw [ha] at h
        cases ar with
        | mismatch_no_msa =>
          cases h
          exact hclear
        | empty_string =>
          dsimp only at h
          split at h
          · generalize hss : (SearchState.mk x.str 0 (MATCH_ARG_INIT reg option
                (.onig (onig_region_resize_clear r0 (reg.num_mem + 1)).2) x.str) []) = ss at h
            have hi : search_inv (reg.num_mem + 1) ss.msa ss.calls := by
              rw [← hss]
              exact hinit x.str
            cases hm : MATCH_AND_RETURN_CHECK L fuel reg x x.end_ ss with
            | undef => rw [hm] at h; cases h
            | nofuel => rw [hm] at h; cases h
            | done g1 =>
              have hg1 := MATCH_AND_RETURN_CHECK_search_inv L fuel reg x x.end_ _ ss g1 hi hm
              rw [hm] at h
              cases g1 with
              | next ss1 =>
                cases h
                exact hfinish (.to_mismatch ss1) ⟨hg1.1, trivial⟩ rfl
              | to_match ss1 => cases h; exact hfinish _ hg1 rfl
              | to_finish r ss1 => cases h; exact hfinish _ hg1 rfl
              | to_mismatch ss1 => cases h; exact hfinish _ hg1 rfl
          · cases h
            exact hclear
        | search start1 range1 =>
          dsimp only at h
          split at h
          · rename_i g1 hg
            cases h
            refine hfinish g1 ?_ rfl
            split at hg
            · refine forward_search_search_inv L fuel reg x range start1 range1 _ _ g1 ?_ hg
              exact hinit start
            · refine backward_search_search_inv L fuel reg x start start1 range1 _ _ g1 ?_ hg
              exact hinit start
          · cases h
          · cases h

theorem C9_find_not_empty_mismatch_clears_region_witness :
    onig_search 0 100 regex_empty_not_empty subject_ab 1000 1002 (.onig onig_region_init) 0 =
      .done (ONIG_MISMATCH,
        ((onig_search_run 0 100 regex_empty_not_empty subject_ab 1000 1002
          (.onig onig_region_init) 0).get SearchResult.none).region) ∧
    ∃ rg, ((onig_search_run 0 100 regex_empty_not_empty subject_ab 1000 1002
        (.onig onig_region_init) 0).get SearchResult.none).region = .onig rg ∧
      rg.num_regs = regex_empty_not_empty.num_mem + 1 ∧
      ∀ i : Int, 0 ≤ i → i < rg.num_regs →
        getI rg.beg i = some ONIG_REGION_NOTPOS ∧ getI rg.end_ i = some ONIG_REGION_NOTPOS :=
  C9_find_not_empty_mismatch_clears_region 0 100 regex_empty_not_empty subject_ab 1000 1002
    onig_region_init 0
    ((onig_search_run 0 100 regex_empty_not_empty subject_ab 1000 1002
      (.onig onig_region_init) 0).get SearchResult.none)
    (by decide) (by decide) (by decide) (by decide)
    (Outcome.eq_done _ _ (by decide!)) (by decide!) (by decide!)

/-- C1, the code at the failing input: in the multibyte encoding the program
of `[^a]` (`OP_CCLASS_NOT`) matches the subject of the one byte `0xE3` at
`str` with the value 3 and `region.end[0] = 3`, past `end - str = 1`:
`OP_CCLASS_NOT` advances `s` by the length of the character after
`DATA_ENSURE(1)` alone.  On the same subject `OP_CCLASS_MB_NOT`, which tests
`DATA_ENSURE_CHECK(mb_len)` and sets `s = end`, leaves `region.end[0] = 1`. -/
theorem C1_cclass_not_passes_end :
    observe 1 (onig_match 0 100 (plain_regex ONIG_ENCODING_UTF8 prog_not_a 0 0 0 0 0 0)
      subject_cut 1000 (.onig onig_region_init) 0) = some (3, [(0, 3)]) ∧
    ¬ ((3 : Int) ≤ subject_cut.end_ - subject_cut.str) ∧
    observe 1 (onig_match 0 100 (plain_regex ONIG_ENCODING_UTF8 prog_cclass_mb_not 0 0 0 0 0 0)
      subject_cut 1000 (.onig onig_region_init) 0) = some (1, [(0, 1)]) := by
  decide!


/-! ## A choice point and the failure that returns to it -/

theorem count_down_zero (fr : StackType) : fr.count_down 0 = fr := by
  obtain ⟨t, u⟩ := fr
  cases u <;> simp [StackType.count_down]

theorem count_down_add (fr : StackType) (a b : Int) :
    (fr.count_down a).count_down b = fr.count_down (a + b) := by
  obtain ⟨t, u⟩ := fr
  cases u <;> simp [StackType.count_down, sub_sub]

theorem count_down_type (fr : StackType) (n : Int) : (fr.count_down n).type = fr.type := by
  obtain ⟨t, u⟩ := fr
  cases u <;> rfl

theorem map_count_down_zero (o : Option StackType) :
    o.map (fun fr => fr.count_down 0) = o := by
  cases o with
  | none => rfl
  | some fr => simp [count_down_zero]

theorem map_count_down_add (o : Option StackType) (a b : Int) :
    (o.map (fun fr => fr.count_down a)).map (fun fr => fr.count_down b) =
      o.map (fun fr => fr.count_down (a + b)) := by
  cases o with
  | none => rfl
  | some fr => simp [count_down_add]

theorem same_but_counts_refl (st : MatchState) : same_but_counts st st :=
  ⟨rfl, rfl, fun j => ⟨0, (map_count_down_zero _).symm⟩⟩

/-- Whether the walk can pass a frame does not depend on the counts. -/
theorem pop_frame_defined_congr {st st1 : MatchState} (h : same_but_counts st st1)
    (fr : StackType) (n : Int) :
    pop_frame_defined st1 (fr.count_down n) = pop_frame_defined st fr := by
  obtain ⟨h1, h2, h3⟩ := h
  obtain ⟨t, u⟩ := fr
  cases u with
  | repeat_inc si =>
    simp only [pop_frame_defined, StackType.count_down]
    obtain ⟨m, hm⟩ := h3 si
    rw [hm]
    cases hfr : STACK_AT st si with
    | none => rfl
    | some f =>
      obtain ⟨t2, u2⟩ := f
      cases u2 <;> rfl
  | mem num a b c => simp only [pop_frame_defined, StackType.count_down, h1, h2]
  | repeat_ c pcode num => simp only [pop_frame_defined, StackType.count_down]
  | _ => simp only [pop_frame_defined, StackType.count_down]

theorem frame_above_ok_congr {st st1 : MatchState} (h : same_but_counts st st1) (j : Nat) :
    frame_above_ok st1 j = frame_above_ok st j := by
  unfold frame_above_ok
  obtain ⟨n, hn⟩ := h.2.2 j
  rw [hn]
  cases STACK_AT st j with
  | none => rfl
  | some fr =>
    simp only [Option.map_some']
    rw [count_down_type, pop_frame_defined_congr h]

theorem refers_to_congr {st st1 : MatchState} (h : same_but_counts st st1) (j : Nat)
    (si : Int) : refers_to st1 j si = refers_to st j si := by
  unfold refers_to
  obtain ⟨n, hn⟩ := h.2.2 j
  rw [hn]
  cases hfr : STACK_AT st j with
  | none => rfl
  | some fr =>
    obtain ⟨t, u⟩ := fr
    cases u <;> rfl

theorem pop_decrements_congr {st st1 : MatchState} (h : same_but_counts st st1)
    (lvl base : Nat) (si : Int) (k : Nat) :
    pop_decrements lvl st1 base si k = pop_decrements lvl st base si k := by
  induction k with
  | zero => rfl
  | succ k ih => simp only [pop_decrements, refers_to_congr h, ih]

theorem pop_decrements_low (lvl : Nat) (st : MatchState) (base : Nat) (si : Int) (k : Nat)
    (hk : k ≤ base + 1) : pop_decrements lvl st base si k = 0 := by
  induction k with
  | zero => rfl
  | succ k ih =>
    simp only [pop_decrements]
    rw [ih (by omega), if_neg (by omega)]

/-- One round of the loop of `STACK_POP` at a frame that does not end it. -/
theorem STACK_POP_loop_step (lvl k : Nat) (st : MatchState) (fr : StackType)
    (hfr : STACK_AT st k = some fr) (hno : fr.type &&& STK_MASK_POP_USED = 0) :
    STACK_POP_loop lvl (k + 1) st = (pop_step lvl st fr).bind (STACK_POP_loop lvl k) := by
  rw [STACK_POP_loop_succ, hfr]
  dsimp only
  rw [if_neg (by simp [hno])]
  unfold pop_step
  by_cases h1 : lvl = STACK_POP_LEVEL_FREE
  · rw [if_pos h1, if_pos h1]
    rfl
  · rw [if_neg h1, if_neg h1]
    by_cases h2 : lvl = STACK_POP_LEVEL_MEM_START
    · rw [if_pos h2, if_pos h2]
      by_cases h3 : fr.type = STK_MEM_START
      · rw [if_pos h3, if_pos h3]
      · rw [if_neg h3, if_neg h3]
        rfl
    · rw [if_neg h2, if_neg h2]

theorem refers_to_of_type_ne (st : MatchState) (k : Nat) (fr : StackType) (j : Int)
    (hfr : STACK_AT st k = some fr) (ht : fr.type ≠ STK_REPEAT_INC) :
    refers_to st k j = false := by
  unfold refers_to
  rw [hfr]
  obtain ⟨t, u⟩ := fr
  cases u <;> simp
  exact fun h => absurd h ht

/-- The restoration of a group by a frame that the walk can pass. -/
theorem pop_restore_mem_defined (st : MatchState) (fr : StackType)
    (ht : fr.type = STK_MEM_START ∨ fr.type = STK_MEM_END)
    (hdef : pop_frame_defined st fr = true) :
    ∃ st1, pop_restore_mem st fr = some st1 ∧ st1.stack = st.stack ∧
      st1.mem_start_stk.length = st.mem_start_stk.length ∧
      st1.mem_end_stk.length = st.mem_end_stk.length := by
  obtain ⟨t, u⟩ := fr
  unfold pop_frame_defined at hdef
  rw [if_pos ht] at hdef
  cases u with
  | mem num a b c =>
    simp only [decide_eq_true_eq] at hdef
    obtain ⟨d1, d2, d3⟩ := hdef
    unfold pop_restore_mem
    simp only
    rw [setI_of_bounds _ _ _ d1 d2, setI_of_bounds _ _ _ d1 d3]
    exact ⟨_, rfl, rfl, List.length_set _ _ _, List.length_set _ _ _⟩
  | _ => cases hdef

/-- The decrement by a `STK_REPEAT_INC` frame that the walk can pass. -/
theorem pop_repeat_dec_defined (st : MatchState) (k : Nat) (fr : StackType)
    (hfr : STACK_AT st k = some fr)
    (ht : fr.type = STK_REPEAT_INC) (hdef : pop_frame_defined st fr = true) :
    ∃ st1, pop_repeat_dec st fr = some st1 ∧
      st1.mem_start_stk.length = st.mem_start_stk.length ∧
      st1.mem_end_stk.length = st.mem_end_stk.length ∧
      ∀ j : Int, STACK_AT st1 j = (STACK_AT st j).map (fun f => f.count_down
        ((if refers_to st k j = true then 1 else 0 : Nat) : Int)) := by
  obtain ⟨t, u⟩ := fr
  have ht1 : t = STK_REPEAT_INC := ht
  subst ht1
  unfold pop_frame_defined at hdef
  have hne : ¬ (STK_REPEAT_INC = STK_MEM_START ∨ STK_REPEAT_INC = STK_MEM_END) := by decide
  rw [if_neg hne, if_pos rfl] at hdef
  cases u with
  | repeat_inc si =>
    simp only at hdef
    cases hsi : STACK_AT st si with
    | none => rw [hsi] at hdef; cases hdef
    | some f =>
      obtain ⟨t2, u2⟩ := f
      cases u2 with
      | repeat_ c pcode num =>
        have hb : 0 ≤ si ∧ si.toNat < st.stack.length := by
          unfold STACK_AT getI at hsi
          by_cases h0 : 0 ≤ si
          · rw [if_pos h0] at hsi
            exact ⟨h0, lt_length_of_join_get? hsi⟩
          · rw [if_neg h0] at hsi
            cases hsi
        unfold pop_repeat_dec
        simp only
        rw [hsi]
        simp only
        rw [setI_of_bounds _ _ _ hb.1 hb.2]
        refine ⟨_, rfl, rfl, rfl, ?_⟩
        intro j
        have hr : refers_to st k j = decide (si = j) := by
          unfold refers_to
          rw [hfr]
          simp
        rw [hr]
        by_cases hj : si = j
        · subst hj
          rw [decide_eq_true rfl, if_pos rfl, hsi]
          have e : si = ((si.toNat : Nat) : Int) := (Int.toNat_of_nonneg hb.1).symm
          rw [e]
          rw [STACK_AT_set_eq si.toNat _ rfl hb.2]
          simp [StackType.count_down]
        · rw [decide_eq_false hj, if_neg (by simp)]
          rw [STACK_AT_set_ne si.toNat _ j rfl (by omega)]
          exact (map_count_down_zero _).symm
      | _ => rw [hsi] at hdef; cases hdef
  | _ => cases hdef

/-- What the walk of `STACK_POP` does with a frame that it can pass: the
frames stay but for the count that a `STK_REPEAT_INC` frame takes down. -/
theorem pop_step_spec (lvl : Nat) (st : MatchState) (k : Nat) (fr : StackType)
    (hfr : STACK_AT st k = some fr) (hdef : pop_frame_defined st fr = true) :
    ∃ st1, pop_step lvl st fr = some st1 ∧
      st1.mem_start_stk.length = st.mem_start_stk.length ∧
      st1.mem_end_stk.length = st.mem_end_stk.length ∧
      ∀ j : Int, STACK_AT st1 j = (STACK_AT st j).map (fun f => f.count_down
        ((if lvl ≠ STACK_POP_LEVEL_FREE ∧ lvl ≠ STACK_POP_LEVEL_MEM_START ∧
            refers_to st k j = true then 1 else 0 : Nat) : Int)) := by
  have same : ∀ st1 : MatchState, st1.stack = st.stack →
      (lvl ≠ STACK_POP_LEVEL_FREE → lvl ≠ STACK_POP_LEVEL_MEM_START →
        fr.type ≠ STK_REPEAT_INC) →
      ∀ j : Int, STACK_AT st1 j = (STACK_AT st j).map (fun f => f.count_down
        ((if lvl ≠ STACK_POP_LEVEL_FREE ∧ lvl ≠ STACK_POP_LEVEL_MEM_START ∧
            refers_to st k j = true then 1 else 0 : Nat) : Int)) := by
    intro st1 hs hty j
    rw [STACK_AT_congr hs, if_neg, Nat.cast_zero, map_count_down_zero]
    rintro ⟨a1, a2, a3⟩
    rw [refers_to_of_type_ne st k fr j hfr (hty a1 a2)] at a3
    cases a3
  unfold pop_step
  by_cases h1 : lvl = STACK_POP_LEVEL_FREE
  · rw [if_pos h1]
    exact ⟨st, rfl, rfl, rfl, same st rfl (fun a _ => absurd h1 a)⟩
  · rw [if_neg h1]
    by_cases h2 : lvl = STACK_POP_LEVEL_MEM_START
    · rw [if_pos h2]
      by_cases h3 : fr.type = STK_MEM_START
      · rw [if_pos h3]
        obtain ⟨st1, e1, e2, e3, e4⟩ := pop_restore_mem_defined st fr (Or.inl h3) hdef
        exact ⟨st1, e1, e3, e4, same st1 e2 (fun _ a => absurd h2 a)⟩
      · rw [if_neg h3]
        exact ⟨st, rfl, rfl, rfl, same st rfl (fun _ a => absurd h2 a)⟩
    · rw [if_neg h2]
      unfold pop_restore_all
      by_cases h3 : fr.type = STK_MEM_START
      · rw [if_pos h3]
        obtain ⟨st1, e1, e2, e3, e4⟩ := pop_restore_mem_defined st fr (Or.inl h3) hdef
        refine ⟨st1, e1, e3, e4, same st1 e2 (fun _ _ => ?_)⟩
        rw [h3]
        decide
      · rw [if_neg h3]
        by_cases h4 : fr.type = STK_REPEAT_INC
        · rw [if_pos h4]
          obtain ⟨st1, e1, e3, e4, e5⟩ := pop_repeat_dec_defined st k fr hfr h4 hdef
          refine ⟨st1, e1, e3, e4, ?_⟩
          intro j
          rw [e5 j]
          by_cases hr : refers_to st k j = true
          · rw [if_pos hr, if_pos ⟨h1, h2, hr⟩]
          · rw [if_neg hr, if_neg (fun a => hr a.2.2)]
        · rw [if_neg h4]
          by_cases h5 : fr.type = STK_MEM_END
          · rw [if_pos h5]
            obtain ⟨st1, e1, e2, e3, e4⟩ := pop_restore_mem_defined st fr (Or.inr h5) hdef
            exact ⟨st1, e1, e3, e4, same st1 e2 (fun _ _ => h4)⟩
          · rw [if_neg h5]
            exact ⟨st, rfl, rfl, rfl, same st rfl (fun _ _ => h4)⟩

theorem frame_above_ok_inv {st : MatchState} {j : Nat} (h : frame_above_ok st j = true) :
    ∃ fr, STACK_AT st j = some fr ∧ fr.type &&& STK_MASK_POP_USED = 0 ∧
      pop_frame_defined st fr = true := by
  unfold frame_above_ok at h
  cases hfr : STACK_AT st j with
  | none => rw [hfr] at h; cases h
  | some fr =>
    rw [hfr] at h
    simp only [Bool.and_eq_true, decide_eq_true_eq] at h
    exact ⟨fr, rfl, h.1, h.2⟩

/-- The walk of `STACK_POP` from above an `ALT*` frame at the slot `base`,
over `m` frames that are no `ALT*` frames and that it can pass: it ends at
`base`, and the frames are those it found but for the counts that the
`STK_REPEAT_INC` frames on its way took down. -/
theorem STACK_POP_loop_walk (lvl base : Nat) :
    ∀ (m : Nat) (st : MatchState),
      (∃ fr0, STACK_AT st base = some fr0 ∧ fr0.type &&& STK_MASK_POP_USED ≠ 0) →
      (∀ j : Nat, j < base + 1 + m → base < j → frame_above_ok st j = true) →
      ∃ st3, STACK_POP_loop lvl (base + 1 + m) st = some st3 ∧ st3.stk = base ∧
        ∀ j : Int, STACK_AT st3 j = (STACK_AT st j).map (fun f => f.count_down
          ((pop_decrements lvl st base j (base + 1 + m) : Nat) : Int)) := by
  intro m
  induction m with
  | zero =>
    intro st ⟨fr0, h0, h1⟩ _
    refine ⟨{ st with stk := base }, STACK_POP_loop_alt lvl base st fr0 h0 h1, rfl, ?_⟩
    intro j
    rw [pop_decrements_low lvl st base j (base + 1 + 0) (by omega), Nat.cast_zero,
      map_count_down_zero]
    rfl
  | succ m ih =>
    intro st ⟨fr0, h0, h1⟩ hab
    obtain ⟨fr, f1, f2, f3⟩ := frame_above_ok_inv (hab (base + 1 + m) (by omega) (by omega))
    obtain ⟨st1, e1, e2, e3, e4⟩ := pop_step_spec lvl st (base + 1 + m) fr f1 f3
    have hsame : same_but_counts st st1 := ⟨e2, e3, fun j => ⟨_, e4 j⟩⟩
    have hb : ∃ fr1, STACK_AT st1 base = some fr1 ∧ fr1.type &&& STK_MASK_POP_USED ≠ 0 := by
      have e5 := e4 base
      rw [h0] at e5
      exact ⟨_, e5, by rw [count_down_type]; exact h1⟩
    obtain ⟨st3, g1, g2, g3⟩ := ih st1 hb (fun j hj1 hj2 => by
      rw [frame_above_ok_congr hsame]
      exact hab j (by omega) hj2)
    refine ⟨st3, ?_, g2, ?_⟩
    · show STACK_POP_loop lvl (base + 1 + m + 1) st = some st3
      rw [STACK_POP_loop_step lvl _ st fr f1 f2, e1]
      exact g1
    · intro j
      rw [g3 j, e4 j, map_count_down_add, pop_decrements_congr hsame]
      have hlt : base < base + 1 + m := by omega
      have e6 : pop_decrements lvl st base j (base + 1 + (m + 1)) =
          (if lvl ≠ STACK_POP_LEVEL_FREE ∧ lvl ≠ STACK_POP_LEVEL_MEM_START ∧
              refers_to st (base + 1 + m) j = true then 1 else 0) +
            pop_decrements lvl st base j (base + 1 + m) := by
        show pop_decrements lvl st base j (base + 1 + m + 1) = _
        simp only [pop_decrements, hlt, true_and]
      rw [e6, Nat.cast_add]

/-- C19, a counterexample: in the program `OP_PUSH +2; OP_POP; OP_FAIL; OP_END`
the `OP_PUSH` pushes the frame of the alternative (the `OP_END` at offset 7)
into the slot 1, the `OP_POP` takes it off, and no frame is pushed between
the `OP_PUSH` and the failure; the failure does not resume at the
alternative: after the three rounds the code pointer is `FinishCode`, the
stack is at its base and `onig_match` returns `ONIG_MISMATCH`. -/
theorem C19_counterexample :
    locals_after (plain_regex ONIG_ENCODING_ASCII prog_push_pop_fail 0 0 0 0 0 0)
      subject_abc 1000 1 = some (5, 1000, 0, 2) ∧
    STACK_AT (state_after (plain_regex ONIG_ENCODING_ASCII prog_push_pop_fail 0 0 0 0 0 0)
      subject_abc 1000 1) 1 = some ⟨STK_ALT, .state 7 1000 0⟩ ∧
    locals_after (plain_regex ONIG_ENCODING_ASCII prog_push_pop_fail 0 0 0 0 0 0)
      subject_abc 1000 2 = some (6, 1000, 0, 1) ∧
    (locals_after (plain_regex ONIG_ENCODING_ASCII prog_push_pop_fail 0 0 0 0 0 0)
      subject_abc 1000 3).map (fun l => (l.1, l.2.2.2)) = some (FinishCode, 0) ∧
    observe 1 (onig_match 0 100 (plain_regex ONIG_ENCODING_ASCII prog_push_pop_fail 0 0 0 0 0 0)
      subject_abc 1000 (.onig onig_region_init) 0) = some (ONIG_MISMATCH, [(-1, -1)]) := by
  decide!

/-- C19 as amended: after `OP_PUSH(addr)` in the locals `st` (the stack not
above its end, the doubled capacity below `2 ^ 32`), a failure in locals
`st2` in which the frame of the `OP_PUSH` is still in its slot `st.stk` (an
`OP_POP` or the end of an atomic group or of a look-around in between would
have taken it off or made it void) and every frame above it is no `ALT*`
frame and one that the walk of `STACK_POP` can pass: the code at `fail` goes
on, with the code pointer after the operand plus `addr`, with the `s` and
`sprev` of the `OP_PUSH` and with `stk` as before the `OP_PUSH`; every frame
is as it was at the failure, but that the count of a frame with the member
`repeat` is lower by the number of `STK_REPEAT_INC` frames referring to it
that the walk passed in the default arm; so a frame below the `OP_PUSH` that
was not rewritten since and whose count is not taken down is as it was before
the `OP_PUSH`.  In the program of `(?:(a)b|ac)` on `ac` the frames of group 1
lie above the frame of the `OP_PUSH` when `b` fails, and the run goes on at
the alternative, at offset 20, with `s = str`.  The program of `(a|ab)c`
matches `abc` with the region `(0,3)`, `(0,2)`. -/
theorem C19_push_then_fail (ctx : Ctx) (st st1 st2 : MatchState)
    (hwf : st.stk ≤ st.stk_end) (h32 : st.stk_end * 2 < 4294967296)
    (h : op_PUSH ctx st = .ok () st1)
    (hstk : st.stk < st2.stk)
    (hfr : STACK_AT st2 st.stk = STACK_AT st1 st.stk)
    (habove : ∀ j : Nat, j < st2.stk → st.stk < j → frame_above_ok st2 j = true) :
    (∃ v st3, operand_at ctx.reg st.p SIZE_RELADDR.toNat = some v ∧
      op_FAIL ctx st2 = .ok () st3 ∧
      st3.p = st.p + SIZE_RELADDR.toNat + to_signed 32 v ∧ st3.s = st.s ∧
      st3.sprev = st.sprev ∧ st3.stk = st.stk ∧
      (∀ j : Int, STACK_AT st3 j = (STACK_AT st2 j).map (fun fr => fr.count_down
        ((pop_decrements ctx.reg.stack_pop_level st2 st.stk j st2.stk : Nat) : Int))) ∧
      (∀ i : Int, i < st.stk → STACK_AT st2 i = STACK_AT st i →
        pop_decrements ctx.reg.stack_pop_level st2 st.stk i st2.stk = 0 →
        STACK_AT st3 i = STACK_AT st i)) ∧
    locals_after regex_alt_group subject_ac 1000 1 = some (5, 1000, 0, 2) ∧
    locals_after regex_alt_group subject_ac 1000 4 = some (13, 1001, 1000, 4) ∧
    locals_after regex_alt_group subject_ac 1000 5 = some (20, 1000, 0, 1) ∧
    observe 2 (onig_match 0 100 regex_alt_group subject_ac 1000 (.onig onig_region_init) 0) =
      some (2, [(0, 2), (-1, -1)]) ∧
    observe 2 (onig_match 0 100 (plain_regex ONIG_ENCODING_ASCII prog_alt_c 1 0 0 0 0 0)
      subject_abc 1000 (.onig onig_region_init) 0) = some (3, [(0, 3), (0, 2)]) := by
  refine ⟨?_, by decide!, by decide!, by decide!, by decide!, by decide!⟩
  unfold op_PUSH at h
  obtain ⟨addr, sta, h1, h2⟩ := bind_ok_inv h
  unfold GET_RELADDR_INC at h1
  obtain ⟨v, stb, h3, h4⟩ := bind_ok_inv h1
  obtain ⟨hv, hstb⟩ := GET_OPERAND_INC_ok_inv h3
  cases h4
  subst hstb
  simp only [run_bind, run_getS] at h2
  unfold STACK_PUSH_ALT at h2
  obtain ⟨e1, e2, e3, e4, e5, e6⟩ :=
    @STACK_PUSH_ok_inv ctx STK_ALT _ _ _ { st with p := st.p + SIZE_RELADDR.toNat } st1 hwf h32 h2
  have hm : st2.stk = st.stk + 1 + (st2.stk - (st.stk + 1)) := by omega
  have hfr2 : STACK_AT st2 st.stk = some ⟨STK_ALT,
      .state (st.p + SIZE_RELADDR.toNat + to_signed 32 v) st.s st.sprev⟩ := by
    rw [hfr]
    exact e5
  have halt : STK_ALT &&& STK_MASK_POP_USED ≠ 0 := by decide
  obtain ⟨stw, w1, w2, w3⟩ := STACK_POP_loop_walk ctx.reg.stack_pop_level st.stk
    (st2.stk - (st.stk + 1)) st2 ⟨_, hfr2, halt⟩
    (fun j hj1 hj2 => habove j (by omega) hj2)
  rw [← hm] at w1 w3
  have hpop : STACK_POP ctx.reg.stack_pop_level st2 = .ok () stw := by
    unfold STACK_POP
    rw [w1]
  have htop : STACK_AT stw stw.stk = some ⟨STK_ALT,
      .state (st.p + SIZE_RELADDR.toNat + to_signed 32 v) st.s st.sprev⟩ := by
    rw [w2, w3, hfr2]
    rfl
  have hfail : op_FAIL ctx st2 = .ok ()
      { stw with p := st.p + SIZE_RELADDR.toNat + to_signed 32 v, s := st.s,
                 sprev := st.sprev } := by
    unfold op_FAIL
    rw [run_bind_ok hpop]
    simp only [run_bind, run_getS]
    rw [htop]
    simp only [run_liftO_some, run_modS]
  refine ⟨v, _, hv, hfail, rfl, rfl, rfl, w2, w3, ?_⟩
  intro i hi hsame hz
  have e7 := w3 i
  rw [hz, Nat.cast_zero, map_count_down_zero, hsame] at e7
  exact e7

theorem C19_push_then_fail_witness :
    ∃ v st3, operand_at (ctx_at regex_alt_group subject_ac 1000).reg alt_group_at_push.p
        SIZE_RELADDR.toNat = some v ∧
      op_FAIL (ctx_at regex_alt_group subject_ac 1000) alt_group_at_fail = .ok () st3 ∧
      st3.p = alt_group_at_push.p + SIZE_RELADDR.toNat + to_signed 32 v ∧
      st3.s = alt_group_at_push.s ∧ st3.sprev = alt_group_at_push.sprev ∧
      st3.stk = alt_group_at_push.stk ∧
      (∀ j : Int, STACK_AT st3 j = (STACK_AT alt_group_at_fail j).map (fun fr =>
        fr.count_down
          ((pop_decrements (ctx_at regex_alt_group subject_ac 1000).reg.stack_pop_level
            alt_group_at_fail alt_group_at_push.stk j alt_group_at_fail.stk : Nat) : Int))) ∧
      (∀ i : Int, i < alt_group_at_push.stk →
        STACK_AT alt_group_at_fail i = STACK_AT alt_group_at_push i →
        pop_decrements (ctx_at regex_alt_group subject_ac 1000).reg.stack_pop_level
          alt_group_at_fail alt_group_at_push.stk i alt_group_at_fail.stk = 0 →
        STACK_AT st3 i = STACK_AT alt_group_at_push i) :=
  (C19_push_then_fail (ctx_at regex_alt_group subject_ac 1000) alt_group_at_push
    (op_PUSH (ctx_at regex_alt_group subject_ac 1000) alt_group_at_push).state
    alt_group_at_fail (by decide!) (by decide!)
    (Res.eq_ok_unit _ (by decide!)) (by decide!) (by decide!) (by decide!)).1


end Onig
